import Mathlib

/-!
Cluster self-check engine (ydb/core/health_check/health_check.cpp)

A shallow embedding of the evaluator, the issue merger and the responder of
`TSelfCheckRequest`, followed by the theorems settled about them.

Conventions of the embedding
* protobuf messages are structures whose fields carry the protobuf default
  (empty string, zero, empty list); presence of an `optional` field that the
  code tests with `Has...()` is an `Option`;
* `TList`, `TVector`, `TStackVec` and repeated fields are `List`s;
* a context object that the C++ code mutates in place is passed and returned;
* C++ `int` and `ui32` counters are `Nat` (the counted lists are far shorter
  than 2^31);
* `TString` is `String`; `operator<` on `TString` compares bytes, which for
  UTF-8 text is the order of the code points, so it is the lexicographic
  order of `String.data`.
-/

namespace NHealthCheck

/-! ## Definitions -/

/-- Ydb::Monitoring::StatusFlag::Status. The constructors are listed in the
order of their numeric values 0 .. 6 (see `Status.toNat`). -/
inductive Status where
  | UNSPECIFIED
  | GREY
  | GREEN
  | BLUE
  | YELLOW
  | ORANGE
  | RED
  deriving DecidableEq, Repr

/-- The numeric value of the enumerator (what `static_cast<int>` yields). -/
def Status.toNat : Status → Nat
  | .UNSPECIFIED => 0
  | .GREY => 1
  | .GREEN => 2
  | .BLUE => 3
  | .YELLOW => 4
  | .ORANGE => 5
  | .RED => 6

/-- StatusFlag_Status_Name. -/
def Status.Name : Status → String
  | .UNSPECIFIED => "UNSPECIFIED"
  | .GREY => "GREY"
  | .GREEN => "GREEN"
  | .BLUE => "BLUE"
  | .YELLOW => "YELLOW"
  | .ORANGE => "ORANGE"
  | .RED => "RED"

/-- Ydb::Monitoring::SelfCheck::Result, the wire verdict. -/
inductive SelfCheck where
  | UNSPECIFIED
  | GOOD
  | DEGRADED
  | MAINTENANCE_REQUIRED
  | EMERGENCY
  deriving DecidableEq, Repr

/-- The numeric value of the verdict; it is the order
UNSPECIFIED < GOOD < DEGRADED < MAINTENANCE_REQUIRED < EMERGENCY. -/
def SelfCheck.toNat : SelfCheck → Nat
  | .UNSPECIFIED => 0
  | .GOOD => 1
  | .DEGRADED => 2
  | .MAINTENANCE_REQUIRED => 3
  | .EMERGENCY => 4

/-- MaxStatus (line 1269): `static_cast<Status>(std::max<int>(a, b))`. -/
def MaxStatus (a b : Status) : Status :=
  if a.toNat < b.toNat then b else a

/-- MinStatus (line 1273): `static_cast<Status>(std::min<int>(a, b))`. -/
def MinStatus (a b : Status) : Status :=
  if b.toNat < a.toNat then b else a

/-- ETags (line 101). -/
inductive ETags where
  | None
  | DBState
  | StorageState
  | PoolState
  | GroupState
  | VDiskState
  | PDiskState
  | NodeState
  | VDiskSpace
  | PDiskSpace
  | ComputeState
  | TabletState
  | SystemTabletState
  | OverloadState
  | SyncState
  deriving DecidableEq, Repr

/-! ### Ydb::Monitoring::Location and IssueLog -/

/-- Ydb::Monitoring::LocationNode. -/
structure LocationNode where
  id : Nat := 0
  host : String := ""
  port : Nat := 0
  deriving DecidableEq, Repr

/-- Ydb::Monitoring::LocationStoragePDisk. -/
structure LocationStoragePDisk where
  id : String := ""
  path : String := ""
  deriving DecidableEq, Repr

/-- Ydb::Monitoring::LocationStorageVDisk. -/
structure LocationStorageVDisk where
  id : List String := []
  pdisk : List LocationStoragePDisk := []
  deriving DecidableEq, Repr

/-- Ydb::Monitoring::LocationStorageGroup. -/
structure LocationStorageGroup where
  id : List String := []
  vdisk : LocationStorageVDisk := {}
  deriving DecidableEq, Repr

/-- Ydb::Monitoring::LocationStoragePool. -/
structure LocationStoragePool where
  name : String := ""
  group : LocationStorageGroup := {}
  deriving DecidableEq, Repr

/-- Ydb::Monitoring::LocationStorage. -/
structure LocationStorage where
  node : LocationNode := {}
  pool : LocationStoragePool := {}
  deriving DecidableEq, Repr

/-- Ydb::Monitoring::LocationComputePool. -/
structure LocationComputePool where
  name : String := ""
  deriving DecidableEq, Repr

/-- Ydb::Monitoring::LocationComputeTablet. -/
structure LocationComputeTablet where
  type : String := ""
  id : List String := []
  count : Nat := 0
  deriving DecidableEq, Repr

/-- Ydb::Monitoring::LocationCompute. -/
structure LocationCompute where
  node : LocationNode := {}
  pool : LocationComputePool := {}
  tablet : LocationComputeTablet := {}
  deriving DecidableEq, Repr

/-- Ydb::Monitoring::LocationDatabase. -/
structure LocationDatabase where
  name : String := ""
  deriving DecidableEq, Repr

/-- Ydb::Monitoring::Location. Presence bits of empty sub-messages are not
modelled: every read in the code goes through accessors that return the
default for an absent sub-message. -/
structure Location where
  storage : LocationStorage := {}
  compute : LocationCompute := {}
  database : LocationDatabase := {}
  node : LocationNode := {}
  peer : LocationNode := {}
  deriving DecidableEq, Repr

/-- Ydb::Monitoring::IssueLog. -/
structure IssueLog where
  id : String := ""
  status : Status := Status.UNSPECIFIED
  message : String := ""
  location : Location := {}
  reason : List String := []
  type : String := ""
  level : Nat := 0
  listed : Nat := 0
  count : Nat := 0
  deriving DecidableEq, Repr

/-- TSelfCheckResult::TIssueRecord (line 211). A record created by
`IssueRecords.emplace` is value-initialised, so its tag starts as `None`. -/
structure TIssueRecord where
  IssueLog : IssueLog := {}
  Tag : ETags := ETags.None
  deriving DecidableEq, Repr

/-- TSelfCheckResult (line 210); `Type_` is the member `Type`. -/
structure TSelfCheckResult where
  OverallStatus : Status := Status.GREY
  IssueRecords : List TIssueRecord := []
  Location : Location := {}
  Level : Nat := 1
  Type_ : String := ""
  deriving DecidableEq, Repr

/-! ### What the evaluator takes from outside the file -/

/-- Functions the evaluator calls whose code is outside
health_check.cpp, kept as parameters: every theorem holds whatever they
compute.
* `crc16 s` is `Sprintf("%04x", ::crc16(s))` of library/cpp/digest/old_crc
  (line 226);
* `AvailLess avail total percent` is the outcome of the floating-point test
  `(double)avail / total < 0.06` (0.09, 0.12) of FillPDiskStatus
  (lines 1565-1570), for `percent` 6, 9 and 12;
* `MapOrder keys` is the order in which `std::unordered_map<ETags, ...>`
  iterates (line 1804) when its keys were inserted in the order `keys`: the
  standard leaves it open, so it is some rearrangement of the keys;
* `PoolUsageGe usage percent` is the outcome of `poolStats.usage() >= 0.99`
  (0.95, 0.90) of Check (lines 1283-1295) on a double given by its bits;
* `LoadAbove load cores` is the outcome of `load() > cores()` of
  FillComputeNodeStatus (line 1419) on a double given by its bits;
* `UsageOver usage quota percent` is the outcome of
  `(float)usage / quota > 0.9` (0.85, 0.75) of FillStorage (lines 2199-2204);
* `UnknownQuota` and `UnknownUsage` are the values FillStorage reads from
  the members StorageQuota and StorageUsage of the local `unknownDatabase`
  of FillResult (line 2360), which nothing initialises (lines 206-207). -/
structure TExternal where
  crc16 : String → String
  AvailLess : Nat → Nat → Nat → Bool
  MapOrder : (keys : List ETags) → { l : List ETags // l.Perm keys }
  PoolUsageGe : Nat → Nat → Bool
  LoadAbove : Nat → Nat → Bool
  UsageOver : Nat → Nat → Nat → Bool
  UnknownQuota : Nat
  UnknownUsage : Nat

/-- `find` on a THashMap / std::unordered_map kept as a list of its entries:
the entry of the key, if any. -/
def THashMap.find {K V : Type} [DecidableEq K] : List (K × V) → K → Option V
  | [], _ => none
  | (k, v) :: rest, key => if k = key then some v else THashMap.find rest key

/-! ### Issue ids and the operations on a context -/

/-- TSelfCheckResult::IsErrorStatus (line 222). -/
def IsErrorStatus (status : Status) : Bool :=
  status != Status.GREEN

/-- TSelfCheckResult::GetIssueId (line 230). Numbers are streamed in decimal. -/
def GetIssueId (X : TExternal) (issueLog : IssueLog) : String :=
  let location := issueLog.location
  let id := issueLog.status.Name
  let id := if location.database.name ≠ "" then
      id ++ "-" ++ X.crc16 location.database.name else id
  let id := id ++ "-" ++ X.crc16 issueLog.message
  let id := if location.storage.node.id ≠ 0 then
      id ++ "-" ++ toString location.storage.node.id
    else
      let id := if location.storage.node.host ≠ "" then
          id ++ "-" ++ location.storage.node.host else id
      if location.storage.node.port ≠ 0 then
        id ++ "-" ++ toString location.storage.node.port else id
  let id := match location.storage.pool.group.vdisk.id with
    | v :: _ => id ++ "-" ++ v
    | [] =>
      match location.storage.pool.group.id with
      | g :: _ => id ++ "-" ++ g
      | [] =>
        if location.storage.pool.name ≠ "" then
          id ++ "-" ++ X.crc16 location.storage.pool.name else id
  let id := match location.storage.pool.group.vdisk.pdisk with
    | pd :: _ => if pd.id ≠ "" then id ++ "-" ++ pd.id else id
    | [] => id
  let id := if location.compute.node.id ≠ 0 then
      id ++ "-" ++ toString location.compute.node.id
    else
      let id := if location.compute.node.host ≠ "" then
          id ++ "-" ++ location.compute.node.host else id
      if location.compute.node.port ≠ 0 then
        id ++ "-" ++ toString location.compute.node.port else id
  let id := if location.compute.pool.name ≠ "" then
      id ++ "-" ++ location.compute.pool.name else id
  if location.compute.tablet.type ≠ "" then
    id ++ "-" ++ location.compute.tablet.type else id

/-- `operator<=` of TString: lexicographic on the characters. -/
def TStringLe (a b : String) : Bool :=
  decide (a.data ≤ b.data)

/-- Insertion of one string into a sorted list (used by `SortStrings`). -/
def InsertSorted (a : String) : List String → List String
  | [] => [a]
  | b :: l => if TStringLe a b then a :: b :: l else b :: InsertSorted a l

/-- `std::sort(reason.begin(), reason.end())` (line 298). The order on
strings is total, so the sorted sequence does not depend on the algorithm. -/
def SortStrings : List String → List String
  | [] => []
  | a :: l => InsertSorted a (SortStrings l)

/-- `reason.erase(std::unique(...), reason.end())` (line 299): of every run
of equal neighbours the first is kept. -/
def Unique : List String → List String
  | [] => []
  | [a] => [a]
  | a :: b :: l => if a = b then Unique (b :: l) else a :: Unique (b :: l)

/-- The ids collected by the loop of lines 288-297: one per record whose tag
is among `includeTags`, in the order of the records. -/
def CollectReason (records : List TIssueRecord) (includeTags : List ETags) : List String :=
  (records.filter (fun record => decide (record.Tag ∈ includeTags))).map
    (fun record => record.IssueLog.id)

/-- TSelfCheckResult::ReportStatus (line 281). The location is copied when
`Location.ByteSizeLong() > 0`; when it is 0 every field of `Location` has its
default, as the location of the new record has, so the record's location
equals `Location` in both cases. -/
def TSelfCheckResult.ReportStatus (X : TExternal) (c : TSelfCheckResult) (status : Status)
    (message : String) (setTag : ETags) (includeTags : List ETags) : TSelfCheckResult :=
  let c := { c with OverallStatus := MaxStatus c.OverallStatus status }
  if IsErrorStatus status then
    let reason := Unique (SortStrings (CollectReason c.IssueRecords includeTags))
    let issueLog : IssueLog := { status := status, message := message, location := c.Location }
    let issueLog := { issueLog with id := GetIssueId X issueLog }
    let issueLog := if c.Type_ ≠ "" then { issueLog with type := c.Type_ } else issueLog
    let issueLog := { issueLog with level := c.Level }
    let issueLog := { issueLog with reason := reason }
    let issueRecord : TIssueRecord := { IssueLog := issueLog }
    let issueRecord := if setTag ≠ ETags.None then { issueRecord with Tag := setTag }
      else issueRecord
    { c with IssueRecords := issueRecord :: c.IssueRecords }
  else c

/-- TSelfCheckResult::HasTags (line 323). -/
def TSelfCheckResult.HasTags (c : TSelfCheckResult) (tags : List ETags) : Bool :=
  c.IssueRecords.any (fun record => decide (record.Tag ∈ tags))

/-- TSelfCheckResult::FindMaxStatus (line 334). -/
def TSelfCheckResult.FindMaxStatus (c : TSelfCheckResult) (tags : List ETags) : Status :=
  c.IssueRecords.foldl
    (fun status record =>
      tags.foldl (fun status tag =>
        if record.Tag = tag then MaxStatus status record.IssueLog.status else status) status)
    Status.GREY

/-- TSelfCheckResult::ReportWithMaxChildStatus (line 346). -/
def TSelfCheckResult.ReportWithMaxChildStatus (X : TExternal) (c : TSelfCheckResult)
    (message : String) (setTag : ETags) (includeTags : List ETags) : TSelfCheckResult :=
  if c.HasTags includeTags then
    c.ReportStatus X (c.FindMaxStatus includeTags) message setTag includeTags
  else c

/-- TSelfCheckResult::InheritFrom (line 362): what the destructor of a child
context (line 388) does to its parent. -/
def TSelfCheckResult.InheritFrom (c lower : TSelfCheckResult) : TSelfCheckResult :=
  let c := if c.OverallStatus.toNat ≤ lower.OverallStatus.toNat then
      { c with OverallStatus := lower.OverallStatus } else c
  { c with IssueRecords := c.IssueRecords ++ lower.IssueRecords }

/-- The constructors of TSelfCheckContext (lines 373, 380): a fresh context
under `upper` with its location, one level deeper. The one-argument
constructor is `type = ""`. -/
def TSelfCheckContext (upper : TSelfCheckResult) (type : String) : TSelfCheckResult :=
  { Location := upper.Location, Level := upper.Level + 1, Type_ := type }

/-! ### The merged cluster model read by the storage evaluator -/

/-- NKikimrBlobStorage::TPDiskState::E, the enumerators FillPDiskStatus
switches over (lines 1528-1558). -/
inductive TPDiskState where
  | Initial
  | InitialFormatRead
  | InitialFormatReadError
  | InitialSysLogRead
  | InitialSysLogReadError
  | InitialSysLogParseError
  | InitialCommonLogRead
  | InitialCommonLogReadError
  | InitialCommonLogParseError
  | CommonLoggerInitError
  | Normal
  | OpenFileError
  | ChunkQuotaError
  | DeviceIoError
  | Reserved14
  | Reserved15
  | Reserved16
  | Missing
  | Timeout
  | NodeDisconnected
  | Unknown
  deriving DecidableEq, Repr

/-- NKikimrBlobStorage::TPDiskState::E_Name. -/
def TPDiskState.E_Name : TPDiskState → String
  | .Initial => "Initial"
  | .InitialFormatRead => "InitialFormatRead"
  | .InitialFormatReadError => "InitialFormatReadError"
  | .InitialSysLogRead => "InitialSysLogRead"
  | .InitialSysLogReadError => "InitialSysLogReadError"
  | .InitialSysLogParseError => "InitialSysLogParseError"
  | .InitialCommonLogRead => "InitialCommonLogRead"
  | .InitialCommonLogReadError => "InitialCommonLogReadError"
  | .InitialCommonLogParseError => "InitialCommonLogParseError"
  | .CommonLoggerInitError => "CommonLoggerInitError"
  | .Normal => "Normal"
  | .OpenFileError => "OpenFileError"
  | .ChunkQuotaError => "ChunkQuotaError"
  | .DeviceIoError => "DeviceIoError"
  | .Reserved14 => "Reserved14"
  | .Reserved15 => "Reserved15"
  | .Reserved16 => "Reserved16"
  | .Missing => "Missing"
  | .Timeout => "Timeout"
  | .NodeDisconnected => "NodeDisconnected"
  | .Unknown => "Unknown"

/-- NKikimrWhiteboard::EVDiskState, the enumerators FillVDiskStatus switches
over (lines 1639-1652). -/
inductive EVDiskState where
  | Initial
  | LocalRecoveryError
  | SyncGuidRecovery
  | SyncGuidRecoveryError
  | OK
  | PDiskError
  deriving DecidableEq, Repr

/-- NKikimrWhiteboard::EVDiskState_Name. -/
def EVDiskState.Name : EVDiskState → String
  | .Initial => "Initial"
  | .LocalRecoveryError => "LocalRecoveryError"
  | .SyncGuidRecovery => "SyncGuidRecovery"
  | .SyncGuidRecoveryError => "SyncGuidRecoveryError"
  | .OK => "OK"
  | .PDiskError => "PDiskError"

/-- NKikimrWhiteboard::EFlag: the four flags the code names (lines
1603-1610) and `Grey`, the value 0 of the enumeration, which the switches of
lines 1602 and 1669 leave to `default`. -/
inductive EFlag where
  | Grey
  | Green
  | Yellow
  | Orange
  | Red
  deriving DecidableEq, Repr

/-- NKikimrWhiteboard::EFlag_Name. -/
def EFlag.Name : EFlag → String
  | .Grey => "Grey"
  | .Green => "Green"
  | .Yellow => "Yellow"
  | .Orange => "Orange"
  | .Red => "Red"

/-- NKikimrBlobStorage::TVDiskID. -/
structure TVDiskID where
  groupid : Nat := 0
  groupgeneration : Nat := 0
  ring : Nat := 0
  domain : Nat := 0
  vdisk : Nat := 0
  deriving DecidableEq, Repr

/-- NKikimrWhiteboard::TVDiskStateInfo, the fields the evaluator reads.
`VDiskState` and `DiskSpace` are `none` when `HasVDiskState()` /
`HasDiskSpace()` is false; `GetReplicated()` of an absent field is false. -/
structure TVDiskStateInfo where
  vdiskid : TVDiskID := {}
  nodeid : Nat := 0
  pdiskid : Nat := 0
  VDiskState : Option EVDiskState := none
  Replicated : Bool := false
  DiskSpace : Option EFlag := none
  deriving DecidableEq, Repr

/-- NKikimrWhiteboard::TPDiskStateInfo, the fields the evaluator reads.
`State` is `none` when `HasState()` is false. -/
structure TPDiskStateInfo where
  nodeid : Nat := 0
  pdiskid : Nat := 0
  path : String := ""
  State : Option TPDiskState := none
  AvailableSize : Nat := 0
  TotalSize : Nat := 0
  deriving DecidableEq, Repr

/-- TEvInterconnect::TNodeInfo, the fields the evaluator reads. -/
structure TNodeInfo where
  NodeId : Nat := 0
  Host : String := ""
  Port : Nat := 0
  deriving DecidableEq, Repr

/-- NKikimrWhiteboard::TBSGroupStateInfo, the fields the evaluator reads and
the node id the handler of the response writes (line 1253). -/
structure TBSGroupStateInfo where
  groupid : Nat := 0
  groupgeneration : Nat := 0
  erasurespecies : String := ""
  vdiskids : List TVDiskID := []
  storagepoolname : String := ""
  nodeid : Nat := 0
  deriving DecidableEq, Repr

/-- TStoragePoolState (line 193); the hash sets are lists in iteration order. -/
structure TStoragePoolState where
  Kind : String := ""
  Groups : List Nat := []
  AuthenticGroups : List Nat := []
  deriving DecidableEq, Repr

/-- TNodeTabletState::ETabletState (line 133). -/
inductive ETabletState where
  | Good
  | Stopped
  | RestartsTooOften
  | Dead
  deriving DecidableEq, Repr

/-- TNodeTabletState::TNodeTabletStateCount (line 140). A tablet type
(NKikimrTabletBase::TTabletTypes::EType) is kept as its name, what
`EType_Name` returns. -/
structure TNodeTabletStateCount where
  Type_ : String := ""
  State : ETabletState := ETabletState.Good
  Leader : Bool := false
  Count : Nat := 1
  Identifiers : List String := []
  deriving DecidableEq, Repr

/-- TNodeTabletState (line 124), its member `Count`. -/
structure TNodeTabletState where
  Count : List TNodeTabletStateCount := []
  deriving DecidableEq, Repr

/-- TDatabaseState (line 199), the members the evaluator reads.
`ResourcePathId` is `none` for a path id that converts to false (the
default one). -/
structure TDatabaseState where
  ResourcePathId : Option (Nat × Nat) := none
  ComputeNodeIds : List Nat := []
  StoragePoolNames : List String := []
  MergedNodeTabletState : List (Nat × TNodeTabletState) := []
  StorageQuota : Nat := 0
  StorageUsage : Nat := 0
  deriving DecidableEq, Repr

/-- TTabletRequestsState::TTabletState (line 450). The tablet type is kept
as its name; `MaxResponseTime` is the TDuration in microseconds. -/
structure TTabletState where
  Type_ : String := "Unknown"
  Database : String := ""
  IsUnresponsive : Bool := false
  MaxResponseTime : Nat := 0
  deriving DecidableEq, Repr

/-- TTabletRequestsState::TRequestState (line 458); `StartTime` is the
TMonotonic in microseconds. -/
structure TRequestState where
  TabletId : Nat := 0
  Key : String := ""
  StartTime : Nat := 0
  deriving DecidableEq, Repr

/-- TTabletRequestsState (line 449). -/
structure TTabletRequestsState where
  TabletStates : List (Nat × TTabletState) := []
  RequestsInFlight : List (Nat × TRequestState) := []
  RequestId : Nat := 0
  deriving DecidableEq, Repr

/-- NKikimrWhiteboard::TSystemStateInfo::TPoolStats; `usage` is the double
given by its bits. -/
structure TPoolStats where
  name : String := ""
  usage : Nat := 0
  deriving DecidableEq, Repr

/-- NKikimrWhiteboard::TSystemStateInfo, the fields the evaluator reads;
`loadaverage` lists doubles given by their bits, `clockskewpeerid` is
`none` when `has_clockskewpeerid()` is false. -/
structure TSystemStateInfo where
  nodeid : Nat := 0
  poolstats : List TPoolStats := []
  loadaverage : List Nat := []
  numberofcpus : Nat := 0
  clockskewpeerid : Option Nat := none
  clockskewmicrosec : Int := 0
  deriving DecidableEq, Repr

/-- Ydb::Monitoring::SelfCheckRequest, the fields the responder reads. -/
structure TEvSelfCheckRequest where
  return_verbose_status : Bool := false
  minimum_status : Status := Status.UNSPECIFIED
  maximum_level : Nat := 0
  deriving DecidableEq, Repr

/-- The members of TSelfCheckRequest (lines 393-491) the evaluator and the
responder read, as they are when the reply is assembled. Hash maps and sets
are lists of their entries in iteration order; a map from a key to a pointer
holds the pointed-to message. -/
structure TSelfCheckRequest where
  Request : TEvSelfCheckRequest := {}
  FilterDatabase : String := ""
  FilterDomainKey : List ((Nat × Nat) × String) := []
  DomainPath : String := ""
  NodeIds : List Nat := []
  DatabaseState : List (String × TDatabaseState) := []
  MergedNodeInfo : List (Nat × TNodeInfo) := []
  MergedNodeSystemState : List (Nat × TSystemStateInfo) := []
  UsedClockSkewNodes : List Nat := []
  MergedVDiskState : List (String × TVDiskStateInfo) := []
  MergedPDiskState : List (String × TPDiskStateInfo) := []
  MergedBSGroupState : List (Nat × TBSGroupStateInfo) := []
  StoragePoolState : List (String × TStoragePoolState) := []
  StoragePoolSeen : List String := []
  UnavailableStorageNodes : List Nat := []
  TabletRequests : TTabletRequestsState := {}
  deriving DecidableEq, Repr

/-! ### The status tree of the response (storage part) -/

/-- Ydb::Monitoring::StoragePDiskStatus. -/
structure StoragePDiskStatus where
  id : String := ""
  overall : Status := Status.UNSPECIFIED
  deriving DecidableEq, Repr

/-- Ydb::Monitoring::StorageVDiskStatus. -/
structure StorageVDiskStatus where
  id : String := ""
  overall : Status := Status.UNSPECIFIED
  pdisk : Option StoragePDiskStatus := none
  deriving DecidableEq, Repr

/-- Ydb::Monitoring::StorageGroupStatus. -/
structure StorageGroupStatus where
  id : String := ""
  overall : Status := Status.UNSPECIFIED
  vdisks : List StorageVDiskStatus := []
  deriving DecidableEq, Repr

/-- Ydb::Monitoring::StoragePoolStatus. -/
structure StoragePoolStatus where
  id : String := ""
  overall : Status := Status.UNSPECIFIED
  groups : List StorageGroupStatus := []
  deriving DecidableEq, Repr

/-- Ydb::Monitoring::StorageStatus. -/
structure StorageStatus where
  overall : Status := Status.UNSPECIFIED
  pools : List StoragePoolStatus := []
  deriving DecidableEq, Repr

/-- Ydb::Monitoring::ComputeStatus, its field `overall` (the nodes and
tablets listed next to it are not read by the evaluator). -/
structure ComputeStatus where
  overall : Status := Status.UNSPECIFIED
  deriving DecidableEq, Repr

/-- Ydb::Monitoring::DatabaseStatus. -/
structure DatabaseStatus where
  name : String := ""
  overall : Status := Status.UNSPECIFIED
  storage : StorageStatus := {}
  compute : ComputeStatus := {}
  deriving DecidableEq, Repr

/-! ### PDisk and VDisk -/

/-- GetVDiskId (line 1472). -/
def GetVDiskId (protoVDiskId : TVDiskID) : String :=
  toString protoVDiskId.groupid ++ "-" ++ toString protoVDiskId.groupgeneration ++ "-" ++
    toString protoVDiskId.ring ++ "-" ++ toString protoVDiskId.domain ++ "-" ++
    toString protoVDiskId.vdisk

/-- GetPDiskId of a vdisk state (line 1498). -/
def GetPDiskId (vDiskInfo : TVDiskStateInfo) : String :=
  toString vDiskInfo.nodeid ++ "-" ++ toString vDiskInfo.pdiskid

/-- `context.ReportStatus(...)` of the pdisk state switch (lines 1527-1561). -/
def ReportPDiskState (X : TExternal) (context : TSelfCheckResult) (state : TPDiskState) :
    TSelfCheckResult :=
  match state with
  | .Normal => context.ReportStatus X Status.GREEN "" ETags.None []
  | .Initial | .InitialFormatRead | .InitialSysLogRead | .InitialCommonLogRead =>
    context.ReportStatus X Status.YELLOW ("PDisk state is " ++ state.E_Name) ETags.PDiskState []
  | .InitialFormatReadError | .InitialSysLogReadError | .InitialSysLogParseError
  | .InitialCommonLogReadError | .InitialCommonLogParseError | .CommonLoggerInitError
  | .OpenFileError | .ChunkQuotaError | .DeviceIoError | .Missing | .Timeout
  | .NodeDisconnected | .Unknown =>
    context.ReportStatus X Status.RED ("PDisk state is " ++ state.E_Name) ETags.PDiskState []
  | .Reserved14 | .Reserved15 | .Reserved16 =>
    context.ReportStatus X Status.RED "Unknown PDisk state" ETags.None []

/-- FillPDiskStatus (line 1514). `context` is the fresh child context the
caller builds; the caller inherits from the returned context. -/
def FillPDiskStatus (X : TExternal) (S : TSelfCheckRequest) (pDiskId : String)
    (pDiskInfo : TPDiskStateInfo) (storagePDiskStatus : StoragePDiskStatus)
    (context : TSelfCheckResult) : StoragePDiskStatus × TSelfCheckResult :=
  let context := { context with Location.database := {} }
  let pdisk := context.Location.storage.pool.group.vdisk.pdisk
  let context := { context with Location.storage.pool.name := "" }
  let context := { context with Location.storage.pool.group.id := [] }
  let context := { context with Location.storage.pool.group.vdisk.id := [] }
  let context := { context with Location.storage.pool.group.vdisk.pdisk :=
    { id := pDiskId, path := pDiskInfo.path } :: pdisk.tail }
  let storagePDiskStatus := { storagePDiskStatus with id := pDiskId }
  let context :=
    match pDiskInfo.State with
    | some state =>
      let context := ReportPDiskState X context state
      if pDiskInfo.AvailableSize ≠ 0 ∧ pDiskInfo.TotalSize ≠ 0 then
        if X.AvailLess pDiskInfo.AvailableSize pDiskInfo.TotalSize 6 then
          context.ReportStatus X Status.RED "Available size is less than 6%" ETags.PDiskSpace []
        else if X.AvailLess pDiskInfo.AvailableSize pDiskInfo.TotalSize 9 then
          context.ReportStatus X Status.ORANGE "Available size is less than 9%"
            ETags.PDiskSpace []
        else if X.AvailLess pDiskInfo.AvailableSize pDiskInfo.TotalSize 12 then
          context.ReportStatus X Status.YELLOW "Available size is less than 12%"
            ETags.PDiskSpace []
        else context
      else context
    | none =>
      let context :=
        if pDiskInfo.nodeid ∈ S.UnavailableStorageNodes then
          let nodeContext := TSelfCheckContext context "STORAGE_NODE"
          let nodeContext := { nodeContext with Location.storage.pool := {} }
          let nodeContext := { nodeContext with Location.storage.node.id := pDiskInfo.nodeid }
          let nodeContext :=
            match THashMap.find S.MergedNodeInfo pDiskInfo.nodeid with
            | some nodeInfo =>
              { nodeContext with
                Location.storage.node.host := nodeInfo.Host
                Location.storage.node.port := nodeInfo.Port }
            | none => nodeContext
          let nodeContext := nodeContext.ReportStatus X Status.RED
            "Storage node is not available" ETags.NodeState []
          context.InheritFrom nodeContext
        else context
      context.ReportStatus X Status.RED "PDisk is not available" ETags.PDiskState
        [ETags.NodeState]
  ({ storagePDiskStatus with overall := context.OverallStatus }, context)

/-- GetFlagFromWhiteboardFlag (line 1601). -/
def GetFlagFromWhiteboardFlag (flag : EFlag) : Status :=
  match flag with
  | .Green => Status.GREEN
  | .Yellow => Status.YELLOW
  | .Orange => Status.ORANGE
  | .Red => Status.RED
  | _ => Status.UNSPECIFIED

/-- The tail of FillVDiskStatus, lines 1661-1695, reached when the vdisk
state is OK. -/
def FillVDiskStatusReplicatedSpace (X : TExternal) (vDiskInfo : TVDiskStateInfo)
    (storageVDiskStatus : StorageVDiskStatus) (context : TSelfCheckResult) :
    StorageVDiskStatus × TSelfCheckResult :=
  if !vDiskInfo.Replicated then
    let context := { context with IssueRecords := [] }
    let context := context.ReportStatus X Status.BLUE "Replication in progress"
      ETags.VDiskState []
    ({ storageVDiskStatus with overall := context.OverallStatus }, context)
  else
    let context :=
      match vDiskInfo.DiskSpace with
      | some flag =>
        match flag with
        | .Green =>
          match context.IssueRecords with
          | [] => context.ReportStatus X Status.GREEN "" ETags.None []
          | first :: _ =>
            context.ReportStatus X first.IssueLog.status "VDisk is degraded" ETags.VDiskState
              [ETags.PDiskSpace]
        | .Red =>
          context.ReportStatus X (GetFlagFromWhiteboardFlag flag)
            ("DiskSpace is " ++ flag.Name) ETags.VDiskState [ETags.PDiskSpace]
        | _ =>
          context.ReportStatus X (GetFlagFromWhiteboardFlag flag)
            ("DiskSpace is " ++ flag.Name) ETags.VDiskSpace [ETags.PDiskSpace]
      | none => context
    ({ storageVDiskStatus with overall := context.OverallStatus }, context)

/-- The head of FillVDiskStatus, lines 1617-1627: the location, and the
pdisk of the vdisk in a child context. -/
def FillVDiskStatusPDisk (X : TExternal) (S : TSelfCheckRequest) (vDiskId : String)
    (vDiskInfo : TVDiskStateInfo) (storageVDiskStatus : StorageVDiskStatus)
    (context : TSelfCheckResult) : StorageVDiskStatus × TSelfCheckResult :=
  let ids := context.Location.storage.pool.group.vdisk.id
  let context := { context with Location.storage.pool.group.vdisk.id := vDiskId :: ids.tail }
  let context := { context with Location.storage.pool.group.id := [] }
  let storageVDiskStatus := { storageVDiskStatus with id := vDiskId }
  let pDiskId := GetPDiskId vDiskInfo
  match THashMap.find S.MergedPDiskState pDiskId with
  | some pDiskInfo =>
    let r := FillPDiskStatus X S pDiskId pDiskInfo (storageVDiskStatus.pdisk.getD {})
      (TSelfCheckContext context "PDISK")
    ({ storageVDiskStatus with pdisk := some r.1 }, context.InheritFrom r.2)
  | none => (storageVDiskStatus, context)

/-- The body of FillVDiskStatus from line 1629 on: the vdisk state, then
replication and disk space. -/
def FillVDiskStatusState (X : TExternal) (vDiskInfo : TVDiskStateInfo)
    (storageVDiskStatus : StorageVDiskStatus) (context : TSelfCheckResult) :
    StorageVDiskStatus × TSelfCheckResult :=
  match vDiskInfo.VDiskState with
  | none =>
    let context := context.ReportStatus X Status.RED "VDisk is not available"
      ETags.VDiskState [ETags.PDiskState]
    ({ storageVDiskStatus with overall := context.OverallStatus }, context)
  | some state =>
    match state with
    | .OK =>
      let context := context.ReportStatus X Status.GREEN "" ETags.None []
      FillVDiskStatusReplicatedSpace X vDiskInfo storageVDiskStatus context
    | .Initial | .SyncGuidRecovery =>
      let context := { context with IssueRecords := [] }
      let context := context.ReportStatus X Status.YELLOW ("VDisk state is " ++ state.Name)
        ETags.VDiskState []
      ({ storageVDiskStatus with overall := context.OverallStatus }, context)
    | .LocalRecoveryError | .SyncGuidRecoveryError | .PDiskError =>
      let context := context.ReportStatus X Status.RED ("VDisk state is " ++ state.Name)
        ETags.VDiskState [ETags.PDiskState]
      ({ storageVDiskStatus with overall := context.OverallStatus }, context)

/-- FillVDiskStatus (line 1616). `context` is the fresh child context the
caller builds; the caller inherits from the returned context. -/
def FillVDiskStatus (X : TExternal) (S : TSelfCheckRequest) (vDiskId : String)
    (vDiskInfo : TVDiskStateInfo) (storageVDiskStatus : StorageVDiskStatus)
    (context : TSelfCheckResult) : StorageVDiskStatus × TSelfCheckResult :=
  let r := FillVDiskStatusPDisk X S vDiskId vDiskInfo storageVDiskStatus context
  FillVDiskStatusState X vDiskInfo r.1 r.2

/-! ### Group -/

/-- The erasure species names (lines 1698-1700). -/
def NONE : String := "none"

/-- See `NONE`. -/
def BLOCK_4_2 : String := "block-4-2"

/-- See `NONE`. -/
def MIRROR_3_DC : String := "mirror-3-dc"

/-- IncrementFor (line 1704). -/
def IncrementFor : List (Nat × Nat) → Nat → List (Nat × Nat)
  | [], realm => [(realm, 1)]
  | p :: realms, realm =>
    if p.1 = realm then (p.1, p.2 + 1) :: realms else p :: IncrementFor realms realm

/-- The local variables of FillGroupStatus that its loop over the vdisks
updates (lines 2047-2049), with the context and the status message. -/
structure TGroupLoopState where
  context : TSelfCheckResult
  storageGroupStatus : StorageGroupStatus
  disksColors : Status → Nat := fun _ => 0
  failedRealms : List (Nat × Nat) := []
  failedDisks : Nat := 0

/-- The storage node written into the location of the group context for
one vdisk (lines 2053-2070); `itVDisk` is the entry of the vdisk in
MergedVDiskState, if any. -/
def FillGroupStatusNodeLocation (S : TSelfCheckRequest) (context : TSelfCheckResult)
    (itVDisk : Option TVDiskStateInfo) : TSelfCheckResult :=
  match itVDisk with
  | some vDiskInfo =>
    let context := { context with Location.storage.node.id := vDiskInfo.nodeid }
    match THashMap.find S.MergedNodeInfo vDiskInfo.nodeid with
    | some nodeInfo =>
      { context with
        Location.storage.node.host := nodeInfo.Host
        Location.storage.node.port := nodeInfo.Port }
    | none =>
      { context with
        Location.storage.node.host := ""
        Location.storage.node.port := 0 }
  | none =>
    let context := { context with Location.storage.node.id := 0 }
    { context with
      Location.storage.node.host := ""
      Location.storage.node.port := 0 }

/-- One iteration of the loop of FillGroupStatus (lines 2050-2084). -/
def FillGroupStatusVDisk (X : TExternal) (S : TSelfCheckRequest) (st : TGroupLoopState)
    (protoVDiskId : TVDiskID) : TGroupLoopState :=
  let vDiskId := GetVDiskId protoVDiskId
  let itVDisk := THashMap.find S.MergedVDiskState vDiskId
  let context := FillGroupStatusNodeLocation S st.context itVDisk
  let r := FillVDiskStatus X S vDiskId (itVDisk.getD {}) {} (TSelfCheckContext context "VDISK")
  let vDiskStatus := r.1
  let context := context.InheritFrom r.2
  let storageGroupStatus := { st.storageGroupStatus with
    vdisks := st.storageGroupStatus.vdisks ++ [vDiskStatus] }
  let disksColors := fun status =>
    if status = vDiskStatus.overall then st.disksColors status + 1 else st.disksColors status
  match vDiskStatus.overall with
  | .BLUE | .RED | .GREY =>
    { context := context, storageGroupStatus := storageGroupStatus, disksColors := disksColors,
      failedRealms := IncrementFor st.failedRealms protoVDiskId.ring,
      failedDisks := st.failedDisks + 1 }
  | _ =>
    { context := context, storageGroupStatus := storageGroupStatus, disksColors := disksColors,
      failedRealms := st.failedRealms, failedDisks := st.failedDisks }

/-- FillGroupStatus up to the end of its loop (lines 2042-2084). -/
def FillGroupStatusVDisks (X : TExternal) (S : TSelfCheckRequest) (groupId : Nat)
    (groupInfo : TBSGroupStateInfo) (storageGroupStatus : StorageGroupStatus)
    (context : TSelfCheckResult) : TGroupLoopState :=
  let ids := context.Location.storage.pool.group.id
  let context := { context with Location.storage.pool.group.id := toString groupId :: ids.tail }
  let storageGroupStatus := { storageGroupStatus with id := toString groupId }
  groupInfo.vdiskids.foldl (FillGroupStatusVDisk X S)
    { context := context, storageGroupStatus := storageGroupStatus }

/-- The erasure rule of FillGroupStatus (lines 2089-2123). -/
def FillGroupStatusRule (X : TExternal) (erasurespecies : String) (st : TGroupLoopState)
    (context : TSelfCheckResult) : TSelfCheckResult :=
  let failedDisks := st.failedDisks
  let disksColors := st.disksColors
  let failedRealms := st.failedRealms
  if erasurespecies = NONE then
    if failedDisks > 0 then
      context.ReportStatus X Status.RED "Group failed" ETags.GroupState [ETags.VDiskState]
    else if disksColors Status.YELLOW > 0 then
      context.ReportStatus X Status.YELLOW "Group degraded" ETags.GroupState [ETags.VDiskState]
    else context
  else if erasurespecies = BLOCK_4_2 then
    if failedDisks > 2 then
      context.ReportStatus X Status.RED "Group failed" ETags.GroupState [ETags.VDiskState]
    else if failedDisks > 1 then
      context.ReportStatus X Status.ORANGE "Group has no redundancy" ETags.GroupState
        [ETags.VDiskState]
    else if failedDisks > 0 then
      if disksColors Status.BLUE = failedDisks then
        context.ReportStatus X Status.BLUE "Group degraded" ETags.GroupState [ETags.VDiskState]
      else
        context.ReportStatus X Status.YELLOW "Group degraded" ETags.GroupState
          [ETags.VDiskState]
    else if disksColors Status.YELLOW > 0 then
      context.ReportStatus X Status.YELLOW "Group degraded" ETags.GroupState [ETags.VDiskState]
    else context
  else if erasurespecies = MIRROR_3_DC then
    if failedRealms.length > 2 ∨ (failedRealms.length = 2 ∧
        (failedRealms.map Prod.snd).getD 0 0 > 1 ∧ (failedRealms.map Prod.snd).getD 1 0 > 1) then
      context.ReportStatus X Status.RED "Group failed" ETags.GroupState [ETags.VDiskState]
    else if failedRealms.length = 2 then
      context.ReportStatus X Status.ORANGE "Group has no redundancy" ETags.GroupState
        [ETags.VDiskState]
    else if failedDisks > 0 then
      if disksColors Status.BLUE = failedDisks then
        context.ReportStatus X Status.BLUE "Group degraded" ETags.GroupState [ETags.VDiskState]
      else
        context.ReportStatus X Status.YELLOW "Group degraded" ETags.GroupState
          [ETags.VDiskState]
    else if disksColors Status.YELLOW > 0 then
      context.ReportStatus X Status.YELLOW "Group degraded" ETags.GroupState [ETags.VDiskState]
    else context
  else context

/-- FillGroupStatus (line 2041). `context` is the fresh child context the
caller builds; the caller inherits from the returned context. -/
def FillGroupStatus (X : TExternal) (S : TSelfCheckRequest) (groupId : Nat)
    (groupInfo : TBSGroupStateInfo) (storageGroupStatus : StorageGroupStatus)
    (context : TSelfCheckResult) : StorageGroupStatus × TSelfCheckResult :=
  let st := FillGroupStatusVDisks X S groupId groupInfo storageGroupStatus context
  let context := { st.context with Location.storage.node := {} }
  let context := { context with OverallStatus := MinStatus context.OverallStatus Status.YELLOW }
  let context := FillGroupStatusRule X groupInfo.erasurespecies st context
  ({ st.storageGroupStatus with overall := context.OverallStatus }, context)

/-! ### The issue merger -/

/-- MERGING_IGNORE_SIZE (line 1701). -/
def MERGING_IGNORE_SIZE : Nat := 4

/-- MERGER_ISSUE_LIMIT (line 1702). -/
def MERGER_ISSUE_LIMIT : Nat := 10

/-- `insert` on a std::unordered_set<TString> kept as a list of its elements. -/
def TSetInsert (set : List String) (x : String) : List String :=
  if x ∈ set then set else set ++ [x]

/-- `operator[]` assignment on the records map: the entry of an existing
key is replaced, a new key is added after the others. -/
def MapSet : List (ETags × List TIssueRecord) → ETags → List TIssueRecord →
    List (ETags × List TIssueRecord)
  | [], tag, records => [(tag, records)]
  | (k, v) :: rest, tag, records =>
    if k = tag then (k, records) :: rest else (k, v) :: MapSet rest tag records

/-- TMergeIssuesContext (line 1715), the two members. `recordsMap` lists the
entries in the order their keys were inserted. -/
structure TMergeIssuesContext where
  recordsMap : List (ETags × List TIssueRecord) := []
  removeIssuesIds : List String := []
  deriving DecidableEq, Repr

/-- TMergeIssuesContext::GetRecords (line 1811), the value read. -/
def TMergeIssuesContext.GetRecords (c : TMergeIssuesContext) (tag : ETags) :
    List TIssueRecord :=
  (THashMap.find c.recordsMap tag).getD []

/-- Writing through the reference `GetRecords(tag)` returns; `recordsMap[tag]`
also creates the entry when the key is new. -/
def TMergeIssuesContext.SetRecords (c : TMergeIssuesContext) (tag : ETags)
    (records : List TIssueRecord) : TMergeIssuesContext :=
  { c with recordsMap := MapSet c.recordsMap tag records }

/-- The constructor of TMergeIssuesContext (line 1719): every record is moved
to the end of the list of its tag; `records` is left empty. -/
def TMergeIssuesContext.ctor (records : List TIssueRecord) : TMergeIssuesContext :=
  records.foldl (fun c record => c.SetRecords record.Tag (c.GetRecords record.Tag ++ [record]))
    {}

/-- The test `isSimilar` of FindRecordsForMerge (lines 1820-1825) of a record
`it` against `first = *similar.begin()`. -/
def IsSimilar (first it : TIssueRecord) : Bool :=
  let isSimilar := decide (it.IssueLog.status = first.IssueLog.status)
    && decide (it.IssueLog.message = first.IssueLog.message)
    && decide (it.IssueLog.level = first.IssueLog.level)
  if isSimilar && decide (first.Tag = ETags.VDiskState) then
    decide (it.IssueLog.location.storage.node.id = first.IssueLog.location.storage.node.id)
  else isSimilar

/-- The while loop of FindRecordsForMerge (lines 1817-1837). An iteration
that starts takes the first record out of `records`, so `fuel` at least
`records.length` lets the loop end by its own condition. -/
def FindRecordsForMergeLoop : Nat → List TIssueRecord → List TIssueRecord → List TIssueRecord →
    List TIssueRecord × List TIssueRecord × List TIssueRecord
  | 0, records, similar, Mergeed => (records, similar, Mergeed)
  | fuel + 1, records, similar, Mergeed =>
    match records, similar with
    | first :: rest, [] =>
      let similar := first :: rest.filter (IsSimilar first)
      let records := rest.filter (fun it => !IsSimilar first it)
      if similar.length ≤ MERGING_IGNORE_SIZE then
        FindRecordsForMergeLoop fuel records [] (Mergeed ++ similar)
      else
        FindRecordsForMergeLoop fuel records similar Mergeed
    | _, _ => (records, similar, Mergeed)

/-- FindRecordsForMerge (line 1816): the returned flag and the three lists
as it leaves them. -/
def FindRecordsForMerge (records similar Mergeed : List TIssueRecord) :
    Bool × List TIssueRecord × List TIssueRecord × List TIssueRecord :=
  let r := FindRecordsForMergeLoop records.length records similar Mergeed
  (!r.2.1.isEmpty, r.1, r.2.1, r.2.2)

/-- FindChildrenRecords (line 1842): the children, and `records` without
them. -/
def FindChildrenRecords (records : List TIssueRecord) (parent : TIssueRecord) :
    List TIssueRecord × List TIssueRecord :=
  (records.filter (fun it => decide (it.IssueLog.id ∈ parent.IssueLog.reason)),
    records.filter (fun it => !decide (it.IssueLog.id ∈ parent.IssueLog.reason)))

/-- The state of the loop of MoveDataInFirstRecord: the first record, the
sets `ids` and `mainReasonIds`, the removed ids of the context, and the
records the loop steps over (`continue`, line 1873), which stay in `similar`. -/
structure TMoveState where
  main : TIssueRecord
  ids : List String
  mainReasonIds : List String
  removeIssuesIds : List String
  skipped : List TIssueRecord := []
  deriving DecidableEq, Repr

/-- The copy of the donor's location ids into the first record
(lines 1877-1898). -/
def MoveLocationIds (main donor : TIssueRecord) : TIssueRecord :=
  match main.Tag with
  | .GroupState =>
    { main with IssueLog.location.storage.pool.group.id :=
      main.IssueLog.location.storage.pool.group.id ++
        donor.IssueLog.location.storage.pool.group.id }
  | .VDiskState =>
    { main with IssueLog.location.storage.pool.group.vdisk.id :=
      main.IssueLog.location.storage.pool.group.vdisk.id ++
        donor.IssueLog.location.storage.pool.group.vdisk.id }
  | .PDiskState =>
    { main with IssueLog.location.storage.pool.group.vdisk.pdisk :=
      main.IssueLog.location.storage.pool.group.vdisk.pdisk ++
        donor.IssueLog.location.storage.pool.group.vdisk.pdisk }
  | _ => main

/-- The copy of the donor's reasons (lines 1900-1906) on the pair of the
first record and `mainReasonIds`. -/
def MoveReasons (main : TIssueRecord) (mainReasonIds : List String) (donorReasons : List String) :
    TIssueRecord × List String :=
  donorReasons.foldl
    (fun acc r =>
      if r ∈ acc.2 then acc
      else ({ acc.1 with IssueLog.reason := acc.1.IssueLog.reason ++ [r] }, acc.2 ++ [r]))
    (main, mainReasonIds)

/-- One iteration of the loop of MoveDataInFirstRecord (lines 1870-1910). -/
def MoveDataStep (st : TMoveState) (it : TIssueRecord) : TMoveState :=
  if it.IssueLog.id ∈ st.ids then
    { st with skipped := st.skipped ++ [it] }
  else
    let ids := st.ids ++ [it.IssueLog.id]
    let main := MoveLocationIds st.main it
    let r := MoveReasons main st.mainReasonIds it.IssueLog.reason
    { st with
      main := r.1, ids := ids, mainReasonIds := r.2,
      removeIssuesIds := TSetInsert st.removeIssuesIds it.IssueLog.id }

/-- MoveDataInFirstRecord (line 1861): the context and `similar` as it
leaves them. Its callers pass a list of more than MERGING_IGNORE_SIZE
records; on an empty list the C++ code dereferences `begin()`, which the
model answers with the unchanged arguments. -/
def MoveDataInFirstRecord (context : TMergeIssuesContext) (similar : List TIssueRecord) :
    TMergeIssuesContext × List TIssueRecord :=
  match similar with
  | [] => (context, [])
  | first :: rest =>
    let st := rest.foldl MoveDataStep
      { main := first, ids := [first.IssueLog.id], mainReasonIds := first.IssueLog.reason,
        removeIssuesIds := context.removeIssuesIds }
    let main := { st.main with IssueLog.count := st.ids.length }
    let main := { main with IssueLog.listed := st.ids.length }
    ({ context with removeIssuesIds := st.removeIssuesIds }, main :: st.skipped)

/-- The while loop of MergeLevelRecords (lines 1918-1924) on the context,
`records` and `handled`. Every iteration takes a record out of `records`,
so `fuel` at least `records.length` lets the loop end with `records` empty. -/
def MergeLevelRecordsLoop : Nat → TMergeIssuesContext → List TIssueRecord → List TIssueRecord →
    TMergeIssuesContext × List TIssueRecord × List TIssueRecord
  | 0, context, records, handled => (context, records, handled)
  | fuel + 1, context, records, handled =>
    if records.isEmpty then (context, records, handled)
    else
      let found := FindRecordsForMerge records [] handled
      if found.1 then
        let moved := MoveDataInFirstRecord context found.2.2.1
        MergeLevelRecordsLoop fuel moved.1 found.2.1 (found.2.2.2 ++ moved.2.take 1)
      else
        MergeLevelRecordsLoop fuel context found.2.1 found.2.2.2

/-- MergeLevelRecords on one list (line 1916). -/
def MergeLevelRecords (context : TMergeIssuesContext) (records : List TIssueRecord) :
    TMergeIssuesContext × List TIssueRecord :=
  let r := MergeLevelRecordsLoop records.length context records []
  (r.1, r.2.1 ++ r.2.2)

/-- MergeLevelRecords on one tag (line 1928). -/
def MergeLevelRecordsTag (context : TMergeIssuesContext) (levelTag : ETags) :
    TMergeIssuesContext :=
  let r := MergeLevelRecords context (context.GetRecords levelTag)
  r.1.SetRecords levelTag r.2

/-- MergeLevelRecords on the children of every record of the upper tag
(line 1933). -/
def MergeLevelRecordsUpper (context : TMergeIssuesContext) (levelTag upperTag : ETags) :
    TMergeIssuesContext :=
  let levelRecords := context.GetRecords levelTag
  let context := context.SetRecords levelTag levelRecords
  let upperRecords := context.GetRecords upperTag
  let context := context.SetRecords upperTag upperRecords
  let r := upperRecords.foldl
    (fun (acc : TMergeIssuesContext × List TIssueRecord) it =>
      let found := FindChildrenRecords acc.2 it
      let merged := if found.1.length > 1 then MergeLevelRecords acc.1 found.1
        else (acc.1, found.1)
      (merged.1, found.2 ++ merged.2))
    (context, levelRecords)
  r.1.SetRecords levelTag r.2

/-- The `int` a value of a `uint32` field converts to: the value, taken
modulo 2^32, when that is below 2^31, and 2^32 less than it otherwise. -/
def ToInt32 (n : Nat) : Int :=
  if n % 4294967296 < 2147483648 then ((n % 4294967296 : Nat) : Int)
  else ((n % 4294967296 : Nat) : Int) - 4294967296

/-- The value a `uint32` field takes when an `int` is stored in it. -/
def ToUInt32 (i : Int) : Nat :=
  (i % 4294967296).toNat

/-- The result of an `int` addition or subtraction whose exact result is
`i`: `i` itself when it is in the range of `int`. Outside the range C++
leaves the behaviour undefined; the model takes the two's complement
wrap. -/
def WrapInt32 (i : Int) : Int :=
  ToInt32 (ToUInt32 i)

/-- GetIssueCount (line 1946): the `uint32` field `count`, 0 read as 1,
returned as `int`. -/
def GetIssueCount (record : TIssueRecord) : Int :=
  ToInt32 (if record.IssueLog.count = 0 then 1 else record.IssueLog.count)

/-- SetIssueCount (line 1950): the `int` value is stored in the `uint32`
field `count`. -/
def SetIssueCount (record : TIssueRecord) (value : Int) : TIssueRecord :=
  let record := if record.IssueLog.listed = 0 then { record with IssueLog.listed := 1 }
    else record
  { record with IssueLog.count := ToUInt32 value }

/-- GetIssueListed (line 1957): the `uint32` field `listed`, 0 read as 1,
returned as `int`. -/
def GetIssueListed (record : TIssueRecord) : Int :=
  ToInt32 (if record.IssueLog.listed = 0 then 1 else record.IssueLog.listed)

/-- SetIssueListed (line 1961): the `int` value is stored in the `uint32`
field `listed`. -/
def SetIssueListed (record : TIssueRecord) (value : Int) : TIssueRecord :=
  let record := if record.IssueLog.count = 0 then { record with IssueLog.count := 1 }
    else record
  { record with IssueLog.listed := ToUInt32 value }

/-- `RemoveLast()` repeated `n` times on a repeated field (lines 1989-2008).
On an empty field RemoveLast is not defined; the model leaves it empty. -/
def RemoveLastN {A : Type} (l : List A) (n : Nat) : List A :=
  l.take (l.length - n)

/-- The cut of the location ids of a record above the limit
(lines 1986-2012): RemoveLast() as long as `aboveLimit > 0`, with
`aboveLimit` counted down. -/
def RemoveLocationIds (record : TIssueRecord) (aboveLimit : Int) : TIssueRecord :=
  match record.Tag with
  | .GroupState =>
    { record with IssueLog.location.storage.pool.group.id :=
      (RemoveLastN record.IssueLog.location.storage.pool.group.id aboveLimit.toNat) }
  | .VDiskState =>
    { record with IssueLog.location.storage.pool.group.vdisk.id :=
      (RemoveLastN record.IssueLog.location.storage.pool.group.vdisk.id aboveLimit.toNat) }
  | .PDiskState =>
    { record with IssueLog.location.storage.pool.group.vdisk.pdisk :=
      (RemoveLastN record.IssueLog.location.storage.pool.group.vdisk.pdisk aboveLimit.toNat) }
  | _ => record

/-- The state of the loop of RemoveRecordsAboveLimit: the records before
the iterator (those that stay), the `int` `commonListed`, and the removed
ids. -/
structure TLimitState where
  kept : List TIssueRecord := []
  commonListed : Int := 0
  removeIssuesIds : List String := []
  deriving DecidableEq, Repr

/-- `f` applied to the last element of a list (the record `it--` reaches,
line 1973). -/
def ModifyLast {A : Type} (f : A → A) : List A → List A
  | [] => []
  | [a] => [f a]
  | a :: l => a :: ModifyLast f l

/-- One iteration of the loop of RemoveRecordsAboveLimit (lines 1970-2017),
in `int` arithmetic. -/
def RemoveRecordsAboveLimitStep (st : TLimitState) (it : TIssueRecord) : TLimitState :=
  if st.commonListed = (MERGER_ISSUE_LIMIT : Int) then
    { st with
      kept := ModifyLast
        (fun prev => SetIssueCount prev (WrapInt32 (GetIssueCount prev + GetIssueCount it)))
        st.kept
      removeIssuesIds :=
        TSetInsert (it.IssueLog.reason.foldl TSetInsert st.removeIssuesIds) it.IssueLog.id }
  else if WrapInt32 (st.commonListed + GetIssueListed it) > (MERGER_ISSUE_LIMIT : Int) then
    let aboveLimit :=
      WrapInt32 (WrapInt32 (st.commonListed + GetIssueListed it) - (MERGER_ISSUE_LIMIT : Int))
    let it := SetIssueListed it (WrapInt32 (GetIssueListed it - aboveLimit))
    let it := RemoveLocationIds it aboveLimit
    { st with kept := st.kept ++ [it], commonListed := (MERGER_ISSUE_LIMIT : Int) }
  else
    { st with
      kept := st.kept ++ [it]
      commonListed := WrapInt32 (st.commonListed + GetIssueListed it) }

/-- RemoveRecordsAboveLimit on one list (line 1968). -/
def RemoveRecordsAboveLimit (context : TMergeIssuesContext) (records : List TIssueRecord) :
    TMergeIssuesContext × List TIssueRecord :=
  let st := records.foldl RemoveRecordsAboveLimitStep
    { removeIssuesIds := context.removeIssuesIds }
  ({ context with removeIssuesIds := st.removeIssuesIds }, st.kept)

/-- RemoveRecordsAboveLimit on one tag (line 2020). -/
def RemoveRecordsAboveLimitTag (context : TMergeIssuesContext) (levelTag : ETags) :
    TMergeIssuesContext :=
  let records := context.GetRecords levelTag
  let context := context.SetRecords levelTag records
  if records.length > 0 then
    let r := RemoveRecordsAboveLimit context records
    r.1.SetRecords levelTag r.2
  else context

/-- RemoveRecordsAboveLimit on the children of every record of the upper tag
(line 2027). -/
def RemoveRecordsAboveLimitUpper (context : TMergeIssuesContext) (levelTag upperTag : ETags) :
    TMergeIssuesContext :=
  let levelRecords := context.GetRecords levelTag
  let context := context.SetRecords levelTag levelRecords
  let upperRecords := context.GetRecords upperTag
  let context := context.SetRecords upperTag upperRecords
  let r := upperRecords.foldl
    (fun (acc : TMergeIssuesContext × List TIssueRecord × List TIssueRecord) it =>
      let found := FindChildrenRecords acc.2.1 it
      let cut := RemoveRecordsAboveLimit acc.1 found.1
      (cut.1, found.2, acc.2.2 ++ cut.2))
    (context, levelRecords, [])
  r.1.SetRecords levelTag (r.2.1 ++ r.2.2)

/-- The state of one sweep of RemoveUnlinkIssues (lines 1739-1750): the
records that stay, the removed ids, and `isRemovingIssuesIteration`. -/
structure TUnlinkState where
  kept : List TIssueRecord := []
  removeIssuesIds : List String := []
  isRemovingIssuesIteration : Bool := false
  deriving DecidableEq, Repr

/-- `necessaryIssuesIds` (lines 1731-1737): every id listed in a reason. -/
def NecessaryIssuesIds (records : List TIssueRecord) : List String :=
  records.foldl (fun ids it => it.IssueLog.reason.foldl TSetInsert ids) []

/-- One step of the sweep (lines 1740-1749). -/
def RemoveUnlinkStep (necessaryIssuesIds : List String) (st : TUnlinkState)
    (it : TIssueRecord) : TUnlinkState :=
  if it.IssueLog.id ∉ necessaryIssuesIds ∧ it.IssueLog.id ∈ st.removeIssuesIds then
    { st with
      removeIssuesIds := it.IssueLog.reason.foldl TSetInsert st.removeIssuesIds
      isRemovingIssuesIteration := true }
  else
    { st with kept := st.kept ++ [it] }

/-- The while loop of RemoveUnlinkIssues (lines 1728-1751). A sweep that
asks for another one has erased a record, so `fuel` above `records.length`
lets the loop end by its own condition. -/
def RemoveUnlinkLoop : Nat → List TIssueRecord → List String →
    List TIssueRecord × List String
  | 0, records, removeIssuesIds => (records, removeIssuesIds)
  | fuel + 1, records, removeIssuesIds =>
    let st := records.foldl (RemoveUnlinkStep (NecessaryIssuesIds records))
      { removeIssuesIds := removeIssuesIds }
    if st.isRemovingIssuesIteration then RemoveUnlinkLoop fuel st.kept st.removeIssuesIds
    else (st.kept, st.removeIssuesIds)

/-- The last block of RemoveUnlinkIssues (lines 1753-1769): of every reason
list the ids of records of the list are kept. -/
def FilterReasons (records : List TIssueRecord) : List TIssueRecord :=
  let issueIds := records.map (fun it => it.IssueLog.id)
  records.map (fun it =>
    { it with IssueLog.reason := it.IssueLog.reason.filter (fun r => decide (r ∈ issueIds)) })

/-- TMergeIssuesContext::RemoveUnlinkIssues (line 1726). -/
def TMergeIssuesContext.RemoveUnlinkIssues (c : TMergeIssuesContext)
    (records : List TIssueRecord) : TMergeIssuesContext × List TIssueRecord :=
  let r := RemoveUnlinkLoop (records.length + 1) records c.removeIssuesIds
  ({ c with removeIssuesIds := r.2 }, FilterReasons r.1)

/-- `std::regex_replace(message, std::regex("^" + pattern), fmt)` for a
pattern without special characters: a message that starts with `pattern`
gets `fmt` in its place. -/
def RegexReplaceStart (message pattern fmt : String) : String :=
  if pattern.data.isPrefixOf message.data then
    fmt ++ String.mk (message.data.drop pattern.data.length)
  else message

/-- The new message of RenameMergingIssues for a tag (lines 1776-1797). -/
def RenameMessage (tag : ETags) (message : String) : String :=
  match tag with
  | .GroupState =>
    let message := RegexReplaceStart message "Group has " "Groups have "
    let message := RegexReplaceStart message "Group is " "Groups are "
    RegexReplaceStart message "Group " "Groups "
  | .VDiskState =>
    let message := RegexReplaceStart message "VDisk has " "VDisk have "
    let message := RegexReplaceStart message "VDisk is " "VDisks are "
    RegexReplaceStart message "VDisk " "VDisk "
  | .PDiskState =>
    let message := RegexReplaceStart message "PDisk has " "PDisk have "
    let message := RegexReplaceStart message "PDisk is " "PDisks are "
    RegexReplaceStart message "PDisk " "PDisk "
  | _ => message

/-- TMergeIssuesContext::RenameMergingIssues (line 1772). -/
def RenameMergingIssues (records : List TIssueRecord) : List TIssueRecord :=
  records.map (fun it =>
    if it.IssueLog.count > 0 then
      { it with IssueLog.message := RenameMessage it.Tag it.IssueLog.message }
    else it)

/-- TMergeIssuesContext::FillRecords (line 1803). -/
def TMergeIssuesContext.FillRecords (X : TExternal) (c : TMergeIssuesContext)
    (records : List TIssueRecord) : List TIssueRecord :=
  let records := (X.MapOrder (c.recordsMap.map Prod.fst)).val.foldl
    (fun records tag => records ++ c.GetRecords tag) records
  let r := c.RemoveUnlinkIssues records
  RenameMergingIssues r.2

/-- MergeRecords (line 2128): the list as it leaves it. -/
def MergeRecords (X : TExternal) (records : List TIssueRecord) : List TIssueRecord :=
  let mergeContext := TMergeIssuesContext.ctor records
  let mergeContext := MergeLevelRecordsTag mergeContext ETags.GroupState
  let mergeContext := MergeLevelRecordsUpper mergeContext ETags.VDiskState ETags.GroupState
  let mergeContext := MergeLevelRecordsUpper mergeContext ETags.PDiskState ETags.VDiskState
  let mergeContext := RemoveRecordsAboveLimitUpper mergeContext ETags.PDiskState ETags.VDiskState
  let mergeContext := RemoveRecordsAboveLimitUpper mergeContext ETags.VDiskState ETags.GroupState
  let mergeContext := RemoveRecordsAboveLimitTag mergeContext ETags.GroupState
  mergeContext.FillRecords X []

/-! ### Pool -/

/-- One iteration of the loop of FillPoolStatus (lines 2142-2147). -/
def FillPoolStatusGroup (X : TExternal) (S : TSelfCheckRequest)
    (acc : StoragePoolStatus × TSelfCheckResult) (groupId : Nat) :
    StoragePoolStatus × TSelfCheckResult :=
  match THashMap.find S.MergedBSGroupState groupId with
  | some groupInfo =>
    let r := FillGroupStatus X S groupId groupInfo {} (TSelfCheckContext acc.2 "STORAGE_GROUP")
    ({ acc.1 with groups := acc.1.groups ++ [r.1] }, acc.2.InheritFrom r.2)
  | none => acc

/-- FillPoolStatus up to the end of its loop (lines 2140-2147). -/
def FillPoolStatusGroups (X : TExternal) (S : TSelfCheckRequest) (poolName : String)
    (pool : TStoragePoolState) (storagePoolStatus : StoragePoolStatus)
    (context : TSelfCheckResult) : StoragePoolStatus × TSelfCheckResult :=
  let context := { context with Location.storage.pool.name := poolName }
  let storagePoolStatus := { storagePoolStatus with id := poolName }
  pool.Groups.foldl (FillPoolStatusGroup X S) (storagePoolStatus, context)

/-- The switch at the end of FillPoolStatus (lines 2151-2164). -/
def FillPoolStatusReport (X : TExternal) (context : TSelfCheckResult) : TSelfCheckResult :=
  match context.OverallStatus with
  | .BLUE | .YELLOW =>
    context.ReportStatus X context.OverallStatus "Pool degraded" ETags.PoolState
      [ETags.GroupState]
  | .ORANGE =>
    context.ReportStatus X context.OverallStatus "Pool has no redundancy" ETags.PoolState
      [ETags.GroupState]
  | .RED =>
    context.ReportStatus X context.OverallStatus "Pool failed" ETags.PoolState
      [ETags.GroupState]
  | _ => context

/-- FillPoolStatus (line 2139). `context` is the fresh child context the
caller builds; the caller inherits from the returned context. -/
def FillPoolStatus (X : TExternal) (S : TSelfCheckRequest) (poolName : String)
    (pool : TStoragePoolState) (storagePoolStatus : StoragePoolStatus)
    (context : TSelfCheckResult) : StoragePoolStatus × TSelfCheckResult :=
  let r := FillPoolStatusGroups X S poolName pool storagePoolStatus context
  let context := { r.2 with IssueRecords := MergeRecords X r.2.IssueRecords }
  let context := FillPoolStatusReport X context
  ({ r.1 with overall := context.OverallStatus }, context)

/-! ### Storage -/

/-- `operator[]` assignment on a hash map kept as a list of its entries:
the entry of an existing key is replaced, a new key is added after the
others. -/
def THashMap.set {K V : Type} [DecidableEq K] : List (K × V) → K → V → List (K × V)
  | [], key, value => [(key, value)]
  | (k, v) :: rest, key, value =>
    if k = key then (k, value) :: rest else (k, v) :: THashMap.set rest key value

/-- The state FillStorage threads through its loop over the pool names:
the members of the request it changes (StoragePoolState, StoragePoolSeen),
the status message and the context. -/
structure TStorageLoopState where
  S : TSelfCheckRequest
  storageStatus : StorageStatus
  context : TSelfCheckResult

/-- One iteration of the loop of FillStorage (lines 2173-2182). -/
def FillStoragePool (X : TExternal) (st : TStorageLoopState) (poolName : String) :
    TStorageLoopState :=
  match THashMap.find st.S.StoragePoolState poolName with
  | some pool =>
    let pool := if pool.AuthenticGroups ≠ [] then { pool with Groups := pool.AuthenticGroups }
      else pool
    let S := { st.S with StoragePoolState := THashMap.set st.S.StoragePoolState poolName pool }
    let r := FillPoolStatus X S poolName pool {} (TSelfCheckContext st.context "STORAGE_POOL")
    { S := { S with StoragePoolSeen := TSetInsert S.StoragePoolSeen poolName }
      storageStatus := { st.storageStatus with pools := st.storageStatus.pools ++ [r.1] }
      context := st.context.InheritFrom r.2 }
  | none => st

/-- The switch of FillStorage on the overall status (lines 2183-2196). -/
def FillStorageReport (X : TExternal) (context : TSelfCheckResult) : TSelfCheckResult :=
  match context.OverallStatus with
  | .BLUE | .YELLOW =>
    context.ReportStatus X context.OverallStatus "Storage degraded" ETags.StorageState
      [ETags.PoolState]
  | .ORANGE =>
    context.ReportStatus X context.OverallStatus "Storage has no redundancy"
      ETags.StorageState [ETags.PoolState]
  | .RED =>
    context.ReportStatus X context.OverallStatus "Storage failed" ETags.StorageState
      [ETags.PoolState]
  | _ => context

/-- The storage usage thresholds of FillStorage (lines 2198-2207), on the
quota and usage of the database. -/
def FillStorageUsage (X : TExternal) (StorageQuota StorageUsage : Nat)
    (context : TSelfCheckResult) : TSelfCheckResult :=
  if StorageQuota > 0 then
    if X.UsageOver StorageUsage StorageQuota 90 then
      context.ReportStatus X Status.RED "Storage usage over 90%" ETags.StorageState []
    else if X.UsageOver StorageUsage StorageQuota 85 then
      context.ReportStatus X Status.ORANGE "Storage usage over 85%" ETags.StorageState []
    else if X.UsageOver StorageUsage StorageQuota 75 then
      context.ReportStatus X Status.YELLOW "Storage usage over 75%" ETags.StorageState []
    else context
  else context

/-- FillStorage (line 2168) for a database state with the given pool names,
quota and usage. `context` is the fresh child context the caller builds;
the caller inherits from the returned context. The request is returned with
the pools seen and the groups taken from the controller. -/
def FillStorage (X : TExternal) (S : TSelfCheckRequest) (StoragePoolNames : List String)
    (StorageQuota StorageUsage : Nat) (storageStatus : StorageStatus)
    (context : TSelfCheckResult) : TSelfCheckRequest × StorageStatus × TSelfCheckResult :=
  let st : TStorageLoopState :=
    if StoragePoolNames = [] then
      { S := S, storageStatus := storageStatus, context := context }
    else
      let st := StoragePoolNames.foldl (FillStoragePool X)
        { S := S, storageStatus := storageStatus, context := context }
      { st with context := FillStorageReport X st.context }
  let context := FillStorageUsage X StorageQuota StorageUsage st.context
  (st.S, { st.storageStatus with overall := context.OverallStatus }, context)

/-! ### Compute -/

/-- Check (line 1281). -/
def Check (X : TExternal) (context : TSelfCheckResult) (poolStats : TPoolStats) :
    TSelfCheckResult :=
  if poolStats.name = "System" ∨ poolStats.name = "IC" ∨ poolStats.name = "IO" then
    if X.PoolUsageGe poolStats.usage 99 then
      context.ReportStatus X Status.RED "Pool usage over 99%" ETags.OverloadState []
    else if X.PoolUsageGe poolStats.usage 95 then
      context.ReportStatus X Status.ORANGE "Pool usage over 95%" ETags.OverloadState []
    else if X.PoolUsageGe poolStats.usage 90 then
      context.ReportStatus X Status.YELLOW "Pool usage over 90%" ETags.OverloadState []
    else
      context.ReportStatus X Status.GREEN "" ETags.None []
  else
    if X.PoolUsageGe poolStats.usage 99 then
      context.ReportStatus X Status.ORANGE "Pool usage over 99%" ETags.OverloadState []
    else if X.PoolUsageGe poolStats.usage 95 then
      context.ReportStatus X Status.YELLOW "Pool usage over 95%" ETags.OverloadState []
    else
      context.ReportStatus X Status.GREEN "" ETags.None []

/-- One iteration of the loop of FillSystemTablets (lines 1305-1323);
`databaseId` is read before the loop (line 1304). Durations are in
microseconds. -/
def FillSystemTablet (X : TExternal) (databaseId : String) (context : TSelfCheckResult)
    (entry : Nat × TTabletState) : TSelfCheckResult :=
  let tabletId := entry.1
  let tablet := entry.2
  if tablet.Database = databaseId then
    let context := { context with Location.compute.tablet := {} }
    if tablet.IsUnresponsive ∨ tablet.MaxResponseTime ≥ 1000 * 1000 then
      let context :=
        if tablet.Type_ ≠ "Unknown" then
          { context with Location.compute.tablet.type := tablet.Type_ }
        else context
      let context := { context with Location.compute.tablet.id :=
        context.Location.compute.tablet.id ++ [toString tabletId] }
      if tablet.IsUnresponsive then
        context.ReportStatus X Status.RED "System tablet is unresponsive"
          ETags.SystemTabletState []
      else if tablet.MaxResponseTime ≥ 5000 * 1000 then
        context.ReportStatus X Status.ORANGE "System tablet response time is over 5000ms"
          ETags.SystemTabletState []
      else if tablet.MaxResponseTime ≥ 1000 * 1000 then
        context.ReportStatus X Status.YELLOW "System tablet response time is over 1000ms"
          ETags.SystemTabletState []
      else context
    else context
  else context

/-- FillSystemTablets (line 1303): the context as it leaves it; the status
it returns is the overall status of that context. -/
def FillSystemTablets (X : TExternal) (S : TSelfCheckRequest) (context : TSelfCheckResult) :
    TSelfCheckResult :=
  S.TabletRequests.TabletStates.foldl
    (FillSystemTablet X context.Location.database.name) context

/-- One iteration of the loop of FillTablets (lines 1335-1377) on the pair
of `tabletsStatus` and `tabletsContext`. -/
def FillTabletsCount (X : TExternal) (acc : Status × TSelfCheckResult)
    (count : TNodeTabletStateCount) : Status × TSelfCheckResult :=
  if count.Count > 0 then
    let tabletContext := TSelfCheckContext acc.2 "TABLET"
    let tabletContext := { tabletContext with Location.compute.tablet.type := count.Type_ }
    let tabletContext := { tabletContext with Location.compute.tablet.count := count.Count }
    let tabletContext := { tabletContext with Location.compute.tablet.id :=
      tabletContext.Location.compute.tablet.id ++ count.Identifiers }
    let tabletContext :=
      match count.State with
      | .Good => tabletContext.ReportStatus X Status.GREEN "" ETags.None []
      | .Stopped => tabletContext.ReportStatus X Status.GREEN "" ETags.None []
      | .RestartsTooOften =>
        tabletContext.ReportStatus X Status.RED "Tablets are restarting too often"
          ETags.TabletState []
      | .Dead =>
        if count.Leader then
          tabletContext.ReportStatus X Status.RED "Tablets are dead" ETags.TabletState []
        else
          tabletContext.ReportStatus X Status.YELLOW "Followers are dead" ETags.TabletState []
    (MaxStatus acc.1 tabletContext.OverallStatus, acc.2.InheritFrom tabletContext)
  else acc

/-- FillTablets (line 1327) for the tablets of one node of a database. -/
def FillTablets (X : TExternal) (databaseState : TDatabaseState) (nodeId : Nat)
    (context : TSelfCheckResult) : Status × TSelfCheckResult :=
  match THashMap.find databaseState.MergedNodeTabletState nodeId with
  | some nodeTabletState =>
    let r := nodeTabletState.Count.foldl (FillTabletsCount X)
      (Status.GREEN, TSelfCheckContext context "")
    (r.1, context.InheritFrom r.2)
  | none => (Status.GREEN, context)

/-- FillNodeInfo (line 1382) on the location node it is given. -/
def FillNodeInfo (S : TSelfCheckRequest) (nodeId : Nat) (node : LocationNode) : LocationNode :=
  let node := { node with id := nodeId }
  match THashMap.find S.MergedNodeInfo nodeId with
  | some nodeInfo => { node with host := nodeInfo.Host, port := nodeInfo.Port }
  | none => node

/-- The pool loop of FillComputeNodeStatus, one iteration (lines 1404-1412). -/
def FillComputeNodePool (X : TExternal) (context : TSelfCheckResult) (poolStat : TPoolStats) :
    TSelfCheckResult :=
  let poolContext := TSelfCheckContext context "COMPUTE_POOL"
  let poolContext := { poolContext with Location.compute.pool.name := poolStat.name }
  context.InheritFrom (Check X poolContext poolStat)

/-- FillComputeNodeStatus (line 1397): the context as it leaves it; the
overall status of the node is that of the context. -/
def FillComputeNodeStatus (X : TExternal) (S : TSelfCheckRequest) (nodeId : Nat)
    (context : TSelfCheckResult) : TSelfCheckResult :=
  let context := { context with
    Location.compute.node := FillNodeInfo S nodeId context.Location.compute.node }
  match THashMap.find S.MergedNodeSystemState nodeId with
  | some nodeSystemState =>
    let context := nodeSystemState.poolstats.foldl (FillComputeNodePool X) context
    if nodeSystemState.loadaverage.length > 0 ∧ nodeSystemState.numberofcpus > 0 then
      let laContext := TSelfCheckContext context "LOAD_AVERAGE"
      let laContext :=
        if X.LoadAbove (nodeSystemState.loadaverage.getD 0 0) nodeSystemState.numberofcpus then
          laContext.ReportStatus X Status.YELLOW "LoadAverage above 100%" ETags.OverloadState []
        else
          laContext.ReportStatus X Status.GREEN "" ETags.None []
      context.InheritFrom laContext
    else context
  | none => context

/-- Insertion of a node id into a sorted list (used by `SortNodeIds`). -/
def InsertNodeId (a : Nat) : List Nat → List Nat
  | [] => [a]
  | b :: l => if a ≤ b then a :: b :: l else b :: InsertNodeId a l

/-- `std::sort` on the node ids (line 1446). -/
def SortNodeIds : List Nat → List Nat
  | [] => []
  | a :: l => InsertNodeId a (SortNodeIds l)

/-- `erase(std::unique(...))` on the node ids (line 1447). -/
def UniqueNodeIds : List Nat → List Nat
  | [] => []
  | [a] => [a]
  | a :: b :: l => if a = b then UniqueNodeIds (b :: l) else a :: UniqueNodeIds (b :: l)

/-- The part of FillCompute for a database that has compute nodes
(lines 1451-1467); `computeNodeIds` is the sorted list without repetitions. -/
def FillComputeNodes (X : TExternal) (S : TSelfCheckRequest) (databaseState : TDatabaseState)
    (computeNodeIds : List Nat) (context : TSelfCheckResult) : TSelfCheckResult :=
  let systemContext := FillSystemTablets X S (TSelfCheckContext context "SYSTEM_TABLET")
  let systemStatus := systemContext.OverallStatus
  let context := context.InheritFrom systemContext
  let context :=
    if systemStatus ≠ Status.GREEN ∧ systemStatus ≠ Status.GREY then
      context.ReportStatus X systemStatus "Compute has issues with system tablets"
        ETags.ComputeState [ETags.SystemTabletState]
    else context
  let context := computeNodeIds.foldl
    (fun context nodeId =>
      context.InheritFrom
        (FillComputeNodeStatus X S nodeId (TSelfCheckContext context "COMPUTE_NODE")))
    context
  let context := context.ReportWithMaxChildStatus X "Compute is overloaded" ETags.ComputeState
    [ETags.OverloadState]
  let r := (computeNodeIds ++ [0]).foldl
    (fun (acc : Status × TSelfCheckResult) nodeId =>
      let t := FillTablets X databaseState nodeId acc.2
      (MaxStatus acc.1 t.1, t.2))
    (Status.GREEN, context)
  if r.1 ≠ Status.GREEN then
    r.2.ReportStatus X r.1 "Compute has issues with tablets" ETags.ComputeState
      [ETags.TabletState]
  else r.2

/-- FillCompute (line 1435) for the database `path` of DatabaseState.
`context` is the fresh child context the caller builds; the caller inherits
from the returned context. The node ids are those of the database or, for a
database with a resource path known to FilterDomainKey, of the shared
database; the sorted list (with the 0 pushed at line 1461) is written back
to the state it was taken from. -/
def FillCompute (X : TExternal) (S : TSelfCheckRequest) (path : String)
    (computeStatus : ComputeStatus) (context : TSelfCheckResult) :
    TSelfCheckRequest × ComputeStatus × TSelfCheckResult :=
  let databaseState := (THashMap.find S.DatabaseState path).getD {}
  let owner :=
    match databaseState.ResourcePathId with
    | some key =>
      match THashMap.find S.FilterDomainKey key with
      | some sharedDatabaseName => sharedDatabaseName
      | none => path
    | none => path
  let ownerState := (THashMap.find S.DatabaseState owner).getD {}
  let computeNodeIds := UniqueNodeIds (SortNodeIds ownerState.ComputeNodeIds)
  if computeNodeIds = [] then
    let context := context.ReportStatus X Status.RED "There are no compute nodes" ETags.None []
    ({ S with DatabaseState :=
        (THashMap.set S.DatabaseState owner
          { ownerState with ComputeNodeIds := computeNodeIds }) },
      { computeStatus with overall := context.OverallStatus }, context)
  else
    let context := FillComputeNodes X S databaseState computeNodeIds context
    ({ S with DatabaseState :=
        (THashMap.set S.DatabaseState owner
          { ownerState with ComputeNodeIds := computeNodeIds ++ [0] }) },
      { computeStatus with overall := context.OverallStatus }, context)

/-! ### The overall state and the verdict -/

/-- Ydb::Monitoring::SelfCheckResult, the wire response. -/
structure SelfCheckResult where
  self_check_result : SelfCheck := SelfCheck.UNSPECIFIED
  issue_log : List IssueLog := []
  database_status : List DatabaseStatus := []
  deriving DecidableEq, Repr

/-- TOverallStateContext (line 2211). `Result` is the response the C++
object points to. -/
structure TOverallStateContext where
  Result : SelfCheckResult := {}
  Status : Status := Status.GREY
  HasDegraded : Bool := false
  IssueIds : List (String × String) := []
  deriving DecidableEq, Repr

/-- TOverallStateContext::FillSelfCheckResult (line 2221). -/
def TOverallStateContext.FillSelfCheckResult (c : TOverallStateContext) : TOverallStateContext :=
  match c.Status with
  | .GREEN => { c with Result := { c.Result with self_check_result := SelfCheck.GOOD } }
  | .YELLOW =>
    if c.HasDegraded then
      { c with Result := { c.Result with self_check_result := SelfCheck.DEGRADED } }
    else
      { c with Result := { c.Result with self_check_result := SelfCheck.GOOD } }
  | .BLUE => { c with Result := { c.Result with self_check_result := SelfCheck.DEGRADED } }
  | .ORANGE =>
    { c with Result := { c.Result with self_check_result := SelfCheck.MAINTENANCE_REQUIRED } }
  | .RED => { c with Result := { c.Result with self_check_result := SelfCheck.EMERGENCY } }
  | _ => c

/-- TOverallStateContext::UpdateMaxStatus (line 2247). -/
def TOverallStateContext.UpdateMaxStatus (c : TOverallStateContext)
    (status : NHealthCheck.Status) :
    TOverallStateContext :=
  { c with Status := MaxStatus c.Status status }

/-- The verdict `FillSelfCheckResult` writes for the overall state
`(Status, HasDegraded)` into a fresh response, as `FillResult` does at its
end (line 2375; the response is default-constructed at line 2379). -/
def verdictOf (status : Status) (hasDegraded : Bool) : SelfCheck :=
  (TOverallStateContext.FillSelfCheckResult
    { Status := status, HasDegraded := hasDegraded }).Result.self_check_result

/-- The overall state after `UpdateMaxStatus(s)` when the degradation flag
ends as `hasDegraded`, started from `(status, _)` with a fresh response. -/
def statusAfterUpdate (status s : Status) : Status :=
  (TOverallStateContext.UpdateMaxStatus { Status := status } s).Status

/-- One iteration of the loop of TOverallStateContext::AddIssues
(lines 2252-2257). -/
def TOverallStateContext.AddIssue (c : TOverallStateContext) (issueRecord : TIssueRecord) :
    TOverallStateContext :=
  let key := (issueRecord.IssueLog.location.database.name, issueRecord.IssueLog.id)
  if key ∈ c.IssueIds then c
  else
    { c with
      IssueIds := c.IssueIds ++ [key]
      Result := { c.Result with issue_log := c.Result.issue_log ++ [issueRecord.IssueLog] } }

/-- TOverallStateContext::AddIssues (line 2251). -/
def TOverallStateContext.AddIssues (c : TOverallStateContext)
    (issueRecords : List TIssueRecord) : TOverallStateContext :=
  issueRecords.foldl TOverallStateContext.AddIssue c

/-! ### Database, clock skew and the whole result -/

/-- The report of FillDatabaseResult on the database context from the
overall statuses of compute and storage (lines 2269-2277). -/
def FillDatabaseReport (X : TExternal) (dbContext : TSelfCheckResult)
    (compute storage : Status) : TSelfCheckResult :=
  if compute ≠ Status.GREEN ∧ storage ≠ Status.GREEN then
    dbContext.ReportStatus X (MaxStatus compute storage) "Database has multiple issues"
      ETags.DBState [ETags.ComputeState, ETags.StorageState]
  else if compute ≠ Status.GREEN then
    dbContext.ReportStatus X compute "Database has compute issues" ETags.DBState
      [ETags.ComputeState]
  else if storage ≠ Status.GREEN then
    dbContext.ReportStatus X storage "Database has storage issues" ETags.DBState
      [ETags.StorageState]
  else dbContext

/-- The database context FillDatabaseResult evaluates (lines 2263-2277),
with the request as compute and storage leave it and the status message of
the database. -/
def FillDatabaseContext (X : TExternal) (S : TSelfCheckRequest) (path : String) :
    TSelfCheckRequest × DatabaseStatus × TSelfCheckResult :=
  let dbContext : TSelfCheckResult := { Type_ := "DATABASE" }
  let dbContext := { dbContext with Location.database.name := path }
  let c := FillCompute X S path {} (TSelfCheckContext dbContext "COMPUTE")
  let dbContext := dbContext.InheritFrom c.2.2
  let state := (THashMap.find c.1.DatabaseState path).getD {}
  let r := FillStorage X c.1 state.StoragePoolNames state.StorageQuota state.StorageUsage {}
    (TSelfCheckContext dbContext "STORAGE")
  let dbContext := dbContext.InheritFrom r.2.2
  let dbContext := FillDatabaseReport X dbContext c.2.1.overall r.2.1.overall
  (r.1,
    { name := path, overall := dbContext.OverallStatus, storage := r.2.1, compute := c.2.1 },
    dbContext)

/-- FillDatabaseResult (line 2261) for the database `path` of DatabaseState. -/
def FillDatabaseResult (X : TExternal) (acc : TSelfCheckRequest × TOverallStateContext)
    (path : String) : TSelfCheckRequest × TOverallStateContext :=
  let r := FillDatabaseContext X acc.1 path
  let dbContext := r.2.2
  let context := { acc.2 with
    Result.database_status := acc.2.Result.database_status ++ [r.2.1] }
  let context := context.UpdateMaxStatus dbContext.OverallStatus
  let context := context.AddIssues dbContext.IssueRecords
  let context :=
    if !context.HasDegraded ∧ context.Status ≠ NHealthCheck.Status.GREEN ∧
        dbContext.HasTags [ETags.StorageState] then
      { context with HasDegraded := true }
    else context
  (r.1, context)

/-- IsRequiredClockSkewIssue (line 2286). -/
def IsRequiredClockSkewIssue (S : TSelfCheckRequest) (nodeSystemState : TSystemStateInfo) :
    Bool :=
  match nodeSystemState.clockskewpeerid with
  | none => true
  | some peerId =>
    match THashMap.find S.MergedNodeSystemState peerId with
    | none => false
    | some peerState =>
      if peerId ∈ S.UsedClockSkewNodes then false
      else
        match peerState.clockskewpeerid with
        | none => true
        | some nextPeerId =>
          if nextPeerId ≠ nodeSystemState.nodeid ∧ nextPeerId ∉ S.UsedClockSkewNodes then false
          else true

/-- `emplace` on a THashSet of node ids kept as a list of its elements. -/
def TNodeSetInsert (set : List Nat) (x : Nat) : List Nat :=
  if x ∈ set then set else set ++ [x]

/-- FillClockSkewResult (line 2306). `context` is the fresh child context
the caller builds; the caller inherits from the returned context. -/
def FillClockSkewResult (X : TExternal) (S : TSelfCheckRequest) (nodeId : Nat)
    (context : TSelfCheckResult) : TSelfCheckRequest × TSelfCheckResult :=
  let context := { context with Location.node := FillNodeInfo S nodeId context.Location.node }
  match THashMap.find S.MergedNodeSystemState nodeId with
  | some nodeSystemState =>
    if IsRequiredClockSkewIssue S nodeSystemState then
      let S := { S with UsedClockSkewNodes := TNodeSetInsert S.UsedClockSkewNodes nodeId }
      let r : TSelfCheckRequest × TSelfCheckResult :=
        match nodeSystemState.clockskewpeerid with
        | some peerId =>
          ({ S with UsedClockSkewNodes := TNodeSetInsert S.UsedClockSkewNodes peerId },
            { context with Location.peer := FillNodeInfo S peerId context.Location.peer })
        | none => (S, context)
      if nodeSystemState.clockskewmicrosec > 25000 then
        (r.1, r.2.ReportStatus X Status.RED "Time difference is more than 25 ms"
          ETags.NodeState [])
      else if nodeSystemState.clockskewmicrosec > 5000 then
        (r.1, r.2.ReportStatus X Status.YELLOW "Time difference is more than 5 ms"
          ETags.NodeState [])
      else
        (r.1, r.2.ReportStatus X Status.GREEN "" ETags.None [])
    else (S, context)
  | none => (S, context)

/-- The context FillNodesSyncResult evaluates (lines 2330-2335), with the
request as the nodes leave it. -/
def FillNodesSyncContext (X : TExternal) (S : TSelfCheckRequest) :
    TSelfCheckRequest × TSelfCheckResult :=
  let syncContext : TSelfCheckResult := { Type_ := "NODES_SYNC" }
  let r := S.NodeIds.foldl
    (fun (acc : TSelfCheckRequest × TSelfCheckResult) nodeId =>
      let t := FillClockSkewResult X acc.1 nodeId (TSelfCheckContext acc.2 "TIME")
      (t.1, acc.2.InheritFrom t.2))
    (S, syncContext)
  (r.1, r.2.ReportWithMaxChildStatus X "Time difference exceeded" ETags.SyncState
    [ETags.NodeState])

/-- FillNodesSyncResult (line 2329). -/
def FillNodesSyncResult (X : TExternal) (acc : TSelfCheckRequest × TOverallStateContext) :
    TSelfCheckRequest × TOverallStateContext :=
  let r := FillNodesSyncContext X acc.1
  let context := acc.2.UpdateMaxStatus r.2.OverallStatus
  (r.1, context.AddIssues r.2.IssueRecords)

/-- IsSpecificDatabaseFilter (line 496). -/
def IsSpecificDatabaseFilter (S : TSelfCheckRequest) : Bool :=
  S.FilterDatabase ≠ "" ∧ S.FilterDatabase ≠ S.DomainPath

/-- The block of FillResult for a request with no database state
(lines 2349-2358): system tablets of the domain, whose issues are not added. -/
def FillResultNoDatabase (X : TExternal) (acc : TSelfCheckRequest × TOverallStateContext) :
    TSelfCheckRequest × TOverallStateContext :=
  if acc.1.DatabaseState = [] then
    let tabletContext : TSelfCheckResult := {}
    let tabletContext := { tabletContext with Location.database.name := acc.1.DomainPath }
    let systemContext := FillSystemTablets X acc.1 (TSelfCheckContext tabletContext "SYSTEM_TABLET")
    let tabletContext := tabletContext.InheritFrom systemContext
    let context := { acc.2 with
      Result.database_status := acc.2.Result.database_status ++
        [({ name := acc.1.DomainPath } : DatabaseStatus)] }
    (acc.1, context.UpdateMaxStatus tabletContext.OverallStatus)
  else acc

/-- The storage context FillResult evaluates for the pools no database has
claimed (lines 2360-2370), with the request as FillStorage leaves it. -/
def FillUnknownStorageContext (X : TExternal) (S : TSelfCheckRequest)
    (StoragePoolNames : List String) : TSelfCheckRequest × StorageStatus × TSelfCheckResult :=
  let storageContext : TSelfCheckResult := {}
  let r := FillStorage X S StoragePoolNames X.UnknownQuota X.UnknownUsage {}
    (TSelfCheckContext storageContext "STORAGE")
  (r.1, r.2.1, storageContext.InheritFrom r.2.2)

/-- The block of FillResult for the storage pools of no database
(lines 2359-2374). -/
def FillResultUnknownDatabase (X : TExternal)
    (acc : TSelfCheckRequest × TOverallStateContext) :
    TSelfCheckRequest × TOverallStateContext :=
  if acc.1.FilterDatabase = "" then
    let StoragePoolNames := (acc.1.StoragePoolState.map Prod.fst).filter
      (fun name => decide (name ∉ acc.1.StoragePoolSeen))
    if StoragePoolNames ≠ [] then
      let r := FillUnknownStorageContext X acc.1 StoragePoolNames
      let context := { acc.2 with
        Result.database_status := acc.2.Result.database_status ++
          [({ storage := r.2.1, overall := r.2.2.OverallStatus } : DatabaseStatus)] }
      let context := context.UpdateMaxStatus r.2.2.OverallStatus
      (r.1, context.AddIssues r.2.2.IssueRecords)
    else acc
  else acc

/-- FillResult (line 2340), started with the context over a fresh response.
The databases are evaluated in the iteration order of DatabaseState; with a
specific database filter the entry of the filter is evaluated, created
first when DatabaseState has none (`operator[]`, line 2342). -/
def FillResult (X : TExternal) (S : TSelfCheckRequest) (context : TOverallStateContext) :
    TSelfCheckRequest × TOverallStateContext :=
  let acc : TSelfCheckRequest × TOverallStateContext :=
    if IsSpecificDatabaseFilter S then
      let state := (THashMap.find S.DatabaseState S.FilterDatabase).getD {}
      let S := { S with DatabaseState := THashMap.set S.DatabaseState S.FilterDatabase state }
      FillDatabaseResult X (S, context) S.FilterDatabase
    else
      (S.DatabaseState.map Prod.fst).foldl (FillDatabaseResult X) (S, context)
  let acc := FillNodesSyncResult X acc
  let acc := FillResultNoDatabase X acc
  let acc := FillResultUnknownDatabase X acc
  (acc.1, acc.2.FillSelfCheckResult)

/-- The marking of ReplyAndPassAway (lines 2386-2389): the tablet of every
request still in flight becomes unresponsive (its state is created when the
map has none). -/
def MarkUnresponsive (tabletRequests : TTabletRequestsState) : TTabletRequestsState :=
  tabletRequests.RequestsInFlight.foldl
    (fun t entry =>
      let state := (THashMap.find t.TabletStates entry.2.TabletId).getD {}
      { t with TabletStates :=
        (THashMap.set t.TabletStates entry.2.TabletId { state with IsUnresponsive := true }) })
    tabletRequests

/-- The two filters of ReplyAndPassAway on the issue log (lines 2396-2413). -/
def FilterIssueLog (request : TEvSelfCheckRequest) (issue_log : List IssueLog) : List IssueLog :=
  let issue_log :=
    if request.minimum_status ≠ Status.UNSPECIFIED then
      issue_log.filter (fun it => !decide (it.status.toNat < request.minimum_status.toNat))
    else issue_log
  if request.maximum_level ≠ 0 then
    issue_log.filter (fun it => !decide (it.level > request.maximum_level))
  else issue_log

/-- ReplyAndPassAway (line 2378), the response it sends, from the request
state the three Aggregate calls of lines 2382-2384 leave. -/
def ReplyAndPassAway (X : TExternal) (S : TSelfCheckRequest) : SelfCheckResult :=
  let S := { S with TabletRequests := MarkUnresponsive S.TabletRequests }
  let result := (FillResult X S {}).2.Result
  let result :=
    if !S.Request.return_verbose_status then { result with database_status := [] }
    else result
  { result with issue_log := FilterIssueLog S.Request result.issue_log }

/-- Referential closure of an issue log: every id in a reason list is the
id of a record of the log. -/
def LogClosed (issue_log : List IssueLog) : Prop :=
  ∀ it ∈ issue_log, ∀ r ∈ it.reason, ∃ it2 ∈ issue_log, it2.id = r

instance LogClosed.decidable (issue_log : List IssueLog) : Decidable (LogClosed issue_log) := by
  unfold LogClosed
  infer_instance

/-! ### The life of a context, and the properties stated about records -/

/-- What the evaluator does to a context between its creation and its
close: a call of ReportStatus (ReportWithMaxChildStatus is one, when it
reports), the close of a child context (the destructor of line 388 calls
InheritFrom with the child), a change of the location, `IssueRecords.clear()`
(lines 1644, 1662), MergeRecords on the records (line 2149), and the cap of
FillGroupStatus, `OverallStatus = MinStatus(OverallStatus, YELLOW)`
(line 2087). -/
inductive TContextOp where
  | ReportStatus (status : Status) (message : String) (setTag : ETags)
      (includeTags : List ETags)
  | InheritFrom (lower : TSelfCheckResult)
  | SetLocation (location : Location)
  | ClearIssueRecords
  | MergeRecords
  | MinStatusYellow

/-- The effect of one operation on the context. -/
def TContextOp.apply (X : TExternal) (c : TSelfCheckResult) : TContextOp → TSelfCheckResult
  | .ReportStatus status message setTag includeTags =>
    c.ReportStatus X status message setTag includeTags
  | .InheritFrom lower => c.InheritFrom lower
  | .SetLocation location => { c with Location := location }
  | .ClearIssueRecords => { c with IssueRecords := [] }
  | .MergeRecords => { c with IssueRecords := NHealthCheck.MergeRecords X c.IssueRecords }
  | .MinStatusYellow => { c with OverallStatus := MinStatus c.OverallStatus Status.YELLOW }

/-- The context after a sequence of operations. -/
def ApplyOps (X : TExternal) (c : TSelfCheckResult) (ops : List TContextOp) :
    TSelfCheckResult :=
  ops.foldl (TContextOp.apply X) c

/-- The status an operation contributes to the context: the status reported
directly, or the overall status of the child that closes. -/
def TContextOp.status? : TContextOp → Option Status
  | .ReportStatus status _ _ _ => some status
  | .InheritFrom lower => some lower.OverallStatus
  | _ => none

/-- The maximum of a list of statuses, GREY for the empty list (GREY is the
status a context starts with, line 216). -/
def MaxStatusOf (statuses : List Status) : Status :=
  statuses.foldl MaxStatus Status.GREY

/-- Referential closure of a list of records: every id in a reason list is
the id of a record of the list. -/
def ReferentiallyClosed (records : List TIssueRecord) : Prop :=
  ∀ it ∈ records, ∀ r ∈ it.IssueLog.reason, ∃ it2 ∈ records, it2.IssueLog.id = r

/-- The invariant FillResult keeps on the overall context: the log is
closed and every key of IssueIds carries the id of a record of the log. -/
def LogInv (c : TOverallStateContext) : Prop :=
  LogClosed c.Result.issue_log ∧
    ∀ key ∈ c.IssueIds, ∃ x ∈ c.Result.issue_log, x.id = key.2

/-- The record ReportStatus puts at the front of the records for a status
other than GREEN (lines 300-319). -/
def NewIssueRecord (X : TExternal) (c : TSelfCheckResult) (status : Status)
    (message : String) (setTag : ETags) (includeTags : List ETags) : TIssueRecord :=
  { IssueLog :=
      { id := GetIssueId X { status := status, message := message, location := c.Location }
        status := status
        message := message
        location := c.Location
        reason := Unique (SortStrings (CollectReason c.IssueRecords includeTags))
        type := c.Type_
        level := c.Level }
    Tag := setTag }

/-- What holds of the records of a pdisk, vdisk or group context whose
overall status is `overall`: none carries the tag of a group or pool issue,
none has the status GREEN or GREY, and none has a status above `overall`. -/
def DiskInv (overall : Status) (records : List TIssueRecord) : Prop :=
  ∀ it ∈ records, it.Tag ≠ ETags.GroupState ∧ it.Tag ≠ ETags.PoolState ∧
    it.IssueLog.status ≠ Status.GREEN ∧ it.IssueLog.status ≠ Status.GREY ∧
    it.IssueLog.status.toNat ≤ overall.toNat

/-- A failed vdisk: its overall status is BLUE, RED or GREY. -/
def IsFailed (status : Status) : Bool :=
  status = Status.BLUE || status = Status.RED || status = Status.GREY

/-- The fail realms (rings) of the failed vdisks, one entry per failed
vdisk, given the ring and the overall status of every vdisk. -/
def FailedRings (vdisks : List (Nat × Status)) : List Nat :=
  (vdisks.filter (fun p => IsFailed p.2)).map Prod.fst

/-- The overall statuses of the vdisks of a group, as its status message
lists them. -/
def StorageGroupStatus.statuses (g : StorageGroupStatus) : List Status :=
  g.vdisks.map (fun v => v.overall)

/-- The relation between the local variables of the loop of
FillGroupStatus and the vdisks it has gone through, whose rings are `rings`. -/
def GroupLoopInv (rings : List Nat) (st : TGroupLoopState) : Prop :=
  st.storageGroupStatus.statuses.length = rings.length ∧
  st.failedDisks = st.storageGroupStatus.statuses.countP IsFailed ∧
  (∀ s, st.disksColors s = st.storageGroupStatus.statuses.count s) ∧
  st.failedRealms =
    (FailedRings (rings.zip st.storageGroupStatus.statuses)).foldl IncrementFor [] ∧
  st.context.OverallStatus = MaxStatusOf st.storageGroupStatus.statuses ∧
  DiskInv st.context.OverallStatus st.context.IssueRecords

/-- Two contexts with the same overall status and, record by record, the
same statuses of their issue records. -/
def SameStatus (a b : TSelfCheckResult) : Prop :=
  a.OverallStatus = b.OverallStatus ∧
    a.IssueRecords.map (fun it => it.IssueLog.status) =
      b.IssueRecords.map (fun it => it.IssueLog.status)

/-- The overall status of a vdisk of a group: what FillVDiskStatus gives, in
a fresh vdisk context, for the state the vdisk has in MergedVDiskState, or
for the default state when it has none (lines 2051-2052 and 2072). -/
def VDiskOverall (X : TExternal) (S : TSelfCheckRequest) (protoVDiskId : TVDiskID) : Status :=
  (FillVDiskStatus X S (GetVDiskId protoVDiskId)
    ((THashMap.find S.MergedVDiskState (GetVDiskId protoVDiskId)).getD {}) {}
    (TSelfCheckContext {} "VDISK")).1.overall

/-- The status and message the erasure rule of FillGroupStatus reports, read
off the branches of lines 2089-2123; `none` when no branch reports. -/
def GroupRuleChoice (erasurespecies : String) (st : TGroupLoopState) : Option (Status × String) :=
  if erasurespecies = NONE then
    if st.failedDisks > 0 then some (Status.RED, "Group failed")
    else if st.disksColors Status.YELLOW > 0 then some (Status.YELLOW, "Group degraded")
    else none
  else if erasurespecies = BLOCK_4_2 then
    if st.failedDisks > 2 then some (Status.RED, "Group failed")
    else if st.failedDisks > 1 then some (Status.ORANGE, "Group has no redundancy")
    else if st.failedDisks > 0 then
      if st.disksColors Status.BLUE = st.failedDisks then some (Status.BLUE, "Group degraded")
      else some (Status.YELLOW, "Group degraded")
    else if st.disksColors Status.YELLOW > 0 then some (Status.YELLOW, "Group degraded")
    else none
  else if erasurespecies = MIRROR_3_DC then
    if st.failedRealms.length > 2 ∨ (st.failedRealms.length = 2 ∧
        (st.failedRealms.map Prod.snd).getD 0 0 > 1 ∧
        (st.failedRealms.map Prod.snd).getD 1 0 > 1) then some (Status.RED, "Group failed")
    else if st.failedRealms.length = 2 then some (Status.ORANGE, "Group has no redundancy")
    else if st.failedDisks > 0 then
      if st.disksColors Status.BLUE = st.failedDisks then some (Status.BLUE, "Group degraded")
      else some (Status.YELLOW, "Group degraded")
    else if st.disksColors Status.YELLOW > 0 then some (Status.YELLOW, "Group degraded")
    else none
  else none

/-- The count-based group rule in the words of the specification, for the
erasure species `none` and `block-4-2`: with f the number of failed vdisks,
b the number of BLUE ones and y the number of YELLOW ones, the status and
message of the group issue, `none` when no issue is reported. -/
def CountRule (erasurespecies : String) (statuses : List Status) : Option (Status × String) :=
  let f := statuses.countP IsFailed
  let b := statuses.count Status.BLUE
  let y := statuses.count Status.YELLOW
  if erasurespecies = NONE then
    if f > 0 then some (Status.RED, "Group failed")
    else if y > 0 then some (Status.YELLOW, "Group degraded")
    else none
  else if erasurespecies = BLOCK_4_2 then
    if f > 2 then some (Status.RED, "Group failed")
    else if f = 2 then some (Status.ORANGE, "Group has no redundancy")
    else if f = 1 then
      if b = f then some (Status.BLUE, "Group degraded")
      else some (Status.YELLOW, "Group degraded")
    else if y > 0 then some (Status.YELLOW, "Group degraded")
    else none
  else none

/-- The group issues among the records of a context, each as its status and
message. -/
def GroupIssues (records : List TIssueRecord) : List (Status × String) :=
  (records.filter (fun it => decide (it.Tag = ETags.GroupState))).map
    (fun it => (it.IssueLog.status, it.IssueLog.message))

/-- The mirror-3-dc group rule in the words of the specification, on the
fail realm (ring) and the overall status of every vdisk of the group: the
status and message of the group issue, `none` when no issue is reported. -/
def Mirror3dcRule (vdisks : List (Nat × Status)) : Option (Status × String) :=
  let failed := FailedRings vdisks
  let realms := failed.dedup
  let statuses := vdisks.map Prod.snd
  if realms.length > 2 ∨ (realms.length = 2 ∧ ∀ r ∈ realms, failed.count r > 1) then
    some (Status.RED, "Group failed")
  else if realms.length = 2 then some (Status.ORANGE, "Group has no redundancy")
  else if failed.length > 0 then
    if ∀ s ∈ statuses, IsFailed s = true → s = Status.BLUE then
      some (Status.BLUE, "Group degraded")
    else some (Status.YELLOW, "Group degraded")
  else if Status.YELLOW ∈ statuses then some (Status.YELLOW, "Group degraded")
  else none

/-- The group rule of the specification for any erasure species: the
mirror-3-dc rule on realms, the count rule otherwise. -/
def GroupRule (erasurespecies : String) (vdisks : List (Nat × Status)) :
    Option (Status × String) :=
  if erasurespecies = MIRROR_3_DC then Mirror3dcRule vdisks
  else CountRule erasurespecies (vdisks.map Prod.snd)

/-- The ring and the overall status of every vdisk of a group, from the
group state and the status message FillGroupStatus fills. -/
def RingStatuses (groupInfo : TBSGroupStateInfo) (g : StorageGroupStatus) : List (Nat × Status) :=
  (groupInfo.vdiskids.map (fun v => v.ring)).zip g.statuses

/-- An instance of the outside functions to evaluate examples with: a
constant in place of crc16, comparisons of exact ratios in place of the
floating-point ones (a double standing for its value in percent), iteration
in insertion order, and zero for the uninitialised members. -/
def exampleExternal : TExternal :=
  { crc16 := fun _ => "0000"
    AvailLess := fun avail total percent => decide (avail * 100 < percent * total)
    MapOrder := fun keys => ⟨keys, List.Perm.refl keys⟩
    PoolUsageGe := fun usage percent => decide (percent ≤ usage)
    LoadAbove := fun load cores => decide (cores * 100 < load)
    UsageOver := fun usage quota percent => decide (percent * quota < usage * 100)
    UnknownQuota := 0
    UnknownUsage := 0 }

/-- The realms list `IncrementFor` builds from the rings `R` of the failed
vdisks: one entry per ring of `R`, with the number of its occurrences. -/
def RealmsInv (acc : List (Nat × Nat)) (R : List Nat) : Prop :=
  (acc.map Prod.fst).Nodup ∧ (∀ r, r ∈ acc.map Prod.fst ↔ r ∈ R) ∧
    ∀ p ∈ acc, p.2 = R.count p.1

/-- The context of FillPDiskStatus after the location lines 1515-1523. -/
def PDiskContextLocation (pDiskId : String) (pDiskInfo : TPDiskStateInfo)
    (context : TSelfCheckResult) : TSelfCheckResult :=
  let context := { context with Location.database := {} }
  let pdisk := context.Location.storage.pool.group.vdisk.pdisk
  let context := { context with Location.storage.pool.name := "" }
  let context := { context with Location.storage.pool.group.id := [] }
  let context := { context with Location.storage.pool.group.vdisk.id := [] }
  { context with Location.storage.pool.group.vdisk.pdisk :=
    { id := pDiskId, path := pDiskInfo.path } :: pdisk.tail }

/-- The status and message of the space issue FillPDiskStatus reports, read
off the branches of lines 1563-1573; `none` when no branch reports. -/
def PDiskSpaceChoice (X : TExternal) (pDiskInfo : TPDiskStateInfo) : Option (Status × String) :=
  if pDiskInfo.AvailableSize ≠ 0 ∧ pDiskInfo.TotalSize ≠ 0 then
    if X.AvailLess pDiskInfo.AvailableSize pDiskInfo.TotalSize 6 then
      some (Status.RED, "Available size is less than 6%")
    else if X.AvailLess pDiskInfo.AvailableSize pDiskInfo.TotalSize 9 then
      some (Status.ORANGE, "Available size is less than 9%")
    else if X.AvailLess pDiskInfo.AvailableSize pDiskInfo.TotalSize 12 then
      some (Status.YELLOW, "Available size is less than 12%")
    else none
  else none

/-- The space thresholds in the words of the specification, on the exact
ratio of the available size to the total size. -/
def PDiskSpaceRule (avail total : Nat) : Option (Status × String) :=
  let r : ℚ := (avail : ℚ) / (total : ℚ)
  if r < 6 / 100 then some (Status.RED, "Available size is less than 6%")
  else if r < 9 / 100 then some (Status.ORANGE, "Available size is less than 9%")
  else if r < 12 / 100 then some (Status.YELLOW, "Available size is less than 12%")
  else none

/-- On the sizes `avail` and `total`, each of the three floating-point tests
of FillPDiskStatus (lines 1565-1570) has the outcome of the comparison of the
exact ratio. -/
def ExactAvailLessAt (X : TExternal) (avail total : Nat) : Prop :=
  ∀ percent ∈ [6, 9, 12],
    (X.AvailLess avail total percent = true ↔ (avail : ℚ) / (total : ℚ) < (percent : ℚ) / 100)

/-- The state table in the words of the specification: whether a state is
one of the error states (its name ends in Error). -/
def TPDiskState.IsError (state : TPDiskState) : Bool :=
  "Error".data.isSuffixOf state.E_Name.data

/-- The state table in the words of the specification: the status
FillPDiskStatus reports for a state. -/
def PDiskStateStatus (state : TPDiskState) : Status :=
  if state = TPDiskState.Normal then Status.GREEN
  else if state ∈ [TPDiskState.Initial, TPDiskState.InitialFormatRead,
      TPDiskState.InitialSysLogRead, TPDiskState.InitialCommonLogRead] then Status.YELLOW
  else Status.RED

/-- The state table in the words of the specification: the issue reported
for a state, as its tag, status and message; none for Normal, an issue
without the PDiskState tag for the reserved states. -/
def PDiskStateIssue (state : TPDiskState) : List (ETags × Status × String) :=
  if state = TPDiskState.Normal then []
  else if state ∈ [TPDiskState.Initial, TPDiskState.InitialFormatRead,
      TPDiskState.InitialSysLogRead, TPDiskState.InitialCommonLogRead] then
    [(ETags.PDiskState, Status.YELLOW, "PDisk state is " ++ state.E_Name)]
  else if state.IsError ∨ state ∈ [TPDiskState.Missing, TPDiskState.Timeout,
      TPDiskState.NodeDisconnected, TPDiskState.Unknown] then
    [(ETags.PDiskState, Status.RED, "PDisk state is " ++ state.E_Name)]
  else [(ETags.None, Status.RED, "Unknown PDisk state")]

/-- The space issues among the records of a context, each as its status and
message. -/
def SpaceIssues (records : List TIssueRecord) : List (Status × String) :=
  (records.filter (fun it => decide (it.Tag = ETags.PDiskSpace))).map
    (fun it => (it.IssueLog.status, it.IssueLog.message))

/-- The records of a context other than the space issues, each as its tag,
status and message. -/
def StateIssues (records : List TIssueRecord) : List (ETags × Status × String) :=
  (records.filter (fun it => !decide (it.Tag = ETags.PDiskSpace))).map
    (fun it => (it.Tag, it.IssueLog.status, it.IssueLog.message))

/-! ### The tablet buckets of a node -/

/-- NKikimrHive::ETabletVolatileState: the enumerators. The classification
(lines 150-153) names STOPPED and RUNNING. -/
inductive ETabletVolatileState where
  | TABLET_VOLATILE_STATE_UNKNOWN
  | TABLET_VOLATILE_STATE_STOPPED
  | TABLET_VOLATILE_STATE_BOOTING
  | TABLET_VOLATILE_STATE_STARTING
  | TABLET_VOLATILE_STATE_RUNNING
  deriving DecidableEq, Repr

/-- NKikimrHive::ETabletBootMode. -/
inductive ETabletBootMode where
  | TABLET_BOOT_MODE_DEFAULT
  | TABLET_BOOT_MODE_EXTERNAL
  deriving DecidableEq, Repr

/-- NKikimrHive::TTabletInfo, the fields the tablet buckets and
AggregateHiveInfo read. The tablet type is kept as its name; `lastalive` is
the instant `TInstant::MilliSeconds(info.lastalivetimestamp())` in
microseconds; `objectdomain` is the TSubDomainKey of `GetObjectDomain()`. -/
structure TTabletInfo where
  tabletid : Nat := 0
  followerid : Nat := 0
  tablettype : String := ""
  volatilestate : ETabletVolatileState := ETabletVolatileState.TABLET_VOLATILE_STATE_UNKNOWN
  lastalive : Nat := 0
  tabletbootmode : ETabletBootMode := ETabletBootMode.TABLET_BOOT_MODE_DEFAULT
  restartsperperiod : Nat := 0
  objectdomain : Nat × Nat := (0, 0)
  nodeid : Nat := 0
  deriving DecidableEq, Repr

/-- TNodeTabletState::TTabletStateSettings (line 125); `AliveBarrier` is a
TInstant in microseconds. -/
structure TTabletStateSettings where
  AliveBarrier : Nat := 0
  MaxRestartsPerPeriod : Nat := 30
  MaxTabletIdsStored : Nat := 10
  ReportGoodTabletsIds : Bool := false
  IsHiveSynchronizationPeriod : Bool := false
  deriving DecidableEq, Repr

/-- The settings AggregateHiveInfo builds (lines 1057-1061) at the instant
`now` (microseconds) for a hive response with the given synchronization
flag: the barrier is five minutes before `now` (a TInstant does not go below
zero), the other members keep their defaults. -/
def AggregateHiveInfoSettings (now : Nat) (isHiveSynchronizationPeriod : Bool) :
    TTabletStateSettings :=
  { AliveBarrier := now - 5 * 60 * 1000000
    IsHiveSynchronizationPeriod := isHiveSynchronizationPeriod }

/-- The constructor of TNodeTabletStateCount (line 147). -/
def TNodeTabletStateCount.ctor (info : TTabletInfo) (settings : TTabletStateSettings) :
    TNodeTabletStateCount :=
  { Type_ := info.tablettype
    Leader := decide (info.followerid = 0)
    State :=
      if info.volatilestate = ETabletVolatileState.TABLET_VOLATILE_STATE_STOPPED then
        ETabletState.Stopped
      else if !settings.IsHiveSynchronizationPeriod
          ∧ info.volatilestate ≠ ETabletVolatileState.TABLET_VOLATILE_STATE_RUNNING
          ∧ info.lastalive < settings.AliveBarrier
          ∧ info.tabletbootmode = ETabletBootMode.TABLET_BOOT_MODE_DEFAULT then
        ETabletState.Dead
      else if info.restartsperperiod ≥ settings.MaxRestartsPerPeriod then
        ETabletState.RestartsTooOften
      else ETabletState.Good
    Count := 1
    Identifiers := [] }

/-- TNodeTabletStateCount::operator== (line 164). -/
def TNodeTabletStateCount.Same (a o : TNodeTabletStateCount) : Bool :=
  decide (a.State = o.State) && decide (a.Type_ = o.Type_) && decide (a.Leader = o.Leader)

/-- The identifier AddTablet builds for a tablet (lines 181-185). -/
def TabletIdentifier (info : TTabletInfo) : String :=
  if info.followerid ≠ 0 then toString info.tabletid ++ "." ++ toString info.followerid
  else toString info.tabletid

/-- The end of AddTablet (lines 179-188) on the bucket `itCount` points to. -/
def StoreIdentifier (info : TTabletInfo) (settings : TTabletStateSettings)
    (itCount : TNodeTabletStateCount) : TNodeTabletStateCount :=
  if itCount.State ≠ ETabletState.Good ∨ settings.ReportGoodTabletsIds then
    if itCount.Identifiers.length < settings.MaxTabletIdsStored then
      { itCount with Identifiers := itCount.Identifiers ++ [TabletIdentifier info] }
    else itCount
  else itCount

/-- AddTablet on the list of buckets: `Find` gives the first bucket equal to
`tabletState`; it is counted once more, or `tabletState` is put at the end;
then the identifier is stored in that bucket. -/
def AddTabletCount (info : TTabletInfo) (settings : TTabletStateSettings)
    (tabletState : TNodeTabletStateCount) :
    List TNodeTabletStateCount → List TNodeTabletStateCount
  | [] => [StoreIdentifier info settings tabletState]
  | c :: rest =>
    if c.Same tabletState then
      StoreIdentifier info settings { c with Count := c.Count + 1 } :: rest
    else c :: AddTabletCount info settings tabletState rest

/-- TNodeTabletState::AddTablet (line 171). -/
def TNodeTabletState.AddTablet (s : TNodeTabletState) (info : TTabletInfo)
    (settings : TTabletStateSettings) : TNodeTabletState :=
  { Count := AddTabletCount info settings (TNodeTabletStateCount.ctor info settings) s.Count }

/-- The buckets after a sequence of AddTablet calls on an empty state. -/
def AddTablets (calls : List (TTabletInfo × TTabletStateSettings)) : TNodeTabletState :=
  calls.foldl (fun s p => s.AddTablet p.1 p.2) {}

/-- The tablet issue FillTablets reports for a bucket, in the words of the
specification, as its tag, status and message. -/
def TabletIssue (count : TNodeTabletStateCount) : List (ETags × Status × String) :=
  match count.State with
  | .Good => []
  | .Stopped => []
  | .RestartsTooOften => [(ETags.TabletState, Status.RED, "Tablets are restarting too often")]
  | .Dead =>
    if count.Leader then [(ETags.TabletState, Status.RED, "Tablets are dead")]
    else [(ETags.TabletState, Status.YELLOW, "Followers are dead")]

/-- The status FillTablets reports for a bucket, in the words of the
specification. -/
def TabletStatus (count : TNodeTabletStateCount) : Status :=
  match count.State with
  | .Good => Status.GREEN
  | .Stopped => Status.GREEN
  | .RestartsTooOften => Status.RED
  | .Dead => if count.Leader then Status.RED else Status.YELLOW

/-- The buckets FillTablets reports on for a node (lines 1332-1336): those of
the entry of the node in MergedNodeTabletState that have a positive count,
none when the node has no entry. -/
def NodeBuckets (databaseState : TDatabaseState) (nodeId : Nat) :
    List TNodeTabletStateCount :=
  match THashMap.find databaseState.MergedNodeTabletState nodeId with
  | some nodeTabletState =>
    nodeTabletState.Count.filter (fun count => decide (count.Count > 0))
  | none => []

/-- The class of a bucket: what `operator==` compares. -/
def TNodeTabletStateCount.key (a : TNodeTabletStateCount) : ETabletState × String × Bool :=
  (a.State, a.Type_, a.Leader)

/-- What holds of the buckets `l` after the calls `calls`, all with the
default limits: the buckets have pairwise different classes, every call has
its bucket, and every bucket has the count of the calls of its class, no
identifier when its state is Good and min(Count, 10) identifiers otherwise. -/
def BucketsInv (calls : List (TTabletInfo × TTabletStateSettings))
    (l : List TNodeTabletStateCount) : Prop :=
  (l.map TNodeTabletStateCount.key).Nodup ∧
  (∀ p ∈ calls, (TNodeTabletStateCount.ctor p.1 p.2).key ∈ l.map TNodeTabletStateCount.key) ∧
  ∀ c ∈ l,
    c.Count = calls.countP (fun p => (TNodeTabletStateCount.ctor p.1 p.2).Same c) ∧
    (c.State = ETabletState.Good → c.Identifiers = []) ∧
    (c.State ≠ ETabletState.Good → c.Identifiers.length = min c.Count 10)

/-- The key AddIssues tests (line 2253): the database name of the location
and the id. -/
def IssueKey (it : IssueLog) : String × String :=
  (it.location.database.name, it.id)

/-- The invariant of the overall context on its keys: `IssueIds` holds the
keys of the records of the log, each once. -/
def KeyInv (c : TOverallStateContext) : Prop :=
  c.Result.issue_log.map IssueKey = c.IssueIds ∧ c.IssueIds.Nodup

/-- The steps of FillResult keep the invariant on the keys and only add
keys. -/
def KeyGrows (c c2 : TOverallStateContext) : Prop :=
  KeyInv c2 ∧ c.IssueIds ⊆ c2.IssueIds

/-- No database of the request state has compute nodes or a resource path. -/
def NoComputeNodes (S : TSelfCheckRequest) : Prop :=
  ∀ p ∈ S.DatabaseState, p.2.ComputeNodeIds = [] ∧ p.2.ResourcePathId = none

/-- The record "There are no compute nodes" of the database `path`. -/
def NoComputeRecord (X : TExternal) (path : String) : TIssueRecord :=
  NewIssueRecord X
    (TSelfCheckContext
      { ({ Type_ := "DATABASE" } : TSelfCheckResult) with Location.database.name := path }
      "COMPUTE")
    Status.RED "There are no compute nodes" ETags.None []

/-! ### The operations of the evaluator on its contexts -/

/-- The operations of a loop over `l` from the loop state `s`: those of the
iterations in turn, each taken on the state the iterations before it leave
(`step` is the body of the loop on the state, `ops` the operations the body
does on the context of the state). -/
def LoopOps {σ α : Type} (step : σ → α → σ) (ops : σ → α → List TContextOp) :
    σ → List α → List TContextOp
  | _, [] => []
  | s, a :: l => ops s a ++ LoopOps step ops (step s a) l

/-- The call of ReportStatus ReportPDiskState makes for a state
(lines 1527-1561). -/
def ReportPDiskStateOp (state : TPDiskState) : TContextOp :=
  match state with
  | .Normal => .ReportStatus Status.GREEN "" ETags.None []
  | .Initial | .InitialFormatRead | .InitialSysLogRead | .InitialCommonLogRead =>
    .ReportStatus Status.YELLOW ("PDisk state is " ++ state.E_Name) ETags.PDiskState []
  | .InitialFormatReadError | .InitialSysLogReadError | .InitialSysLogParseError
  | .InitialCommonLogReadError | .InitialCommonLogParseError | .CommonLoggerInitError
  | .OpenFileError | .ChunkQuotaError | .DeviceIoError | .Missing | .Timeout
  | .NodeDisconnected | .Unknown =>
    .ReportStatus Status.RED ("PDisk state is " ++ state.E_Name) ETags.PDiskState []
  | .Reserved14 | .Reserved15 | .Reserved16 =>
    .ReportStatus Status.RED "Unknown PDisk state" ETags.None []

/-- The operations of FillPDiskStatus on the storage node context it opens
for a pdisk without state on an unavailable node (lines 1575-1588):
the location of the node, then the RED report. -/
def StorageNodeOps (S : TSelfCheckRequest) (pDiskInfo : TPDiskStateInfo)
    (nodeContext : TSelfCheckResult) : List TContextOp :=
  let nodeContext := { nodeContext with Location.storage.pool := {} }
  let nodeContext := { nodeContext with Location.storage.node.id := pDiskInfo.nodeid }
  let nodeContext :=
    match THashMap.find S.MergedNodeInfo pDiskInfo.nodeid with
    | some nodeInfo =>
      { nodeContext with
        Location.storage.node.host := nodeInfo.Host
        Location.storage.node.port := nodeInfo.Port }
    | none => nodeContext
  [.SetLocation nodeContext.Location,
    .ReportStatus Status.RED "Storage node is not available" ETags.NodeState []]

/-- The operations of FillPDiskStatus on its context (lines 1515-1598): the
location of the pdisk; for a state that is present the report of the state
and the report of the space threshold, if one is crossed; for an absent
state the close of the storage node context, when the node is unavailable,
and the RED report. -/
def FillPDiskStatusOps (X : TExternal) (S : TSelfCheckRequest) (pDiskId : String)
    (pDiskInfo : TPDiskStateInfo) (context : TSelfCheckResult) : List TContextOp :=
  let located := PDiskContextLocation pDiskId pDiskInfo context
  TContextOp.SetLocation located.Location ::
    match pDiskInfo.State with
    | some state =>
      ReportPDiskStateOp state ::
        match PDiskSpaceChoice X pDiskInfo with
        | some p => [.ReportStatus p.1 p.2 ETags.PDiskSpace []]
        | none => []
    | none =>
      (if pDiskInfo.nodeid ∈ S.UnavailableStorageNodes then
        [.InheritFrom (ApplyOps X (TSelfCheckContext located "STORAGE_NODE")
          (StorageNodeOps S pDiskInfo (TSelfCheckContext located "STORAGE_NODE")))]
      else []) ++
      [.ReportStatus Status.RED "PDisk is not available" ETags.PDiskState [ETags.NodeState]]

/-- The operations of the head of FillVDiskStatus (lines 1617-1627): the
location of the vdisk, and the close of the pdisk context when the pdisk has
a state in MergedPDiskState. -/
def FillVDiskStatusPDiskOps (X : TExternal) (S : TSelfCheckRequest) (vDiskId : String)
    (vDiskInfo : TVDiskStateInfo) (storageVDiskStatus : StorageVDiskStatus)
    (context : TSelfCheckResult) : List TContextOp :=
  let ids := context.Location.storage.pool.group.vdisk.id
  let context := { context with Location.storage.pool.group.vdisk.id := vDiskId :: ids.tail }
  let context := { context with Location.storage.pool.group.id := [] }
  TContextOp.SetLocation context.Location ::
    match THashMap.find S.MergedPDiskState (GetPDiskId vDiskInfo) with
    | some pDiskInfo =>
      [.InheritFrom (FillPDiskStatus X S (GetPDiskId vDiskInfo) pDiskInfo
        (({ storageVDiskStatus with id := vDiskId } : StorageVDiskStatus).pdisk.getD {})
        (TSelfCheckContext context "PDISK")).2]
    | none => []

/-- The operations of the tail of FillVDiskStatus (lines 1661-1695) on the
context as the state report leaves it. -/
def FillVDiskStatusReplicatedSpaceOps (vDiskInfo : TVDiskStateInfo)
    (context : TSelfCheckResult) : List TContextOp :=
  if !vDiskInfo.Replicated then
    [.ClearIssueRecords, .ReportStatus Status.BLUE "Replication in progress" ETags.VDiskState []]
  else
    match vDiskInfo.DiskSpace with
    | some flag =>
      match flag with
      | .Green =>
        match context.IssueRecords with
        | [] => [.ReportStatus Status.GREEN "" ETags.None []]
        | first :: _ =>
          [.ReportStatus first.IssueLog.status "VDisk is degraded" ETags.VDiskState
            [ETags.PDiskSpace]]
      | .Red =>
        [.ReportStatus (GetFlagFromWhiteboardFlag flag) ("DiskSpace is " ++ flag.Name)
          ETags.VDiskState [ETags.PDiskSpace]]
      | _ =>
        [.ReportStatus (GetFlagFromWhiteboardFlag flag) ("DiskSpace is " ++ flag.Name)
          ETags.VDiskSpace [ETags.PDiskSpace]]
    | none => []

/-- The operations of the body of FillVDiskStatus from line 1629 on, on the
context as the head leaves it. -/
def FillVDiskStatusStateOps (X : TExternal) (vDiskInfo : TVDiskStateInfo)
    (context : TSelfCheckResult) : List TContextOp :=
  match vDiskInfo.VDiskState with
  | none =>
    [.ReportStatus Status.RED "VDisk is not available" ETags.VDiskState [ETags.PDiskState]]
  | some state =>
    match state with
    | .OK =>
      TContextOp.ReportStatus Status.GREEN "" ETags.None [] ::
        FillVDiskStatusReplicatedSpaceOps vDiskInfo
          (context.ReportStatus X Status.GREEN "" ETags.None [])
    | .Initial | .SyncGuidRecovery =>
      [.ClearIssueRecords,
        .ReportStatus Status.YELLOW ("VDisk state is " ++ state.Name) ETags.VDiskState []]
    | .LocalRecoveryError | .SyncGuidRecoveryError | .PDiskError =>
      [.ReportStatus Status.RED ("VDisk state is " ++ state.Name) ETags.VDiskState
        [ETags.PDiskState]]

/-- The operations of FillVDiskStatus on its context (line 1616). -/
def FillVDiskStatusOps (X : TExternal) (S : TSelfCheckRequest) (vDiskId : String)
    (vDiskInfo : TVDiskStateInfo) (storageVDiskStatus : StorageVDiskStatus)
    (context : TSelfCheckResult) : List TContextOp :=
  FillVDiskStatusPDiskOps X S vDiskId vDiskInfo storageVDiskStatus context ++
    FillVDiskStatusStateOps X vDiskInfo
      (ApplyOps X context
        (FillVDiskStatusPDiskOps X S vDiskId vDiskInfo storageVDiskStatus context))

/-- No operation of the list is the cap of FillGroupStatus. -/
def Uncapped (ops : List TContextOp) : Prop :=
  ∀ op ∈ ops, op ≠ TContextOp.MinStatusYellow

/-- The operations of one iteration of the loop of FillPoolStatus
(lines 2142-2147): the close of the group context, when the group has a state
in MergedBSGroupState. -/
def FillPoolStatusGroupOps (X : TExternal) (S : TSelfCheckRequest)
    (acc : StoragePoolStatus × TSelfCheckResult) (groupId : Nat) : List TContextOp :=
  match THashMap.find S.MergedBSGroupState groupId with
  | some groupInfo =>
    [.InheritFrom (FillGroupStatus X S groupId groupInfo {}
      (TSelfCheckContext acc.2 "STORAGE_GROUP")).2]
  | none => []

/-- The operations of the switch at the end of FillPoolStatus
(lines 2151-2164) on the context as the merge leaves it. -/
def FillPoolStatusReportOps (context : TSelfCheckResult) : List TContextOp :=
  match context.OverallStatus with
  | .BLUE | .YELLOW =>
    [.ReportStatus context.OverallStatus "Pool degraded" ETags.PoolState [ETags.GroupState]]
  | .ORANGE =>
    [.ReportStatus context.OverallStatus "Pool has no redundancy" ETags.PoolState
      [ETags.GroupState]]
  | .RED =>
    [.ReportStatus context.OverallStatus "Pool failed" ETags.PoolState [ETags.GroupState]]
  | _ => []

/-- The operations of FillPoolStatus on its context up to the merge
(lines 2140-2149): the location of the pool, the closes of the group
contexts, MergeRecords. -/
def FillPoolStatusMergeOps (X : TExternal) (S : TSelfCheckRequest) (poolName : String)
    (pool : TStoragePoolState) (storagePoolStatus : StoragePoolStatus)
    (context : TSelfCheckResult) : List TContextOp :=
  let located := { context with Location.storage.pool.name := poolName }
  TContextOp.SetLocation located.Location ::
    (LoopOps (FillPoolStatusGroup X S) (FillPoolStatusGroupOps X S)
      ({ storagePoolStatus with id := poolName }, located) pool.Groups ++
    [.MergeRecords])

/-- The operations of FillPoolStatus on its context (line 2139). -/
def FillPoolStatusOps (X : TExternal) (S : TSelfCheckRequest) (poolName : String)
    (pool : TStoragePoolState) (storagePoolStatus : StoragePoolStatus)
    (context : TSelfCheckResult) : List TContextOp :=
  FillPoolStatusMergeOps X S poolName pool storagePoolStatus context ++
    FillPoolStatusReportOps (ApplyOps X context
      (FillPoolStatusMergeOps X S poolName pool storagePoolStatus context))

/-- The operations of one iteration of the loop of FillStorage
(lines 2173-2182): the close of the pool context, when the pool has a state. -/
def FillStoragePoolOps (X : TExternal) (st : TStorageLoopState) (poolName : String) :
    List TContextOp :=
  match THashMap.find st.S.StoragePoolState poolName with
  | some pool =>
    let pool := if pool.AuthenticGroups ≠ [] then { pool with Groups := pool.AuthenticGroups }
      else pool
    let S := { st.S with StoragePoolState := THashMap.set st.S.StoragePoolState poolName pool }
    [.InheritFrom (FillPoolStatus X S poolName pool {}
      (TSelfCheckContext st.context "STORAGE_POOL")).2]
  | none => []

/-- The operations of the switch of FillStorage on the overall status
(lines 2183-2196). -/
def FillStorageReportOps (context : TSelfCheckResult) : List TContextOp :=
  match context.OverallStatus with
  | .BLUE | .YELLOW =>
    [.ReportStatus context.OverallStatus "Storage degraded" ETags.StorageState
      [ETags.PoolState]]
  | .ORANGE =>
    [.ReportStatus context.OverallStatus "Storage has no redundancy" ETags.StorageState
      [ETags.PoolState]]
  | .RED =>
    [.ReportStatus context.OverallStatus "Storage failed" ETags.StorageState [ETags.PoolState]]
  | _ => []

/-- The operations of the storage usage thresholds of FillStorage
(lines 2198-2207). -/
def FillStorageUsageOps (X : TExternal) (StorageQuota StorageUsage : Nat) : List TContextOp :=
  if StorageQuota > 0 then
    if X.UsageOver StorageUsage StorageQuota 90 then
      [.ReportStatus Status.RED "Storage usage over 90%" ETags.StorageState []]
    else if X.UsageOver StorageUsage StorageQuota 85 then
      [.ReportStatus Status.ORANGE "Storage usage over 85%" ETags.StorageState []]
    else if X.UsageOver StorageUsage StorageQuota 75 then
      [.ReportStatus Status.YELLOW "Storage usage over 75%" ETags.StorageState []]
    else []
  else []

/-- The operations of FillStorage on its context before the usage thresholds
(lines 2169-2197): the closes of the pool contexts and the report of the
switch, when there are pool names. -/
def FillStoragePoolsOps (X : TExternal) (S : TSelfCheckRequest) (StoragePoolNames : List String)
    (storageStatus : StorageStatus) (context : TSelfCheckResult) : List TContextOp :=
  if StoragePoolNames = [] then []
  else
    LoopOps (FillStoragePool X) (FillStoragePoolOps X)
        { S := S, storageStatus := storageStatus, context := context } StoragePoolNames ++
      FillStorageReportOps (ApplyOps X context
        (LoopOps (FillStoragePool X) (FillStoragePoolOps X)
          { S := S, storageStatus := storageStatus, context := context } StoragePoolNames))

/-- The operations of FillStorage on its context (line 2168). -/
def FillStorageOps (X : TExternal) (S : TSelfCheckRequest) (StoragePoolNames : List String)
    (StorageQuota StorageUsage : Nat) (storageStatus : StorageStatus)
    (context : TSelfCheckResult) : List TContextOp :=
  FillStoragePoolsOps X S StoragePoolNames storageStatus context ++
    FillStorageUsageOps X StorageQuota StorageUsage

/-- The call of ReportStatus Check makes for the statistics of a pool
(line 1281). -/
def CheckOp (X : TExternal) (poolStats : TPoolStats) : TContextOp :=
  if poolStats.name = "System" ∨ poolStats.name = "IC" ∨ poolStats.name = "IO" then
    if X.PoolUsageGe poolStats.usage 99 then
      .ReportStatus Status.RED "Pool usage over 99%" ETags.OverloadState []
    else if X.PoolUsageGe poolStats.usage 95 then
      .ReportStatus Status.ORANGE "Pool usage over 95%" ETags.OverloadState []
    else if X.PoolUsageGe poolStats.usage 90 then
      .ReportStatus Status.YELLOW "Pool usage over 90%" ETags.OverloadState []
    else
      .ReportStatus Status.GREEN "" ETags.None []
  else
    if X.PoolUsageGe poolStats.usage 99 then
      .ReportStatus Status.ORANGE "Pool usage over 99%" ETags.OverloadState []
    else if X.PoolUsageGe poolStats.usage 95 then
      .ReportStatus Status.YELLOW "Pool usage over 95%" ETags.OverloadState []
    else
      .ReportStatus Status.GREEN "" ETags.None []

/-- The operations on the context of a compute pool (lines 1404-1412): the
name of the pool in the location, then the report of Check. -/
def ComputePoolOps (X : TExternal) (poolStat : TPoolStats) (poolContext : TSelfCheckResult) :
    List TContextOp :=
  [.SetLocation
      ({ poolContext with Location.compute.pool.name := poolStat.name } :
        TSelfCheckResult).Location,
    CheckOp X poolStat]

/-- The operations of one iteration of the pool loop of
FillComputeNodeStatus: the close of the pool context. -/
def FillComputeNodePoolOps (X : TExternal) (context : TSelfCheckResult)
    (poolStat : TPoolStats) : List TContextOp :=
  [.InheritFrom (ApplyOps X (TSelfCheckContext context "COMPUTE_POOL")
    (ComputePoolOps X poolStat (TSelfCheckContext context "COMPUTE_POOL")))]

/-- The operation on the load average context (lines 1417-1423). -/
def LoadAverageOps (X : TExternal) (nodeSystemState : TSystemStateInfo) : List TContextOp :=
  if X.LoadAbove (nodeSystemState.loadaverage.getD 0 0) nodeSystemState.numberofcpus then
    [.ReportStatus Status.YELLOW "LoadAverage above 100%" ETags.OverloadState []]
  else
    [.ReportStatus Status.GREEN "" ETags.None []]

/-- The operations of FillComputeNodeStatus on its context (line 1397): the
node in the location and, for a node with a system state, the closes of the
pool contexts and of the load average context. -/
def FillComputeNodeStatusOps (X : TExternal) (S : TSelfCheckRequest) (nodeId : Nat)
    (context : TSelfCheckResult) : List TContextOp :=
  let located := { context with
    Location.compute.node := FillNodeInfo S nodeId context.Location.compute.node }
  TContextOp.SetLocation located.Location ::
    match THashMap.find S.MergedNodeSystemState nodeId with
    | some nodeSystemState =>
      LoopOps (FillComputeNodePool X) (FillComputeNodePoolOps X) located
          nodeSystemState.poolstats ++
        (if nodeSystemState.loadaverage.length > 0 ∧ nodeSystemState.numberofcpus > 0 then
          [.InheritFrom (ApplyOps X
            (TSelfCheckContext
              (nodeSystemState.poolstats.foldl (FillComputeNodePool X) located) "LOAD_AVERAGE")
            (LoadAverageOps X nodeSystemState))]
        else [])
    | none => []

/-- The operations of one iteration of the loop of FillSystemTablets
(lines 1305-1323). -/
def FillSystemTabletOps (databaseId : String) (context : TSelfCheckResult)
    (entry : Nat × TTabletState) : List TContextOp :=
  let tabletId := entry.1
  let tablet := entry.2
  if tablet.Database = databaseId then
    let context := { context with Location.compute.tablet := {} }
    TContextOp.SetLocation context.Location ::
      if tablet.IsUnresponsive ∨ tablet.MaxResponseTime ≥ 1000 * 1000 then
        let context :=
          if tablet.Type_ ≠ "Unknown" then
            { context with Location.compute.tablet.type := tablet.Type_ }
          else context
        let context := { context with Location.compute.tablet.id :=
          context.Location.compute.tablet.id ++ [toString tabletId] }
        TContextOp.SetLocation context.Location ::
          if tablet.IsUnresponsive then
            [.ReportStatus Status.RED "System tablet is unresponsive"
              ETags.SystemTabletState []]
          else if tablet.MaxResponseTime ≥ 5000 * 1000 then
            [.ReportStatus Status.ORANGE "System tablet response time is over 5000ms"
              ETags.SystemTabletState []]
          else if tablet.MaxResponseTime ≥ 1000 * 1000 then
            [.ReportStatus Status.YELLOW "System tablet response time is over 1000ms"
              ETags.SystemTabletState []]
          else []
      else []
  else []

/-- The operations of FillSystemTablets on its context (line 1303). -/
def FillSystemTabletsOps (X : TExternal) (S : TSelfCheckRequest) (context : TSelfCheckResult) :
    List TContextOp :=
  LoopOps (FillSystemTablet X context.Location.database.name)
    (FillSystemTabletOps context.Location.database.name) context
    S.TabletRequests.TabletStates

/-- The operations on the context of a bucket of tablets (lines 1337-1373):
the type, count and ids of the bucket in the location, then the report of
its state. -/
def TabletOps (count : TNodeTabletStateCount) (tabletContext : TSelfCheckResult) :
    List TContextOp :=
  let tabletContext := { tabletContext with Location.compute.tablet.type := count.Type_ }
  let tabletContext := { tabletContext with Location.compute.tablet.count := count.Count }
  let tabletContext := { tabletContext with Location.compute.tablet.id :=
    tabletContext.Location.compute.tablet.id ++ count.Identifiers }
  [.SetLocation tabletContext.Location,
    match count.State with
    | .Good => .ReportStatus Status.GREEN "" ETags.None []
    | .Stopped => .ReportStatus Status.GREEN "" ETags.None []
    | .RestartsTooOften =>
      .ReportStatus Status.RED "Tablets are restarting too often" ETags.TabletState []
    | .Dead =>
      if count.Leader then .ReportStatus Status.RED "Tablets are dead" ETags.TabletState []
      else .ReportStatus Status.YELLOW "Followers are dead" ETags.TabletState []]

/-- The operations of one iteration of the loop of FillTablets on the
tablets context: the close of the context of the bucket, when it counts a
tablet. -/
def FillTabletsCountOps (X : TExternal) (acc : Status × TSelfCheckResult)
    (count : TNodeTabletStateCount) : List TContextOp :=
  if count.Count > 0 then
    [.InheritFrom (ApplyOps X (TSelfCheckContext acc.2 "TABLET")
      (TabletOps count (TSelfCheckContext acc.2 "TABLET")))]
  else []

/-- The operations of FillTablets on the tablets context it opens under
`context` for a node with an entry in MergedNodeTabletState (line 1334). -/
def FillTabletsOps (X : TExternal) (nodeTabletState : TNodeTabletState)
    (context : TSelfCheckResult) : List TContextOp :=
  LoopOps (FillTabletsCount X) (FillTabletsCountOps X)
    (Status.GREEN, TSelfCheckContext context "") nodeTabletState.Count

/-- The operations of FillTablets on the context it is given: the close of
the tablets context, for a node with an entry in MergedNodeTabletState. -/
def FillTabletsParentOps (X : TExternal) (databaseState : TDatabaseState) (nodeId : Nat)
    (context : TSelfCheckResult) : List TContextOp :=
  match THashMap.find databaseState.MergedNodeTabletState nodeId with
  | some nodeTabletState =>
    [.InheritFrom (ApplyOps X (TSelfCheckContext context "")
      (FillTabletsOps X nodeTabletState context))]
  | none => []

/-- The operations of ReportWithMaxChildStatus (line 346). -/
def ReportWithMaxChildStatusOps (c : TSelfCheckResult) (message : String) (setTag : ETags)
    (includeTags : List ETags) : List TContextOp :=
  if c.HasTags includeTags then
    [.ReportStatus (c.FindMaxStatus includeTags) message setTag includeTags]
  else []

/-- The body of the node loop of FillComputeNodes (lines 1456-1459). -/
def FillComputeNode (X : TExternal) (S : TSelfCheckRequest) (context : TSelfCheckResult)
    (nodeId : Nat) : TSelfCheckResult :=
  context.InheritFrom
    (FillComputeNodeStatus X S nodeId (TSelfCheckContext context "COMPUTE_NODE"))

/-- The body of the tablets loop of FillComputeNodes (lines 1462-1464). -/
def FillComputeTablets (X : TExternal) (databaseState : TDatabaseState)
    (acc : Status × TSelfCheckResult) (nodeId : Nat) : Status × TSelfCheckResult :=
  let t := FillTablets X databaseState nodeId acc.2
  (MaxStatus acc.1 t.1, t.2)

/-- The operations of FillComputeNodes on the compute context up to the end
of the node loop (lines 1451-1459): the close of the system tablets context,
the report on it, the closes of the node contexts. -/
def FillComputeNodesHeadOps (X : TExternal) (S : TSelfCheckRequest) (computeNodeIds : List Nat)
    (context : TSelfCheckResult) : List TContextOp :=
  let systemContext := FillSystemTablets X S (TSelfCheckContext context "SYSTEM_TABLET")
  let systemStatus := systemContext.OverallStatus
  let head : List TContextOp :=
    TContextOp.InheritFrom systemContext ::
      (if systemStatus ≠ Status.GREEN ∧ systemStatus ≠ Status.GREY then
        [.ReportStatus systemStatus "Compute has issues with system tablets"
          ETags.ComputeState [ETags.SystemTabletState]]
      else [])
  head ++ LoopOps (FillComputeNode X S)
    (fun context nodeId =>
      [.InheritFrom
        (FillComputeNodeStatus X S nodeId (TSelfCheckContext context "COMPUTE_NODE"))])
    (ApplyOps X context head) computeNodeIds

/-- The operations of the end of FillComputeNodes (lines 1461-1467) on the
compute context `context` as the report on the overloaded children leaves
it: the closes of the tablets contexts of the nodes and of node 0, and the
report on the tablets. -/
def FillComputeTabletsOps (X : TExternal) (databaseState : TDatabaseState)
    (nodeIds : List Nat) (context : TSelfCheckResult) : List TContextOp :=
  LoopOps (FillComputeTablets X databaseState)
      (fun acc nodeId => FillTabletsParentOps X databaseState nodeId acc.2)
      (Status.GREEN, context) nodeIds ++
    (if (nodeIds.foldl (FillComputeTablets X databaseState) (Status.GREEN, context)).1 ≠
        Status.GREEN then
      [.ReportStatus
        (nodeIds.foldl (FillComputeTablets X databaseState) (Status.GREEN, context)).1
        "Compute has issues with tablets" ETags.ComputeState [ETags.TabletState]]
    else [])

/-- The operations of FillComputeNodes on the compute context
(lines 1451-1467): the head, the report on the overloaded children, the
end. -/
def FillComputeNodesOps (X : TExternal) (S : TSelfCheckRequest)
    (databaseState : TDatabaseState) (computeNodeIds : List Nat)
    (context : TSelfCheckResult) : List TContextOp :=
  FillComputeNodesHeadOps X S computeNodeIds context ++
    ReportWithMaxChildStatusOps
      (ApplyOps X context (FillComputeNodesHeadOps X S computeNodeIds context))
      "Compute is overloaded" ETags.ComputeState [ETags.OverloadState] ++
    FillComputeTabletsOps X databaseState (computeNodeIds ++ [0])
      (ApplyOps X
        (ApplyOps X context (FillComputeNodesHeadOps X S computeNodeIds context))
        (ReportWithMaxChildStatusOps
          (ApplyOps X context (FillComputeNodesHeadOps X S computeNodeIds context))
          "Compute is overloaded" ETags.ComputeState [ETags.OverloadState]))

/-- The operations of FillCompute on its context (line 1435). -/
def FillComputeOps (X : TExternal) (S : TSelfCheckRequest) (path : String)
    (context : TSelfCheckResult) : List TContextOp :=
  let databaseState := (THashMap.find S.DatabaseState path).getD {}
  let owner :=
    match databaseState.ResourcePathId with
    | some key =>
      match THashMap.find S.FilterDomainKey key with
      | some sharedDatabaseName => sharedDatabaseName
      | none => path
    | none => path
  let ownerState := (THashMap.find S.DatabaseState owner).getD {}
  let computeNodeIds := UniqueNodeIds (SortNodeIds ownerState.ComputeNodeIds)
  if computeNodeIds = [] then
    [.ReportStatus Status.RED "There are no compute nodes" ETags.None []]
  else FillComputeNodesOps X S databaseState computeNodeIds context

/-- The operations of the report of FillDatabaseResult (lines 2269-2277). -/
def FillDatabaseReportOps (compute storage : Status) : List TContextOp :=
  if compute ≠ Status.GREEN ∧ storage ≠ Status.GREEN then
    [.ReportStatus (MaxStatus compute storage) "Database has multiple issues" ETags.DBState
      [ETags.ComputeState, ETags.StorageState]]
  else if compute ≠ Status.GREEN then
    [.ReportStatus compute "Database has compute issues" ETags.DBState [ETags.ComputeState]]
  else if storage ≠ Status.GREEN then
    [.ReportStatus storage "Database has storage issues" ETags.DBState [ETags.StorageState]]
  else []

/-- The operations of FillDatabaseResult on the database context
(lines 2263-2277): the name of the database in the location, the closes of
the compute context and of the storage context, the report. -/
def FillDatabaseContextOps (X : TExternal) (S : TSelfCheckRequest) (path : String) :
    List TContextOp :=
  let dbContext : TSelfCheckResult := { Type_ := "DATABASE" }
  let dbContext := { dbContext with Location.database.name := path }
  let c := FillCompute X S path {} (TSelfCheckContext dbContext "COMPUTE")
  let state := (THashMap.find c.1.DatabaseState path).getD {}
  let r := FillStorage X c.1 state.StoragePoolNames state.StorageQuota state.StorageUsage {}
    (TSelfCheckContext (dbContext.InheritFrom c.2.2) "STORAGE")
  [.SetLocation dbContext.Location, .InheritFrom c.2.2, .InheritFrom r.2.2] ++
    FillDatabaseReportOps c.2.1.overall r.2.1.overall

/-- The operations of FillClockSkewResult on its context (line 2306): the
node in the location and, for a node whose clock skew is to be reported, the
peer in the location, when the state names one, and the report. -/
def FillClockSkewResultOps (S : TSelfCheckRequest) (nodeId : Nat)
    (context : TSelfCheckResult) : List TContextOp :=
  let context := { context with Location.node := FillNodeInfo S nodeId context.Location.node }
  TContextOp.SetLocation context.Location ::
    match THashMap.find S.MergedNodeSystemState nodeId with
    | some nodeSystemState =>
      if IsRequiredClockSkewIssue S nodeSystemState then
        let S := { S with UsedClockSkewNodes := TNodeSetInsert S.UsedClockSkewNodes nodeId }
        (match nodeSystemState.clockskewpeerid with
          | some peerId =>
            [TContextOp.SetLocation
              ({ context with Location.peer := FillNodeInfo S peerId context.Location.peer } :
                TSelfCheckResult).Location]
          | none => []) ++
        (if nodeSystemState.clockskewmicrosec > 25000 then
          [.ReportStatus Status.RED "Time difference is more than 25 ms" ETags.NodeState []]
        else if nodeSystemState.clockskewmicrosec > 5000 then
          [.ReportStatus Status.YELLOW "Time difference is more than 5 ms" ETags.NodeState []]
        else
          [.ReportStatus Status.GREEN "" ETags.None []])
      else []
    | none => []

/-- The body of the loop of FillNodesSyncResult (lines 2331-2334). -/
def FillNodesSyncNode (X : TExternal) (acc : TSelfCheckRequest × TSelfCheckResult)
    (nodeId : Nat) : TSelfCheckRequest × TSelfCheckResult :=
  let t := FillClockSkewResult X acc.1 nodeId (TSelfCheckContext acc.2 "TIME")
  (t.1, acc.2.InheritFrom t.2)

/-- The operations of FillNodesSyncResult on the context it evaluates
(lines 2330-2335): the closes of the contexts of the nodes, then the report
on the children. -/
def FillNodesSyncContextOps (X : TExternal) (S : TSelfCheckRequest) : List TContextOp :=
  LoopOps (FillNodesSyncNode X)
      (fun acc nodeId =>
        [.InheritFrom (FillClockSkewResult X acc.1 nodeId (TSelfCheckContext acc.2 "TIME")).2])
      (S, { Type_ := "NODES_SYNC" }) S.NodeIds ++
    ReportWithMaxChildStatusOps
      (S.NodeIds.foldl (FillNodesSyncNode X) (S, { Type_ := "NODES_SYNC" })).2
      "Time difference exceeded" ETags.SyncState [ETags.NodeState]

/-- The status max law at a context: `closed` is the context `fresh` after
the operations `ops`, and its overall status is the maximum of GREY, of the
statuses the operations report directly and of the overall statuses of the
child contexts they close. -/
def MaxLaw (X : TExternal) (fresh closed : TSelfCheckResult) (ops : List TContextOp) : Prop :=
  closed = ApplyOps X fresh ops ∧
    closed.OverallStatus = MaxStatusOf (ops.filterMap TContextOp.status?)

/-! ### What the theorems about the merger speak of -/

/-- The listed value of a record as the cap counts it: the field `listed`,
0 counting as 1. -/
def ListedValue (r : TIssueRecord) : Nat :=
  if r.IssueLog.listed = 0 then 1 else r.IssueLog.listed

/-- The sum of `listed` over a list of records, a record with listed = 0
counting as 1. -/
def ListedSum (records : List TIssueRecord) : Nat :=
  (records.map ListedValue).sum

/-- The number of records of a list that have `x` in their reason list. -/
def ReasonOwners (records : List TIssueRecord) (x : String) : Nat :=
  records.countP (fun r => decide (x ∈ r.IssueLog.reason))

/-- No id is in the reason list of two records of the list. -/
def SingleOwner (records : List TIssueRecord) : Prop :=
  ∀ x, ReasonOwners records x ≤ 1

/-- The records map holds every key once, and under a key only records of
that tag. -/
def TagInv (m : List (ETags × List TIssueRecord)) : Prop :=
  (m.map Prod.fst).Nodup ∧ ∀ p ∈ m, ∀ r ∈ p.2, r.Tag = p.1

/-- Record `b` is record `a` up to the fields the merger rewrites in place:
same tag, same id, same reasons. -/
def SameLink (b a : TIssueRecord) : Prop :=
  b.Tag = a.Tag ∧ b.IssueLog.id = a.IssueLog.id ∧ b.IssueLog.reason = a.IssueLog.reason

/-! ### Reason lists without a common id -/

/-- No id of the reason list of `a` is in the reason list of `b`. -/
def ReasonsDisjoint (a b : TIssueRecord) : Prop :=
  ∀ x, x ∈ a.IssueLog.reason → x ∉ b.IssueLog.reason

/-! ### What FillRecords does to a record -/

/-- Record `b` is record `a` after RemoveUnlinkIssues and RenameMergingIssues:
same tag, same id, same listed value, and no new reason. -/
def Shadow (b a : TIssueRecord) : Prop :=
  b.Tag = a.Tag ∧ b.IssueLog.id = a.IssueLog.id ∧ ListedValue b = ListedValue a ∧
    ∀ x ∈ b.IssueLog.reason, x ∈ a.IssueLog.reason

/-- The context MergeRecords hands to FillRecords. -/
def MergeContext (records : List TIssueRecord) : TMergeIssuesContext :=
  let mergeContext := TMergeIssuesContext.ctor records
  let mergeContext := MergeLevelRecordsTag mergeContext ETags.GroupState
  let mergeContext := MergeLevelRecordsUpper mergeContext ETags.VDiskState ETags.GroupState
  let mergeContext := MergeLevelRecordsUpper mergeContext ETags.PDiskState ETags.VDiskState
  let mergeContext := RemoveRecordsAboveLimitUpper mergeContext ETags.PDiskState ETags.VDiskState
  let mergeContext := RemoveRecordsAboveLimitUpper mergeContext ETags.VDiskState ETags.GroupState
  RemoveRecordsAboveLimitTag mergeContext ETags.GroupState

/-! ### Deciding that reason lists have no common id -/

instance ReasonsDisjoint.decidable (a b : TIssueRecord) : Decidable (ReasonsDisjoint a b) := by
  unfold ReasonsDisjoint
  exact inferInstance

/-! ### The list parts of the merger -/

/-- The records MergeLevelRecords leaves of a list (they do not depend on
the context). -/
def MergeList (records : List TIssueRecord) : List TIssueRecord :=
  (MergeLevelRecords {} records).2

/-- The records RemoveRecordsAboveLimit leaves of a list. -/
def CutList (records : List TIssueRecord) : List TIssueRecord :=
  (RemoveRecordsAboveLimit {} records).2

/-- Record `u` lists the id of record `r` in its reason list. -/
def Owns (u r : TIssueRecord) : Bool :=
  decide (r.IssueLog.id ∈ u.IssueLog.reason)

/-- No record of `us` lists the id of `r`. -/
def NoOwner (us : List TIssueRecord) (r : TIssueRecord) : Bool :=
  us.all (fun u => !Owns u r)

/-- The records of `pool` that no record of `us` lists, followed, for every
record of `us` in turn, by `T` of the records it lists. -/
def Blocks (T : List TIssueRecord → List TIssueRecord) (us pool : List TIssueRecord) :
    List TIssueRecord :=
  pool.filter (NoOwner us) ++ us.flatMap (fun u => T (pool.filter (Owns u)))

/-- The reasons of a record that are among the ids `I`. -/
def ReasonKey (I : List String) (v : TIssueRecord) : List String :=
  v.IssueLog.reason.filter (fun x => decide (x ∈ I))

/-- The reason lists of the records of a list, cut down to the ids `I`, the
empty ones left out. -/
def ReasonKeys (I : List String) (vs : List TIssueRecord) : List (List String) :=
  (vs.map (ReasonKey I)).filter (fun k => !k.isEmpty)

/-! ### Similar records -/

/-- What FindRecordsForMerge compares of a record when the first record of
the class has tag `tag`: status, message, level and, for VDiskState, the node
id. -/
def SimKey (tag : ETags) (r : TIssueRecord) : Status × String × Nat × Nat :=
  (r.IssueLog.status, r.IssueLog.message, r.IssueLog.level,
    if tag = ETags.VDiskState then r.IssueLog.location.storage.node.id else 0)

/-- Equal keys stand together: between two equal keys there is no other key. -/
def Contig {K : Type} (ks : List K) : Prop :=
  ∀ a b, List.Sublist [a, b, a] ks → b = a

/-- No key occurs more than MERGING_IGNORE_SIZE times. -/
def NoBig {K : Type} [DecidableEq K] (ks : List K) : Prop :=
  ∀ a, ks.countP (fun x => decide (x = a)) ≤ MERGING_IGNORE_SIZE

/-- A record that a similar record follows has no count. -/
def CountInv (tag : ETags) (records : List TIssueRecord) : Prop :=
  ∀ x y, List.Sublist [x, y] records → SimKey tag x = SimKey tag y → x.IssueLog.count = 0

/-! ### A record and its source -/

/-- Record `b` has the tag, the id and the fields FindRecordsForMerge
compares of record `a`. -/
def SameFace (b a : TIssueRecord) : Prop :=
  b.Tag = a.Tag ∧ b.IssueLog.id = a.IssueLog.id ∧ b.IssueLog.status = a.IssueLog.status ∧
    b.IssueLog.message = a.IssueLog.message ∧ b.IssueLog.level = a.IssueLog.level ∧
    b.IssueLog.location.storage.node = a.IssueLog.location.storage.node

/-- The state of the loop of MergeLevelRecords on records of one tag without
count: what is handled stays as MergeLevelRecords would leave it, and shares
no key with what is still to handle. -/
def MergeInv (tag : ETags) (records handled : List TIssueRecord) : Prop :=
  (∀ r ∈ records, r.Tag = tag ∧ r.IssueLog.count = 0) ∧
  (∀ h ∈ handled, h.Tag = tag) ∧
  Contig (handled.map (SimKey tag)) ∧ NoBig (handled.map (SimKey tag)) ∧
  CountInv tag handled ∧
  ∀ h ∈ handled, ∀ r ∈ records, SimKey tag h ≠ SimKey tag r

/-! ### The state of the loop of RemoveRecordsAboveLimit -/

/-- The state of the loop of RemoveRecordsAboveLimit after the records
`done`, started with no record kept and the removed ids `rem0`: either every
record stays as it is and nothing is removed, or the limit is reached, the
records up to `last` stay, `last` rewritten, and the ids and reasons of the
records after it are removed. -/
def CutInv (rem0 : List String) (done : List TIssueRecord) (st : TLimitState) : Prop :=
  (∀ x ∈ rem0, x ∈ st.removeIssuesIds) ∧
  ((st.kept = done ∧ (done = [] → st.commonListed = 0) ∧ st.removeIssuesIds = rem0) ∨
    (st.commonListed = (MERGER_ISSUE_LIMIT : Int) ∧
      ∃ pre last last2 rest, done = pre ++ last :: rest ∧ st.kept = pre ++ [last2] ∧
        SameFace last2 last ∧ last2.IssueLog.reason = last.IssueLog.reason ∧
        ∀ r ∈ rest, r.IssueLog.id ∈ st.removeIssuesIds ∧
          ∀ x ∈ r.IssueLog.reason, x ∈ st.removeIssuesIds))

/-! ### The parts of FillRecords -/

/-- The list FillRecords collects from the records map, in the iteration
order of the map. -/
def Collect (X : TExternal) (c : TMergeIssuesContext) : List TIssueRecord :=
  (X.MapOrder (c.recordsMap.map Prod.fst)).val.foldl
    (fun records tag => records ++ c.GetRecords tag) []

/-- The records the loop of RemoveUnlinkIssues keeps of the collected list. -/
def Kept (X : TExternal) (c : TMergeIssuesContext) : List TIssueRecord :=
  (RemoveUnlinkLoop ((Collect X c).length + 1) (Collect X c) c.removeIssuesIds).1

/-- The removed ids when the loop of RemoveUnlinkIssues ends. -/
def Removed (X : TExternal) (c : TMergeIssuesContext) : List String :=
  (RemoveUnlinkLoop ((Collect X c).length + 1) (Collect X c) c.removeIssuesIds).2

/-- A record of the tag and the id of `r` is in `F`. -/
def Survives (F : List TIssueRecord) (r : TIssueRecord) : Bool :=
  F.any (fun f => decide (f.Tag = r.Tag) && decide (f.IssueLog.id = r.IssueLog.id))

/-- What the last block of RemoveUnlinkIssues and RenameMergingIssues make of
a record of the kept list `F`. -/
def Settle (F : List TIssueRecord) (r : TIssueRecord) : TIssueRecord :=
  if r.IssueLog.count > 0 then
    { r with
      IssueLog.reason := r.IssueLog.reason.filter
        (fun x => decide (x ∈ F.map (fun it => it.IssueLog.id)))
      IssueLog.message := RenameMessage r.Tag r.IssueLog.message }
  else
    { r with
      IssueLog.reason := r.IssueLog.reason.filter
        (fun x => decide (x ∈ F.map (fun it => it.IssueLog.id))) }

/-! ### Lists the merger leaves as they are -/

/-- A list of records of one tag that MergeLevelRecords and
RemoveRecordsAboveLimit leave as it is: similar records stand together and
are at most four, and the listed values add up to the limit at most. -/
def Stable (tag : ETags) (R : List TIssueRecord) : Prop :=
  Contig (R.map (SimKey tag)) ∧ NoBig (R.map (SimKey tag)) ∧
    ListedSum R ≤ MERGER_ISSUE_LIMIT

/-- The list `pool` of tag `tag` is grouped along the list `us`: first the
records no record of `us` lists, then for every record of `us`, in the order
of `us`, the records it lists; no id is listed by two records of `us`, and
the group of every record of `us` is stable. -/
def Grouped (tag : ETags) (us pool : List TIssueRecord) : Prop :=
  SingleOwner us ∧
  pool = pool.filter (NoOwner us) ++ us.flatMap (fun u => pool.filter (Owns u)) ∧
  ∀ u ∈ us, Stable tag (pool.filter (Owns u))

/-- A list of records as MergeRecords leaves one. -/
def Settled (M : List TIssueRecord) : Prop :=
  Stable ETags.GroupState (M.filter (fun r => decide (r.Tag = ETags.GroupState))) ∧
  Grouped ETags.VDiskState (M.filter (fun r => decide (r.Tag = ETags.GroupState)))
    (M.filter (fun r => decide (r.Tag = ETags.VDiskState))) ∧
  Grouped ETags.PDiskState (M.filter (fun r => decide (r.Tag = ETags.VDiskState)))
    (M.filter (fun r => decide (r.Tag = ETags.PDiskState))) ∧
  ∀ r ∈ M, (∀ x ∈ r.IssueLog.reason, x ∈ M.map (fun it => it.IssueLog.id)) ∧
    (r.IssueLog.count > 0 → RenameMessage r.Tag r.IssueLog.message = r.IssueLog.message)

/-- Two contexts with the same list under every tag and the same removed
ids. -/
def Alike (c d : TMergeIssuesContext) : Prop :=
  (∀ tag, c.GetRecords tag = d.GetRecords tag) ∧ c.removeIssuesIds = d.removeIssuesIds

/-! ### Counting records by id -/

/-- The number of records of a list that have the id `x`. -/
def IdCount (records : List TIssueRecord) (x : String) : Nat :=
  records.countP (fun r => decide (r.IssueLog.id = x))

/-! ### What a cutting stage removes -/

/-- Context `d` comes from context `c` by stages that keep the removed ids
and, of every record, either keep it up to a rewrite in place or put its
reasons among the removed ids. -/
def Drops (c d : TMergeIssuesContext) : Prop :=
  (∀ x ∈ c.removeIssuesIds, x ∈ d.removeIssuesIds) ∧
  ∀ tag, ∀ u ∈ c.GetRecords tag,
    (∃ k ∈ d.GetRecords tag, SameLink k u) ∨
      ∀ x ∈ u.IssueLog.reason, x ∈ d.removeIssuesIds

/-! ### Stages that add no record -/

/-- Under every tag, context `d` has no more records of an id and no more
records that list an id than context `c`. -/
def Shrinks (c d : TMergeIssuesContext) : Prop :=
  ∀ tag x, IdCount (d.GetRecords tag) x ≤ IdCount (c.GetRecords tag) x ∧
    ReasonOwners (d.GetRecords tag) x ≤ ReasonOwners (c.GetRecords tag) x

/-! ### Stages that rewrite in place -/

/-- Every record of context `d` is, by tag, id and reasons, a record of
context `c` under the same tag. -/
def Links (c d : TMergeIssuesContext) : Prop :=
  ∀ tag, ∀ k ∈ d.GetRecords tag, ∃ u ∈ c.GetRecords tag, SameLink k u

/-! ### What the request receives while it waits -/

/-- The event types of NNodeWhiteboard::TEvWhiteboard the handlers name
(lines 758-767 and 787-814); `EvOther` is every other event type. -/
inductive EEv where
  | EvSystemStateRequest
  | EvVDiskStateRequest
  | EvPDiskStateRequest
  | EvBSGroupStateRequest
  | EvOther
  deriving DecidableEq, Repr

/-- NKikimrBlobStorage::TVSlotId; two of them are equal when their tuples
of node id, pdisk id and vslot id are (lines 31-42). -/
structure TVSlotId where
  nodeid : Nat := 0
  pdiskid : Nat := 0
  vslotid : Nat := 0
  deriving DecidableEq, Repr

/-- NKikimrBlobStorage::TBaseConfig::TPDisk, the fields read at
lines 1133-1146; the two sizes are those of `GetPDiskMetrics()`. -/
structure TBaseConfig.TPDisk where
  nodeid : Nat := 0
  pdiskid : Nat := 0
  path : String := ""
  totalsize : Nat := 0
  availablesize : Nat := 0
  deriving DecidableEq, Repr

/-- NKikimrBlobStorage::TBaseConfig::TVSlot, the fields read at
lines 1151-1189 and 1481-1487. -/
structure TBaseConfig.TVSlot where
  vslotid : TVSlotId := {}
  groupid : Nat := 0
  groupgeneration : Nat := 0
  failrealmidx : Nat := 0
  faildomainidx : Nat := 0
  vdiskidx : Nat := 0
  deriving DecidableEq, Repr

/-- NKikimrBlobStorage::TBaseConfig::TGroup, the fields read at
lines 1171-1181. -/
structure TBaseConfig.TGroup where
  groupid : Nat := 0
  groupgeneration : Nat := 0
  erasurespecies : String := ""
  vslotid : List TVSlotId := []
  deriving DecidableEq, Repr

/-- NKikimrBlobStorage::TBaseConfig, the three lists AggregateBSControllerState
reads. -/
structure TBaseConfig where
  PDisk : List TBaseConfig.TPDisk := []
  VSlot : List TBaseConfig.TVSlot := []
  Group : List TBaseConfig.TGroup := []
  deriving DecidableEq, Repr

/-- NKikimrBlobStorage::TNodeWardenServiceSet::TPDisk, the fields Bootstrap
reads (lines 553-565). -/
structure TNodeWardenServiceSet.TPDisk where
  nodeid : Nat := 0
  pdiskid : Nat := 0
  path : String := ""
  deriving DecidableEq, Repr

/-- NKikimrBlobStorage::TNodeWardenServiceSet::TVDisk, the fields Bootstrap
reads (lines 569-578); `nodeid` and `pdiskid` are those of
`GetVDiskLocation()`. -/
structure TNodeWardenServiceSet.TVDisk where
  vdiskid : TVDiskID := {}
  nodeid : Nat := 0
  pdiskid : Nat := 0
  deriving DecidableEq, Repr

/-- NKikimrBlobStorage::TGroupInfo, the fields Bootstrap reads
(lines 582-583). -/
structure TGroupInfo where
  groupid : Nat := 0
  storagepoolname : String := ""
  deriving DecidableEq, Repr

/-- NKikimrBlobStorage::TNodeWardenServiceSet, the static configuration
Bootstrap reads (line 551). -/
structure TNodeWardenServiceSet where
  pdisks : List TNodeWardenServiceSet.TPDisk := []
  vdisks : List TNodeWardenServiceSet.TVDisk := []
  groups : List TGroupInfo := []
  deriving DecidableEq, Repr

/-- NKikimrHive::TEvResponseHiveInfo, the fields read at lines 1052 and
1062; the two timestamps are unsigned 64-bit numbers of milliseconds. -/
structure TEvResponseHiveInfo where
  StartTimeTimestamp : Nat := 0
  ResponseTimestamp : Nat := 0
  Tablets : List TTabletInfo := []
  deriving DecidableEq, Repr

/-- NKikimrHive::THiveNodeStats, the fields read at lines 993 and
1112-1118; `NodeDomain` is `none` when `HasNodeDomain()` is false. -/
structure THiveNodeStats where
  NodeId : Nat := 0
  NodeDomain : Option (Nat × Nat) := none
  deriving DecidableEq, Repr

/-- NKikimrScheme::TEvDescribeSchemeResult, what the handler of line 923
reads: whether the status is StatusSuccess, the path, the storage pools of
the domain description as pairs of name and kind, the total size of the
tables and the hard quota of the data size. -/
structure TEvDescribeSchemeResult where
  success : Bool := false
  path : String := ""
  storagepools : List (String × String) := []
  totalsize : Nat := 0
  data_size_hard_quota : Nat := 0
  deriving DecidableEq, Repr

/-- The entry of the result set the handler of line 945 reads: the
canonized path and, of the domain info, the two path ids and the tablets of
the parameters. -/
structure TNavigateEntry where
  Path : String := ""
  DomainKey : Nat × Nat := (0, 0)
  ResourcesDomainKey : Nat × Nat := (0, 0)
  Hive : Nat := 0
  SchemeShard : Nat := 0
  deriving DecidableEq, Repr

/-- The events StateWait dispatches (lines 599-623), each with what its
handler reads of it.
* `ControllerConfigResponse`: the base config of the first status, `none`
  unless `HasResponse()`, `StatusSize() > 0` and `HasBaseConfig()`
  (lines 898-900);
* `ControllerSelectGroupsResult`: per matching-groups entry the pairs of
  storage pool name and group id;
* `NavigateKeySetResult`: the entry of the result set, `none` unless the
  set has one entry with status Ok (line 946);
* `GetTenantStatusResponse`: the path and `has_serverless_resources()` of
  the unpacked result, `none` unless the operation is ready with status
  SUCCESS (line 1008);
* `ClientConnected`: whether the status is OK, and the tablet id;
* the four whiteboard responses: the cookie and the states of the record. -/
inductive TEvent where
  | Undelivered (Cookie : Nat) (SourceType : EEv)
  | NodesInfo (Nodes : List TNodeInfo)
  | ListTenantsResponse (Cookie : Nat) (paths : List String)
  | GetTenantStatusResponse (Cookie : Nat) (result : Option (String × Bool))
  | ResponseHiveDomainStats (Cookie : Nat) (DomainStats : List (List Nat))
  | ResponseHiveNodeStats (Cookie : Nat) (NodeStats : List THiveNodeStats)
  | ResponseHiveInfo (Cookie : Nat) (Record : TEvResponseHiveInfo)
  | DescribeSchemeResult (Cookie : Nat) (Record : TEvDescribeSchemeResult)
  | NavigateKeySetResult (entry : Option TNavigateEntry)
  | ControllerSelectGroupsResult (Cookie : Nat) (matchinggroups : List (List (String × Nat)))
  | ControllerConfigResponse (Cookie : Nat) (BaseConfig : Option TBaseConfig)
  | SystemStateResponse (Cookie : Nat) (SystemStateInfo : List TSystemStateInfo)
  | VDiskStateResponse (Cookie : Nat) (VDiskStateInfo : List TVDiskStateInfo)
  | PDiskStateResponse (Cookie : Nat) (PDiskStateInfo : List TPDiskStateInfo)
  | BSGroupStateResponse (Cookie : Nat) (BSGroupStateInfo : List TBSGroupStateInfo)
  | NodeDisconnected (NodeId : Nat)
  | ClientDestroyed
  | ClientConnected (ok : Bool) (TabletId : Nat)
  | RetryNodeWhiteboard (NodeId : Nat) (EventId : EEv)
  | Wakeup
  deriving DecidableEq, Repr

/-- The two clocks a handler reads: `TInstant::Now()` (line 1058) and
`TMonotonic::Now()` (lines 470, 476), in microseconds. -/
structure TNow where
  Instant : Nat := 0
  Monotonic : Nat := 0
  deriving DecidableEq, Repr

/-- What the handlers take from outside the file, beside what the evaluator
takes:
* `Static id` tells whether `TGroupID(id).ConfigurationType()` is
  `EGroupConfigurationType::Static` (line 1260);
* `VDiskID` is the vdisk id `VDiskIDFromVDiskID(TVDiskID(...), ...)` writes
  for the five numbers of a vslot (lines 1185-1189);
* `PathIdValid` is the conversion of a TPathId to bool (line 1437);
* `MaxStaticNodeId` is the one of the dynamic name service configuration,
  `none` when there is no such configuration (lines 875-879). -/
structure TActorExternal extends TExternal where
  Static : Nat → Bool
  VDiskID : Nat → Nat → Nat → Nat → Nat → TVDiskID
  PathIdValid : Nat × Nat → Bool
  MaxStaticNodeId : Option Nat

/-- What Bootstrap reads from the application data (lines 501-512 and 551):
the name and the scheme root of the first domain, the tablets of the default
state storage group, and the static blob storage configuration. -/
structure TAppData where
  DomainName : String := ""
  SchemeRoot : Nat := 0
  ConsoleId : Nat := 0
  RootHiveId : Nat := 0
  BsControllerId : Nat := 0
  StaticBlobStorageConfig : TNodeWardenServiceSet := {}
  deriving DecidableEq, Repr

/-- The actor TSelfCheckRequest (line 85) while it collects: the members the
evaluator reads, the further members of lines 393-447 the handlers keep, and
what the actor has sent. Hash maps and sets are lists of their entries in
insertion order; a holder is `none` when it is null. `Requests` is the
`int` of line 396 as an integer. Members that are written and read nowhere
(TenantByPath, DescribeByPath, DatabaseStatusByPath, NavigateResult,
HiveDomainStats, NodesInfo, MergedTabletState, HiveId) and the tablet pipes
are left out. What the actor sends is kept in
* `Sent`: the whiteboard requests, as node id and event type (line 727),
* `Subscribed`: the nodes sent TEvSubscribe (line 732),
* `Scheduled`: the retries scheduled (line 779),
* `Responses`: the responses sent to the sender (line 2419),
and `PassedAway` tells that PassAway was called (line 2424). -/
structure TSelfCheckRequestActor extends TSelfCheckRequest where
  Requests : Int := 0
  ConsoleId : Nat := 0
  BsControllerId : Nat := 0
  RootSchemeShardId : Nat := 0
  RootHiveId : Nat := 0
  HiveNodeStats : List (Nat × Option (List THiveNodeStats)) := []
  HiveInfo : List (Nat × Option TEvResponseHiveInfo) := []
  BaseConfig : Option TBaseConfig := none
  StorageNodeIds : List Nat := []
  ComputeNodeIds : List Nat := []
  NodeRetries : List ((Nat × EEv) × Nat) := []
  SharedDatabases : List ((Nat × Nat) × String) := []
  NodeSystemState : List (Nat × Option (List TSystemStateInfo)) := []
  NodeVDiskState : List (Nat × Option (List TVDiskStateInfo)) := []
  ValidVDisks : List String := []
  NodePDiskState : List (Nat × Option (List TPDiskStateInfo)) := []
  ValidPDisks : List String := []
  NodeBSGroupState : List (Nat × Option (List TBSGroupStateInfo)) := []
  ValidGroups : List Nat := []
  UnavailableComputeNodes : List Nat := []
  Sent : List (Nat × EEv) := []
  Subscribed : List Nat := []
  Scheduled : List (Nat × EEv) := []
  Responses : List SelfCheckResult := []
  PassedAway : Bool := false

/-- `emplace` on a hash map kept as a list of its entries: a new key is
added after the others, an existing key keeps its entry. -/
def THashMap.emplace {K V : Type} [DecidableEq K] (m : List (K × V)) (key : K) (value : V) :
    List (K × V) :=
  if key ∈ m.map Prod.fst then m else m ++ [(key, value)]

/-- `erase` of a key on a hash map kept as a list of its entries. -/
def THashMap.erase {K V : Type} [DecidableEq K] (m : List (K × V)) (key : K) : List (K × V) :=
  m.filter (fun e => !decide (e.1 = key))

/-- MaxRetries (line 418). -/
def MaxRetries : Nat := 3

/-- HIVE_SYNCHRONIZATION_PERIOD_MS (line 1049). -/
def HIVE_SYNCHRONIZATION_PERIOD_MS : Nat := 10000

/-- STATIC_STORAGE_POOL_NAME (line 494). -/
def STATIC_STORAGE_POOL_NAME : String := "static"

/-- GetPDiskId of a pdisk state (line 1502). -/
def TPDiskStateInfo.GetPDiskId (pDiskInfo : TPDiskStateInfo) : String :=
  toString pDiskInfo.nodeid ++ "-" ++ toString pDiskInfo.pdiskid

/-- GetPDiskId of a pdisk of the base config (line 1506). -/
def TBaseConfig.TPDisk.GetPDiskId (pDisk : TBaseConfig.TPDisk) : String :=
  toString pDisk.nodeid ++ "-" ++ toString pDisk.pdiskid

/-- GetPDiskId of a pdisk of the static configuration (line 1510). -/
def TNodeWardenServiceSet.TPDisk.GetPDiskId (pDisk : TNodeWardenServiceSet.TPDisk) : String :=
  toString pDisk.nodeid ++ "-" ++ toString pDisk.pdiskid

/-- GetVDiskId of a vslot of the base config (line 1481). -/
def TBaseConfig.TVSlot.GetVDiskId (protoVSlotId : TBaseConfig.TVSlot) : String :=
  toString protoVSlotId.groupid ++ "-" ++ toString protoVSlotId.groupgeneration ++ "-" ++
    toString protoVSlotId.failrealmidx ++ "-" ++ toString protoVSlotId.faildomainidx ++ "-" ++
    toString protoVSlotId.vdiskidx

/-- TTabletRequestsState::MakeRequest (line 468) at the monotonic time
`now`: the request id and the state. `RequestId` is a ui64. -/
def TTabletRequestsState.MakeRequest (t : TTabletRequestsState) (tabletId : Nat)
    (key : String) (now : Nat) : Nat × TTabletRequestsState :=
  let t := { t with RequestId := (t.RequestId + 1) % 2 ^ 64 }
  (t.RequestId,
    { t with RequestsInFlight := (THashMap.emplace t.RequestsInFlight t.RequestId
        { TabletId := tabletId, Key := key, StartTime := now }) })

/-- TTabletRequestsState::CompleteRequest (line 474) at the monotonic time
`finishTime`: the tablet id (0 for an unknown request) and the state. -/
def TTabletRequestsState.CompleteRequest (t : TTabletRequestsState) (requestId : Nat)
    (finishTime : Nat) : Nat × TTabletRequestsState :=
  match THashMap.find t.RequestsInFlight requestId with
  | none => (0, t)
  | some request =>
    let responseTime := finishTime - request.StartTime
    let tabletState := (THashMap.find t.TabletStates request.TabletId).getD {}
    let tabletState :=
      if responseTime > tabletState.MaxResponseTime then
        { tabletState with MaxResponseTime := responseTime }
      else tabletState
    (request.TabletId,
      { t with
        TabletStates := THashMap.set t.TabletStates request.TabletId tabletState
        RequestsInFlight := THashMap.erase t.RequestsInFlight requestId })

/-- IsHiveSynchronizationPeriod (line 1051): the difference of the two
unsigned 64-bit timestamps is taken modulo 2^64, and the constant of type
`int` is converted to the unsigned type for the comparison. -/
def IsHiveSynchronizationPeriod (hiveInfo : TEvResponseHiveInfo) : Bool :=
  let hiveUptime :=
    (hiveInfo.StartTimeTimestamp % 2 ^ 64 + 2 ^ 64 - hiveInfo.ResponseTimestamp % 2 ^ 64) % 2 ^ 64
  decide (hiveUptime > HIVE_SYNCHRONIZATION_PERIOD_MS)

/-- The body of the loop of AggregateHiveInfo over the tablets of one hive
(lines 1063-1084). -/
def TSelfCheckRequestActor.AggregateHiveTablet (settings : TTabletStateSettings)
    (S : TSelfCheckRequestActor) (hiveTablet : TTabletInfo) : TSelfCheckRequestActor :=
  match THashMap.find S.FilterDomainKey hiveTablet.objectdomain with
  | none => S
  | some path =>
    match THashMap.find S.DatabaseState path with
    | none => S
    | some database =>
      let nodeId :=
        match hiveTablet.volatilestate with
        | ETabletVolatileState.TABLET_VOLATILE_STATE_STARTING => hiveTablet.nodeid
        | ETabletVolatileState.TABLET_VOLATILE_STATE_RUNNING => hiveTablet.nodeid
        | _ => 0
      let state := (THashMap.find database.MergedNodeTabletState nodeId).getD {}
      let database := { database with
        MergedNodeTabletState := THashMap.set database.MergedNodeTabletState nodeId
          (state.AddTablet hiveTablet settings) }
      { S with DatabaseState := THashMap.set S.DatabaseState path database }

/-- AggregateHiveInfo (line 1056) at the instant `now`. The settings are
one variable for all hives (line 1057): the synchronization flag is set anew
for every hive that has answered. -/
def TSelfCheckRequestActor.AggregateHiveInfo (now : Nat) (S : TSelfCheckRequestActor) :
    TSelfCheckRequestActor :=
  (S.HiveInfo.foldl
    (fun (acc : TTabletStateSettings × TSelfCheckRequestActor) entry =>
      match entry.2 with
      | none => acc
      | some hiveResponse =>
        let settings := { acc.1 with
          IsHiveSynchronizationPeriod := IsHiveSynchronizationPeriod hiveResponse }
        (settings, hiveResponse.Tablets.foldl
          (TSelfCheckRequestActor.AggregateHiveTablet settings) acc.2))
    (AggregateHiveInfoSettings now false, S)).2

/-- The body of the inner loop of AggregateHiveNodeStats (lines 1112-1120). -/
def TSelfCheckRequestActor.AggregateHiveNodeStat (S : TSelfCheckRequestActor)
    (hiveStat : THiveNodeStats) : TSelfCheckRequestActor :=
  match hiveStat.NodeDomain with
  | none => S
  | some domainKey =>
    match THashMap.find S.FilterDomainKey domainKey with
    | none => S
    | some path =>
      let state := (THashMap.find S.DatabaseState path).getD {}
      { S with DatabaseState := (THashMap.set S.DatabaseState path
          { state with ComputeNodeIds := state.ComputeNodeIds ++ [hiveStat.NodeId] }) }

/-- AggregateHiveNodeStats (line 1108). -/
def TSelfCheckRequestActor.AggregateHiveNodeStats (S : TSelfCheckRequestActor) :
    TSelfCheckRequestActor :=
  S.HiveNodeStats.foldl
    (fun S entry =>
      match entry.2 with
      | none => S
      | some NodeStats => NodeStats.foldl TSelfCheckRequestActor.AggregateHiveNodeStat S)
    S

/-- The body of the loop of AggregateBSControllerState over the pdisks of
the base config (lines 1133-1147). -/
def TSelfCheckRequestActor.AggregatePDisk (S : TSelfCheckRequestActor)
    (pDisk : TBaseConfig.TPDisk) : TSelfCheckRequestActor :=
  let pDiskId := pDisk.GetPDiskId
  let S := { S with ValidPDisks := TSetInsert S.ValidPDisks pDiskId }
  if (THashMap.find S.MergedPDiskState pDiskId).isNone then
    { S with MergedPDiskState := (THashMap.emplace S.MergedPDiskState pDiskId
        { nodeid := pDisk.nodeid, pdiskid := pDisk.pdiskid, path := pDisk.path,
          TotalSize := pDisk.totalsize, AvailableSize := pDisk.availablesize }) }
  else S

/-- The body of the loop over the vslots of the base config
(lines 1151-1168) on the pair of `slotsIndex` and the request. -/
def TSelfCheckRequestActor.AggregateVSlot
    (acc : List (TVSlotId × TBaseConfig.TVSlot) × TSelfCheckRequestActor)
    (vDisk : TBaseConfig.TVSlot) :
    List (TVSlotId × TBaseConfig.TVSlot) × TSelfCheckRequestActor :=
  let slotsIndex := THashMap.set acc.1 vDisk.vslotid vDisk
  let S := acc.2
  let vDiskId := vDisk.GetVDiskId
  let S := { S with ValidVDisks := TSetInsert S.ValidVDisks vDiskId }
  if (THashMap.find S.MergedVDiskState vDiskId).isNone then
    (slotsIndex,
      { S with MergedVDiskState := (THashMap.emplace S.MergedVDiskState vDiskId
          { vdiskid :=
              { groupid := vDisk.groupid, groupgeneration := vDisk.groupgeneration,
                ring := vDisk.failrealmidx, domain := vDisk.faildomainidx,
                vdisk := vDisk.vslotid.vslotid }
            nodeid := vDisk.vslotid.nodeid
            pdiskid := vDisk.vslotid.pdiskid }) })
  else (slotsIndex, S)

/-- The vdisk ids a new group entry gets (lines 1181-1191): one per vslot id
of the group that `slotsIndex` knows. -/
def GroupVDiskIds (Y : TActorExternal) (slotsIndex : List (TVSlotId × TBaseConfig.TVSlot))
    (group : TBaseConfig.TGroup) : List TVDiskID :=
  group.vslotid.filterMap (fun vSlotId =>
    (THashMap.find slotsIndex vSlotId).map (fun vSlot =>
      Y.VDiskID vSlot.groupid vSlot.groupgeneration vSlot.failrealmidx vSlot.faildomainidx
        vSlot.vdiskidx))

/-- The body of the loop over the groups of the base config
(lines 1171-1192). -/
def TSelfCheckRequestActor.AggregateGroup (Y : TActorExternal)
    (slotsIndex : List (TVSlotId × TBaseConfig.TVSlot)) (S : TSelfCheckRequestActor)
    (group : TBaseConfig.TGroup) : TSelfCheckRequestActor :=
  let groupId := group.groupid
  let S := { S with ValidGroups := TNodeSetInsert S.ValidGroups groupId }
  if (THashMap.find S.MergedBSGroupState groupId).isNone then
    { S with MergedBSGroupState := (THashMap.emplace S.MergedBSGroupState groupId
        { groupid := group.groupid, groupgeneration := group.groupgeneration,
          erasurespecies := group.erasurespecies,
          vdiskids := GroupVDiskIds Y slotsIndex group }) }
  else S

/-- The block of AggregateBSControllerState for the base config
(lines 1127-1195). `BaseConfig` holds the base config of the response kept
at line 905. -/
def TSelfCheckRequestActor.AggregateBaseConfig (Y : TActorExternal)
    (S : TSelfCheckRequestActor) : TSelfCheckRequestActor :=
  match S.BaseConfig with
  | none => S
  | some pbConfig =>
    let S := pbConfig.PDisk.foldl TSelfCheckRequestActor.AggregatePDisk S
    let r := pbConfig.VSlot.foldl TSelfCheckRequestActor.AggregateVSlot ([], S)
    pbConfig.Group.foldl (TSelfCheckRequestActor.AggregateGroup Y r.1) r.2

/-- AggregateBSControllerState (line 1126): the block for the base config,
then the three loops that erase the entries whose id is not valid
(lines 1196-1216). -/
def TSelfCheckRequestActor.AggregateBSControllerState (Y : TActorExternal)
    (S : TSelfCheckRequestActor) : TSelfCheckRequestActor :=
  let S := S.AggregateBaseConfig Y
  let S := { S with
    MergedPDiskState := S.MergedPDiskState.filter (fun e => decide (e.1 ∈ S.ValidPDisks)) }
  let S := { S with
    MergedVDiskState := S.MergedVDiskState.filter (fun e => decide (e.1 ∈ S.ValidVDisks)) }
  { S with
    MergedBSGroupState := S.MergedBSGroupState.filter (fun e => decide (e.1 ∈ S.ValidGroups)) }

/-- The three Aggregate calls of ReplyAndPassAway (lines 2382-2384) at the
instant `now`. -/
def TSelfCheckRequestActor.Aggregate (Y : TActorExternal) (now : Nat)
    (S : TSelfCheckRequestActor) : TSelfCheckRequestActor :=
  ((S.AggregateHiveInfo now).AggregateHiveNodeStats).AggregateBSControllerState Y

/-- The request state FillResult is called on (line 2391): after the three
Aggregate calls and the marking of the tablets with a request in flight
(lines 2382-2389). -/
def TSelfCheckRequestActor.Evaluated (Y : TActorExternal) (now : Nat)
    (S : TSelfCheckRequestActor) : TSelfCheckRequestActor :=
  let S := S.Aggregate Y now
  { S with TabletRequests := MarkUnresponsive S.TabletRequests }

/-- ReplyAndPassAway (line 2378) on the actor, at the instant `now`: the
members as FillResult leaves them, the response sent, and the actor gone. -/
def TSelfCheckRequestActor.ReplyAndPassAway (Y : TActorExternal) (now : Nat)
    (S : TSelfCheckRequestActor) : TSelfCheckRequestActor :=
  let S := S.Evaluated Y now
  let r := FillResult Y.toTExternal S.toTSelfCheckRequest {}
  let result := r.2.Result
  let result :=
    if !S.Request.return_verbose_status then { result with database_status := [] }
    else result
  let result := { result with issue_log := FilterIssueLog S.Request result.issue_log }
  { S with
    toTSelfCheckRequest := r.1
    Responses := S.Responses ++ [result]
    PassedAway := true }

/-- RequestDone (line 625). -/
def TSelfCheckRequestActor.RequestDone (Y : TActorExternal) (now : TNow)
    (S : TSelfCheckRequestActor) : TSelfCheckRequestActor :=
  let S := { S with Requests := S.Requests - 1 }
  if S.Requests = 0 then S.ReplyAndPassAway Y now.Instant else S

/-- RequestTabletPipe (line 635); the pipe and the payload are left out. -/
def TSelfCheckRequestActor.RequestTabletPipe (now : TNow) (S : TSelfCheckRequestActor)
    (tabletId : Nat) (key : String) : TSelfCheckRequestActor :=
  let r := S.TabletRequests.MakeRequest tabletId key now.Monotonic
  let S := { S with TabletRequests := r.2 }
  let requestState := (THashMap.find S.TabletRequests.TabletStates tabletId).getD {}
  let S := { S with
    TabletRequests.TabletStates :=
      THashMap.set S.TabletRequests.TabletStates tabletId requestState }
  { S with Requests := S.Requests + 1 }

/-- RequestSchemeCacheNavigate (lines 701 and 711): what it does to the
members. -/
def TSelfCheckRequestActor.RequestSchemeCacheNavigate (S : TSelfCheckRequestActor) :
    TSelfCheckRequestActor :=
  { S with Requests := S.Requests + 1 }

/-- RequestNodeWhiteboard (line 723) for the request of type `ev`. -/
def TSelfCheckRequestActor.RequestNodeWhiteboard (S : TSelfCheckRequestActor) (ev : EEv)
    (nodeId : Nat) : TSelfCheckRequestActor :=
  { S with Sent := S.Sent ++ [(nodeId, ev)] }

/-- RequestGenericNode (line 730). -/
def TSelfCheckRequestActor.RequestGenericNode (S : TSelfCheckRequestActor) (nodeId : Nat) :
    TSelfCheckRequestActor :=
  if nodeId ∉ S.NodeIds then
    let S := { S with NodeIds := S.NodeIds ++ [nodeId] }
    let S := { S with Subscribed := S.Subscribed ++ [nodeId] }
    let S := S.RequestNodeWhiteboard EEv.EvSystemStateRequest nodeId
    { S with Requests := S.Requests + 1 }
  else S

/-- RequestComputeNode (line 738). -/
def TSelfCheckRequestActor.RequestComputeNode (S : TSelfCheckRequestActor) (nodeId : Nat) :
    TSelfCheckRequestActor :=
  if nodeId ∉ S.ComputeNodeIds then
    let S := { S with ComputeNodeIds := S.ComputeNodeIds ++ [nodeId] }
    S.RequestGenericNode nodeId
  else S

/-- RequestStorageNode (line 744). -/
def TSelfCheckRequestActor.RequestStorageNode (S : TSelfCheckRequestActor) (nodeId : Nat) :
    TSelfCheckRequestActor :=
  if nodeId ∉ S.StorageNodeIds then
    let S := { S with StorageNodeIds := S.StorageNodeIds ++ [nodeId] }
    let S := S.RequestGenericNode nodeId
    let S := S.RequestNodeWhiteboard EEv.EvVDiskStateRequest nodeId
    let S := { S with Requests := S.Requests + 1 }
    let S := S.RequestNodeWhiteboard EEv.EvPDiskStateRequest nodeId
    let S := { S with Requests := S.Requests + 1 }
    let S := S.RequestNodeWhiteboard EEv.EvBSGroupStateRequest nodeId
    { S with Requests := S.Requests + 1 }
  else S

/-- The handler of TEvRetryNodeWhiteboard (line 756). -/
def TSelfCheckRequestActor.HandleRetryNodeWhiteboard (Y : TActorExternal) (now : TNow)
    (S : TSelfCheckRequestActor) (NodeId : Nat) (EventId : EEv) : TSelfCheckRequestActor :=
  match EventId with
  | EEv.EvSystemStateRequest => S.RequestNodeWhiteboard EEv.EvSystemStateRequest NodeId
  | EEv.EvVDiskStateRequest => S.RequestNodeWhiteboard EEv.EvVDiskStateRequest NodeId
  | EEv.EvPDiskStateRequest => S.RequestNodeWhiteboard EEv.EvPDiskStateRequest NodeId
  | EEv.EvBSGroupStateRequest => S.RequestNodeWhiteboard EEv.EvBSGroupStateRequest NodeId
  | EEv.EvOther => S.RequestDone Y now

/-- RetryRequestNodeWhiteboard (line 776) for the request of type `ev`: what
it returns, and the actor. The counter is a ui32: the entry is created with
0 when the map has none, and its increment is taken modulo 2^32. -/
def TSelfCheckRequestActor.RetryRequestNodeWhiteboard (S : TSelfCheckRequestActor)
    (ev : EEv) (nodeId : Nat) : Bool × TSelfCheckRequestActor :=
  let count := (THashMap.find S.NodeRetries (nodeId, ev)).getD 0
  let S := { S with
    NodeRetries := THashMap.set S.NodeRetries (nodeId, ev) ((count + 1) % 2 ^ 32) }
  if count < MaxRetries then
    (true, { S with Scheduled := S.Scheduled ++ [(nodeId, ev)] })
  else (false, S)

/-- The block of the system state request in the handlers of TEvUndelivered
and of TEvNodeDisconnected (lines 788-794 and 826-832). -/
def TSelfCheckRequestActor.FailedSystemState (Y : TActorExternal) (now : TNow)
    (S : TSelfCheckRequestActor) (nodeId : Nat) : TSelfCheckRequestActor :=
  if nodeId ∈ S.NodeIds ∧ nodeId ∉ S.NodeSystemState.map Prod.fst then
    let r := S.RetryRequestNodeWhiteboard EEv.EvSystemStateRequest nodeId
    if !r.1 then
      let S := r.2
      let S := { S with NodeSystemState := THashMap.emplace S.NodeSystemState nodeId none }
      let S := S.RequestDone Y now
      { S with UnavailableComputeNodes := TNodeSetInsert S.UnavailableComputeNodes nodeId }
    else r.2
  else S

/-- The block of the vdisk state request (lines 797-803 and 833-839). -/
def TSelfCheckRequestActor.FailedVDiskState (Y : TActorExternal) (now : TNow)
    (S : TSelfCheckRequestActor) (nodeId : Nat) : TSelfCheckRequestActor :=
  if nodeId ∈ S.StorageNodeIds ∧ nodeId ∉ S.NodeVDiskState.map Prod.fst then
    let r := S.RetryRequestNodeWhiteboard EEv.EvVDiskStateRequest nodeId
    if !r.1 then
      let S := r.2
      let S := { S with NodeVDiskState := THashMap.emplace S.NodeVDiskState nodeId none }
      let S := S.RequestDone Y now
      { S with UnavailableStorageNodes := TNodeSetInsert S.UnavailableStorageNodes nodeId }
    else r.2
  else S

/-- The block of the pdisk state request (lines 806-812 and 840-846). -/
def TSelfCheckRequestActor.FailedPDiskState (Y : TActorExternal) (now : TNow)
    (S : TSelfCheckRequestActor) (nodeId : Nat) : TSelfCheckRequestActor :=
  if nodeId ∈ S.StorageNodeIds ∧ nodeId ∉ S.NodePDiskState.map Prod.fst then
    let r := S.RetryRequestNodeWhiteboard EEv.EvPDiskStateRequest nodeId
    if !r.1 then
      let S := r.2
      let S := { S with NodePDiskState := THashMap.emplace S.NodePDiskState nodeId none }
      let S := S.RequestDone Y now
      { S with UnavailableStorageNodes := TNodeSetInsert S.UnavailableStorageNodes nodeId }
    else r.2
  else S

/-- The block of the bsgroup state request (lines 815-820 and 847-852). -/
def TSelfCheckRequestActor.FailedBSGroupState (Y : TActorExternal) (now : TNow)
    (S : TSelfCheckRequestActor) (nodeId : Nat) : TSelfCheckRequestActor :=
  if nodeId ∈ S.StorageNodeIds ∧ nodeId ∉ S.NodeBSGroupState.map Prod.fst then
    let r := S.RetryRequestNodeWhiteboard EEv.EvBSGroupStateRequest nodeId
    if !r.1 then
      let S := r.2
      let S := { S with NodeBSGroupState := THashMap.emplace S.NodeBSGroupState nodeId none }
      S.RequestDone Y now
    else r.2
  else S

/-- The handler of TEvUndelivered (line 785). The node id is the cookie
cut to 32 bits (line 786). -/
def TSelfCheckRequestActor.HandleUndelivered (Y : TActorExternal) (now : TNow)
    (S : TSelfCheckRequestActor) (Cookie : Nat) (SourceType : EEv) : TSelfCheckRequestActor :=
  let nodeId := Cookie % 2 ^ 32
  let S := if SourceType = EEv.EvSystemStateRequest then S.FailedSystemState Y now nodeId else S
  let S := if SourceType = EEv.EvVDiskStateRequest then S.FailedVDiskState Y now nodeId else S
  let S := if SourceType = EEv.EvPDiskStateRequest then S.FailedPDiskState Y now nodeId else S
  if SourceType = EEv.EvBSGroupStateRequest then S.FailedBSGroupState Y now nodeId else S

/-- Disconnected (line 824). -/
def TSelfCheckRequestActor.Disconnected (Y : TActorExternal) (now : TNow)
    (S : TSelfCheckRequestActor) (NodeId : Nat) : TSelfCheckRequestActor :=
  let nodeId := NodeId
  let S := S.FailedSystemState Y now nodeId
  let S := S.FailedVDiskState Y now nodeId
  let S := S.FailedPDiskState Y now nodeId
  S.FailedBSGroupState Y now nodeId

/-- The handler of TEvClientConnected (line 858): one RequestDone per
request in flight to the tablet. -/
def TSelfCheckRequestActor.HandleClientConnected (Y : TActorExternal) (now : TNow)
    (S : TSelfCheckRequestActor) (ok : Bool) (TabletId : Nat) : TSelfCheckRequestActor :=
  if !ok then
    S.TabletRequests.RequestsInFlight.foldl
      (fun S entry => if entry.2.TabletId = TabletId then S.RequestDone Y now else S) S
  else S

/-- HandleTimeout (line 869). -/
def TSelfCheckRequestActor.HandleTimeout (Y : TActorExternal) (now : TNow)
    (S : TSelfCheckRequestActor) : TSelfCheckRequestActor :=
  S.ReplyAndPassAway Y now.Instant

/-- IsStaticNode (line 873). -/
def IsStaticNode (Y : TActorExternal) (nodeInfo : TNodeInfo) : Bool :=
  match Y.MaxStaticNodeId with
  | some MaxStaticNodeId => decide (nodeInfo.NodeId ≤ MaxStaticNodeId)
  | none => true

/-- `DatabaseState[path]` (lines 888, 927, 1018, 1031): the entry of the
path, created when DatabaseState has none. -/
def TSelfCheckRequestActor.DatabaseStateAt (S : TSelfCheckRequestActor) (path : String) :
    TDatabaseState :=
  (THashMap.find S.DatabaseState path).getD {}

/-- The handler of TEvNodesInfo (line 882). -/
def TSelfCheckRequestActor.HandleNodesInfo (Y : TActorExternal) (now : TNow)
    (S : TSelfCheckRequestActor) (Nodes : List TNodeInfo) : TSelfCheckRequestActor :=
  let needComputeFromStaticNodes := !IsSpecificDatabaseFilter S.toTSelfCheckRequest
  let S := Nodes.foldl
    (fun (S : TSelfCheckRequestActor) ni =>
      let S := { S with MergedNodeInfo := THashMap.set S.MergedNodeInfo ni.NodeId ni }
      if IsStaticNode Y ni ∧ needComputeFromStaticNodes then
        let state := S.DatabaseStateAt S.DomainPath
        let S := { S with DatabaseState := (THashMap.set S.DatabaseState S.DomainPath
          { state with ComputeNodeIds := state.ComputeNodeIds ++ [ni.NodeId] }) }
        S.RequestComputeNode ni.NodeId
      else S)
    S
  S.RequestDone Y now

/-- `TabletRequests.CompleteRequest(ev->Cookie)` on the actor: the tablet id
and the actor. -/
def TSelfCheckRequestActor.CompleteRequest (now : TNow) (S : TSelfCheckRequestActor)
    (Cookie : Nat) : Nat × TSelfCheckRequestActor :=
  let r := S.TabletRequests.CompleteRequest Cookie now.Monotonic
  (r.1, { S with TabletRequests := r.2 })

/-- The handler of TEvControllerConfigResponse (line 895). -/
def TSelfCheckRequestActor.HandleControllerConfigResponse (Y : TActorExternal) (now : TNow)
    (S : TSelfCheckRequestActor) (Cookie : Nat) (BaseConfig : Option TBaseConfig) :
    TSelfCheckRequestActor :=
  let S := (S.CompleteRequest now Cookie).2
  let S :=
    match BaseConfig with
    | some pbConfig =>
      let S := pbConfig.PDisk.foldl
        (fun (S : TSelfCheckRequestActor) (pDisk : TBaseConfig.TPDisk) =>
          S.RequestStorageNode pDisk.nodeid) S
      { S with BaseConfig := some pbConfig }
    | none => S
  S.RequestDone Y now

/-- The pool state `StoragePoolState[storagePoolName]` (lines 587, 916, 931,
1263): the entry of the name, created when the map has none. -/
def TSelfCheckRequestActor.StoragePoolStateAt (S : TSelfCheckRequestActor)
    (storagePoolName : String) : TStoragePoolState :=
  (THashMap.find S.StoragePoolState storagePoolName).getD {}

/-- The handler of TEvControllerSelectGroupsResult (line 911). -/
def TSelfCheckRequestActor.HandleControllerSelectGroupsResult (Y : TActorExternal)
    (now : TNow) (S : TSelfCheckRequestActor) (Cookie : Nat)
    (matchinggroups : List (List (String × Nat))) : TSelfCheckRequestActor :=
  let S := (S.CompleteRequest now Cookie).2
  let S := matchinggroups.foldl
    (fun S groups =>
      groups.foldl
        (fun (S : TSelfCheckRequestActor) group =>
          let pool := S.StoragePoolStateAt group.1
          let pool := { pool with Groups := TNodeSetInsert pool.Groups group.2 }
          let pool := { pool with AuthenticGroups := TNodeSetInsert pool.AuthenticGroups group.2 }
          { S with StoragePoolState := (THashMap.set S.StoragePoolState group.1 pool) })
        S)
    S
  S.RequestDone Y now

/-- RequestDescribe (line 649). -/
def TSelfCheckRequestActor.RequestDescribe (now : TNow) (S : TSelfCheckRequestActor)
    (schemeShardId : Nat) (path : String) : TSelfCheckRequestActor :=
  S.RequestTabletPipe now schemeShardId ("TEvDescribeScheme:" ++ path)

/-- RequestHiveInfo (line 659). -/
def TSelfCheckRequestActor.RequestHiveInfo (now : TNow) (S : TSelfCheckRequestActor)
    (hiveId : Nat) : TSelfCheckRequestActor :=
  S.RequestTabletPipe now hiveId "TEvRequestHiveInfo"

/-- RequestHiveNodeStats (line 672). -/
def TSelfCheckRequestActor.RequestHiveNodeStats (now : TNow) (S : TSelfCheckRequestActor)
    (hiveId : Nat) : TSelfCheckRequestActor :=
  S.RequestTabletPipe now hiveId "TEvRequestHiveNodeStats"

/-- RequestTenantStatus (line 677). -/
def TSelfCheckRequestActor.RequestTenantStatus (now : TNow) (S : TSelfCheckRequestActor)
    (path : String) : TSelfCheckRequestActor :=
  S.RequestTabletPipe now S.ConsoleId ("TEvGetTenantStatusRequest:" ++ path)

/-- RequestListTenants (line 683). -/
def TSelfCheckRequestActor.RequestListTenants (now : TNow) (S : TSelfCheckRequestActor) :
    TSelfCheckRequestActor :=
  S.RequestTabletPipe now S.ConsoleId "TEvListTenantsRequest"

/-- RequestSelectGroups (line 688). -/
def TSelfCheckRequestActor.RequestSelectGroups (now : TNow) (S : TSelfCheckRequestActor)
    (storagePoolName : String) : TSelfCheckRequestActor :=
  S.RequestTabletPipe now S.BsControllerId ("TEvControllerSelectGroups:" ++ storagePoolName)

/-- RequestConfig (line 695). -/
def TSelfCheckRequestActor.RequestConfig (now : TNow) (S : TSelfCheckRequestActor) :
    TSelfCheckRequestActor :=
  S.RequestTabletPipe now S.BsControllerId "TEvControllerConfigRequest"

/-- The handler of TEvDescribeSchemeResult (line 923). -/
def TSelfCheckRequestActor.HandleDescribeSchemeResult (Y : TActorExternal) (now : TNow)
    (S : TSelfCheckRequestActor) (Cookie : Nat) (Record : TEvDescribeSchemeResult) :
    TSelfCheckRequestActor :=
  let S := (S.CompleteRequest now Cookie).2
  let S :=
    if Record.success then
      let path := Record.path
      let S := { S with DatabaseState := THashMap.set S.DatabaseState path (S.DatabaseStateAt path) }
      let S := Record.storagepools.foldl
        (fun (S : TSelfCheckRequestActor) storagePool =>
          let state := S.DatabaseStateAt path
          let S := { S with DatabaseState := (THashMap.set S.DatabaseState path
            { state with StoragePoolNames := state.StoragePoolNames ++ [storagePool.1] }) }
          let pool := S.StoragePoolStateAt storagePool.1
          let S := { S with StoragePoolState := (THashMap.set S.StoragePoolState storagePool.1
            { pool with Kind := storagePool.2 }) }
          S.RequestSelectGroups now storagePool.1)
        S
      let S :=
        if path = S.DomainPath then
          let state := S.DatabaseStateAt path
          { S with DatabaseState := (THashMap.set S.DatabaseState path
            { state with StoragePoolNames := state.StoragePoolNames ++ [STATIC_STORAGE_POOL_NAME] }) }
        else S
      let state := S.DatabaseStateAt path
      { S with DatabaseState := (THashMap.set S.DatabaseState path
        { state with StorageUsage := Record.totalsize
                     StorageQuota := Record.data_size_hard_quota }) }
    else S
  S.RequestDone Y now

/-- The tablet state `TabletRequests.TabletStates[tabletId]` with its
database and its type set (lines 515-516, 959-960, 971-972). -/
def TSelfCheckRequestActor.SetTabletState (S : TSelfCheckRequestActor) (tabletId : Nat)
    (Database Type_ : String) : TSelfCheckRequestActor :=
  let state := (THashMap.find S.TabletRequests.TabletStates tabletId).getD {}
  { S with
    TabletRequests.TabletStates := THashMap.set S.TabletRequests.TabletStates tabletId
      { state with Database := Database, Type_ := Type_ } }

/-- The handler of TEvNavigateKeySetResult (line 945). -/
def TSelfCheckRequestActor.HandleNavigateKeySetResult (Y : TActorExternal) (now : TNow)
    (S : TSelfCheckRequestActor) (entry : Option TNavigateEntry) : TSelfCheckRequestActor :=
  let S :=
    match entry with
    | some domainInfo =>
      let path := domainInfo.Path
      let S :=
        if domainInfo.DomainKey ≠ domainInfo.ResourcesDomainKey then
          let S :=
            if domainInfo.ResourcesDomainKey ∉ S.SharedDatabases.map Prod.fst then
              let S := { S with
                SharedDatabases := S.SharedDatabases ++ [(domainInfo.ResourcesDomainKey, path)] }
              S.RequestSchemeCacheNavigate
            else S
          let state := S.DatabaseStateAt path
          { S with DatabaseState := (THashMap.set S.DatabaseState path
            { state with ResourcePathId :=
                (if Y.PathIdValid domainInfo.ResourcesDomainKey then
                  some domainInfo.ResourcesDomainKey
                else none) }) }
        else S
      let hiveId := domainInfo.Hive
      let S :=
        if hiveId ≠ 0 then
          let S := { S with DatabaseState := (THashMap.set S.DatabaseState path
            (S.DatabaseStateAt path)) }
          let S := S.SetTabletState hiveId path "Hive"
          let S := S.RequestHiveNodeStats now hiveId
          S.RequestHiveInfo now hiveId
        else S
      let S := { S with FilterDomainKey := THashMap.set S.FilterDomainKey domainInfo.DomainKey path }
      let schemeShardId := domainInfo.SchemeShard
      let r : Nat × TSelfCheckRequestActor :=
        if schemeShardId = 0 then (S.RootSchemeShardId, S)
        else (schemeShardId, S.SetTabletState schemeShardId path "SchemeShard")
      r.2.RequestDescribe now r.1 path
    | none => S
  S.RequestDone Y now

/-- The handler of TEvResponseHiveDomainStats (line 979). -/
def TSelfCheckRequestActor.HandleResponseHiveDomainStats (Y : TActorExternal) (now : TNow)
    (S : TSelfCheckRequestActor) (Cookie : Nat) (DomainStats : List (List Nat)) :
    TSelfCheckRequestActor :=
  let S := (S.CompleteRequest now Cookie).2
  let S := DomainStats.foldl
    (fun S NodeIds =>
      NodeIds.foldl (fun (S : TSelfCheckRequestActor) nodeId => S.RequestComputeNode nodeId) S)
    S
  S.RequestDone Y now

/-- The handler of TEvResponseHiveNodeStats (line 990). -/
def TSelfCheckRequestActor.HandleResponseHiveNodeStats (Y : TActorExternal) (now : TNow)
    (S : TSelfCheckRequestActor) (Cookie : Nat) (NodeStats : List THiveNodeStats) :
    TSelfCheckRequestActor :=
  let r := S.CompleteRequest now Cookie
  let hiveId := r.1
  let S := r.2
  let S := NodeStats.foldl
    (fun (S : TSelfCheckRequestActor) hiveStat => S.RequestComputeNode hiveStat.NodeId) S
  let S := { S with HiveNodeStats := THashMap.set S.HiveNodeStats hiveId (some NodeStats) }
  S.RequestDone Y now

/-- The handler of TEvResponseHiveInfo (line 999). -/
def TSelfCheckRequestActor.HandleResponseHiveInfo (Y : TActorExternal) (now : TNow)
    (S : TSelfCheckRequestActor) (Cookie : Nat) (Record : TEvResponseHiveInfo) :
    TSelfCheckRequestActor :=
  let r := S.CompleteRequest now Cookie
  let hiveId := r.1
  let S := r.2
  let S := { S with HiveInfo := THashMap.set S.HiveInfo hiveId (some Record) }
  S.RequestDone Y now

/-- The handler of TEvGetTenantStatusResponse (line 1005). -/
def TSelfCheckRequestActor.HandleGetTenantStatusResponse (Y : TActorExternal) (now : TNow)
    (S : TSelfCheckRequestActor) (Cookie : Nat) (result : Option (String × Bool)) :
    TSelfCheckRequestActor :=
  let S := (S.CompleteRequest now Cookie).2
  let S :=
    match result with
    | some getTenantStatusResult =>
      let path := getTenantStatusResult.1
      let ignoreServerlessDatabases := !IsSpecificDatabaseFilter S.toTSelfCheckRequest
      if getTenantStatusResult.2 ∧ ignoreServerlessDatabases then
        { S with DatabaseState := THashMap.erase S.DatabaseState path }
      else
        let S := { S with DatabaseState := (THashMap.set S.DatabaseState path
          (S.DatabaseStateAt path)) }
        S.RequestSchemeCacheNavigate
    | none => S
  S.RequestDone Y now

/-- The handler of TEvListTenantsResponse (line 1025). -/
def TSelfCheckRequestActor.HandleListTenantsResponse (Y : TActorExternal) (now : TNow)
    (S : TSelfCheckRequestActor) (Cookie : Nat) (paths : List String) :
    TSelfCheckRequestActor :=
  let S := (S.CompleteRequest now Cookie).2
  let S := paths.foldl
    (fun (S : TSelfCheckRequestActor) path =>
      let S := S.RequestTenantStatus now path
      { S with DatabaseState := (THashMap.set S.DatabaseState path (S.DatabaseStateAt path)) })
    S
  S.RequestDone Y now

/-- What the handler of TEvSystemStateResponse does with a response it
takes (lines 1039-1044): the response is kept for the node, and every state
of it, the node id written into it, becomes the merged state of the node. -/
def TSelfCheckRequestActor.StoreSystemState (S : TSelfCheckRequestActor) (nodeId : Nat)
    (SystemStateInfo : List TSystemStateInfo) : TSelfCheckRequestActor :=
  let nodeSystemState := SystemStateInfo.map (fun state => { state with nodeid := nodeId })
  let S := { S with
    NodeSystemState := THashMap.set S.NodeSystemState nodeId (some nodeSystemState) }
  nodeSystemState.foldl
    (fun (S : TSelfCheckRequestActor) state =>
      { S with MergedNodeSystemState := THashMap.set S.MergedNodeSystemState nodeId state })
    S

/-- The handler of TEvSystemStateResponse (line 1036). The node id is the
cookie cut to the 32 bits of a TNodeId. -/
def TSelfCheckRequestActor.HandleSystemStateResponse (Y : TActorExternal) (now : TNow)
    (S : TSelfCheckRequestActor) (Cookie : Nat) (SystemStateInfo : List TSystemStateInfo) :
    TSelfCheckRequestActor :=
  let nodeId := Cookie % 2 ^ 32
  if nodeId ∉ S.NodeSystemState.map Prod.fst then
    (S.StoreSystemState nodeId SystemStateInfo).RequestDone Y now
  else S

/-- What the handler of TEvVDiskStateResponse does with a response it takes
(lines 1222-1228). -/
def TSelfCheckRequestActor.StoreVDiskState (S : TSelfCheckRequestActor) (nodeId : Nat)
    (VDiskStateInfo : List TVDiskStateInfo) : TSelfCheckRequestActor :=
  let nodeVDiskState := VDiskStateInfo.map (fun state => { state with nodeid := nodeId })
  let S := { S with
    NodeVDiskState := THashMap.set S.NodeVDiskState nodeId (some nodeVDiskState) }
  nodeVDiskState.foldl
    (fun (S : TSelfCheckRequestActor) state =>
      { S with
        MergedVDiskState := THashMap.set S.MergedVDiskState (GetVDiskId state.vdiskid) state })
    S

/-- The handler of TEvVDiskStateResponse (line 1219). -/
def TSelfCheckRequestActor.HandleVDiskStateResponse (Y : TActorExternal) (now : TNow)
    (S : TSelfCheckRequestActor) (Cookie : Nat) (VDiskStateInfo : List TVDiskStateInfo) :
    TSelfCheckRequestActor :=
  let nodeId := Cookie % 2 ^ 32
  if nodeId ∉ S.NodeVDiskState.map Prod.fst then
    (S.StoreVDiskState nodeId VDiskStateInfo).RequestDone Y now
  else S

/-- What the handler of TEvPDiskStateResponse does with a response it takes
(lines 1236-1242). -/
def TSelfCheckRequestActor.StorePDiskState (S : TSelfCheckRequestActor) (nodeId : Nat)
    (PDiskStateInfo : List TPDiskStateInfo) : TSelfCheckRequestActor :=
  let nodePDiskState := PDiskStateInfo.map (fun state => { state with nodeid := nodeId })
  let S := { S with
    NodePDiskState := THashMap.set S.NodePDiskState nodeId (some nodePDiskState) }
  nodePDiskState.foldl
    (fun (S : TSelfCheckRequestActor) state =>
      { S with MergedPDiskState := THashMap.set S.MergedPDiskState state.GetPDiskId state })
    S

/-- The handler of TEvPDiskStateResponse (line 1233). -/
def TSelfCheckRequestActor.HandlePDiskStateResponse (Y : TActorExternal) (now : TNow)
    (S : TSelfCheckRequestActor) (Cookie : Nat) (PDiskStateInfo : List TPDiskStateInfo) :
    TSelfCheckRequestActor :=
  let nodeId := Cookie % 2 ^ 32
  if nodeId ∉ S.NodePDiskState.map Prod.fst then
    (S.StorePDiskState nodeId PDiskStateInfo).RequestDone Y now
  else S

/-- The body of the loop of the handler of TEvBSGroupStateResponse
(lines 1253-1263) for one state of the record, the node id already written
into it. -/
def TSelfCheckRequestActor.MergeBSGroupState (Y : TActorExternal) (S : TSelfCheckRequestActor)
    (state : TBSGroupStateInfo) : TSelfCheckRequestActor :=
  let storagePoolName := state.storagepoolname
  let S :=
    match THashMap.find S.MergedBSGroupState state.groupid with
    | none => { S with
        MergedBSGroupState := THashMap.set S.MergedBSGroupState state.groupid state }
    | some current =>
      if current.groupgeneration < state.groupgeneration then
        { S with MergedBSGroupState := THashMap.set S.MergedBSGroupState state.groupid state }
      else S
  if storagePoolName = "" ∧ !Y.Static state.groupid then S
  else
    let pool := S.StoragePoolStateAt storagePoolName
    { S with StoragePoolState := (THashMap.set S.StoragePoolState storagePoolName
        { pool with Groups := TNodeSetInsert pool.Groups state.groupid }) }

/-- What the handler of TEvBSGroupStateResponse does with a response it
takes (lines 1250-1264). -/
def TSelfCheckRequestActor.StoreBSGroupState (Y : TActorExternal) (S : TSelfCheckRequestActor)
    (nodeId : Nat) (BSGroupStateInfo : List TBSGroupStateInfo) : TSelfCheckRequestActor :=
  let nodeBSGroupState := BSGroupStateInfo.map (fun state => { state with nodeid := nodeId })
  let S := { S with
    NodeBSGroupState := THashMap.set S.NodeBSGroupState nodeId (some nodeBSGroupState) }
  nodeBSGroupState.foldl (TSelfCheckRequestActor.MergeBSGroupState Y) S

/-- The handler of TEvBSGroupStateResponse (line 1247). The key of
NodeBSGroupState and the node id of a state are 32 bits wide. -/
def TSelfCheckRequestActor.HandleBSGroupStateResponse (Y : TActorExternal) (now : TNow)
    (S : TSelfCheckRequestActor) (Cookie : Nat) (BSGroupStateInfo : List TBSGroupStateInfo) :
    TSelfCheckRequestActor :=
  let nodeId := Cookie % 2 ^ 32
  if nodeId ∉ S.NodeBSGroupState.map Prod.fst then
    (S.StoreBSGroupState Y nodeId BSGroupStateInfo).RequestDone Y now
  else S

/-- StateWait (line 599): the handler of the event. -/
def TSelfCheckRequestActor.StateWait (Y : TActorExternal) (now : TNow)
    (S : TSelfCheckRequestActor) : TEvent → TSelfCheckRequestActor
  | .Undelivered Cookie SourceType => S.HandleUndelivered Y now Cookie SourceType
  | .NodesInfo Nodes => S.HandleNodesInfo Y now Nodes
  | .ListTenantsResponse Cookie paths => S.HandleListTenantsResponse Y now Cookie paths
  | .GetTenantStatusResponse Cookie result => S.HandleGetTenantStatusResponse Y now Cookie result
  | .ResponseHiveDomainStats Cookie DomainStats =>
    S.HandleResponseHiveDomainStats Y now Cookie DomainStats
  | .ResponseHiveNodeStats Cookie NodeStats => S.HandleResponseHiveNodeStats Y now Cookie NodeStats
  | .ResponseHiveInfo Cookie Record => S.HandleResponseHiveInfo Y now Cookie Record
  | .DescribeSchemeResult Cookie Record => S.HandleDescribeSchemeResult Y now Cookie Record
  | .NavigateKeySetResult entry => S.HandleNavigateKeySetResult Y now entry
  | .ControllerSelectGroupsResult Cookie matchinggroups =>
    S.HandleControllerSelectGroupsResult Y now Cookie matchinggroups
  | .ControllerConfigResponse Cookie BaseConfig =>
    S.HandleControllerConfigResponse Y now Cookie BaseConfig
  | .SystemStateResponse Cookie SystemStateInfo =>
    S.HandleSystemStateResponse Y now Cookie SystemStateInfo
  | .VDiskStateResponse Cookie VDiskStateInfo =>
    S.HandleVDiskStateResponse Y now Cookie VDiskStateInfo
  | .PDiskStateResponse Cookie PDiskStateInfo =>
    S.HandlePDiskStateResponse Y now Cookie PDiskStateInfo
  | .BSGroupStateResponse Cookie BSGroupStateInfo =>
    S.HandleBSGroupStateResponse Y now Cookie BSGroupStateInfo
  | .NodeDisconnected NodeId => S.Disconnected Y now NodeId
  | .ClientDestroyed => S
  | .ClientConnected ok TabletId => S.HandleClientConnected Y now ok TabletId
  | .RetryNodeWhiteboard NodeId EventId => S.HandleRetryNodeWhiteboard Y now NodeId EventId
  | .Wakeup => S.HandleTimeout Y now

/-- The delivery of an event at the time `e.1`: an actor that has passed
away receives nothing. -/
def TSelfCheckRequestActor.Receive (Y : TActorExternal) (S : TSelfCheckRequestActor)
    (e : TNow × TEvent) : TSelfCheckRequestActor :=
  if S.PassedAway then S else S.StateWait Y e.1 e.2

/-- The actor after a sequence of events, each with the time of its
delivery. -/
def TSelfCheckRequestActor.Run (Y : TActorExternal) (S : TSelfCheckRequestActor)
    (events : List (TNow × TEvent)) : TSelfCheckRequestActor :=
  events.foldl (TSelfCheckRequestActor.Receive Y) S

/-- The loop of Bootstrap over the pdisks of the static configuration
(lines 552-567), one step. -/
def TSelfCheckRequestActor.BootstrapPDisk (S : TSelfCheckRequestActor)
    (pDisk : TNodeWardenServiceSet.TPDisk) : TSelfCheckRequestActor :=
  let pDiskId := pDisk.GetPDiskId
  let S := { S with ValidPDisks := TSetInsert S.ValidPDisks pDiskId }
  if (THashMap.find S.MergedPDiskState pDiskId).isNone then
    let S := { S with MergedPDiskState := (THashMap.emplace S.MergedPDiskState pDiskId
        { nodeid := pDisk.nodeid, pdiskid := pDisk.pdiskid, path := pDisk.path }) }
    S.RequestStorageNode pDisk.nodeid
  else S

/-- The loop of Bootstrap over the vdisks of the static configuration
(lines 568-580), one step. -/
def TSelfCheckRequestActor.BootstrapVDisk (S : TSelfCheckRequestActor)
    (vDisk : TNodeWardenServiceSet.TVDisk) : TSelfCheckRequestActor :=
  let vDiskId := GetVDiskId vDisk.vdiskid
  let S := { S with ValidVDisks := TSetInsert S.ValidVDisks vDiskId }
  if (THashMap.find S.MergedVDiskState vDiskId).isNone then
    { S with MergedVDiskState := (THashMap.emplace S.MergedVDiskState vDiskId
        { vdiskid := vDisk.vdiskid, nodeid := vDisk.nodeid, pdiskid := vDisk.pdiskid }) }
  else S

/-- The loop of Bootstrap over the groups of the static configuration
(lines 581-592), one step. -/
def TSelfCheckRequestActor.BootstrapGroup (S : TSelfCheckRequestActor)
    (group : TGroupInfo) : TSelfCheckRequestActor :=
  let S := { S with ValidGroups := TNodeSetInsert S.ValidGroups group.groupid }
  let storagePoolName :=
    if group.storagepoolname = "" then STATIC_STORAGE_POOL_NAME else group.storagepoolname
  let pool := S.StoragePoolStateAt storagePoolName
  let S := { S with StoragePoolState := (THashMap.set S.StoragePoolState storagePoolName
    { pool with Groups := TNodeSetInsert pool.Groups group.groupid }) }
  if !IsSpecificDatabaseFilter S.toTSelfCheckRequest then
    let state := S.DatabaseStateAt S.DomainPath
    { S with DatabaseState := (THashMap.set S.DatabaseState S.DomainPath
      { state with StoragePoolNames := state.StoragePoolNames ++ [storagePoolName] }) }
  else S

/-- The block of Bootstrap for the console (lines 514-529). -/
def TSelfCheckRequestActor.BootstrapConsole (now : TNow) (S : TSelfCheckRequestActor) :
    TSelfCheckRequestActor :=
  if S.ConsoleId ≠ 0 then
    let S := S.SetTabletState S.ConsoleId S.DomainPath "Console"
    if S.FilterDatabase = "" then
      let S := S.RequestSchemeCacheNavigate
      S.RequestListTenants now
    else if S.FilterDatabase ≠ S.DomainPath then
      S.RequestTenantStatus now S.FilterDatabase
    else
      S.RequestSchemeCacheNavigate
  else S

/-- The block of Bootstrap for the root hive (lines 531-537). -/
def TSelfCheckRequestActor.BootstrapHive (now : TNow) (S : TSelfCheckRequestActor) :
    TSelfCheckRequestActor :=
  if S.RootHiveId ≠ 0 then
    let S := S.SetTabletState S.RootHiveId S.DomainPath "Hive"
    let S := S.RequestHiveNodeStats now S.RootHiveId
    S.RequestHiveInfo now S.RootHiveId
  else S

/-- The block of Bootstrap for the root scheme shard (lines 539-543). -/
def TSelfCheckRequestActor.BootstrapSchemeShard (now : TNow) (S : TSelfCheckRequestActor) :
    TSelfCheckRequestActor :=
  if S.RootSchemeShardId ≠ 0 ∧ !IsSpecificDatabaseFilter S.toTSelfCheckRequest then
    let S := S.SetTabletState S.RootSchemeShardId S.DomainPath "SchemeShard"
    S.RequestDescribe now S.RootSchemeShardId S.DomainPath
  else S

/-- The block of Bootstrap for the storage controller (lines 545-549). -/
def TSelfCheckRequestActor.BootstrapBSController (now : TNow) (S : TSelfCheckRequestActor) :
    TSelfCheckRequestActor :=
  if S.BsControllerId ≠ 0 then
    let S := S.SetTabletState S.BsControllerId S.DomainPath "BSController"
    S.RequestConfig now
  else S

/-- The three loops of Bootstrap over the static configuration
(lines 551-592). -/
def TSelfCheckRequestActor.BootstrapStatic (S : TSelfCheckRequestActor)
    (staticConfig : TNodeWardenServiceSet) : TSelfCheckRequestActor :=
  let S := staticConfig.pdisks.foldl TSelfCheckRequestActor.BootstrapPDisk S
  let S := staticConfig.vdisks.foldl TSelfCheckRequestActor.BootstrapVDisk S
  staticConfig.groups.foldl TSelfCheckRequestActor.BootstrapGroup S

/-- The actor as its constructor leaves it (line 93) and with the members
Bootstrap sets first (lines 501-512). -/
def TSelfCheckRequestActor.ctor (app : TAppData) (Request : TEvSelfCheckRequest)
    (Database : String) : TSelfCheckRequestActor :=
  { Request := Request
    FilterDatabase := Database
    DomainPath := "/" ++ app.DomainName
    RootSchemeShardId := app.SchemeRoot
    ConsoleId := app.ConsoleId
    RootHiveId := app.RootHiveId
    BsControllerId := app.BsControllerId }

/-- Bootstrap (line 500) of the actor built for the request `Request` of the
database `Database`, at the time `now`; the last step is the request for the
list of nodes (lines 593-594). -/
def Bootstrap (app : TAppData) (Request : TEvSelfCheckRequest) (Database : String)
    (now : TNow) : TSelfCheckRequestActor :=
  let S := TSelfCheckRequestActor.ctor app Request Database
  let S := S.BootstrapConsole now
  let S := S.BootstrapHive now
  let S := S.BootstrapSchemeShard now
  let S := S.BootstrapBSController now
  let S := S.BootstrapStatic app.StaticBlobStorageConfig
  { S with Requests := S.Requests + 1 }

/-! ### The rules of the specification for the orchestrator -/

/-- The rule of the specification for a system tablet, in its words: RED
when the tablet is unresponsive, else ORANGE when its maximum response time
is at least 5000 ms, else YELLOW when it is at least 1000 ms, else nothing.
The response time is in microseconds; the messages are those of
lines 1315-1319. -/
def SystemTabletRule (tablet : TTabletState) : Option (Status × String) :=
  if tablet.IsUnresponsive then some (Status.RED, "System tablet is unresponsive")
  else if 5000 * 1000 ≤ tablet.MaxResponseTime then
    some (Status.ORANGE, "System tablet response time is over 5000ms")
  else if 1000 * 1000 ≤ tablet.MaxResponseTime then
    some (Status.YELLOW, "System tablet response time is over 1000ms")
  else none

/-- What the specification has FillSystemTablets report for the database
`databaseId`: for every tracked tablet of that database to which the rule
gives an issue, in the order of the tablets, the tablet id, the status and
the message. -/
def SystemTabletReports (databaseId : String) (tablets : List (Nat × TTabletState)) :
    List (Nat × Status × String) :=
  (tablets.filter (fun e => decide (e.2.Database = databaseId))).filterMap
    (fun e => (SystemTabletRule e.2).map (fun r => (e.1, r)))

/-- What a theorem reads of an issue record of a system tablet: the tag, the
status, the message and the tablet ids of the location. -/
def TabletIssueView (r : TIssueRecord) : ETags × Status × String × List String :=
  (r.Tag, r.IssueLog.status, r.IssueLog.message, r.IssueLog.location.compute.tablet.id)

/-- The states and counts of the tablet buckets a database has for the
tablets without node. -/
def BucketStates (S : TSelfCheckRequestActor) (path : String) : List (ETabletState × Nat) :=
  ((THashMap.find (S.DatabaseStateAt path).MergedNodeTabletState 0).getD {}).Count.map
    (fun c => (c.State, c.Count))

/-! ### What the aggregation leaves -/

/-- The members of the actor that the three Aggregate calls do not write
(they write DatabaseState, the three valid sets and the three merged storage
maps). -/
structure TLedger where
  Request : TEvSelfCheckRequest
  Requests : Int
  NodeIds : List Nat
  StorageNodeIds : List Nat
  ComputeNodeIds : List Nat
  NodeRetries : List ((Nat × EEv) × Nat)
  NodeSystemState : List (Nat × Option (List TSystemStateInfo))
  NodeVDiskState : List (Nat × Option (List TVDiskStateInfo))
  NodePDiskState : List (Nat × Option (List TPDiskStateInfo))
  NodeBSGroupState : List (Nat × Option (List TBSGroupStateInfo))
  MergedNodeSystemState : List (Nat × TSystemStateInfo)
  StoragePoolState : List (String × TStoragePoolState)
  UnavailableStorageNodes : List Nat
  UnavailableComputeNodes : List Nat
  TabletRequests : TTabletRequestsState
  BaseConfig : Option TBaseConfig
  Sent : List (Nat × EEv)
  Subscribed : List Nat
  Scheduled : List (Nat × EEv)
  Responses : List SelfCheckResult
  PassedAway : Bool

/-- The ledger of an actor. -/
def TSelfCheckRequestActor.Ledger (S : TSelfCheckRequestActor) : TLedger :=
  { Request := S.Request
    Requests := S.Requests
    NodeIds := S.NodeIds
    StorageNodeIds := S.StorageNodeIds
    ComputeNodeIds := S.ComputeNodeIds
    NodeRetries := S.NodeRetries
    NodeSystemState := S.NodeSystemState
    NodeVDiskState := S.NodeVDiskState
    NodePDiskState := S.NodePDiskState
    NodeBSGroupState := S.NodeBSGroupState
    MergedNodeSystemState := S.MergedNodeSystemState
    StoragePoolState := S.StoragePoolState
    UnavailableStorageNodes := S.UnavailableStorageNodes
    UnavailableComputeNodes := S.UnavailableComputeNodes
    TabletRequests := S.TabletRequests
    BaseConfig := S.BaseConfig
    Sent := S.Sent
    Subscribed := S.Subscribed
    Scheduled := S.Scheduled
    Responses := S.Responses
    PassedAway := S.PassedAway }

/-! ### The members only the handlers write -/

/-- The members of the actor that neither the aggregation nor the evaluation
writes. -/
structure TOwn where
  Requests : Int
  StorageNodeIds : List Nat
  ComputeNodeIds : List Nat
  NodeRetries : List ((Nat × EEv) × Nat)
  NodeSystemState : List (Nat × Option (List TSystemStateInfo))
  NodeVDiskState : List (Nat × Option (List TVDiskStateInfo))
  NodePDiskState : List (Nat × Option (List TPDiskStateInfo))
  NodeBSGroupState : List (Nat × Option (List TBSGroupStateInfo))
  UnavailableComputeNodes : List Nat
  BaseConfig : Option TBaseConfig
  Sent : List (Nat × EEv)
  Subscribed : List Nat
  Scheduled : List (Nat × EEv)

/-- The part of a ledger that the evaluation does not write either. -/
def TLedger.Own (L : TLedger) : TOwn :=
  { Requests := L.Requests
    StorageNodeIds := L.StorageNodeIds
    ComputeNodeIds := L.ComputeNodeIds
    NodeRetries := L.NodeRetries
    NodeSystemState := L.NodeSystemState
    NodeVDiskState := L.NodeVDiskState
    NodePDiskState := L.NodePDiskState
    NodeBSGroupState := L.NodeBSGroupState
    UnavailableComputeNodes := L.UnavailableComputeNodes
    BaseConfig := L.BaseConfig
    Sent := L.Sent
    Subscribed := L.Subscribed
    Scheduled := L.Scheduled }

/-- The end of ReplyAndPassAway on the result of the evaluation
(lines 2393-2413): the database statuses are dropped unless the request asks
for them, and the issue log is filtered. -/
def Trim (request : TEvSelfCheckRequest) (result : SelfCheckResult) : SelfCheckResult :=
  let result :=
    if !request.return_verbose_status then { result with database_status := [] }
    else result
  { result with issue_log := FilterIssueLog request result.issue_log }

/-- The tablet ids of the requests in flight. -/
def TTabletRequestsState.InFlight (t : TTabletRequestsState) : List Nat :=
  t.RequestsInFlight.map (fun entry => entry.2.TabletId)

/-- A sequence of calls of RequestStorageNode (`true`) and RequestComputeNode
(`false`) on an actor. -/
def RequestNodes (S : TSelfCheckRequestActor) (calls : List (Bool × Nat)) :
    TSelfCheckRequestActor :=
  calls.foldl
    (fun A c => if c.1 then A.RequestStorageNode c.2 else A.RequestComputeNode c.2) S

/-! ### The node sets the evaluation reads -/

/-- The node ids and the unavailable storage nodes of a request: the
evaluation reads them and leaves them. -/
def TSelfCheckRequest.NodeSets (S : TSelfCheckRequest) : List Nat × List Nat :=
  (S.NodeIds, S.UnavailableStorageNodes)

/-- The number of retries RetryRequestNodeWhiteboard has counted for a node
and a request type (0 when NodeRetries has no entry). -/
def TSelfCheckRequestActor.Retries (S : TSelfCheckRequestActor) (ev : EEv) (nodeId : Nat) :
    Nat :=
  (THashMap.find S.NodeRetries (nodeId, ev)).getD 0

/-! ### What the handlers keep of the retries and of the valid sets -/

/-- The members the retries are about. -/
structure TRetry where
  NodeRetries : List ((Nat × EEv) × Nat)
  Scheduled : List (Nat × EEv)
  NodeSystemState : List (Nat × Option (List TSystemStateInfo))
  NodeVDiskState : List (Nat × Option (List TVDiskStateInfo))
  NodePDiskState : List (Nat × Option (List TPDiskStateInfo))
  NodeBSGroupState : List (Nat × Option (List TBSGroupStateInfo))

/-- The members the retries are about, of the members only the handlers
write. -/
def TOwn.Retry (O : TOwn) : TRetry :=
  { NodeRetries := O.NodeRetries
    Scheduled := O.Scheduled
    NodeSystemState := O.NodeSystemState
    NodeVDiskState := O.NodeVDiskState
    NodePDiskState := O.NodePDiskState
    NodeBSGroupState := O.NodeBSGroupState }

/-- The three valid sets and the flag of an actor that has passed away. -/
structure TSeal where
  ValidPDisks : List String
  ValidVDisks : List String
  ValidGroups : List Nat
  PassedAway : Bool

/-- The valid sets and the flag of an actor. -/
def TSelfCheckRequestActor.Seal (S : TSelfCheckRequestActor) : TSeal :=
  { ValidPDisks := S.ValidPDisks
    ValidVDisks := S.ValidVDisks
    ValidGroups := S.ValidGroups
    PassedAway := S.PassedAway }

/-- A step of a handler that writes neither the members of the retries nor
the valid sets nor the flag. -/
def Hush (S S2 : TSelfCheckRequestActor) : Prop :=
  S2.Ledger.Own.Retry = S.Ledger.Own.Retry ∧ S2.Seal = S.Seal

/-- A handler that is made of such steps and of calls of RequestDone. -/
inductive Quietly (Y : TActorExternal) : TSelfCheckRequestActor → TSelfCheckRequestActor → Prop
  | refl (S : TSelfCheckRequestActor) : Quietly Y S S
  | step {S S2 S3 : TSelfCheckRequestActor} : Quietly Y S S2 → Hush S2 S3 → Quietly Y S S3
  | done {S S2 : TSelfCheckRequestActor} (now : TNow) :
    Quietly Y S S2 → Quietly Y S (S2.RequestDone Y now)

/-- What every handler keeps: an actor that has passed away stays so, and
the valid sets of an actor that has not passed away are those it had. -/
def Calm (S S2 : TSelfCheckRequestActor) : Prop :=
  (S.PassedAway = true → S2.PassedAway = true) ∧
  (S2.PassedAway = false →
    S2.ValidPDisks = S.ValidPDisks ∧ S2.ValidVDisks = S.ValidVDisks ∧
      S2.ValidGroups = S.ValidGroups)

/-- The number of calls of RetryRequestNodeWhiteboard counted for a node and
a request type (0 when NodeRetries has no entry). -/
def TRetry.Retries (R : TRetry) (ev : EEv) (nodeId : Nat) : Nat :=
  (THashMap.find R.NodeRetries (nodeId, ev)).getD 0

/-- The nodes that have a record for a request type: a response, or the
empty record written at the end of the retries. -/
def TRetry.Recorded (R : TRetry) : EEv → List Nat
  | EEv.EvSystemStateRequest => R.NodeSystemState.map Prod.fst
  | EEv.EvVDiskStateRequest => R.NodeVDiskState.map Prod.fst
  | EEv.EvPDiskStateRequest => R.NodePDiskState.map Prod.fst
  | EEv.EvBSGroupStateRequest => R.NodeBSGroupState.map Prod.fst
  | EEv.EvOther => []

/-- What the handlers keep of the retries: for every node and request type
RetryRequestNodeWhiteboard was called at most 4 times, a retry is scheduled
for each of the first 3 calls and for no other, and after the fourth call
the node has its record. -/
def TRetry.Inv (R : TRetry) : Prop :=
  ∀ (ev : EEv) (n : Nat),
    R.Retries ev n ≤ 4 ∧ R.Scheduled.count (n, ev) = min (R.Retries ev n) 3 ∧
      (R.Retries ev n = 4 → n ∈ R.Recorded ev)

/-! ### The valid sets and the merged views -/

/-- The pdisk ids of the base config the actor keeps, none when it keeps no
base config. -/
def TSelfCheckRequestActor.BasePDiskIds (S : TSelfCheckRequestActor) : List String :=
  match S.BaseConfig with
  | none => []
  | some pbConfig => pbConfig.PDisk.map TBaseConfig.TPDisk.GetPDiskId

/-- The vdisk ids of the base config the actor keeps. -/
def TSelfCheckRequestActor.BaseVDiskIds (S : TSelfCheckRequestActor) : List String :=
  match S.BaseConfig with
  | none => []
  | some pbConfig => pbConfig.VSlot.map TBaseConfig.TVSlot.GetVDiskId

/-- The group ids of the base config the actor keeps. -/
def TSelfCheckRequestActor.BaseGroupIds (S : TSelfCheckRequestActor) : List Nat :=
  match S.BaseConfig with
  | none => []
  | some pbConfig => pbConfig.Group.map (fun group => group.groupid)

/-- The rule of the specification for a merged view after
AggregateBSControllerState. `valid0` and `merged0` are the valid set and the
merged view before, `base` the ids of the base config, `valid` and `merged`
the valid set and the merged view after: the valid set is the one before
and the ids of the base config; every key of the view is valid; every id of
the base config is a key of the view; the view has no entry for an id that
is not valid; and an entry the view had for a valid id is the entry it
has. -/
def ValidView {K T : Type} [DecidableEq K] (valid0 base : List K) (merged0 : List (K × T))
    (valid : List K) (merged : List (K × T)) : Prop :=
  (∀ id, id ∈ valid ↔ id ∈ valid0 ∨ id ∈ base) ∧
  (∀ id, id ∈ merged.map Prod.fst → id ∈ valid) ∧
  (∀ id, id ∈ base → id ∈ merged.map Prod.fst) ∧
  (∀ id, id ∉ valid → THashMap.find merged id = none) ∧
  (∀ id, id ∈ valid → id ∈ merged0.map Prod.fst →
    THashMap.find merged id = THashMap.find merged0 id)

/-- What a loop of AggregateBSControllerState over the base config does to a
valid set and a merged view: `valid0`, `merged0` before and `valid`,
`merged` after the loop over the entries with the ids `ids`. -/
def Seeded {K T : Type} [DecidableEq K] (valid0 ids : List K) (merged0 : List (K × T))
    (valid : List K) (merged : List (K × T)) : Prop :=
  (∀ id, id ∈ valid ↔ id ∈ valid0 ∨ id ∈ ids) ∧
  (∀ id, id ∈ merged.map Prod.fst ↔ id ∈ merged0.map Prod.fst ∨ id ∈ ids) ∧
  (∀ id, id ∈ merged0.map Prod.fst → THashMap.find merged id = THashMap.find merged0 id)

/-! ### The bsgroup state responses of a set of nodes -/

/-- The events of a list of bsgroup state responses: each response has the
time of its delivery, its cookie and the states of its record. -/
def BSGroupResponses (L : List (TNow × Nat × List TBSGroupStateInfo)) : List (TNow × TEvent) :=
  L.map (fun r => (r.1, TEvent.BSGroupStateResponse r.2.1 r.2.2))

/-- The states a list of bsgroup state responses reports, each with the node
id the handler writes into it. -/
def GroupStates (L : List (TNow × Nat × List TBSGroupStateInfo)) : List TBSGroupStateInfo :=
  L.flatMap (fun r => r.2.2.map (fun state => { state with nodeid := r.2.1 % 2 ^ 32 }))

/-- What the merged group state `m` and the pools `p` are after the states
`sts` were merged into `m0` and `p0`: an entry of `m` is an entry of `m0` or
one of the states; the generation of the entry of a group is at least the
generation of the entry `m0` had and of every state of the group; and the
groups of a pool are those it had and the groups of the states that name the
pool, the states without a pool name of a group that is not static left
out. -/
def Reported (Y : TActorExternal) (m0 m : List (Nat × TBSGroupStateInfo))
    (p0 p : List (String × TStoragePoolState)) (sts : List TBSGroupStateInfo) : Prop :=
  (∀ g e, THashMap.find m g = some e →
    THashMap.find m0 g = some e ∨ ∃ st ∈ sts, st.groupid = g ∧ e = st) ∧
  (∀ g e0, THashMap.find m0 g = some e0 →
    ∃ e, THashMap.find m g = some e ∧ e0.groupgeneration ≤ e.groupgeneration) ∧
  (∀ st ∈ sts, ∃ e, THashMap.find m st.groupid = some e ∧
    st.groupgeneration ≤ e.groupgeneration) ∧
  (∀ name x, x ∈ ((THashMap.find p name).getD {}).Groups ↔
    x ∈ ((THashMap.find p0 name).getD {}).Groups ∨
      ∃ st ∈ sts, st.storagepoolname = name ∧ st.groupid = x ∧
        ¬ (st.storagepoolname = "" ∧ Y.Static st.groupid = false))

/-! ### The rules of the specification for the response filters -/

/-- The rule of the specification for the two response filters: an issue
stays when its status is at least minimum_status (every issue when
minimum_status is UNSPECIFIED) and its level is at most maximum_level (every
issue when maximum_level is 0). -/
def PassesFilters (request : TEvSelfCheckRequest) (it : IssueLog) : Bool :=
  (decide (request.minimum_status = Status.UNSPECIFIED) ||
    decide (request.minimum_status.toNat ≤ it.status.toNat)) &&
  (decide (request.maximum_level = 0) || decide (it.level ≤ request.maximum_level))

/-! ### What the theorems about the truncation speak of -/

/-- The count of a record as the truncation adds it: the field `count`,
0 counting as 1. -/
def CountValue (r : TIssueRecord) : Nat :=
  if r.IssueLog.count = 0 then 1 else r.IssueLog.count

/-- The sum of `count` over a list of records, a record with count = 0
counting as 1. -/
def CountSum (records : List TIssueRecord) : Nat :=
  (records.map CountValue).sum

/-- The number of entries of the location id array RemoveRecordsAboveLimit
cuts for the tag of the record (lines 1986-2012): group ids, vdisk ids or
pdisk entries; 0 for a record of another tag, which has no such array. -/
def LocationIdCount (r : TIssueRecord) : Nat :=
  match r.Tag with
  | .GroupState => r.IssueLog.location.storage.pool.group.id.length
  | .VDiskState => r.IssueLog.location.storage.pool.group.vdisk.id.length
  | .PDiskState => r.IssueLog.location.storage.pool.group.vdisk.pdisk.length
  | _ => 0

/-- Whether an `int` result is in the range of `int`. -/
def InInt32 (i : Int) : Bool :=
  decide (-2147483648 ≤ i) && decide (i < 2147483648)

/-- Whether an iteration of the loop of RemoveRecordsAboveLimit
(lines 1970-2017) stays within the behaviour C++ defines: `it--` has a
record to step back to, the `int` sum it forms is in the range of `int`,
and RemoveLast() is not called on an empty array. -/
def RemoveRecordsAboveLimitStepDefined (st : TLimitState) (it : TIssueRecord) : Bool :=
  if st.commonListed = (MERGER_ISSUE_LIMIT : Int) then
    match st.kept.getLast? with
    | some prev => InInt32 (GetIssueCount prev + GetIssueCount it)
    | none => false
  else if !InInt32 (st.commonListed + GetIssueListed it) then false
  else if st.commonListed + GetIssueListed it > (MERGER_ISSUE_LIMIT : Int) then
    match it.Tag with
    | .GroupState | .VDiskState | .PDiskState =>
      decide (st.commonListed + GetIssueListed it - (MERGER_ISSUE_LIMIT : Int) ≤
        (LocationIdCount it : Int))
    | _ => true
  else true

/-- Whether the loop of RemoveRecordsAboveLimit, from the state `st` over the
records given, stays within the behaviour C++ defines. -/
def RemoveRecordsAboveLimitDefinedLoop : TLimitState → List TIssueRecord → Bool
  | _, [] => true
  | st, it :: rest =>
    RemoveRecordsAboveLimitStepDefined st it &&
      RemoveRecordsAboveLimitDefinedLoop (RemoveRecordsAboveLimitStep st it) rest

/-- Whether RemoveRecordsAboveLimit on one list (line 1968) stays within the
behaviour C++ defines: no `int` sum outside the range of `int`, no
RemoveLast() on an empty array. Where it does not, the functions of the model
give the two's complement wrap of the sum and leave the empty array empty. -/
def RemoveRecordsAboveLimitDefined (context : TMergeIssuesContext)
    (records : List TIssueRecord) : Bool :=
  RemoveRecordsAboveLimitDefinedLoop { removeIssuesIds := context.removeIssuesIds } records

/-- The state of the loop of RemoveRecordsAboveLimit after the records `done`:
a record is kept once `commonListed` is not 0, `commonListed` is an `int` of
at most 10, and a record kept is a record of `done` or has a listed field of
at least 1. -/
def CutKeepInv (done : List TIssueRecord) (st : TLimitState) : Prop :=
  (st.kept = [] → st.commonListed = 0) ∧
  (-2147483648 ≤ st.commonListed ∧ st.commonListed ≤ (MERGER_ISSUE_LIMIT : Int)) ∧
  ∀ s ∈ st.kept, s ∈ done ∨ 1 ≤ s.IssueLog.listed

/-! ### What the theorems about the merge of a class speak of -/

/-- The entries of a list whose key is not in `seen` and not the key of an
earlier entry of the list: the first entry of every new key, in order. -/
def FirstNew {A : Type} (key : A → String) : List String → List A → List A
  | _, [] => []
  | seen, a :: l =>
    if key a ∈ seen then FirstNew key seen l else a :: FirstNew key (seen ++ [key a]) l

/-- The records of `rest` MoveDataInFirstRecord merges into `first`: those
with an id that is not the id of `first` nor of an earlier record of `rest`. -/
def Donors (first : TIssueRecord) (rest : List TIssueRecord) : List TIssueRecord :=
  FirstNew (fun r => r.IssueLog.id) [first.IssueLog.id] rest

/-- The reasons MoveDataInFirstRecord adds to those of `first`: the reasons of
the donors that are not in the reason list of `first`, each once. -/
def NewReasons (first : TIssueRecord) (rest : List TIssueRecord) : List String :=
  FirstNew (fun x => x) first.IssueLog.reason
    ((Donors first rest).flatMap (fun d => d.IssueLog.reason))

/-! ### The similarity classes of a list -/

/-- What MergeLevelRecords makes of one similarity class: a class of at most
MERGING_IGNORE_SIZE records stays, a larger one leaves the first record that
MoveDataInFirstRecord fills. -/
def MergeClass (cls : List TIssueRecord) : List TIssueRecord :=
  if cls.length ≤ MERGING_IGNORE_SIZE then cls else (MoveDataInFirstRecord {} cls).2.take 1

/-- The similarity classes of a list, each after MergeClass, in the order of
their first records; `fuel` at least the length of the list reaches its end. -/
def MergeClasses : Nat → List TIssueRecord → List TIssueRecord
  | 0, _ => []
  | _ + 1, [] => []
  | fuel + 1, first :: rest =>
    MergeClass (first :: rest.filter (IsSimilar first)) ++
      MergeClasses fuel (rest.filter (fun it => !IsSimilar first it))

/-! ### What the theorems about the clock skew speak of -/

/-- One iteration of the loop of FillNodesSyncResult (lines 2332-2334): the
node is evaluated in a fresh child context, which the sync context inherits
from. -/
def FillNodesSyncStep (X : TExternal) (acc : TSelfCheckRequest × TSelfCheckResult)
    (nodeId : Nat) : TSelfCheckRequest × TSelfCheckResult :=
  let t := FillClockSkewResult X acc.1 nodeId (TSelfCheckContext acc.2 "TIME")
  (t.1, acc.2.InheritFrom t.2)

/-- The node-level clock skew issues of a context for node `n`: status,
message and peer id of every record with the tag NodeState located at `n`. -/
def NodeIssues (c : TSelfCheckResult) (n : Nat) : List (Status × String × Nat) :=
  (c.IssueRecords.filter
    (fun r => decide (r.Tag = ETags.NodeState) && decide (r.IssueLog.location.node.id = n))).map
    (fun r => (r.IssueLog.status, r.IssueLog.message, r.IssueLog.location.peer.id))

/-- The rule of the specification for the issue of a clock skew in
microseconds: above 25 000 RED, above 5 000 YELLOW, else no issue. -/
def ClockSkewIssue (skew : Int) (peer : Nat) : List (Status × String × Nat) :=
  if skew > 25000 then [(Status.RED, "Time difference is more than 25 ms", peer)]
  else if skew > 5000 then [(Status.YELLOW, "Time difference is more than 5 ms", peer)]
  else []

/-! ### A pair of clock skew peers -/

/-- In the merged system states `M` the nodes `a` and `b`, different, have the
states `sa` and `sb` and declare each other as clock skew peer; and every
state of `M` holds the id of its node, as the handler of the system state
response writes it (line 1042). -/
def PeerPair (M : List (Nat × TSystemStateInfo)) (a b : Nat) (sa sb : TSystemStateInfo) :
    Prop :=
  a ≠ b ∧ THashMap.find M a = some sa ∧ THashMap.find M b = some sb ∧
  sa.clockskewpeerid = some b ∧ sb.clockskewpeerid = some a ∧
  ∀ p ∈ M, p.2.nodeid = p.1

instance PeerPair.decidable (M : List (Nat × TSystemStateInfo)) (a b : Nat)
    (sa sb : TSystemStateInfo) : Decidable (PeerPair M a b sa sb) := by
  unfold PeerPair
  exact inferInstance

/-! ### The overall state when the databases are GREEN -/

/-- A status the clock skew evaluation can give: GREY, GREEN, YELLOW or RED. -/
def SkewStatus (s : Status) : Prop :=
  s = Status.GREY ∨ s = Status.GREEN ∨ s = Status.YELLOW ∨ s = Status.RED

/-- Every database status of the response is GREEN. -/
def DatabasesGreen (c : TOverallStateContext) : Prop :=
  ∀ d ∈ c.Result.database_status, d.overall = Status.GREEN

instance DatabasesGreen.decidable (c : TOverallStateContext) : Decidable (DatabasesGreen c) := by
  unfold DatabasesGreen
  exact inferInstance

/-! ### The overall state through the stages of FillResult -/

/-- The overall state after databases that are all GREEN: no degradation
flag, and the status GREEN, or GREY while there is no database status. -/
def QuietDatabases (c : TOverallStateContext) : Prop :=
  DatabasesGreen c → c.HasDegraded = false ∧ (c.Status = Status.GREY ∨ c.Status = Status.GREEN) ∧
    (c.Result.database_status ≠ [] → c.Status = Status.GREEN)

/-- The overall state after the clock skew evaluation when the database
statuses are all GREEN: no degradation flag, and a status the clock skew
evaluation can give, not GREY once there is a database status. -/
def QuietOverall (c : TOverallStateContext) : Prop :=
  DatabasesGreen c → c.HasDegraded = false ∧ SkewStatus c.Status ∧
    (c.Result.database_status ≠ [] → c.Status ≠ Status.GREY)

/-! ### Example inputs -/

/-- A block-4-2 group of one vdisk, for which the merged model holds no
state. -/
def exampleGroupOneDown : TBSGroupStateInfo :=
  { groupid := 1, erasurespecies := "block-4-2", vdiskids := [{ groupid := 1 }] }

/-- A mirror-3-dc group with two vdisks in the same fail realm. -/
def exampleMirrorOneRealm : TBSGroupStateInfo :=
  { groupid := 2, erasurespecies := "mirror-3-dc"
    vdiskids := [{ groupid := 2, ring := 0, domain := 0 }, { groupid := 2, ring := 0, domain := 1 }] }

/-- A mirror-3-dc group with two vdisks in two fail realms. -/
def exampleMirrorTwoRealms : TBSGroupStateInfo :=
  { groupid := 3, erasurespecies := "mirror-3-dc"
    vdiskids := [{ groupid := 3, ring := 0, domain := 0 }, { groupid := 3, ring := 1, domain := 0 }] }

/-- A mirror-3-dc group with four vdisks in realm 0 and two in realm 1. -/
def exampleMirrorFourAndTwo : TBSGroupStateInfo :=
  { groupid := 4, erasurespecies := "mirror-3-dc"
    vdiskids := [{ groupid := 4, ring := 0, domain := 0 }, { groupid := 4, ring := 0, domain := 1 },
      { groupid := 4, ring := 0, domain := 2 }, { groupid := 4, ring := 0, domain := 3 },
      { groupid := 4, ring := 1, domain := 0 }, { groupid := 4, ring := 1, domain := 1 }] }

/-- A merged model with one vdisk, in state OK, replicated, whose disk space
flag is Grey. -/
def exampleGreySpace : TSelfCheckRequest :=
  { MergedVDiskState := [("1-0-0-0-0",
      { vdiskid := { groupid := 1 }, nodeid := 1, pdiskid := 1,
        VDiskState := some EVDiskState.OK, Replicated := true, DiskSpace := some EFlag.Grey })] }

/-- A merged model with one pool "static" of one group of species none,
whose only vdisk is in state OK and not replicated; no database state and no
filter in the request. -/
def exampleReplicating : TSelfCheckRequest :=
  { MergedVDiskState := [("1-0-0-0-0",
      { vdiskid := { groupid := 1 }, nodeid := 1, pdiskid := 1,
        VDiskState := some EVDiskState.OK, Replicated := false })]
    MergedBSGroupState :=
      [(1, { groupid := 1, erasurespecies := "none", vdiskids := [{ groupid := 1 }] })]
    StoragePoolState := [("static", { Groups := [1] })] }

/-- The same model, for a request with minimum_status = RED. -/
def exampleMinimumStatus : TSelfCheckRequest :=
  { exampleReplicating with Request := { minimum_status := Status.RED } }

/-- The same model, for a request with maximum_level = 2. -/
def exampleMaximumLevel : TSelfCheckRequest :=
  { exampleReplicating with Request := { maximum_level := 2 } }

/-- A merged model that holds the state of one vdisk of group 5, the one of
fail realm 0: OK and replicated. -/
def exampleOneOfTwo : TSelfCheckRequest :=
  { MergedVDiskState := [("5-0-0-0-0",
      { vdiskid := { groupid := 5 }, nodeid := 1, pdiskid := 1,
        VDiskState := some EVDiskState.OK, Replicated := true })] }

/-- A mirror-3-dc group with one vdisk in each of two fail realms. -/
def exampleMirrorGoodFirst : TBSGroupStateInfo :=
  { groupid := 5, erasurespecies := "mirror-3-dc"
    vdiskids := [{ groupid := 5, ring := 0 }, { groupid := 5, ring := 1 }] }

/-- The same group with its vdisks listed in the opposite order. -/
def exampleMirrorGoodLast : TBSGroupStateInfo :=
  { groupid := 5, erasurespecies := "mirror-3-dc"
    vdiskids := [{ groupid := 5, ring := 1 }, { groupid := 5, ring := 0 }] }

/-- A merged model with one pdisk, of node 1, without a state. -/
def examplePDiskNoState : TSelfCheckRequest :=
  { MergedPDiskState := [("1-1", { nodeid := 1, pdiskid := 1 })] }

/-- A vdisk in state Initial on pdisk 1 of node 1. -/
def exampleVDiskInitial : TVDiskStateInfo :=
  { vdiskid := { groupid := 1 }, nodeid := 1, pdiskid := 1,
    VDiskState := some EVDiskState.Initial }

/-- A pdisk in state Normal with no available size out of a total of 100. -/
def examplePDiskFull : TPDiskStateInfo :=
  { nodeid := 1, pdiskid := 1, State := some TPDiskState.Normal, AvailableSize := 0,
    TotalSize := 100 }

/-- A pdisk in state Normal with 5 available out of a total of 100. -/
def examplePDiskLowSpace : TPDiskStateInfo :=
  { nodeid := 1, pdiskid := 1, State := some TPDiskState.Normal, AvailableSize := 5,
    TotalSize := 100 }

/-- A dead leader tablet: booting, last alive at instant 0, at a barrier
of 1. -/
def exampleDeadTablet : TTabletInfo :=
  { tabletid := 7, tablettype := "DataShard",
    volatilestate := ETabletVolatileState.TABLET_VOLATILE_STATE_BOOTING }

/-- A database whose node 1 has a good tablet, a dead leader tablet and a
dead follower tablet, added at the settings AggregateHiveInfo builds ten
minutes after instant 0. -/
def exampleNodeTablets : TDatabaseState :=
  { MergedNodeTabletState :=
      [(1, AddTablets
        [({ tabletid := 100, tablettype := "DataShard",
            volatilestate := ETabletVolatileState.TABLET_VOLATILE_STATE_RUNNING },
          AggregateHiveInfoSettings 600000000 false),
         (exampleDeadTablet, AggregateHiveInfoSettings 600000000 false),
         ({ exampleDeadTablet with tabletid := 8, followerid := 1 },
          AggregateHiveInfoSettings 600000000 false)])] }

/-- Twelve dead leader tablets of one type and one good tablet, each with
the default settings at barrier 1. -/
def exampleTabletCalls : List (TTabletInfo × TTabletStateSettings) :=
  [0, 1, 2, 3, 4, 5, 6, 7, 8, 9, 10, 11].map
      (fun n => ({ exampleDeadTablet with tabletid := n }, { AliveBarrier := 1 })) ++
    [({ tabletid := 100, tablettype := "DataShard",
        volatilestate := ETabletVolatileState.TABLET_VOLATILE_STATE_RUNNING },
      { AliveBarrier := 1 })]

/-- Two databases without compute nodes and storage pools. -/
def exampleTwoDatabases : TSelfCheckRequest :=
  { DatabaseState := [("/a", {}), ("/b", {})] }

/-- A family of database names, pairwise different and none empty. -/
def exampleDatabaseName (n : Nat) : String :=
  String.mk (List.replicate (n + 1) '/')

/-- A PDiskState record as FillPDiskStatus reports it for a pdisk. -/
def examplePDiskRecord (id message : String) : TIssueRecord :=
  { IssueLog :=
      { id := id, status := Status.RED, message := message, level := 6,
        location :=
          { storage := { pool := { group := { vdisk := { pdisk := [{ id := id }] } } } } } },
    Tag := ETags.PDiskState }

/-- A VDiskState record with the given message and reasons. -/
def exampleVDiskRecord (id message : String) (reason : List String) : TIssueRecord :=
  { IssueLog :=
      { id := id, status := Status.RED, message := message, level := 5,
        reason := reason,
        location := { storage := { pool := { group := { vdisk := { id := [id] } } } } } },
    Tag := ETags.VDiskState }

/-- A GroupState record with the given reasons. -/
def exampleGroupRecord (id : String) (reason : List String) : TIssueRecord :=
  { IssueLog :=
      { id := id, status := Status.RED, message := "Group failed", level := 4,
        reason := reason,
        location := { storage := { pool := { group := { id := [id] } } } } },
    Tag := ETags.GroupState }

/-- Two GroupState records that both list the VDiskState record f1: the
first lists six records "VDisk is not available", the second lists f1 and six
records "VDisk state is PDiskError". -/
def exampleSharedVDisk : List TIssueRecord :=
  [exampleGroupRecord "g1" ["f1", "f2", "f3", "f4", "f5", "f6"],
    exampleGroupRecord "g2" ["f1", "a1", "a2", "a3", "a4", "a5", "a6"]] ++
  ["f1", "f2", "f3", "f4", "f5", "f6"].map
    (fun id => exampleVDiskRecord id "VDisk is not available" []) ++
  ["a1", "a2", "a3", "a4", "a5", "a6"].map
    (fun id => exampleVDiskRecord id "VDisk state is PDiskError" [])

/-- Two VDiskState records that both list the PDiskState record f1: the
first lists six records "PDisk state is Missing", the second lists f1 and six
records "PDisk is not available". -/
def exampleSharedReason : List TIssueRecord :=
  [exampleVDiskRecord "v1" "VDisk is not available" ["f1", "f2", "f3", "f4", "f5", "f6"],
    exampleVDiskRecord "v2" "VDisk is not available"
      ["f1", "a1", "a2", "a3", "a4", "a5", "a6"]] ++
  ["f1", "f2", "f3", "f4", "f5", "f6"].map
    (fun id => examplePDiskRecord id "PDisk state is Missing") ++
  ["a1", "a2", "a3", "a4", "a5", "a6"].map
    (fun id => examplePDiskRecord id "PDisk is not available")

/-- A VDiskState record that lists the ids p1 .. p20. -/
def exampleMissingVDisk : TIssueRecord :=
  exampleVDiskRecord "v1" "VDisk is not available"
    ((List.range 20).map (fun n => "p" ++ toString (n + 1)))

/-- Twenty PDiskState records with the ids p1 .. p20 and the message
FillPDiskStatus reports for the state Missing. -/
def exampleMissingPDiskRecords : List TIssueRecord :=
  (List.range 20).map
    (fun n => examplePDiskRecord ("p" ++ toString (n + 1))
      ("PDisk state is " ++ TPDiskState.Missing.E_Name))

/-- One VDiskState record that lists twenty PDiskState records
"PDisk state is Missing". -/
def exampleMissingPDisks : List TIssueRecord :=
  exampleMissingVDisk :: exampleMissingPDiskRecords

/-- One VDiskState record that lists twenty PDiskState records
"PDisk state is Missing", the record of the pdisk p1 given twice. -/
def exampleRepeatedPDisk : List TIssueRecord :=
  exampleMissingPDisks ++
    [examplePDiskRecord "p1" ("PDisk state is " ++ TPDiskState.Missing.E_Name)]

/-- A VDiskState record "VDisk is not available" on the given node with the
given reasons. -/
def exampleNodeVDisk (id : String) (node : Nat) (reason : List String) : TIssueRecord :=
  { IssueLog :=
      { id := id, status := Status.RED, message := "VDisk is not available", level := 5,
        reason := reason,
        location :=
          { storage :=
              { node := { id := node }, pool := { group := { vdisk := { id := [id] } } } } } },
    Tag := ETags.VDiskState }

/-- A PDiskState record listed by two VDiskState records: group g1 lists the
vdisks v1 .. v11 on eleven nodes, of which v11 lists the pdisk p; group g2
lists the vdisk w, which lists the pdisks q1 .. q10 "PDisk state is Missing"
and p "PDisk is not available". -/
def exampleOrphan : List TIssueRecord :=
  [exampleGroupRecord "g1" ((List.range 11).map (fun n => "v" ++ toString (n + 1))),
    exampleGroupRecord "g2" ["w"]] ++
  (List.range 10).map (fun n => exampleNodeVDisk ("v" ++ toString (n + 1)) (n + 1) []) ++
  [exampleNodeVDisk "v11" 11 ["p"],
    exampleNodeVDisk "w" 11 ((List.range 10).map (fun n => "q" ++ toString (n + 1)) ++ ["p"])] ++
  (List.range 10).map (fun n => examplePDiskRecord ("q" ++ toString (n + 1))
    "PDisk state is Missing") ++
  [examplePDiskRecord "p" "PDisk is not available"]

/-- A listed value outside the range of `int`: the GroupState records ga
(which lists the vdisks v and w), gb with listed = 2147483648 and gc with
listed = 10 and ten group ids, the VDiskState record v with listed = 10 and
the VDiskState record w, which lists gb. -/
def exampleListedRange : List TIssueRecord :=
  [{ exampleGroupRecord "ga" ["v", "w"] with IssueLog.message := "Group a" },
    { exampleGroupRecord "gb" [] with
      IssueLog.message := "Group b", IssueLog.listed := 2147483648 },
    { IssueLog :=
        { id := "gc", status := Status.RED, message := "Group c", level := 4, listed := 10,
          location := { storage := { pool := { group :=
            { id := ["0", "1", "2", "3", "4", "5", "6", "7", "8", "9"] } } } } },
      Tag := ETags.GroupState },
    { exampleNodeVDisk "v" 1 [] with IssueLog.listed := 10 },
    exampleNodeVDisk "w" 2 ["gb"]]

/-- Four GroupState records with the message "Groups failed" and five with
the message "Group failed", which RenameMergingIssues rewrites to
"Groups failed". -/
def exampleRenamed : List TIssueRecord :=
  ["a1", "a2", "a3", "a4"].map (fun id =>
    { exampleGroupRecord id [] with IssueLog.message := "Groups failed" }) ++
  ["b1", "b2", "b3", "b4", "b5"].map (fun id => exampleGroupRecord id [])

/-- Three similar GroupState records, the second with count 1. -/
def examplePresetCount : List TIssueRecord :=
  [exampleGroupRecord "g1" [],
    { exampleGroupRecord "g2" [] with IssueLog.count := 1 },
    exampleGroupRecord "g3" []]

/-- The assumptions of `exampleExternal` with the records map iterated
against the insertion order. -/
def exampleReverseExternal : TExternal :=
  { exampleExternal with MapOrder := fun keys => ⟨keys.reverse, List.reverse_perm keys⟩ }

/-- One GroupState record and one VDiskState record. -/
def exampleTwoTags : List TIssueRecord :=
  [exampleGroupRecord "g1" [], exampleVDiskRecord "v1" "VDisk is not available" []]

/-- A hive that answered at `r` ms and started at `s` ms, with one tablet
that is booting and was never seen alive, in a domain the request knows. -/
def exampleHiveActor (s r : Nat) : TSelfCheckRequestActor :=
  { FilterDomainKey := [((1, 1), "/Root")]
    DatabaseState := [("/Root", {})]
    HiveInfo := [(72, some
      { StartTimeTimestamp := s, ResponseTimestamp := r,
        Tablets := [{ exampleDeadTablet with objectdomain := (1, 1) }] })] }

/-- An instance of the outside functions of the handlers to evaluate
examples with: the group ids below 2^31 are static, the vdisk id of a vslot
holds its five numbers, every path id but (0, 0) is valid, and there is no
dynamic name service. -/
def exampleActorExternal : TActorExternal :=
  { toTExternal := exampleExternal
    Static := fun id => decide (id < 2 ^ 31)
    VDiskID := fun g n r d v =>
      { groupid := g, groupgeneration := n, ring := r, domain := d, vdisk := v }
    PathIdValid := fun p => decide (p ≠ (0, 0))
    MaxStaticNodeId := none }

/-- An actor that waits for one other answer and has asked node 1 as a
storage node. -/
def examplePendingNode : TSelfCheckRequestActor :=
  ({ Requests := 1 } : TSelfCheckRequestActor).RequestStorageNode 1

/-- A request with a hive tablet 72 of the database "/Root" that has answered
every request and a scheme shard 73 with a request in flight. -/
def exampleInFlight : TSelfCheckRequest :=
  { TabletRequests :=
      { TabletStates := [(72, { Type_ := "Hive", Database := "/Root" }),
          (73, { Type_ := "SchemeShard", Database := "/Root" })]
        RequestsInFlight := [(2, { TabletId := 73, Key := "TEvDescribeScheme:/Root" })]
        RequestId := 2 } }

/-- An actor that waits for two answers and has asked no node. -/
def exampleNoNode : TSelfCheckRequestActor :=
  { Requests := 2 }

/-- An actor that waits for seven answers, has asked node 1 as a storage
node and has used the three retries of its bsgroup state request. -/
def exampleRetriesUsed : TSelfCheckRequestActor :=
  { Requests := 7
    NodeIds := [1]
    StorageNodeIds := [1]
    NodeRetries := [((1, EEv.EvBSGroupStateRequest), 3)]
    Scheduled := [(1, EEv.EvBSGroupStateRequest), (1, EEv.EvBSGroupStateRequest),
      (1, EEv.EvBSGroupStateRequest)] }

/-- An actor that waits for seven answers and has asked node 1 as a storage
node. -/
def exampleAskedNode : TSelfCheckRequestActor :=
  { Requests := 7
    NodeIds := [1]
    StorageNodeIds := [1] }

/-- Five undelivered bsgroup state requests to node 1. -/
def exampleFailures : List (TNow × TEvent) :=
  List.replicate 5 ({}, TEvent.Undelivered 1 EEv.EvBSGroupStateRequest)

/-- An actor with a static pdisk "1-1", a whiteboard entry for the pdisk
"9-9" that no configuration has, and a base config with the pdisk "2-1". -/
def exampleStalePDisk : TSelfCheckRequestActor :=
  { ValidPDisks := ["1-1"]
    MergedPDiskState := [("1-1", { nodeid := 1, pdiskid := 1 }), ("9-9", { nodeid := 9, pdiskid := 9 })]
    BaseConfig := some { PDisk := [{ nodeid := 2, pdiskid := 1 }] } }

/-- An actor that waits for five answers. -/
def exampleWaiting : TSelfCheckRequestActor :=
  { Requests := 5 }

/-- Two bsgroup state responses: node 1 reports group 5 of the pool "hdd" at
generation 3, node 2 reports it at generation 7 and group 6 of the pool
"ssd" at generation 1. -/
def exampleGroupResponses : List (TNow × Nat × List TBSGroupStateInfo) :=
  [({}, 1, [{ groupid := 5, groupgeneration := 3, storagepoolname := "hdd" }]),
   ({}, 2, [{ groupid := 5, groupgeneration := 7, storagepoolname := "hdd" },
            { groupid := 6, groupgeneration := 1, storagepoolname := "ssd" }])]

/-- A group of the erasure species mirror-3 with one vdisk, for which the
merged model holds no state. -/
def exampleGroupOtherSpecies : TBSGroupStateInfo :=
  { groupid := 1, erasurespecies := "mirror-3", vdiskids := [{ groupid := 1 }] }

/-- A GroupState record with the given id, status and message and one group
id. -/
def exampleGroupIssue (id : String) (status : Status) (message : String) : TIssueRecord :=
  { Tag := ETags.GroupState,
    IssueLog := { id := id, status := status, message := message,
                  location := { storage := { pool := { group := { id := [id] } } } } } }

/-- Two GroupState records with a listed value set: the first 2147483648,
which is not in the range of `int`, the second 11, with eleven group ids. -/
def exampleNegativeListed : List TIssueRecord :=
  [{ Tag := ETags.GroupState,
     IssueLog := { id := "g1", status := Status.RED, message := "Groups failed",
                   count := 1, listed := 2147483648,
                   location := { storage := { pool := { group := { id := ["1"] } } } } } },
   { Tag := ETags.GroupState,
     IssueLog := { id := "g2", status := Status.YELLOW, message := "Groups degraded",
                   count := 11, listed := 11,
                   location := { storage := { pool := { group :=
                     { id := ["0", "1", "2", "3", "4", "5", "6", "7", "8", "9", "10"] } } } } } }]

/-- Two GroupState records: the first uses up the limit with listed = 10, the
second has the count 4294967295, which is not in the range of `int`. -/
def exampleNegativeCount : List TIssueRecord :=
  [{ Tag := ETags.GroupState,
     IssueLog := { id := "g1", status := Status.YELLOW, message := "Groups degraded",
                   count := 2, listed := 10,
                   location := { storage := { pool := { group :=
                     { id := ["0", "1", "2", "3", "4", "5", "6", "7", "8", "9"] } } } } } },
   { Tag := ETags.GroupState,
     IssueLog := { id := "g2", status := Status.RED, message := "Group failed",
                   count := 4294967295,
                   location := { storage := { pool := { group := { id := ["10"] } } } } } }]

/-- Ten YELLOW group records followed by a RED one. -/
def exampleYellowThenRed : List TIssueRecord :=
  (["y0", "y1", "y2", "y3", "y4", "y5", "y6", "y7", "y8", "y9"].map
    (fun id => exampleGroupIssue id Status.YELLOW "Group degraded")) ++
  [exampleGroupIssue "r0" Status.RED "Group failed"]

/-- A RED group record followed by ten YELLOW ones. -/
def exampleRedThenYellow : List TIssueRecord :=
  exampleGroupIssue "r0" Status.RED "Group failed" ::
  (["y0", "y1", "y2", "y3", "y4", "y5", "y6", "y7", "y8", "y9"].map
    (fun id => exampleGroupIssue id Status.YELLOW "Group degraded"))

/-- A GroupState record with count 20, listed 20 and ten group ids. -/
def exampleWideRecord : TIssueRecord :=
  { Tag := ETags.GroupState,
    IssueLog := { id := "g", status := Status.YELLOW, message := "Groups degraded",
                  count := 20, listed := 20,
                  location := { storage := { pool := { group :=
                    { id := ["0", "1", "2", "3", "4", "5", "6", "7", "8", "9"] } } } } } }

/-- A GroupState record with count 20, listed 20 and twenty group ids. -/
def exampleFullRecord : TIssueRecord :=
  { Tag := ETags.GroupState,
    IssueLog := { id := "g", status := Status.YELLOW, message := "Groups degraded",
                  count := 20, listed := 20,
                  location := { storage := { pool := { group :=
                    { id := ["0", "1", "2", "3", "4", "5", "6", "7", "8", "9",
                             "10", "11", "12", "13", "14", "15", "16", "17", "18", "19"] } } } } } }

/-- Five similar GroupState records; the reason list of the first one lists
the id v1 twice. -/
def exampleRepeatedReason : List TIssueRecord :=
  [exampleGroupRecord "g1" ["v1", "v1"], exampleGroupRecord "g2" ["v1", "v2"],
    exampleGroupRecord "g3" ["v3"], exampleGroupRecord "g4" ["v2", "v4"],
    exampleGroupRecord "g5" []]

/-- Five similar GroupState records with reason lists without repetition; the
fourth has the id of the second. -/
def exampleFiveGroups : List TIssueRecord :=
  [exampleGroupRecord "g1" ["v1"], exampleGroupRecord "g2" ["v1", "v2"],
    exampleGroupRecord "g3" ["v3"], exampleGroupRecord "g2" ["v2", "v4"],
    exampleGroupRecord "g5" []]

/-- Seven GroupState records: five "Group failed" and, between them, two
"Group degraded". -/
def exampleSevenGroups : List TIssueRecord :=
  [exampleGroupIssue "f1" Status.RED "Group failed",
    exampleGroupIssue "d1" Status.YELLOW "Group degraded",
    exampleGroupIssue "f2" Status.RED "Group failed",
    exampleGroupIssue "f3" Status.RED "Group failed",
    exampleGroupIssue "d2" Status.YELLOW "Group degraded",
    exampleGroupIssue "f4" Status.RED "Group failed",
    exampleGroupIssue "f5" Status.RED "Group failed"]

/-- The state of node 1: peer 2, a skew of 7000 microseconds. -/
def examplePeerOne : TSystemStateInfo :=
  { nodeid := 1, clockskewpeerid := some 2, clockskewmicrosec := 7000 }

/-- The state of node 2: peer 1, a skew of 30000 microseconds. -/
def examplePeerTwo : TSystemStateInfo :=
  { nodeid := 2, clockskewpeerid := some 1, clockskewmicrosec := 30000 }

/-- Two nodes that declare each other as clock skew peer, with skews of 7000
and 30000 microseconds, visited in the order 1, 2. -/
def examplePeers : TSelfCheckRequest :=
  { NodeIds := [1, 2]
    MergedNodeSystemState := [(1, examplePeerOne), (2, examplePeerTwo)] }

/-- The same nodes visited in the order 2, 1. -/
def examplePeersReversed : TSelfCheckRequest :=
  { examplePeers with NodeIds := [2, 1] }

/-- A cluster with one database of two compute nodes and one storage pool, all
healthy; the two nodes declare each other as clock skew peer, with a skew of
7000 microseconds. -/
def exampleClockSkewCluster : TSelfCheckRequest :=
  { Request := { return_verbose_status := true }
    NodeIds := [1, 2]
    DatabaseState := [("/Root/db", { ComputeNodeIds := [1, 2], StoragePoolNames := ["pool"] })]
    MergedNodeSystemState :=
      [(1, { nodeid := 1, poolstats := [{ name := "System", usage := 10 }],
             clockskewpeerid := some 2, clockskewmicrosec := 7000 }),
        (2, { nodeid := 2, poolstats := [{ name := "System", usage := 10 }],
              clockskewpeerid := some 1, clockskewmicrosec := 7000 })]
    MergedVDiskState := [("1-0-0-0-0",
      { vdiskid := { groupid := 1 }, nodeid := 1, pdiskid := 1,
        VDiskState := some EVDiskState.OK, Replicated := true, DiskSpace := some EFlag.Green })]
    MergedPDiskState := [("1-1",
      { nodeid := 1, pdiskid := 1, State := some TPDiskState.Normal, AvailableSize := 50,
        TotalSize := 100 })]
    MergedBSGroupState :=
      [(1, { groupid := 1, erasurespecies := "none", vdiskids := [{ groupid := 1 }] })]
    StoragePoolState := [("pool", { Groups := [1] })] }

/-- The assumptions of `exampleExternal` with the identity in place of
crc16, so that different messages give different issue ids. -/
def exampleNamingExternal : TExternal :=
  { exampleExternal with crc16 := fun s => s }

/-! ## Theorems -/

/-- C1: FillSelfCheckResult maps GREEN to GOOD, YELLOW to GOOD without the
degradation flag and to DEGRADED with it, BLUE to DEGRADED, ORANGE to
MAINTENANCE_REQUIRED and RED to EMERGENCY; for GREY and UNSPECIFIED the
verdict field keeps the value it had. Nothing but the verdict field changes. -/
theorem FillSelfCheckResult_table (c : TOverallStateContext) :
    c.FillSelfCheckResult =
      { c with Result := { c.Result with self_check_result :=
        match c.Status, c.HasDegraded with
        | .GREEN, _ => SelfCheck.GOOD
        | .YELLOW, false => SelfCheck.GOOD
        | .YELLOW, true => SelfCheck.DEGRADED
        | .BLUE, _ => SelfCheck.DEGRADED
        | .ORANGE, _ => SelfCheck.MAINTENANCE_REQUIRED
        | .RED, _ => SelfCheck.EMERGENCY
        | .GREY, _ => c.Result.self_check_result
        | .UNSPECIFIED, _ => c.Result.self_check_result } } := by
  obtain ⟨r, st, hd, ids⟩ := c
  cases st <;> cases hd <;> rfl

/-- C2 (counterexample): from the overall state (BLUE, HasDegraded = false)
the verdict is DEGRADED; after UpdateMaxStatus(YELLOW), YELLOW being a
non-GREEN status, with HasDegraded unchanged, the verdict is GOOD, which is
lower. -/
theorem verdict_drops_blue_to_yellow :
    Status.YELLOW ≠ Status.GREEN ∧
    verdictOf Status.BLUE false = SelfCheck.DEGRADED ∧
    statusAfterUpdate Status.BLUE Status.YELLOW = Status.YELLOW ∧
    verdictOf (statusAfterUpdate Status.BLUE Status.YELLOW) false = SelfCheck.GOOD ∧
    ¬ (verdictOf Status.BLUE false).toNat ≤
        (verdictOf (statusAfterUpdate Status.BLUE Status.YELLOW) false).toNat := by
  decide

/-- C2 (amended): for every overall state (status, hd) and every non-GREEN
status s, the verdict after UpdateMaxStatus(s), with the degradation flag
unchanged or raised to hd2, is at least the verdict before, except in the one
case where the status before is BLUE, s is YELLOW and the flag is still false
afterwards. -/
theorem verdict_monotone_except_blue_yellow (status s : Status) (hd hd2 : Bool)
    (hs : s ≠ Status.GREEN) (hraise : hd = true → hd2 = true)
    (hexcept : ¬ (status = Status.BLUE ∧ s = Status.YELLOW ∧ hd2 = false)) :
    (verdictOf status hd).toNat ≤ (verdictOf (statusAfterUpdate status s) hd2).toNat := by
  cases status <;> cases s <;> cases hd <;> cases hd2 <;> simp_all <;> decide

/-- C2 (witness): the state (GREEN, false) updated with RED. -/
theorem verdict_monotone_except_blue_yellow_witness :
    (verdictOf Status.GREEN false).toNat ≤
      (verdictOf (statusAfterUpdate Status.GREEN Status.RED) false).toNat :=
  verdict_monotone_except_blue_yellow Status.GREEN Status.RED false false
    (by decide) (by decide) (by decide)

/-! ### Order of the statuses -/

theorem Status.toNat_injective {a b : Status} (h : a.toNat = b.toNat) : a = b := by
  cases a <;> cases b <;> simp [Status.toNat] at h <;> rfl

theorem MaxStatus_toNat (a b : Status) : (MaxStatus a b).toNat = max a.toNat b.toNat := by
  unfold MaxStatus
  split <;> omega

theorem MinStatus_toNat (a b : Status) : (MinStatus a b).toNat = min a.toNat b.toNat := by
  unfold MinStatus
  split <;> omega

theorem MaxStatus_right_comm (a b c : Status) :
    MaxStatus (MaxStatus a b) c = MaxStatus (MaxStatus a c) b := by
  apply Status.toNat_injective
  simp only [MaxStatus_toNat]
  omega

theorem MaxStatus_assoc (a b c : Status) :
    MaxStatus (MaxStatus a b) c = MaxStatus a (MaxStatus b c) := by
  apply Status.toNat_injective
  simp only [MaxStatus_toNat]
  omega

theorem foldl_MaxStatus_MaxStatus (l : List Status) (a b : Status) :
    l.foldl MaxStatus (MaxStatus a b) = MaxStatus a (l.foldl MaxStatus b) := by
  induction l generalizing b with
  | nil => rfl
  | cons x l ih => simp only [List.foldl_cons, MaxStatus_assoc, ih]

/-! ### ReportStatus and InheritFrom -/

theorem ReportStatus_OverallStatus (X : TExternal) (c : TSelfCheckResult) (status : Status)
    (message : String) (setTag : ETags) (includeTags : List ETags) :
    (c.ReportStatus X status message setTag includeTags).OverallStatus =
      MaxStatus c.OverallStatus status := by
  unfold TSelfCheckResult.ReportStatus
  dsimp only
  split <;> rfl

theorem InheritFrom_OverallStatus (c lower : TSelfCheckResult) :
    (c.InheritFrom lower).OverallStatus = MaxStatus c.OverallStatus lower.OverallStatus := by
  apply Status.toNat_injective
  rw [MaxStatus_toNat]
  unfold TSelfCheckResult.InheritFrom
  dsimp only
  split <;> rename_i h <;> (try dsimp only) <;> omega

theorem InheritFrom_IssueRecords (c lower : TSelfCheckResult) :
    (c.InheritFrom lower).IssueRecords = c.IssueRecords ++ lower.IssueRecords := by
  unfold TSelfCheckResult.InheritFrom
  dsimp only
  split <;> rfl

theorem ReportStatus_IssueRecords (X : TExternal) (c : TSelfCheckResult) (status : Status)
    (message : String) (setTag : ETags) (includeTags : List ETags) :
    (c.ReportStatus X status message setTag includeTags).IssueRecords =
      if status = Status.GREEN then c.IssueRecords
      else NewIssueRecord X c status message setTag includeTags :: c.IssueRecords := by
  unfold TSelfCheckResult.ReportStatus NewIssueRecord IsErrorStatus
  by_cases hs : status = Status.GREEN
  · simp [hs]
  · by_cases ht : c.Type_ = "" <;> by_cases hg : setTag = ETags.None <;> simp [hs, ht, hg]

theorem ReportStatus_Location (X : TExternal) (c : TSelfCheckResult) (status : Status)
    (message : String) (setTag : ETags) (includeTags : List ETags) :
    (c.ReportStatus X status message setTag includeTags).Location = c.Location := by
  unfold TSelfCheckResult.ReportStatus
  dsimp only
  split <;> rfl

theorem ReportStatus_Level (X : TExternal) (c : TSelfCheckResult) (status : Status)
    (message : String) (setTag : ETags) (includeTags : List ETags) :
    (c.ReportStatus X status message setTag includeTags).Level = c.Level := by
  unfold TSelfCheckResult.ReportStatus
  dsimp only
  split <;> rfl

theorem ReportStatus_Type (X : TExternal) (c : TSelfCheckResult) (status : Status)
    (message : String) (setTag : ETags) (includeTags : List ETags) :
    (c.ReportStatus X status message setTag includeTags).Type_ = c.Type_ := by
  unfold TSelfCheckResult.ReportStatus
  dsimp only
  split <;> rfl

theorem DiskInv_ReportStatus (X : TExternal) (c : TSelfCheckResult) (status : Status)
    (message : String) (setTag : ETags) (includeTags : List ETags)
    (h : DiskInv c.OverallStatus c.IssueRecords) (ht : setTag ≠ ETags.GroupState)
    (ht2 : setTag ≠ ETags.PoolState) (hs : status ≠ Status.GREY) :
    DiskInv (c.ReportStatus X status message setTag includeTags).OverallStatus
      (c.ReportStatus X status message setTag includeTags).IssueRecords := by
  rw [ReportStatus_OverallStatus, ReportStatus_IssueRecords]
  intro it hit
  have hmono : ∀ it ∈ c.IssueRecords, it.Tag ≠ ETags.GroupState ∧ it.Tag ≠ ETags.PoolState ∧
      it.IssueLog.status ≠ Status.GREEN ∧ it.IssueLog.status ≠ Status.GREY ∧
      it.IssueLog.status.toNat ≤ (MaxStatus c.OverallStatus status).toNat := by
    intro it hit
    obtain ⟨h1, h2, h3, h4, h5⟩ := h it hit
    refine ⟨h1, h2, h3, h4, ?_⟩
    rw [MaxStatus_toNat]; omega
  split at hit
  · exact hmono it hit
  · rename_i hg
    rcases List.mem_cons.1 hit with rfl | hit
    · refine ⟨ht, ht2, hg, hs, ?_⟩
      rw [MaxStatus_toNat]
      simp [NewIssueRecord]
    · exact hmono it hit

theorem DiskInv_InheritFrom (c lower : TSelfCheckResult)
    (h : DiskInv c.OverallStatus c.IssueRecords)
    (hl : DiskInv lower.OverallStatus lower.IssueRecords) :
    DiskInv (c.InheritFrom lower).OverallStatus (c.InheritFrom lower).IssueRecords := by
  rw [InheritFrom_OverallStatus, InheritFrom_IssueRecords]
  intro it hit
  rcases List.mem_append.1 hit with hit | hit
  · obtain ⟨h1, h2, h3, h4, h5⟩ := h it hit
    refine ⟨h1, h2, h3, h4, ?_⟩
    rw [MaxStatus_toNat]; omega
  · obtain ⟨h1, h2, h3, h4, h5⟩ := hl it hit
    refine ⟨h1, h2, h3, h4, ?_⟩
    rw [MaxStatus_toNat]; omega

theorem DiskInv_nil (overall : Status) : DiskInv overall [] := by
  intro it hit; cases hit

theorem ReportPDiskState_DiskInv (X : TExternal) (c : TSelfCheckResult) (state : TPDiskState)
    (h : DiskInv c.OverallStatus c.IssueRecords) :
    DiskInv (ReportPDiskState X c state).OverallStatus (ReportPDiskState X c state).IssueRecords := by
  cases state <;> exact DiskInv_ReportStatus X c _ _ _ _ h (by decide) (by decide) (by decide)

theorem FillPDiskStatus_DiskInv (X : TExternal) (S : TSelfCheckRequest) (pDiskId : String)
    (pDiskInfo : TPDiskStateInfo) (st : StoragePDiskStatus) (c : TSelfCheckResult)
    (h : DiskInv c.OverallStatus c.IssueRecords) :
    DiskInv (FillPDiskStatus X S pDiskId pDiskInfo st c).2.OverallStatus
      (FillPDiskStatus X S pDiskId pDiskInfo st c).2.IssueRecords := by
  unfold FillPDiskStatus
  dsimp only
  split
  · split_ifs <;>
      first
        | exact DiskInv_ReportStatus X _ _ _ _ _ (ReportPDiskState_DiskInv X _ _ h) (by decide) (by decide) (by decide)
        | exact ReportPDiskState_DiskInv X _ _ h
  · split_ifs
    · refine DiskInv_ReportStatus _ _ _ _ _ _ ?_ (by decide) (by decide) (by decide)
      refine DiskInv_InheritFrom _ _ h ?_
      split <;>
        exact DiskInv_ReportStatus X _ _ _ _ _ (DiskInv_nil _) (by decide) (by decide) (by decide)
    · exact DiskInv_ReportStatus X _ _ _ _ _ h (by decide) (by decide) (by decide)


theorem FillPDiskStatus_overall (X : TExternal) (S : TSelfCheckRequest) (pDiskId : String)
    (pDiskInfo : TPDiskStateInfo) (st : StoragePDiskStatus) (c : TSelfCheckResult) :
    (FillPDiskStatus X S pDiskId pDiskInfo st c).1.overall =
      (FillPDiskStatus X S pDiskId pDiskInfo st c).2.OverallStatus := by
  unfold FillPDiskStatus
  rfl

theorem FillVDiskStatusReplicatedSpace_DiskInv (X : TExternal) (vDiskInfo : TVDiskStateInfo)
    (st : StorageVDiskStatus) (c : TSelfCheckResult)
    (h : DiskInv c.OverallStatus c.IssueRecords) :
    DiskInv (FillVDiskStatusReplicatedSpace X vDiskInfo st c).2.OverallStatus
      (FillVDiskStatusReplicatedSpace X vDiskInfo st c).2.IssueRecords := by
  unfold FillVDiskStatusReplicatedSpace
  dsimp only
  split
  · exact DiskInv_ReportStatus X _ _ _ _ _ (DiskInv_nil _) (by decide) (by decide) (by decide)
  · split
    · rename_i flag hflag
      cases flag
      · exact DiskInv_ReportStatus X _ _ _ _ _ h (by decide) (by decide) (by decide)
      · dsimp only
        split
        · exact DiskInv_ReportStatus X _ _ _ _ _ h (by decide) (by decide) (by decide)
        · rename_i first rest hrec
          have hfirst := h first (by rw [hrec]; exact List.mem_cons_self _ _)
          exact DiskInv_ReportStatus X _ _ _ _ _ h (by decide) (by decide) hfirst.2.2.2.1
      · exact DiskInv_ReportStatus X _ _ _ _ _ h (by decide) (by decide) (by decide)
      · exact DiskInv_ReportStatus X _ _ _ _ _ h (by decide) (by decide) (by decide)
      · exact DiskInv_ReportStatus X _ _ _ _ _ h (by decide) (by decide) (by decide)
    · exact h

theorem FillVDiskStatusReplicatedSpace_overall (X : TExternal) (vDiskInfo : TVDiskStateInfo)
    (st : StorageVDiskStatus) (c : TSelfCheckResult) :
    (FillVDiskStatusReplicatedSpace X vDiskInfo st c).1.overall =
      (FillVDiskStatusReplicatedSpace X vDiskInfo st c).2.OverallStatus := by
  unfold FillVDiskStatusReplicatedSpace
  dsimp only
  split <;> rfl

theorem FillVDiskStatusState_overall (X : TExternal)
    (vDiskInfo : TVDiskStateInfo) (st : StorageVDiskStatus) (c : TSelfCheckResult) :
    (FillVDiskStatusState X vDiskInfo st c).1.overall =
      (FillVDiskStatusState X vDiskInfo st c).2.OverallStatus := by
  unfold FillVDiskStatusState
  split
  · rfl
  · split
    · exact FillVDiskStatusReplicatedSpace_overall X _ _ _
    all_goals rfl

theorem FillVDiskStatus_overall (X : TExternal) (S : TSelfCheckRequest) (vDiskId : String)
    (vDiskInfo : TVDiskStateInfo) (st : StorageVDiskStatus) (c : TSelfCheckResult) :
    (FillVDiskStatus X S vDiskId vDiskInfo st c).1.overall =
      (FillVDiskStatus X S vDiskId vDiskInfo st c).2.OverallStatus :=
  FillVDiskStatusState_overall X _ _ _

theorem FillVDiskStatusPDisk_DiskInv (X : TExternal) (S : TSelfCheckRequest) (vDiskId : String)
    (vDiskInfo : TVDiskStateInfo) (st : StorageVDiskStatus) (c : TSelfCheckResult)
    (h : DiskInv c.OverallStatus c.IssueRecords) :
    DiskInv (FillVDiskStatusPDisk X S vDiskId vDiskInfo st c).2.OverallStatus
      (FillVDiskStatusPDisk X S vDiskId vDiskInfo st c).2.IssueRecords := by
  unfold FillVDiskStatusPDisk
  dsimp only
  split
  · exact DiskInv_InheritFrom _ _ h (FillPDiskStatus_DiskInv X S _ _ _ _ (DiskInv_nil _))
  · exact h

theorem FillVDiskStatusState_DiskInv (X : TExternal)
    (vDiskInfo : TVDiskStateInfo) (st : StorageVDiskStatus) (c : TSelfCheckResult)
    (h : DiskInv c.OverallStatus c.IssueRecords) :
    DiskInv (FillVDiskStatusState X vDiskInfo st c).2.OverallStatus
      (FillVDiskStatusState X vDiskInfo st c).2.IssueRecords := by
  unfold FillVDiskStatusState
  split
  · exact DiskInv_ReportStatus X _ _ _ _ _ h (by decide) (by decide) (by decide)
  · split
    · exact FillVDiskStatusReplicatedSpace_DiskInv X _ _ _
        (DiskInv_ReportStatus X _ _ _ _ _ h (by decide) (by decide) (by decide))
    · exact DiskInv_ReportStatus X _ _ _ _ _ (DiskInv_nil _) (by decide) (by decide) (by decide)
    · exact DiskInv_ReportStatus X _ _ _ _ _ (DiskInv_nil _) (by decide) (by decide) (by decide)
    · exact DiskInv_ReportStatus X _ _ _ _ _ h (by decide) (by decide) (by decide)
    · exact DiskInv_ReportStatus X _ _ _ _ _ h (by decide) (by decide) (by decide)
    · exact DiskInv_ReportStatus X _ _ _ _ _ h (by decide) (by decide) (by decide)

theorem FillVDiskStatus_DiskInv (X : TExternal) (S : TSelfCheckRequest) (vDiskId : String)
    (vDiskInfo : TVDiskStateInfo) (st : StorageVDiskStatus) (c : TSelfCheckResult)
    (h : DiskInv c.OverallStatus c.IssueRecords) :
    DiskInv (FillVDiskStatus X S vDiskId vDiskInfo st c).2.OverallStatus
      (FillVDiskStatus X S vDiskId vDiskInfo st c).2.IssueRecords :=
  FillVDiskStatusState_DiskInv X _ _ _ (FillVDiskStatusPDisk_DiskInv X S _ _ _ _ h)

/-! ### The statuses of a vdisk context do not depend on the context above -/

theorem SameStatus_ReportStatus (X : TExternal) (a b : TSelfCheckResult) (status : Status)
    (m1 m2 : String) (t1 t2 : ETags) (r1 r2 : List ETags) (h : SameStatus a b) :
    SameStatus (a.ReportStatus X status m1 t1 r1) (b.ReportStatus X status m2 t2 r2) := by
  refine ⟨?_, ?_⟩
  · rw [ReportStatus_OverallStatus, ReportStatus_OverallStatus, h.1]
  · rw [ReportStatus_IssueRecords, ReportStatus_IssueRecords]
    split
    · exact h.2
    · rw [List.map_cons, List.map_cons, h.2]
      rfl

theorem SameStatus_InheritFrom (a b la lb : TSelfCheckResult) (h : SameStatus a b)
    (hl : SameStatus la lb) : SameStatus (a.InheritFrom la) (b.InheritFrom lb) := by
  refine ⟨?_, ?_⟩
  · rw [InheritFrom_OverallStatus, InheritFrom_OverallStatus, h.1, hl.1]
  · rw [InheritFrom_IssueRecords, InheritFrom_IssueRecords, List.map_append, List.map_append,
      h.2, hl.2]

theorem ReportPDiskState_SameStatus (X : TExternal) (a b : TSelfCheckResult)
    (state : TPDiskState) (h : SameStatus a b) :
    SameStatus (ReportPDiskState X a state) (ReportPDiskState X b state) := by
  cases state <;>
    (unfold ReportPDiskState
     dsimp only
     exact SameStatus_ReportStatus X _ _ _ _ _ _ _ _ _ h)

theorem FillPDiskStatus_SameStatus (X : TExternal) (S : TSelfCheckRequest) (pDiskId : String)
    (pDiskInfo : TPDiskStateInfo) (sa sb : StoragePDiskStatus) (a b : TSelfCheckResult)
    (h : SameStatus a b) :
    SameStatus (FillPDiskStatus X S pDiskId pDiskInfo sa a).2
      (FillPDiskStatus X S pDiskId pDiskInfo sb b).2 := by
  unfold FillPDiskStatus
  dsimp only
  cases pDiskInfo.State with
  | some state =>
    dsimp only
    split_ifs <;>
      first
        | exact SameStatus_ReportStatus X _ _ _ _ _ _ _ _ _
            (ReportPDiskState_SameStatus X _ _ state h)
        | exact ReportPDiskState_SameStatus X _ _ state h
  | none =>
    dsimp only
    split_ifs
    · refine SameStatus_ReportStatus X _ _ _ _ _ _ _ _ _ (SameStatus_InheritFrom _ _ _ _ h ?_)
      cases THashMap.find S.MergedNodeInfo pDiskInfo.nodeid <;>
        exact SameStatus_ReportStatus X _ _ _ _ _ _ _ _ _ ⟨rfl, rfl⟩
    · exact SameStatus_ReportStatus X _ _ _ _ _ _ _ _ _ h

theorem FillVDiskStatusPDisk_SameStatus (X : TExternal) (S : TSelfCheckRequest)
    (vDiskId : String) (vDiskInfo : TVDiskStateInfo) (sa sb : StorageVDiskStatus)
    (a b : TSelfCheckResult) (h : SameStatus a b) :
    SameStatus (FillVDiskStatusPDisk X S vDiskId vDiskInfo sa a).2
      (FillVDiskStatusPDisk X S vDiskId vDiskInfo sb b).2 := by
  unfold FillVDiskStatusPDisk
  dsimp only
  cases THashMap.find S.MergedPDiskState (GetPDiskId vDiskInfo) with
  | some pDiskInfo =>
    exact SameStatus_InheritFrom _ _ _ _ h
      (FillPDiskStatus_SameStatus X S _ pDiskInfo _ _ _ _ ⟨rfl, rfl⟩)
  | none => exact h

theorem FillVDiskStatusReplicatedSpace_SameStatus (X : TExternal) (vDiskInfo : TVDiskStateInfo)
    (sa sb : StorageVDiskStatus) (a b : TSelfCheckResult) (h : SameStatus a b) :
    SameStatus (FillVDiskStatusReplicatedSpace X vDiskInfo sa a).2
      (FillVDiskStatusReplicatedSpace X vDiskInfo sb b).2 := by
  unfold FillVDiskStatusReplicatedSpace
  cases vDiskInfo.Replicated with
  | false =>
    dsimp only
    exact SameStatus_ReportStatus X _ _ _ _ _ _ _ _ _ ⟨h.1, rfl⟩
  | true =>
    rw [if_neg (by decide), if_neg (by decide)]
    dsimp only
    cases vDiskInfo.DiskSpace with
    | none => exact h
    | some flag =>
      cases flag
      case Green =>
        dsimp only
        have h2 := h.2
        cases ha : a.IssueRecords with
        | nil =>
          cases hb : b.IssueRecords with
          | nil =>
            dsimp only
            exact SameStatus_ReportStatus X _ _ _ _ _ _ _ _ _ h
          | cons y ys =>
            rw [ha, hb] at h2
            cases h2
        | cons x xs =>
          cases hb : b.IssueRecords with
          | nil =>
            rw [ha, hb] at h2
            cases h2
          | cons y ys =>
            rw [ha, hb] at h2
            dsimp only
            have e : x.IssueLog.status = y.IssueLog.status := by
              simp only [List.map_cons, List.cons.injEq] at h2
              exact h2.1
            rw [e]
            exact SameStatus_ReportStatus X _ _ _ _ _ _ _ _ _ h
      all_goals exact SameStatus_ReportStatus X _ _ _ _ _ _ _ _ _ h

theorem FillVDiskStatusState_SameStatus (X : TExternal) (vDiskInfo : TVDiskStateInfo)
    (sa sb : StorageVDiskStatus) (a b : TSelfCheckResult) (h : SameStatus a b) :
    SameStatus (FillVDiskStatusState X vDiskInfo sa a).2
      (FillVDiskStatusState X vDiskInfo sb b).2 := by
  unfold FillVDiskStatusState
  cases vDiskInfo.VDiskState with
  | none => exact SameStatus_ReportStatus X _ _ _ _ _ _ _ _ _ h
  | some state =>
    cases state
    case OK =>
      exact FillVDiskStatusReplicatedSpace_SameStatus X vDiskInfo _ _ _ _
        (SameStatus_ReportStatus X _ _ _ _ _ _ _ _ _ h)
    case Initial => exact SameStatus_ReportStatus X _ _ _ _ _ _ _ _ _ ⟨h.1, rfl⟩
    case SyncGuidRecovery => exact SameStatus_ReportStatus X _ _ _ _ _ _ _ _ _ ⟨h.1, rfl⟩
    all_goals exact SameStatus_ReportStatus X _ _ _ _ _ _ _ _ _ h

/-- The overall status FillVDiskStatus gives in a fresh vdisk context is the
same under every upper context and for every status message. -/
theorem FillVDiskStatus_fresh_overall (X : TExternal) (S : TSelfCheckRequest)
    (vDiskId : String) (vDiskInfo : TVDiskStateInfo) (sa sb : StorageVDiskStatus)
    (ua ub : TSelfCheckResult) (type : String) :
    (FillVDiskStatus X S vDiskId vDiskInfo sa (TSelfCheckContext ua type)).1.overall =
      (FillVDiskStatus X S vDiskId vDiskInfo sb (TSelfCheckContext ub type)).1.overall := by
  rw [FillVDiskStatus_overall, FillVDiskStatus_overall]
  unfold FillVDiskStatus
  exact (FillVDiskStatusState_SameStatus X vDiskInfo _ _ _ _
    (FillVDiskStatusPDisk_SameStatus X S vDiskId vDiskInfo sa sb
      (TSelfCheckContext ua type) (TSelfCheckContext ub type) ⟨rfl, rfl⟩)).1

/-! ### The life of a context, and the merger -/

theorem TContextOp.apply_OverallStatus (X : TExternal) (c : TSelfCheckResult) (op : TContextOp)
    (h : ∀ o : TContextOp, o = op → o ≠ TContextOp.MinStatusYellow) :
    (op.apply X c).OverallStatus =
      (op.status?.toList).foldl MaxStatus c.OverallStatus := by
  cases op with
  | ReportStatus status message setTag includeTags =>
    simp [TContextOp.apply, TContextOp.status?, ReportStatus_OverallStatus]
  | InheritFrom lower =>
    simp [TContextOp.apply, TContextOp.status?, InheritFrom_OverallStatus]
  | MinStatusYellow => exact absurd rfl (h _ rfl)
  | _ => rfl

theorem ApplyOps_OverallStatus (X : TExternal) (ops : List TContextOp) (c : TSelfCheckResult)
    (h : ∀ op ∈ ops, op ≠ TContextOp.MinStatusYellow) :
    (ApplyOps X c ops).OverallStatus =
      (ops.filterMap TContextOp.status?).foldl MaxStatus c.OverallStatus := by
  induction ops generalizing c with
  | nil => rfl
  | cons op ops ih =>
    have hop : op ≠ TContextOp.MinStatusYellow := h op (List.mem_cons_self _ _)
    have hrest : ∀ o ∈ ops, o ≠ TContextOp.MinStatusYellow :=
      fun o ho => h o (List.mem_cons_of_mem _ ho)
    have hstep := TContextOp.apply_OverallStatus X c op (fun o ho => ho ▸ hop)
    unfold ApplyOps at ih ⊢
    rw [List.foldl_cons, ih _ hrest, hstep]
    cases hs : op.status? <;> simp [List.filterMap_cons, hs]

theorem FilterReasons_closed (records : List TIssueRecord) :
    ReferentiallyClosed (FilterReasons records) := by
  intro it hit r hr
  unfold FilterReasons at hit ⊢
  simp only [List.mem_map] at hit
  obtain ⟨it0, _, rfl⟩ := hit
  simp only [List.mem_filter, decide_eq_true_eq, List.mem_map] at hr
  obtain ⟨_, it2, hit2, rfl⟩ := hr
  exact ⟨_, List.mem_map_of_mem _ hit2, rfl⟩

theorem RenameMergingIssues_closed (records : List TIssueRecord)
    (h : ReferentiallyClosed records) : ReferentiallyClosed (RenameMergingIssues records) := by
  intro it hit r hr
  unfold RenameMergingIssues at hit ⊢
  simp only [List.mem_map] at hit
  obtain ⟨it0, hit0, rfl⟩ := hit
  have hr0 : r ∈ it0.IssueLog.reason := by
    split at hr <;> exact hr
  obtain ⟨it2, hit2, hid⟩ := h it0 hit0 r hr0
  refine ⟨_, List.mem_map_of_mem _ hit2, ?_⟩
  split <;> exact hid

theorem MergeRecords_closed (X : TExternal) (records : List TIssueRecord) :
    ReferentiallyClosed (MergeRecords X records) := by
  unfold MergeRecords TMergeIssuesContext.FillRecords TMergeIssuesContext.RemoveUnlinkIssues
  exact RenameMergingIssues_closed _ (FilterReasons_closed _)


/-! ### The loop and the rule of FillGroupStatus -/

theorem FillGroupStatusNodeLocation_OverallStatus (S : TSelfCheckRequest) (c : TSelfCheckResult)
    (itVDisk : Option TVDiskStateInfo) :
    (FillGroupStatusNodeLocation S c itVDisk).OverallStatus = c.OverallStatus := by
  unfold FillGroupStatusNodeLocation
  split
  · dsimp only; split <;> rfl
  · rfl

theorem FillGroupStatusNodeLocation_IssueRecords (S : TSelfCheckRequest) (c : TSelfCheckResult)
    (itVDisk : Option TVDiskStateInfo) :
    (FillGroupStatusNodeLocation S c itVDisk).IssueRecords = c.IssueRecords := by
  unfold FillGroupStatusNodeLocation
  split
  · dsimp only; split <;> rfl
  · rfl

theorem MaxStatusOf_append_singleton (l : List Status) (s : Status) :
    MaxStatusOf (l ++ [s]) = MaxStatus (MaxStatusOf l) s := by
  simp [MaxStatusOf, List.foldl_append]

/-- The fields of the loop state after one iteration. -/
theorem FillGroupStatusVDisk_fields (X : TExternal) (S : TSelfCheckRequest)
    (st : TGroupLoopState) (v : TVDiskID) :
    ∃ (vs : StorageVDiskStatus) (lower : TSelfCheckResult),
      DiskInv lower.OverallStatus lower.IssueRecords ∧
      vs.overall = lower.OverallStatus ∧
      (FillGroupStatusVDisk X S st v).storageGroupStatus.vdisks =
        st.storageGroupStatus.vdisks ++ [vs] ∧
      (FillGroupStatusVDisk X S st v).context.OverallStatus =
        MaxStatus st.context.OverallStatus lower.OverallStatus ∧
      (FillGroupStatusVDisk X S st v).context.IssueRecords =
        st.context.IssueRecords ++ lower.IssueRecords ∧
      (FillGroupStatusVDisk X S st v).failedDisks =
        (if IsFailed vs.overall then st.failedDisks + 1 else st.failedDisks) ∧
      (FillGroupStatusVDisk X S st v).failedRealms =
        (if IsFailed vs.overall then IncrementFor st.failedRealms v.ring
          else st.failedRealms) ∧
      (∀ s, (FillGroupStatusVDisk X S st v).disksColors s =
        if s = vs.overall then st.disksColors s + 1 else st.disksColors s) := by
  refine ⟨(FillVDiskStatus X S (GetVDiskId v)
      ((THashMap.find S.MergedVDiskState (GetVDiskId v)).getD {}) {}
      (TSelfCheckContext (FillGroupStatusNodeLocation S st.context
        (THashMap.find S.MergedVDiskState (GetVDiskId v))) "VDISK")).1,
    (FillVDiskStatus X S (GetVDiskId v)
      ((THashMap.find S.MergedVDiskState (GetVDiskId v)).getD {}) {}
      (TSelfCheckContext (FillGroupStatusNodeLocation S st.context
        (THashMap.find S.MergedVDiskState (GetVDiskId v))) "VDISK")).2,
    FillVDiskStatus_DiskInv X S _ _ _ _ (DiskInv_nil _),
    FillVDiskStatus_overall X S _ _ _ _, ?_⟩
  unfold FillGroupStatusVDisk
  dsimp only
  split <;> rename_i hov <;>
    simp only [hov, IsFailed, InheritFrom_OverallStatus, InheritFrom_IssueRecords,
      FillGroupStatusNodeLocation_OverallStatus, FillGroupStatusNodeLocation_IssueRecords,
      true_and, and_true, if_true] <;>
    simp_all


theorem FillGroupStatusVDisk_inv (X : TExternal) (S : TSelfCheckRequest)
    (st : TGroupLoopState) (v : TVDiskID) (rings : List Nat) (h : GroupLoopInv rings st) :
    GroupLoopInv (rings ++ [v.ring]) (FillGroupStatusVDisk X S st v) := by
  obtain ⟨vs, lower, hinv, hov, hvd, hst, hrec, hfd, hfr, hdc⟩ :=
    FillGroupStatusVDisk_fields X S st v
  obtain ⟨h1, h2, h3, h4, h5, h6⟩ := h
  have hstat : (FillGroupStatusVDisk X S st v).storageGroupStatus.statuses =
      st.storageGroupStatus.statuses ++ [vs.overall] := by
    simp [StorageGroupStatus.statuses, hvd]
  refine ⟨?_, ?_, ?_, ?_, ?_, ?_⟩
  · simp [hstat, h1]
  · rw [hfd, hstat, List.countP_append, h2]
    by_cases hf : IsFailed vs.overall <;> simp [hf]
  · intro s
    rw [hdc, hstat, List.count_append, h3]
    by_cases hs : s = vs.overall
    · simp [hs]
    · have : vs.overall ≠ s := fun e => hs e.symm
      simp [hs, this]
  · rw [hfr, hstat, List.zip_append h1.symm, h4]
    unfold FailedRings
    by_cases hf : IsFailed vs.overall <;>
      simp [hf, List.filter_append, List.foldl_append]
  · rw [hst, hstat, MaxStatusOf_append_singleton, h5, hov]
  · rw [hst, hrec]
    intro it hit
    rcases List.mem_append.1 hit with hit | hit
    · obtain ⟨a, b, c, d, e⟩ := h6 it hit
      exact ⟨a, b, c, d, by rw [MaxStatus_toNat]; omega⟩
    · obtain ⟨a, b, c, d, e⟩ := hinv it hit
      exact ⟨a, b, c, d, by rw [MaxStatus_toNat]; omega⟩

theorem foldl_FillGroupStatusVDisk_inv (X : TExternal) (S : TSelfCheckRequest)
    (l : List TVDiskID) (st : TGroupLoopState) (rings : List Nat) (h : GroupLoopInv rings st) :
    GroupLoopInv (rings ++ l.map (fun v => v.ring)) (l.foldl (FillGroupStatusVDisk X S) st) := by
  induction l generalizing st rings with
  | nil => simpa using h
  | cons v l ih =>
    have := ih _ _ (FillGroupStatusVDisk_inv X S st v rings h)
    simpa using this

theorem FillGroupStatusVDisks_inv (X : TExternal) (S : TSelfCheckRequest) (groupId : Nat)
    (groupInfo : TBSGroupStateInfo) (upper : TSelfCheckResult) (type : String) :
    GroupLoopInv (groupInfo.vdiskids.map (fun v => v.ring))
      (FillGroupStatusVDisks X S groupId groupInfo {} (TSelfCheckContext upper type)) := by
  unfold FillGroupStatusVDisks
  have h0 : GroupLoopInv []
      { context := { TSelfCheckContext upper type with
          Location.storage.pool.group.id :=
            toString groupId :: (TSelfCheckContext upper type).Location.storage.pool.group.id.tail },
        storageGroupStatus := { ({} : StorageGroupStatus) with id := toString groupId } } := by
    refine ⟨rfl, rfl, fun s => rfl, rfl, rfl, DiskInv_nil _⟩
  simpa using foldl_FillGroupStatusVDisk_inv X S groupInfo.vdiskids _ [] h0

/-- One iteration of the loop of FillGroupStatus adds the overall status of
the vdisk to the statuses of the status message. -/
theorem FillGroupStatusVDisk_statuses (X : TExternal) (S : TSelfCheckRequest)
    (st : TGroupLoopState) (v : TVDiskID) :
    (FillGroupStatusVDisk X S st v).storageGroupStatus.statuses =
      st.storageGroupStatus.statuses ++ [VDiskOverall X S v] := by
  have key : (FillGroupStatusVDisk X S st v).storageGroupStatus.vdisks =
      st.storageGroupStatus.vdisks ++ [(FillVDiskStatus X S (GetVDiskId v)
        ((THashMap.find S.MergedVDiskState (GetVDiskId v)).getD {}) {}
        (TSelfCheckContext (FillGroupStatusNodeLocation S st.context
          (THashMap.find S.MergedVDiskState (GetVDiskId v))) "VDISK")).1] := by
    unfold FillGroupStatusVDisk
    dsimp only
    split <;> rfl
  unfold StorageGroupStatus.statuses VDiskOverall
  rw [key, List.map_append, List.map_singleton,
    FillVDiskStatus_fresh_overall X S _ _ {} {} _ {} "VDISK"]

theorem foldl_FillGroupStatusVDisk_statuses (X : TExternal) (S : TSelfCheckRequest)
    (l : List TVDiskID) (st : TGroupLoopState) :
    (l.foldl (FillGroupStatusVDisk X S) st).storageGroupStatus.statuses =
      st.storageGroupStatus.statuses ++ l.map (VDiskOverall X S) := by
  induction l generalizing st with
  | nil => simp
  | cons v l ih =>
    rw [List.foldl_cons, ih, FillGroupStatusVDisk_statuses, List.map_cons, List.append_assoc]
    rfl

/-- The statuses of the status message at the end of the loop of
FillGroupStatus, started with an empty message, are the overall statuses of
the vdisks of the group, in their order. -/
theorem FillGroupStatusVDisks_statuses (X : TExternal) (S : TSelfCheckRequest) (groupId : Nat)
    (groupInfo : TBSGroupStateInfo) (c : TSelfCheckResult) :
    (FillGroupStatusVDisks X S groupId groupInfo {} c).storageGroupStatus.statuses =
      groupInfo.vdiskids.map (VDiskOverall X S) := by
  unfold FillGroupStatusVDisks
  dsimp only
  rw [foldl_FillGroupStatusVDisk_statuses]
  rfl

theorem FillGroupStatusRule_eq (X : TExternal) (erasurespecies : String) (st : TGroupLoopState)
    (c : TSelfCheckResult) :
    FillGroupStatusRule X erasurespecies st c =
      match GroupRuleChoice erasurespecies st with
      | some p => c.ReportStatus X p.1 p.2 ETags.GroupState [ETags.VDiskState]
      | none => c := by
  unfold FillGroupStatusRule GroupRuleChoice
  dsimp only
  split_ifs <;> rfl

theorem GroupRuleChoice_status (erasurespecies : String) (st : TGroupLoopState)
    (p : Status × String) (h : GroupRuleChoice erasurespecies st = some p) :
    p.1 ≠ Status.GREEN ∧ p.1 ≠ Status.GREY ∧ p.1 ≠ Status.UNSPECIFIED := by
  unfold GroupRuleChoice at h
  split_ifs at h <;> simp at h <;> subst h <;> decide

theorem mem_InsertSorted (a x : String) (l : List String) :
    x ∈ InsertSorted a l ↔ x = a ∨ x ∈ l := by
  induction l with
  | nil => simp [InsertSorted]
  | cons b l ih =>
    unfold InsertSorted
    split
    · simp
    · simp [ih]; tauto

theorem mem_SortStrings (x : String) (l : List String) : x ∈ SortStrings l ↔ x ∈ l := by
  induction l with
  | nil => simp [SortStrings]
  | cons a l ih => simp [SortStrings, mem_InsertSorted, ih]

theorem mem_Unique (x : String) (l : List String) : x ∈ Unique l ↔ x ∈ l := by
  induction l with
  | nil => simp [Unique]
  | cons a l ih =>
    cases l with
    | nil => simp [Unique]
    | cons b l =>
      unfold Unique
      split
      · rename_i hab
        rw [ih]; subst hab; simp
      · simp only [List.mem_cons, ih]

theorem mem_CollectReason (x : String) (records : List TIssueRecord) (tags : List ETags) :
    x ∈ CollectReason records tags ↔
      ∃ it ∈ records, it.Tag ∈ tags ∧ it.IssueLog.id = x := by
  unfold CollectReason
  simp only [List.mem_map, List.mem_filter, decide_eq_true_eq]
  constructor
  · rintro ⟨it, ⟨h1, h2⟩, h3⟩; exact ⟨it, h1, h2, h3⟩
  · rintro ⟨it, h1, h2, h3⟩; exact ⟨it, ⟨h1, h2⟩, h3⟩

/-- The context FillGroupStatus returns, from the state at the end of the
loop over the vdisks. -/
theorem FillGroupStatus_context (X : TExternal) (S : TSelfCheckRequest) (groupId : Nat)
    (groupInfo : TBSGroupStateInfo) (sgs : StorageGroupStatus) (c : TSelfCheckResult) :
    let st := FillGroupStatusVDisks X S groupId groupInfo sgs c
    let capped : TSelfCheckResult :=
      { st.context with
        Location.storage.node := {}
        OverallStatus := MinStatus st.context.OverallStatus Status.YELLOW }
    (FillGroupStatus X S groupId groupInfo sgs c).2 =
      (match GroupRuleChoice groupInfo.erasurespecies st with
        | some p => capped.ReportStatus X p.1 p.2 ETags.GroupState [ETags.VDiskState]
        | none => capped) ∧
    (FillGroupStatus X S groupId groupInfo sgs c).1.overall =
      (FillGroupStatus X S groupId groupInfo sgs c).2.OverallStatus ∧
    (FillGroupStatus X S groupId groupInfo sgs c).1.vdisks = st.storageGroupStatus.vdisks := by
  intro st capped
  refine ⟨?_, rfl, rfl⟩
  unfold FillGroupStatus
  dsimp only
  rw [FillGroupStatusRule_eq]

theorem foldl_MaxStatus_ge (l : List Status) (a : Status) :
    a.toNat ≤ (l.foldl MaxStatus a).toNat := by
  induction l generalizing a with
  | nil => exact Nat.le_refl _
  | cons b l ih =>
    have := ih (MaxStatus a b)
    rw [MaxStatus_toNat] at this
    simp only [List.foldl_cons]
    omega

theorem MaxStatusOf_ge (l : List Status) : 1 ≤ (MaxStatusOf l).toNat :=
  foldl_MaxStatus_ge l Status.GREY

theorem MaxStatus_GREY_of_ge (a : Status) (h : 1 ≤ a.toNat) : MaxStatus Status.GREY a = a := by
  apply Status.toNat_injective
  rw [MaxStatus_toNat]
  have h1 : Status.GREY.toNat = 1 := rfl
  omega

theorem MinStatus_ge (a b : Status) (ha : 1 ≤ a.toNat) (hb : 1 ≤ b.toNat) :
    1 ≤ (MinStatus a b).toNat := by
  rw [MinStatus_toNat]
  omega

theorem MaxStatusOf_cons_of_ge (a : Status) (l : List Status) (h : 1 ≤ a.toNat) :
    MaxStatusOf (a :: l) = l.foldl MaxStatus a := by
  unfold MaxStatusOf
  rw [List.foldl_cons, MaxStatus_GREY_of_ge a h]

theorem GroupIssues_of_DiskInv (overall : Status) (records : List TIssueRecord)
    (h : DiskInv overall records) : GroupIssues records = [] := by
  unfold GroupIssues
  rw [List.map_eq_nil_iff, List.filter_eq_nil_iff]
  intro it hit
  simpa using (h it hit).1

theorem GroupRuleChoice_eq_CountRule (erasurespecies : String) (st : TGroupLoopState)
    (rings : List Nat) (hinv : GroupLoopInv rings st)
    (h : erasurespecies = NONE ∨ erasurespecies = BLOCK_4_2) :
    GroupRuleChoice erasurespecies st = CountRule erasurespecies st.storageGroupStatus.statuses := by
  obtain ⟨_, h2, h3, _, _, _⟩ := hinv
  unfold GroupRuleChoice CountRule
  dsimp only
  rw [h2, h3 Status.YELLOW, h3 Status.BLUE]
  have hne : BLOCK_4_2 ≠ NONE := by decide
  rcases h with h | h
  · simp [h]
  · simp only [h, hne, if_false, if_true]
    split_ifs <;> first | rfl | omega

/-- The records and the overall status FillGroupStatus returns for a fresh
context, from the state at the end of the loop. -/
theorem FillGroupStatus_fresh (X : TExternal) (S : TSelfCheckRequest) (groupId : Nat)
    (groupInfo : TBSGroupStateInfo) (upper : TSelfCheckResult) (type : String) :
    let st := FillGroupStatusVDisks X S groupId groupInfo {} (TSelfCheckContext upper type)
    let r := FillGroupStatus X S groupId groupInfo {} (TSelfCheckContext upper type)
    r.1.statuses = st.storageGroupStatus.statuses ∧
    r.1.overall = r.2.OverallStatus ∧
    GroupIssues r.2.IssueRecords = (GroupRuleChoice groupInfo.erasurespecies st).toList ∧
    (∀ it ∈ r.2.IssueRecords, it.Tag = ETags.GroupState →
      ∀ id, id ∈ it.IssueLog.reason ↔
        ∃ v ∈ r.2.IssueRecords, v.Tag = ETags.VDiskState ∧ v.IssueLog.id = id) ∧
    r.2.OverallStatus =
      MaxStatusOf ((MinStatus (MaxStatusOf st.storageGroupStatus.statuses) Status.YELLOW) ::
        ((GroupRuleChoice groupInfo.erasurespecies st).toList.map Prod.fst)) := by
  intro st r
  have hinv := FillGroupStatusVDisks_inv X S groupId groupInfo upper type
  obtain ⟨hctx, hov, hvd⟩ := FillGroupStatus_context X S groupId groupInfo {}
    (TSelfCheckContext upper type)
  obtain ⟨_, _, _, _, h5, h6⟩ := hinv
  have hnog := GroupIssues_of_DiskInv _ _ h6
  refine ⟨by simp only [StorageGroupStatus.statuses]; rw [hvd], hov, ?_, ?_, ?_⟩
  · show GroupIssues (FillGroupStatus X S groupId groupInfo {}
      (TSelfCheckContext upper type)).2.IssueRecords = _
    rw [hctx]
    cases hch : GroupRuleChoice groupInfo.erasurespecies
        (FillGroupStatusVDisks X S groupId groupInfo {} (TSelfCheckContext upper type)) with
    | none => simpa using hnog
    | some p =>
      have hp := GroupRuleChoice_status _ _ _ hch
      dsimp only
      rw [ReportStatus_IssueRecords, if_neg hp.1]
      unfold GroupIssues at hnog ⊢
      rw [List.filter_cons]
      simp only [NewIssueRecord, decide_True, if_true, List.map_cons, Option.toList]
      rw [hnog]
  · intro it hit htag id
    have hit2 : it ∈ (FillGroupStatus X S groupId groupInfo {}
      (TSelfCheckContext upper type)).2.IssueRecords := hit
    show id ∈ it.IssueLog.reason ↔ ∃ v ∈ (FillGroupStatus X S groupId groupInfo {}
      (TSelfCheckContext upper type)).2.IssueRecords, _
    rw [hctx] at hit2 ⊢
    cases hch : GroupRuleChoice groupInfo.erasurespecies
        (FillGroupStatusVDisks X S groupId groupInfo {} (TSelfCheckContext upper type)) with
    | none =>
      rw [hch] at hit2
      exact absurd htag (h6 it hit2).1
    | some p =>
      have hp := GroupRuleChoice_status _ _ _ hch
      rw [hch] at hit2
      dsimp only at hit2 ⊢
      rw [ReportStatus_IssueRecords, if_neg hp.1] at hit2 ⊢
      rcases List.mem_cons.1 hit2 with rfl | hmem
      · simp only [NewIssueRecord, mem_Unique, mem_SortStrings, mem_CollectReason,
          List.mem_singleton, List.mem_cons, List.not_mem_nil, or_false]
        constructor
        · rintro ⟨v, hv, ht, hid⟩
          exact ⟨v, Or.inr hv, ht, hid⟩
        · rintro ⟨v, hv | hv, ht, hid⟩
          · subst hv; simp at ht
          · exact ⟨v, hv, ht, hid⟩
      · exact absurd htag (h6 it hmem).1
  · show (FillGroupStatus X S groupId groupInfo {}
      (TSelfCheckContext upper type)).2.OverallStatus = _
    rw [hctx, MaxStatusOf_cons_of_ge _ _ (MinStatus_ge _ _ (MaxStatusOf_ge _) (by decide))]
    cases hch : GroupRuleChoice groupInfo.erasurespecies
        (FillGroupStatusVDisks X S groupId groupInfo {} (TSelfCheckContext upper type)) with
    | none =>
      simp only [Option.toList, List.map_nil, List.foldl_nil]
      rw [h5]
    | some p =>
      simp only [Option.toList, List.map_cons, List.map_nil, List.foldl_cons, List.foldl_nil]
      rw [ReportStatus_OverallStatus]
      dsimp only
      rw [h5]

theorem IncrementFor_keys (acc : List (Nat × Nat)) (x : Nat) :
    (IncrementFor acc x).map Prod.fst =
      if x ∈ acc.map Prod.fst then acc.map Prod.fst else acc.map Prod.fst ++ [x] := by
  induction acc with
  | nil => simp [IncrementFor]
  | cons p acc ih =>
    unfold IncrementFor
    by_cases hp : p.1 = x
    · simp [hp]
    · have hx : ¬ x = p.1 := fun e => hp e.symm
      simp only [hp, if_false, List.map_cons, ih, List.mem_cons, hx, false_or]
      split <;> simp

theorem IncrementFor_mem (acc : List (Nat × Nat)) (x : Nat) (hnd : (acc.map Prod.fst).Nodup)
    (p : Nat × Nat) (hp : p ∈ IncrementFor acc x) :
    (p ∈ acc ∧ p.1 ≠ x) ∨
      (p.1 = x ∧ ((x ∉ acc.map Prod.fst ∧ p.2 = 1) ∨ ∃ q ∈ acc, q.1 = x ∧ p.2 = q.2 + 1)) := by
  induction acc with
  | nil =>
    simp [IncrementFor] at hp
    subst hp
    simp
  | cons a acc ih =>
    unfold IncrementFor at hp
    rw [List.map_cons, List.nodup_cons] at hnd
    by_cases ha : a.1 = x
    · simp only [ha, if_true, List.mem_cons] at hp
      rcases hp with rfl | hp
      · right
        exact ⟨rfl, Or.inr ⟨a, List.mem_cons_self _ _, ha, rfl⟩⟩
      · left
        refine ⟨List.mem_cons_of_mem _ hp, fun e => hnd.1 ?_⟩
        rw [ha, ← e]
        exact List.mem_map_of_mem _ hp
    · simp only [ha, if_false, List.mem_cons] at hp
      rcases hp with rfl | hp
      · left; exact ⟨List.mem_cons_self _ _, ha⟩
      · rcases ih hnd.2 hp with ⟨h1, h2⟩ | ⟨h1, ⟨h2, h3⟩ | ⟨q, hq, h2, h3⟩⟩
        · left; exact ⟨List.mem_cons_of_mem _ h1, h2⟩
        · right
          refine ⟨h1, Or.inl ⟨?_, h3⟩⟩
          simp only [List.map_cons, List.mem_cons, not_or]
          exact ⟨fun e => ha e.symm, h2⟩
        · right
          exact ⟨h1, Or.inr ⟨q, List.mem_cons_of_mem _ hq, h2, h3⟩⟩

theorem RealmsInv_step (acc : List (Nat × Nat)) (R : List Nat) (x : Nat)
    (h : RealmsInv acc R) : RealmsInv (IncrementFor acc x) (R ++ [x]) := by
  obtain ⟨hnd, hmem, hcnt⟩ := h
  refine ⟨?_, ?_, ?_⟩
  · rw [IncrementFor_keys]
    split
    · exact hnd
    · rename_i hx
      exact List.Nodup.append hnd (List.nodup_singleton x) (by simpa using hx)
  · intro r
    rw [IncrementFor_keys]
    split
    · rename_i hx
      rw [hmem, List.mem_append, List.mem_singleton]
      constructor
      · exact Or.inl
      · rintro (h | rfl)
        · exact h
        · exact (hmem _).1 hx
    · simp [hmem]
  · intro p hp
    rcases IncrementFor_mem acc x hnd p hp with ⟨h1, h2⟩ | ⟨h1, ⟨h2, h3⟩ | ⟨q, hq, h2, h3⟩⟩
    · rw [List.count_append, hcnt p h1]
      simp [List.count_singleton, h2]
    · have hx : x ∉ R := fun e => h2 ((hmem _).2 e)
      rw [h1, List.count_append, List.count_eq_zero_of_not_mem hx, h3]
      simp
    · rw [h1, h3, hcnt q hq, h2, List.count_append]
      simp

theorem foldl_IncrementFor_inv (R : List Nat) :
    RealmsInv (R.foldl IncrementFor []) R := by
  induction R using List.reverseRecOn with
  | nil => exact ⟨List.nodup_nil, fun r => by simp, fun p hp => by cases hp⟩
  | append_singleton R x ih =>
    rw [List.foldl_append]
    exact RealmsInv_step _ _ _ ih

theorem RealmsInv_length (acc : List (Nat × Nat)) (R : List Nat) (h : RealmsInv acc R) :
    acc.length = R.dedup.length := by
  obtain ⟨hnd, hmem, _⟩ := h
  have hperm : (acc.map Prod.fst).Perm R.dedup :=
    (List.perm_ext_iff_of_nodup hnd (List.nodup_dedup R)).2
      (fun r => by rw [hmem, List.mem_dedup])
  simpa using hperm.length_eq

theorem RealmsInv_both (acc : List (Nat × Nat)) (R : List Nat) (h : RealmsInv acc R)
    (hlen : acc.length = 2) :
    ((acc.map Prod.snd).getD 0 0 > 1 ∧ (acc.map Prod.snd).getD 1 0 > 1) ↔
      ∀ r ∈ R.dedup, R.count r > 1 := by
  obtain ⟨hnd, hmem, hcnt⟩ := h
  match acc, hlen with
  | [p, q], _ =>
    simp only [List.map_cons, List.map_nil, List.getD_cons_zero, List.getD_cons_succ]
    have hp := hcnt p (by simp)
    have hq := hcnt q (by simp)
    constructor
    · rintro ⟨h1, h2⟩ r hr
      rw [List.mem_dedup, ← hmem] at hr
      simp only [List.map_cons, List.map_nil, List.mem_cons, List.not_mem_nil, or_false] at hr
      rcases hr with rfl | rfl
      · omega
      · omega
    · intro hall
      have h1 := hall p.1 (by rw [List.mem_dedup, ← hmem]; simp)
      have h2 := hall q.1 (by rw [List.mem_dedup, ← hmem]; simp)
      omega

theorem count_BLUE_eq_countP_failed (l : List Status) :
    l.count Status.BLUE = l.countP IsFailed ↔ ∀ s ∈ l, IsFailed s = true → s = Status.BLUE := by
  have key : ∀ l : List Status, l.count Status.BLUE ≤ l.countP IsFailed ∧
      (l.count Status.BLUE = l.countP IsFailed ↔
        ∀ s ∈ l, IsFailed s = true → s = Status.BLUE) := by
    intro l
    induction l with
    | nil => simp
    | cons a l ih =>
      obtain ⟨hle, hiff⟩ := ih
      cases a <;> simp [List.count_cons, List.countP_cons, IsFailed] at hle hiff ⊢ <;>
        first
          | exact ⟨hle, hiff⟩
          | omega
  exact (key l).2


theorem FailedRings_length (rings : List Nat) (statuses : List Status)
    (h : statuses.length = rings.length) :
    (FailedRings (rings.zip statuses)).length = statuses.countP IsFailed := by
  unfold FailedRings
  rw [List.length_map, ← List.countP_eq_length_filter]
  have hs : statuses = (rings.zip statuses).map Prod.snd := by
    rw [List.map_snd_zip]; omega
  conv_rhs => rw [hs]
  rw [List.countP_map]
  rfl

theorem GroupRuleChoice_eq_GroupRule (erasurespecies : String) (st : TGroupLoopState)
    (rings : List Nat) (hinv : GroupLoopInv rings st) :
    GroupRuleChoice erasurespecies st =
      GroupRule erasurespecies (rings.zip st.storageGroupStatus.statuses) := by
  have hsnd : (rings.zip st.storageGroupStatus.statuses).map Prod.snd =
      st.storageGroupStatus.statuses := by
    rw [List.map_snd_zip]; have := hinv.1; omega
  unfold GroupRule
  by_cases hm : erasurespecies = MIRROR_3_DC
  · rw [if_pos hm]
    obtain ⟨h1, h2, h3, h4, _, _⟩ := hinv
    have hR := foldl_IncrementFor_inv (FailedRings (rings.zip st.storageGroupStatus.statuses))
    rw [← h4] at hR
    have hlen := RealmsInv_length _ _ hR
    have hfl := FailedRings_length rings _ h1
    have hn1 : MIRROR_3_DC ≠ NONE := by decide
    have hn2 : MIRROR_3_DC ≠ BLOCK_4_2 := by decide
    unfold GroupRuleChoice Mirror3dcRule
    simp only [hm, hn1, hn2, if_false, if_true, hsnd]
    rw [← hlen, hfl, ← h2, h3 Status.BLUE, h3 Status.YELLOW]
    by_cases hl2 : st.failedRealms.length = 2
    · have hboth := RealmsInv_both _ _ hR hl2
      simp only [hl2, true_and, hboth]
      simp
    · simp only [hl2, false_and, or_false, if_false]
      have hb := count_BLUE_eq_countP_failed st.storageGroupStatus.statuses
      rw [← h2] at hb
      simp only [hb, gt_iff_lt, List.count_pos_iff]
  · rw [if_neg hm, hsnd]
    by_cases h : erasurespecies = NONE ∨ erasurespecies = BLOCK_4_2
    · exact GroupRuleChoice_eq_CountRule _ _ rings hinv h
    · rw [not_or] at h
      unfold GroupRuleChoice CountRule
      simp [h.1, h.2, hm]

theorem CountRule_perm (erasurespecies : String) (l1 l2 : List Status) (h : l1.Perm l2) :
    CountRule erasurespecies l1 = CountRule erasurespecies l2 := by
  unfold CountRule
  rw [h.countP_eq, h.count_eq, h.count_eq]

theorem Mirror3dcRule_perm (v1 v2 : List (Nat × Status)) (h : v1.Perm v2) :
    Mirror3dcRule v1 = Mirror3dcRule v2 := by
  have hf : (FailedRings v1).Perm (FailedRings v2) := (h.filter _).map _
  have hs : (v1.map Prod.snd).Perm (v2.map Prod.snd) := h.map _
  have hd := hf.dedup
  unfold Mirror3dcRule
  dsimp only
  rw [hd.length_eq, hf.length_eq]
  have h1 : (∀ r ∈ (FailedRings v1).dedup, (FailedRings v1).count r > 1) ↔
      (∀ r ∈ (FailedRings v2).dedup, (FailedRings v2).count r > 1) := by
    constructor
    · intro hh r hr
      rw [← hf.count_eq]; exact hh r (hd.mem_iff.2 hr)
    · intro hh r hr
      rw [hf.count_eq]; exact hh r (hd.mem_iff.1 hr)
  have h2 : (∀ s ∈ v1.map Prod.snd, IsFailed s = true → s = Status.BLUE) ↔
      (∀ s ∈ v2.map Prod.snd, IsFailed s = true → s = Status.BLUE) := by
    constructor
    · intro hh s hs2; exact hh s (hs.mem_iff.2 hs2)
    · intro hh s hs2; exact hh s (hs.mem_iff.1 hs2)
  have h3 : Status.YELLOW ∈ v1.map Prod.snd ↔ Status.YELLOW ∈ v2.map Prod.snd := hs.mem_iff
  simp only [h1, h2, h3]

theorem MaxStatusOf_perm (l1 l2 : List Status) (h : l1.Perm l2) :
    MaxStatusOf l1 = MaxStatusOf l2 := by
  unfold MaxStatusOf
  exact h.foldl_eq' (fun x _ y _ z => MaxStatus_right_comm z x y) _


/-! ### The evaluator as runs of operations on its contexts -/

theorem ApplyOps_append (X : TExternal) (c : TSelfCheckResult) (a b : List TContextOp) :
    ApplyOps X c (a ++ b) = ApplyOps X (ApplyOps X c a) b := by
  unfold ApplyOps
  rw [List.foldl_append]

theorem ApplyOps_cons (X : TExternal) (c : TSelfCheckResult) (op : TContextOp)
    (ops : List TContextOp) :
    ApplyOps X c (op :: ops) = ApplyOps X (op.apply X c) ops := rfl

theorem ApplyOps_nil (X : TExternal) (c : TSelfCheckResult) : ApplyOps X c [] = c := rfl

theorem LoopOps_cons {σ α : Type} (step : σ → α → σ) (ops : σ → α → List TContextOp)
    (s : σ) (a : α) (l : List α) :
    LoopOps step ops s (a :: l) = ops s a ++ LoopOps step ops (step s a) l := rfl

theorem ApplyOps_LoopOps {σ α : Type} (X : TExternal) (ctx : σ → TSelfCheckResult)
    (step : σ → α → σ) (ops : σ → α → List TContextOp)
    (h : ∀ s a, ctx (step s a) = ApplyOps X (ctx s) (ops s a)) (l : List α) (s : σ) :
    ctx (l.foldl step s) = ApplyOps X (ctx s) (LoopOps step ops s l) := by
  induction l generalizing s with
  | nil => rfl
  | cons a l ih =>
    rw [List.foldl_cons, ih, h, LoopOps_cons, ApplyOps_append]

theorem Uncapped_nil : Uncapped [] := fun _ h => absurd h (List.not_mem_nil _)

theorem Uncapped_cons (op : TContextOp) (ops : List TContextOp)
    (h1 : op ≠ TContextOp.MinStatusYellow) (h2 : Uncapped ops) : Uncapped (op :: ops) := by
  intro o ho
  rcases List.mem_cons.1 ho with rfl | ho
  · exact h1
  · exact h2 o ho

theorem Uncapped_append (a b : List TContextOp) (h1 : Uncapped a) (h2 : Uncapped b) :
    Uncapped (a ++ b) := by
  intro o ho
  rcases List.mem_append.1 ho with ho | ho
  · exact h1 o ho
  · exact h2 o ho

theorem Uncapped_LoopOps {σ α : Type} (step : σ → α → σ) (ops : σ → α → List TContextOp)
    (h : ∀ s a, Uncapped (ops s a)) (l : List α) (s : σ) :
    Uncapped (LoopOps step ops s l) := by
  induction l generalizing s with
  | nil => exact Uncapped_nil
  | cons a l ih =>
    rw [LoopOps_cons]
    exact Uncapped_append _ _ (h s a) (ih _)

theorem Uncapped_report (status : Status) (message : String) (setTag : ETags)
    (includeTags : List ETags) (ops : List TContextOp) (h : Uncapped ops) :
    Uncapped (TContextOp.ReportStatus status message setTag includeTags :: ops) :=
  Uncapped_cons _ _ (fun e => TContextOp.noConfusion e) h

theorem Uncapped_inherit (lower : TSelfCheckResult) (ops : List TContextOp) (h : Uncapped ops) :
    Uncapped (TContextOp.InheritFrom lower :: ops) :=
  Uncapped_cons _ _ (fun e => TContextOp.noConfusion e) h

theorem Uncapped_location (location : Location) (ops : List TContextOp) (h : Uncapped ops) :
    Uncapped (TContextOp.SetLocation location :: ops) :=
  Uncapped_cons _ _ (fun e => TContextOp.noConfusion e) h

theorem Uncapped_clear (ops : List TContextOp) (h : Uncapped ops) :
    Uncapped (TContextOp.ClearIssueRecords :: ops) :=
  Uncapped_cons _ _ (fun e => TContextOp.noConfusion e) h

theorem Uncapped_merge (ops : List TContextOp) (h : Uncapped ops) :
    Uncapped (TContextOp.MergeRecords :: ops) :=
  Uncapped_cons _ _ (fun e => TContextOp.noConfusion e) h

/-- The law of a run without the cap, from a context that starts GREY. -/
theorem ApplyOps_max (X : TExternal) (c : TSelfCheckResult) (ops : List TContextOp)
    (hc : c.OverallStatus = Status.GREY) (h : Uncapped ops) :
    (ApplyOps X c ops).OverallStatus = MaxStatusOf (ops.filterMap TContextOp.status?) := by
  rw [ApplyOps_OverallStatus X ops c h, hc]
  rfl

theorem ReportPDiskState_op (X : TExternal) (c : TSelfCheckResult) (state : TPDiskState) :
    ReportPDiskState X c state = (ReportPDiskStateOp state).apply X c := by
  cases state <;> rfl

theorem ReportPDiskStateOp_uncapped (state : TPDiskState) (ops : List TContextOp)
    (h : Uncapped ops) : Uncapped (ReportPDiskStateOp state :: ops) := by
  cases state <;> exact Uncapped_report _ _ _ _ _ h

theorem FillPDiskStatus_run (X : TExternal) (S : TSelfCheckRequest) (pDiskId : String)
    (pDiskInfo : TPDiskStateInfo) (sp : StoragePDiskStatus) (c : TSelfCheckResult) :
    (FillPDiskStatus X S pDiskId pDiskInfo sp c).2 =
      ApplyOps X c (FillPDiskStatusOps X S pDiskId pDiskInfo c) ∧
    Uncapped (FillPDiskStatusOps X S pDiskId pDiskInfo c) := by
  refine ⟨?_, ?_⟩
  · unfold FillPDiskStatusOps
    dsimp only
    cases h : pDiskInfo.State with
    | some state =>
      unfold FillPDiskStatus PDiskSpaceChoice PDiskContextLocation
      rw [h]
      dsimp only
      rw [ApplyOps_cons, ApplyOps_cons, ReportPDiskState_op]
      split_ifs <;> rfl
    | none =>
      unfold FillPDiskStatus StorageNodeOps PDiskContextLocation
      rw [h]
      dsimp only
      split_ifs
      · cases THashMap.find S.MergedNodeInfo pDiskInfo.nodeid <;> rfl
      · rfl
  · unfold FillPDiskStatusOps
    dsimp only
    apply Uncapped_location
    cases pDiskInfo.State with
    | some state =>
      dsimp only
      apply ReportPDiskStateOp_uncapped
      cases PDiskSpaceChoice X pDiskInfo
      · exact Uncapped_nil
      · exact Uncapped_report _ _ _ _ _ Uncapped_nil
    | none =>
      dsimp only
      apply Uncapped_append
      · split_ifs
        · exact Uncapped_inherit _ _ Uncapped_nil
        · exact Uncapped_nil
      · exact Uncapped_report _ _ _ _ _ Uncapped_nil

theorem FillVDiskStatusPDisk_run (X : TExternal) (S : TSelfCheckRequest) (vDiskId : String)
    (vDiskInfo : TVDiskStateInfo) (sv : StorageVDiskStatus) (c : TSelfCheckResult) :
    (FillVDiskStatusPDisk X S vDiskId vDiskInfo sv c).2 =
      ApplyOps X c (FillVDiskStatusPDiskOps X S vDiskId vDiskInfo sv c) ∧
    Uncapped (FillVDiskStatusPDiskOps X S vDiskId vDiskInfo sv c) := by
  refine ⟨?_, ?_⟩
  · unfold FillVDiskStatusPDisk FillVDiskStatusPDiskOps
    dsimp only
    cases THashMap.find S.MergedPDiskState (GetPDiskId vDiskInfo) <;> rfl
  · unfold FillVDiskStatusPDiskOps
    dsimp only
    apply Uncapped_location
    cases THashMap.find S.MergedPDiskState (GetPDiskId vDiskInfo)
    · exact Uncapped_nil
    · exact Uncapped_inherit _ _ Uncapped_nil

theorem FillVDiskStatusReplicatedSpace_run (X : TExternal) (vDiskInfo : TVDiskStateInfo)
    (sv : StorageVDiskStatus) (c : TSelfCheckResult) :
    (FillVDiskStatusReplicatedSpace X vDiskInfo sv c).2 =
      ApplyOps X c (FillVDiskStatusReplicatedSpaceOps vDiskInfo c) ∧
    Uncapped (FillVDiskStatusReplicatedSpaceOps vDiskInfo c) := by
  refine ⟨?_, ?_⟩
  · unfold FillVDiskStatusReplicatedSpace FillVDiskStatusReplicatedSpaceOps
    cases vDiskInfo.Replicated with
    | false => rfl
    | true =>
      rw [if_neg (by decide), if_neg (by decide)]
      dsimp only
      cases vDiskInfo.DiskSpace with
      | none => rfl
      | some flag =>
        cases flag
        case Green =>
          dsimp only
          cases c.IssueRecords <;> rfl
        all_goals rfl
  · unfold FillVDiskStatusReplicatedSpaceOps
    cases vDiskInfo.Replicated with
    | false => exact Uncapped_clear _ (Uncapped_report _ _ _ _ _ Uncapped_nil)
    | true =>
      rw [if_neg (by decide)]
      cases vDiskInfo.DiskSpace with
      | none => exact Uncapped_nil
      | some flag =>
        cases flag
        case Green =>
          dsimp only
          cases c.IssueRecords <;> exact Uncapped_report _ _ _ _ _ Uncapped_nil
        all_goals exact Uncapped_report _ _ _ _ _ Uncapped_nil

theorem FillVDiskStatusState_run (X : TExternal) (vDiskInfo : TVDiskStateInfo)
    (sv : StorageVDiskStatus) (c : TSelfCheckResult) :
    (FillVDiskStatusState X vDiskInfo sv c).2 =
      ApplyOps X c (FillVDiskStatusStateOps X vDiskInfo c) ∧
    Uncapped (FillVDiskStatusStateOps X vDiskInfo c) := by
  refine ⟨?_, ?_⟩
  · unfold FillVDiskStatusState FillVDiskStatusStateOps
    cases vDiskInfo.VDiskState with
    | none => rfl
    | some state =>
      cases state
      case OK =>
        dsimp only
        rw [(FillVDiskStatusReplicatedSpace_run X vDiskInfo sv _).1]
        rfl
      all_goals rfl
  · unfold FillVDiskStatusStateOps
    cases vDiskInfo.VDiskState with
    | none => exact Uncapped_report _ _ _ _ _ Uncapped_nil
    | some state =>
      cases state
      case OK =>
        exact Uncapped_report _ _ _ _ _ (FillVDiskStatusReplicatedSpace_run X vDiskInfo sv _).2
      case Initial => exact Uncapped_clear _ (Uncapped_report _ _ _ _ _ Uncapped_nil)
      case SyncGuidRecovery => exact Uncapped_clear _ (Uncapped_report _ _ _ _ _ Uncapped_nil)
      all_goals exact Uncapped_report _ _ _ _ _ Uncapped_nil

theorem FillVDiskStatus_run (X : TExternal) (S : TSelfCheckRequest) (vDiskId : String)
    (vDiskInfo : TVDiskStateInfo) (sv : StorageVDiskStatus) (c : TSelfCheckResult) :
    (FillVDiskStatus X S vDiskId vDiskInfo sv c).2 =
      ApplyOps X c (FillVDiskStatusOps X S vDiskId vDiskInfo sv c) ∧
    Uncapped (FillVDiskStatusOps X S vDiskId vDiskInfo sv c) := by
  obtain ⟨p1, p2⟩ := FillVDiskStatusPDisk_run X S vDiskId vDiskInfo sv c
  refine ⟨?_, ?_⟩
  · unfold FillVDiskStatus FillVDiskStatusOps
    dsimp only
    rw [ApplyOps_append, ← p1]
    exact (FillVDiskStatusState_run X vDiskInfo _ _).1
  · unfold FillVDiskStatusOps
    exact Uncapped_append _ _ p2 (FillVDiskStatusState_run X vDiskInfo sv _).2

theorem FillPoolStatusGroup_run (X : TExternal) (S : TSelfCheckRequest)
    (acc : StoragePoolStatus × TSelfCheckResult) (groupId : Nat) :
    (FillPoolStatusGroup X S acc groupId).2 =
      ApplyOps X acc.2 (FillPoolStatusGroupOps X S acc groupId) ∧
    Uncapped (FillPoolStatusGroupOps X S acc groupId) := by
  unfold FillPoolStatusGroup FillPoolStatusGroupOps
  cases THashMap.find S.MergedBSGroupState groupId with
  | none => exact ⟨rfl, Uncapped_nil⟩
  | some groupInfo => exact ⟨rfl, Uncapped_inherit _ _ Uncapped_nil⟩

theorem FillPoolStatusReport_run (X : TExternal) (c : TSelfCheckResult) :
    FillPoolStatusReport X c = ApplyOps X c (FillPoolStatusReportOps c) ∧
    Uncapped (FillPoolStatusReportOps c) := by
  unfold FillPoolStatusReport FillPoolStatusReportOps
  cases c.OverallStatus <;>
    first
      | exact ⟨rfl, Uncapped_nil⟩
      | exact ⟨rfl, Uncapped_report _ _ _ _ _ Uncapped_nil⟩

theorem FillPoolStatus_run (X : TExternal) (S : TSelfCheckRequest) (poolName : String)
    (pool : TStoragePoolState) (sp : StoragePoolStatus) (c : TSelfCheckResult) :
    (FillPoolStatus X S poolName pool sp c).2 =
      ApplyOps X c (FillPoolStatusOps X S poolName pool sp c) ∧
    Uncapped (FillPoolStatusOps X S poolName pool sp c) := by
  have hm : ({ (FillPoolStatusGroups X S poolName pool sp c).2 with
      IssueRecords := MergeRecords X (FillPoolStatusGroups X S poolName pool sp c).2.IssueRecords } :
        TSelfCheckResult) =
      ApplyOps X c (FillPoolStatusMergeOps X S poolName pool sp c) := by
    have hl := ApplyOps_LoopOps X Prod.snd (FillPoolStatusGroup X S)
      (FillPoolStatusGroupOps X S) (fun s a => (FillPoolStatusGroup_run X S s a).1) pool.Groups
      ({ sp with id := poolName }, { c with Location.storage.pool.name := poolName })
    unfold FillPoolStatusMergeOps FillPoolStatusGroups
    dsimp only
    rw [ApplyOps_cons, ApplyOps_append]
    exact congrArg (fun r : TSelfCheckResult =>
      ({ r with IssueRecords := MergeRecords X r.IssueRecords } : TSelfCheckResult)) hl
  refine ⟨?_, ?_⟩
  · unfold FillPoolStatus FillPoolStatusOps
    dsimp only
    rw [ApplyOps_append, ← hm]
    exact (FillPoolStatusReport_run X _).1
  · unfold FillPoolStatusOps
    refine Uncapped_append _ _ ?_ (FillPoolStatusReport_run X _).2
    unfold FillPoolStatusMergeOps
    dsimp only
    exact Uncapped_location _ _ (Uncapped_append _ _
      (Uncapped_LoopOps _ _ (fun s a => (FillPoolStatusGroup_run X S s a).2) _ _)
      (Uncapped_merge _ Uncapped_nil))

theorem FillStoragePool_run (X : TExternal) (st : TStorageLoopState) (poolName : String) :
    (FillStoragePool X st poolName).context =
      ApplyOps X st.context (FillStoragePoolOps X st poolName) ∧
    Uncapped (FillStoragePoolOps X st poolName) := by
  unfold FillStoragePool FillStoragePoolOps
  cases THashMap.find st.S.StoragePoolState poolName with
  | none => exact ⟨rfl, Uncapped_nil⟩
  | some pool => exact ⟨rfl, Uncapped_inherit _ _ Uncapped_nil⟩

theorem FillStorageReport_run (X : TExternal) (c : TSelfCheckResult) :
    FillStorageReport X c = ApplyOps X c (FillStorageReportOps c) ∧
    Uncapped (FillStorageReportOps c) := by
  unfold FillStorageReport FillStorageReportOps
  cases c.OverallStatus <;>
    first
      | exact ⟨rfl, Uncapped_nil⟩
      | exact ⟨rfl, Uncapped_report _ _ _ _ _ Uncapped_nil⟩

theorem FillStorageUsage_run (X : TExternal) (q u : Nat) (c : TSelfCheckResult) :
    FillStorageUsage X q u c = ApplyOps X c (FillStorageUsageOps X q u) ∧
    Uncapped (FillStorageUsageOps X q u) := by
  unfold FillStorageUsage FillStorageUsageOps
  split_ifs <;>
    first
      | exact ⟨rfl, Uncapped_nil⟩
      | exact ⟨rfl, Uncapped_report _ _ _ _ _ Uncapped_nil⟩

theorem FillStorage_run (X : TExternal) (S : TSelfCheckRequest) (names : List String)
    (q u : Nat) (ss : StorageStatus) (c : TSelfCheckResult) :
    (FillStorage X S names q u ss c).2.2 = ApplyOps X c (FillStorageOps X S names q u ss c) ∧
    Uncapped (FillStorageOps X S names q u ss c) := by
  refine ⟨?_, ?_⟩
  · unfold FillStorage FillStorageOps FillStoragePoolsOps
    dsimp only
    rw [ApplyOps_append]
    by_cases hn : names = []
    · rw [if_pos hn, if_pos hn]
      exact (FillStorageUsage_run X q u c).1
    · rw [if_neg hn, if_neg hn]
      dsimp only
      rw [ApplyOps_append,
        ← ApplyOps_LoopOps X TStorageLoopState.context (FillStoragePool X) (FillStoragePoolOps X)
          (fun s a => (FillStoragePool_run X s a).1) names
          { S := S, storageStatus := ss, context := c },
        ← (FillStorageReport_run X _).1]
      exact (FillStorageUsage_run X q u _).1
  · unfold FillStorageOps FillStoragePoolsOps
    refine Uncapped_append _ _ ?_ (FillStorageUsage_run X q u c).2
    split_ifs
    · exact Uncapped_nil
    · exact Uncapped_append _ _
        (Uncapped_LoopOps _ _ (fun s a => (FillStoragePool_run X s a).2) _ _)
        (FillStorageReport_run X _).2

theorem ApplyOps_loop {α : Type} (X : TExternal)
    (step : TSelfCheckResult → α → TSelfCheckResult)
    (ops : TSelfCheckResult → α → List TContextOp)
    (h : ∀ s a, step s a = ApplyOps X s (ops s a)) (l : List α) (s : TSelfCheckResult) :
    l.foldl step s = ApplyOps X s (LoopOps step ops s l) :=
  ApplyOps_LoopOps X id step ops h l s

/-- Three parts of a function on a context, each a run, make a run. -/
theorem ApplyOps_glue (X : TExternal) (c f3 : TSelfCheckResult) (head : List TContextOp)
    (over tail : TSelfCheckResult → List TContextOp)
    (g t : TSelfCheckResult → TSelfCheckResult)
    (h1 : f3 = ApplyOps X c head) (h2 : ∀ c3, g c3 = ApplyOps X c3 (over c3))
    (h3 : ∀ c4, t c4 = ApplyOps X c4 (tail c4)) :
    t (g f3) = ApplyOps X c (head ++ over (ApplyOps X c head) ++
      tail (ApplyOps X (ApplyOps X c head) (over (ApplyOps X c head)))) := by
  subst h1
  rw [h3, h2, ApplyOps_append, ApplyOps_append]

theorem Check_op (X : TExternal) (c : TSelfCheckResult) (poolStats : TPoolStats) :
    Check X c poolStats = (CheckOp X poolStats).apply X c := by
  unfold Check CheckOp
  split_ifs <;> rfl

theorem CheckOp_uncapped (X : TExternal) (poolStats : TPoolStats) (ops : List TContextOp)
    (h : Uncapped ops) : Uncapped (CheckOp X poolStats :: ops) := by
  unfold CheckOp
  split_ifs <;> exact Uncapped_report _ _ _ _ _ h

/-- The context of a compute pool as a run. -/
theorem ComputePool_run (X : TExternal) (context : TSelfCheckResult) (poolStat : TPoolStats) :
    Check X { TSelfCheckContext context "COMPUTE_POOL" with
        Location.compute.pool.name := poolStat.name } poolStat =
      ApplyOps X (TSelfCheckContext context "COMPUTE_POOL")
        (ComputePoolOps X poolStat (TSelfCheckContext context "COMPUTE_POOL")) ∧
    Uncapped (ComputePoolOps X poolStat (TSelfCheckContext context "COMPUTE_POOL")) := by
  refine ⟨?_, ?_⟩
  · rw [Check_op]
    rfl
  · exact Uncapped_location _ _ (CheckOp_uncapped X poolStat _ Uncapped_nil)

theorem FillComputeNodePool_run (X : TExternal) (c : TSelfCheckResult) (poolStat : TPoolStats) :
    FillComputeNodePool X c poolStat = ApplyOps X c (FillComputeNodePoolOps X c poolStat) ∧
    Uncapped (FillComputeNodePoolOps X c poolStat) := by
  refine ⟨?_, Uncapped_inherit _ _ Uncapped_nil⟩
  unfold FillComputeNodePool FillComputeNodePoolOps
  dsimp only
  rw [← (ComputePool_run X c poolStat).1]
  rfl

theorem LoadAverage_run (X : TExternal) (nodeSystemState : TSystemStateInfo)
    (c : TSelfCheckResult) :
    (if X.LoadAbove (nodeSystemState.loadaverage.getD 0 0) nodeSystemState.numberofcpus then
        c.ReportStatus X Status.YELLOW "LoadAverage above 100%" ETags.OverloadState []
      else c.ReportStatus X Status.GREEN "" ETags.None []) =
      ApplyOps X c (LoadAverageOps X nodeSystemState) ∧
    Uncapped (LoadAverageOps X nodeSystemState) := by
  unfold LoadAverageOps
  split_ifs <;> exact ⟨rfl, Uncapped_report _ _ _ _ _ Uncapped_nil⟩

theorem FillComputeNodeStatus_run (X : TExternal) (S : TSelfCheckRequest) (nodeId : Nat)
    (c : TSelfCheckResult) :
    FillComputeNodeStatus X S nodeId c =
      ApplyOps X c (FillComputeNodeStatusOps X S nodeId c) ∧
    Uncapped (FillComputeNodeStatusOps X S nodeId c) := by
  refine ⟨?_, ?_⟩
  · unfold FillComputeNodeStatus FillComputeNodeStatusOps
    dsimp only
    rw [ApplyOps_cons]
    cases THashMap.find S.MergedNodeSystemState nodeId with
    | none => rfl
    | some nodeSystemState =>
      dsimp only
      have hl := ApplyOps_loop X (FillComputeNodePool X) (FillComputeNodePoolOps X)
        (fun s a => (FillComputeNodePool_run X s a).1) nodeSystemState.poolstats
        ({ c with Location.compute.node := FillNodeInfo S nodeId c.Location.compute.node })
      rw [ApplyOps_append]
      by_cases hc : nodeSystemState.loadaverage.length > 0 ∧ nodeSystemState.numberofcpus > 0
      · rw [if_pos hc, if_pos hc, ApplyOps_cons, ApplyOps_nil,
          ← (LoadAverage_run X nodeSystemState _).1]
        exact congrArg (fun r : TSelfCheckResult => r.InheritFrom
          (if X.LoadAbove (nodeSystemState.loadaverage.getD 0 0)
              nodeSystemState.numberofcpus then
            (TSelfCheckContext (nodeSystemState.poolstats.foldl (FillComputeNodePool X)
              ({ c with Location.compute.node :=
                FillNodeInfo S nodeId c.Location.compute.node })) "LOAD_AVERAGE").ReportStatus X
                  Status.YELLOW "LoadAverage above 100%" ETags.OverloadState []
          else
            (TSelfCheckContext (nodeSystemState.poolstats.foldl (FillComputeNodePool X)
              ({ c with Location.compute.node :=
                FillNodeInfo S nodeId c.Location.compute.node })) "LOAD_AVERAGE").ReportStatus X
                  Status.GREEN "" ETags.None [])) hl
      · rw [if_neg hc, if_neg hc]
        exact hl
  · unfold FillComputeNodeStatusOps
    dsimp only
    apply Uncapped_location
    cases THashMap.find S.MergedNodeSystemState nodeId with
    | none => exact Uncapped_nil
    | some nodeSystemState =>
      dsimp only
      apply Uncapped_append
      · exact Uncapped_LoopOps _ _ (fun s a => (FillComputeNodePool_run X s a).2) _ _
      · split_ifs
        · exact Uncapped_inherit _ _ Uncapped_nil
        · exact Uncapped_nil

theorem FillSystemTablet_run (X : TExternal) (databaseId : String) (c : TSelfCheckResult)
    (entry : Nat × TTabletState) :
    FillSystemTablet X databaseId c entry =
      ApplyOps X c (FillSystemTabletOps databaseId c entry) ∧
    Uncapped (FillSystemTabletOps databaseId c entry) := by
  refine ⟨?_, ?_⟩
  · unfold FillSystemTablet FillSystemTabletOps
    dsimp only
    split_ifs <;> rfl
  · unfold FillSystemTabletOps
    dsimp only
    split_ifs <;>
      first
        | exact Uncapped_nil
        | exact Uncapped_location _ _ Uncapped_nil
        | exact Uncapped_location _ _ (Uncapped_location _ _ Uncapped_nil)
        | exact Uncapped_location _ _ (Uncapped_location _ _
            (Uncapped_report _ _ _ _ _ Uncapped_nil))

theorem FillSystemTablets_run (X : TExternal) (S : TSelfCheckRequest) (c : TSelfCheckResult) :
    FillSystemTablets X S c = ApplyOps X c (FillSystemTabletsOps X S c) ∧
    Uncapped (FillSystemTabletsOps X S c) := by
  unfold FillSystemTablets FillSystemTabletsOps
  exact ⟨ApplyOps_loop X _ _ (fun s a => (FillSystemTablet_run X _ s a).1) _ _,
    Uncapped_LoopOps _ _ (fun s a => (FillSystemTablet_run X _ s a).2) _ _⟩

theorem TabletOps_uncapped (count : TNodeTabletStateCount) (c : TSelfCheckResult) :
    Uncapped (TabletOps count c) := by
  unfold TabletOps
  dsimp only
  apply Uncapped_location
  cases count.State
  · exact Uncapped_report _ _ _ _ _ Uncapped_nil
  · exact Uncapped_report _ _ _ _ _ Uncapped_nil
  · exact Uncapped_report _ _ _ _ _ Uncapped_nil
  · dsimp only
    split_ifs <;> exact Uncapped_report _ _ _ _ _ Uncapped_nil

theorem FillTabletsCount_run (X : TExternal) (acc : Status × TSelfCheckResult)
    (count : TNodeTabletStateCount) :
    (FillTabletsCount X acc count).2 = ApplyOps X acc.2 (FillTabletsCountOps X acc count) ∧
    Uncapped (FillTabletsCountOps X acc count) := by
  refine ⟨?_, ?_⟩
  · unfold FillTabletsCount FillTabletsCountOps TabletOps
    by_cases h : count.Count > 0
    · rw [if_pos h, if_pos h]
      dsimp only
      cases count.State
      · rfl
      · rfl
      · rfl
      · dsimp only
        cases count.Leader <;> rfl
    · rw [if_neg h, if_neg h]
      rfl
  · unfold FillTabletsCountOps
    split_ifs
    · exact Uncapped_inherit _ _ Uncapped_nil
    · exact Uncapped_nil

theorem FillTablets_run (X : TExternal) (databaseState : TDatabaseState) (nodeId : Nat)
    (c : TSelfCheckResult) :
    (FillTablets X databaseState nodeId c).2 =
      ApplyOps X c (FillTabletsParentOps X databaseState nodeId c) ∧
    Uncapped (FillTabletsParentOps X databaseState nodeId c) := by
  unfold FillTablets FillTabletsParentOps FillTabletsOps
  cases THashMap.find databaseState.MergedNodeTabletState nodeId with
  | none => exact ⟨rfl, Uncapped_nil⟩
  | some nodeTabletState =>
    refine ⟨?_, Uncapped_inherit _ _ Uncapped_nil⟩
    dsimp only
    rw [ApplyOps_cons, ApplyOps_nil]
    exact congrArg (fun r : TSelfCheckResult => c.InheritFrom r)
      (ApplyOps_LoopOps X Prod.snd (FillTabletsCount X) (FillTabletsCountOps X)
        (fun s a => (FillTabletsCount_run X s a).1) nodeTabletState.Count
        (Status.GREEN, TSelfCheckContext c ""))

theorem ReportWithMaxChildStatus_run (X : TExternal) (c : TSelfCheckResult) (message : String)
    (setTag : ETags) (includeTags : List ETags) :
    c.ReportWithMaxChildStatus X message setTag includeTags =
      ApplyOps X c (ReportWithMaxChildStatusOps c message setTag includeTags) ∧
    Uncapped (ReportWithMaxChildStatusOps c message setTag includeTags) := by
  unfold TSelfCheckResult.ReportWithMaxChildStatus ReportWithMaxChildStatusOps
  split_ifs
  · exact ⟨rfl, Uncapped_report _ _ _ _ _ Uncapped_nil⟩
  · exact ⟨rfl, Uncapped_nil⟩

theorem FillComputeNodes_unfold (X : TExternal) (S : TSelfCheckRequest)
    (databaseState : TDatabaseState) (computeNodeIds : List Nat) (c : TSelfCheckResult) :
    FillComputeNodes X S databaseState computeNodeIds c =
      (let systemContext := FillSystemTablets X S (TSelfCheckContext c "SYSTEM_TABLET")
       let c1 := c.InheritFrom systemContext
       let c2 :=
        if systemContext.OverallStatus ≠ Status.GREEN ∧
            systemContext.OverallStatus ≠ Status.GREY then
          c1.ReportStatus X systemContext.OverallStatus "Compute has issues with system tablets"
            ETags.ComputeState [ETags.SystemTabletState]
        else c1
       let c3 := computeNodeIds.foldl (FillComputeNode X S) c2
       let c4 := c3.ReportWithMaxChildStatus X "Compute is overloaded" ETags.ComputeState
        [ETags.OverloadState]
       let r := (computeNodeIds ++ [0]).foldl (FillComputeTablets X databaseState)
        (Status.GREEN, c4)
       if r.1 ≠ Status.GREEN then
        r.2.ReportStatus X r.1 "Compute has issues with tablets" ETags.ComputeState
          [ETags.TabletState]
       else r.2) := rfl

theorem FillComputeNodesHead_run (X : TExternal) (S : TSelfCheckRequest)
    (computeNodeIds : List Nat) (c : TSelfCheckResult) :
    computeNodeIds.foldl (FillComputeNode X S)
        (if (FillSystemTablets X S (TSelfCheckContext c "SYSTEM_TABLET")).OverallStatus ≠
            Status.GREEN ∧
            (FillSystemTablets X S (TSelfCheckContext c "SYSTEM_TABLET")).OverallStatus ≠
              Status.GREY then
          (c.InheritFrom (FillSystemTablets X S (TSelfCheckContext c "SYSTEM_TABLET"))).ReportStatus
            X (FillSystemTablets X S (TSelfCheckContext c "SYSTEM_TABLET")).OverallStatus
            "Compute has issues with system tablets" ETags.ComputeState
            [ETags.SystemTabletState]
        else c.InheritFrom (FillSystemTablets X S (TSelfCheckContext c "SYSTEM_TABLET"))) =
      ApplyOps X c (FillComputeNodesHeadOps X S computeNodeIds c) ∧
    Uncapped (FillComputeNodesHeadOps X S computeNodeIds c) := by
  refine ⟨?_, ?_⟩
  · unfold FillComputeNodesHeadOps
    dsimp only
    rw [ApplyOps_append,
      ← ApplyOps_loop X (FillComputeNode X S)
        (fun context nodeId =>
          [.InheritFrom
            (FillComputeNodeStatus X S nodeId (TSelfCheckContext context "COMPUTE_NODE"))])
        (fun s a => rfl) computeNodeIds]
    congr 1
    split_ifs <;> rfl
  · unfold FillComputeNodesHeadOps
    dsimp only
    apply Uncapped_append
    · apply Uncapped_inherit
      split_ifs
      · exact Uncapped_report _ _ _ _ _ Uncapped_nil
      · exact Uncapped_nil
    · exact Uncapped_LoopOps _ _ (fun s a => Uncapped_inherit _ _ Uncapped_nil) _ _

theorem FillComputeTablets_run (X : TExternal) (databaseState : TDatabaseState)
    (acc : Status × TSelfCheckResult) (nodeId : Nat) :
    (FillComputeTablets X databaseState acc nodeId).2 =
      ApplyOps X acc.2 (FillTabletsParentOps X databaseState nodeId acc.2) :=
  (FillTablets_run X databaseState nodeId acc.2).1

theorem FillComputeTabletsOps_run (X : TExternal) (databaseState : TDatabaseState)
    (nodeIds : List Nat) (c : TSelfCheckResult) :
    (if (nodeIds.foldl (FillComputeTablets X databaseState) (Status.GREEN, c)).1 ≠
        Status.GREEN then
      (nodeIds.foldl (FillComputeTablets X databaseState) (Status.GREEN, c)).2.ReportStatus X
        (nodeIds.foldl (FillComputeTablets X databaseState) (Status.GREEN, c)).1
        "Compute has issues with tablets" ETags.ComputeState [ETags.TabletState]
    else (nodeIds.foldl (FillComputeTablets X databaseState) (Status.GREEN, c)).2) =
      ApplyOps X c (FillComputeTabletsOps X databaseState nodeIds c) ∧
    Uncapped (FillComputeTabletsOps X databaseState nodeIds c) := by
  have hl := ApplyOps_LoopOps X Prod.snd (FillComputeTablets X databaseState)
    (fun acc nodeId => FillTabletsParentOps X databaseState nodeId acc.2)
    (fun s a => FillComputeTablets_run X databaseState s a) nodeIds (Status.GREEN, c)
  refine ⟨?_, ?_⟩
  · unfold FillComputeTabletsOps
    rw [ApplyOps_append, ← hl]
    split_ifs <;> rfl
  · unfold FillComputeTabletsOps
    apply Uncapped_append
    · exact Uncapped_LoopOps _ _
        (fun (s : Status × TSelfCheckResult) a => (FillTablets_run X databaseState a s.2).2) _ _
    · split_ifs
      · exact Uncapped_report _ _ _ _ _ Uncapped_nil
      · exact Uncapped_nil

theorem FillComputeNodes_run (X : TExternal) (S : TSelfCheckRequest)
    (databaseState : TDatabaseState) (computeNodeIds : List Nat) (c : TSelfCheckResult) :
    FillComputeNodes X S databaseState computeNodeIds c =
      ApplyOps X c (FillComputeNodesOps X S databaseState computeNodeIds c) ∧
    Uncapped (FillComputeNodesOps X S databaseState computeNodeIds c) := by
  obtain ⟨h1, h2⟩ := FillComputeNodesHead_run X S computeNodeIds c
  refine ⟨?_, ?_⟩
  · rw [FillComputeNodes_unfold]
    exact ApplyOps_glue X c _ (FillComputeNodesHeadOps X S computeNodeIds c)
      (fun c3 => ReportWithMaxChildStatusOps c3 "Compute is overloaded" ETags.ComputeState
        [ETags.OverloadState])
      (fun c4 => FillComputeTabletsOps X databaseState (computeNodeIds ++ [0]) c4)
      (fun c3 => c3.ReportWithMaxChildStatus X "Compute is overloaded" ETags.ComputeState
        [ETags.OverloadState])
      (fun c4 =>
        if ((computeNodeIds ++ [0]).foldl (FillComputeTablets X databaseState)
            (Status.GREEN, c4)).1 ≠ Status.GREEN then
          ((computeNodeIds ++ [0]).foldl (FillComputeTablets X databaseState)
            (Status.GREEN, c4)).2.ReportStatus X
              ((computeNodeIds ++ [0]).foldl (FillComputeTablets X databaseState)
                (Status.GREEN, c4)).1
              "Compute has issues with tablets" ETags.ComputeState [ETags.TabletState]
        else ((computeNodeIds ++ [0]).foldl (FillComputeTablets X databaseState)
          (Status.GREEN, c4)).2)
      h1 (fun c3 => (ReportWithMaxChildStatus_run X c3 _ _ _).1)
      (fun c4 => (FillComputeTabletsOps_run X databaseState _ c4).1)
  · unfold FillComputeNodesOps
    exact Uncapped_append _ _
      (Uncapped_append _ _ h2 (ReportWithMaxChildStatus_run X _ _ _ _).2)
      (FillComputeTabletsOps_run X databaseState _ _).2

theorem FillCompute_run (X : TExternal) (S : TSelfCheckRequest) (path : String)
    (cs : ComputeStatus) (c : TSelfCheckResult) :
    (FillCompute X S path cs c).2.2 = ApplyOps X c (FillComputeOps X S path c) ∧
    Uncapped (FillComputeOps X S path c) := by
  refine ⟨?_, ?_⟩
  · unfold FillCompute FillComputeOps
    dsimp only
    split_ifs <;>
      first
        | rfl
        | contradiction
        | (dsimp only
           exact (FillComputeNodes_run X S _ _ c).1)
  · unfold FillComputeOps
    dsimp only
    split_ifs
    · exact Uncapped_report _ _ _ _ _ Uncapped_nil
    · exact (FillComputeNodes_run X S _ _ c).2

theorem FillDatabaseReport_run (X : TExternal) (c : TSelfCheckResult) (compute storage : Status) :
    FillDatabaseReport X c compute storage =
      ApplyOps X c (FillDatabaseReportOps compute storage) ∧
    Uncapped (FillDatabaseReportOps compute storage) := by
  unfold FillDatabaseReport FillDatabaseReportOps
  split_ifs <;>
    first
      | exact ⟨rfl, Uncapped_nil⟩
      | exact ⟨rfl, Uncapped_report _ _ _ _ _ Uncapped_nil⟩

theorem FillDatabaseContext_run (X : TExternal) (S : TSelfCheckRequest) (path : String) :
    (FillDatabaseContext X S path).2.2 =
      ApplyOps X { Type_ := "DATABASE" } (FillDatabaseContextOps X S path) ∧
    Uncapped (FillDatabaseContextOps X S path) := by
  refine ⟨?_, ?_⟩
  · unfold FillDatabaseContext FillDatabaseContextOps
    dsimp only
    rw [ApplyOps_append, (FillDatabaseReport_run X _ _ _).1]
    rfl
  · unfold FillDatabaseContextOps
    dsimp only
    exact Uncapped_append _ _
      (Uncapped_location _ _ (Uncapped_inherit _ _ (Uncapped_inherit _ _ Uncapped_nil)))
      (FillDatabaseReport_run X {} _ _).2

theorem MaxLaw_of_run (X : TExternal) (fresh closed : TSelfCheckResult)
    (ops : List TContextOp) (hf : fresh.OverallStatus = Status.GREY)
    (h : closed = ApplyOps X fresh ops ∧ Uncapped ops) : MaxLaw X fresh closed ops :=
  ⟨h.1, by rw [h.1]; exact ApplyOps_max X fresh ops hf h.2⟩

theorem FillClockSkewResult_run (X : TExternal) (S : TSelfCheckRequest) (nodeId : Nat)
    (c : TSelfCheckResult) :
    (FillClockSkewResult X S nodeId c).2 =
      ApplyOps X c (FillClockSkewResultOps S nodeId c) ∧
    Uncapped (FillClockSkewResultOps S nodeId c) := by
  refine ⟨?_, ?_⟩
  · unfold FillClockSkewResult FillClockSkewResultOps
    dsimp only
    cases THashMap.find S.MergedNodeSystemState nodeId with
    | none => rfl
    | some nodeSystemState =>
      dsimp only
      by_cases hr : IsRequiredClockSkewIssue S nodeSystemState = true
      · rw [if_pos hr, if_pos hr]
        cases nodeSystemState.clockskewpeerid <;> (dsimp only; split_ifs <;> rfl)
      · rw [if_neg hr, if_neg hr]
        rfl
  · unfold FillClockSkewResultOps
    dsimp only
    apply Uncapped_location
    cases THashMap.find S.MergedNodeSystemState nodeId with
    | none => exact Uncapped_nil
    | some nodeSystemState =>
      dsimp only
      split_ifs <;>
        first
          | exact Uncapped_nil
          | (apply Uncapped_append
             · cases nodeSystemState.clockskewpeerid
               · exact Uncapped_nil
               · exact Uncapped_location _ _ Uncapped_nil
             · exact Uncapped_report _ _ _ _ _ Uncapped_nil)

theorem FillNodesSyncContext_run (X : TExternal) (S : TSelfCheckRequest) :
    (FillNodesSyncContext X S).2 =
      ApplyOps X { Type_ := "NODES_SYNC" } (FillNodesSyncContextOps X S) ∧
    Uncapped (FillNodesSyncContextOps X S) := by
  have hl := ApplyOps_LoopOps X Prod.snd (FillNodesSyncNode X)
    (fun acc nodeId =>
      [.InheritFrom (FillClockSkewResult X acc.1 nodeId (TSelfCheckContext acc.2 "TIME")).2])
    (fun s a => rfl) S.NodeIds (S, { Type_ := "NODES_SYNC" })
  refine ⟨?_, ?_⟩
  · unfold FillNodesSyncContextOps
    rw [ApplyOps_append, ← hl, ← (ReportWithMaxChildStatus_run X _ _ _ _).1]
    rfl
  · unfold FillNodesSyncContextOps
    exact Uncapped_append _ _
      (Uncapped_LoopOps _ _ (fun s a => Uncapped_inherit _ _ Uncapped_nil) _ _)
      (ReportWithMaxChildStatus_run X _ _ _ _).2

/-! ### The claims about contexts and groups -/

/-- C3 (counterexample): whatever the outside functions, for a block-4-2
group whose single vdisk has no state in the merged model, the vdisk context
closes with RED, the group context reports YELLOW "Group degraded" itself
and closes with YELLOW, which is not the maximum (RED) of what it reported
and of the overall status of its child. -/
theorem group_status_below_child_status :
    exampleGroupOneDown.erasurespecies = BLOCK_4_2 ∧
    ∀ X : TExternal,
      (FillGroupStatus X {} 1 exampleGroupOneDown {}
        (TSelfCheckContext {} "STORAGE_GROUP")).1.statuses = [Status.RED] ∧
      GroupIssues (FillGroupStatus X {} 1 exampleGroupOneDown {}
        (TSelfCheckContext {} "STORAGE_GROUP")).2.IssueRecords =
          [(Status.YELLOW, "Group degraded")] ∧
      (FillGroupStatus X {} 1 exampleGroupOneDown {}
        (TSelfCheckContext {} "STORAGE_GROUP")).2.OverallStatus = Status.YELLOW ∧
      (FillGroupStatus X {} 1 exampleGroupOneDown {}
        (TSelfCheckContext {} "STORAGE_GROUP")).2.OverallStatus ≠
          MaxStatusOf [Status.YELLOW, Status.RED] :=
  ⟨rfl, fun _ => ⟨rfl, rfl, rfl, fun h => (by decide : Status.YELLOW ≠ Status.RED) h⟩⟩

/-- C3 (amended): the status max law at the contexts of the evaluation
tree. For every input, the context FillPDiskStatus, FillVDiskStatus,
FillPoolStatus, FillStorage, Check (compute pool), FillComputeNodeStatus,
FillSystemTablets, FillCompute, FillClockSkewResult returns for a fresh
context, the context of a bucket of tablets and the tablets context of
FillTablets, the database context of FillDatabaseResult and the context of
FillNodesSyncResult are the fresh context after the operations the function
does on it (reports, closes of child contexts, changes of the location,
clears and merges of the records), and their overall status is the maximum
of GREY, of the statuses reported directly and of the overall statuses of
the child contexts at their close. The group context is capped: its overall
status is the maximum of the group issue it reports and of the minimum of
YELLOW and the maximum of the overall statuses of its vdisks. -/
theorem status_max_law (X : TExternal) (S : TSelfCheckRequest) (upper : TSelfCheckResult)
    (pDiskId : String) (pDiskInfo : TPDiskStateInfo) (sp : StoragePDiskStatus)
    (vDiskId : String) (vDiskInfo : TVDiskStateInfo) (sv : StorageVDiskStatus)
    (poolName : String) (pool : TStoragePoolState) (spool : StoragePoolStatus)
    (names : List String) (quota usage : Nat) (ss : StorageStatus)
    (poolStat : TPoolStats) (nodeId : Nat) (count : TNodeTabletStateCount)
    (nodeTabletState : TNodeTabletState) (path : String) (cs : ComputeStatus)
    (groupId : Nat) (groupInfo : TBSGroupStateInfo) :
    MaxLaw X (TSelfCheckContext upper "PDISK")
      (FillPDiskStatus X S pDiskId pDiskInfo sp (TSelfCheckContext upper "PDISK")).2
      (FillPDiskStatusOps X S pDiskId pDiskInfo (TSelfCheckContext upper "PDISK")) ∧
    MaxLaw X (TSelfCheckContext upper "VDISK")
      (FillVDiskStatus X S vDiskId vDiskInfo sv (TSelfCheckContext upper "VDISK")).2
      (FillVDiskStatusOps X S vDiskId vDiskInfo sv (TSelfCheckContext upper "VDISK")) ∧
    MaxLaw X (TSelfCheckContext upper "STORAGE_POOL")
      (FillPoolStatus X S poolName pool spool (TSelfCheckContext upper "STORAGE_POOL")).2
      (FillPoolStatusOps X S poolName pool spool (TSelfCheckContext upper "STORAGE_POOL")) ∧
    MaxLaw X (TSelfCheckContext upper "STORAGE")
      (FillStorage X S names quota usage ss (TSelfCheckContext upper "STORAGE")).2.2
      (FillStorageOps X S names quota usage ss (TSelfCheckContext upper "STORAGE")) ∧
    MaxLaw X (TSelfCheckContext upper "COMPUTE_POOL")
      (Check X { TSelfCheckContext upper "COMPUTE_POOL" with
        Location.compute.pool.name := poolStat.name } poolStat)
      (ComputePoolOps X poolStat (TSelfCheckContext upper "COMPUTE_POOL")) ∧
    MaxLaw X (TSelfCheckContext upper "COMPUTE_NODE")
      (FillComputeNodeStatus X S nodeId (TSelfCheckContext upper "COMPUTE_NODE"))
      (FillComputeNodeStatusOps X S nodeId (TSelfCheckContext upper "COMPUTE_NODE")) ∧
    MaxLaw X (TSelfCheckContext upper "SYSTEM_TABLET")
      (FillSystemTablets X S (TSelfCheckContext upper "SYSTEM_TABLET"))
      (FillSystemTabletsOps X S (TSelfCheckContext upper "SYSTEM_TABLET")) ∧
    ((FillTabletsCount X (Status.GREEN, upper) count).2 =
        ApplyOps X upper (FillTabletsCountOps X (Status.GREEN, upper) count) ∧
      MaxLaw X (TSelfCheckContext upper "TABLET")
        (ApplyOps X (TSelfCheckContext upper "TABLET")
          (TabletOps count (TSelfCheckContext upper "TABLET")))
        (TabletOps count (TSelfCheckContext upper "TABLET"))) ∧
    ((FillTablets X { MergedNodeTabletState := [(nodeId, nodeTabletState)] } nodeId upper).2 =
        upper.InheritFrom (ApplyOps X (TSelfCheckContext upper "")
          (FillTabletsOps X nodeTabletState upper)) ∧
      MaxLaw X (TSelfCheckContext upper "")
        (ApplyOps X (TSelfCheckContext upper "") (FillTabletsOps X nodeTabletState upper))
        (FillTabletsOps X nodeTabletState upper)) ∧
    MaxLaw X (TSelfCheckContext upper "COMPUTE")
      (FillCompute X S path cs (TSelfCheckContext upper "COMPUTE")).2.2
      (FillComputeOps X S path (TSelfCheckContext upper "COMPUTE")) ∧
    MaxLaw X { Type_ := "DATABASE" } (FillDatabaseContext X S path).2.2
      (FillDatabaseContextOps X S path) ∧
    MaxLaw X (TSelfCheckContext upper "TIME")
      (FillClockSkewResult X S nodeId (TSelfCheckContext upper "TIME")).2
      (FillClockSkewResultOps S nodeId (TSelfCheckContext upper "TIME")) ∧
    MaxLaw X { Type_ := "NODES_SYNC" } (FillNodesSyncContext X S).2
      (FillNodesSyncContextOps X S) ∧
    (FillGroupStatus X S groupId groupInfo {}
        (TSelfCheckContext upper "STORAGE_GROUP")).2.OverallStatus =
      MaxStatusOf
        (MinStatus (MaxStatusOf (groupInfo.vdiskids.map (VDiskOverall X S))) Status.YELLOW ::
          (GroupIssues (FillGroupStatus X S groupId groupInfo {}
            (TSelfCheckContext upper "STORAGE_GROUP")).2.IssueRecords).map Prod.fst) := by
  refine ⟨MaxLaw_of_run X _ _ _ rfl (FillPDiskStatus_run X S _ _ _ _),
    MaxLaw_of_run X _ _ _ rfl (FillVDiskStatus_run X S _ _ _ _),
    MaxLaw_of_run X _ _ _ rfl (FillPoolStatus_run X S _ _ _ _),
    MaxLaw_of_run X _ _ _ rfl (FillStorage_run X S _ _ _ _ _),
    MaxLaw_of_run X _ _ _ rfl (ComputePool_run X upper poolStat),
    MaxLaw_of_run X _ _ _ rfl (FillComputeNodeStatus_run X S _ _),
    MaxLaw_of_run X _ _ _ rfl (FillSystemTablets_run X S _),
    ⟨(FillTabletsCount_run X _ count).1,
      MaxLaw_of_run X _ _ _ rfl ⟨rfl, TabletOps_uncapped count _⟩⟩,
    ⟨?_, MaxLaw_of_run X _ _ _ rfl ⟨rfl, ?_⟩⟩,
    MaxLaw_of_run X _ _ _ rfl (FillCompute_run X S _ _ _),
    MaxLaw_of_run X _ _ _ rfl (FillDatabaseContext_run X S path),
    MaxLaw_of_run X _ _ _ rfl (FillClockSkewResult_run X S _ _),
    MaxLaw_of_run X _ _ _ rfl (FillNodesSyncContext_run X S), ?_⟩
  · have h := (FillTablets_run X { MergedNodeTabletState := [(nodeId, nodeTabletState)] }
      nodeId upper).1
    rw [h]
    unfold FillTabletsParentOps
    simp only [THashMap.find, if_true]
    rfl
  · unfold FillTabletsOps
    exact Uncapped_LoopOps _ _ (fun s a => (FillTabletsCount_run X s a).2) _ _
  · obtain ⟨h1, _, h3, _, h5⟩ := FillGroupStatus_fresh X S groupId groupInfo upper "STORAGE_GROUP"
    rw [h5, h3, FillGroupStatusVDisks_statuses]

/-- C4: for the erasure species `none` and `block-4-2`, FillGroupStatus on a
fresh group context fills the status message with one overall status for
every vdisk of groupInfo.vdiskids, in their order: the status FillVDiskStatus
gives for the state the vdisk has in MergedVDiskState. It reports the group
issue of the count rule on these statuses: zero or one issue tagged
GroupState, with the status and message of the rule; and the reasons of a
group issue are the ids of the VDiskState issues of the group context. -/
theorem FillGroupStatus_count_rule (X : TExternal) (S : TSelfCheckRequest) (groupId : Nat)
    (groupInfo : TBSGroupStateInfo) (upper : TSelfCheckResult)
    (h : groupInfo.erasurespecies = NONE ∨ groupInfo.erasurespecies = BLOCK_4_2) :
    (FillGroupStatus X S groupId groupInfo {}
        (TSelfCheckContext upper "STORAGE_GROUP")).1.statuses =
      groupInfo.vdiskids.map (VDiskOverall X S) ∧
    GroupIssues (FillGroupStatus X S groupId groupInfo {}
        (TSelfCheckContext upper "STORAGE_GROUP")).2.IssueRecords =
      (CountRule groupInfo.erasurespecies
        (groupInfo.vdiskids.map (VDiskOverall X S))).toList ∧
    ∀ it ∈ (FillGroupStatus X S groupId groupInfo {}
        (TSelfCheckContext upper "STORAGE_GROUP")).2.IssueRecords,
      it.Tag = ETags.GroupState →
      ∀ id, id ∈ it.IssueLog.reason ↔
        ∃ v ∈ (FillGroupStatus X S groupId groupInfo {}
          (TSelfCheckContext upper "STORAGE_GROUP")).2.IssueRecords,
          v.Tag = ETags.VDiskState ∧ v.IssueLog.id = id := by
  obtain ⟨h1, _, h3, h4, _⟩ := FillGroupStatus_fresh X S groupId groupInfo upper "STORAGE_GROUP"
  have hs := FillGroupStatusVDisks_statuses X S groupId groupInfo
    (TSelfCheckContext upper "STORAGE_GROUP")
  refine ⟨h1.trans hs, ?_, h4⟩
  rw [h3, GroupRuleChoice_eq_CountRule _ _ _
    (FillGroupStatusVDisks_inv X S groupId groupInfo upper "STORAGE_GROUP") h, hs]

/-- C4 (witness): the block-4-2 group whose single vdisk has no state: the
vdisk is RED, f = 1 and b = 0, and the group issue is YELLOW
"Group degraded". -/
theorem FillGroupStatus_count_rule_witness :
    (exampleGroupOneDown.erasurespecies = NONE ∨
      exampleGroupOneDown.erasurespecies = BLOCK_4_2) ∧
    exampleGroupOneDown.vdiskids.map (VDiskOverall exampleExternal {}) = [Status.RED] ∧
    GroupIssues (FillGroupStatus exampleExternal {} 1 exampleGroupOneDown {}
        (TSelfCheckContext {} "STORAGE_GROUP")).2.IssueRecords =
      [(Status.YELLOW, "Group degraded")] :=
  ⟨Or.inr rfl, by decide,
    (FillGroupStatus_count_rule exampleExternal {} 1 exampleGroupOneDown {}
      (Or.inr rfl)).2.1.trans (by decide)⟩

/-- C5: for the erasure species `mirror-3-dc`, FillGroupStatus on a fresh
group context fills the status message with one overall status for every
vdisk of groupInfo.vdiskids, in their order: the status FillVDiskStatus gives
for the state the vdisk has in MergedVDiskState. It reports the group issue
of the mirror-3-dc rule on the fail realms (rings) and these overall statuses
of the vdisks of the group: zero or one issue tagged GroupState, with the
status and message of the rule. -/
theorem FillGroupStatus_mirror_3_dc_rule (X : TExternal) (S : TSelfCheckRequest)
    (groupId : Nat) (groupInfo : TBSGroupStateInfo) (upper : TSelfCheckResult)
    (h : groupInfo.erasurespecies = MIRROR_3_DC) :
    (FillGroupStatus X S groupId groupInfo {}
        (TSelfCheckContext upper "STORAGE_GROUP")).1.statuses =
      groupInfo.vdiskids.map (VDiskOverall X S) ∧
    GroupIssues (FillGroupStatus X S groupId groupInfo {}
        (TSelfCheckContext upper "STORAGE_GROUP")).2.IssueRecords =
      (Mirror3dcRule (groupInfo.vdiskids.map
        (fun v => (v.ring, VDiskOverall X S v)))).toList := by
  obtain ⟨h1, _, h3, _, _⟩ := FillGroupStatus_fresh X S groupId groupInfo upper "STORAGE_GROUP"
  have hs := FillGroupStatusVDisks_statuses X S groupId groupInfo
    (TSelfCheckContext upper "STORAGE_GROUP")
  refine ⟨h1.trans hs, ?_⟩
  rw [h3, GroupRuleChoice_eq_GroupRule _ _ _
    (FillGroupStatusVDisks_inv X S groupId groupInfo upper "STORAGE_GROUP")]
  unfold GroupRule
  rw [if_pos h, hs, List.zip_map']

/-- C5 (witness): one realm with four failed vdisks and a second realm with
two failed vdisks give RED "Group failed". -/
theorem FillGroupStatus_mirror_3_dc_rule_witness :
    exampleMirrorFourAndTwo.erasurespecies = MIRROR_3_DC ∧
    exampleMirrorFourAndTwo.vdiskids.map
        (fun v => (v.ring, VDiskOverall exampleExternal {} v)) =
      [(0, Status.RED), (0, Status.RED), (0, Status.RED), (0, Status.RED),
        (1, Status.RED), (1, Status.RED)] ∧
    GroupIssues (FillGroupStatus exampleExternal {} 4 exampleMirrorFourAndTwo {}
      (TSelfCheckContext {} "STORAGE_GROUP")).2.IssueRecords = [(Status.RED, "Group failed")] :=
  ⟨rfl, by decide,
    (FillGroupStatus_mirror_3_dc_rule exampleExternal {} 4 exampleMirrorFourAndTwo {}
      rfl).2.trans (by decide)⟩

/-- C6 (counterexample): two mirror-3-dc groups whose vdisks have the same
overall statuses, RED and RED; the one with both vdisks in one fail realm
gets YELLOW "Group degraded", the one with the vdisks in two fail realms
gets ORANGE "Group has no redundancy". -/
theorem mirror_3_dc_depends_on_realms :
    exampleMirrorOneRealm.erasurespecies = exampleMirrorTwoRealms.erasurespecies ∧
    ∀ X : TExternal,
      (FillGroupStatus X {} 2 exampleMirrorOneRealm {}
        (TSelfCheckContext {} "STORAGE_GROUP")).1.statuses = [Status.RED, Status.RED] ∧
      (FillGroupStatus X {} 3 exampleMirrorTwoRealms {}
        (TSelfCheckContext {} "STORAGE_GROUP")).1.statuses = [Status.RED, Status.RED] ∧
      GroupIssues (FillGroupStatus X {} 2 exampleMirrorOneRealm {}
        (TSelfCheckContext {} "STORAGE_GROUP")).2.IssueRecords =
          [(Status.YELLOW, "Group degraded")] ∧
      GroupIssues (FillGroupStatus X {} 3 exampleMirrorTwoRealms {}
        (TSelfCheckContext {} "STORAGE_GROUP")).2.IssueRecords =
          [(Status.ORANGE, "Group has no redundancy")] ∧
      (FillGroupStatus X {} 2 exampleMirrorOneRealm {}
        (TSelfCheckContext {} "STORAGE_GROUP")).1.overall = Status.YELLOW ∧
      (FillGroupStatus X {} 3 exampleMirrorTwoRealms {}
        (TSelfCheckContext {} "STORAGE_GROUP")).1.overall = Status.ORANGE :=
  ⟨rfl, fun _ => ⟨rfl, rfl, rfl, rfl, rfl, rfl⟩⟩

/-- C6 (amended): for two groups of the same erasure species, evaluated in
fresh contexts, FillGroupStatus yields the same group overall status and the
same group issue (status and message) when the overall statuses of their
vdisks are the same up to order and, for `mirror-3-dc`, when the pairs of
fail realm and overall status of their vdisks are the same up to order. -/
theorem group_status_of_multiset (X : TExternal) (S1 S2 : TSelfCheckRequest)
    (groupId1 groupId2 : Nat) (g1 g2 : TBSGroupStateInfo) (upper1 upper2 : TSelfCheckResult)
    (hspecies : g1.erasurespecies = g2.erasurespecies)
    (hstatuses :
      (FillGroupStatus X S1 groupId1 g1 {} (TSelfCheckContext upper1 "STORAGE_GROUP")).1.statuses.Perm
        (FillGroupStatus X S2 groupId2 g2 {} (TSelfCheckContext upper2 "STORAGE_GROUP")).1.statuses)
    (hrealms : g1.erasurespecies = MIRROR_3_DC →
      (RingStatuses g1
          (FillGroupStatus X S1 groupId1 g1 {} (TSelfCheckContext upper1 "STORAGE_GROUP")).1).Perm
        (RingStatuses g2
          (FillGroupStatus X S2 groupId2 g2 {} (TSelfCheckContext upper2 "STORAGE_GROUP")).1)) :
    (FillGroupStatus X S1 groupId1 g1 {} (TSelfCheckContext upper1 "STORAGE_GROUP")).1.overall =
      (FillGroupStatus X S2 groupId2 g2 {} (TSelfCheckContext upper2 "STORAGE_GROUP")).1.overall ∧
    GroupIssues
        (FillGroupStatus X S1 groupId1 g1 {} (TSelfCheckContext upper1 "STORAGE_GROUP")).2.IssueRecords =
      GroupIssues
        (FillGroupStatus X S2 groupId2 g2 {} (TSelfCheckContext upper2 "STORAGE_GROUP")).2.IssueRecords := by
  obtain ⟨a1, a2, a3, _, a5⟩ := FillGroupStatus_fresh X S1 groupId1 g1 upper1 "STORAGE_GROUP"
  obtain ⟨b1, b2, b3, _, b5⟩ := FillGroupStatus_fresh X S2 groupId2 g2 upper2 "STORAGE_GROUP"
  have hi1 := FillGroupStatusVDisks_inv X S1 groupId1 g1 upper1 "STORAGE_GROUP"
  have hi2 := FillGroupStatusVDisks_inv X S2 groupId2 g2 upper2 "STORAGE_GROUP"
  have hc1 := GroupRuleChoice_eq_GroupRule g1.erasurespecies _ _ hi1
  have hc2 := GroupRuleChoice_eq_GroupRule g2.erasurespecies _ _ hi2
  rw [← a1] at hc1 a5
  rw [← b1] at hc2 b5
  have hsnd1 : (RingStatuses g1 (FillGroupStatus X S1 groupId1 g1 {}
      (TSelfCheckContext upper1 "STORAGE_GROUP")).1).map Prod.snd = _ :=
    List.map_snd_zip _ _ (by rw [a1]; exact le_of_eq hi1.1)
  have hsnd2 : (RingStatuses g2 (FillGroupStatus X S2 groupId2 g2 {}
      (TSelfCheckContext upper2 "STORAGE_GROUP")).1).map Prod.snd = _ :=
    List.map_snd_zip _ _ (by rw [b1]; exact le_of_eq hi2.1)
  have hrule : GroupRuleChoice g1.erasurespecies
        (FillGroupStatusVDisks X S1 groupId1 g1 {} (TSelfCheckContext upper1 "STORAGE_GROUP")) =
      GroupRuleChoice g2.erasurespecies
        (FillGroupStatusVDisks X S2 groupId2 g2 {} (TSelfCheckContext upper2 "STORAGE_GROUP")) := by
    rw [hc1, hc2, ← hspecies]
    unfold GroupRule
    by_cases hm : g1.erasurespecies = MIRROR_3_DC
    · rw [if_pos hm, if_pos hm]
      exact Mirror3dcRule_perm _ _ (hrealms hm)
    · rw [if_neg hm, if_neg hm]
      change CountRule _ ((RingStatuses g1 _).map Prod.snd) =
        CountRule _ ((RingStatuses g2 _).map Prod.snd)
      rw [hsnd1, hsnd2]
      exact CountRule_perm _ _ _ hstatuses
  refine ⟨?_, by rw [a3, b3, hrule]⟩
  rw [a2, b2, a5, b5, hrule, MaxStatusOf_perm _ _ hstatuses]

/-- C6 (witness): two mirror-3-dc groups over the same two vdisks, one in
each fail realm, listed in opposite orders: the statuses are GREEN, RED and
RED, GREEN, and both groups get YELLOW "Group degraded". -/
theorem group_status_of_multiset_witness :
    exampleMirrorGoodFirst.erasurespecies = exampleMirrorGoodLast.erasurespecies ∧
    (FillGroupStatus exampleExternal exampleOneOfTwo 5 exampleMirrorGoodFirst {}
      (TSelfCheckContext {} "STORAGE_GROUP")).1.statuses = [Status.GREEN, Status.RED] ∧
    (FillGroupStatus exampleExternal exampleOneOfTwo 5 exampleMirrorGoodLast {}
      (TSelfCheckContext {} "STORAGE_GROUP")).1.statuses = [Status.RED, Status.GREEN] ∧
    GroupIssues (FillGroupStatus exampleExternal exampleOneOfTwo 5 exampleMirrorGoodFirst {}
      (TSelfCheckContext {} "STORAGE_GROUP")).2.IssueRecords = [(Status.YELLOW, "Group degraded")] ∧
    ((FillGroupStatus exampleExternal exampleOneOfTwo 5 exampleMirrorGoodFirst {}
      (TSelfCheckContext {} "STORAGE_GROUP")).1.overall =
    (FillGroupStatus exampleExternal exampleOneOfTwo 5 exampleMirrorGoodLast {}
      (TSelfCheckContext {} "STORAGE_GROUP")).1.overall ∧
    GroupIssues (FillGroupStatus exampleExternal exampleOneOfTwo 5 exampleMirrorGoodFirst {}
      (TSelfCheckContext {} "STORAGE_GROUP")).2.IssueRecords =
    GroupIssues (FillGroupStatus exampleExternal exampleOneOfTwo 5 exampleMirrorGoodLast {}
      (TSelfCheckContext {} "STORAGE_GROUP")).2.IssueRecords) :=
  ⟨rfl, by decide, by decide, by decide,
    group_status_of_multiset exampleExternal exampleOneOfTwo exampleOneOfTwo 5 5
      exampleMirrorGoodFirst exampleMirrorGoodLast {} {} rfl
      (by
        have h1 : (FillGroupStatus exampleExternal exampleOneOfTwo 5 exampleMirrorGoodFirst {}
            (TSelfCheckContext {} "STORAGE_GROUP")).1.statuses = [Status.GREEN, Status.RED] := by
          decide
        have h2 : (FillGroupStatus exampleExternal exampleOneOfTwo 5 exampleMirrorGoodLast {}
            (TSelfCheckContext {} "STORAGE_GROUP")).1.statuses = [Status.RED, Status.GREEN] := by
          decide
        rw [h1, h2]
        exact List.Perm.swap _ _ _)
      (fun _ => by
        have h1 : RingStatuses exampleMirrorGoodFirst
            (FillGroupStatus exampleExternal exampleOneOfTwo 5 exampleMirrorGoodFirst {}
              (TSelfCheckContext {} "STORAGE_GROUP")).1 = [(0, Status.GREEN), (1, Status.RED)] := by
          decide
        have h2 : RingStatuses exampleMirrorGoodLast
            (FillGroupStatus exampleExternal exampleOneOfTwo 5 exampleMirrorGoodLast {}
              (TSelfCheckContext {} "STORAGE_GROUP")).1 = [(1, Status.RED), (0, Status.GREEN)] := by
          decide
        rw [h1, h2]
        exact List.Perm.swap _ _ _)⟩

theorem MaxStatusOf_cons_le (a : Status) (l : List Status) :
    a.toNat ≤ (MaxStatusOf (a :: l)).toNat := by
  unfold MaxStatusOf
  rw [List.foldl_cons]
  have h1 := foldl_MaxStatus_ge l (MaxStatus Status.GREY a)
  rw [MaxStatus_toNat] at h1
  omega

/-- C7 (counterexample): whatever the outside functions, a group whose
single vdisk is OK and replicated with the disk space flag Grey ends with
one descendant issue record in its context, the UNSPECIFIED issue
"DiskSpace is Grey" of the vdisk, and with the overall status GREEN. -/
theorem group_green_with_descendant_issue :
    exampleGroupOneDown.vdiskids.map GetVDiskId = exampleGreySpace.MergedVDiskState.map Prod.fst ∧
    ∀ X : TExternal,
      (FillGroupStatus X exampleGreySpace 1 exampleGroupOneDown {}
        (TSelfCheckContext {} "STORAGE_GROUP")).2.IssueRecords.map
          (fun it => (it.Tag, it.IssueLog.status, it.IssueLog.message)) =
        [(ETags.VDiskSpace, Status.UNSPECIFIED, "DiskSpace is Grey")] ∧
      (FillGroupStatus X exampleGreySpace 1 exampleGroupOneDown {}
        (TSelfCheckContext {} "STORAGE_GROUP")).1.overall = Status.GREEN ∧
      (FillGroupStatus X exampleGreySpace 1 exampleGroupOneDown {}
        (TSelfCheckContext {} "STORAGE_GROUP")).2.OverallStatus = Status.GREEN :=
  ⟨by decide, fun _ => ⟨rfl, rfl, rfl⟩⟩

/-- C7 (amended): for every group and every state of its vdisks and pdisks,
if the context of the group holds a descendant issue record (a record other
than the group issue) whose status is not UNSPECIFIED, then the overall
status FillGroupStatus sets for the group is not GREEN. -/
theorem group_not_green_of_descendant_issue (X : TExternal) (S : TSelfCheckRequest)
    (groupId : Nat) (groupInfo : TBSGroupStateInfo) (upper : TSelfCheckResult)
    (h : ∃ it ∈ (FillGroupStatus X S groupId groupInfo {}
        (TSelfCheckContext upper "STORAGE_GROUP")).2.IssueRecords,
      it.Tag ≠ ETags.GroupState ∧ it.IssueLog.status ≠ Status.UNSPECIFIED) :
    (FillGroupStatus X S groupId groupInfo {}
      (TSelfCheckContext upper "STORAGE_GROUP")).1.overall ≠ Status.GREEN := by
  obtain ⟨it, hit, htag, hst⟩ := h
  obtain ⟨_, a2, _, _, a5⟩ := FillGroupStatus_fresh X S groupId groupInfo upper "STORAGE_GROUP"
  obtain ⟨hctx, _, _⟩ := FillGroupStatus_context X S groupId groupInfo {}
    (TSelfCheckContext upper "STORAGE_GROUP")
  obtain ⟨_, _, _, _, h5, h6⟩ := FillGroupStatusVDisks_inv X S groupId groupInfo upper
    "STORAGE_GROUP"
  have hmem : it ∈ (FillGroupStatusVDisks X S groupId groupInfo {}
      (TSelfCheckContext upper "STORAGE_GROUP")).context.IssueRecords := by
    rw [hctx] at hit
    cases hch : GroupRuleChoice groupInfo.erasurespecies
        (FillGroupStatusVDisks X S groupId groupInfo {}
          (TSelfCheckContext upper "STORAGE_GROUP")) with
    | none => rw [hch] at hit; exact hit
    | some p =>
      rw [hch] at hit
      dsimp only at hit
      rw [ReportStatus_IssueRecords] at hit
      split at hit
      · exact hit
      · rcases List.mem_cons.1 hit with rfl | hit
        · exact absurd rfl htag
        · exact hit
  obtain ⟨_, _, hg, hgy, hle⟩ := h6 it hmem
  have h3 : 3 ≤ it.IssueLog.status.toNat := by
    revert hg hgy hst
    cases it.IssueLog.status <;> simp [Status.toNat]
  rw [h5] at hle
  rw [a2, a5]
  intro hgreen
  have hge := MaxStatusOf_cons_le
    (MinStatus (MaxStatusOf (FillGroupStatusVDisks X S groupId groupInfo {}
        (TSelfCheckContext upper "STORAGE_GROUP")).storageGroupStatus.statuses) Status.YELLOW)
    ((GroupRuleChoice groupInfo.erasurespecies
      (FillGroupStatusVDisks X S groupId groupInfo {}
        (TSelfCheckContext upper "STORAGE_GROUP"))).toList.map Prod.fst)
  rw [hgreen, MinStatus_toNat] at hge
  have hY : Status.YELLOW.toNat = 4 := rfl
  have hG : Status.GREEN.toNat = 2 := rfl
  omega

/-- C7 (witness): the group whose single vdisk has no state holds the RED
issue of the vdisk and is YELLOW. -/
theorem group_not_green_of_descendant_issue_witness :
    (FillGroupStatus exampleExternal {} 1 exampleGroupOneDown {}
      (TSelfCheckContext {} "STORAGE_GROUP")).1.overall ≠ Status.GREEN :=
  group_not_green_of_descendant_issue exampleExternal {} 1 exampleGroupOneDown {}
    ⟨NewIssueRecord exampleExternal
        { (TSelfCheckContext (TSelfCheckContext {} "STORAGE_GROUP") "VDISK") with
          Location.storage.pool.group.vdisk.id := ["1-0-0-0-0"] }
        Status.RED "VDisk is not available" ETags.VDiskState [ETags.PDiskState],
      by decide, by decide, by decide⟩


/-! ### Pool -/

theorem FindRecordsForMergeLoop_length (fuel : Nat) (records similar Mergeed : List TIssueRecord) :
    (FindRecordsForMergeLoop fuel records similar Mergeed).1.length ≤ records.length := by
  induction fuel generalizing records similar Mergeed with
  | zero => exact Nat.le_refl _
  | succ fuel ih =>
    unfold FindRecordsForMergeLoop
    split
    · rename_i first rest
      dsimp only
      have hl : (rest.filter (fun it => !IsSimilar first it)).length ≤ rest.length :=
        List.length_filter_le _ _
      split
      · exact Nat.le_trans (ih _ _ _) (Nat.le_trans hl (Nat.le_succ _))
      · exact Nat.le_trans (ih _ _ _) (Nat.le_trans hl (Nat.le_succ _))
    · exact Nat.le_refl _

/-- Fuel: with `records.length` iterations allowed the loop of
FindRecordsForMerge ends by its own condition; more fuel changes nothing. -/
theorem FindRecordsForMergeLoop_fuel (fuel : Nat) (records similar Mergeed : List TIssueRecord)
    (h : records.length ≤ fuel) :
    FindRecordsForMergeLoop (fuel + 1) records similar Mergeed =
      FindRecordsForMergeLoop fuel records similar Mergeed := by
  induction fuel generalizing records similar Mergeed with
  | zero =>
    have hr : records = [] := List.length_eq_zero.1 (Nat.le_zero.1 h)
    subst hr
    rfl
  | succ fuel ih =>
    cases records with
    | nil => cases similar <;> rfl
    | cons first rest =>
      cases similar with
      | cons s ss => rfl
      | nil =>
        have hl : (rest.filter (fun it => !IsSimilar first it)).length ≤ fuel :=
          Nat.le_trans (List.length_filter_le _ _) (Nat.le_of_succ_le_succ h)
        conv_lhs => rw [FindRecordsForMergeLoop]
        conv_rhs => rw [FindRecordsForMergeLoop]
        split
        · exact ih _ _ _ hl
        · exact ih _ _ _ hl

theorem FindRecordsForMerge_length (records Mergeed : List TIssueRecord) (h : records ≠ []) :
    (FindRecordsForMerge records [] Mergeed).2.1.length < records.length := by
  unfold FindRecordsForMerge
  dsimp only
  cases records with
  | nil => exact absurd rfl h
  | cons first rest =>
    rw [List.length_cons, FindRecordsForMergeLoop]
    have hl : (rest.filter (fun it => !IsSimilar first it)).length ≤ rest.length :=
      List.length_filter_le _ _
    split
    · exact Nat.lt_succ_of_le (Nat.le_trans (FindRecordsForMergeLoop_length _ _ _ _) hl)
    · exact Nat.lt_succ_of_le (Nat.le_trans (FindRecordsForMergeLoop_length _ _ _ _) hl)

/-- Fuel: with `records.length` iterations allowed the loop of MergeLevelRecords
ends by its own condition; more fuel changes nothing. -/
theorem MergeLevelRecordsLoop_fuel (fuel : Nat) (context : TMergeIssuesContext)
    (records handled : List TIssueRecord) (h : records.length ≤ fuel) :
    MergeLevelRecordsLoop (fuel + 1) context records handled =
      MergeLevelRecordsLoop fuel context records handled := by
  induction fuel generalizing context records handled with
  | zero =>
    have hr : records = [] := List.length_eq_zero.1 (Nat.le_zero.1 h)
    subst hr
    rfl
  | succ fuel ih =>
    conv_lhs => rw [MergeLevelRecordsLoop]
    conv_rhs => rw [MergeLevelRecordsLoop]
    dsimp only
    split
    · rfl
    · rename_i hne
      have hne2 : records ≠ [] := fun e => hne (by rw [e]; rfl)
      have hl : (FindRecordsForMerge records [] handled).2.1.length ≤ fuel :=
        Nat.le_of_lt_succ (Nat.lt_of_lt_of_le (FindRecordsForMerge_length records handled hne2) h)
      split
      · exact ih _ _ _ hl
      · exact ih _ _ _ hl

theorem foldl_RemoveUnlinkStep_length (necessary : List String) (l : List TIssueRecord)
    (st : TUnlinkState) :
    (l.foldl (RemoveUnlinkStep necessary) st).kept.length ≤ st.kept.length + l.length ∧
    ((l.foldl (RemoveUnlinkStep necessary) st).isRemovingIssuesIteration = true →
      st.isRemovingIssuesIteration = true ∨
        (l.foldl (RemoveUnlinkStep necessary) st).kept.length < st.kept.length + l.length) := by
  induction l generalizing st with
  | nil => exact ⟨Nat.le_refl _, fun h => Or.inl h⟩
  | cons a l ih =>
    rw [List.foldl_cons, List.length_cons]
    obtain ⟨h1, h2⟩ := ih (RemoveUnlinkStep necessary st a)
    unfold RemoveUnlinkStep at h1 h2 ⊢
    split at h1
    · rw [if_pos (by assumption)] at h2 ⊢
      dsimp only at h1 h2 ⊢
      exact ⟨by omega, fun _ => Or.inr (by omega)⟩
    · rw [if_neg (by assumption)] at h2 ⊢
      dsimp only at h1 h2 ⊢
      rw [List.length_append, List.length_singleton] at h1 h2
      refine ⟨by omega, fun hr => ?_⟩
      rcases h2 hr with h | h
      · exact Or.inl h
      · exact Or.inr (by omega)

/-- Fuel: with more than `records.length` sweeps allowed the loop of
RemoveUnlinkIssues ends by its own condition; more fuel changes nothing. -/
theorem RemoveUnlinkLoop_fuel (fuel : Nat) (records : List TIssueRecord)
    (removeIssuesIds : List String) (h : records.length < fuel) :
    RemoveUnlinkLoop (fuel + 1) records removeIssuesIds =
      RemoveUnlinkLoop fuel records removeIssuesIds := by
  induction fuel generalizing records removeIssuesIds with
  | zero => exact absurd h (Nat.not_lt_zero _)
  | succ fuel ih =>
    conv_lhs => rw [RemoveUnlinkLoop]
    conv_rhs => rw [RemoveUnlinkLoop]
    split
    · rename_i hrem
      obtain ⟨_, h2⟩ := foldl_RemoveUnlinkStep_length (NecessaryIssuesIds records) records
        { removeIssuesIds := removeIssuesIds }
      rcases h2 hrem with h3 | h3
      · exact Bool.noConfusion h3
      · refine ih _ _ ?_
        have h4 : (0 : Nat) + records.length = records.length := Nat.zero_add _
        change _ < 0 + records.length at h3
        omega
    · rfl

/-- C10: for every input list of issue records, in the list MergeRecords
produces every id that appears in the reason list of a record is the id of a
record of that list. -/
theorem MergeRecords_referential_closure (X : TExternal) (records : List TIssueRecord) :
    ReferentiallyClosed (MergeRecords X records) :=
  MergeRecords_closed X records

/-! ### Referential closure through the evaluator -/

theorem foldl_preserves {A B : Type} (P : B → Prop) (f : B → A → B)
    (h : ∀ b a, P b → P (f b a)) (l : List A) (b : B) (hb : P b) : P (l.foldl f b) := by
  induction l generalizing b with
  | nil => exact hb
  | cons a l ih => exact ih _ (h b a hb)

theorem Closed_nil : ReferentiallyClosed [] := by
  intro it hit; cases hit

theorem Closed_append (l1 l2 : List TIssueRecord) (h1 : ReferentiallyClosed l1)
    (h2 : ReferentiallyClosed l2) : ReferentiallyClosed (l1 ++ l2) := by
  intro it hit r hr
  rcases List.mem_append.1 hit with hit | hit
  · obtain ⟨it2, h, e⟩ := h1 it hit r hr
    exact ⟨it2, List.mem_append_left _ h, e⟩
  · obtain ⟨it2, h, e⟩ := h2 it hit r hr
    exact ⟨it2, List.mem_append_right _ h, e⟩

theorem Closed_ReportStatus (X : TExternal) (c : TSelfCheckResult) (status : Status)
    (message : String) (setTag : ETags) (includeTags : List ETags)
    (h : ReferentiallyClosed c.IssueRecords) :
    ReferentiallyClosed (c.ReportStatus X status message setTag includeTags).IssueRecords := by
  rw [ReportStatus_IssueRecords]
  split
  · exact h
  · intro it hit r hr
    rcases List.mem_cons.1 hit with rfl | hit
    · simp only [NewIssueRecord, mem_Unique, mem_SortStrings, mem_CollectReason] at hr
      obtain ⟨it2, h2, _, e⟩ := hr
      exact ⟨it2, List.mem_cons_of_mem _ h2, e⟩
    · obtain ⟨it2, h2, e⟩ := h it hit r hr
      exact ⟨it2, List.mem_cons_of_mem _ h2, e⟩

theorem Closed_InheritFrom (c lower : TSelfCheckResult)
    (h : ReferentiallyClosed c.IssueRecords) (hl : ReferentiallyClosed lower.IssueRecords) :
    ReferentiallyClosed (c.InheritFrom lower).IssueRecords := by
  rw [InheritFrom_IssueRecords]
  exact Closed_append _ _ h hl

theorem Closed_ReportWithMaxChildStatus (X : TExternal) (c : TSelfCheckResult)
    (message : String) (setTag : ETags) (includeTags : List ETags)
    (h : ReferentiallyClosed c.IssueRecords) :
    ReferentiallyClosed
      (c.ReportWithMaxChildStatus X message setTag includeTags).IssueRecords := by
  unfold TSelfCheckResult.ReportWithMaxChildStatus
  split
  · exact Closed_ReportStatus X _ _ _ _ _ h
  · exact h

theorem ReportPDiskState_Closed (X : TExternal) (c : TSelfCheckResult) (state : TPDiskState)
    (h : ReferentiallyClosed c.IssueRecords) :
    ReferentiallyClosed (ReportPDiskState X c state).IssueRecords := by
  cases state <;> exact Closed_ReportStatus X c _ _ _ _ h

theorem FillPDiskStatus_Closed (X : TExternal) (S : TSelfCheckRequest) (pDiskId : String)
    (pDiskInfo : TPDiskStateInfo) (st : StoragePDiskStatus) (c : TSelfCheckResult)
    (h : ReferentiallyClosed c.IssueRecords) :
    ReferentiallyClosed (FillPDiskStatus X S pDiskId pDiskInfo st c).2.IssueRecords := by
  unfold FillPDiskStatus
  dsimp only
  split
  · split_ifs <;>
      first
        | exact Closed_ReportStatus X _ _ _ _ _ (ReportPDiskState_Closed X _ _ h)
        | exact ReportPDiskState_Closed X _ _ h
  · split_ifs
    · refine Closed_ReportStatus _ _ _ _ _ _ ?_
      refine Closed_InheritFrom _ _ h ?_
      split <;> exact Closed_ReportStatus X _ _ _ _ _ Closed_nil
    · exact Closed_ReportStatus X _ _ _ _ _ h

theorem FillVDiskStatusReplicatedSpace_Closed (X : TExternal) (vDiskInfo : TVDiskStateInfo)
    (st : StorageVDiskStatus) (c : TSelfCheckResult)
    (h : ReferentiallyClosed c.IssueRecords) :
    ReferentiallyClosed (FillVDiskStatusReplicatedSpace X vDiskInfo st c).2.IssueRecords := by
  unfold FillVDiskStatusReplicatedSpace
  dsimp only
  split
  · exact Closed_ReportStatus X _ _ _ _ _ Closed_nil
  · split
    · rename_i flag hflag
      cases flag
      · exact Closed_ReportStatus X _ _ _ _ _ h
      · dsimp only
        split <;> exact Closed_ReportStatus X _ _ _ _ _ h
      · exact Closed_ReportStatus X _ _ _ _ _ h
      · exact Closed_ReportStatus X _ _ _ _ _ h
      · exact Closed_ReportStatus X _ _ _ _ _ h
    · exact h

theorem FillVDiskStatus_Closed (X : TExternal) (S : TSelfCheckRequest) (vDiskId : String)
    (vDiskInfo : TVDiskStateInfo) (st : StorageVDiskStatus) (c : TSelfCheckResult)
    (h : ReferentiallyClosed c.IssueRecords) :
    ReferentiallyClosed (FillVDiskStatus X S vDiskId vDiskInfo st c).2.IssueRecords := by
  have hp : ReferentiallyClosed
      (FillVDiskStatusPDisk X S vDiskId vDiskInfo st c).2.IssueRecords := by
    unfold FillVDiskStatusPDisk
    dsimp only
    split
    · exact Closed_InheritFrom _ _ h (FillPDiskStatus_Closed X S _ _ _ _ Closed_nil)
    · exact h
  unfold FillVDiskStatus FillVDiskStatusState
  dsimp only
  split
  · exact Closed_ReportStatus X _ _ _ _ _ hp
  · split
    · exact FillVDiskStatusReplicatedSpace_Closed X _ _ _ (Closed_ReportStatus X _ _ _ _ _ hp)
    · exact Closed_ReportStatus X _ _ _ _ _ Closed_nil
    · exact Closed_ReportStatus X _ _ _ _ _ Closed_nil
    · exact Closed_ReportStatus X _ _ _ _ _ hp
    · exact Closed_ReportStatus X _ _ _ _ _ hp
    · exact Closed_ReportStatus X _ _ _ _ _ hp


theorem FillGroupStatus_Closed (X : TExternal) (S : TSelfCheckRequest) (groupId : Nat)
    (groupInfo : TBSGroupStateInfo) (sgs : StorageGroupStatus) (c : TSelfCheckResult)
    (h : ReferentiallyClosed c.IssueRecords) :
    ReferentiallyClosed (FillGroupStatus X S groupId groupInfo sgs c).2.IssueRecords := by
  have hloop : ReferentiallyClosed
      (FillGroupStatusVDisks X S groupId groupInfo sgs c).context.IssueRecords := by
    unfold FillGroupStatusVDisks
    apply foldl_preserves (fun st : TGroupLoopState => ReferentiallyClosed st.context.IssueRecords)
    · intro st v hst
      obtain ⟨vs, lower, _, _, _, _, hrec, _⟩ := FillGroupStatusVDisk_fields X S st v
      have hctx : (FillGroupStatusVDisk X S st v).context =
          (FillGroupStatusNodeLocation S st.context
            (THashMap.find S.MergedVDiskState (GetVDiskId v))).InheritFrom
            (FillVDiskStatus X S (GetVDiskId v)
              ((THashMap.find S.MergedVDiskState (GetVDiskId v)).getD {}) {}
              (TSelfCheckContext (FillGroupStatusNodeLocation S st.context
                (THashMap.find S.MergedVDiskState (GetVDiskId v))) "VDISK")).2 := by
        unfold FillGroupStatusVDisk
        dsimp only
        split <;> rfl
      show ReferentiallyClosed (FillGroupStatusVDisk X S st v).context.IssueRecords
      rw [hctx]
      refine Closed_InheritFrom _ _ ?_ (FillVDiskStatus_Closed X S _ _ _ _ Closed_nil)
      rw [FillGroupStatusNodeLocation_IssueRecords]
      exact hst
    · exact h
  rw [(FillGroupStatus_context X S groupId groupInfo sgs c).1]
  split
  · exact Closed_ReportStatus X _ _ _ _ _ hloop
  · exact hloop

theorem FillPoolStatus_Closed (X : TExternal) (S : TSelfCheckRequest) (poolName : String)
    (pool : TStoragePoolState) (sps : StoragePoolStatus) (c : TSelfCheckResult) :
    ReferentiallyClosed (FillPoolStatus X S poolName pool sps c).2.IssueRecords := by
  unfold FillPoolStatus FillPoolStatusReport
  dsimp only
  split <;>
    first
      | exact Closed_ReportStatus X _ _ _ _ _ (MergeRecords_closed X _)
      | exact MergeRecords_closed X _

theorem FillStoragePool_Closed (X : TExternal) (st : TStorageLoopState) (poolName : String)
    (h : ReferentiallyClosed st.context.IssueRecords) :
    ReferentiallyClosed (FillStoragePool X st poolName).context.IssueRecords := by
  unfold FillStoragePool
  split
  · exact Closed_InheritFrom _ _ h (FillPoolStatus_Closed X _ _ _ _ _)
  · exact h

theorem FillStorageReport_Closed (X : TExternal) (c : TSelfCheckResult)
    (h : ReferentiallyClosed c.IssueRecords) :
    ReferentiallyClosed (FillStorageReport X c).IssueRecords := by
  unfold FillStorageReport
  split <;> first | exact Closed_ReportStatus X _ _ _ _ _ h | exact h

theorem FillStorageUsage_Closed (X : TExternal) (q u : Nat) (c : TSelfCheckResult)
    (h : ReferentiallyClosed c.IssueRecords) :
    ReferentiallyClosed (FillStorageUsage X q u c).IssueRecords := by
  unfold FillStorageUsage
  split_ifs <;> first | exact Closed_ReportStatus X _ _ _ _ _ h | exact h

theorem FillStorage_Closed (X : TExternal) (S : TSelfCheckRequest) (names : List String)
    (q u : Nat) (ss : StorageStatus) (c : TSelfCheckResult)
    (h : ReferentiallyClosed c.IssueRecords) :
    ReferentiallyClosed (FillStorage X S names q u ss c).2.2.IssueRecords := by
  unfold FillStorage
  dsimp only
  refine FillStorageUsage_Closed X _ _ _ ?_
  split
  · exact h
  · refine FillStorageReport_Closed X _ ?_
    exact foldl_preserves
      (fun st : TStorageLoopState => ReferentiallyClosed st.context.IssueRecords)
      _ (fun st a hst => FillStoragePool_Closed X st a hst) _ _ h

theorem Check_Closed (X : TExternal) (c : TSelfCheckResult) (poolStats : TPoolStats)
    (h : ReferentiallyClosed c.IssueRecords) :
    ReferentiallyClosed (Check X c poolStats).IssueRecords := by
  unfold Check
  split_ifs <;> exact Closed_ReportStatus X _ _ _ _ _ h

theorem FillSystemTablet_Closed (X : TExternal) (databaseId : String) (c : TSelfCheckResult)
    (entry : Nat × TTabletState) (h : ReferentiallyClosed c.IssueRecords) :
    ReferentiallyClosed (FillSystemTablet X databaseId c entry).IssueRecords := by
  unfold FillSystemTablet
  dsimp only
  split_ifs <;> first | exact Closed_ReportStatus X _ _ _ _ _ h | exact h

theorem FillSystemTablets_Closed (X : TExternal) (S : TSelfCheckRequest) (c : TSelfCheckResult)
    (h : ReferentiallyClosed c.IssueRecords) :
    ReferentiallyClosed (FillSystemTablets X S c).IssueRecords := by
  unfold FillSystemTablets
  exact foldl_preserves (fun c : TSelfCheckResult => ReferentiallyClosed c.IssueRecords)
    _ (fun c a hc => FillSystemTablet_Closed X _ c a hc) _ _ h

theorem FillTabletsCount_Closed (X : TExternal) (acc : Status × TSelfCheckResult)
    (count : TNodeTabletStateCount) (h : ReferentiallyClosed acc.2.IssueRecords) :
    ReferentiallyClosed (FillTabletsCount X acc count).2.IssueRecords := by
  unfold FillTabletsCount
  dsimp only
  split
  · refine Closed_InheritFrom _ _ h ?_
    split
    · exact Closed_ReportStatus X _ _ _ _ _ Closed_nil
    · exact Closed_ReportStatus X _ _ _ _ _ Closed_nil
    · exact Closed_ReportStatus X _ _ _ _ _ Closed_nil
    · split <;> exact Closed_ReportStatus X _ _ _ _ _ Closed_nil
  · exact h

theorem FillTablets_Closed (X : TExternal) (databaseState : TDatabaseState) (nodeId : Nat)
    (c : TSelfCheckResult) (h : ReferentiallyClosed c.IssueRecords) :
    ReferentiallyClosed (FillTablets X databaseState nodeId c).2.IssueRecords := by
  unfold FillTablets
  split
  · refine Closed_InheritFrom _ _ h ?_
    exact foldl_preserves
      (fun acc : Status × TSelfCheckResult => ReferentiallyClosed acc.2.IssueRecords)
      _ (fun acc a hacc => FillTabletsCount_Closed X acc a hacc) _ _ Closed_nil
  · exact h

theorem FillComputeNodePool_Closed (X : TExternal) (c : TSelfCheckResult) (poolStat : TPoolStats)
    (h : ReferentiallyClosed c.IssueRecords) :
    ReferentiallyClosed (FillComputeNodePool X c poolStat).IssueRecords := by
  unfold FillComputeNodePool
  exact Closed_InheritFrom _ _ h (Check_Closed X _ _ Closed_nil)

theorem FillComputeNodeStatus_Closed (X : TExternal) (S : TSelfCheckRequest) (nodeId : Nat)
    (c : TSelfCheckResult) (h : ReferentiallyClosed c.IssueRecords) :
    ReferentiallyClosed (FillComputeNodeStatus X S nodeId c).IssueRecords := by
  unfold FillComputeNodeStatus
  dsimp only
  split
  · have hp := foldl_preserves
      (fun c : TSelfCheckResult => ReferentiallyClosed c.IssueRecords)
      (FillComputeNodePool X) (fun c a hc => FillComputeNodePool_Closed X c a hc)
    split
    · refine Closed_InheritFrom _ _ (hp _ _ h) ?_
      split <;> exact Closed_ReportStatus X _ _ _ _ _ Closed_nil
    · exact hp _ _ h
  · exact h

theorem FillComputeNodes_Closed (X : TExternal) (S : TSelfCheckRequest)
    (databaseState : TDatabaseState) (computeNodeIds : List Nat) (c : TSelfCheckResult)
    (h : ReferentiallyClosed c.IssueRecords) :
    ReferentiallyClosed (FillComputeNodes X S databaseState computeNodeIds c).IssueRecords := by
  unfold FillComputeNodes
  dsimp only
  have h1 : ReferentiallyClosed (c.InheritFrom
      (FillSystemTablets X S (TSelfCheckContext c "SYSTEM_TABLET"))).IssueRecords :=
    Closed_InheritFrom _ _ h (FillSystemTablets_Closed X S _ Closed_nil)
  have hnodes := foldl_preserves
    (fun c : TSelfCheckResult => ReferentiallyClosed c.IssueRecords)
    (fun context nodeId =>
      context.InheritFrom
        (FillComputeNodeStatus X S nodeId (TSelfCheckContext context "COMPUTE_NODE")))
    (fun c a hc => Closed_InheritFrom _ _ hc (FillComputeNodeStatus_Closed X S a _ Closed_nil))
    computeNodeIds
  have htab := foldl_preserves
    (fun acc : Status × TSelfCheckResult => ReferentiallyClosed acc.2.IssueRecords)
    (fun (acc : Status × TSelfCheckResult) nodeId =>
      let t := FillTablets X databaseState nodeId acc.2
      (MaxStatus acc.1 t.1, t.2))
    (fun acc a hacc => FillTablets_Closed X databaseState a acc.2 hacc)
    (computeNodeIds ++ [0])
  have h2 : ∀ c2 : TSelfCheckResult, ReferentiallyClosed c2.IssueRecords →
      ReferentiallyClosed
        (if (FillSystemTablets X S (TSelfCheckContext c "SYSTEM_TABLET")).OverallStatus
            ≠ Status.GREEN ∧
          (FillSystemTablets X S (TSelfCheckContext c "SYSTEM_TABLET")).OverallStatus
            ≠ Status.GREY then
          c2.ReportStatus X
            (FillSystemTablets X S (TSelfCheckContext c "SYSTEM_TABLET")).OverallStatus
            "Compute has issues with system tablets"
            ETags.ComputeState [ETags.SystemTabletState]
        else c2).IssueRecords := by
    intro c2 hc2
    split
    · exact Closed_ReportStatus X _ _ _ _ _ hc2
    · exact hc2
  have h3 := htab (Status.GREEN, _)
    (Closed_ReportWithMaxChildStatus X _ "Compute is overloaded" ETags.ComputeState
      [ETags.OverloadState] (hnodes _ (h2 _ h1)))
  have h4 : ∀ r : Status × TSelfCheckResult, ReferentiallyClosed r.2.IssueRecords →
      ReferentiallyClosed
        (if r.1 ≠ Status.GREEN then
          r.2.ReportStatus X r.1 "Compute has issues with tablets" ETags.ComputeState
            [ETags.TabletState]
        else r.2).IssueRecords := by
    intro r hr
    split
    · exact Closed_ReportStatus X _ _ _ _ _ hr
    · exact hr
  exact h4 _ h3

theorem FillCompute_Closed (X : TExternal) (S : TSelfCheckRequest) (path : String)
    (cs : ComputeStatus) (c : TSelfCheckResult) (h : ReferentiallyClosed c.IssueRecords) :
    ReferentiallyClosed (FillCompute X S path cs c).2.2.IssueRecords := by
  unfold FillCompute
  dsimp only
  split
  · exact Closed_ReportStatus X _ _ _ _ _ h
  · exact FillComputeNodes_Closed X S _ _ _ h

theorem FillDatabaseReport_Closed (X : TExternal) (c : TSelfCheckResult) (a b : Status)
    (h : ReferentiallyClosed c.IssueRecords) :
    ReferentiallyClosed (FillDatabaseReport X c a b).IssueRecords := by
  unfold FillDatabaseReport
  split_ifs <;> first | exact Closed_ReportStatus X _ _ _ _ _ h | exact h

theorem FillDatabaseContext_Closed (X : TExternal) (S : TSelfCheckRequest) (path : String) :
    ReferentiallyClosed (FillDatabaseContext X S path).2.2.IssueRecords := by
  unfold FillDatabaseContext
  dsimp only
  refine FillDatabaseReport_Closed X _ _ _ ?_
  refine Closed_InheritFrom _ _ ?_ (FillStorage_Closed X _ _ _ _ _ _ Closed_nil)
  exact Closed_InheritFrom _ _ Closed_nil (FillCompute_Closed X _ _ _ _ Closed_nil)

theorem FillClockSkewResult_Closed (X : TExternal) (S : TSelfCheckRequest) (nodeId : Nat)
    (c : TSelfCheckResult) (h : ReferentiallyClosed c.IssueRecords) :
    ReferentiallyClosed (FillClockSkewResult X S nodeId c).2.IssueRecords := by
  unfold FillClockSkewResult
  dsimp only
  split
  · split
    · split_ifs <;> refine Closed_ReportStatus X _ _ _ _ _ ?_ <;> split <;> exact h
    · exact h
  · exact h

theorem FillNodesSyncContext_Closed (X : TExternal) (S : TSelfCheckRequest) :
    ReferentiallyClosed (FillNodesSyncContext X S).2.IssueRecords := by
  unfold FillNodesSyncContext
  dsimp only
  refine Closed_ReportWithMaxChildStatus X _ _ _ _ ?_
  exact foldl_preserves
    (fun acc : TSelfCheckRequest × TSelfCheckResult => ReferentiallyClosed acc.2.IssueRecords)
    _ (fun acc a hacc =>
      Closed_InheritFrom _ _ hacc (FillClockSkewResult_Closed X acc.1 a _ Closed_nil))
    _ _ Closed_nil

theorem FillUnknownStorageContext_Closed (X : TExternal) (S : TSelfCheckRequest)
    (names : List String) :
    ReferentiallyClosed (FillUnknownStorageContext X S names).2.2.IssueRecords := by
  unfold FillUnknownStorageContext
  dsimp only
  exact Closed_InheritFrom _ _ Closed_nil (FillStorage_Closed X _ _ _ _ _ _ Closed_nil)

/-! ### The issue log of the response -/

theorem AddIssue_issue_log (c : TOverallStateContext) (it : TIssueRecord) :
    (c.Result.issue_log ⊆ (c.AddIssue it).Result.issue_log) ∧
    (c.IssueIds ⊆ (c.AddIssue it).IssueIds) ∧
    ((it.IssueLog.location.database.name, it.IssueLog.id) ∈ (c.AddIssue it).IssueIds) ∧
    (∀ x ∈ (c.AddIssue it).Result.issue_log, x ∈ c.Result.issue_log ∨ x = it.IssueLog) ∧
    (∀ key ∈ (c.AddIssue it).IssueIds, key ∈ c.IssueIds ∨
      (key.2 = it.IssueLog.id ∧ it.IssueLog ∈ (c.AddIssue it).Result.issue_log)) := by
  unfold TOverallStateContext.AddIssue
  dsimp only
  split
  · rename_i hk
    exact ⟨fun _ h => h, fun _ h => h, hk, fun x hx => Or.inl hx, fun k hk => Or.inl hk⟩
  · refine ⟨fun _ h => List.mem_append_left _ h, fun _ h => List.mem_append_left _ h,
      List.mem_append_right _ (List.mem_singleton.2 rfl), ?_, ?_⟩
    · intro x hx
      rcases List.mem_append.1 hx with hx | hx
      · exact Or.inl hx
      · exact Or.inr (List.mem_singleton.1 hx)
    · intro key hkey
      rcases List.mem_append.1 hkey with hkey | hkey
      · exact Or.inl hkey
      · refine Or.inr ⟨?_, List.mem_append_right _ (List.mem_singleton.2 rfl)⟩
        rw [List.mem_singleton.1 hkey]

/-- The invariant of the overall context: every key of `IssueIds` is the id
of a record of the log. -/
theorem AddIssues_keys (L : List TIssueRecord) (c : TOverallStateContext)
    (hk : ∀ key ∈ c.IssueIds, ∃ x ∈ c.Result.issue_log, x.id = key.2) :
    (c.Result.issue_log ⊆ (c.AddIssues L).Result.issue_log) ∧
    (∀ key ∈ (c.AddIssues L).IssueIds, ∃ x ∈ (c.AddIssues L).Result.issue_log, x.id = key.2) ∧
    (∀ it ∈ L, ∃ x ∈ (c.AddIssues L).Result.issue_log, x.id = it.IssueLog.id) ∧
    (∀ x ∈ (c.AddIssues L).Result.issue_log,
      x ∈ c.Result.issue_log ∨ ∃ it ∈ L, x = it.IssueLog) := by
  induction L generalizing c with
  | nil =>
    exact ⟨fun _ h => h, hk, fun it hit => (by cases hit), fun x hx => Or.inl hx⟩
  | cons a L ih =>
    obtain ⟨a1, a2, a3, a4, a5⟩ := AddIssue_issue_log c a
    have hk2 : ∀ key ∈ (c.AddIssue a).IssueIds,
        ∃ x ∈ (c.AddIssue a).Result.issue_log, x.id = key.2 := by
      intro key hkey
      rcases a5 key hkey with h | ⟨h1, h2⟩
      · obtain ⟨x, hx, e⟩ := hk key h
        exact ⟨x, a1 hx, e⟩
      · exact ⟨a.IssueLog, h2, h1.symm⟩
    obtain ⟨b1, b2, b3, b4⟩ := ih (c.AddIssue a) hk2
    have e : c.AddIssues (a :: L) = (c.AddIssue a).AddIssues L := rfl
    rw [e]
    refine ⟨fun x hx => b1 (a1 hx), b2, ?_, ?_⟩
    · intro it hit
      rcases List.mem_cons.1 hit with rfl | hit
      · obtain ⟨x, hx, e2⟩ := hk2 _ a3
        exact ⟨x, b1 hx, e2⟩
      · exact b3 it hit
    · intro x hx
      rcases b4 x hx with h | ⟨it, hit, e2⟩
      · rcases a4 x h with h | h
        · exact Or.inl h
        · exact Or.inr ⟨a, List.mem_cons_self _ _, h⟩
      · exact Or.inr ⟨it, List.mem_cons_of_mem _ hit, e2⟩

theorem AddIssues_LogInv (L : List TIssueRecord) (c : TOverallStateContext)
    (hc : LogInv c) (hL : ReferentiallyClosed L) : LogInv (c.AddIssues L) := by
  obtain ⟨b1, b2, b3, b4⟩ := AddIssues_keys L c hc.2
  refine ⟨?_, b2⟩
  intro x hx r hr
  rcases b4 x hx with h | ⟨it, hit, e⟩
  · obtain ⟨y, hy, e2⟩ := hc.1 x h r hr
    exact ⟨y, b1 hy, e2⟩
  · subst e
    obtain ⟨it2, hit2, e2⟩ := hL it hit r hr
    obtain ⟨y, hy, e3⟩ := b3 it2 hit2
    exact ⟨y, hy, e3.trans e2⟩

theorem FillDatabaseResult_LogInv (X : TExternal)
    (acc : TSelfCheckRequest × TOverallStateContext) (path : String) (h : LogInv acc.2) :
    LogInv (FillDatabaseResult X acc path).2 := by
  unfold FillDatabaseResult
  dsimp only
  have h1 : LogInv (TOverallStateContext.AddIssues
      (TOverallStateContext.UpdateMaxStatus
        { acc.2 with Result.database_status :=
            acc.2.Result.database_status ++ [(FillDatabaseContext X acc.1 path).2.1] }
        (FillDatabaseContext X acc.1 path).2.2.OverallStatus)
      (FillDatabaseContext X acc.1 path).2.2.IssueRecords) :=
    AddIssues_LogInv _ _ h (FillDatabaseContext_Closed X acc.1 path)
  split
  · exact h1
  · exact h1

theorem FillNodesSyncResult_LogInv (X : TExternal)
    (acc : TSelfCheckRequest × TOverallStateContext) (h : LogInv acc.2) :
    LogInv (FillNodesSyncResult X acc).2 := by
  unfold FillNodesSyncResult
  dsimp only
  exact AddIssues_LogInv _ _ h (FillNodesSyncContext_Closed X acc.1)

theorem FillResultNoDatabase_LogInv (X : TExternal)
    (acc : TSelfCheckRequest × TOverallStateContext) (h : LogInv acc.2) :
    LogInv (FillResultNoDatabase X acc).2 := by
  unfold FillResultNoDatabase
  split
  · exact h
  · exact h

theorem FillResultUnknownDatabase_LogInv (X : TExternal)
    (acc : TSelfCheckRequest × TOverallStateContext) (h : LogInv acc.2) :
    LogInv (FillResultUnknownDatabase X acc).2 := by
  unfold FillResultUnknownDatabase
  dsimp only
  split
  · split
    · exact AddIssues_LogInv _ _ h (FillUnknownStorageContext_Closed X acc.1 _)
    · exact h
  · exact h

theorem FillSelfCheckResult_issue_log (c : TOverallStateContext) :
    c.FillSelfCheckResult.Result.issue_log = c.Result.issue_log := by
  unfold TOverallStateContext.FillSelfCheckResult
  split <;> (try split) <;> rfl

theorem FillResult_LogClosed (X : TExternal) (S : TSelfCheckRequest) :
    LogClosed (FillResult X S {}).2.Result.issue_log := by
  have h0 : LogInv ({} : TOverallStateContext) :=
    ⟨fun it hit => (by cases hit), fun key hkey => (by cases hkey)⟩
  unfold FillResult
  dsimp only
  rw [FillSelfCheckResult_issue_log]
  refine (FillResultUnknownDatabase_LogInv X _
    (FillResultNoDatabase_LogInv X _ (FillNodesSyncResult_LogInv X _ ?_))).1
  split
  · exact FillDatabaseResult_LogInv X _ _ h0
  · exact foldl_preserves
      (fun acc : TSelfCheckRequest × TOverallStateContext => LogInv acc.2)
      _ (fun acc a hacc => FillDatabaseResult_LogInv X acc a hacc) _ _ h0

theorem FilterIssueLog_no_filter (request : TEvSelfCheckRequest) (issue_log : List IssueLog)
    (hmin : request.minimum_status = Status.UNSPECIFIED) (hmax : request.maximum_level = 0) :
    FilterIssueLog request issue_log = issue_log := by
  unfold FilterIssueLog
  simp [hmin, hmax]

/-! ### C9: referential closure of the response -/

/-- C9 (counterexample): a pool "static" with one group of species none whose
only vdisk is in state OK and not replicated. Without filters the response
holds four records: "Storage failed", "Pool failed", "Group failed" (all RED)
and the BLUE record "Replication in progress" of the vdisk, which is the
reason of the group record. With minimum_status = RED the BLUE record is
erased while the group record keeps its id in reason[]; with
maximum_level = 2 the one record left refers to the erased pool record. The
ids are those of the example external (a constant in place of crc16); they
are headed by the name of the status, so the erased BLUE id differs from the
ids of the RED records whatever crc16 is. -/
theorem response_refers_to_filtered_issue :
    (ReplyAndPassAway exampleExternal exampleReplicating).issue_log.map
        (fun it => (it.id, it.status, it.level, it.reason)) =
      [("RED-0000", Status.RED, 2, ["RED-0000-0000"]),
        ("RED-0000-0000", Status.RED, 3, ["RED-0000-1"]),
        ("RED-0000-1", Status.RED, 4, ["BLUE-0000-1-1-0-0-0-0"]),
        ("BLUE-0000-1-1-0-0-0-0", Status.BLUE, 5, [])] ∧
    (ReplyAndPassAway exampleExternal exampleMinimumStatus).issue_log.map
        (fun it => (it.id, it.reason)) =
      [("RED-0000", ["RED-0000-0000"]), ("RED-0000-0000", ["RED-0000-1"]),
        ("RED-0000-1", ["BLUE-0000-1-1-0-0-0-0"])] ∧
    ¬ LogClosed (ReplyAndPassAway exampleExternal exampleMinimumStatus).issue_log ∧
    (ReplyAndPassAway exampleExternal exampleMaximumLevel).issue_log.map
        (fun it => (it.id, it.reason)) = [("RED-0000", ["RED-0000-0000"])] ∧
    ¬ LogClosed (ReplyAndPassAway exampleExternal exampleMaximumLevel).issue_log := by
  set_option maxRecDepth 100000 in decide

/-- C9 (amended): for every request that sets neither minimum_status nor
maximum_level, and every state of the merged model, every id listed in
reason[] of a record of the issue log ReplyAndPassAway sends is the id of a
record of that log. -/
theorem response_closed_without_filters (X : TExternal) (S : TSelfCheckRequest)
    (hmin : S.Request.minimum_status = Status.UNSPECIFIED)
    (hmax : S.Request.maximum_level = 0) :
    LogClosed (ReplyAndPassAway X S).issue_log := by
  unfold ReplyAndPassAway
  dsimp only
  rw [FilterIssueLog_no_filter _ _ hmin hmax]
  split
  · exact FillResult_LogClosed X _
  · exact FillResult_LogClosed X _

/-- C9 (witness): the example with the vdisk in replication, sent without
filters; its log holds four records. -/
theorem response_closed_without_filters_witness :
    exampleReplicating.Request.minimum_status = Status.UNSPECIFIED ∧
    exampleReplicating.Request.maximum_level = 0 ∧
    (ReplyAndPassAway exampleExternal exampleReplicating).issue_log.length = 4 ∧
    LogClosed (ReplyAndPassAway exampleExternal exampleReplicating).issue_log :=
  ⟨rfl, rfl, by set_option maxRecDepth 100000 in decide,
    response_closed_without_filters exampleExternal exampleReplicating rfl rfl⟩

theorem MaxStatus_GREY_left (a b : Status) (hb : Status.GREY.toNat ≤ b.toNat) :
    MaxStatus (MaxStatus Status.GREY a) b = MaxStatus a b := by
  apply Status.toNat_injective
  simp only [MaxStatus_toNat]
  omega

/-! ### C16: the transient vdisk states -/

/-- C16 (counterexample): whatever the outside functions, a vdisk in state
Initial whose pdisk has no state (the pdisk closes RED with the issue
"PDisk is not available") keeps one issue record, the YELLOW issue
"VDisk state is Initial" without reasons, and gets the overall status RED,
not YELLOW. -/
theorem vdisk_initial_keeps_pdisk_status :
    GetPDiskId exampleVDiskInitial = "1-1" ∧
    ∀ X : TExternal,
      ((FillVDiskStatus X examplePDiskNoState "1-0-0-0-0" exampleVDiskInitial {}
        (TSelfCheckContext {} "VDISK")).1.pdisk.map (fun p => p.overall)) = some Status.RED ∧
      (FillVDiskStatus X examplePDiskNoState "1-0-0-0-0" exampleVDiskInitial {}
        (TSelfCheckContext {} "VDISK")).2.IssueRecords.map
          (fun it => (it.Tag, it.IssueLog.status, it.IssueLog.message, it.IssueLog.reason)) =
        [(ETags.VDiskState, Status.YELLOW, "VDisk state is Initial", [])] ∧
      (FillVDiskStatus X examplePDiskNoState "1-0-0-0-0" exampleVDiskInitial {}
        (TSelfCheckContext {} "VDISK")).1.overall = Status.RED ∧
      (FillVDiskStatus X examplePDiskNoState "1-0-0-0-0" exampleVDiskInitial {}
        (TSelfCheckContext {} "VDISK")).1.overall ≠ Status.YELLOW :=
  ⟨by decide, fun _ => ⟨rfl, rfl, rfl, fun h => (by decide : Status.RED ≠ Status.YELLOW) h⟩⟩

/-- C16 (amended): for every vdisk whose state is Initial or
SyncGuidRecovery, on a fresh vdisk context, FillVDiskStatus leaves exactly
one issue record, the YELLOW VDiskState issue "VDisk state is <state name>"
with no reasons; the overall status of the vdisk is YELLOW when the merged
model has no state for its pdisk, and otherwise the maximum of YELLOW and
the overall status of the pdisk. -/
theorem FillVDiskStatus_transient (X : TExternal) (S : TSelfCheckRequest) (vDiskId : String)
    (vDiskInfo : TVDiskStateInfo) (upper : TSelfCheckResult) (state : EVDiskState)
    (hstate : vDiskInfo.VDiskState = some state)
    (h : state = EVDiskState.Initial ∨ state = EVDiskState.SyncGuidRecovery) :
    (FillVDiskStatus X S vDiskId vDiskInfo {} (TSelfCheckContext upper "VDISK")).2.IssueRecords.map
        (fun it => (it.Tag, it.IssueLog.status, it.IssueLog.message, it.IssueLog.reason)) =
      [(ETags.VDiskState, Status.YELLOW, "VDisk state is " ++ state.Name, [])] ∧
    (FillVDiskStatus X S vDiskId vDiskInfo {} (TSelfCheckContext upper "VDISK")).1.overall =
      (match (FillVDiskStatus X S vDiskId vDiskInfo {}
          (TSelfCheckContext upper "VDISK")).1.pdisk with
        | some pdisk => MaxStatus pdisk.overall Status.YELLOW
        | none => Status.YELLOW) ∧
    ((FillVDiskStatus X S vDiskId vDiskInfo {} (TSelfCheckContext upper "VDISK")).1.pdisk.isSome =
      (THashMap.find S.MergedPDiskState (GetPDiskId vDiskInfo)).isSome) := by
  have hrec : ∀ (sv : StorageVDiskStatus) (c : TSelfCheckResult),
      (FillVDiskStatusState X vDiskInfo sv c).2.IssueRecords.map
          (fun it => (it.Tag, it.IssueLog.status, it.IssueLog.message, it.IssueLog.reason)) =
        [(ETags.VDiskState, Status.YELLOW, "VDisk state is " ++ state.Name, [])] ∧
      (FillVDiskStatusState X vDiskInfo sv c).1.overall = MaxStatus c.OverallStatus Status.YELLOW ∧
      (FillVDiskStatusState X vDiskInfo sv c).1.pdisk = sv.pdisk := by
    intro sv c
    unfold FillVDiskStatusState
    rw [hstate]
    rcases h with rfl | rfl
    · dsimp only
      rw [ReportStatus_IssueRecords, ReportStatus_OverallStatus]
      exact ⟨rfl, rfl, rfl⟩
    · dsimp only
      rw [ReportStatus_IssueRecords, ReportStatus_OverallStatus]
      exact ⟨rfl, rfl, rfl⟩
  unfold FillVDiskStatus
  dsimp only
  obtain ⟨h1, h2, h3⟩ := hrec
    (FillVDiskStatusPDisk X S vDiskId vDiskInfo {} (TSelfCheckContext upper "VDISK")).1
    (FillVDiskStatusPDisk X S vDiskId vDiskInfo {} (TSelfCheckContext upper "VDISK")).2
  refine ⟨h1, ?_, ?_⟩
  · rw [h2, h3]
    unfold FillVDiskStatusPDisk
    dsimp only
    split
    · dsimp only
      rw [InheritFrom_OverallStatus]
      rw [← (FillPDiskStatus_overall _ _ _ _ _ _)]
      exact MaxStatus_GREY_left _ _ (by decide)
    · rfl
  · rw [h3]
    unfold FillVDiskStatusPDisk
    dsimp only
    split <;> rename_i hf <;> rw [hf] <;> rfl

/-- C16 (witness): the vdisk in state Initial on the pdisk without a state. -/
theorem FillVDiskStatus_transient_witness :
    exampleVDiskInitial.VDiskState = some EVDiskState.Initial ∧
    (FillVDiskStatus exampleExternal examplePDiskNoState "1-0-0-0-0" exampleVDiskInitial {}
        (TSelfCheckContext {} "VDISK")).2.IssueRecords.map
        (fun it => (it.Tag, it.IssueLog.status, it.IssueLog.message, it.IssueLog.reason)) =
      [(ETags.VDiskState, Status.YELLOW, "VDisk state is " ++ EVDiskState.Initial.Name, [])] :=
  ⟨rfl, (FillVDiskStatus_transient exampleExternal examplePDiskNoState "1-0-0-0-0"
    exampleVDiskInitial {} EVDiskState.Initial rfl (Or.inl rfl)).1⟩

/-! ### C17, C18: the pdisk state table and the space thresholds -/

theorem FillPDiskStatus_present (X : TExternal) (S : TSelfCheckRequest) (pDiskId : String)
    (pDiskInfo : TPDiskStateInfo) (sp : StoragePDiskStatus) (c : TSelfCheckResult)
    (state : TPDiskState) (h : pDiskInfo.State = some state) :
    (FillPDiskStatus X S pDiskId pDiskInfo sp c).2 =
      match PDiskSpaceChoice X pDiskInfo with
      | some p =>
        (ReportPDiskState X (PDiskContextLocation pDiskId pDiskInfo c) state).ReportStatus X
          p.1 p.2 ETags.PDiskSpace []
      | none => ReportPDiskState X (PDiskContextLocation pDiskId pDiskInfo c) state := by
  unfold FillPDiskStatus PDiskSpaceChoice PDiskContextLocation
  rw [h]
  dsimp only
  split_ifs <;> rfl

theorem PDiskSpaceChoice_status (X : TExternal) (pDiskInfo : TPDiskStateInfo)
    (p : Status × String) (h : PDiskSpaceChoice X pDiskInfo = some p) :
    p.1 ≠ Status.GREEN := by
  unfold PDiskSpaceChoice at h
  split_ifs at h <;> (cases h; decide)

theorem ReportPDiskState_table (X : TExternal) (c : TSelfCheckResult) (state : TPDiskState)
    (hc : c.IssueRecords = []) (hs : c.OverallStatus = Status.GREY) :
    (ReportPDiskState X c state).OverallStatus = PDiskStateStatus state ∧
    SpaceIssues (ReportPDiskState X c state).IssueRecords = [] ∧
    StateIssues (ReportPDiskState X c state).IssueRecords = PDiskStateIssue state := by
  cases state <;>
    (unfold ReportPDiskState
     dsimp only
     rw [ReportStatus_OverallStatus, ReportStatus_IssueRecords, hc, hs]
     exact ⟨rfl, rfl, rfl⟩)

theorem SpaceIssues_ReportStatus (X : TExternal) (c : TSelfCheckResult) (p : Status × String)
    (hp : p.1 ≠ Status.GREEN) :
    SpaceIssues (c.ReportStatus X p.1 p.2 ETags.PDiskSpace []).IssueRecords =
      (p.1, p.2) :: SpaceIssues c.IssueRecords ∧
    StateIssues (c.ReportStatus X p.1 p.2 ETags.PDiskSpace []).IssueRecords =
      StateIssues c.IssueRecords := by
  rw [ReportStatus_IssueRecords, if_neg hp]
  exact ⟨rfl, rfl⟩

theorem FillPDiskStatus_issues (X : TExternal) (S : TSelfCheckRequest) (pDiskId : String)
    (pDiskInfo : TPDiskStateInfo) (sp : StoragePDiskStatus) (upper : TSelfCheckResult)
    (state : TPDiskState) (h : pDiskInfo.State = some state) :
    SpaceIssues (FillPDiskStatus X S pDiskId pDiskInfo sp
        (TSelfCheckContext upper "PDISK")).2.IssueRecords =
      (PDiskSpaceChoice X pDiskInfo).toList ∧
    StateIssues (FillPDiskStatus X S pDiskId pDiskInfo sp
        (TSelfCheckContext upper "PDISK")).2.IssueRecords = PDiskStateIssue state ∧
    (FillPDiskStatus X S pDiskId pDiskInfo sp (TSelfCheckContext upper "PDISK")).1.overall =
      MaxStatusOf (PDiskStateStatus state ::
        (PDiskSpaceChoice X pDiskInfo).toList.map Prod.fst) := by
  obtain ⟨t1, t2, t3⟩ := ReportPDiskState_table X
    (PDiskContextLocation pDiskId pDiskInfo (TSelfCheckContext upper "PDISK")) state rfl rfl
  rw [FillPDiskStatus_overall, FillPDiskStatus_present X S pDiskId pDiskInfo sp _ state h]
  cases hch : PDiskSpaceChoice X pDiskInfo with
  | none =>
    dsimp only
    refine ⟨t2, t3, ?_⟩
    rw [t1]
    cases state <;> rfl
  | some p =>
    dsimp only
    obtain ⟨s1, s2⟩ := SpaceIssues_ReportStatus X
      (ReportPDiskState X (PDiskContextLocation pDiskId pDiskInfo
        (TSelfCheckContext upper "PDISK")) state) p (PDiskSpaceChoice_status X pDiskInfo p hch)
    rw [s1, s2, t2, t3, ReportStatus_OverallStatus, t1]
    refine ⟨rfl, rfl, ?_⟩
    apply Status.toNat_injective
    simp only [Option.toList, List.map_cons, List.map_nil, MaxStatusOf, List.foldl_cons,
      List.foldl_nil, MaxStatus_toNat]
    have hg : Status.GREY.toNat = 1 := rfl
    have hs : 1 ≤ (PDiskStateStatus state).toNat := by cases state <;> decide
    rw [hg, (sup_eq_right.2 hs : 1 ⊔ (PDiskStateStatus state).toNat = _)]

/-- C17: the state table of FillPDiskStatus, on a fresh pdisk context. For a
state that is present the records other than space issues are those of the
table (none for Normal, a YELLOW PDiskState issue for the four initial
states, a RED PDiskState issue for the error states, Missing, Timeout,
NodeDisconnected and Unknown, a RED issue for the reserved states) and the
overall status is the maximum of the status of the table and of the space
issue. For an absent state the overall status is RED; with the node of the
pdisk in UnavailableStorageNodes the records are the RED issue
"PDisk is not available", whose reason is the node issue, and the RED
NodeState issue "Storage node is not available" one level deeper; otherwise
the one RED issue "PDisk is not available" without a reason. -/
theorem FillPDiskStatus_state_table (X : TExternal) (S : TSelfCheckRequest) (pDiskId : String)
    (pDiskInfo : TPDiskStateInfo) (sp : StoragePDiskStatus) (upper : TSelfCheckResult) :
    match pDiskInfo.State with
    | some state =>
      StateIssues (FillPDiskStatus X S pDiskId pDiskInfo sp
          (TSelfCheckContext upper "PDISK")).2.IssueRecords = PDiskStateIssue state ∧
      (ReportPDiskState X (PDiskContextLocation pDiskId pDiskInfo
          (TSelfCheckContext upper "PDISK")) state).OverallStatus = PDiskStateStatus state ∧
      (FillPDiskStatus X S pDiskId pDiskInfo sp (TSelfCheckContext upper "PDISK")).1.overall =
        MaxStatusOf (PDiskStateStatus state ::
          (SpaceIssues (FillPDiskStatus X S pDiskId pDiskInfo sp
            (TSelfCheckContext upper "PDISK")).2.IssueRecords).map Prod.fst)
    | none =>
      (FillPDiskStatus X S pDiskId pDiskInfo sp (TSelfCheckContext upper "PDISK")).1.overall =
        Status.RED ∧
      (FillPDiskStatus X S pDiskId pDiskInfo sp (TSelfCheckContext upper "PDISK")).2.IssueRecords.map
          (fun it => (it.Tag, it.IssueLog.status, it.IssueLog.message, it.IssueLog.level)) =
        (if pDiskInfo.nodeid ∈ S.UnavailableStorageNodes then
          [(ETags.PDiskState, Status.RED, "PDisk is not available", upper.Level + 1),
            (ETags.NodeState, Status.RED, "Storage node is not available", upper.Level + 2)]
        else [(ETags.PDiskState, Status.RED, "PDisk is not available", upper.Level + 1)]) ∧
      ((FillPDiskStatus X S pDiskId pDiskInfo sp
          (TSelfCheckContext upper "PDISK")).2.IssueRecords.head?.map
            (fun it => it.IssueLog.reason)) =
        some ((FillPDiskStatus X S pDiskId pDiskInfo sp
          (TSelfCheckContext upper "PDISK")).2.IssueRecords.tail.map (fun it => it.IssueLog.id)) := by
  cases h : pDiskInfo.State with
  | some state =>
    dsimp only
    obtain ⟨a1, a2, a3⟩ := FillPDiskStatus_issues X S pDiskId pDiskInfo sp upper state h
    rw [a1]
    exact ⟨a2, (ReportPDiskState_table X _ state rfl rfl).1, a3⟩
  | none =>
    dsimp only
    unfold FillPDiskStatus
    rw [h]
    dsimp only
    by_cases hn : pDiskInfo.nodeid ∈ S.UnavailableStorageNodes
    · rw [if_pos hn, if_pos hn]
      cases THashMap.find S.MergedNodeInfo pDiskInfo.nodeid <;> exact ⟨rfl, rfl, rfl⟩
    · rw [if_neg hn, if_neg hn]
      exact ⟨rfl, rfl, rfl⟩

theorem exampleExternal_exact (avail total : Nat) (ht : 0 < total) :
    ExactAvailLessAt exampleExternal avail total := by
  intro percent _
  have ht2 : (0 : ℚ) < (total : ℚ) := by exact_mod_cast ht
  simp only [exampleExternal, decide_eq_true_eq]
  rw [div_lt_div_iff₀ ht2 (by norm_num)]
  constructor
  · intro h
    have : ((avail * 100 : ℕ) : ℚ) < ((percent * total : ℕ) : ℚ) := by exact_mod_cast h
    push_cast at this
    exact this
  · intro h
    have : ((avail * 100 : ℕ) : ℚ) < ((percent * total : ℕ) : ℚ) := by
      push_cast
      exact h
    exact_mod_cast this

theorem PDiskSpaceChoice_eq_rule (X : TExternal) (pDiskInfo : TPDiskStateInfo)
    (hX : ExactAvailLessAt X pDiskInfo.AvailableSize pDiskInfo.TotalSize)
    (htotal : 0 < pDiskInfo.TotalSize) :
    PDiskSpaceChoice X pDiskInfo =
      if pDiskInfo.AvailableSize = 0 then none
      else PDiskSpaceRule pDiskInfo.AvailableSize pDiskInfo.TotalSize := by
  unfold PDiskSpaceChoice PDiskSpaceRule
  have h6 := hX 6 (by decide)
  have h9 := hX 9 (by decide)
  have h12 := hX 12 (by decide)
  simp only [Nat.cast_ofNat] at h6 h9 h12
  by_cases ha : pDiskInfo.AvailableSize = 0
  · simp [ha]
  · have ht : pDiskInfo.TotalSize ≠ 0 := Nat.pos_iff_ne_zero.1 htotal
    rw [if_neg ha, if_pos ⟨ha, ht⟩]
    dsimp only
    by_cases c6 : X.AvailLess pDiskInfo.AvailableSize pDiskInfo.TotalSize 6 = true
    · rw [if_pos c6, if_pos (h6.1 c6)]
    · rw [if_neg c6, if_neg (fun h => c6 (h6.2 h))]
      by_cases c9 : X.AvailLess pDiskInfo.AvailableSize pDiskInfo.TotalSize 9 = true
      · rw [if_pos c9, if_pos (h9.1 c9)]
      · rw [if_neg c9, if_neg (fun h => c9 (h9.2 h))]
        by_cases c12 : X.AvailLess pDiskInfo.AvailableSize pDiskInfo.TotalSize 12 = true
        · rw [if_pos c12, if_pos (h12.1 c12)]
        · rw [if_neg c12, if_neg (fun h => c12 (h12.2 h))]

/-- C18 (counterexample): a pdisk in state Normal with total size 100 and
available size 0 has the exact ratio 0, below 6/100, yet whatever the outside
functions FillPDiskStatus reports no issue for it and its overall status is
GREEN. -/
theorem pdisk_without_available_size_is_green :
    PDiskSpaceRule examplePDiskFull.AvailableSize examplePDiskFull.TotalSize =
      some (Status.RED, "Available size is less than 6%") ∧
    ∀ X : TExternal,
      (FillPDiskStatus X {} "1-1" examplePDiskFull {}
        (TSelfCheckContext {} "PDISK")).2.IssueRecords = [] ∧
      (FillPDiskStatus X {} "1-1" examplePDiskFull {}
        (TSelfCheckContext {} "PDISK")).1.overall = Status.GREEN :=
  ⟨by norm_num [PDiskSpaceRule, examplePDiskFull], fun _ => ⟨rfl, rfl⟩⟩

/-- C18 (amended): for every pdisk with a state present and total size above 0
on whose sizes the three floating-point tests of the code have the outcome of
the comparison of the exact ratio, FillPDiskStatus on a fresh pdisk context
reports no space issue when the available size is 0, and otherwise the
PDiskSpace issue of the thresholds on the exact ratio: RED below 6/100,
ORANGE below 9/100, YELLOW below 12/100, none from 12/100 on. -/
theorem FillPDiskStatus_space_thresholds (X : TExternal)
    (S : TSelfCheckRequest) (pDiskId : String) (pDiskInfo : TPDiskStateInfo)
    (sp : StoragePDiskStatus) (upper : TSelfCheckResult) (state : TPDiskState)
    (hstate : pDiskInfo.State = some state) (htotal : 0 < pDiskInfo.TotalSize)
    (hX : ExactAvailLessAt X pDiskInfo.AvailableSize pDiskInfo.TotalSize) :
    SpaceIssues (FillPDiskStatus X S pDiskId pDiskInfo sp
        (TSelfCheckContext upper "PDISK")).2.IssueRecords =
      if pDiskInfo.AvailableSize = 0 then []
      else (PDiskSpaceRule pDiskInfo.AvailableSize pDiskInfo.TotalSize).toList := by
  rw [(FillPDiskStatus_issues X S pDiskId pDiskInfo sp upper state hstate).1,
    PDiskSpaceChoice_eq_rule X pDiskInfo hX htotal]
  split <;> rfl

/-- C18 (witness): a pdisk with 5 available out of 100, on which the tests
have the outcome of the exact comparisons, gets the RED space issue. -/
theorem FillPDiskStatus_space_thresholds_witness :
    examplePDiskLowSpace.State = some TPDiskState.Normal ∧
    0 < examplePDiskLowSpace.TotalSize ∧
    ExactAvailLessAt exampleExternal examplePDiskLowSpace.AvailableSize
      examplePDiskLowSpace.TotalSize ∧
    SpaceIssues (FillPDiskStatus exampleExternal {} "1-1" examplePDiskLowSpace {}
        (TSelfCheckContext {} "PDISK")).2.IssueRecords =
      [(Status.RED, "Available size is less than 6%")] :=
  ⟨rfl, by decide, exampleExternal_exact _ _ (by decide),
    (FillPDiskStatus_space_thresholds exampleExternal {} "1-1"
      examplePDiskLowSpace {} {} TPDiskState.Normal rfl (by decide)
      (exampleExternal_exact _ _ (by decide))).trans
      (by norm_num [PDiskSpaceRule, examplePDiskLowSpace])⟩

/-! ### C15: the messages of merged records -/

theorem RegexReplaceStart_match (pattern fmt x : String) :
    RegexReplaceStart (pattern ++ x) pattern fmt = fmt ++ x := by
  unfold RegexReplaceStart
  have hp : pattern.data.isPrefixOf (pattern ++ x).data = true := by
    rw [String.data_append, List.isPrefixOf_iff_prefix]
    exact List.prefix_append _ _
  rw [if_pos hp, String.data_append, List.drop_left]

theorem RegexReplaceStart_other (message pattern fmt : String)
    (h : pattern.data.isPrefixOf message.data = false) :
    RegexReplaceStart message pattern fmt = message := by
  unfold RegexReplaceStart
  rw [if_neg (by rw [h]; decide)]

/-- A record with count = 0 keeps its message; a record with count above 0
gets the message RenameMessage gives for its tag. -/
theorem RenameMergingIssues_message (records : List TIssueRecord) :
    (RenameMergingIssues records).map (fun it => it.IssueLog.message) =
      records.map (fun it =>
        if it.IssueLog.count = 0 then it.IssueLog.message
        else RenameMessage it.Tag it.IssueLog.message) := by
  unfold RenameMergingIssues
  rw [List.map_map]
  apply List.map_congr_left
  intro it _
  by_cases h : it.IssueLog.count = 0
  · simp [h]
  · simp [h, Nat.pos_of_ne_zero h]

/-- One iteration of the loop of FillTablets on a bucket with a positive
count: the issue of the bucket is added, the status is raised by the status
of the bucket. -/
theorem FillTabletsCount_bucket (X : TExternal) (acc : Status × TSelfCheckResult)
    (count : TNodeTabletStateCount) (hcount : 0 < count.Count) :
    (FillTabletsCount X acc count).2.IssueRecords.map
        (fun it => (it.Tag, it.IssueLog.status, it.IssueLog.message)) =
      acc.2.IssueRecords.map (fun it => (it.Tag, it.IssueLog.status, it.IssueLog.message)) ++
        TabletIssue count ∧
    (FillTabletsCount X acc count).1 = MaxStatus acc.1 (TabletStatus count) := by
  refine ⟨?_, ?_⟩
  · unfold FillTabletsCount TabletIssue
    rw [if_pos hcount]
    dsimp only
    rw [InheritFrom_IssueRecords, List.map_append]
    congr 1
    cases count.State
    · rfl
    · rfl
    · rfl
    · dsimp only
      cases count.Leader <;> rfl
  · unfold FillTabletsCount TabletStatus
    rw [if_pos hcount]
    dsimp only
    cases count.State
    · rfl
    · rfl
    · rfl
    · dsimp only
      cases count.Leader <;> rfl

/-- The loop of FillTablets over the buckets of a node: the issues of the
buckets with a positive count are added in the order of the buckets, the
status is raised by their statuses. -/
theorem foldl_FillTabletsCount (X : TExternal) (l : List TNodeTabletStateCount)
    (acc : Status × TSelfCheckResult) :
    (l.foldl (FillTabletsCount X) acc).2.IssueRecords.map
        (fun it => (it.Tag, it.IssueLog.status, it.IssueLog.message)) =
      acc.2.IssueRecords.map (fun it => (it.Tag, it.IssueLog.status, it.IssueLog.message)) ++
        (l.filter (fun count => decide (count.Count > 0))).flatMap TabletIssue ∧
    (l.foldl (FillTabletsCount X) acc).1 =
      (l.filter (fun count => decide (count.Count > 0))).foldl
        (fun status count => MaxStatus status (TabletStatus count)) acc.1 := by
  induction l generalizing acc with
  | nil => simp
  | cons a l ih =>
    rw [List.foldl_cons]
    obtain ⟨i1, i2⟩ := ih (FillTabletsCount X acc a)
    by_cases h : 0 < a.Count
    · obtain ⟨b1, b2⟩ := FillTabletsCount_bucket X acc a h
      rw [i1, i2, b1, b2, List.filter_cons_of_pos (by simpa using h), List.flatMap_cons,
        List.foldl_cons, List.append_assoc]
      exact ⟨rfl, rfl⟩
    · have e : FillTabletsCount X acc a = acc := by
        unfold FillTabletsCount
        rw [if_neg h]
      rw [i1, i2, e, List.filter_cons_of_neg (by simpa using h)]
      exact ⟨rfl, rfl⟩

/-- C19: with MaxRestartsPerPeriod at its value 30, the constructor of
TNodeTabletStateCount classifies a tablet as Stopped exactly when its
volatile state is Stopped; otherwise as Dead exactly when the hive is not in
its synchronization period, the volatile state is not Running, the last-alive
instant is before the alive barrier and the boot mode is Default; otherwise
as RestartsTooOften exactly when restarts-per-period is at least 30;
otherwise as Good. FillTablets, for every database state, node and context,
adds to the records of the context the issues of the buckets of the node
that count a tablet, in the order of the buckets (none for a Good and for a
Stopped bucket, RED "Tablets are restarting too often", RED "Tablets are
dead" for a leader bucket, YELLOW "Followers are dead" for a follower
bucket), and returns the maximum of GREEN and of the statuses it reported for
these buckets (GREEN for a Good and for a Stopped bucket). -/
theorem tablet_classification (X : TExternal) (info : TTabletInfo)
    (settings : TTabletStateSettings) (hmax : settings.MaxRestartsPerPeriod = 30)
    (databaseState : TDatabaseState) (nodeId : Nat) (context : TSelfCheckResult) :
    ((TNodeTabletStateCount.ctor info settings).State = ETabletState.Stopped ↔
      info.volatilestate = ETabletVolatileState.TABLET_VOLATILE_STATE_STOPPED) ∧
    ((TNodeTabletStateCount.ctor info settings).State = ETabletState.Dead ↔
      info.volatilestate ≠ ETabletVolatileState.TABLET_VOLATILE_STATE_STOPPED ∧
      settings.IsHiveSynchronizationPeriod = false ∧
      info.volatilestate ≠ ETabletVolatileState.TABLET_VOLATILE_STATE_RUNNING ∧
      info.lastalive < settings.AliveBarrier ∧
      info.tabletbootmode = ETabletBootMode.TABLET_BOOT_MODE_DEFAULT) ∧
    ((TNodeTabletStateCount.ctor info settings).State = ETabletState.RestartsTooOften ↔
      (TNodeTabletStateCount.ctor info settings).State ≠ ETabletState.Stopped ∧
      (TNodeTabletStateCount.ctor info settings).State ≠ ETabletState.Dead ∧
      30 ≤ info.restartsperperiod) ∧
    ((TNodeTabletStateCount.ctor info settings).State = ETabletState.Good ↔
      (TNodeTabletStateCount.ctor info settings).State ≠ ETabletState.Stopped ∧
      (TNodeTabletStateCount.ctor info settings).State ≠ ETabletState.Dead ∧
      info.restartsperperiod < 30) ∧
    (FillTablets X databaseState nodeId context).2.IssueRecords.map
        (fun it => (it.Tag, it.IssueLog.status, it.IssueLog.message)) =
      context.IssueRecords.map (fun it => (it.Tag, it.IssueLog.status, it.IssueLog.message)) ++
        (NodeBuckets databaseState nodeId).flatMap TabletIssue ∧
    (FillTablets X databaseState nodeId context).1 =
      (NodeBuckets databaseState nodeId).foldl
        (fun status count => MaxStatus status (TabletStatus count)) Status.GREEN := by
  refine ⟨?_, ?_, ?_, ?_, ?_, ?_⟩
  · unfold TNodeTabletStateCount.ctor
    dsimp only
    split_ifs <;> simp_all
  · unfold TNodeTabletStateCount.ctor
    dsimp only
    split_ifs <;> simp_all
  · unfold TNodeTabletStateCount.ctor
    dsimp only
    rw [hmax]
    split_ifs <;> simp_all
  · unfold TNodeTabletStateCount.ctor
    dsimp only
    rw [hmax]
    split_ifs <;> simp_all
  · unfold FillTablets NodeBuckets
    cases THashMap.find databaseState.MergedNodeTabletState nodeId with
    | none => simp
    | some nodeTabletState =>
      dsimp only
      rw [InheritFrom_IssueRecords, List.map_append,
        (foldl_FillTabletsCount X nodeTabletState.Count _).1]
      rfl
  · unfold FillTablets NodeBuckets
    cases THashMap.find databaseState.MergedNodeTabletState nodeId with
    | none => rfl
    | some nodeTabletState =>
      dsimp only
      rw [(foldl_FillTabletsCount X nodeTabletState.Count _).2]

/-- C19 (witness): at the settings AggregateHiveInfo builds ten minutes after
instant 0, a booting leader tablet last alive at instant 0 is Dead; for a
node with a good tablet, a dead leader tablet and a dead follower tablet
FillTablets reports RED "Tablets are dead" and YELLOW "Followers are dead"
and returns RED. -/
theorem tablet_classification_witness :
    (AggregateHiveInfoSettings 600000000 false).MaxRestartsPerPeriod = 30 ∧
    (TNodeTabletStateCount.ctor exampleDeadTablet
      (AggregateHiveInfoSettings 600000000 false)).State = ETabletState.Dead ∧
    (NodeBuckets exampleNodeTablets 1).map (fun count => (count.State, count.Leader)) =
      [(ETabletState.Good, true), (ETabletState.Dead, true), (ETabletState.Dead, false)] ∧
    (FillTablets exampleExternal exampleNodeTablets 1 {}).2.IssueRecords.map
        (fun it => (it.Tag, it.IssueLog.status, it.IssueLog.message)) =
      [(ETags.TabletState, Status.RED, "Tablets are dead"),
        (ETags.TabletState, Status.YELLOW, "Followers are dead")] ∧
    (FillTablets exampleExternal exampleNodeTablets 1 {}).1 = Status.RED :=
  ⟨rfl,
    (tablet_classification exampleExternal exampleDeadTablet
      (AggregateHiveInfoSettings 600000000 false) rfl exampleNodeTablets 1 {}).2.1.2
        ⟨by decide, rfl, by decide, by decide, rfl⟩,
    by decide,
    (tablet_classification exampleExternal exampleDeadTablet
      (AggregateHiveInfoSettings 600000000 false) rfl exampleNodeTablets 1 {}).2.2.2.2.1.trans
        (by decide),
    (tablet_classification exampleExternal exampleDeadTablet
      (AggregateHiveInfoSettings 600000000 false) rfl exampleNodeTablets 1 {}).2.2.2.2.2.trans
        (by decide)⟩

theorem Same_iff (a b : TNodeTabletStateCount) : a.Same b = true ↔ a.key = b.key := by
  unfold TNodeTabletStateCount.Same TNodeTabletStateCount.key
  simp only [Bool.and_eq_true, decide_eq_true_eq, Prod.mk.injEq]
  tauto

theorem Same_false_iff (a b : TNodeTabletStateCount) : a.Same b = false ↔ a.key ≠ b.key := by
  rw [Ne, ← Same_iff]
  cases a.Same b <;> simp

theorem StoreIdentifier_key (info : TTabletInfo) (settings : TTabletStateSettings)
    (c : TNodeTabletStateCount) :
    (StoreIdentifier info settings c).key = c.key ∧
    (StoreIdentifier info settings c).Count = c.Count := by
  unfold StoreIdentifier
  split_ifs <;> exact ⟨rfl, rfl⟩

theorem StoreIdentifier_Identifiers (info : TTabletInfo) (settings : TTabletStateSettings)
    (c : TNodeTabletStateCount) (hmax : settings.MaxTabletIdsStored = 10)
    (hgood : settings.ReportGoodTabletsIds = false) :
    (c.State = ETabletState.Good →
      (StoreIdentifier info settings c).Identifiers = c.Identifiers) ∧
    (c.State ≠ ETabletState.Good →
      (StoreIdentifier info settings c).Identifiers.length =
        if c.Identifiers.length < 10 then c.Identifiers.length + 1
        else c.Identifiers.length) := by
  unfold StoreIdentifier
  rw [hmax, hgood]
  constructor
  · intro h
    rw [if_neg (by simp [h])]
  · intro h
    rw [if_pos (Or.inl h)]
    split_ifs
    · simp
    · rfl

theorem AddTabletCount_new (info : TTabletInfo) (settings : TTabletStateSettings)
    (t : TNodeTabletStateCount) (l : List TNodeTabletStateCount)
    (h : ∀ c ∈ l, c.key ≠ t.key) :
    AddTabletCount info settings t l = l ++ [StoreIdentifier info settings t] := by
  induction l with
  | nil => rfl
  | cons c rest ih =>
    have hc : c.Same t = false := (Same_false_iff c t).2 (h c (List.mem_cons_self _ _))
    rw [AddTabletCount, if_neg (by rw [hc]; decide),
      ih (fun x hx => h x (List.mem_cons_of_mem _ hx))]
    rfl

theorem AddTabletCount_found (info : TTabletInfo) (settings : TTabletStateSettings)
    (t c : TNodeTabletStateCount) (l1 l2 : List TNodeTabletStateCount)
    (h : ∀ x ∈ l1, x.key ≠ t.key) (hc : c.key = t.key) :
    AddTabletCount info settings t (l1 ++ c :: l2) =
      l1 ++ StoreIdentifier info settings { c with Count := c.Count + 1 } :: l2 := by
  induction l1 with
  | nil =>
    rw [List.nil_append, AddTabletCount, if_pos ((Same_iff c t).2 hc)]
    rfl
  | cons x rest ih =>
    have hx : x.Same t = false := (Same_false_iff x t).2 (h x (List.mem_cons_self _ _))
    rw [List.cons_append, AddTabletCount, if_neg (by rw [hx]; decide),
      ih (fun y hy => h y (List.mem_cons_of_mem _ hy))]
    rfl

theorem countP_key_snoc (calls : List (TTabletInfo × TTabletStateSettings))
    (p : TTabletInfo × TTabletStateSettings) (c : TNodeTabletStateCount) :
    (calls ++ [p]).countP (fun q => (TNodeTabletStateCount.ctor q.1 q.2).Same c) =
      calls.countP (fun q => (TNodeTabletStateCount.ctor q.1 q.2).Same c) +
        if (TNodeTabletStateCount.ctor p.1 p.2).key = c.key then 1 else 0 := by
  rw [List.countP_append, List.countP_cons, List.countP_nil]
  by_cases h : (TNodeTabletStateCount.ctor p.1 p.2).key = c.key
  · rw [if_pos h, if_pos ((Same_iff _ _).2 h)]
  · rw [if_neg h, if_neg (by rw [(Same_false_iff _ _).2 h]; decide)]

theorem countP_key_congr (calls : List (TTabletInfo × TTabletStateSettings))
    (c d : TNodeTabletStateCount) (h : c.key = d.key) :
    calls.countP (fun q => (TNodeTabletStateCount.ctor q.1 q.2).Same c) =
      calls.countP (fun q => (TNodeTabletStateCount.ctor q.1 q.2).Same d) := by
  congr 1
  funext q
  have : ((TNodeTabletStateCount.ctor q.1 q.2).Same c = true) ↔
      ((TNodeTabletStateCount.ctor q.1 q.2).Same d = true) := by
    rw [Same_iff, Same_iff, h]
  cases h1 : (TNodeTabletStateCount.ctor q.1 q.2).Same c <;>
    cases h2 : (TNodeTabletStateCount.ctor q.1 q.2).Same d <;> simp_all

theorem BucketsInv_step (calls : List (TTabletInfo × TTabletStateSettings))
    (l : List TNodeTabletStateCount) (info : TTabletInfo) (settings : TTabletStateSettings)
    (hmax : settings.MaxTabletIdsStored = 10) (hgood : settings.ReportGoodTabletsIds = false)
    (h : BucketsInv calls l) :
    BucketsInv (calls ++ [(info, settings)])
      (AddTabletCount info settings (TNodeTabletStateCount.ctor info settings) l) := by
  obtain ⟨hnd, hcov, hb⟩ := h
  by_cases hex : (TNodeTabletStateCount.ctor info settings).key ∈ l.map TNodeTabletStateCount.key
  · obtain ⟨c, hcl, hck⟩ := List.mem_map.1 hex
    obtain ⟨l1, l2, rfl⟩ := List.append_of_mem hcl
    rw [List.map_append, List.map_cons] at hnd hcov
    have hnd2 := hnd
    rw [List.nodup_append, List.nodup_cons] at hnd2
    obtain ⟨_, ⟨hc2, _⟩, hdisj⟩ := hnd2
    have h1 : ∀ x ∈ l1, x.key ≠ (TNodeTabletStateCount.ctor info settings).key := by
      intro x hx e
      exact hdisj (List.mem_map_of_mem _ hx) (by rw [e, ← hck]; exact List.mem_cons_self _ _)
    have h2 : ∀ x ∈ l2, x.key ≠ (TNodeTabletStateCount.ctor info settings).key := by
      intro x hx e
      exact hc2 (by rw [hck, ← e]; exact List.mem_map_of_mem _ hx)
    rw [AddTabletCount_found info settings _ c l1 l2 h1 hck]
    obtain ⟨sk, sc⟩ := StoreIdentifier_key info settings { c with Count := c.Count + 1 }
    have sk2 : (StoreIdentifier info settings { c with Count := c.Count + 1 }).key = c.key := sk
    obtain ⟨cc, cg, cn⟩ := hb c hcl
    refine ⟨?_, ?_, ?_⟩
    · rw [List.map_append, List.map_cons, sk2]
      exact hnd
    · rw [List.map_append, List.map_cons, sk2]
      intro p hp
      rcases List.mem_append.1 hp with hp | hp
      · exact hcov p hp
      · rw [List.mem_singleton.1 hp]
        have hex2 := hex
        rw [List.map_append, List.map_cons] at hex2
        exact hex2
    · intro x hx
      rw [countP_key_snoc]
      rcases List.mem_append.1 hx with hx | hx
      · rw [if_neg (fun e => h1 x hx e.symm)]
        exact hb x (List.mem_append_left _ hx)
      · rcases List.mem_cons.1 hx with rfl | hx
        · rw [if_pos (by rw [sk2]; exact hck.symm), countP_key_congr calls _ c sk2, sc]
          obtain ⟨ig, ib⟩ := StoreIdentifier_Identifiers info settings
            { c with Count := c.Count + 1 } hmax hgood
          have hstate : (StoreIdentifier info settings { c with Count := c.Count + 1 }).State =
              c.State := congrArg Prod.fst sk2
          refine ⟨by rw [← cc], ?_, ?_⟩
          · intro hg
            rw [hstate] at hg
            rw [ig hg]
            exact cg hg
          · intro hg
            rw [hstate] at hg
            rw [ib hg]
            have := cn hg
            show (if c.Identifiers.length < 10 then c.Identifiers.length + 1
              else c.Identifiers.length) = min (c.Count + 1) 10
            split_ifs <;> omega
        · rw [if_neg (fun e => h2 x hx e.symm)]
          exact hb x (List.mem_append_right _ (List.mem_cons_of_mem _ hx))
  · have hnew : ∀ c ∈ l, c.key ≠ (TNodeTabletStateCount.ctor info settings).key :=
      fun c hc e => hex (by rw [← e]; exact List.mem_map_of_mem _ hc)
    rw [AddTabletCount_new info settings _ l hnew]
    obtain ⟨sk, sc⟩ := StoreIdentifier_key info settings (TNodeTabletStateCount.ctor info settings)
    refine ⟨?_, ?_, ?_⟩
    · rw [List.map_append, List.map_cons, List.map_nil, sk]
      exact List.Nodup.append hnd (List.nodup_singleton _)
        (fun a ha hb2 => hex (by rw [← List.mem_singleton.1 hb2]; exact ha))
    · rw [List.map_append, List.map_cons, List.map_nil, sk]
      intro p hp
      rcases List.mem_append.1 hp with hp | hp
      · exact List.mem_append_left _ (hcov p hp)
      · rw [List.mem_singleton.1 hp]
        exact List.mem_append_right _ (List.mem_singleton.2 rfl)
    · intro x hx
      rw [countP_key_snoc]
      rcases List.mem_append.1 hx with hx | hx
      · rw [if_neg (fun e => hnew x hx e.symm)]
        exact hb x hx
      · rw [List.mem_singleton.1 hx, if_pos sk.symm,
          countP_key_congr calls _ (TNodeTabletStateCount.ctor info settings) sk, sc]
        have hz : calls.countP
            (fun q => (TNodeTabletStateCount.ctor q.1 q.2).Same
              (TNodeTabletStateCount.ctor info settings)) = 0 := by
          rw [List.countP_eq_zero]
          intro q hq hs
          exact hex (by rw [← (Same_iff _ _).1 hs]; exact hcov q hq)
        obtain ⟨ig, ib⟩ := StoreIdentifier_Identifiers info settings
          (TNodeTabletStateCount.ctor info settings) hmax hgood
        have hstate : (StoreIdentifier info settings
            (TNodeTabletStateCount.ctor info settings)).State =
            (TNodeTabletStateCount.ctor info settings).State := congrArg Prod.fst sk
        rw [hz]
        refine ⟨rfl, ?_, ?_⟩
        · intro hg
          rw [hstate] at hg
          rw [ig hg]
          rfl
        · intro hg
          rw [hstate] at hg
          rw [ib hg]
          rfl

theorem AddTablets_BucketsInv (calls : List (TTabletInfo × TTabletStateSettings))
    (h : ∀ p ∈ calls, p.2.MaxTabletIdsStored = 10 ∧ p.2.ReportGoodTabletsIds = false) :
    BucketsInv calls (AddTablets calls).Count := by
  induction calls using List.reverseRecOn with
  | nil => exact ⟨List.nodup_nil, fun p hp => (by cases hp), fun c hc => (by cases hc)⟩
  | append_singleton calls p ih =>
    have e : (AddTablets (calls ++ [p])).Count =
        AddTabletCount p.1 p.2 (TNodeTabletStateCount.ctor p.1 p.2) (AddTablets calls).Count := by
      unfold AddTablets
      rw [List.foldl_append]
      rfl
    rw [e]
    obtain ⟨hm, hg⟩ := h p (List.mem_append_right _ (List.mem_singleton.2 rfl))
    exact BucketsInv_step calls _ p.1 p.2 hm hg
      (ih (fun q hq => h q (List.mem_append_left _ hq)))

/-- C20: after every sequence of AddTablet calls on an empty state, each with
the default limits (MaxTabletIdsStored = 10, ReportGoodTabletsIds = false),
every bucket holds at most 10 identifiers; the buckets are pairwise distinct
in (state, type, leader); the Count of a bucket is the number of calls whose
tablet is classified into it; a bucket whose state is Good holds no
identifier and every other bucket holds min(Count, 10) identifiers. -/
theorem AddTablets_buckets (calls : List (TTabletInfo × TTabletStateSettings))
    (h : ∀ p ∈ calls, p.2.MaxTabletIdsStored = 10 ∧ p.2.ReportGoodTabletsIds = false) :
    (∀ c ∈ (AddTablets calls).Count, c.Identifiers.length ≤ 10) ∧
    ((AddTablets calls).Count.map (fun c => (c.Type_, c.State, c.Leader))).Nodup ∧
    ∀ c ∈ (AddTablets calls).Count,
      c.Count = calls.countP (fun p =>
        decide ((TNodeTabletStateCount.ctor p.1 p.2).Type_ = c.Type_ ∧
          (TNodeTabletStateCount.ctor p.1 p.2).State = c.State ∧
          (TNodeTabletStateCount.ctor p.1 p.2).Leader = c.Leader)) ∧
      (c.State = ETabletState.Good → c.Identifiers = []) ∧
      (c.State ≠ ETabletState.Good → c.Identifiers.length = min c.Count 10) := by
  obtain ⟨hnd, _, hb⟩ := AddTablets_BucketsInv calls h
  refine ⟨?_, ?_, ?_⟩
  · intro c hc
    obtain ⟨_, hg, hn⟩ := hb c hc
    by_cases hs : c.State = ETabletState.Good
    · rw [hg hs]
      exact Nat.zero_le _
    · rw [hn hs]
      exact Nat.min_le_right _ _
  · have e : (AddTablets calls).Count.map (fun c => (c.Type_, c.State, c.Leader)) =
        ((AddTablets calls).Count.map TNodeTabletStateCount.key).map
          (fun k => (k.2.1, k.1, k.2.2)) := by
      rw [List.map_map]
      rfl
    rw [e]
    refine List.Nodup.map ?_ hnd
    intro a b hab
    simp only [Prod.mk.injEq] at hab
    obtain ⟨h1, h2, h3⟩ := hab
    exact Prod.ext h2 (Prod.ext h1 h3)
  · intro c hc
    obtain ⟨hcount, hg, hn⟩ := hb c hc
    refine ⟨?_, hg, hn⟩
    rw [hcount]
    congr 1
    funext p
    unfold TNodeTabletStateCount.Same
    by_cases h1 : (TNodeTabletStateCount.ctor p.1 p.2).State = c.State <;>
      by_cases h2 : (TNodeTabletStateCount.ctor p.1 p.2).Type_ = c.Type_ <;>
      by_cases h3 : (TNodeTabletStateCount.ctor p.1 p.2).Leader = c.Leader <;>
      simp [h1, h2, h3]

/-- C20 (witness): after twelve dead leader tablets of one type and one good
tablet, the Dead bucket counts 12 with 10 identifiers and the Good bucket
counts 1 with none. -/
theorem AddTablets_buckets_witness :
    (∀ p ∈ exampleTabletCalls,
      p.2.MaxTabletIdsStored = 10 ∧ p.2.ReportGoodTabletsIds = false) ∧
    (AddTablets exampleTabletCalls).Count.map
        (fun c => (c.State, c.Count, c.Identifiers.length)) =
      [(ETabletState.Dead, 12, 10), (ETabletState.Good, 1, 0)] ∧
    ∀ c ∈ (AddTablets exampleTabletCalls).Count, c.Identifiers.length ≤ 10 :=
  ⟨by decide, by decide, (AddTablets_buckets exampleTabletCalls (by decide)).1⟩

/-! ### C11: the ids of the issue log -/

theorem AddIssue_KeyInv (c : TOverallStateContext) (it : TIssueRecord) (h : KeyInv c) :
    KeyInv (c.AddIssue it) ∧ c.IssueIds ⊆ (c.AddIssue it).IssueIds ∧
      IssueKey it.IssueLog ∈ (c.AddIssue it).IssueIds := by
  unfold TOverallStateContext.AddIssue
  dsimp only
  split
  · rename_i hk
    exact ⟨h, fun _ hx => hx, hk⟩
  · rename_i hk
    refine ⟨⟨?_, ?_⟩, fun _ hx => List.mem_append_left _ hx,
      List.mem_append_right _ (List.mem_singleton.2 rfl)⟩
    · show (c.Result.issue_log ++ [it.IssueLog]).map IssueKey = _
      rw [List.map_append, h.1]
      rfl
    · exact List.Nodup.append h.2 (List.nodup_singleton _)
        (fun a ha hb => hk (by rw [← List.mem_singleton.1 hb]; exact ha))

theorem AddIssues_KeyInv (L : List TIssueRecord) (c : TOverallStateContext) (h : KeyInv c) :
    KeyInv (c.AddIssues L) ∧ c.IssueIds ⊆ (c.AddIssues L).IssueIds ∧
      ∀ it ∈ L, IssueKey it.IssueLog ∈ (c.AddIssues L).IssueIds := by
  induction L generalizing c with
  | nil => exact ⟨h, fun _ hx => hx, fun it hit => (by cases hit)⟩
  | cons a L ih =>
    obtain ⟨a1, a2, a3⟩ := AddIssue_KeyInv c a h
    obtain ⟨b1, b2, b3⟩ := ih (c.AddIssue a) a1
    have e : c.AddIssues (a :: L) = (c.AddIssue a).AddIssues L := rfl
    rw [e]
    refine ⟨b1, fun x hx => b2 (a2 hx), ?_⟩
    intro it hit
    rcases List.mem_cons.1 hit with rfl | hit
    · exact b2 a3
    · exact b3 it hit

theorem FillDatabaseResult_KeyGrows (X : TExternal)
    (acc : TSelfCheckRequest × TOverallStateContext) (path : String) (h : KeyInv acc.2) :
    KeyGrows acc.2 (FillDatabaseResult X acc path).2 ∧
    ∀ it ∈ (FillDatabaseContext X acc.1 path).2.2.IssueRecords,
      IssueKey it.IssueLog ∈ (FillDatabaseResult X acc path).2.IssueIds := by
  unfold FillDatabaseResult
  dsimp only
  have h1 := AddIssues_KeyInv (FillDatabaseContext X acc.1 path).2.2.IssueRecords
    (TOverallStateContext.UpdateMaxStatus
      { acc.2 with Result.database_status :=
          acc.2.Result.database_status ++ [(FillDatabaseContext X acc.1 path).2.1] }
      (FillDatabaseContext X acc.1 path).2.2.OverallStatus) h
  split
  · exact ⟨⟨h1.1, h1.2.1⟩, h1.2.2⟩
  · exact ⟨⟨h1.1, h1.2.1⟩, h1.2.2⟩

theorem FillNodesSyncResult_KeyGrows (X : TExternal)
    (acc : TSelfCheckRequest × TOverallStateContext) (h : KeyInv acc.2) :
    KeyGrows acc.2 (FillNodesSyncResult X acc).2 := by
  unfold FillNodesSyncResult
  dsimp only
  have h1 := AddIssues_KeyInv (FillNodesSyncContext X acc.1).2.IssueRecords
    (acc.2.UpdateMaxStatus (FillNodesSyncContext X acc.1).2.OverallStatus) h
  exact ⟨h1.1, h1.2.1⟩

theorem FillResultNoDatabase_KeyGrows (X : TExternal)
    (acc : TSelfCheckRequest × TOverallStateContext) (h : KeyInv acc.2) :
    KeyGrows acc.2 (FillResultNoDatabase X acc).2 := by
  unfold FillResultNoDatabase
  split
  · exact ⟨h, fun _ hx => hx⟩
  · exact ⟨h, fun _ hx => hx⟩

theorem FillResultUnknownDatabase_KeyGrows (X : TExternal)
    (acc : TSelfCheckRequest × TOverallStateContext) (h : KeyInv acc.2) :
    KeyGrows acc.2 (FillResultUnknownDatabase X acc).2 := by
  unfold FillResultUnknownDatabase
  dsimp only
  split
  · split
    · have h1 := AddIssues_KeyInv
        (FillUnknownStorageContext X acc.1
          ((acc.1.StoragePoolState.map Prod.fst).filter
            (fun name => decide (name ∉ acc.1.StoragePoolSeen)))).2.2.IssueRecords
        (TOverallStateContext.UpdateMaxStatus
          { acc.2 with Result.database_status := acc.2.Result.database_status ++
              [({ storage := (FillUnknownStorageContext X acc.1
                    ((acc.1.StoragePoolState.map Prod.fst).filter
                      (fun name => decide (name ∉ acc.1.StoragePoolSeen)))).2.1,
                  overall := (FillUnknownStorageContext X acc.1
                    ((acc.1.StoragePoolState.map Prod.fst).filter
                      (fun name => decide (name ∉ acc.1.StoragePoolSeen)))).2.2.OverallStatus } :
                DatabaseStatus)] }
          (FillUnknownStorageContext X acc.1
            ((acc.1.StoragePoolState.map Prod.fst).filter
              (fun name => decide (name ∉ acc.1.StoragePoolSeen)))).2.2.OverallStatus) h
      exact ⟨h1.1, h1.2.1⟩
    · exact ⟨h, fun _ hx => hx⟩
  · exact ⟨h, fun _ hx => hx⟩

theorem FillSelfCheckResult_IssueIds (c : TOverallStateContext) :
    c.FillSelfCheckResult.IssueIds = c.IssueIds := by
  unfold TOverallStateContext.FillSelfCheckResult
  split <;> (try split) <;> rfl

/-- The tail of FillResult (lines 2348-2375) after the databases. -/
theorem FillResult_tail_KeyGrows (X : TExternal)
    (acc : TSelfCheckRequest × TOverallStateContext) (h : KeyInv acc.2) :
    KeyGrows acc.2 (FillResultUnknownDatabase X (FillResultNoDatabase X
      (FillNodesSyncResult X acc))).2.FillSelfCheckResult := by
  obtain ⟨a1, a2⟩ := FillNodesSyncResult_KeyGrows X acc h
  obtain ⟨b1, b2⟩ := FillResultNoDatabase_KeyGrows X _ a1
  obtain ⟨c1, c2⟩ := FillResultUnknownDatabase_KeyGrows X _ b1
  refine ⟨⟨?_, ?_⟩, ?_⟩
  · rw [FillSelfCheckResult_issue_log, FillSelfCheckResult_IssueIds]
    exact c1.1
  · rw [FillSelfCheckResult_IssueIds]
    exact c1.2
  · rw [FillSelfCheckResult_IssueIds]
    exact fun x hx => c2 (b2 (a2 hx))

theorem foldl_FillDatabaseResult_KeyGrows (X : TExternal) (paths : List String)
    (acc : TSelfCheckRequest × TOverallStateContext) (h : KeyInv acc.2) :
    KeyGrows acc.2 (paths.foldl (FillDatabaseResult X) acc).2 := by
  induction paths generalizing acc with
  | nil => exact ⟨h, fun _ hx => hx⟩
  | cons p paths ih =>
    obtain ⟨⟨a1, a2⟩, _⟩ := FillDatabaseResult_KeyGrows X acc p h
    obtain ⟨b1, b2⟩ := ih (FillDatabaseResult X acc p) a1
    exact ⟨b1, fun x hx => b2 (a2 hx)⟩

theorem KeyInv_fresh : KeyInv ({} : TOverallStateContext) :=
  ⟨rfl, List.nodup_nil⟩

theorem FillResult_KeyInv (X : TExternal) (S : TSelfCheckRequest) :
    KeyInv (FillResult X S {}).2 := by
  unfold FillResult
  dsimp only
  refine (FillResult_tail_KeyGrows X _ ?_).1
  split
  · exact (FillDatabaseResult_KeyGrows X _ _ KeyInv_fresh).1.1
  · exact (foldl_FillDatabaseResult_KeyGrows X _ _ KeyInv_fresh).1

theorem FilterIssueLog_sublist (request : TEvSelfCheckRequest) (issue_log : List IssueLog) :
    (FilterIssueLog request issue_log).Sublist issue_log := by
  unfold FilterIssueLog
  dsimp only
  split <;> split
  · exact (List.filter_sublist _).trans (List.filter_sublist _)
  · exact List.filter_sublist _
  · exact List.filter_sublist _
  · exact List.Sublist.refl _

/-- C11 (amended): for every sequence of AddIssues calls on the context of a
fresh response, and for the response ReplyAndPassAway sends, no two records
of the issue log have both the same database name in their location and the
same id. -/
theorem issue_log_keys_nodup (X : TExternal) (S : TSelfCheckRequest)
    (calls : List (List TIssueRecord)) :
    ((calls.foldl TOverallStateContext.AddIssues {}).Result.issue_log.map
      (fun it => (it.location.database.name, it.id))).Nodup ∧
    ((ReplyAndPassAway X S).issue_log.map
      (fun it => (it.location.database.name, it.id))).Nodup := by
  constructor
  · have h : KeyInv (calls.foldl TOverallStateContext.AddIssues {}) :=
      foldl_preserves KeyInv _ (fun c L hc => (AddIssues_KeyInv L c hc).1) calls _ KeyInv_fresh
    have e := h.1
    unfold IssueKey at e
    rw [e]
    exact h.2
  · unfold ReplyAndPassAway
    dsimp only
    have h := FillResult_KeyInv X { S with TabletRequests := MarkUnresponsive S.TabletRequests }
    have e := h.1
    unfold IssueKey at e
    have hn : ((FillResult X { S with TabletRequests := MarkUnresponsive S.TabletRequests }
        {}).2.Result.issue_log.map (fun it => (it.location.database.name, it.id))).Nodup := by
      rw [e]
      exact h.2
    split
    · exact List.Nodup.sublist ((FilterIssueLog_sublist _ _).map _) hn
    · exact List.Nodup.sublist ((FilterIssueLog_sublist _ _).map _) hn

theorem THashMap.mem_set {K V : Type} [DecidableEq K] (l : List (K × V)) (k : K) (v : V)
    (p : K × V) (h : p ∈ THashMap.set l k v) : p ∈ l ∨ p.2 = v := by
  induction l with
  | nil =>
    rw [THashMap.set, List.mem_singleton] at h
    exact Or.inr (by rw [h])
  | cons q l ih =>
    obtain ⟨k2, v2⟩ := q
    rw [THashMap.set] at h
    split at h
    · rcases List.mem_cons.1 h with rfl | h
      · exact Or.inr rfl
      · exact Or.inl (List.mem_cons_of_mem _ h)
    · rcases List.mem_cons.1 h with rfl | h
      · exact Or.inl (List.mem_cons_self _ _)
      · rcases ih h with h | h
        · exact Or.inl (List.mem_cons_of_mem _ h)
        · exact Or.inr h

theorem THashMap.find_mem {K V : Type} [DecidableEq K] (l : List (K × V)) (k : K) (v : V)
    (h : THashMap.find l k = some v) : (k, v) ∈ l := by
  induction l with
  | nil => cases h
  | cons q l ih =>
    obtain ⟨k2, v2⟩ := q
    rw [THashMap.find] at h
    split at h
    · rename_i hk
      cases h
      rw [hk]
      exact List.mem_cons_self _ _
    · exact List.mem_cons_of_mem _ (ih h)

theorem NoComputeNodes_find (S : TSelfCheckRequest) (h : NoComputeNodes S) (path : String) :
    ((THashMap.find S.DatabaseState path).getD {}).ComputeNodeIds = [] ∧
    ((THashMap.find S.DatabaseState path).getD {}).ResourcePathId = none := by
  cases hf : THashMap.find S.DatabaseState path with
  | none => exact ⟨rfl, rfl⟩
  | some v => exact h (path, v) (THashMap.find_mem _ _ _ hf)

theorem FillCompute_NoComputeNodes (X : TExternal) (S : TSelfCheckRequest) (path : String)
    (cs : ComputeStatus) (c : TSelfCheckResult) (h : NoComputeNodes S) :
    NoComputeNodes (FillCompute X S path cs c).1 ∧
    (FillCompute X S path cs c).2.2 =
      c.ReportStatus X Status.RED "There are no compute nodes" ETags.None [] := by
  obtain ⟨h1, h2⟩ := NoComputeNodes_find S h path
  unfold FillCompute
  dsimp only
  rw [h2]
  dsimp only
  rw [h1]
  have e : UniqueNodeIds (SortNodeIds []) = [] := rfl
  rw [e, if_pos rfl]
  refine ⟨?_, rfl⟩
  intro p hp
  rcases THashMap.mem_set _ _ _ p hp with hp | hp
  · exact h p hp
  · rw [hp]
    exact ⟨rfl, h2⟩

theorem FillStoragePool_DatabaseState (X : TExternal) (st : TStorageLoopState)
    (poolName : String) :
    (FillStoragePool X st poolName).S.DatabaseState = st.S.DatabaseState := by
  unfold FillStoragePool
  split <;> rfl

theorem FillStorage_DatabaseState (X : TExternal) (S : TSelfCheckRequest) (names : List String)
    (q u : Nat) (ss : StorageStatus) (c : TSelfCheckResult) :
    (FillStorage X S names q u ss c).1.DatabaseState = S.DatabaseState := by
  unfold FillStorage
  dsimp only
  split
  · rfl
  · exact foldl_preserves
      (fun st : TStorageLoopState => st.S.DatabaseState = S.DatabaseState)
      _ (fun st a hst => (FillStoragePool_DatabaseState X st a).trans hst) _ _ rfl

theorem mem_FillDatabaseReport (X : TExternal) (c : TSelfCheckResult) (a b : Status)
    (it : TIssueRecord) (h : it ∈ c.IssueRecords) :
    it ∈ (FillDatabaseReport X c a b).IssueRecords := by
  unfold FillDatabaseReport
  split_ifs <;>
    first
      | exact h
      | (rw [ReportStatus_IssueRecords]; split <;> first | exact h | exact List.mem_cons_of_mem _ h)

theorem FillDatabaseContext_NoComputeNodes (X : TExternal) (S : TSelfCheckRequest)
    (path : String) (h : NoComputeNodes S) :
    NoComputeNodes (FillDatabaseContext X S path).1 ∧
    NoComputeRecord X path ∈ (FillDatabaseContext X S path).2.2.IssueRecords := by
  unfold FillDatabaseContext
  dsimp only
  obtain ⟨h1, h2⟩ := FillCompute_NoComputeNodes X S path {}
    (TSelfCheckContext
      { ({ Type_ := "DATABASE" } : TSelfCheckResult) with Location.database.name := path }
      "COMPUTE") h
  constructor
  · intro p hp
    rw [FillStorage_DatabaseState] at hp
    exact h1 p hp
  · apply mem_FillDatabaseReport
    rw [InheritFrom_IssueRecords, InheritFrom_IssueRecords, h2, ReportStatus_IssueRecords,
      if_neg (by decide)]
    exact List.mem_append_left _ (List.mem_append_right _ (List.mem_cons_self _ _))

theorem foldl_FillDatabaseResult_keys (X : TExternal) (paths : List String)
    (acc : TSelfCheckRequest × TOverallStateContext) (h : KeyInv acc.2)
    (hS : NoComputeNodes acc.1) :
    ∀ path ∈ paths, IssueKey (NoComputeRecord X path).IssueLog ∈
      (paths.foldl (FillDatabaseResult X) acc).2.IssueIds := by
  induction paths generalizing acc with
  | nil => intro path hp; cases hp
  | cons p paths ih =>
    obtain ⟨⟨a1, a2⟩, a3⟩ := FillDatabaseResult_KeyGrows X acc p h
    obtain ⟨n1, n2⟩ := FillDatabaseContext_NoComputeNodes X acc.1 p hS
    have hS2 : NoComputeNodes (FillDatabaseResult X acc p).1 := n1
    intro path hp
    rw [List.foldl_cons]
    rcases List.mem_cons.1 hp with rfl | hp
    · exact (foldl_FillDatabaseResult_KeyGrows X paths _ a1).2 (a3 _ n2)
    · exact ih _ a1 hS2 path hp

theorem NoComputeRecord_key (X : TExternal) (path : String) (h : path ≠ "") :
    IssueKey (NoComputeRecord X path).IssueLog =
      (path, "RED" ++ "-" ++ X.crc16 path ++ "-" ++ X.crc16 "There are no compute nodes") := by
  unfold IssueKey NoComputeRecord NewIssueRecord GetIssueId TSelfCheckContext
  simp [h, Status.Name]

/-- For a request without database filter whose databases have no compute
nodes, the response holds, for every database with a name, a record of that
database with the id of "There are no compute nodes". -/
theorem ReplyAndPassAway_no_compute (X : TExternal) (S : TSelfCheckRequest)
    (hS : NoComputeNodes S) (hfilter : S.FilterDatabase = "")
    (hmin : S.Request.minimum_status = Status.UNSPECIFIED)
    (hmax : S.Request.maximum_level = 0) (path : String) (hne : path ≠ "")
    (hp : path ∈ S.DatabaseState.map Prod.fst) :
    ∃ it ∈ (ReplyAndPassAway X S).issue_log,
      it.location.database.name = path ∧
      it.id = "RED" ++ "-" ++ X.crc16 path ++ "-" ++ X.crc16 "There are no compute nodes" := by
  have hkey : (path,
      "RED" ++ "-" ++ X.crc16 path ++ "-" ++ X.crc16 "There are no compute nodes") ∈
      (FillResult X { S with TabletRequests := MarkUnresponsive S.TabletRequests }
        {}).2.IssueIds := by
    unfold FillResult
    dsimp only
    have hf : IsSpecificDatabaseFilter
        { S with TabletRequests := MarkUnresponsive S.TabletRequests } = false := by
      unfold IsSpecificDatabaseFilter
      simp [hfilter]
    rw [if_neg (by rw [hf]; decide)]
    refine (FillResult_tail_KeyGrows X _
      (foldl_FillDatabaseResult_KeyGrows X _ _ KeyInv_fresh).1).2 ?_
    rw [← NoComputeRecord_key X path hne]
    exact foldl_FillDatabaseResult_keys X _ _ KeyInv_fresh hS path hp
  have hinv := FillResult_KeyInv X { S with TabletRequests := MarkUnresponsive S.TabletRequests }
  rw [← hinv.1] at hkey
  obtain ⟨it, hit, hk⟩ := List.mem_map.1 hkey
  have hlog : (ReplyAndPassAway X S).issue_log =
      (FillResult X { S with TabletRequests := MarkUnresponsive S.TabletRequests }
        {}).2.Result.issue_log := by
    unfold ReplyAndPassAway
    dsimp only
    rw [FilterIssueLog_no_filter _ _ hmin hmax]
    split <;> rfl
  rw [hlog]
  unfold IssueKey at hk
  exact ⟨it, hit, congrArg Prod.fst hk, congrArg Prod.snd hk⟩

theorem exampleDatabaseName_injective : Function.Injective exampleDatabaseName := by
  intro a b h
  unfold exampleDatabaseName at h
  have h2 := congrArg (fun s => s.data.length) h
  simp at h2
  exact h2

theorem exampleDatabaseName_ne (n : Nat) : exampleDatabaseName n ≠ "" := by
  intro h
  have h2 := congrArg (fun s => s.data.length) h
  simp [exampleDatabaseName] at h2

/-- Whatever crc16 computes, when two databases without compute nodes have
names of the same checksum the response repeats an id. -/
theorem issue_ids_repeat_of_collision (X : TExternal) (d1 d2 : String) (h1 : d1 ≠ "")
    (h2 : d2 ≠ "") (hne : d1 ≠ d2) (hc : X.crc16 d1 = X.crc16 d2) :
    ¬ ((ReplyAndPassAway X { DatabaseState := [(d1, {}), (d2, {})] }).issue_log.map
      (fun it => it.id)).Nodup := by
  intro hnd
  have hS : NoComputeNodes { DatabaseState := [(d1, {}), (d2, {})] } := by
    intro p hp
    simp only [List.mem_cons, List.mem_singleton, List.not_mem_nil, or_false] at hp
    rcases hp with rfl | rfl <;> exact ⟨rfl, rfl⟩
  obtain ⟨x1, m1, n1, i1⟩ := ReplyAndPassAway_no_compute X
    { DatabaseState := [(d1, {}), (d2, {})] } hS rfl rfl rfl d1 h1 (by simp)
  obtain ⟨x2, m2, n2, i2⟩ := ReplyAndPassAway_no_compute X
    { DatabaseState := [(d1, {}), (d2, {})] } hS rfl rfl rfl d2 h2 (by simp)
  have hid : x1.id = x2.id := by rw [i1, i2, hc]
  have hx : x1 = x2 := List.inj_on_of_nodup_map hnd m1 m2 hid
  exact hne (by rw [← n1, ← n2, hx])

/-- C11 (counterexample): with the example external, whose crc16 gives the
databases "/a" and "/b" the same checksum, the response for two databases
without compute nodes holds two records with the id "RED-0000-0000", one per
database: AddIssues tests the pair of database name and id, not the id. And
no crc16 that goes through a 16-bit checksum (line 227) makes the ids of
every response pairwise different: two of 65537 database names have the
same checksum, and two databases of such names without compute nodes both
get the record "There are no compute nodes" under one id. -/
theorem issue_log_repeats_id :
    (ReplyAndPassAway exampleExternal exampleTwoDatabases).issue_log.map
        (fun it => (it.location.database.name, it.id)) =
      [("/a", "RED-0000-0000"), ("/b", "RED-0000-0000")] ∧
    ¬ ((ReplyAndPassAway exampleExternal exampleTwoDatabases).issue_log.map
        (fun it => it.id)).Nodup ∧
    ¬ ∃ X : TExternal,
      (∃ (raw : String → Fin 65536) (fmt : Fin 65536 → String),
        ∀ s, X.crc16 s = fmt (raw s)) ∧
      ∀ S : TSelfCheckRequest,
        ((ReplyAndPassAway X S).issue_log.map (fun it => it.id)).Nodup := by
  refine ⟨by set_option maxRecDepth 100000 in decide,
    by set_option maxRecDepth 100000 in decide, ?_⟩
  rintro ⟨X, ⟨raw, fmt, hX⟩, hall⟩
  obtain ⟨a, b, hab, hraw⟩ := Fintype.exists_ne_map_eq_of_card_lt
    (fun n : Fin 65537 => raw (exampleDatabaseName n.val))
    (by simp only [Fintype.card_fin]; norm_num)
  refine issue_ids_repeat_of_collision X (exampleDatabaseName a.val) (exampleDatabaseName b.val)
    (exampleDatabaseName_ne _) (exampleDatabaseName_ne _) ?_ ?_ (hall _)
  · intro h
    exact hab (Fin.ext (exampleDatabaseName_injective h))
  · rw [hX, hX]
    exact congrArg fmt hraw

/-! ### The records map of the merger -/

theorem MapSet_keys (m : List (ETags × List TIssueRecord)) (tag : ETags)
    (records : List TIssueRecord) :
    (MapSet m tag records).map Prod.fst =
      if tag ∈ m.map Prod.fst then m.map Prod.fst else m.map Prod.fst ++ [tag] := by
  induction m with
  | nil => simp [MapSet]
  | cons p m ih =>
    obtain ⟨k, v⟩ := p
    unfold MapSet
    by_cases hk : k = tag
    · simp [hk]
    · rw [if_neg hk, List.map_cons, ih]
      have hk2 : ¬ tag = k := fun e => hk e.symm
      by_cases hm : tag ∈ m.map Prod.fst
      · simp [hm]
      · simp [hm, hk2]

theorem find_MapSet_same (m : List (ETags × List TIssueRecord)) (tag : ETags)
    (records : List TIssueRecord) :
    THashMap.find (MapSet m tag records) tag = some records := by
  induction m with
  | nil => simp [MapSet, THashMap.find]
  | cons p m ih =>
    obtain ⟨k, v⟩ := p
    unfold MapSet
    by_cases hk : k = tag
    · simp [hk, THashMap.find]
    · rw [if_neg hk]
      unfold THashMap.find
      rw [if_neg hk]
      exact ih

theorem find_MapSet_ne (m : List (ETags × List TIssueRecord)) (tag other : ETags)
    (records : List TIssueRecord) (h : other ≠ tag) :
    THashMap.find (MapSet m tag records) other = THashMap.find m other := by
  induction m with
  | nil =>
    have h2 : ¬ tag = other := fun e => h e.symm
    simp [MapSet, THashMap.find, h2]
  | cons p m ih =>
    obtain ⟨k, v⟩ := p
    unfold MapSet
    by_cases hk : k = tag
    · have hk2 : ¬ k = other := fun e => h (e ▸ hk)
      have hk3 : ¬ tag = other := fun e => h e.symm
      simp [hk, THashMap.find, hk3]
    · rw [if_neg hk]
      unfold THashMap.find
      rw [ih]

theorem GetRecords_SetRecords_same (c : TMergeIssuesContext) (tag : ETags)
    (records : List TIssueRecord) :
    (c.SetRecords tag records).GetRecords tag = records := by
  unfold TMergeIssuesContext.GetRecords TMergeIssuesContext.SetRecords
  simp [find_MapSet_same]

theorem GetRecords_SetRecords_ne (c : TMergeIssuesContext) (tag other : ETags)
    (records : List TIssueRecord) (h : other ≠ tag) :
    (c.SetRecords tag records).GetRecords other = c.GetRecords other := by
  unfold TMergeIssuesContext.GetRecords TMergeIssuesContext.SetRecords
  simp [find_MapSet_ne _ _ _ _ h]

theorem mem_MapSet (m : List (ETags × List TIssueRecord)) (tag : ETags)
    (records : List TIssueRecord) (p : ETags × List TIssueRecord)
    (h : p ∈ MapSet m tag records) : p ∈ m ∨ p = (tag, records) := by
  induction m with
  | nil =>
    simp only [MapSet, List.mem_singleton] at h
    exact Or.inr h
  | cons q m ih =>
    obtain ⟨k, v⟩ := q
    unfold MapSet at h
    by_cases hk : k = tag
    · rw [if_pos hk, List.mem_cons] at h
      rcases h with h | h
      · exact Or.inr (by rw [h, hk])
      · exact Or.inl (List.mem_cons_of_mem _ h)
    · rw [if_neg hk, List.mem_cons] at h
      rcases h with h | h
      · exact Or.inl (h ▸ List.mem_cons_self _ _)
      · rcases ih h with h2 | h2
        · exact Or.inl (List.mem_cons_of_mem _ h2)
        · exact Or.inr h2

theorem TagInv_MapSet (m : List (ETags × List TIssueRecord)) (tag : ETags)
    (records : List TIssueRecord) (hm : TagInv m) (hr : ∀ r ∈ records, r.Tag = tag) :
    TagInv (MapSet m tag records) := by
  refine ⟨?_, ?_⟩
  · rw [MapSet_keys]
    split
    · exact hm.1
    · rename_i hnot
      rw [List.nodup_append]
      refine ⟨hm.1, List.nodup_singleton _, ?_⟩
      intro a ha hb
      rw [List.mem_singleton] at hb
      exact hnot (hb ▸ ha)
  · intro p hp r hrp
    rcases mem_MapSet m tag records p hp with h | h
    · exact hm.2 p h r hrp
    · subst h
      exact hr r hrp

theorem find_mem_of_some {V : Type} (m : List (ETags × V)) (tag : ETags) (v : V)
    (h : THashMap.find m tag = some v) : (tag, v) ∈ m := by
  induction m with
  | nil => simp [THashMap.find] at h
  | cons p m ih =>
    obtain ⟨k, w⟩ := p
    unfold THashMap.find at h
    by_cases hk : k = tag
    · rw [if_pos hk] at h
      cases h
      rw [hk]
      exact List.mem_cons_self _ _
    · rw [if_neg hk] at h
      exact List.mem_cons_of_mem _ (ih h)

theorem find_none_of_not_mem {V : Type} (m : List (ETags × V)) (tag : ETags)
    (h : tag ∉ m.map Prod.fst) : THashMap.find m tag = none := by
  induction m with
  | nil => rfl
  | cons p m ih =>
    obtain ⟨k, w⟩ := p
    rw [List.map_cons, List.mem_cons, not_or] at h
    unfold THashMap.find
    rw [if_neg (fun e => h.1 e.symm)]
    exact ih h.2

theorem TagInv_GetRecords (c : TMergeIssuesContext) (tag : ETags) (h : TagInv c.recordsMap) :
    ∀ r ∈ c.GetRecords tag, r.Tag = tag := by
  intro r hr
  unfold TMergeIssuesContext.GetRecords at hr
  cases hf : THashMap.find c.recordsMap tag with
  | none => rw [hf] at hr; cases hr
  | some v =>
    rw [hf] at hr
    exact h.2 _ (find_mem_of_some _ _ _ hf) r hr

theorem TagInv_SetRecords (c : TMergeIssuesContext) (tag : ETags) (records : List TIssueRecord)
    (h : TagInv c.recordsMap) (hr : ∀ r ∈ records, r.Tag = tag) :
    TagInv (c.SetRecords tag records).recordsMap :=
  TagInv_MapSet _ _ _ h hr

theorem SetRecords_removeIssuesIds (c : TMergeIssuesContext) (tag : ETags)
    (records : List TIssueRecord) :
    (c.SetRecords tag records).removeIssuesIds = c.removeIssuesIds := rfl

/-! ### The constructor of the merge context -/

theorem ctor_fold (records : List TIssueRecord) (c : TMergeIssuesContext)
    (h : TagInv c.recordsMap) :
    TagInv (records.foldl
        (fun c record => c.SetRecords record.Tag (c.GetRecords record.Tag ++ [record]))
        c).recordsMap ∧
    (records.foldl
        (fun c record => c.SetRecords record.Tag (c.GetRecords record.Tag ++ [record]))
        c).removeIssuesIds = c.removeIssuesIds ∧
    ∀ tag, (records.foldl
        (fun c record => c.SetRecords record.Tag (c.GetRecords record.Tag ++ [record]))
        c).GetRecords tag = c.GetRecords tag ++ records.filter (fun r => decide (r.Tag = tag)) := by
  induction records generalizing c with
  | nil => exact ⟨h, rfl, fun tag => by simp⟩
  | cons a l ih =>
    rw [List.foldl_cons]
    have h1 : TagInv (c.SetRecords a.Tag (c.GetRecords a.Tag ++ [a])).recordsMap := by
      refine TagInv_SetRecords _ _ _ h ?_
      intro r hr
      rw [List.mem_append, List.mem_singleton] at hr
      rcases hr with hr | hr
      · exact TagInv_GetRecords c _ h r hr
      · rw [hr]
    obtain ⟨i1, i2, i3⟩ := ih _ h1
    refine ⟨i1, i2, fun tag => ?_⟩
    rw [i3 tag]
    by_cases ht : a.Tag = tag
    · subst ht
      rw [GetRecords_SetRecords_same]
      simp
    · rw [GetRecords_SetRecords_ne _ _ _ _ (fun e => ht e.symm)]
      simp [ht]

theorem TagInv_nil : TagInv [] :=
  ⟨List.nodup_nil, fun _ hp => by cases hp⟩

theorem ctor_TagInv (records : List TIssueRecord) :
    TagInv (TMergeIssuesContext.ctor records).recordsMap :=
  (ctor_fold records {} TagInv_nil).1

theorem ctor_removeIssuesIds (records : List TIssueRecord) :
    (TMergeIssuesContext.ctor records).removeIssuesIds = [] :=
  (ctor_fold records {} TagInv_nil).2.1

theorem ctor_GetRecords (records : List TIssueRecord) (tag : ETags) :
    (TMergeIssuesContext.ctor records).GetRecords tag =
      records.filter (fun r => decide (r.Tag = tag)) := by
  have h := (ctor_fold records {} TagInv_nil).2.2 tag
  unfold TMergeIssuesContext.ctor
  rw [h]
  rfl

/-! ### The merging of similar records -/

theorem FindRecordsForMergeLoop_perm (fuel : Nat) (records similar Mergeed : List TIssueRecord) :
    ((FindRecordsForMergeLoop fuel records similar Mergeed).1 ++
      ((FindRecordsForMergeLoop fuel records similar Mergeed).2.1 ++
        (FindRecordsForMergeLoop fuel records similar Mergeed).2.2)).Perm
      (records ++ (similar ++ Mergeed)) := by
  induction fuel generalizing records similar Mergeed with
  | zero => exact List.Perm.refl _
  | succ fuel ih =>
    unfold FindRecordsForMergeLoop
    split
    · rename_i first rest
      dsimp only
      have hp : (rest.filter (IsSimilar first) ++ rest.filter (fun it => !IsSimilar first it)).Perm
          rest := List.filter_append_perm _ _
      split
      · refine (ih _ _ _).trans ?_
        rw [List.perm_iff_count]
        intro a
        have h := hp.count_eq a
        simp only [List.count_append, List.count_cons, List.count_nil] at h ⊢
        omega
      · refine (ih _ _ _).trans ?_
        rw [List.perm_iff_count]
        intro a
        have h := hp.count_eq a
        simp only [List.count_append, List.count_cons, List.count_nil] at h ⊢
        omega
    · exact List.Perm.refl _

theorem FindRecordsForMerge_perm (records Mergeed : List TIssueRecord) :
    ((FindRecordsForMerge records [] Mergeed).2.1 ++
      ((FindRecordsForMerge records [] Mergeed).2.2.1 ++
        (FindRecordsForMerge records [] Mergeed).2.2.2)).Perm (records ++ Mergeed) :=
  FindRecordsForMergeLoop_perm _ _ _ _

theorem FindRecordsForMerge_flag (records Mergeed : List TIssueRecord) :
    (FindRecordsForMerge records [] Mergeed).1 =
      !(FindRecordsForMerge records [] Mergeed).2.2.1.isEmpty := rfl

theorem MoveLocationIds_link (main donor : TIssueRecord) :
    SameLink (MoveLocationIds main donor) main := by
  unfold MoveLocationIds
  split <;> exact ⟨rfl, rfl, rfl⟩

theorem MoveReasons_link (donorReasons : List String) (main : TIssueRecord)
    (mainReasonIds : List String) :
    (MoveReasons main mainReasonIds donorReasons).1.Tag = main.Tag ∧
    (MoveReasons main mainReasonIds donorReasons).1.IssueLog.id = main.IssueLog.id ∧
    ∀ x ∈ (MoveReasons main mainReasonIds donorReasons).1.IssueLog.reason,
      x ∈ main.IssueLog.reason ∨ x ∈ donorReasons := by
  unfold MoveReasons
  induction donorReasons generalizing main mainReasonIds with
  | nil => exact ⟨rfl, rfl, fun x hx => Or.inl hx⟩
  | cons r l ih =>
    rw [List.foldl_cons]
    dsimp only
    split
    · obtain ⟨h1, h2, h3⟩ := ih main mainReasonIds
      refine ⟨h1, h2, fun x hx => ?_⟩
      rcases h3 x hx with h | h
      · exact Or.inl h
      · exact Or.inr (List.mem_cons_of_mem _ h)
    · obtain ⟨h1, h2, h3⟩ := ih { main with IssueLog.reason := main.IssueLog.reason ++ [r] }
        (mainReasonIds ++ [r])
      refine ⟨h1, h2, fun x hx => ?_⟩
      rcases h3 x hx with h | h
      · rw [List.mem_append, List.mem_singleton] at h
        rcases h with h | h
        · exact Or.inl h
        · exact Or.inr (h ▸ List.mem_cons_self _ _)
      · exact Or.inr (List.mem_cons_of_mem _ h)

theorem foldl_MoveDataStep_link (first : TIssueRecord) (l : List TIssueRecord)
    (st : TMoveState) (known : List TIssueRecord)
    (h1 : st.main.Tag = first.Tag) (h2 : st.main.IssueLog.id = first.IssueLog.id)
    (h3 : ∀ x ∈ st.main.IssueLog.reason, ∃ s ∈ known, x ∈ s.IssueLog.reason) :
    (l.foldl MoveDataStep st).main.Tag = first.Tag ∧
    (l.foldl MoveDataStep st).main.IssueLog.id = first.IssueLog.id ∧
    ∀ x ∈ (l.foldl MoveDataStep st).main.IssueLog.reason,
      ∃ s ∈ known ++ l, x ∈ s.IssueLog.reason := by
  induction l generalizing st known with
  | nil =>
    refine ⟨h1, h2, fun x hx => ?_⟩
    rw [List.append_nil]
    exact h3 x hx
  | cons a l ih =>
    rw [List.foldl_cons]
    have key : (MoveDataStep st a).main.Tag = first.Tag ∧
        (MoveDataStep st a).main.IssueLog.id = first.IssueLog.id ∧
        ∀ x ∈ (MoveDataStep st a).main.IssueLog.reason,
          ∃ s ∈ known ++ [a], x ∈ s.IssueLog.reason := by
      unfold MoveDataStep
      split
      · refine ⟨h1, h2, fun x hx => ?_⟩
        obtain ⟨s, hs, hxs⟩ := h3 x hx
        exact ⟨s, List.mem_append_left _ hs, hxs⟩
      · dsimp only
        obtain ⟨m1, m2, m3⟩ := MoveReasons_link a.IssueLog.reason (MoveLocationIds st.main a)
          st.mainReasonIds
        obtain ⟨l1, l2, l3⟩ := MoveLocationIds_link st.main a
        refine ⟨by rw [m1, l1, h1], by rw [m2, l2, h2], fun x hx => ?_⟩
        rcases m3 x hx with h | h
        · rw [l3] at h
          obtain ⟨s, hs, hxs⟩ := h3 x h
          exact ⟨s, List.mem_append_left _ hs, hxs⟩
        · exact ⟨a, List.mem_append_right _ (List.mem_singleton_self _), h⟩
    obtain ⟨k1, k2, k3⟩ := key
    obtain ⟨i1, i2, i3⟩ := ih (MoveDataStep st a) (known ++ [a]) k1 k2 k3
    refine ⟨i1, i2, fun x hx => ?_⟩
    obtain ⟨s, hs, hxs⟩ := i3 x hx
    refine ⟨s, ?_, hxs⟩
    rw [List.append_assoc] at hs
    exact hs

theorem MoveDataInFirstRecord_recordsMap (context : TMergeIssuesContext)
    (similar : List TIssueRecord) :
    (MoveDataInFirstRecord context similar).1.recordsMap = context.recordsMap := by
  unfold MoveDataInFirstRecord
  split <;> rfl

theorem MoveDataInFirstRecord_main (context : TMergeIssuesContext) (first : TIssueRecord)
    (rest : List TIssueRecord) :
    ∃ main skipped, (MoveDataInFirstRecord context (first :: rest)).2 = main :: skipped ∧
      main.Tag = first.Tag ∧ main.IssueLog.id = first.IssueLog.id ∧
      ∀ x ∈ main.IssueLog.reason, ∃ s ∈ first :: rest, x ∈ s.IssueLog.reason := by
  unfold MoveDataInFirstRecord
  dsimp only
  obtain ⟨h1, h2, h3⟩ := foldl_MoveDataStep_link first rest
    { main := first, ids := [first.IssueLog.id], mainReasonIds := first.IssueLog.reason,
      removeIssuesIds := context.removeIssuesIds } [first] rfl rfl
    (fun x hx => ⟨first, List.mem_singleton_self _, hx⟩)
  exact ⟨_, _, rfl, h1, h2, h3⟩

theorem ReasonOwners_append (a b : List TIssueRecord) (x : String) :
    ReasonOwners (a ++ b) x = ReasonOwners a x + ReasonOwners b x :=
  List.countP_append _ _ _

theorem ReasonOwners_perm (a b : List TIssueRecord) (x : String) (h : a.Perm b) :
    ReasonOwners a x = ReasonOwners b x :=
  h.countP_eq _

theorem ReasonOwners_pos (a : List TIssueRecord) (x : String) (s : TIssueRecord)
    (hs : s ∈ a) (hx : x ∈ s.IssueLog.reason) : 0 < ReasonOwners a x :=
  List.countP_pos_iff.2 ⟨s, hs, by simpa using hx⟩

theorem ReasonOwners_singleton_le (a : List TIssueRecord) (x : String) (main : TIssueRecord)
    (h : ∀ y ∈ main.IssueLog.reason, ∃ s ∈ a, y ∈ s.IssueLog.reason) :
    ReasonOwners [main] x ≤ ReasonOwners a x := by
  unfold ReasonOwners
  rw [List.countP_singleton]
  split
  · rename_i hx
    obtain ⟨s, hs, hxs⟩ := h x (by simpa using hx)
    exact ReasonOwners_pos a x s hs hxs
  · exact Nat.zero_le _

/-- The result of the loop of MergeLevelRecords: every record left is, by tag
and id, a record given, and no id gains an owner. -/
theorem MergeLevelRecordsLoop_spec (fuel : Nat) (context : TMergeIssuesContext)
    (records handled : List TIssueRecord) :
    (MergeLevelRecordsLoop fuel context records handled).1.recordsMap = context.recordsMap ∧
    (∀ r ∈ (MergeLevelRecordsLoop fuel context records handled).2.1 ++
        (MergeLevelRecordsLoop fuel context records handled).2.2,
      ∃ r0 ∈ records ++ handled, r.Tag = r0.Tag ∧ r.IssueLog.id = r0.IssueLog.id) ∧
    ∀ x, ReasonOwners ((MergeLevelRecordsLoop fuel context records handled).2.1 ++
        (MergeLevelRecordsLoop fuel context records handled).2.2) x ≤
      ReasonOwners (records ++ handled) x := by
  induction fuel generalizing context records handled with
  | zero => exact ⟨rfl, fun r hr => ⟨r, hr, rfl, rfl⟩, fun x => Nat.le_refl _⟩
  | succ fuel ih =>
    unfold MergeLevelRecordsLoop
    split
    · exact ⟨rfl, fun r hr => ⟨r, hr, rfl, rfl⟩, fun x => Nat.le_refl _⟩
    · dsimp only
      have hperm := FindRecordsForMerge_perm records handled
      split
      · rename_i hflag
        rw [FindRecordsForMerge_flag] at hflag
        cases hsim : (FindRecordsForMerge records [] handled).2.2.1 with
        | nil => rw [hsim] at hflag; exact absurd hflag (by decide)
        | cons first rest =>
          rw [hsim] at hperm
          obtain ⟨main, skipped, hm, m1, m2, m3⟩ := MoveDataInFirstRecord_main context first rest
          rw [hm]
          obtain ⟨i1, i2, i3⟩ := ih (MoveDataInFirstRecord context (first :: rest)).1
            (FindRecordsForMerge records [] handled).2.1
            ((FindRecordsForMerge records [] handled).2.2.2 ++ (main :: skipped).take 1)
          refine ⟨by rw [i1, MoveDataInFirstRecord_recordsMap], fun r hr => ?_, fun x => ?_⟩
          · obtain ⟨r0, hr0, e1, e2⟩ := i2 r hr
            simp only [List.take_succ_cons, List.take_zero, List.mem_append,
              List.mem_singleton] at hr0
            rcases hr0 with h | h | h
            · exact ⟨r0, hperm.mem_iff.1 (List.mem_append_left _ h), e1, e2⟩
            · exact ⟨r0, hperm.mem_iff.1
                (List.mem_append_right _ (List.mem_append_right _ h)), e1, e2⟩
            · subst h
              exact ⟨first, hperm.mem_iff.1
                (List.mem_append_right _ (List.mem_append_left _ (List.mem_cons_self _ _))),
                e1.trans m1, e2.trans m2⟩
          · refine Nat.le_trans (i3 x) ?_
            rw [← ReasonOwners_perm _ _ x hperm]
            simp only [List.take_succ_cons, List.take_zero, ReasonOwners_append]
            have h4 := ReasonOwners_singleton_le (first :: rest) x main m3
            omega
      · rename_i hflag
        rw [FindRecordsForMerge_flag] at hflag
        cases hsim : (FindRecordsForMerge records [] handled).2.2.1 with
        | cons first rest => rw [hsim] at hflag; exact absurd rfl hflag
        | nil =>
          rw [hsim] at hperm
          obtain ⟨i1, i2, i3⟩ := ih context
            (FindRecordsForMerge records [] handled).2.1
            (FindRecordsForMerge records [] handled).2.2.2
          refine ⟨i1, fun r hr => ?_, fun x => ?_⟩
          · obtain ⟨r0, hr0, e1, e2⟩ := i2 r hr
            exact ⟨r0, hperm.mem_iff.1 (by simpa using hr0), e1, e2⟩
          · refine Nat.le_trans (i3 x) ?_
            rw [← ReasonOwners_perm _ _ x hperm]
            simp [ReasonOwners_append]

theorem MergeLevelRecords_spec (context : TMergeIssuesContext) (records : List TIssueRecord) :
    (MergeLevelRecords context records).1.recordsMap = context.recordsMap ∧
    (∀ r ∈ (MergeLevelRecords context records).2,
      ∃ r0 ∈ records, r.Tag = r0.Tag ∧ r.IssueLog.id = r0.IssueLog.id) ∧
    ∀ x, ReasonOwners (MergeLevelRecords context records).2 x ≤ ReasonOwners records x := by
  obtain ⟨h1, h2, h3⟩ := MergeLevelRecordsLoop_spec records.length context records []
  unfold MergeLevelRecords
  dsimp only
  refine ⟨h1, fun r hr => ?_, fun x => ?_⟩
  · obtain ⟨r0, hr0, e⟩ := h2 r hr
    rw [List.append_nil] at hr0
    exact ⟨r0, hr0, e⟩
  · have := h3 x
    rw [List.append_nil] at this
    exact this

/-! ### The merging stages on the records map -/

theorem FindChildrenRecords_perm (records : List TIssueRecord) (parent : TIssueRecord) :
    ((FindChildrenRecords records parent).1 ++ (FindChildrenRecords records parent).2).Perm
      records :=
  List.filter_append_perm _ _

theorem GetRecords_congr (c d : TMergeIssuesContext) (h : c.recordsMap = d.recordsMap)
    (tag : ETags) : c.GetRecords tag = d.GetRecords tag := by
  unfold TMergeIssuesContext.GetRecords
  rw [h]

theorem MergeLevelRecordsTag_spec (context : TMergeIssuesContext) (levelTag : ETags)
    (h : TagInv context.recordsMap) :
    TagInv (MergeLevelRecordsTag context levelTag).recordsMap ∧
    (∀ other, other ≠ levelTag →
      (MergeLevelRecordsTag context levelTag).GetRecords other = context.GetRecords other) ∧
    ∀ x, ReasonOwners ((MergeLevelRecordsTag context levelTag).GetRecords levelTag) x ≤
      ReasonOwners (context.GetRecords levelTag) x := by
  obtain ⟨h1, h2, h3⟩ := MergeLevelRecords_spec context (context.GetRecords levelTag)
  unfold MergeLevelRecordsTag
  dsimp only
  have hm : TagInv (MergeLevelRecords context (context.GetRecords levelTag)).1.recordsMap := by
    rw [h1]; exact h
  refine ⟨TagInv_SetRecords _ _ _ hm ?_, fun other ho => ?_, fun x => ?_⟩
  · intro r hr
    obtain ⟨r0, hr0, e, _⟩ := h2 r hr
    rw [e]
    exact TagInv_GetRecords context levelTag h r0 hr0
  · rw [GetRecords_SetRecords_ne _ _ _ _ ho]
    exact GetRecords_congr _ _ h1 other
  · rw [GetRecords_SetRecords_same]
    exact h3 x

/-- The fold of MergeLevelRecords over the records of the upper tag. -/
theorem MergeLevelRecordsUpper_fold (upperRecords : List TIssueRecord)
    (context : TMergeIssuesContext) (levelRecords : List TIssueRecord) :
    (upperRecords.foldl
      (fun (acc : TMergeIssuesContext × List TIssueRecord) it =>
        ((if (FindChildrenRecords acc.2 it).1.length > 1
            then MergeLevelRecords acc.1 (FindChildrenRecords acc.2 it).1
            else (acc.1, (FindChildrenRecords acc.2 it).1)).1,
          (FindChildrenRecords acc.2 it).2 ++
            (if (FindChildrenRecords acc.2 it).1.length > 1
              then MergeLevelRecords acc.1 (FindChildrenRecords acc.2 it).1
              else (acc.1, (FindChildrenRecords acc.2 it).1)).2))
      (context, levelRecords)).1.recordsMap = context.recordsMap ∧
    (∀ r ∈ (upperRecords.foldl
      (fun (acc : TMergeIssuesContext × List TIssueRecord) it =>
        ((if (FindChildrenRecords acc.2 it).1.length > 1
            then MergeLevelRecords acc.1 (FindChildrenRecords acc.2 it).1
            else (acc.1, (FindChildrenRecords acc.2 it).1)).1,
          (FindChildrenRecords acc.2 it).2 ++
            (if (FindChildrenRecords acc.2 it).1.length > 1
              then MergeLevelRecords acc.1 (FindChildrenRecords acc.2 it).1
              else (acc.1, (FindChildrenRecords acc.2 it).1)).2))
      (context, levelRecords)).2,
      ∃ r0 ∈ levelRecords, r.Tag = r0.Tag ∧ r.IssueLog.id = r0.IssueLog.id) ∧
    ∀ x, ReasonOwners (upperRecords.foldl
      (fun (acc : TMergeIssuesContext × List TIssueRecord) it =>
        ((if (FindChildrenRecords acc.2 it).1.length > 1
            then MergeLevelRecords acc.1 (FindChildrenRecords acc.2 it).1
            else (acc.1, (FindChildrenRecords acc.2 it).1)).1,
          (FindChildrenRecords acc.2 it).2 ++
            (if (FindChildrenRecords acc.2 it).1.length > 1
              then MergeLevelRecords acc.1 (FindChildrenRecords acc.2 it).1
              else (acc.1, (FindChildrenRecords acc.2 it).1)).2))
      (context, levelRecords)).2 x ≤ ReasonOwners levelRecords x := by
  induction upperRecords generalizing context levelRecords with
  | nil => exact ⟨rfl, fun r hr => ⟨r, hr, rfl, rfl⟩, fun x => Nat.le_refl _⟩
  | cons u us ih =>
    rw [List.foldl_cons]
    have hperm := FindChildrenRecords_perm levelRecords u
    have key : ∀ merged : TMergeIssuesContext × List TIssueRecord,
        merged.1.recordsMap = context.recordsMap →
        (∀ r ∈ merged.2, ∃ r0 ∈ (FindChildrenRecords levelRecords u).1,
          r.Tag = r0.Tag ∧ r.IssueLog.id = r0.IssueLog.id) →
        (∀ x, ReasonOwners merged.2 x ≤ ReasonOwners (FindChildrenRecords levelRecords u).1 x) →
        (us.foldl
          (fun (acc : TMergeIssuesContext × List TIssueRecord) it =>
            ((if (FindChildrenRecords acc.2 it).1.length > 1
                then MergeLevelRecords acc.1 (FindChildrenRecords acc.2 it).1
                else (acc.1, (FindChildrenRecords acc.2 it).1)).1,
              (FindChildrenRecords acc.2 it).2 ++
                (if (FindChildrenRecords acc.2 it).1.length > 1
                  then MergeLevelRecords acc.1 (FindChildrenRecords acc.2 it).1
                  else (acc.1, (FindChildrenRecords acc.2 it).1)).2))
          (merged.1, (FindChildrenRecords levelRecords u).2 ++ merged.2)).1.recordsMap =
            context.recordsMap ∧
        (∀ r ∈ (us.foldl
          (fun (acc : TMergeIssuesContext × List TIssueRecord) it =>
            ((if (FindChildrenRecords acc.2 it).1.length > 1
                then MergeLevelRecords acc.1 (FindChildrenRecords acc.2 it).1
                else (acc.1, (FindChildrenRecords acc.2 it).1)).1,
              (FindChildrenRecords acc.2 it).2 ++
                (if (FindChildrenRecords acc.2 it).1.length > 1
                  then MergeLevelRecords acc.1 (FindChildrenRecords acc.2 it).1
                  else (acc.1, (FindChildrenRecords acc.2 it).1)).2))
          (merged.1, (FindChildrenRecords levelRecords u).2 ++ merged.2)).2,
          ∃ r0 ∈ levelRecords, r.Tag = r0.Tag ∧ r.IssueLog.id = r0.IssueLog.id) ∧
        ∀ x, ReasonOwners (us.foldl
          (fun (acc : TMergeIssuesContext × List TIssueRecord) it =>
            ((if (FindChildrenRecords acc.2 it).1.length > 1
                then MergeLevelRecords acc.1 (FindChildrenRecords acc.2 it).1
                else (acc.1, (FindChildrenRecords acc.2 it).1)).1,
              (FindChildrenRecords acc.2 it).2 ++
                (if (FindChildrenRecords acc.2 it).1.length > 1
                  then MergeLevelRecords acc.1 (FindChildrenRecords acc.2 it).1
                  else (acc.1, (FindChildrenRecords acc.2 it).1)).2))
          (merged.1, (FindChildrenRecords levelRecords u).2 ++ merged.2)).2 x ≤
            ReasonOwners levelRecords x := by
      intro merged m1 m2 m3
      obtain ⟨i1, i2, i3⟩ := ih merged.1 ((FindChildrenRecords levelRecords u).2 ++ merged.2)
      refine ⟨i1.trans m1, fun r hr => ?_, fun x => ?_⟩
      · obtain ⟨r0, hr0, e1, e2⟩ := i2 r hr
        rw [List.mem_append] at hr0
        rcases hr0 with h | h
        · exact ⟨r0, hperm.mem_iff.1 (List.mem_append_right _ h), e1, e2⟩
        · obtain ⟨r1, hr1, f1, f2⟩ := m2 r0 h
          exact ⟨r1, hperm.mem_iff.1 (List.mem_append_left _ hr1), e1.trans f1, e2.trans f2⟩
      · refine Nat.le_trans (i3 x) ?_
        rw [← ReasonOwners_perm _ _ x hperm, ReasonOwners_append, ReasonOwners_append]
        have := m3 x
        omega
    dsimp only
    split
    · obtain ⟨s1, s2, s3⟩ := MergeLevelRecords_spec context (FindChildrenRecords levelRecords u).1
      exact key _ s1 s2 s3
    · exact key (context, (FindChildrenRecords levelRecords u).1) rfl
        (fun r hr => ⟨r, hr, rfl, rfl⟩) (fun x => Nat.le_refl _)

theorem MergeLevelRecordsUpper_spec (context : TMergeIssuesContext) (levelTag upperTag : ETags)
    (hne : upperTag ≠ levelTag) (h : TagInv context.recordsMap) :
    TagInv (MergeLevelRecordsUpper context levelTag upperTag).recordsMap ∧
    (∀ other, other ≠ levelTag →
      (MergeLevelRecordsUpper context levelTag upperTag).GetRecords other =
        context.GetRecords other) ∧
    ∀ x, ReasonOwners ((MergeLevelRecordsUpper context levelTag upperTag).GetRecords levelTag) x ≤
      ReasonOwners (context.GetRecords levelTag) x := by
  have hl : ∀ r ∈ context.GetRecords levelTag, r.Tag = levelTag :=
    TagInv_GetRecords context levelTag h
  have hc1 : TagInv (context.SetRecords levelTag (context.GetRecords levelTag)).recordsMap :=
    TagInv_SetRecords _ _ _ h hl
  have hu : (context.SetRecords levelTag (context.GetRecords levelTag)).GetRecords upperTag =
      context.GetRecords upperTag := GetRecords_SetRecords_ne _ _ _ _ hne
  have hc2 : TagInv ((context.SetRecords levelTag (context.GetRecords levelTag)).SetRecords
      upperTag (context.GetRecords upperTag)).recordsMap :=
    TagInv_SetRecords _ _ _ hc1 (TagInv_GetRecords context upperTag h)
  obtain ⟨f1, f2, f3⟩ := MergeLevelRecordsUpper_fold (context.GetRecords upperTag)
    ((context.SetRecords levelTag (context.GetRecords levelTag)).SetRecords
      upperTag (context.GetRecords upperTag)) (context.GetRecords levelTag)
  unfold MergeLevelRecordsUpper
  dsimp only
  rw [hu]
  refine ⟨TagInv_SetRecords _ _ _ (by rw [f1]; exact hc2) ?_, fun other ho => ?_, fun x => ?_⟩
  · intro r hr
    obtain ⟨r0, hr0, e, _⟩ := f2 r hr
    rw [e]
    exact hl r0 hr0
  · rw [GetRecords_SetRecords_ne _ _ _ _ ho, GetRecords_congr _ _ f1 other]
    by_cases hou : other = upperTag
    · subst hou
      rw [GetRecords_SetRecords_same]
    · rw [GetRecords_SetRecords_ne _ _ _ _ hou, GetRecords_SetRecords_ne _ _ _ _ ho]
  · rw [GetRecords_SetRecords_same]
    exact f3 x

/-! ### The cut above the limit -/

theorem SameLink.refl (a : TIssueRecord) : SameLink a a := ⟨rfl, rfl, rfl⟩

theorem SameLink.trans {a b c : TIssueRecord} (h1 : SameLink a b) (h2 : SameLink b c) :
    SameLink a c :=
  ⟨h1.1.trans h2.1, h1.2.1.trans h2.2.1, h1.2.2.trans h2.2.2⟩

theorem SetIssueCount_link (record : TIssueRecord) (value : Int) :
    SameLink (SetIssueCount record value) record := by
  unfold SetIssueCount
  dsimp only
  split <;> exact ⟨rfl, rfl, rfl⟩

theorem SetIssueListed_link (record : TIssueRecord) (value : Int) :
    SameLink (SetIssueListed record value) record := by
  unfold SetIssueListed
  dsimp only
  split <;> exact ⟨rfl, rfl, rfl⟩

theorem RemoveLocationIds_link (record : TIssueRecord) (aboveLimit : Int) :
    SameLink (RemoveLocationIds record aboveLimit) record := by
  unfold RemoveLocationIds
  split <;> exact ⟨rfl, rfl, rfl⟩

/-! ### The `int` arithmetic of the cut -/

theorem ToInt32_of_lt (n : Nat) (h : n < 2147483648) : ToInt32 n = (n : Int) := by
  unfold ToInt32
  have e : n % 4294967296 = n := Nat.mod_eq_of_lt (by omega)
  rw [e, if_pos h]

theorem ToInt32_range (n : Nat) : -2147483648 ≤ ToInt32 n ∧ ToInt32 n < 2147483648 := by
  unfold ToInt32
  split <;> omega

theorem ToUInt32_lt (i : Int) : ToUInt32 i < 4294967296 := by
  unfold ToUInt32
  omega

theorem ToUInt32_of_range (i : Int) (h0 : 0 ≤ i) (h1 : i < 4294967296) :
    ToUInt32 i = i.toNat := by
  unfold ToUInt32
  rw [Int.emod_eq_of_lt h0 h1]

theorem ToUInt32_ToInt32 (n : Nat) (h : n < 4294967296) : ToUInt32 (ToInt32 n) = n := by
  unfold ToUInt32 ToInt32
  split <;> omega

theorem WrapInt32_of_range (i : Int) (h0 : -2147483648 ≤ i) (h1 : i < 2147483648) :
    WrapInt32 i = i := by
  unfold WrapInt32 ToInt32 ToUInt32
  split <;> omega

theorem WrapInt32_range (i : Int) : -2147483648 ≤ WrapInt32 i ∧ WrapInt32 i < 2147483648 :=
  ToInt32_range _

theorem ToUInt32_WrapInt32 (i : Int) : ToUInt32 (WrapInt32 i) = ToUInt32 i := by
  unfold WrapInt32
  rw [ToUInt32_ToInt32 _ (ToUInt32_lt i)]

theorem ListedValue_pos (r : TIssueRecord) : 0 < ListedValue r := by
  unfold ListedValue
  split <;> omega

theorem GetIssueListed_eq (r : TIssueRecord) (h : ListedValue r < 2147483648) :
    GetIssueListed r = (ListedValue r : Int) :=
  ToInt32_of_lt _ h

theorem GetIssueListed_range (r : TIssueRecord) :
    -2147483648 ≤ GetIssueListed r ∧ GetIssueListed r < 2147483648 :=
  ToInt32_range _

theorem ListedValue_SetIssueCount (record : TIssueRecord) (value : Int) :
    ListedValue (SetIssueCount record value) = ListedValue record := by
  unfold SetIssueCount ListedValue
  dsimp only
  by_cases h : record.IssueLog.listed = 0
  · simp [h]
  · simp [h]

theorem GetIssueListed_SetIssueCount (record : TIssueRecord) (value : Int) :
    GetIssueListed (SetIssueCount record value) = GetIssueListed record :=
  congrArg ToInt32 (ListedValue_SetIssueCount record value)

theorem ListedValue_SetIssueListed (record : TIssueRecord) (value : Int) :
    ListedValue (SetIssueListed record value) =
      if ToUInt32 value = 0 then 1 else ToUInt32 value := by
  unfold SetIssueListed ListedValue
  dsimp only

theorem GetIssueListed_SetIssueListed (record : TIssueRecord) (value : Int) :
    GetIssueListed (SetIssueListed record value) =
      ToInt32 (if ToUInt32 value = 0 then 1 else ToUInt32 value) :=
  congrArg ToInt32 (ListedValue_SetIssueListed record value)

theorem ListedValue_RemoveLocationIds (record : TIssueRecord) (aboveLimit : Int) :
    ListedValue (RemoveLocationIds record aboveLimit) = ListedValue record := by
  unfold RemoveLocationIds
  split <;> rfl

theorem GetIssueListed_RemoveLocationIds (record : TIssueRecord) (aboveLimit : Int) :
    GetIssueListed (RemoveLocationIds record aboveLimit) = GetIssueListed record :=
  congrArg ToInt32 (ListedValue_RemoveLocationIds record aboveLimit)

theorem ListedSum_nil : ListedSum [] = 0 := rfl

theorem ListedSum_append (a b : List TIssueRecord) :
    ListedSum (a ++ b) = ListedSum a + ListedSum b := by
  unfold ListedSum
  rw [List.map_append, List.sum_append]

theorem ListedSum_cons (a : TIssueRecord) (l : List TIssueRecord) :
    ListedSum (a :: l) = ListedValue a + ListedSum l := by
  unfold ListedSum
  rw [List.map_cons, List.sum_cons]

theorem ListedSum_singleton (a : TIssueRecord) : ListedSum [a] = ListedValue a := by
  rw [ListedSum_cons, ListedSum_nil, Nat.add_zero]

theorem ListedSum_ModifyLast (f : TIssueRecord → TIssueRecord)
    (hf : ∀ r, ListedValue (f r) = ListedValue r) (l : List TIssueRecord) :
    ListedSum (ModifyLast f l) = ListedSum l := by
  induction l with
  | nil => rfl
  | cons a l ih =>
    cases l with
    | nil =>
      unfold ModifyLast
      rw [ListedSum_singleton, ListedSum_singleton, hf]
    | cons b l =>
      unfold ModifyLast
      rw [ListedSum_cons, ih, ListedSum_cons a (b :: l)]

theorem ListedValue_le_ListedSum (l : List TIssueRecord) (r : TIssueRecord) (h : r ∈ l) :
    ListedValue r ≤ ListedSum l := by
  induction l with
  | nil => cases h
  | cons a l ih =>
    rw [ListedSum_cons]
    rcases List.mem_cons.1 h with e | e
    · rw [e]
      exact Nat.le_add_right _ _
    · exact Nat.le_trans (ih e) (Nat.le_add_left _ _)

theorem length_le_ListedSum (l : List TIssueRecord) : l.length ≤ ListedSum l := by
  induction l with
  | nil => exact Nat.le_refl _
  | cons a l ih =>
    rw [ListedSum_cons, List.length_cons]
    have := ListedValue_pos a
    omega

theorem mem_ModifyLast (f : TIssueRecord → TIssueRecord) (l : List TIssueRecord)
    (r : TIssueRecord) (h : r ∈ ModifyLast f l) : ∃ a ∈ l, r = a ∨ r = f a := by
  induction l with
  | nil => cases h
  | cons a l ih =>
    cases l with
    | nil =>
      unfold ModifyLast at h
      rw [List.mem_singleton] at h
      exact ⟨a, List.mem_singleton_self _, Or.inr h⟩
    | cons b l =>
      unfold ModifyLast at h
      rw [List.mem_cons] at h
      rcases h with h | h
      · exact ⟨a, List.mem_cons_self _ _, Or.inl h⟩
      · obtain ⟨c, hc, e⟩ := ih h
        exact ⟨c, List.mem_cons_of_mem _ hc, e⟩

/-- Every record an iteration of the loop keeps is a record kept before or
the record of the iteration, up to count, listed and location ids. -/
theorem RemoveRecordsAboveLimitStep_link (st : TLimitState) (it : TIssueRecord) :
    ∀ k ∈ (RemoveRecordsAboveLimitStep st it).kept, ∃ r ∈ st.kept ++ [it], SameLink k r := by
  unfold RemoveRecordsAboveLimitStep
  split
  · dsimp only
    intro k hk
    obtain ⟨a, ha, e⟩ := mem_ModifyLast _ _ _ hk
    refine ⟨a, List.mem_append_left _ ha, ?_⟩
    rcases e with e | e
    · rw [e]; exact SameLink.refl _
    · rw [e]; exact SetIssueCount_link _ _
  · split
    · dsimp only
      intro k hk
      rw [List.mem_append, List.mem_singleton] at hk
      rcases hk with hk | hk
      · exact ⟨k, List.mem_append_left _ hk, SameLink.refl _⟩
      · refine ⟨it, List.mem_append_right _ (List.mem_singleton_self _), ?_⟩
        rw [hk]
        exact (RemoveLocationIds_link _ _).trans (SetIssueListed_link _ _)
    · dsimp only
      exact fun k hk => ⟨k, hk, SameLink.refl _⟩

/-- An iteration of the loop, when `commonListed` is the sum of the listed
values of the records kept and at most 10, and the sum with the listed value
of the record is in the range of `int`: the sum of the listed values of the
records kept is again `commonListed`, at most 10. -/
theorem RemoveRecordsAboveLimitStep_spec (st : TLimitState) (it : TIssueRecord)
    (h1 : (ListedSum st.kept : Int) = st.commonListed)
    (h2 : st.commonListed ≤ (MERGER_ISSUE_LIMIT : Int))
    (h3 : st.commonListed ≠ (MERGER_ISSUE_LIMIT : Int) →
      ListedSum st.kept + ListedValue it ≤ 2147483647) :
    (ListedSum (RemoveRecordsAboveLimitStep st it).kept : Int) =
      (RemoveRecordsAboveLimitStep st it).commonListed ∧
    (RemoveRecordsAboveLimitStep st it).commonListed ≤ (MERGER_ISSUE_LIMIT : Int) ∧
    ((RemoveRecordsAboveLimitStep st it).commonListed ≠ (MERGER_ISSUE_LIMIT : Int) →
      (RemoveRecordsAboveLimitStep st it).kept = st.kept ++ [it]) := by
  have hp := ListedValue_pos it
  unfold MERGER_ISSUE_LIMIT at h2 h3 ⊢
  unfold RemoveRecordsAboveLimitStep MERGER_ISSUE_LIMIT
  simp only [Nat.cast_ofNat] at h2 h3 ⊢
  have h0 : (0 : Int) ≤ st.commonListed := by rw [← h1]; exact Int.ofNat_nonneg _
  split
  · rename_i h10
    dsimp only
    refine ⟨?_, h2, fun hne => absurd h10 hne⟩
    rw [ListedSum_ModifyLast _ (fun r => ListedValue_SetIssueCount r _), h1]
  · rename_i hne
    have h4 := h3 hne
    have hl := GetIssueListed_eq it (by omega)
    have hw : WrapInt32 (st.commonListed + GetIssueListed it) =
        st.commonListed + GetIssueListed it :=
      WrapInt32_of_range _ (by omega) (by omega)
    rw [hw]
    split
    · rename_i hgt
      dsimp only
      have hw2 : WrapInt32 (st.commonListed + GetIssueListed it - 10) =
          st.commonListed + GetIssueListed it - 10 :=
        WrapInt32_of_range _ (by omega) (by omega)
      rw [hw2]
      have hw3 : WrapInt32 (GetIssueListed it - (st.commonListed + GetIssueListed it - 10)) =
          10 - st.commonListed := by
        rw [WrapInt32_of_range _ (by omega) (by omega)]
        omega
      rw [hw3]
      refine ⟨?_, Int.le_refl _, fun h => absurd rfl h⟩
      rw [ListedSum_append, ListedSum_singleton, ListedValue_RemoveLocationIds,
        ListedValue_SetIssueListed, ToUInt32_of_range _ (by omega) (by omega)]
      split <;> omega
    · rename_i hle
      dsimp only
      refine ⟨?_, by omega, fun _ => rfl⟩
      rw [ListedSum_append, ListedSum_singleton]
      omega

theorem foldl_RemoveRecordsAboveLimitStep_link (l : List TIssueRecord) (st : TLimitState) :
    ∀ k ∈ (l.foldl RemoveRecordsAboveLimitStep st).kept, ∃ r ∈ st.kept ++ l, SameLink k r := by
  induction l generalizing st with
  | nil =>
    intro k hk
    refine ⟨k, ?_, SameLink.refl _⟩
    rw [List.append_nil]
    exact hk
  | cons a l ih =>
    rw [List.foldl_cons]
    intro k hk
    obtain ⟨r, hr, e⟩ := ih _ k hk
    rw [List.mem_append] at hr
    rcases hr with hr | hr
    · obtain ⟨r0, hr0, e0⟩ := RemoveRecordsAboveLimitStep_link st a r hr
      refine ⟨r0, ?_, e.trans e0⟩
      rw [List.mem_append, List.mem_singleton] at hr0
      rcases hr0 with h | h
      · exact List.mem_append_left _ h
      · exact List.mem_append_right _ (h ▸ List.mem_cons_self _ _)
    · exact ⟨r, List.mem_append_right _ (List.mem_cons_of_mem _ hr), e⟩

theorem foldl_RemoveRecordsAboveLimitStep_spec (l : List TIssueRecord) (st : TLimitState)
    (h1 : (ListedSum st.kept : Int) = st.commonListed)
    (h2 : st.commonListed ≤ (MERGER_ISSUE_LIMIT : Int))
    (h3 : st.commonListed ≠ (MERGER_ISSUE_LIMIT : Int) →
      ListedSum st.kept + ListedSum l ≤ 2147483647) :
    ListedSum (l.foldl RemoveRecordsAboveLimitStep st).kept ≤ MERGER_ISSUE_LIMIT := by
  induction l generalizing st with
  | nil =>
    rw [List.foldl_nil]
    have : (ListedSum st.kept : Int) ≤ (MERGER_ISSUE_LIMIT : Int) := by rw [h1]; exact h2
    exact Int.ofNat_le.1 this
  | cons a l ih =>
    rw [List.foldl_cons]
    obtain ⟨s1, s2, s3⟩ := RemoveRecordsAboveLimitStep_spec st a h1 h2 (fun hne => by
      have := h3 hne
      rw [ListedSum_cons] at this
      omega)
    refine ih _ s1 s2 (fun hne => ?_)
    have hne0 : st.commonListed ≠ (MERGER_ISSUE_LIMIT : Int) := by
      intro e
      apply hne
      unfold RemoveRecordsAboveLimitStep
      rw [if_pos e]
      exact e
    have := h3 hne0
    rw [ListedSum_cons] at this
    rw [s3 hne, ListedSum_append, ListedSum_singleton]
    omega

/-- RemoveRecordsAboveLimit leaves records each of which is a record given
up to count, listed and location ids; their listed values sum up to at most
10 when the listed values given sum up to at most 2^31 - 1, so that the `int`
sums of the loop are the sums of the values. -/
theorem RemoveRecordsAboveLimit_spec (context : TMergeIssuesContext)
    (records : List TIssueRecord) :
    (RemoveRecordsAboveLimit context records).1.recordsMap = context.recordsMap ∧
    (ListedSum records ≤ 2147483647 →
      ListedSum (RemoveRecordsAboveLimit context records).2 ≤ MERGER_ISSUE_LIMIT) ∧
    ∀ k ∈ (RemoveRecordsAboveLimit context records).2, ∃ r ∈ records, SameLink k r := by
  have h2 := foldl_RemoveRecordsAboveLimitStep_link records
    { removeIssuesIds := context.removeIssuesIds }
  unfold RemoveRecordsAboveLimit
  dsimp only
  refine ⟨rfl, fun h3 => foldl_RemoveRecordsAboveLimitStep_spec records
    { removeIssuesIds := context.removeIssuesIds } rfl (Int.ofNat_nonneg _)
    (fun _ => by rw [ListedSum_nil, Nat.zero_add]; exact h3), fun k hk => ?_⟩
  obtain ⟨r, hr, e⟩ := h2 k hk
  exact ⟨r, by simpa using hr, e⟩

theorem RemoveRecordsAboveLimitTag_spec (context : TMergeIssuesContext) (levelTag : ETags)
    (h : TagInv context.recordsMap) :
    TagInv (RemoveRecordsAboveLimitTag context levelTag).recordsMap ∧
    (∀ other, other ≠ levelTag →
      (RemoveRecordsAboveLimitTag context levelTag).GetRecords other =
        context.GetRecords other) ∧
    (ListedSum (context.GetRecords levelTag) ≤ 2147483647 →
      ListedSum ((RemoveRecordsAboveLimitTag context levelTag).GetRecords levelTag) ≤
        MERGER_ISSUE_LIMIT) ∧
    ∀ k ∈ (RemoveRecordsAboveLimitTag context levelTag).GetRecords levelTag,
      ∃ r ∈ context.GetRecords levelTag, SameLink k r := by
  have hl : ∀ r ∈ context.GetRecords levelTag, r.Tag = levelTag :=
    TagInv_GetRecords context levelTag h
  have hc1 : TagInv (context.SetRecords levelTag (context.GetRecords levelTag)).recordsMap :=
    TagInv_SetRecords _ _ _ h hl
  obtain ⟨f1, f2, f3⟩ := RemoveRecordsAboveLimit_spec
    (context.SetRecords levelTag (context.GetRecords levelTag)) (context.GetRecords levelTag)
  unfold RemoveRecordsAboveLimitTag
  dsimp only
  split
  · refine ⟨TagInv_SetRecords _ _ _ (by rw [f1]; exact hc1) ?_, fun other ho => ?_, ?_, ?_⟩
    · intro r hr
      obtain ⟨r0, hr0, e, _⟩ := f3 r hr
      rw [e]
      exact hl r0 hr0
    · rw [GetRecords_SetRecords_ne _ _ _ _ ho, GetRecords_congr _ _ f1 other,
        GetRecords_SetRecords_ne _ _ _ _ ho]
    · rw [GetRecords_SetRecords_same]
      exact f2
    · rw [GetRecords_SetRecords_same]
      exact f3
  · rename_i hlen
    have he : context.GetRecords levelTag = [] :=
      List.length_eq_zero.1 (Nat.eq_zero_of_not_pos hlen)
    refine ⟨hc1, fun other ho => GetRecords_SetRecords_ne _ _ _ _ ho, ?_, ?_⟩
    · intro _
      rw [GetRecords_SetRecords_same, he]
      exact Nat.zero_le _
    · rw [GetRecords_SetRecords_same]
      exact fun k hk => ⟨k, hk, SameLink.refl _⟩

/-! ### The listed values through the merging stages -/

theorem ListedSum_perm (a b : List TIssueRecord) (h : a.Perm b) : ListedSum a = ListedSum b :=
  (h.map ListedValue).sum_eq

theorem foldl_MoveDataStep_ids (l : List TIssueRecord) (st : TMoveState) :
    (l.foldl MoveDataStep st).ids.length ≤ st.ids.length + l.length := by
  induction l generalizing st with
  | nil => exact Nat.le_refl _
  | cons a l ih =>
    rw [List.foldl_cons, List.length_cons]
    refine Nat.le_trans (ih _) ?_
    unfold MoveDataStep
    split
    · dsimp only
      omega
    · dsimp only
      rw [List.length_append, List.length_singleton]
      omega

/-- The record MoveDataInFirstRecord fills has a listed value of at most the
number of the records of the class. -/
theorem MoveDataInFirstRecord_listed (context : TMergeIssuesContext) (first : TIssueRecord)
    (rest : List TIssueRecord) :
    ListedSum ((MoveDataInFirstRecord context (first :: rest)).2.take 1) ≤ rest.length + 1 := by
  unfold MoveDataInFirstRecord
  dsimp only
  rw [List.take_succ_cons, List.take_zero, ListedSum_singleton]
  have h := foldl_MoveDataStep_ids rest
    { main := first, ids := [first.IssueLog.id], mainReasonIds := first.IssueLog.reason,
      removeIssuesIds := context.removeIssuesIds }
  rw [List.length_singleton] at h
  unfold ListedValue
  dsimp only
  split <;> omega

/-- The loop of MergeLevelRecords does not raise the sum of the listed
values. -/
theorem MergeLevelRecordsLoop_listed (fuel : Nat) (context : TMergeIssuesContext)
    (records handled : List TIssueRecord) :
    ListedSum ((MergeLevelRecordsLoop fuel context records handled).2.1 ++
        (MergeLevelRecordsLoop fuel context records handled).2.2) ≤
      ListedSum (records ++ handled) := by
  induction fuel generalizing context records handled with
  | zero => exact Nat.le_refl _
  | succ fuel ih =>
    unfold MergeLevelRecordsLoop
    split
    · exact Nat.le_refl _
    · dsimp only
      have hperm := FindRecordsForMerge_perm records handled
      split
      · rename_i hflag
        rw [FindRecordsForMerge_flag] at hflag
        cases hsim : (FindRecordsForMerge records [] handled).2.2.1 with
        | nil => rw [hsim] at hflag; exact absurd hflag (by decide)
        | cons first rest =>
          rw [hsim] at hperm
          refine Nat.le_trans (ih _ _ _) ?_
          rw [← ListedSum_perm _ _ hperm]
          simp only [ListedSum_append]
          have h1 := MoveDataInFirstRecord_listed context first rest
          have h2 := length_le_ListedSum (first :: rest)
          rw [List.length_cons] at h2
          omega
      · rename_i hflag
        rw [FindRecordsForMerge_flag] at hflag
        cases hsim : (FindRecordsForMerge records [] handled).2.2.1 with
        | cons first rest => rw [hsim] at hflag; exact absurd rfl hflag
        | nil =>
          rw [hsim] at hperm
          refine Nat.le_trans (ih _ _ _) ?_
          rw [← ListedSum_perm _ _ hperm]
          simp [ListedSum_append]

theorem MergeLevelRecords_listed (context : TMergeIssuesContext) (records : List TIssueRecord) :
    ListedSum (MergeLevelRecords context records).2 ≤ ListedSum records := by
  have h := MergeLevelRecordsLoop_listed records.length context records []
  unfold MergeLevelRecords
  dsimp only
  rw [List.append_nil] at h
  exact h

theorem MergeLevelRecordsTag_listed (context : TMergeIssuesContext) (levelTag : ETags) :
    ListedSum ((MergeLevelRecordsTag context levelTag).GetRecords levelTag) ≤
      ListedSum (context.GetRecords levelTag) := by
  unfold MergeLevelRecordsTag
  dsimp only
  rw [GetRecords_SetRecords_same]
  exact MergeLevelRecords_listed _ _

theorem MergeLevelRecordsUpper_fold_listed (upperRecords : List TIssueRecord)
    (context : TMergeIssuesContext) (levelRecords : List TIssueRecord) :
    ListedSum (upperRecords.foldl
      (fun (acc : TMergeIssuesContext × List TIssueRecord) it =>
        ((if (FindChildrenRecords acc.2 it).1.length > 1
            then MergeLevelRecords acc.1 (FindChildrenRecords acc.2 it).1
            else (acc.1, (FindChildrenRecords acc.2 it).1)).1,
          (FindChildrenRecords acc.2 it).2 ++
            (if (FindChildrenRecords acc.2 it).1.length > 1
              then MergeLevelRecords acc.1 (FindChildrenRecords acc.2 it).1
              else (acc.1, (FindChildrenRecords acc.2 it).1)).2))
      (context, levelRecords)).2 ≤ ListedSum levelRecords := by
  induction upperRecords generalizing context levelRecords with
  | nil => exact Nat.le_refl _
  | cons u us ih =>
    rw [List.foldl_cons]
    have hperm := FindChildrenRecords_perm levelRecords u
    refine Nat.le_trans (ih _ _) ?_
    dsimp only
    rw [← ListedSum_perm _ _ hperm, ListedSum_append, ListedSum_append]
    split
    · have := MergeLevelRecords_listed context (FindChildrenRecords levelRecords u).1
      omega
    · exact Nat.le_of_eq (Nat.add_comm _ _)

theorem MergeLevelRecordsUpper_listed (context : TMergeIssuesContext)
    (levelTag upperTag : ETags) :
    ListedSum ((MergeLevelRecordsUpper context levelTag upperTag).GetRecords levelTag) ≤
      ListedSum (context.GetRecords levelTag) := by
  unfold MergeLevelRecordsUpper
  dsimp only
  rw [GetRecords_SetRecords_same]
  exact MergeLevelRecordsUpper_fold_listed _ _ _

theorem ListedSum_filter_le (p : TIssueRecord → Bool) (l : List TIssueRecord) :
    ListedSum (l.filter p) ≤ ListedSum l := by
  induction l with
  | nil => exact Nat.le_refl _
  | cons a l ih =>
    rw [List.filter_cons]
    split
    · rw [ListedSum_cons, ListedSum_cons]; omega
    · rw [ListedSum_cons]; omega

/-- The listed values of the records the merging stages leave under a tag sum
up to at most the sum of the listed values of the records given. -/
theorem MergeStages_listed (L : List TIssueRecord) (tag : ETags) :
    ListedSum ((MergeLevelRecordsUpper
      (MergeLevelRecordsUpper (MergeLevelRecordsTag (TMergeIssuesContext.ctor L)
        ETags.GroupState) ETags.VDiskState ETags.GroupState)
      ETags.PDiskState ETags.VDiskState).GetRecords tag) ≤ ListedSum L := by
  have t0 := ctor_TagInv L
  obtain ⟨t1, f1, _⟩ := MergeLevelRecordsTag_spec (TMergeIssuesContext.ctor L)
    ETags.GroupState t0
  obtain ⟨t2, f2, _⟩ := MergeLevelRecordsUpper_spec
    (MergeLevelRecordsTag (TMergeIssuesContext.ctor L) ETags.GroupState)
    ETags.VDiskState ETags.GroupState (by decide) t1
  obtain ⟨_, f3, _⟩ := MergeLevelRecordsUpper_spec
    (MergeLevelRecordsUpper (MergeLevelRecordsTag (TMergeIssuesContext.ctor L) ETags.GroupState)
      ETags.VDiskState ETags.GroupState)
    ETags.PDiskState ETags.VDiskState (by decide) t2
  have l1 := MergeLevelRecordsTag_listed (TMergeIssuesContext.ctor L) ETags.GroupState
  have l2 := MergeLevelRecordsUpper_listed
    (MergeLevelRecordsTag (TMergeIssuesContext.ctor L) ETags.GroupState)
    ETags.VDiskState ETags.GroupState
  have l3 := MergeLevelRecordsUpper_listed
    (MergeLevelRecordsUpper (MergeLevelRecordsTag (TMergeIssuesContext.ctor L) ETags.GroupState)
      ETags.VDiskState ETags.GroupState)
    ETags.PDiskState ETags.VDiskState
  have h0 : ∀ tag2, ListedSum ((TMergeIssuesContext.ctor L).GetRecords tag2) ≤ ListedSum L := by
    intro tag2
    rw [ctor_GetRecords]
    exact ListedSum_filter_le _ _
  by_cases hP : tag = ETags.PDiskState
  · subst hP
    refine Nat.le_trans l3 ?_
    rw [f2 _ (by decide), f1 _ (by decide)]
    exact h0 _
  · rw [f3 _ hP]
    by_cases hV : tag = ETags.VDiskState
    · subst hV
      refine Nat.le_trans l2 ?_
      rw [f1 _ (by decide)]
      exact h0 _
    · rw [f2 _ hV]
      by_cases hG : tag = ETags.GroupState
      · subst hG
        exact Nat.le_trans l1 (h0 _)
      · rw [f1 _ hG]
        exact h0 _

theorem ListedSum_filter_none (p : TIssueRecord → Bool) (l : List TIssueRecord)
    (h : ∀ r ∈ l, p r = false) : ListedSum (l.filter p) = 0 := by
  have : l.filter p = [] := List.filter_eq_nil_iff.2 (fun r hr => by rw [h r hr]; decide)
  rw [this]
  rfl

theorem ReasonsDisjoint_of_SingleOwner (l : List TIssueRecord) (h : SingleOwner l) :
    l.Pairwise ReasonsDisjoint := by
  induction l with
  | nil => exact List.Pairwise.nil
  | cons a l ih =>
    refine List.Pairwise.cons ?_ (ih ?_)
    · intro b hb x hxa hxb
      have h1 := h x
      unfold ReasonOwners at h1
      rw [List.countP_cons_of_pos _ _ (by simpa using hxa)] at h1
      have h2 : 0 < l.countP (fun r => decide (x ∈ r.IssueLog.reason)) :=
        List.countP_pos_iff.2 ⟨b, hb, by simpa using hxb⟩
      omega
    · intro x
      have h1 := h x
      unfold ReasonOwners at h1 ⊢
      exact Nat.le_trans (List.Sublist.countP_le _ (List.sublist_cons_self a l)) h1

/-- The fold of RemoveRecordsAboveLimit over the records of the upper tag,
when the reason lists of these have no id in common: for every upper record
the records of the level whose ids it lists sum up to at most 10. -/
theorem RemoveRecordsAboveLimitUpper_fold (us : List TIssueRecord) (done : List TIssueRecord)
    (context : TMergeIssuesContext) (pool handled : List TIssueRecord)
    (hd : (done ++ us).Pairwise ReasonsDisjoint)
    (ha : ∀ u ∈ done, ∀ p ∈ pool, p.IssueLog.id ∉ u.IssueLog.reason)
    (hb : ∀ u ∈ done,
      ListedSum (handled.filter (fun it => decide (it.IssueLog.id ∈ u.IssueLog.reason))) ≤
        MERGER_ISSUE_LIMIT)
    (hc : ∀ p ∈ handled, ∃ u ∈ done, p.IssueLog.id ∈ u.IssueLog.reason)
    (hr : ListedSum pool ≤ 2147483647) :
    (us.foldl
      (fun (acc : TMergeIssuesContext × List TIssueRecord × List TIssueRecord) it =>
        ((RemoveRecordsAboveLimit acc.1 (FindChildrenRecords acc.2.1 it).1).1,
          (FindChildrenRecords acc.2.1 it).2,
          acc.2.2 ++ (RemoveRecordsAboveLimit acc.1 (FindChildrenRecords acc.2.1 it).1).2))
      (context, pool, handled)).1.recordsMap = context.recordsMap ∧
    (∀ u ∈ done ++ us, ListedSum (((us.foldl
      (fun (acc : TMergeIssuesContext × List TIssueRecord × List TIssueRecord) it =>
        ((RemoveRecordsAboveLimit acc.1 (FindChildrenRecords acc.2.1 it).1).1,
          (FindChildrenRecords acc.2.1 it).2,
          acc.2.2 ++ (RemoveRecordsAboveLimit acc.1 (FindChildrenRecords acc.2.1 it).1).2))
      (context, pool, handled)).2.1 ++ (us.foldl
      (fun (acc : TMergeIssuesContext × List TIssueRecord × List TIssueRecord) it =>
        ((RemoveRecordsAboveLimit acc.1 (FindChildrenRecords acc.2.1 it).1).1,
          (FindChildrenRecords acc.2.1 it).2,
          acc.2.2 ++ (RemoveRecordsAboveLimit acc.1 (FindChildrenRecords acc.2.1 it).1).2))
      (context, pool, handled)).2.2).filter
        (fun it => decide (it.IssueLog.id ∈ u.IssueLog.reason))) ≤ MERGER_ISSUE_LIMIT) ∧
    ∀ r ∈ (us.foldl
      (fun (acc : TMergeIssuesContext × List TIssueRecord × List TIssueRecord) it =>
        ((RemoveRecordsAboveLimit acc.1 (FindChildrenRecords acc.2.1 it).1).1,
          (FindChildrenRecords acc.2.1 it).2,
          acc.2.2 ++ (RemoveRecordsAboveLimit acc.1 (FindChildrenRecords acc.2.1 it).1).2))
      (context, pool, handled)).2.1 ++ (us.foldl
      (fun (acc : TMergeIssuesContext × List TIssueRecord × List TIssueRecord) it =>
        ((RemoveRecordsAboveLimit acc.1 (FindChildrenRecords acc.2.1 it).1).1,
          (FindChildrenRecords acc.2.1 it).2,
          acc.2.2 ++ (RemoveRecordsAboveLimit acc.1 (FindChildrenRecords acc.2.1 it).1).2))
      (context, pool, handled)).2.2, ∃ r0 ∈ pool ++ handled, SameLink r r0 := by
  induction us generalizing done context pool handled with
  | nil =>
    refine ⟨rfl, fun u hu => ?_, fun r hr => ⟨r, hr, SameLink.refl _⟩⟩
    rw [List.append_nil] at hu
    rw [List.foldl_nil]
    dsimp only
    rw [List.filter_append, ListedSum_append,
      ListedSum_filter_none _ pool (fun p hp => by simpa using ha u hu p hp), Nat.zero_add]
    exact hb u hu
  | cons u us ih =>
    rw [List.foldl_cons]
    dsimp only
    obtain ⟨c1, c2, c3⟩ := RemoveRecordsAboveLimit_spec context (FindChildrenRecords pool u).1
    have hchild : ∀ k ∈ (RemoveRecordsAboveLimit context (FindChildrenRecords pool u).1).2,
        k.IssueLog.id ∈ u.IssueLog.reason := by
      intro k hk
      obtain ⟨r, hr, e⟩ := c3 k hk
      unfold FindChildrenRecords at hr
      simp only [List.mem_filter, decide_eq_true_eq] at hr
      rw [e.2.1]
      exact hr.2
    have hd2 : ((done ++ [u]) ++ us).Pairwise ReasonsDisjoint := by
      rw [List.append_assoc]; exact hd
    have hdu : ∀ w ∈ done, ∀ x, x ∈ u.IssueLog.reason → x ∉ w.IssueLog.reason := by
      intro w hw x hxu hxw
      have h1 := (List.pairwise_append.1 hd).2.2 w hw u (List.mem_cons_self _ _)
      exact h1 x hxw hxu
    obtain ⟨i1, i2, i3⟩ := ih (done ++ [u])
      (RemoveRecordsAboveLimit context (FindChildrenRecords pool u).1).1
      (FindChildrenRecords pool u).2
      (handled ++ (RemoveRecordsAboveLimit context (FindChildrenRecords pool u).1).2) hd2
      (by
        intro w hw p hp
        unfold FindChildrenRecords at hp
        simp only [List.mem_filter, Bool.not_eq_true', decide_eq_false_iff_not] at hp
        rw [List.mem_append, List.mem_singleton] at hw
        rcases hw with hw | hw
        · exact ha w hw p hp.1
        · rw [hw]; exact hp.2)
      (by
        intro w hw
        rw [List.mem_append, List.mem_singleton] at hw
        rw [List.filter_append, ListedSum_append]
        rcases hw with hw | hw
        · rw [ListedSum_filter_none _
            (RemoveRecordsAboveLimit context (FindChildrenRecords pool u).1).2 (fun k hk => by
              simpa using hdu w hw _ (hchild k hk)), Nat.add_zero]
          exact hb w hw
        · rw [hw, ListedSum_filter_none _ handled (fun p hp => by
            obtain ⟨w2, hw2, hp2⟩ := hc p hp
            simpa using fun hpu => hdu w2 hw2 _ hpu hp2), Nat.zero_add]
          exact Nat.le_trans (ListedSum_filter_le _ _)
            (c2 (Nat.le_trans (ListedSum_filter_le _ _) hr)))
      (by
        intro p hp
        rw [List.mem_append] at hp
        rcases hp with hp | hp
        · obtain ⟨w, hw, hpw⟩ := hc p hp
          exact ⟨w, List.mem_append_left _ hw, hpw⟩
        · exact ⟨u, List.mem_append_right _ (List.mem_singleton_self _), hchild p hp⟩)
      (Nat.le_trans (ListedSum_filter_le _ _) hr)
    refine ⟨i1.trans c1, fun w hw => i2 w (by simpa using hw), fun r hr => ?_⟩
    obtain ⟨r0, hr0, e⟩ := i3 r hr
    have hperm := FindChildrenRecords_perm pool u
    rw [List.mem_append, List.mem_append] at hr0
    rcases hr0 with h | h | h
    · exact ⟨r0, List.mem_append_left _ (hperm.mem_iff.1 (List.mem_append_right _ h)), e⟩
    · exact ⟨r0, List.mem_append_right _ h, e⟩
    · obtain ⟨r1, hr1, e1⟩ := c3 r0 h
      exact ⟨r1, List.mem_append_left _ (hperm.mem_iff.1 (List.mem_append_left _ hr1)),
        e.trans e1⟩

theorem RemoveRecordsAboveLimitUpper_fold_link (us : List TIssueRecord)
    (context : TMergeIssuesContext) (pool handled : List TIssueRecord) :
    (us.foldl
      (fun (acc : TMergeIssuesContext × List TIssueRecord × List TIssueRecord) it =>
        ((RemoveRecordsAboveLimit acc.1 (FindChildrenRecords acc.2.1 it).1).1,
          (FindChildrenRecords acc.2.1 it).2,
          acc.2.2 ++ (RemoveRecordsAboveLimit acc.1 (FindChildrenRecords acc.2.1 it).1).2))
      (context, pool, handled)).1.recordsMap = context.recordsMap ∧
    ∀ r ∈ (us.foldl
      (fun (acc : TMergeIssuesContext × List TIssueRecord × List TIssueRecord) it =>
        ((RemoveRecordsAboveLimit acc.1 (FindChildrenRecords acc.2.1 it).1).1,
          (FindChildrenRecords acc.2.1 it).2,
          acc.2.2 ++ (RemoveRecordsAboveLimit acc.1 (FindChildrenRecords acc.2.1 it).1).2))
      (context, pool, handled)).2.1 ++ (us.foldl
      (fun (acc : TMergeIssuesContext × List TIssueRecord × List TIssueRecord) it =>
        ((RemoveRecordsAboveLimit acc.1 (FindChildrenRecords acc.2.1 it).1).1,
          (FindChildrenRecords acc.2.1 it).2,
          acc.2.2 ++ (RemoveRecordsAboveLimit acc.1 (FindChildrenRecords acc.2.1 it).1).2))
      (context, pool, handled)).2.2, ∃ r0 ∈ pool ++ handled, SameLink r r0 := by
  induction us generalizing context pool handled with
  | nil => exact ⟨rfl, fun r hr => ⟨r, hr, SameLink.refl _⟩⟩
  | cons u us ih =>
    rw [List.foldl_cons]
    dsimp only
    obtain ⟨c1, _, c3⟩ := RemoveRecordsAboveLimit_spec context (FindChildrenRecords pool u).1
    obtain ⟨i1, i3⟩ := ih
      (RemoveRecordsAboveLimit context (FindChildrenRecords pool u).1).1
      (FindChildrenRecords pool u).2
      (handled ++ (RemoveRecordsAboveLimit context (FindChildrenRecords pool u).1).2)
    refine ⟨i1.trans c1, fun r hr => ?_⟩
    obtain ⟨r0, hr0, e⟩ := i3 r hr
    have hperm := FindChildrenRecords_perm pool u
    rw [List.mem_append, List.mem_append] at hr0
    rcases hr0 with h | h | h
    · exact ⟨r0, List.mem_append_left _ (hperm.mem_iff.1 (List.mem_append_right _ h)), e⟩
    · exact ⟨r0, List.mem_append_right _ h, e⟩
    · obtain ⟨r1, hr1, e1⟩ := c3 r0 h
      exact ⟨r1, List.mem_append_left _ (hperm.mem_iff.1 (List.mem_append_left _ hr1)),
        e.trans e1⟩

theorem RemoveRecordsAboveLimitUpper_frame (context : TMergeIssuesContext)
    (levelTag upperTag : ETags) (hne : upperTag ≠ levelTag) (h : TagInv context.recordsMap) :
    TagInv (RemoveRecordsAboveLimitUpper context levelTag upperTag).recordsMap ∧
    (∀ other, other ≠ levelTag →
      (RemoveRecordsAboveLimitUpper context levelTag upperTag).GetRecords other =
        context.GetRecords other) ∧
    ∀ r ∈ (RemoveRecordsAboveLimitUpper context levelTag upperTag).GetRecords levelTag,
      ∃ r0 ∈ context.GetRecords levelTag, SameLink r r0 := by
  have hl : ∀ r ∈ context.GetRecords levelTag, r.Tag = levelTag :=
    TagInv_GetRecords context levelTag h
  have hc1 : TagInv (context.SetRecords levelTag (context.GetRecords levelTag)).recordsMap :=
    TagInv_SetRecords _ _ _ h hl
  have hu : (context.SetRecords levelTag (context.GetRecords levelTag)).GetRecords upperTag =
      context.GetRecords upperTag := GetRecords_SetRecords_ne _ _ _ _ hne
  have hc2 : TagInv ((context.SetRecords levelTag (context.GetRecords levelTag)).SetRecords
      upperTag (context.GetRecords upperTag)).recordsMap :=
    TagInv_SetRecords _ _ _ hc1 (TagInv_GetRecords context upperTag h)
  obtain ⟨f1, f3⟩ := RemoveRecordsAboveLimitUpper_fold_link (context.GetRecords upperTag)
    ((context.SetRecords levelTag (context.GetRecords levelTag)).SetRecords
      upperTag (context.GetRecords upperTag)) (context.GetRecords levelTag) []
  unfold RemoveRecordsAboveLimitUpper
  dsimp only
  rw [hu]
  refine ⟨TagInv_SetRecords _ _ _ (by rw [f1]; exact hc2) ?_, fun other ho => ?_, ?_⟩
  · intro r hr
    obtain ⟨r0, hr0, e, _⟩ := f3 r hr
    rw [e]
    exact hl r0 (by simpa using hr0)
  · rw [GetRecords_SetRecords_ne _ _ _ _ ho, GetRecords_congr _ _ f1 other]
    by_cases hou : other = upperTag
    · subst hou
      rw [GetRecords_SetRecords_same]
    · rw [GetRecords_SetRecords_ne _ _ _ _ hou, GetRecords_SetRecords_ne _ _ _ _ ho]
  · rw [GetRecords_SetRecords_same]
    intro r hr
    obtain ⟨r0, hr0, e⟩ := f3 r hr
    exact ⟨r0, by simpa using hr0, e⟩

/-- RemoveRecordsAboveLimit under the upper tag, when no id is in the reason
list of two records of the upper tag: for every record of the upper tag the
records of the level whose ids it lists sum up to at most 10. -/
theorem RemoveRecordsAboveLimitUpper_cap (context : TMergeIssuesContext)
    (levelTag upperTag : ETags) (hne : upperTag ≠ levelTag)
    (hown : SingleOwner (context.GetRecords upperTag))
    (hr : ListedSum (context.GetRecords levelTag) ≤ 2147483647) :
    ∀ u ∈ context.GetRecords upperTag,
      ListedSum (((RemoveRecordsAboveLimitUpper context levelTag upperTag).GetRecords
        levelTag).filter (fun it => decide (it.IssueLog.id ∈ u.IssueLog.reason))) ≤
          MERGER_ISSUE_LIMIT := by
  have hu : (context.SetRecords levelTag (context.GetRecords levelTag)).GetRecords upperTag =
      context.GetRecords upperTag := GetRecords_SetRecords_ne _ _ _ _ hne
  obtain ⟨_, f2, _⟩ := RemoveRecordsAboveLimitUpper_fold (context.GetRecords upperTag) []
    ((context.SetRecords levelTag (context.GetRecords levelTag)).SetRecords
      upperTag (context.GetRecords upperTag)) (context.GetRecords levelTag) []
    (by rw [List.nil_append]; exact ReasonsDisjoint_of_SingleOwner _ hown)
    (fun u hu => by cases hu) (fun u hu => by cases hu) (fun p hp => by cases hp) hr
  unfold RemoveRecordsAboveLimitUpper
  dsimp only
  rw [hu, GetRecords_SetRecords_same]
  exact fun u hu => f2 u (by simpa using hu)

/-! ### FillRecords -/

theorem MergeRecords_eq (X : TExternal) (records : List TIssueRecord) :
    MergeRecords X records = (MergeContext records).FillRecords X [] := rfl

theorem foldl_GetRecords_filter (c : TMergeIssuesContext) (h : TagInv c.recordsMap)
    (tag : ETags) (l : List ETags) (hl : l.Nodup) (init : List TIssueRecord) :
    (l.foldl (fun records k => records ++ c.GetRecords k) init).filter
        (fun r => decide (r.Tag = tag)) =
      init.filter (fun r => decide (r.Tag = tag)) ++
        (if tag ∈ l then c.GetRecords tag else []) := by
  induction l generalizing init with
  | nil => simp
  | cons k l ih =>
    rw [List.foldl_cons, ih (List.nodup_cons.1 hl).2, List.filter_append, List.append_assoc]
    congr 1
    have hk := TagInv_GetRecords c k h
    by_cases hkt : k = tag
    · subst hkt
      have h1 : (c.GetRecords k).filter (fun r => decide (r.Tag = k)) = c.GetRecords k :=
        List.filter_eq_self.2 (fun r hr => by simpa using hk r hr)
      rw [h1, if_neg (List.nodup_cons.1 hl).1, if_pos (List.mem_cons_self _ _),
        List.append_nil]
    · have h1 : (c.GetRecords k).filter (fun r => decide (r.Tag = tag)) = [] :=
        List.filter_eq_nil_iff.2 (fun r hr => by
          have := hk r hr
          simpa [this] using hkt)
      rw [h1, List.nil_append]
      have h2 : (tag ∈ k :: l) ↔ tag ∈ l := by
        rw [List.mem_cons]
        exact ⟨fun h => h.resolve_left (fun e => hkt e.symm), Or.inr⟩
      by_cases hm : tag ∈ l
      · rw [if_pos hm, if_pos (h2.2 hm)]
      · rw [if_neg hm, if_neg (fun h => hm (h2.1 h))]

/-- The records of a tag among those FillRecords collects are the records
the map holds for the tag, whatever the order of iteration. -/
theorem FillRecords_collect (X : TExternal) (c : TMergeIssuesContext) (h : TagInv c.recordsMap)
    (tag : ETags) :
    ((X.MapOrder (c.recordsMap.map Prod.fst)).val.foldl
        (fun records k => records ++ c.GetRecords k) []).filter
        (fun r => decide (r.Tag = tag)) = c.GetRecords tag := by
  have hp := (X.MapOrder (c.recordsMap.map Prod.fst)).property
  rw [foldl_GetRecords_filter c h tag _ (hp.nodup_iff.2 h.1) []]
  rw [List.filter_nil, List.nil_append]
  split
  · rfl
  · rename_i hm
    have hm2 : tag ∉ c.recordsMap.map Prod.fst := fun h2 => hm (hp.mem_iff.2 h2)
    unfold TMergeIssuesContext.GetRecords
    rw [find_none_of_not_mem _ _ hm2]
    rfl

theorem foldl_RemoveUnlinkStep_sublist (necessary : List String) (l : List TIssueRecord)
    (st : TUnlinkState) :
    ∃ l2, l2.Sublist l ∧ (l.foldl (RemoveUnlinkStep necessary) st).kept = st.kept ++ l2 := by
  induction l generalizing st with
  | nil => exact ⟨[], List.Sublist.refl _, by simp⟩
  | cons a l ih =>
    rw [List.foldl_cons]
    obtain ⟨l2, h1, h2⟩ := ih (RemoveUnlinkStep necessary st a)
    rw [h2]
    unfold RemoveUnlinkStep
    split
    · exact ⟨l2, h1.trans (List.sublist_cons_self _ _), rfl⟩
    · exact ⟨a :: l2, h1.cons₂ _, by simp⟩

theorem RemoveUnlinkLoop_sublist (fuel : Nat) (records : List TIssueRecord)
    (removeIssuesIds : List String) :
    (RemoveUnlinkLoop fuel records removeIssuesIds).1.Sublist records := by
  induction fuel generalizing records removeIssuesIds with
  | zero => exact List.Sublist.refl _
  | succ fuel ih =>
    unfold RemoveUnlinkLoop
    dsimp only
    obtain ⟨l2, h1, h2⟩ := foldl_RemoveUnlinkStep_sublist (NecessaryIssuesIds records) records
      { removeIssuesIds := removeIssuesIds }
    have h3 : (records.foldl (RemoveUnlinkStep (NecessaryIssuesIds records))
        { removeIssuesIds := removeIssuesIds }).kept.Sublist records := by
      rw [h2]
      exact h1
    split
    · exact (ih _ _).trans h3
    · exact h3

/-- What FillRecords returns: a part of the records it collects, in their
order, each with some reasons dropped and, maybe, a new message. -/
theorem FillRecords_shape (X : TExternal) (c : TMergeIssuesContext) :
    ∃ (U : List TIssueRecord) (f : TIssueRecord → TIssueRecord),
      U.Sublist ((X.MapOrder (c.recordsMap.map Prod.fst)).val.foldl
        (fun records k => records ++ c.GetRecords k) []) ∧
      c.FillRecords X [] = U.map f ∧ ∀ r, Shadow (f r) r := by
  refine ⟨(RemoveUnlinkLoop
      (((X.MapOrder (c.recordsMap.map Prod.fst)).val.foldl
        (fun records k => records ++ c.GetRecords k) []).length + 1)
      ((X.MapOrder (c.recordsMap.map Prod.fst)).val.foldl
        (fun records k => records ++ c.GetRecords k) []) c.removeIssuesIds).1,
    fun it =>
      (fun it : TIssueRecord =>
        if it.IssueLog.count > 0 then
          { it with IssueLog.message := RenameMessage it.Tag it.IssueLog.message }
        else it)
      { it with IssueLog.reason := it.IssueLog.reason.filter (fun r => decide (r ∈
        ((RemoveUnlinkLoop
          (((X.MapOrder (c.recordsMap.map Prod.fst)).val.foldl
            (fun records k => records ++ c.GetRecords k) []).length + 1)
          ((X.MapOrder (c.recordsMap.map Prod.fst)).val.foldl
            (fun records k => records ++ c.GetRecords k) []) c.removeIssuesIds).1.map
              (fun it => it.IssueLog.id)))) },
    RemoveUnlinkLoop_sublist _ _ _, ?_, fun r => ?_⟩
  · unfold TMergeIssuesContext.FillRecords TMergeIssuesContext.RemoveUnlinkIssues
      RenameMergingIssues FilterReasons
    dsimp only
    rw [List.map_map]
    rfl
  · dsimp only
    split
    · exact ⟨rfl, rfl, rfl, fun x hx => (List.mem_filter.1 hx).1⟩
    · exact ⟨rfl, rfl, rfl, fun x hx => (List.mem_filter.1 hx).1⟩

theorem ListedSum_sublist (a b : List TIssueRecord) (h : a.Sublist b) :
    ListedSum a ≤ ListedSum b := by
  induction h with
  | slnil => exact Nat.le_refl _
  | cons x _ ih => rw [ListedSum_cons]; omega
  | cons₂ x _ ih => rw [ListedSum_cons, ListedSum_cons]; omega

theorem ListedSum_map_filter_le (f : TIssueRecord → TIssueRecord) (q2 q : TIssueRecord → Bool)
    (l : List TIssueRecord) (hq : ∀ r ∈ l, q2 (f r) = true → q r = true)
    (hf : ∀ r, ListedValue (f r) = ListedValue r) :
    ListedSum ((l.map f).filter q2) ≤ ListedSum (l.filter q) := by
  induction l with
  | nil => exact Nat.le_refl _
  | cons a l ih =>
    have ih2 := ih (fun r hr => hq r (List.mem_cons_of_mem _ hr))
    rw [List.map_cons, List.filter_cons, List.filter_cons]
    by_cases h2 : q2 (f a) = true
    · rw [if_pos h2, if_pos (hq a (List.mem_cons_self _ _) h2), ListedSum_cons, ListedSum_cons,
        hf]
      omega
    · rw [if_neg h2]
      split
      · rw [ListedSum_cons]; omega
      · exact ih2

theorem SingleOwner_of_le (a b : List TIssueRecord)
    (h : ∀ x, ReasonOwners a x ≤ ReasonOwners b x) (hb : SingleOwner b) : SingleOwner a :=
  fun x => Nat.le_trans (h x) (hb x)

theorem MergeStages_spec (L : List TIssueRecord) :
    TagInv (MergeLevelRecordsUpper
      (MergeLevelRecordsUpper (MergeLevelRecordsTag (TMergeIssuesContext.ctor L)
        ETags.GroupState) ETags.VDiskState ETags.GroupState)
      ETags.PDiskState ETags.VDiskState).recordsMap ∧
    (SingleOwner (L.filter (fun r => decide (r.Tag = ETags.GroupState))) →
      SingleOwner ((MergeLevelRecordsUpper
        (MergeLevelRecordsUpper (MergeLevelRecordsTag (TMergeIssuesContext.ctor L)
          ETags.GroupState) ETags.VDiskState ETags.GroupState)
        ETags.PDiskState ETags.VDiskState).GetRecords ETags.GroupState)) ∧
    (SingleOwner (L.filter (fun r => decide (r.Tag = ETags.VDiskState))) →
      SingleOwner ((MergeLevelRecordsUpper
        (MergeLevelRecordsUpper (MergeLevelRecordsTag (TMergeIssuesContext.ctor L)
          ETags.GroupState) ETags.VDiskState ETags.GroupState)
        ETags.PDiskState ETags.VDiskState).GetRecords ETags.VDiskState)) := by
  have t0 := ctor_TagInv L
  obtain ⟨t1, f1, o1⟩ := MergeLevelRecordsTag_spec (TMergeIssuesContext.ctor L)
    ETags.GroupState t0
  obtain ⟨t2, f2, o2⟩ := MergeLevelRecordsUpper_spec
    (MergeLevelRecordsTag (TMergeIssuesContext.ctor L) ETags.GroupState)
    ETags.VDiskState ETags.GroupState (by decide) t1
  obtain ⟨t3, f3, _⟩ := MergeLevelRecordsUpper_spec
    (MergeLevelRecordsUpper (MergeLevelRecordsTag (TMergeIssuesContext.ctor L) ETags.GroupState)
      ETags.VDiskState ETags.GroupState)
    ETags.PDiskState ETags.VDiskState (by decide) t2
  refine ⟨t3, fun h => ?_, fun h => ?_⟩
  · rw [f3 _ (by decide), f2 _ (by decide)]
    refine SingleOwner_of_le _ _ o1 ?_
    rw [ctor_GetRecords]
    exact h
  · rw [f3 _ (by decide)]
    refine SingleOwner_of_le _ _ o2 ?_
    rw [f1 _ (by decide), ctor_GetRecords]
    exact h

theorem CutStages_spec (c : TMergeIssuesContext) (t : TagInv c.recordsMap)
    (hr : ∀ tag, ListedSum (c.GetRecords tag) ≤ 2147483647) :
    TagInv (RemoveRecordsAboveLimitTag
      (RemoveRecordsAboveLimitUpper
        (RemoveRecordsAboveLimitUpper c ETags.PDiskState ETags.VDiskState)
        ETags.VDiskState ETags.GroupState) ETags.GroupState).recordsMap ∧
    ListedSum ((RemoveRecordsAboveLimitTag
      (RemoveRecordsAboveLimitUpper
        (RemoveRecordsAboveLimitUpper c ETags.PDiskState ETags.VDiskState)
        ETags.VDiskState ETags.GroupState) ETags.GroupState).GetRecords ETags.GroupState) ≤
      MERGER_ISSUE_LIMIT ∧
    (SingleOwner (c.GetRecords ETags.GroupState) →
      ∀ g ∈ (RemoveRecordsAboveLimitTag
        (RemoveRecordsAboveLimitUpper
          (RemoveRecordsAboveLimitUpper c ETags.PDiskState ETags.VDiskState)
          ETags.VDiskState ETags.GroupState) ETags.GroupState).GetRecords ETags.GroupState,
        ListedSum (((RemoveRecordsAboveLimitTag
          (RemoveRecordsAboveLimitUpper
            (RemoveRecordsAboveLimitUpper c ETags.PDiskState ETags.VDiskState)
            ETags.VDiskState ETags.GroupState) ETags.GroupState).GetRecords
              ETags.VDiskState).filter
            (fun it => decide (it.IssueLog.id ∈ g.IssueLog.reason))) ≤ MERGER_ISSUE_LIMIT) ∧
    (SingleOwner (c.GetRecords ETags.VDiskState) →
      ∀ v ∈ (RemoveRecordsAboveLimitTag
        (RemoveRecordsAboveLimitUpper
          (RemoveRecordsAboveLimitUpper c ETags.PDiskState ETags.VDiskState)
          ETags.VDiskState ETags.GroupState) ETags.GroupState).GetRecords ETags.VDiskState,
        ListedSum (((RemoveRecordsAboveLimitTag
          (RemoveRecordsAboveLimitUpper
            (RemoveRecordsAboveLimitUpper c ETags.PDiskState ETags.VDiskState)
            ETags.VDiskState ETags.GroupState) ETags.GroupState).GetRecords
              ETags.PDiskState).filter
            (fun it => decide (it.IssueLog.id ∈ v.IssueLog.reason))) ≤ MERGER_ISSUE_LIMIT) := by
  obtain ⟨t4, f4, _⟩ := RemoveRecordsAboveLimitUpper_frame c ETags.PDiskState ETags.VDiskState
    (by decide) t
  obtain ⟨t5, f5, l5⟩ := RemoveRecordsAboveLimitUpper_frame
    (RemoveRecordsAboveLimitUpper c ETags.PDiskState ETags.VDiskState)
    ETags.VDiskState ETags.GroupState (by decide) t4
  obtain ⟨t6, f6, s6, l6⟩ := RemoveRecordsAboveLimitTag_spec
    (RemoveRecordsAboveLimitUpper
      (RemoveRecordsAboveLimitUpper c ETags.PDiskState ETags.VDiskState)
      ETags.VDiskState ETags.GroupState) ETags.GroupState t5
  refine ⟨t6, s6 ?_, fun hG g hg => ?_, fun hV v hv => ?_⟩
  · rw [f5 _ (by decide), f4 _ (by decide)]
    exact hr _
  · obtain ⟨u, hu, e⟩ := l6 g hg
    rw [f6 _ (by decide), e.2.2]
    rw [f5 _ (by decide)] at hu
    refine RemoveRecordsAboveLimitUpper_cap _ ETags.VDiskState ETags.GroupState (by decide) ?_ ?_
      u hu
    · rw [f4 _ (by decide)]
      exact hG
    · rw [f4 _ (by decide)]
      exact hr _
  · rw [f6 _ (by decide)] at hv
    obtain ⟨u, hu, e⟩ := l5 v hv
    rw [f6 _ (by decide), f5 _ (by decide), e.2.2]
    rw [f4 _ (by decide)] at hu
    exact RemoveRecordsAboveLimitUpper_cap c ETags.PDiskState ETags.VDiskState (by decide) hV
      (hr _) u hu

theorem MergeContext_TagInv (L : List TIssueRecord) : TagInv (MergeContext L).recordsMap := by
  obtain ⟨t3, _, _⟩ := MergeStages_spec L
  obtain ⟨t4, _, _⟩ := RemoveRecordsAboveLimitUpper_frame _ ETags.PDiskState ETags.VDiskState
    (by decide) t3
  obtain ⟨t5, _, _⟩ := RemoveRecordsAboveLimitUpper_frame _ ETags.VDiskState ETags.GroupState
    (by decide) t4
  exact (RemoveRecordsAboveLimitTag_spec _ ETags.GroupState t5).1

/-- The invariants of the context MergeRecords hands to FillRecords, for a
list whose listed values sum up to at most 2^31 - 1. -/
theorem MergeContext_spec (L : List TIssueRecord) (hB : ListedSum L ≤ 2147483647) :
    TagInv (MergeContext L).recordsMap ∧
    ListedSum ((MergeContext L).GetRecords ETags.GroupState) ≤ MERGER_ISSUE_LIMIT ∧
    (SingleOwner (L.filter (fun r => decide (r.Tag = ETags.GroupState))) →
      ∀ g ∈ (MergeContext L).GetRecords ETags.GroupState,
        ListedSum (((MergeContext L).GetRecords ETags.VDiskState).filter
          (fun it => decide (it.IssueLog.id ∈ g.IssueLog.reason))) ≤ MERGER_ISSUE_LIMIT) ∧
    (SingleOwner (L.filter (fun r => decide (r.Tag = ETags.VDiskState))) →
      ∀ v ∈ (MergeContext L).GetRecords ETags.VDiskState,
        ListedSum (((MergeContext L).GetRecords ETags.PDiskState).filter
          (fun it => decide (it.IssueLog.id ∈ v.IssueLog.reason))) ≤ MERGER_ISSUE_LIMIT) := by
  obtain ⟨t3, g3, v3⟩ := MergeStages_spec L
  obtain ⟨t6, s6, g6, v6⟩ := CutStages_spec _ t3
    (fun tag => Nat.le_trans (MergeStages_listed L tag) hB)
  exact ⟨t6, s6, fun h => g6 (g3 h), fun h => v6 (v3 h)⟩

/-- The cap of MergeRecords on its output, for a list whose listed values sum
up to at most 2^31 - 1; the second and the third part under the condition
that no id is in the reason list of two GroupState records of the input (two
VDiskState records of the input). -/
theorem MergeRecords_cap (X : TExternal) (L : List TIssueRecord)
    (hB : ListedSum L ≤ 2147483647) :
    ListedSum ((MergeRecords X L).filter (fun r => decide (r.Tag = ETags.GroupState))) ≤
      MERGER_ISSUE_LIMIT ∧
    (SingleOwner (L.filter (fun r => decide (r.Tag = ETags.GroupState))) →
      ∀ g ∈ MergeRecords X L, g.Tag = ETags.GroupState →
        ListedSum ((MergeRecords X L).filter (fun it =>
          decide (it.Tag = ETags.VDiskState) &&
            decide (it.IssueLog.id ∈ g.IssueLog.reason))) ≤ MERGER_ISSUE_LIMIT) ∧
    (SingleOwner (L.filter (fun r => decide (r.Tag = ETags.VDiskState))) →
      ∀ v ∈ MergeRecords X L, v.Tag = ETags.VDiskState →
        ListedSum ((MergeRecords X L).filter (fun it =>
          decide (it.Tag = ETags.PDiskState) &&
            decide (it.IssueLog.id ∈ v.IssueLog.reason))) ≤ MERGER_ISSUE_LIMIT) := by
  obtain ⟨t, s, hg, hv⟩ := MergeContext_spec L hB
  obtain ⟨U, f, hU, hO, hf⟩ := FillRecords_shape X (MergeContext L)
  rw [MergeRecords_eq, hO]
  have hsub : ∀ tag, (U.filter (fun r => decide (r.Tag = tag))).Sublist
      ((MergeContext L).GetRecords tag) := by
    intro tag
    have := hU.filter (fun r => decide (r.Tag = tag))
    rw [FillRecords_collect X _ t tag] at this
    exact this
  have hupper : ∀ (upper level : ETags) (r : TIssueRecord), r ∈ U.map f → r.Tag = upper →
      (∀ u ∈ (MergeContext L).GetRecords upper,
        ListedSum (((MergeContext L).GetRecords level).filter
          (fun it => decide (it.IssueLog.id ∈ u.IssueLog.reason))) ≤ MERGER_ISSUE_LIMIT) →
      ListedSum ((U.map f).filter (fun it =>
        decide (it.Tag = level) && decide (it.IssueLog.id ∈ r.IssueLog.reason))) ≤
          MERGER_ISSUE_LIMIT := by
    intro upper level r hr hrt hcap
    obtain ⟨r0, hr0, rfl⟩ := List.mem_map.1 hr
    have hr1 : r0 ∈ (MergeContext L).GetRecords upper :=
      (hsub upper).subset (List.mem_filter.2 ⟨hr0, by
        rw [(hf r0).1] at hrt
        simpa using hrt⟩)
    refine Nat.le_trans (ListedSum_map_filter_le f _
      (fun it => decide (it.IssueLog.id ∈ r0.IssueLog.reason) && decide (it.Tag = level))
      U ?_ (fun r => (hf r).2.2.1)) ?_
    · intro a _ ha
      simp only [Bool.and_eq_true, decide_eq_true_eq] at ha ⊢
      rw [(hf a).1, (hf a).2.1] at ha
      exact ⟨(hf r0).2.2.2 _ ha.2, ha.1⟩
    · rw [← List.filter_filter]
      exact Nat.le_trans (ListedSum_sublist _ _ ((hsub level).filter _)) (hcap r0 hr1)
  refine ⟨?_, fun h g hgm hgt => hupper _ _ g hgm hgt (hg h),
    fun h v hvm hvt => hupper _ _ v hvm hvt (hv h)⟩
  refine Nat.le_trans (ListedSum_map_filter_le f _ (fun r => decide (r.Tag = ETags.GroupState))
    U ?_ (fun r => (hf r).2.2.1)) (Nat.le_trans (ListedSum_sublist _ _ (hsub _)) s)
  intro a _ ha
  rw [(hf a).1] at ha
  exact ha

/-! ### C13: the cap of the merger -/

theorem SingleOwner_of_pairwise (l : List TIssueRecord) (h : l.Pairwise ReasonsDisjoint) :
    SingleOwner l := by
  induction l with
  | nil => intro x; exact Nat.zero_le _
  | cons a l ih =>
    obtain ⟨h1, h2⟩ := List.pairwise_cons.1 h
    intro x
    unfold ReasonOwners
    by_cases hx : x ∈ a.IssueLog.reason
    · rw [List.countP_cons_of_pos _ _ (by simpa using hx)]
      have h3 : l.countP (fun r => decide (x ∈ r.IssueLog.reason)) = 0 :=
        List.countP_eq_zero.2 (fun b hb => by simpa using h1 b hb x hx)
      omega
    · rw [List.countP_cons_of_neg _ _ (by simpa using hx)]
      exact ih h2 x

theorem perm_three (a b c : ETags) (l : List ETags) (h : l.Perm [a, b, c]) :
    l = [a, b, c] ∨ l = [a, c, b] ∨ l = [b, a, c] ∨ l = [b, c, a] ∨ l = [c, a, b] ∨
      l = [c, b, a] := by
  have h2 := List.mem_permutations.2 h
  simp [List.permutations, List.permutationsAux, List.permutationsAux.rec, List.permutationsAux2]
    at h2
  tauto

theorem FillRecords_of_order (X : TExternal) (c : TMergeIssuesContext) (a b d : ETags)
    (hk : c.recordsMap.map Prod.fst = [a, b, d]) (P : List TIssueRecord → Prop)
    (h : ∀ l ∈ [[a, b, d], [a, d, b], [b, a, d], [b, d, a], [d, a, b], [d, b, a]],
      P (RenameMergingIssues (c.RemoveUnlinkIssues
        (l.foldl (fun records tag => records ++ c.GetRecords tag) [])).2)) :
    P (c.FillRecords X []) := by
  unfold TMergeIssuesContext.FillRecords
  dsimp only
  have hp : (X.MapOrder (c.recordsMap.map Prod.fst)).val.Perm [a, b, d] := by
    rw [← hk]
    exact (X.MapOrder (c.recordsMap.map Prod.fst)).property
  refine h _ ?_
  have := perm_three a b d _ hp
  simp only [List.mem_cons, List.mem_singleton, List.not_mem_nil, or_false]
  exact this

/-- C13 (amended): for every input list whose listed values (a record with
listed = 0 counting as 1) sum up to at most 2^31 - 1, so that the `int` sums
of RemoveRecordsAboveLimit are the sums of the values: after MergeRecords the
listed values of the GroupState records sum up to at most 10; for every
GroupState record the VDiskState records whose ids are in its reason list sum
up to at most 10 when no two GroupState records of the input have an id in
common in their reason lists; and for every VDiskState record the PDiskState
records whose ids are in its reason list sum up to at most 10 when no two
VDiskState records of the input have an id in common in their reason
lists. -/
theorem MergeRecords_cap_enforcement (X : TExternal) (L : List TIssueRecord)
    (hB : ListedSum L ≤ 2147483647) :
    ListedSum ((MergeRecords X L).filter (fun r => decide (r.Tag = ETags.GroupState))) ≤ 10 ∧
    ((L.filter (fun r => decide (r.Tag = ETags.GroupState))).Pairwise ReasonsDisjoint →
      ∀ g ∈ MergeRecords X L, g.Tag = ETags.GroupState →
        ListedSum ((MergeRecords X L).filter (fun it =>
          decide (it.Tag = ETags.VDiskState) &&
            decide (it.IssueLog.id ∈ g.IssueLog.reason))) ≤ 10) ∧
    ((L.filter (fun r => decide (r.Tag = ETags.VDiskState))).Pairwise ReasonsDisjoint →
      ∀ v ∈ MergeRecords X L, v.Tag = ETags.VDiskState →
        ListedSum ((MergeRecords X L).filter (fun it =>
          decide (it.Tag = ETags.PDiskState) &&
            decide (it.IssueLog.id ∈ v.IssueLog.reason))) ≤ 10) := by
  obtain ⟨h1, h2, h3⟩ := MergeRecords_cap X L hB
  exact ⟨h1, fun h => h2 (SingleOwner_of_pairwise _ h), fun h => h3 (SingleOwner_of_pairwise _ h)⟩

/-- C13 (witness): the list of one VDiskState record that lists twenty
PDiskState records "PDisk state is Missing": its listed values sum up to 21,
no id is in two reason lists, and the three sums of the output are at most
10. -/
theorem MergeRecords_cap_enforcement_witness :
    ListedSum exampleMissingPDisks ≤ 2147483647 ∧
    (exampleMissingPDisks.filter
      (fun r => decide (r.Tag = ETags.GroupState))).Pairwise ReasonsDisjoint ∧
    (exampleMissingPDisks.filter
      (fun r => decide (r.Tag = ETags.VDiskState))).Pairwise ReasonsDisjoint ∧
    ListedSum ((MergeRecords exampleExternal exampleMissingPDisks).filter
      (fun r => decide (r.Tag = ETags.GroupState))) ≤ 10 ∧
    (∀ g ∈ MergeRecords exampleExternal exampleMissingPDisks, g.Tag = ETags.GroupState →
      ListedSum ((MergeRecords exampleExternal exampleMissingPDisks).filter (fun it =>
        decide (it.Tag = ETags.VDiskState) &&
          decide (it.IssueLog.id ∈ g.IssueLog.reason))) ≤ 10) ∧
    ∀ v ∈ MergeRecords exampleExternal exampleMissingPDisks, v.Tag = ETags.VDiskState →
      ListedSum ((MergeRecords exampleExternal exampleMissingPDisks).filter (fun it =>
        decide (it.Tag = ETags.PDiskState) &&
          decide (it.IssueLog.id ∈ v.IssueLog.reason))) ≤ 10 :=
  ⟨by decide, by decide, by decide,
    (MergeRecords_cap_enforcement exampleExternal exampleMissingPDisks (by decide)).1,
    (MergeRecords_cap_enforcement exampleExternal exampleMissingPDisks (by decide)).2.1
      (by decide),
    (MergeRecords_cap_enforcement exampleExternal exampleMissingPDisks (by decide)).2.2
      (by decide)⟩

/-- C13 (counterexample): when two VDiskState records list the same
PDiskState record, or two GroupState records the same VDiskState record, the
cap does not hold: in the output of MergeRecords the second of them lists two
records with listed = 6 each, whatever the order in which the records map is
iterated. And a GroupState record with listed = 2147483648, which
GetIssueListed returns as the `int` -2147483648, stays as it is, and so does
a second record with listed = 11 after it: the loop takes the sum to be
-2147483637. -/
theorem cap_exceeded_under_shared_reason :
    ((MergeRecords exampleExternal exampleNegativeListed).map
        (fun it => (it.Tag, it.IssueLog.id, it.IssueLog.listed)) =
      [(ETags.GroupState, "g1", 2147483648), (ETags.GroupState, "g2", 11)] ∧
      GetIssueListed (exampleNegativeListed.getD 0 {}) = -2147483648 ∧
      ListedSum ((MergeRecords exampleExternal exampleNegativeListed).filter
        (fun r => decide (r.Tag = ETags.GroupState))) = 2147483659) ∧
    (MergeRecords exampleExternal exampleSharedReason).map
        (fun it => (it.Tag, it.IssueLog.id, it.IssueLog.listed, it.IssueLog.reason)) =
      [(ETags.VDiskState, "v1", 0, ["f1"]), (ETags.VDiskState, "v2", 0, ["f1", "a1"]),
        (ETags.PDiskState, "f1", 6, []), (ETags.PDiskState, "a1", 6, [])] ∧
    (MergeRecords exampleExternal exampleSharedVDisk).map
        (fun it => (it.Tag, it.IssueLog.id, it.IssueLog.listed, it.IssueLog.reason)) =
      [(ETags.GroupState, "g1", 0, ["f1"]), (ETags.GroupState, "g2", 0, ["f1", "a1"]),
        (ETags.VDiskState, "f1", 6, []), (ETags.VDiskState, "a1", 6, [])] ∧
    ∀ X : TExternal,
      (∃ v ∈ MergeRecords X exampleSharedReason, v.Tag = ETags.VDiskState ∧
        ListedSum ((MergeRecords X exampleSharedReason).filter (fun it =>
          decide (it.Tag = ETags.PDiskState) &&
            decide (it.IssueLog.id ∈ v.IssueLog.reason))) = 12) ∧
      ∃ g ∈ MergeRecords X exampleSharedVDisk, g.Tag = ETags.GroupState ∧
        ListedSum ((MergeRecords X exampleSharedVDisk).filter (fun it =>
          decide (it.Tag = ETags.VDiskState) &&
            decide (it.IssueLog.id ∈ g.IssueLog.reason))) = 12 := by
  refine ⟨by decide, by decide, by decide, fun X => ⟨?_, ?_⟩⟩
  · rw [MergeRecords_eq]
    refine FillRecords_of_order X (MergeContext exampleSharedReason)
      ETags.VDiskState ETags.PDiskState ETags.GroupState (by decide)
      (fun O => ∃ v ∈ O, v.Tag = ETags.VDiskState ∧
        ListedSum (O.filter (fun it =>
          decide (it.Tag = ETags.PDiskState) &&
            decide (it.IssueLog.id ∈ v.IssueLog.reason))) = 12) ?_
    decide
  · rw [MergeRecords_eq]
    refine FillRecords_of_order X (MergeContext exampleSharedVDisk)
      ETags.GroupState ETags.VDiskState ETags.PDiskState (by decide)
      (fun O => ∃ g ∈ O, g.Tag = ETags.GroupState ∧
        ListedSum (O.filter (fun it =>
          decide (it.Tag = ETags.VDiskState) &&
            decide (it.IssueLog.id ∈ g.IssueLog.reason))) = 12) ?_
    decide

/-! ### C14: twenty similar pdisk records under one vdisk record -/

theorem FindRecordsForMergeLoop_nil (fuel : Nat) (similar Mergeed : List TIssueRecord) :
    FindRecordsForMergeLoop fuel [] similar Mergeed = ([], similar, Mergeed) := by
  cases fuel with
  | zero => rfl
  | succ fuel => unfold FindRecordsForMergeLoop; rfl

theorem FindRecordsForMerge_all_similar (first : TIssueRecord) (rest handled : List TIssueRecord)
    (h : ∀ r ∈ rest, IsSimilar first r = true)
    (hlen : MERGING_IGNORE_SIZE < (first :: rest).length) :
    FindRecordsForMerge (first :: rest) [] handled = (true, [], first :: rest, handled) := by
  have h1 : rest.filter (IsSimilar first) = rest := List.filter_eq_self.2 h
  have h2 : rest.filter (fun it => !IsSimilar first it) = [] :=
    List.filter_eq_nil_iff.2 (fun r hr => by simp [h r hr])
  unfold FindRecordsForMerge
  dsimp only
  rw [List.length_cons, FindRecordsForMergeLoop]
  rw [h1, h2, if_neg (Nat.not_le.2 hlen), FindRecordsForMergeLoop_nil]
  rfl

theorem MergeLevelRecordsLoop_nil (fuel : Nat) (context : TMergeIssuesContext)
    (handled : List TIssueRecord) :
    MergeLevelRecordsLoop fuel context [] handled = (context, [], handled) := by
  cases fuel with
  | zero => rfl
  | succ fuel => unfold MergeLevelRecordsLoop; rfl

theorem MergeLevelRecords_all_similar (context : TMergeIssuesContext) (first : TIssueRecord)
    (rest : List TIssueRecord) (h : ∀ r ∈ rest, IsSimilar first r = true)
    (hlen : MERGING_IGNORE_SIZE < (first :: rest).length) :
    MergeLevelRecords context (first :: rest) =
      ((MoveDataInFirstRecord context (first :: rest)).1,
        (MoveDataInFirstRecord context (first :: rest)).2.take 1) := by
  unfold MergeLevelRecords
  dsimp only
  rw [List.length_cons, MergeLevelRecordsLoop]
  rw [FindRecordsForMerge_all_similar first rest [] h hlen]
  simp only [List.isEmpty_cons, Bool.false_eq_true, if_false, if_true, List.nil_append,
    MergeLevelRecordsLoop_nil]

theorem mem_TSetInsert (set : List String) (x y : String) :
    y ∈ TSetInsert set x ↔ y ∈ set ∨ y = x := by
  unfold TSetInsert
  split
  · rename_i hx
    exact ⟨Or.inl, fun h => h.elim id (fun e => e ▸ hx)⟩
  · rw [List.mem_append, List.mem_singleton]

theorem mem_foldl_TSetInsert (l set : List String) (y : String) :
    y ∈ l.foldl TSetInsert set ↔ y ∈ set ∨ y ∈ l := by
  induction l generalizing set with
  | nil => simp
  | cons a l ih =>
    rw [List.foldl_cons, ih, mem_TSetInsert, List.mem_cons]
    tauto

theorem MoveReasons_fields (donorReasons : List String) (main : TIssueRecord)
    (mainReasonIds : List String) :
    ∃ reason, (MoveReasons main mainReasonIds donorReasons).1 =
      { main with IssueLog.reason := reason } := by
  unfold MoveReasons
  induction donorReasons generalizing main mainReasonIds with
  | nil => exact ⟨main.IssueLog.reason, rfl⟩
  | cons r l ih =>
    rw [List.foldl_cons]
    dsimp only
    split
    · exact ih main mainReasonIds
    · obtain ⟨reason, h⟩ := ih { main with IssueLog.reason := main.IssueLog.reason ++ [r] }
        (mainReasonIds ++ [r])
      exact ⟨reason, h⟩

/-- The loop of MoveDataInFirstRecord over PDiskState records with ids that
are new: none is stepped over, every one adds its id and its pdisk entries. -/
theorem foldl_MoveDataStep_distinct (l : List TIssueRecord) (st : TMoveState)
    (hn : ∀ a ∈ l, a.IssueLog.id ∉ st.ids)
    (hl : (l.map (fun it => it.IssueLog.id)).Nodup)
    (ht : st.main.Tag = ETags.PDiskState)
    (h1 : ∀ a ∈ l, a.IssueLog.location.storage.pool.group.vdisk.pdisk.length = 1) :
    (l.foldl MoveDataStep st).skipped = st.skipped ∧
    (l.foldl MoveDataStep st).ids.length = st.ids.length + l.length ∧
    (l.foldl MoveDataStep st).main.Tag = st.main.Tag ∧
    (l.foldl MoveDataStep st).main.IssueLog.id = st.main.IssueLog.id ∧
    (l.foldl MoveDataStep st).main.IssueLog.message = st.main.IssueLog.message ∧
    (l.foldl MoveDataStep st).main.IssueLog.location.storage.pool.group.vdisk.pdisk.length =
      st.main.IssueLog.location.storage.pool.group.vdisk.pdisk.length + l.length ∧
    ∀ x ∈ (l.foldl MoveDataStep st).removeIssuesIds,
      x ∈ st.removeIssuesIds ∨ x ∈ l.map (fun it => it.IssueLog.id) := by
  induction l generalizing st with
  | nil => exact ⟨rfl, rfl, rfl, rfl, rfl, rfl, fun x hx => Or.inl hx⟩
  | cons a l ih =>
    rw [List.foldl_cons]
    have ha : a.IssueLog.id ∉ st.ids := hn a (List.mem_cons_self _ _)
    rw [List.map_cons, List.nodup_cons] at hl
    obtain ⟨reason, hr⟩ := MoveReasons_fields a.IssueLog.reason (MoveLocationIds st.main a)
      st.mainReasonIds
    have hloc : MoveLocationIds st.main a =
        { st.main with IssueLog.location.storage.pool.group.vdisk.pdisk :=
          st.main.IssueLog.location.storage.pool.group.vdisk.pdisk ++
            a.IssueLog.location.storage.pool.group.vdisk.pdisk } := by
      unfold MoveLocationIds
      split
      · rename_i h; rw [ht] at h; cases h
      · rename_i h; rw [ht] at h; cases h
      · rfl
      · rename_i h2 h3 h4; exact absurd ht h4
    have hstep : MoveDataStep st a =
        { st with
          main := { MoveLocationIds st.main a with IssueLog.reason := reason },
          ids := st.ids ++ [a.IssueLog.id],
          mainReasonIds :=
            (MoveReasons (MoveLocationIds st.main a) st.mainReasonIds a.IssueLog.reason).2,
          removeIssuesIds := TSetInsert st.removeIssuesIds a.IssueLog.id } := by
      unfold MoveDataStep
      rw [if_neg ha]
      dsimp only
      rw [hr]
    obtain ⟨i1, i2, i3, i4, i5, i6, i7⟩ := ih (MoveDataStep st a)
      (by
        intro b hb
        rw [hstep]
        dsimp only
        rw [List.mem_append, List.mem_singleton, not_or]
        refine ⟨hn b (List.mem_cons_of_mem _ hb), fun e => hl.1 ?_⟩
        rw [← e]
        exact List.mem_map_of_mem _ hb)
      hl.2
      (by rw [hstep, hloc]; exact ht)
      (fun b hb => h1 b (List.mem_cons_of_mem _ hb))
    have s1 : (MoveDataStep st a).skipped = st.skipped := by rw [hstep]
    have s2 : (MoveDataStep st a).ids = st.ids ++ [a.IssueLog.id] := by rw [hstep]
    have s3 : (MoveDataStep st a).main.Tag = st.main.Tag := by rw [hstep, hloc]
    have s4 : (MoveDataStep st a).main.IssueLog.id = st.main.IssueLog.id := by rw [hstep, hloc]
    have s5 : (MoveDataStep st a).main.IssueLog.message = st.main.IssueLog.message := by
      rw [hstep, hloc]
    have s6 : (MoveDataStep st a).main.IssueLog.location.storage.pool.group.vdisk.pdisk =
        st.main.IssueLog.location.storage.pool.group.vdisk.pdisk ++
          a.IssueLog.location.storage.pool.group.vdisk.pdisk := by rw [hstep, hloc]
    have s7 : (MoveDataStep st a).removeIssuesIds =
        TSetInsert st.removeIssuesIds a.IssueLog.id := by rw [hstep]
    refine ⟨i1.trans s1, ?_, i3.trans s3, i4.trans s4, i5.trans s5, ?_, fun x hx => ?_⟩
    · rw [i2, s2, List.length_append, List.length_singleton, List.length_cons]; omega
    · rw [i6, s6, List.length_append, h1 a (List.mem_cons_self _ _), List.length_cons]; omega
    · rcases i7 x hx with h | h
      · rw [s7, mem_TSetInsert] at h
        rcases h with h | h
        · exact Or.inl h
        · exact Or.inr (h ▸ List.mem_cons_self _ _)
      · exact Or.inr (List.mem_cons_of_mem _ h)

/-- MoveDataInFirstRecord on PDiskState records with distinct ids and one
pdisk entry each: one record is left, with the id and the message of the
first, count and listed the number of records, and as many pdisk entries. -/
theorem MoveDataInFirstRecord_distinct (context : TMergeIssuesContext) (first : TIssueRecord)
    (rest : List TIssueRecord)
    (hl : ((first :: rest).map (fun it => it.IssueLog.id)).Nodup)
    (ht : first.Tag = ETags.PDiskState)
    (h1 : ∀ a ∈ first :: rest,
      a.IssueLog.location.storage.pool.group.vdisk.pdisk.length = 1) :
    ∃ main, (MoveDataInFirstRecord context (first :: rest)).2 = [main] ∧
      main.Tag = ETags.PDiskState ∧ main.IssueLog.id = first.IssueLog.id ∧
      main.IssueLog.message = first.IssueLog.message ∧
      main.IssueLog.count = rest.length + 1 ∧ main.IssueLog.listed = rest.length + 1 ∧
      main.IssueLog.location.storage.pool.group.vdisk.pdisk.length = rest.length + 1 ∧
      (MoveDataInFirstRecord context (first :: rest)).1.recordsMap = context.recordsMap ∧
      ∀ x ∈ (MoveDataInFirstRecord context (first :: rest)).1.removeIssuesIds,
        x ∈ context.removeIssuesIds ∨ x ∈ rest.map (fun it => it.IssueLog.id) := by
  rw [List.map_cons, List.nodup_cons] at hl
  obtain ⟨i1, i2, i3, i4, i5, i6, i7⟩ := foldl_MoveDataStep_distinct rest
    { main := first, ids := [first.IssueLog.id], mainReasonIds := first.IssueLog.reason,
      removeIssuesIds := context.removeIssuesIds }
    (by
      intro a ha
      dsimp only
      rw [List.mem_singleton]
      intro e
      exact hl.1 (e ▸ List.mem_map_of_mem _ ha))
    hl.2 ht (fun a ha => h1 a (List.mem_cons_of_mem _ ha))
  unfold MoveDataInFirstRecord
  dsimp only at i1 i2 i3 i4 i5 i6 i7 ⊢
  refine ⟨_, by rw [i1], ?_, ?_, ?_, ?_, ?_, ?_, rfl, i7⟩
  · exact i3.trans ht
  · exact i4
  · exact i5
  · show _ = _
    dsimp only
    rw [i2, List.length_singleton]; omega
  · show _ = _
    dsimp only
    rw [i2, List.length_singleton]; omega
  · show _ = _
    dsimp only
    rw [i6, h1 first (List.mem_cons_self _ _)]; omega

theorem MergeLevelRecordsTag_empty (context : TMergeIssuesContext) (levelTag : ETags)
    (h : context.GetRecords levelTag = []) :
    (MergeLevelRecordsTag context levelTag).GetRecords levelTag = [] ∧
    (MergeLevelRecordsTag context levelTag).removeIssuesIds = context.removeIssuesIds := by
  unfold MergeLevelRecordsTag
  dsimp only
  rw [h, GetRecords_SetRecords_same]
  exact ⟨rfl, rfl⟩

theorem MergeLevelRecordsUpper_no_upper (context : TMergeIssuesContext)
    (levelTag upperTag : ETags) (hne : upperTag ≠ levelTag)
    (h : context.GetRecords upperTag = []) :
    (MergeLevelRecordsUpper context levelTag upperTag).GetRecords levelTag =
      context.GetRecords levelTag ∧
    (MergeLevelRecordsUpper context levelTag upperTag).removeIssuesIds =
      context.removeIssuesIds := by
  unfold MergeLevelRecordsUpper
  dsimp only
  rw [GetRecords_SetRecords_ne _ _ _ _ hne, h, List.foldl_nil, GetRecords_SetRecords_same]
  exact ⟨rfl, rfl⟩

theorem FindChildrenRecords_all (records : List TIssueRecord) (parent : TIssueRecord)
    (h : ∀ r ∈ records, r.IssueLog.id ∈ parent.IssueLog.reason) :
    FindChildrenRecords records parent = (records, []) := by
  unfold FindChildrenRecords
  rw [List.filter_eq_self.2 (fun r hr => by simpa using h r hr),
    List.filter_eq_nil_iff.2 (fun r hr => by simpa using h r hr)]

/-- MergeLevelRecords under one upper record that lists all records of the
level, when these are more than four and similar to the first. -/
theorem MergeLevelRecordsUpper_single (context : TMergeIssuesContext)
    (levelTag upperTag : ETags) (hne : upperTag ≠ levelTag) (u first : TIssueRecord)
    (rest : List TIssueRecord) (hu : context.GetRecords upperTag = [u])
    (hl : context.GetRecords levelTag = first :: rest)
    (hall : ∀ r ∈ first :: rest, r.IssueLog.id ∈ u.IssueLog.reason)
    (hsim : ∀ r ∈ rest, IsSimilar first r = true)
    (hlen : MERGING_IGNORE_SIZE < (first :: rest).length) :
    ∃ ctx : TMergeIssuesContext, ctx.removeIssuesIds = context.removeIssuesIds ∧
      (MergeLevelRecordsUpper context levelTag upperTag).GetRecords levelTag =
        (MoveDataInFirstRecord ctx (first :: rest)).2.take 1 ∧
      (MergeLevelRecordsUpper context levelTag upperTag).removeIssuesIds =
        (MoveDataInFirstRecord ctx (first :: rest)).1.removeIssuesIds := by
  refine ⟨(context.SetRecords levelTag (context.GetRecords levelTag)).SetRecords upperTag
    (context.GetRecords upperTag), rfl, ?_⟩
  have hgt : (first :: rest).length > 1 := by
    unfold MERGING_IGNORE_SIZE at hlen
    omega
  unfold MergeLevelRecordsUpper
  dsimp only
  rw [GetRecords_SetRecords_ne _ _ _ _ hne, hu, hl, List.foldl_cons, List.foldl_nil]
  dsimp only
  rw [FindChildrenRecords_all _ _ hall]
  dsimp only
  rw [if_pos hgt, MergeLevelRecords_all_similar _ first rest hsim hlen,
    GetRecords_SetRecords_same]
  exact ⟨rfl, rfl⟩

/-- RemoveRecordsAboveLimit on one record with a listed value `n` above the
limit, in the range of `int`: listed becomes 10 and the last `n - 10`
location ids are removed. -/
theorem RemoveRecordsAboveLimit_single (context : TMergeIssuesContext) (m : TIssueRecord)
    (n : Nat) (hn : ListedValue m = n) (h : MERGER_ISSUE_LIMIT < n) (hmax : n ≤ 2147483647) :
    RemoveRecordsAboveLimit context [m] =
      (context, [RemoveLocationIds (SetIssueListed m 10) ((n : Int) - 10)]) := by
  have hg : GetIssueListed m = (n : Int) := by rw [GetIssueListed_eq m (by omega), hn]
  unfold MERGER_ISSUE_LIMIT at h
  have hw : WrapInt32 (0 + GetIssueListed m) = (n : Int) := by
    rw [Int.zero_add, hg]
    exact WrapInt32_of_range _ (by omega) (by omega)
  have hw2 : WrapInt32 ((n : Int) - 10) = (n : Int) - 10 :=
    WrapInt32_of_range _ (by omega) (by omega)
  have hw3 : WrapInt32 ((n : Int) - ((n : Int) - 10)) = 10 := by
    rw [WrapInt32_of_range _ (by omega) (by omega)]
    omega
  unfold RemoveRecordsAboveLimit
  dsimp only
  rw [List.foldl_cons, List.foldl_nil]
  unfold RemoveRecordsAboveLimitStep MERGER_ISSUE_LIMIT
  dsimp only
  simp only [Nat.cast_ofNat]
  rw [if_neg (by decide), hw, if_pos (by omega), hw2, hg, hw3]
  rfl

theorem RemoveRecordsAboveLimitUpper_single (context : TMergeIssuesContext)
    (levelTag upperTag : ETags) (hne : upperTag ≠ levelTag) (u m : TIssueRecord)
    (hu : context.GetRecords upperTag = [u]) (hl : context.GetRecords levelTag = [m])
    (hm : m.IssueLog.id ∈ u.IssueLog.reason)
    (n : Nat) (hn : ListedValue m = n) (h : MERGER_ISSUE_LIMIT < n) (hmax : n ≤ 2147483647) :
    (RemoveRecordsAboveLimitUpper context levelTag upperTag).GetRecords levelTag =
      [RemoveLocationIds (SetIssueListed m 10) ((n : Int) - 10)] ∧
    (RemoveRecordsAboveLimitUpper context levelTag upperTag).removeIssuesIds =
      context.removeIssuesIds := by
  unfold RemoveRecordsAboveLimitUpper
  dsimp only
  rw [GetRecords_SetRecords_ne _ _ _ _ hne, hu, hl, List.foldl_cons, List.foldl_nil]
  dsimp only
  rw [FindChildrenRecords_all [m] u (fun r hr => by rw [List.mem_singleton.1 hr]; exact hm)]
  dsimp only
  rw [RemoveRecordsAboveLimit_single _ m n hn h hmax, GetRecords_SetRecords_same]
  exact ⟨rfl, rfl⟩

theorem RemoveRecordsAboveLimitUpper_no_upper (context : TMergeIssuesContext)
    (levelTag upperTag : ETags) (hne : upperTag ≠ levelTag)
    (h : context.GetRecords upperTag = []) :
    (RemoveRecordsAboveLimitUpper context levelTag upperTag).GetRecords levelTag =
      context.GetRecords levelTag ∧
    (RemoveRecordsAboveLimitUpper context levelTag upperTag).removeIssuesIds =
      context.removeIssuesIds := by
  unfold RemoveRecordsAboveLimitUpper
  dsimp only
  rw [GetRecords_SetRecords_ne _ _ _ _ hne, h, List.foldl_nil, GetRecords_SetRecords_same,
    List.append_nil]
  exact ⟨rfl, rfl⟩

theorem RemoveRecordsAboveLimitTag_empty (context : TMergeIssuesContext) (levelTag : ETags)
    (h : context.GetRecords levelTag = []) :
    (RemoveRecordsAboveLimitTag context levelTag).GetRecords levelTag = [] ∧
    (RemoveRecordsAboveLimitTag context levelTag).removeIssuesIds = context.removeIssuesIds := by
  unfold RemoveRecordsAboveLimitTag
  dsimp only
  rw [h, if_neg (by simp), GetRecords_SetRecords_same]
  exact ⟨rfl, rfl⟩

/-- The three merging stages on one vdisk record that lists all pdisk
records, these being similar, more than four, with distinct ids and one pdisk
entry each. -/
theorem MergeStages_single (c : TMergeIssuesContext) (v first : TIssueRecord)
    (rest : List TIssueRecord) (t : TagInv c.recordsMap)
    (hV : c.GetRecords ETags.VDiskState = [v])
    (hP : c.GetRecords ETags.PDiskState = first :: rest)
    (hG : c.GetRecords ETags.GroupState = [])
    (hall : ∀ r ∈ first :: rest, r.IssueLog.id ∈ v.IssueLog.reason)
    (hsim : ∀ r ∈ rest, IsSimilar first r = true)
    (hlen : MERGING_IGNORE_SIZE < (first :: rest).length)
    (hid : ((first :: rest).map (fun it => it.IssueLog.id)).Nodup)
    (hone : ∀ a ∈ first :: rest,
      a.IssueLog.location.storage.pool.group.vdisk.pdisk.length = 1) :
    TagInv (MergeLevelRecordsUpper
      (MergeLevelRecordsUpper (MergeLevelRecordsTag c ETags.GroupState)
        ETags.VDiskState ETags.GroupState) ETags.PDiskState ETags.VDiskState).recordsMap ∧
    (MergeLevelRecordsUpper
      (MergeLevelRecordsUpper (MergeLevelRecordsTag c ETags.GroupState)
        ETags.VDiskState ETags.GroupState) ETags.PDiskState ETags.VDiskState).GetRecords
          ETags.VDiskState = [v] ∧
    (MergeLevelRecordsUpper
      (MergeLevelRecordsUpper (MergeLevelRecordsTag c ETags.GroupState)
        ETags.VDiskState ETags.GroupState) ETags.PDiskState ETags.VDiskState).GetRecords
          ETags.GroupState = [] ∧
    (∀ tag, tag ≠ ETags.VDiskState → tag ≠ ETags.PDiskState → tag ≠ ETags.GroupState →
      (MergeLevelRecordsUpper
        (MergeLevelRecordsUpper (MergeLevelRecordsTag c ETags.GroupState)
          ETags.VDiskState ETags.GroupState) ETags.PDiskState ETags.VDiskState).GetRecords
            tag = c.GetRecords tag) ∧
    ∃ main, (MergeLevelRecordsUpper
      (MergeLevelRecordsUpper (MergeLevelRecordsTag c ETags.GroupState)
        ETags.VDiskState ETags.GroupState) ETags.PDiskState ETags.VDiskState).GetRecords
          ETags.PDiskState = [main] ∧
      main.Tag = ETags.PDiskState ∧ main.IssueLog.id = first.IssueLog.id ∧
      main.IssueLog.message = first.IssueLog.message ∧
      main.IssueLog.count = rest.length + 1 ∧ main.IssueLog.listed = rest.length + 1 ∧
      main.IssueLog.location.storage.pool.group.vdisk.pdisk.length = rest.length + 1 ∧
      ∀ x ∈ (MergeLevelRecordsUpper
        (MergeLevelRecordsUpper (MergeLevelRecordsTag c ETags.GroupState)
          ETags.VDiskState ETags.GroupState) ETags.PDiskState ETags.VDiskState).removeIssuesIds,
        x ∈ c.removeIssuesIds ∨ x ∈ rest.map (fun it => it.IssueLog.id) := by
  have ht : first.Tag = ETags.PDiskState :=
    TagInv_GetRecords c _ t first (by rw [hP]; exact List.mem_cons_self _ _)
  obtain ⟨t1, f1, _⟩ := MergeLevelRecordsTag_spec c ETags.GroupState t
  obtain ⟨g1, r1⟩ := MergeLevelRecordsTag_empty c ETags.GroupState hG
  obtain ⟨t2, f2, _⟩ := MergeLevelRecordsUpper_spec (MergeLevelRecordsTag c ETags.GroupState)
    ETags.VDiskState ETags.GroupState (by decide) t1
  obtain ⟨v2, r2⟩ := MergeLevelRecordsUpper_no_upper (MergeLevelRecordsTag c ETags.GroupState)
    ETags.VDiskState ETags.GroupState (by decide) g1
  obtain ⟨t3, f3, _⟩ := MergeLevelRecordsUpper_spec
    (MergeLevelRecordsUpper (MergeLevelRecordsTag c ETags.GroupState)
      ETags.VDiskState ETags.GroupState) ETags.PDiskState ETags.VDiskState (by decide) t2
  have hV2 : (MergeLevelRecordsUpper (MergeLevelRecordsTag c ETags.GroupState)
      ETags.VDiskState ETags.GroupState).GetRecords ETags.VDiskState = [v] := by
    rw [v2, f1 _ (by decide), hV]
  have hP2 : (MergeLevelRecordsUpper (MergeLevelRecordsTag c ETags.GroupState)
      ETags.VDiskState ETags.GroupState).GetRecords ETags.PDiskState = first :: rest := by
    rw [f2 _ (by decide), f1 _ (by decide), hP]
  obtain ⟨ctx, hctx, p3, r3⟩ := MergeLevelRecordsUpper_single
    (MergeLevelRecordsUpper (MergeLevelRecordsTag c ETags.GroupState)
      ETags.VDiskState ETags.GroupState) ETags.PDiskState ETags.VDiskState (by decide)
    v first rest hV2 hP2 hall hsim hlen
  obtain ⟨main, m0, m1, m2, m3, m4, m5, m6, _, m8⟩ :=
    MoveDataInFirstRecord_distinct ctx first rest hid ht hone
  refine ⟨t3, by rw [f3 _ (by decide), hV2], by rw [f3 _ (by decide), f2 _ (by decide), g1],
    fun tag h1 h2 h3 => by rw [f3 _ h2, f2 _ h1, f1 _ h3],
    main, by rw [p3, m0]; rfl, m1, m2, m3, m4, m5, m6, fun x hx => ?_⟩
  rw [r3] at hx
  rcases m8 x hx with h | h
  · rw [hctx, r2, r1] at h
    exact Or.inl h
  · exact Or.inr h

theorem cut_fields (m : TIssueRecord) (n : Nat) (hn : MERGER_ISSUE_LIMIT < n)
    (ht : m.Tag = ETags.PDiskState) (hc : m.IssueLog.count = n)
    (hp : m.IssueLog.location.storage.pool.group.vdisk.pdisk.length = n) :
    (RemoveLocationIds (SetIssueListed m 10) ((n : Int) - 10)).Tag = ETags.PDiskState ∧
    (RemoveLocationIds (SetIssueListed m 10) ((n : Int) - 10)).IssueLog.id = m.IssueLog.id ∧
    (RemoveLocationIds (SetIssueListed m 10) ((n : Int) - 10)).IssueLog.message =
      m.IssueLog.message ∧
    (RemoveLocationIds (SetIssueListed m 10) ((n : Int) - 10)).IssueLog.count = n ∧
    (RemoveLocationIds (SetIssueListed m 10) ((n : Int) - 10)).IssueLog.listed =
      MERGER_ISSUE_LIMIT ∧
    (RemoveLocationIds (SetIssueListed m 10)
      ((n : Int) - 10)).IssueLog.location.storage.pool.group.vdisk.pdisk.length
        = MERGER_ISSUE_LIMIT := by
  have hpos : n ≠ 0 := by
    unfold MERGER_ISSUE_LIMIT at hn
    omega
  have hs : SetIssueListed m 10 = { m with IssueLog.listed := 10 } := by
    unfold SetIssueListed
    dsimp only
    rw [if_neg (by rw [hc]; exact hpos)]
    rfl
  have hr : RemoveLocationIds { m with IssueLog.listed := 10 } ((n : Int) - 10) =
      { m with
        IssueLog.listed := 10,
        IssueLog.location.storage.pool.group.vdisk.pdisk :=
          RemoveLastN m.IssueLog.location.storage.pool.group.vdisk.pdisk
            ((n : Int) - 10).toNat } := by
    unfold RemoveLocationIds
    split
    · rename_i h; rw [show ({ m with IssueLog.listed := 10 } :
        TIssueRecord).Tag = m.Tag from rfl, ht] at h; cases h
    · rename_i h; rw [show ({ m with IssueLog.listed := 10 } :
        TIssueRecord).Tag = m.Tag from rfl, ht] at h; cases h
    · rfl
    · rename_i h2 h3 h4; exact absurd ht h4
  rw [hs, hr]
  dsimp only
  refine ⟨ht, rfl, rfl, hc, rfl, ?_⟩
  unfold RemoveLastN
  rw [List.length_take, hp]
  unfold MERGER_ISSUE_LIMIT at *
  omega

/-- The three cutting stages on one vdisk record and one pdisk record it
lists, whose listed value is above the limit. -/
theorem CutStages_single (c : TMergeIssuesContext) (v m : TIssueRecord)
    (t : TagInv c.recordsMap)
    (hV : c.GetRecords ETags.VDiskState = [v])
    (hP : c.GetRecords ETags.PDiskState = [m])
    (hG : c.GetRecords ETags.GroupState = [])
    (hm : m.IssueLog.id ∈ v.IssueLog.reason)
    (n : Nat) (hn : ListedValue m = n) (h : MERGER_ISSUE_LIMIT < n) (hmax : n ≤ 2147483647) :
    TagInv (RemoveRecordsAboveLimitTag
      (RemoveRecordsAboveLimitUpper
        (RemoveRecordsAboveLimitUpper c ETags.PDiskState ETags.VDiskState)
        ETags.VDiskState ETags.GroupState) ETags.GroupState).recordsMap ∧
    (RemoveRecordsAboveLimitTag
      (RemoveRecordsAboveLimitUpper
        (RemoveRecordsAboveLimitUpper c ETags.PDiskState ETags.VDiskState)
        ETags.VDiskState ETags.GroupState) ETags.GroupState).GetRecords ETags.VDiskState =
          [v] ∧
    (RemoveRecordsAboveLimitTag
      (RemoveRecordsAboveLimitUpper
        (RemoveRecordsAboveLimitUpper c ETags.PDiskState ETags.VDiskState)
        ETags.VDiskState ETags.GroupState) ETags.GroupState).GetRecords ETags.GroupState =
          [] ∧
    (RemoveRecordsAboveLimitTag
      (RemoveRecordsAboveLimitUpper
        (RemoveRecordsAboveLimitUpper c ETags.PDiskState ETags.VDiskState)
        ETags.VDiskState ETags.GroupState) ETags.GroupState).GetRecords ETags.PDiskState =
      [RemoveLocationIds (SetIssueListed m 10) ((n : Int) - 10)] ∧
    (∀ tag, tag ≠ ETags.VDiskState → tag ≠ ETags.PDiskState → tag ≠ ETags.GroupState →
      (RemoveRecordsAboveLimitTag
        (RemoveRecordsAboveLimitUpper
          (RemoveRecordsAboveLimitUpper c ETags.PDiskState ETags.VDiskState)
          ETags.VDiskState ETags.GroupState) ETags.GroupState).GetRecords tag =
            c.GetRecords tag) ∧
    (RemoveRecordsAboveLimitTag
      (RemoveRecordsAboveLimitUpper
        (RemoveRecordsAboveLimitUpper c ETags.PDiskState ETags.VDiskState)
        ETags.VDiskState ETags.GroupState) ETags.GroupState).removeIssuesIds =
          c.removeIssuesIds := by
  obtain ⟨t4, f4, _⟩ := RemoveRecordsAboveLimitUpper_frame c ETags.PDiskState ETags.VDiskState
    (by decide) t
  obtain ⟨p4, r4⟩ := RemoveRecordsAboveLimitUpper_single c ETags.PDiskState ETags.VDiskState
    (by decide) v m hV hP hm n hn h hmax
  obtain ⟨t5, f5, _⟩ := RemoveRecordsAboveLimitUpper_frame
    (RemoveRecordsAboveLimitUpper c ETags.PDiskState ETags.VDiskState)
    ETags.VDiskState ETags.GroupState (by decide) t4
  have hG4 : (RemoveRecordsAboveLimitUpper c ETags.PDiskState ETags.VDiskState).GetRecords
      ETags.GroupState = [] := by rw [f4 _ (by decide), hG]
  obtain ⟨v5, r5⟩ := RemoveRecordsAboveLimitUpper_no_upper
    (RemoveRecordsAboveLimitUpper c ETags.PDiskState ETags.VDiskState)
    ETags.VDiskState ETags.GroupState (by decide) hG4
  obtain ⟨t6, f6, _, _⟩ := RemoveRecordsAboveLimitTag_spec
    (RemoveRecordsAboveLimitUpper
      (RemoveRecordsAboveLimitUpper c ETags.PDiskState ETags.VDiskState)
      ETags.VDiskState ETags.GroupState) ETags.GroupState t5
  have hG5 : (RemoveRecordsAboveLimitUpper
      (RemoveRecordsAboveLimitUpper c ETags.PDiskState ETags.VDiskState)
      ETags.VDiskState ETags.GroupState).GetRecords ETags.GroupState = [] := by
    rw [f5 _ (by decide), hG4]
  obtain ⟨g6, r6⟩ := RemoveRecordsAboveLimitTag_empty
    (RemoveRecordsAboveLimitUpper
      (RemoveRecordsAboveLimitUpper c ETags.PDiskState ETags.VDiskState)
      ETags.VDiskState ETags.GroupState) ETags.GroupState hG5
  refine ⟨t6, by rw [f6 _ (by decide), v5, f4 _ (by decide), hV], g6,
    by rw [f6 _ (by decide), f5 _ (by decide), p4],
    fun tag h1 h2 h3 => by rw [f6 _ h3, f5 _ h1, f4 _ h2], by rw [r6, r5, r4]⟩

theorem mem_foldl_reasons (l : List TIssueRecord) (init : List String) (x : String) :
    x ∈ l.foldl (fun ids it => it.IssueLog.reason.foldl TSetInsert ids) init ↔
      x ∈ init ∨ ∃ r ∈ l, x ∈ r.IssueLog.reason := by
  induction l generalizing init with
  | nil => simp
  | cons a l ih =>
    rw [List.foldl_cons, ih, mem_foldl_TSetInsert]
    simp only [List.mem_cons, exists_eq_or_imp]
    tauto

theorem mem_NecessaryIssuesIds (records : List TIssueRecord) (x : String) :
    x ∈ NecessaryIssuesIds records ↔ ∃ r ∈ records, x ∈ r.IssueLog.reason := by
  unfold NecessaryIssuesIds
  rw [mem_foldl_reasons]
  simp

theorem foldl_RemoveUnlinkStep_keep (necessary : List String) (l : List TIssueRecord)
    (st : TUnlinkState)
    (h : ∀ r ∈ l, r.IssueLog.id ∈ necessary ∨ r.IssueLog.id ∉ st.removeIssuesIds) :
    l.foldl (RemoveUnlinkStep necessary) st = { st with kept := st.kept ++ l } := by
  induction l generalizing st with
  | nil => simp
  | cons a l ih =>
    rw [List.foldl_cons]
    have hstep : RemoveUnlinkStep necessary st a = { st with kept := st.kept ++ [a] } := by
      unfold RemoveUnlinkStep
      rw [if_neg]
      intro hc
      rcases h a (List.mem_cons_self _ _) with h1 | h1
      · exact hc.1 h1
      · exact h1 hc.2
    rw [hstep, ih { st with kept := st.kept ++ [a] }
      (fun r hr => h r (List.mem_cons_of_mem _ hr))]
    simp

/-- When no record is both unlisted and removed, RemoveUnlinkIssues erases
nothing. -/
theorem RemoveUnlinkLoop_keep (fuel : Nat) (records : List TIssueRecord)
    (removeIssuesIds : List String)
    (h : ∀ r ∈ records,
      r.IssueLog.id ∈ NecessaryIssuesIds records ∨ r.IssueLog.id ∉ removeIssuesIds) :
    RemoveUnlinkLoop (fuel + 1) records removeIssuesIds = (records, removeIssuesIds) := by
  unfold RemoveUnlinkLoop
  dsimp only
  rw [foldl_RemoveUnlinkStep_keep _ _ _ h]
  simp

theorem filter_map_tag (g : TIssueRecord → TIssueRecord) (hg : ∀ r, (g r).Tag = r.Tag)
    (tag : ETags) (l : List TIssueRecord) :
    (l.map g).filter (fun r => decide (r.Tag = tag)) =
      (l.filter (fun r => decide (r.Tag = tag))).map g := by
  induction l with
  | nil => rfl
  | cons a l ih =>
    rw [List.map_cons, List.filter_cons, List.filter_cons, hg a]
    split
    · rw [List.map_cons, ih]
    · exact ih

/-- FillRecords when RemoveUnlinkIssues erases nothing: the records of a tag
are those the map holds for it, each with its reasons filtered and, when its
count is set, its message rewritten. -/
theorem FillRecords_keep (X : TExternal) (c : TMergeIssuesContext) (t : TagInv c.recordsMap)
    (h : ∀ r ∈ (X.MapOrder (c.recordsMap.map Prod.fst)).val.foldl
        (fun records k => records ++ c.GetRecords k) [],
      r.IssueLog.id ∈ NecessaryIssuesIds ((X.MapOrder (c.recordsMap.map Prod.fst)).val.foldl
        (fun records k => records ++ c.GetRecords k) []) ∨
      r.IssueLog.id ∉ c.removeIssuesIds) (tag : ETags) :
    ∃ g : TIssueRecord → TIssueRecord,
      (c.FillRecords X []).filter (fun r => decide (r.Tag = tag)) = (c.GetRecords tag).map g ∧
      ∀ r, (g r).Tag = r.Tag ∧ (g r).IssueLog.id = r.IssueLog.id ∧
        (g r).IssueLog.count = r.IssueLog.count ∧ (g r).IssueLog.listed = r.IssueLog.listed ∧
        (g r).IssueLog.location = r.IssueLog.location ∧
        (g r).IssueLog.message =
          if r.IssueLog.count > 0 then RenameMessage r.Tag r.IssueLog.message
          else r.IssueLog.message := by
  refine ⟨fun it =>
      (fun it : TIssueRecord =>
        if it.IssueLog.count > 0 then
          { it with IssueLog.message := RenameMessage it.Tag it.IssueLog.message }
        else it)
      { it with IssueLog.reason := it.IssueLog.reason.filter (fun r => decide (r ∈
        (((X.MapOrder (c.recordsMap.map Prod.fst)).val.foldl
            (fun records k => records ++ c.GetRecords k) []).map
              (fun it => it.IssueLog.id)))) }, ?_, fun r => ?_⟩
  · rw [← FillRecords_collect X c t tag, ← filter_map_tag]
    · congr 1
      unfold TMergeIssuesContext.FillRecords TMergeIssuesContext.RemoveUnlinkIssues
        RenameMergingIssues FilterReasons
      dsimp only
      rw [RemoveUnlinkLoop_keep _ _ _ h, List.map_map]
      rfl
    · intro r
      dsimp only
      split <;> rfl
  · dsimp only
    split
    · exact ⟨rfl, rfl, rfl, rfl, rfl, rfl⟩
    · exact ⟨rfl, rfl, rfl, rfl, rfl, rfl⟩

/-- MergeRecords on one vdisk record and the pdisk records it lists, these
being more than ten, similar, with distinct ids and one pdisk entry each:
one pdisk record is left, with the count of all, listed = 10 and ten pdisk
entries; its message is the common message as RenameMessage rewrites it. -/
theorem MergeRecords_similar_pdisks (X : TExternal) (L : List TIssueRecord)
    (v first : TIssueRecord) (rest : List TIssueRecord)
    (hV : L.filter (fun r => decide (r.Tag = ETags.VDiskState)) = [v])
    (hP : L.filter (fun r => decide (r.Tag = ETags.PDiskState)) = first :: rest)
    (hO : ∀ tag, tag ≠ ETags.VDiskState → tag ≠ ETags.PDiskState →
      L.filter (fun r => decide (r.Tag = tag)) = [])
    (hall : ∀ r ∈ first :: rest, r.IssueLog.id ∈ v.IssueLog.reason)
    (hsim : ∀ r ∈ rest, IsSimilar first r = true)
    (hlen : MERGER_ISSUE_LIMIT < rest.length + 1) (hmax : rest.length + 1 ≤ 2147483647)
    (hid : ((first :: rest).map (fun it => it.IssueLog.id)).Nodup)
    (hone : ∀ a ∈ first :: rest,
      a.IssueLog.location.storage.pool.group.vdisk.pdisk.length = 1) :
    ∃ m, (MergeRecords X L).filter (fun r => decide (r.Tag = ETags.PDiskState)) = [m] ∧
      m.IssueLog.id = first.IssueLog.id ∧
      m.IssueLog.count = rest.length + 1 ∧ m.IssueLog.listed = MERGER_ISSUE_LIMIT ∧
      m.IssueLog.location.storage.pool.group.vdisk.pdisk.length = MERGER_ISSUE_LIMIT ∧
      m.IssueLog.message = RenameMessage ETags.PDiskState first.IssueLog.message := by
  have t0 := ctor_TagInv L
  have hlen4 : MERGING_IGNORE_SIZE < (first :: rest).length := by
    rw [List.length_cons]
    unfold MERGING_IGNORE_SIZE
    unfold MERGER_ISSUE_LIMIT at hlen
    omega
  obtain ⟨t3, v3, g3, o3, main, p3, m1, m2, m3, m4, m5, m6, m7⟩ :=
    MergeStages_single (TMergeIssuesContext.ctor L) v first rest t0
      (by rw [ctor_GetRecords, hV]) (by rw [ctor_GetRecords, hP])
      (by rw [ctor_GetRecords, hO _ (by decide) (by decide)]) hall hsim hlen4 hid hone
  have hpos : rest.length + 1 ≠ 0 := Nat.succ_ne_zero _
  have hlisted : ListedValue main = rest.length + 1 := by
    unfold ListedValue
    rw [m5, if_neg hpos]
  have hm : main.IssueLog.id ∈ v.IssueLog.reason := by
    rw [m2]
    exact hall first (List.mem_cons_self _ _)
  obtain ⟨t6, v6, g6, p6, o6, r6⟩ := CutStages_single _ v main t3 v3 p3 g3 hm
    (rest.length + 1) hlisted hlen hmax
  obtain ⟨c1, c2, c3, c4, c5, c6⟩ := cut_fields main (rest.length + 1) hlen m1 m4 m6
  have hc : MergeContext L = RemoveRecordsAboveLimitTag
      (RemoveRecordsAboveLimitUpper
        (RemoveRecordsAboveLimitUpper
          (MergeLevelRecordsUpper
            (MergeLevelRecordsUpper
              (MergeLevelRecordsTag (TMergeIssuesContext.ctor L) ETags.GroupState)
              ETags.VDiskState ETags.GroupState) ETags.PDiskState ETags.VDiskState)
          ETags.PDiskState ETags.VDiskState)
        ETags.VDiskState ETags.GroupState) ETags.GroupState := rfl
  rw [← hc] at t6 v6 g6 p6 o6 r6
  have hrem : ∀ x ∈ (MergeContext L).removeIssuesIds,
      x ∈ rest.map (fun it => it.IssueLog.id) := by
    intro x hx
    rw [r6] at hx
    rcases m7 x hx with h | h
    · rw [ctor_removeIssuesIds] at h
      cases h
    · exact h
  have hvC : v ∈ (X.MapOrder ((MergeContext L).recordsMap.map Prod.fst)).val.foldl
      (fun records k => records ++ (MergeContext L).GetRecords k) [] := by
    have h1 := FillRecords_collect X (MergeContext L) t6 ETags.VDiskState
    rw [v6] at h1
    have h2 : v ∈ [v] := List.mem_singleton_self v
    rw [← h1] at h2
    exact (List.mem_filter.1 h2).1
  obtain ⟨g, hg1, hg2⟩ := FillRecords_keep X (MergeContext L) t6 (by
    intro r hr
    have h1 := FillRecords_collect X (MergeContext L) t6 r.Tag
    have h2 : r ∈ (MergeContext L).GetRecords r.Tag := by
      rw [← h1]
      exact List.mem_filter.2 ⟨hr, by simp⟩
    by_cases hrV : r.Tag = ETags.VDiskState
    · rw [hrV, v6, List.mem_singleton] at h2
      subst h2
      by_cases hx : r.IssueLog.id ∈ (MergeContext L).removeIssuesIds
      · left
        rw [mem_NecessaryIssuesIds]
        obtain ⟨p, hp, e⟩ := List.mem_map.1 (hrem _ hx)
        refine ⟨r, hvC, ?_⟩
        rw [← e]
        exact hall p (List.mem_cons_of_mem _ hp)
      · exact Or.inr hx
    · by_cases hrP : r.Tag = ETags.PDiskState
      · rw [hrP, p6, List.mem_singleton] at h2
        right
        intro hx
        have h3 := hrem _ hx
        rw [h2, c2, m2] at h3
        rw [List.map_cons, List.nodup_cons] at hid
        exact hid.1 h3
      · by_cases hrG : r.Tag = ETags.GroupState
        · rw [hrG, g6] at h2
          cases h2
        · rw [o6 _ hrV hrP hrG, o3 _ hrV hrP hrG, ctor_GetRecords, hO _ hrV hrP] at h2
          cases h2) ETags.PDiskState
  rw [MergeRecords_eq, hg1, p6, List.map_cons, List.map_nil]
  obtain ⟨_, k2, k3, k4, k5, k6⟩ := hg2 (RemoveLocationIds (SetIssueListed main 10)
    (((rest.length + 1 : Nat) : Int) - 10))
  refine ⟨_, rfl, by rw [k2, c2, m2], by rw [k3, c4], by rw [k4, c5], by rw [k5, c6], ?_⟩
  rw [k6, c4, if_pos (Nat.succ_pos _), c1, c3, m3]

/-- C14: given one VDiskState record whose reason list holds the ids of 20
PDiskState records that have distinct ids, one pdisk location entry each, and
the same status, level and message "PDisk state is Missing", MergeRecords
leaves, in whatever order the 21 records come, exactly one PDiskState record,
with count = 20, listed = 10 and exactly 10 pdisk location entries; its
message still ends with " state is Missing". -/
theorem MergeRecords_missing_pdisks (X : TExternal) (L : List TIssueRecord)
    (v : TIssueRecord) (P : List TIssueRecord) (status : Status) (level : Nat)
    (hL : L.Perm (v :: P)) (hv : v.Tag = ETags.VDiskState) (hlen : P.length = 20)
    (hid : (P.map (fun it => it.IssueLog.id)).Nodup)
    (hP : ∀ p ∈ P, p.Tag = ETags.PDiskState ∧ p.IssueLog.id ∈ v.IssueLog.reason ∧
      p.IssueLog.status = status ∧ p.IssueLog.level = level ∧
      p.IssueLog.message = "PDisk state is Missing" ∧
      p.IssueLog.location.storage.pool.group.vdisk.pdisk.length = 1) :
    ∃ m, (MergeRecords X L).filter (fun r => decide (r.Tag = ETags.PDiskState)) = [m] ∧
      m.IssueLog.count = 20 ∧ m.IssueLog.listed = 10 ∧
      m.IssueLog.location.storage.pool.group.vdisk.pdisk.length = 10 ∧
      ∃ start : String, m.IssueLog.message = start ++ " state is Missing" := by
  have hPt : ∀ tag, tag ≠ ETags.PDiskState →
      P.filter (fun r => decide (r.Tag = tag)) = [] := by
    intro tag ht
    refine List.filter_eq_nil_iff.2 (fun r hr => ?_)
    rw [(hP r hr).1]
    simpa using fun e => ht e.symm
  have hPP : P.filter (fun r => decide (r.Tag = ETags.PDiskState)) = P :=
    List.filter_eq_self.2 (fun r hr => by simpa using (hP r hr).1)
  have hV : L.filter (fun r => decide (r.Tag = ETags.VDiskState)) = [v] := by
    have h := hL.filter (fun r => decide (r.Tag = ETags.VDiskState))
    rw [List.filter_cons, if_pos (by simpa using hv), hPt _ (by decide)] at h
    exact List.perm_singleton.1 h
  have hperm : (L.filter (fun r => decide (r.Tag = ETags.PDiskState))).Perm P := by
    have h := hL.filter (fun r => decide (r.Tag = ETags.PDiskState))
    rw [List.filter_cons, if_neg (by rw [hv]; decide), hPP] at h
    exact h
  have hO : ∀ tag, tag ≠ ETags.VDiskState → tag ≠ ETags.PDiskState →
      L.filter (fun r => decide (r.Tag = tag)) = [] := by
    intro tag h1 h2
    have h := hL.filter (fun r => decide (r.Tag = tag))
    rw [List.filter_cons, if_neg (by rw [hv]; simpa using fun e => h1 e.symm), hPt _ h2] at h
    exact List.perm_nil.1 h
  cases hc : L.filter (fun r => decide (r.Tag = ETags.PDiskState)) with
  | nil =>
    rw [hc] at hperm
    have := hperm.length_eq
    rw [hlen] at this
    cases this
  | cons first rest =>
    rw [hc] at hperm
    have hmem : ∀ r ∈ first :: rest, r ∈ P := fun r hr => hperm.mem_iff.1 hr
    have hn : rest.length + 1 = 20 := by
      have := hperm.length_eq
      rw [hlen, List.length_cons] at this
      exact this
    have hf := hP first (hmem first (List.mem_cons_self _ _))
    obtain ⟨m, h1, _, h3, h4, h5, h6⟩ := MergeRecords_similar_pdisks X L v first rest hV hc hO
      (fun r hr => (hP r (hmem r hr)).2.1)
      (fun r hr => by
        have hr2 := hP r (hmem r (List.mem_cons_of_mem _ hr))
        unfold IsSimilar
        simp [hr2.2.2.1, hr2.2.2.2.1, hr2.2.2.2.2.1, hf.2.2.1, hf.2.2.2.1, hf.2.2.2.2.1, hf.1])
      (by rw [hn]; decide) (by rw [hn]; decide)
      ((hperm.map _).nodup_iff.2 hid)
      (fun r hr => (hP r (hmem r hr)).2.2.2.2.2)
    refine ⟨m, h1, by rw [h3, hn], h4, h5, "PDisk", ?_⟩
    rw [h6, hf.2.2.2.2.1]
    decide

theorem MergeRecords_missing_pdisks_witness :
    exampleMissingPDisks.Perm (exampleMissingVDisk :: exampleMissingPDiskRecords) ∧
    exampleMissingVDisk.Tag = ETags.VDiskState ∧
    exampleMissingPDiskRecords.length = 20 ∧
    (exampleMissingPDiskRecords.map (fun it => it.IssueLog.id)).Nodup ∧
    (∀ p ∈ exampleMissingPDiskRecords,
      p.Tag = ETags.PDiskState ∧ p.IssueLog.id ∈ exampleMissingVDisk.IssueLog.reason ∧
      p.IssueLog.status = Status.RED ∧ p.IssueLog.level = 6 ∧
      p.IssueLog.message = "PDisk state is Missing" ∧
      p.IssueLog.location.storage.pool.group.vdisk.pdisk.length = 1) ∧
    ∃ m, (MergeRecords exampleExternal exampleMissingPDisks).filter
        (fun r => decide (r.Tag = ETags.PDiskState)) = [m] ∧
      m.IssueLog.count = 20 ∧ m.IssueLog.listed = 10 ∧
      m.IssueLog.location.storage.pool.group.vdisk.pdisk.length = 10 ∧
      ∃ start : String, m.IssueLog.message = start ++ " state is Missing" :=
  ⟨List.Perm.refl _, rfl, by decide, by decide, by decide,
    MergeRecords_missing_pdisks exampleExternal exampleMissingPDisks exampleMissingVDisk
      exampleMissingPDiskRecords Status.RED 6 (List.Perm.refl _) rfl (by decide) (by decide)
      (by decide)⟩

/-- The twenty pdisk records of the issue-merging scenario end as one record
whose message is "PDisk state is Missing", not "PDisks are Missing", whatever
the order in which the records map is iterated. -/
theorem merged_pdisks_keep_message :
    (MergeRecords exampleExternal exampleMissingPDisks).map
        (fun it => (it.Tag, it.IssueLog.message, it.IssueLog.count, it.IssueLog.listed,
          it.IssueLog.location.storage.pool.group.vdisk.pdisk.length)) =
      [(ETags.VDiskState, "VDisk is not available", 0, 0, 0),
        (ETags.PDiskState, "PDisk state is Missing", 20, 10, 10)] ∧
    ∀ X : TExternal,
      ((MergeRecords X exampleMissingPDisks).filter
        (fun r => decide (r.Tag = ETags.PDiskState))).map
          (fun it => (it.IssueLog.message, it.IssueLog.count, it.IssueLog.listed,
            it.IssueLog.location.storage.pool.group.vdisk.pdisk.length)) =
        [("PDisk state is Missing", 20, 10, 10)] := by
  refine ⟨by decide, fun X => ?_⟩
  rw [MergeRecords_eq]
  refine FillRecords_of_order X (MergeContext exampleMissingPDisks)
    ETags.VDiskState ETags.PDiskState ETags.GroupState (by decide)
    (fun O => (O.filter (fun r => decide (r.Tag = ETags.PDiskState))).map
        (fun it => (it.IssueLog.message, it.IssueLog.count, it.IssueLog.listed,
          it.IssueLog.location.storage.pool.group.vdisk.pdisk.length)) =
      [("PDisk state is Missing", 20, 10, 10)]) ?_
  decide

/-! ### C12: the list parts of the merger do not depend on the context -/

theorem MoveDataStep_rem (st : TMoveState) (x : List String) (a : TIssueRecord) :
    ∃ y, MoveDataStep { st with removeIssuesIds := x } a =
      { MoveDataStep st a with removeIssuesIds := y } := by
  unfold MoveDataStep
  dsimp only
  split
  · exact ⟨x, rfl⟩
  · exact ⟨TSetInsert x a.IssueLog.id, rfl⟩

theorem foldl_MoveDataStep_rem (l : List TIssueRecord) (st : TMoveState) (x : List String) :
    ∃ y, l.foldl MoveDataStep { st with removeIssuesIds := x } =
      { l.foldl MoveDataStep st with removeIssuesIds := y } := by
  induction l generalizing st x with
  | nil => exact ⟨x, rfl⟩
  | cons a l ih =>
    rw [List.foldl_cons, List.foldl_cons]
    obtain ⟨y, hy⟩ := MoveDataStep_rem st x a
    rw [hy]
    exact ih _ y

theorem MoveDataInFirstRecord_snd (c d : TMergeIssuesContext) (similar : List TIssueRecord) :
    (MoveDataInFirstRecord c similar).2 = (MoveDataInFirstRecord d similar).2 := by
  cases similar with
  | nil => rfl
  | cons first rest =>
    unfold MoveDataInFirstRecord
    dsimp only
    obtain ⟨y, hy⟩ := foldl_MoveDataStep_rem rest
      { main := first, ids := [first.IssueLog.id], mainReasonIds := first.IssueLog.reason,
        removeIssuesIds := d.removeIssuesIds } c.removeIssuesIds
    rw [hy]

theorem MergeLevelRecordsLoop_snd (fuel : Nat) (c d : TMergeIssuesContext)
    (records handled : List TIssueRecord) :
    (MergeLevelRecordsLoop fuel c records handled).2 =
      (MergeLevelRecordsLoop fuel d records handled).2 := by
  induction fuel generalizing c d records handled with
  | zero => rfl
  | succ fuel ih =>
    rw [MergeLevelRecordsLoop, MergeLevelRecordsLoop]
    split
    · rfl
    · dsimp only
      split
      · rw [MoveDataInFirstRecord_snd c d]
        exact ih _ _ _ _
      · exact ih _ _ _ _

theorem MergeLevelRecords_snd (c : TMergeIssuesContext) (records : List TIssueRecord) :
    (MergeLevelRecords c records).2 = MergeList records := by
  unfold MergeList MergeLevelRecords
  dsimp only
  rw [MergeLevelRecordsLoop_snd records.length c {} records []]

theorem RemoveRecordsAboveLimitStep_rem (st : TLimitState) (x : List String)
    (a : TIssueRecord) :
    ∃ y, RemoveRecordsAboveLimitStep { st with removeIssuesIds := x } a =
      { RemoveRecordsAboveLimitStep st a with removeIssuesIds := y } := by
  unfold RemoveRecordsAboveLimitStep
  dsimp only
  split
  · exact ⟨_, rfl⟩
  · split
    · exact ⟨x, rfl⟩
    · exact ⟨x, rfl⟩

theorem foldl_RemoveRecordsAboveLimitStep_rem (l : List TIssueRecord) (st : TLimitState)
    (x : List String) :
    ∃ y, l.foldl RemoveRecordsAboveLimitStep { st with removeIssuesIds := x } =
      { l.foldl RemoveRecordsAboveLimitStep st with removeIssuesIds := y } := by
  induction l generalizing st x with
  | nil => exact ⟨x, rfl⟩
  | cons a l ih =>
    rw [List.foldl_cons, List.foldl_cons]
    obtain ⟨y, hy⟩ := RemoveRecordsAboveLimitStep_rem st x a
    rw [hy]
    exact ih _ y

theorem RemoveRecordsAboveLimit_snd (c : TMergeIssuesContext) (records : List TIssueRecord) :
    (RemoveRecordsAboveLimit c records).2 = CutList records := by
  unfold CutList RemoveRecordsAboveLimit
  dsimp only
  obtain ⟨y, hy⟩ := foldl_RemoveRecordsAboveLimitStep_rem records
    { removeIssuesIds := ({} : TMergeIssuesContext).removeIssuesIds } c.removeIssuesIds
  rw [hy]

theorem MergeList_nil : MergeList [] = [] := rfl

theorem MergeList_singleton (a : TIssueRecord) : MergeList [a] = [a] := by
  unfold MergeList MergeLevelRecords
  dsimp only
  rw [List.length_singleton, MergeLevelRecordsLoop]
  unfold FindRecordsForMerge
  dsimp only
  rw [List.length_singleton, FindRecordsForMergeLoop]
  simp [MERGING_IGNORE_SIZE, FindRecordsForMergeLoop, MergeLevelRecordsLoop]

theorem MergeList_short (records : List TIssueRecord) (h : ¬ records.length > 1) :
    MergeList records = records := by
  cases records with
  | nil => rfl
  | cons a l =>
    cases l with
    | nil => exact MergeList_singleton a
    | cons b l => rw [List.length_cons, List.length_cons] at h; omega

theorem CutList_nil : CutList [] = [] := rfl

/-! ### C12: the stages as functions of the lists -/

theorem MergeLevelRecordsTag_list (c : TMergeIssuesContext) (levelTag : ETags) :
    (MergeLevelRecordsTag c levelTag).GetRecords levelTag =
      MergeList (c.GetRecords levelTag) := by
  unfold MergeLevelRecordsTag
  dsimp only
  rw [GetRecords_SetRecords_same, MergeLevelRecords_snd]

theorem RemoveRecordsAboveLimitTag_list (c : TMergeIssuesContext) (levelTag : ETags) :
    (RemoveRecordsAboveLimitTag c levelTag).GetRecords levelTag =
      CutList (c.GetRecords levelTag) := by
  unfold RemoveRecordsAboveLimitTag
  dsimp only
  split
  · rw [GetRecords_SetRecords_same, RemoveRecordsAboveLimit_snd]
  · rename_i h
    have he : c.GetRecords levelTag = [] := List.length_eq_zero.1 (Nat.eq_zero_of_not_pos h)
    rw [GetRecords_SetRecords_same, he]
    rfl

theorem MergeLevelRecordsUpper_fold_snd (us : List TIssueRecord) (c : TMergeIssuesContext)
    (pool : List TIssueRecord) :
    (us.foldl
      (fun (acc : TMergeIssuesContext × List TIssueRecord) it =>
        ((if (FindChildrenRecords acc.2 it).1.length > 1
            then MergeLevelRecords acc.1 (FindChildrenRecords acc.2 it).1
            else (acc.1, (FindChildrenRecords acc.2 it).1)).1,
          (FindChildrenRecords acc.2 it).2 ++
            (if (FindChildrenRecords acc.2 it).1.length > 1
              then MergeLevelRecords acc.1 (FindChildrenRecords acc.2 it).1
              else (acc.1, (FindChildrenRecords acc.2 it).1)).2))
      (c, pool)).2 =
    us.foldl (fun p u => p.filter (fun it => !Owns u it) ++ MergeList (p.filter (Owns u)))
      pool := by
  induction us generalizing c pool with
  | nil => rfl
  | cons u us ih =>
    rw [List.foldl_cons, List.foldl_cons]
    have h1 : (FindChildrenRecords pool u).1 = pool.filter (Owns u) := rfl
    have h2 : (FindChildrenRecords pool u).2 = pool.filter (fun it => !Owns u it) := rfl
    have h3 : (if (pool.filter (Owns u)).length > 1
        then MergeLevelRecords c (pool.filter (Owns u))
        else (c, pool.filter (Owns u))).2 = MergeList (pool.filter (Owns u)) := by
      split
      · exact MergeLevelRecords_snd _ _
      · rename_i h
        exact (MergeList_short _ h).symm
    dsimp only
    rw [h1, h2, h3]
    exact ih _ _

theorem RemoveRecordsAboveLimitUpper_fold_snd (us : List TIssueRecord)
    (c : TMergeIssuesContext) (pool handled : List TIssueRecord) :
    (us.foldl
      (fun (acc : TMergeIssuesContext × List TIssueRecord × List TIssueRecord) it =>
        ((RemoveRecordsAboveLimit acc.1 (FindChildrenRecords acc.2.1 it).1).1,
          (FindChildrenRecords acc.2.1 it).2,
          acc.2.2 ++ (RemoveRecordsAboveLimit acc.1 (FindChildrenRecords acc.2.1 it).1).2))
      (c, pool, handled)).2 =
    us.foldl (fun (acc : List TIssueRecord × List TIssueRecord) u =>
        (acc.1.filter (fun it => !Owns u it), acc.2 ++ CutList (acc.1.filter (Owns u))))
      (pool, handled) := by
  induction us generalizing c pool handled with
  | nil => rfl
  | cons u us ih =>
    rw [List.foldl_cons, List.foldl_cons]
    have h1 : (FindChildrenRecords pool u).1 = pool.filter (Owns u) := rfl
    have h2 : (FindChildrenRecords pool u).2 = pool.filter (fun it => !Owns u it) := rfl
    dsimp only
    rw [h1, h2, RemoveRecordsAboveLimit_snd]
    exact ih _ _ _

theorem NoOwner_cons (u : TIssueRecord) (us : List TIssueRecord) (r : TIssueRecord) :
    NoOwner (u :: us) r = (!Owns u r && NoOwner us r) := by
  unfold NoOwner
  rw [List.all_cons]

theorem Owns_congr (u r s : TIssueRecord) (h : r.IssueLog.id = s.IssueLog.id) :
    Owns u r = Owns u s := by
  unfold Owns
  rw [h]

theorem Owns_false_of_count (u : TIssueRecord) (us : List TIssueRecord) (r : TIssueRecord)
    (h : (u :: us).countP (fun w => Owns w r) ≤ 1) (hu : Owns u r = true) :
    ∀ w ∈ us, Owns w r = false := by
  intro w hw
  rw [List.countP_cons_of_pos (fun w => Owns w r) us hu] at h
  by_contra hc
  have : 0 < us.countP (fun w => Owns w r) :=
    List.countP_pos_iff.2 ⟨w, hw, by simpa using hc⟩
  omega

theorem Owns_head_false_of_count (u : TIssueRecord) (us : List TIssueRecord) (r w : TIssueRecord)
    (h : (u :: us).countP (fun w => Owns w r) ≤ 1) (hw : w ∈ us) (hwr : Owns w r = true) :
    Owns u r = false := by
  by_contra hc
  have hu : Owns u r = true := by simpa using hc
  have := Owns_false_of_count u us r h hu w hw
  rw [this] at hwr
  cases hwr

/-- The fold of the merging stage over the upper records, when every record
of the pool is listed by at most one of them. -/
theorem foldl_regroup (T : List TIssueRecord → List TIssueRecord)
    (hT : ∀ R r, r ∈ T R → ∃ r0 ∈ R, r.IssueLog.id = r0.IssueLog.id)
    (us pool done : List TIssueRecord)
    (hown : ∀ r ∈ pool, us.countP (fun u => Owns u r) ≤ 1)
    (hdone : ∀ r ∈ done, ∀ u ∈ us, Owns u r = false) :
    us.foldl (fun p u => p.filter (fun it => !Owns u it) ++ T (p.filter (Owns u)))
        (pool ++ done) =
      pool.filter (NoOwner us) ++ done ++ us.flatMap (fun u => T (pool.filter (Owns u))) := by
  induction us generalizing pool done with
  | nil =>
    have h : pool.filter (NoOwner []) = pool := List.filter_eq_self.2 (fun _ _ => rfl)
    simp [h]
  | cons u us ih =>
    rw [List.foldl_cons]
    have hd1 : done.filter (fun it => !Owns u it) = done :=
      List.filter_eq_self.2 (fun r hr => by
        rw [hdone r hr u (List.mem_cons_self _ _)]; rfl)
    have hd2 : done.filter (Owns u) = [] :=
      List.filter_eq_nil_iff.2 (fun r hr => by
        rw [hdone r hr u (List.mem_cons_self _ _)]; decide)
    rw [List.filter_append, List.filter_append, hd1, hd2, List.append_nil, List.append_assoc]
    rw [ih (pool.filter (fun it => !Owns u it)) (done ++ T (pool.filter (Owns u)))
      (fun r hr => by
        have h1 := hown r (List.mem_filter.1 hr).1
        exact Nat.le_trans (List.Sublist.countP_le _ (List.sublist_cons_self u us)) h1)
      (fun r hr w hw => by
        rw [List.mem_append] at hr
        rcases hr with hr | hr
        · exact hdone r hr w (List.mem_cons_of_mem _ hw)
        · obtain ⟨r0, hr0, e⟩ := hT _ _ hr
          rw [Owns_congr w r r0 e]
          have h0 := List.mem_filter.1 hr0
          exact Owns_false_of_count u us r0 (hown r0 h0.1) h0.2 w hw)]
    have hf : (pool.filter (fun it => !Owns u it)).filter (NoOwner us) =
        pool.filter (NoOwner (u :: us)) := by
      rw [List.filter_filter]
      congr 1
      funext r
      rw [NoOwner_cons, Bool.and_comm]
    have hb : us.flatMap (fun w => T ((pool.filter (fun it => !Owns u it)).filter (Owns w))) =
        us.flatMap (fun w => T (pool.filter (Owns w))) := by
      refine List.flatMap_congr (fun w hw => ?_)
      congr 1
      rw [List.filter_filter]
      refine List.filter_congr (fun r hr => ?_)
      by_cases hwr : Owns w r = true
      · rw [hwr, Owns_head_false_of_count u us r w (hown r hr) hw hwr]
        rfl
      · have : Owns w r = false := by simpa using hwr
        rw [this]
        rfl
    rw [hf, hb, List.flatMap_cons]
    simp only [List.append_assoc]

/-- The fold of the cutting stage over the upper records. -/
theorem foldl_cut_regroup (T : List TIssueRecord → List TIssueRecord)
    (us pool handled : List TIssueRecord)
    (hown : ∀ r ∈ pool, us.countP (fun u => Owns u r) ≤ 1) :
    us.foldl (fun (acc : List TIssueRecord × List TIssueRecord) u =>
        (acc.1.filter (fun it => !Owns u it), acc.2 ++ T (acc.1.filter (Owns u))))
      (pool, handled) =
      (pool.filter (NoOwner us),
        handled ++ us.flatMap (fun u => T (pool.filter (Owns u)))) := by
  induction us generalizing pool handled with
  | nil =>
    have h : pool.filter (NoOwner []) = pool := List.filter_eq_self.2 (fun _ _ => rfl)
    simp [h]
  | cons u us ih =>
    rw [List.foldl_cons]
    dsimp only
    rw [ih (pool.filter (fun it => !Owns u it)) (handled ++ T (pool.filter (Owns u)))
      (fun r hr => by
        have h1 := hown r (List.mem_filter.1 hr).1
        exact Nat.le_trans (List.Sublist.countP_le _ (List.sublist_cons_self u us)) h1)]
    have hf : (pool.filter (fun it => !Owns u it)).filter (NoOwner us) =
        pool.filter (NoOwner (u :: us)) := by
      rw [List.filter_filter]
      congr 1
      funext r
      rw [NoOwner_cons, Bool.and_comm]
    have hb : us.flatMap (fun w => T ((pool.filter (fun it => !Owns u it)).filter (Owns w))) =
        us.flatMap (fun w => T (pool.filter (Owns w))) := by
      refine List.flatMap_congr (fun w hw => ?_)
      congr 1
      rw [List.filter_filter]
      refine List.filter_congr (fun r hr => ?_)
      by_cases hwr : Owns w r = true
      · rw [hwr, Owns_head_false_of_count u us r w (hown r hr) hw hwr]
        rfl
      · have : Owns w r = false := by simpa using hwr
        rw [this]
        rfl
    rw [hf, hb, List.flatMap_cons]
    simp only [List.append_assoc]

/-! ### C12: lists that MergeLevelRecords leaves as they are -/

theorem IsSimilar_iff (first it : TIssueRecord) :
    IsSimilar first it = true ↔ SimKey first.Tag it = SimKey first.Tag first := by
  unfold IsSimilar SimKey
  by_cases ht : first.Tag = ETags.VDiskState
  · simp only [ht, decide_True, Bool.and_true, if_true, Prod.mk.injEq]
    constructor
    · intro h
      split at h
      · rename_i h2
        simp only [Bool.and_eq_true, decide_eq_true_eq] at h2 h
        exact ⟨h2.1.1, h2.1.2, h2.2, h⟩
      · rename_i h2
        exact absurd h h2
    · intro h
      simp [h.1, h.2.1, h.2.2.1, h.2.2.2]
  · simp [ht]
    tauto

theorem IsSimilar_eq (tag : ETags) (first : TIssueRecord) (h : first.Tag = tag) :
    IsSimilar first = fun it => decide (SimKey tag it = SimKey tag first) := by
  funext it
  rw [← h]
  by_cases hs : IsSimilar first it = true
  · rw [hs]
    exact (decide_eq_true ((IsSimilar_iff first it).1 hs)).symm
  · have h1 : IsSimilar first it = false := by simpa using hs
    rw [h1]
    exact (decide_eq_false (fun e => hs ((IsSimilar_iff first it).2 e))).symm

theorem Contig_sublist {K : Type} (ks ks2 : List K) (h : List.Sublist ks2 ks) (hc : Contig ks) :
    Contig ks2 :=
  fun a b hab => hc a b (hab.trans h)

theorem NoBig_sublist {K : Type} [DecidableEq K] (ks ks2 : List K) (h : List.Sublist ks2 ks)
    (hc : NoBig ks) : NoBig ks2 :=
  fun a => Nat.le_trans (h.countP_le _) (hc a)

theorem CountInv_sublist (tag : ETags) (R R2 : List TIssueRecord) (h : List.Sublist R2 R)
    (hc : CountInv tag R) : CountInv tag R2 :=
  fun x y hxy => hc x y (hxy.trans h)

theorem Contig_nil {K : Type} : Contig ([] : List K) := by
  intro a b h
  cases h

theorem NoBig_nil {K : Type} [DecidableEq K] : NoBig ([] : List K) :=
  fun _ => Nat.zero_le _

/-- A run of one key that is new may follow. -/
theorem Contig_append {K : Type} (ks chunk : List K) (k : K) (hc : Contig ks)
    (hk : k ∉ ks) (hchunk : ∀ x ∈ chunk, x = k) : Contig (ks ++ chunk) := by
  intro a b h
  obtain ⟨l1, l2, e, h1, h2⟩ := List.sublist_append_iff.1 h
  match l1, l2, e with
  | [], _, e =>
    rw [List.nil_append] at e
    subst e
    have ha := hchunk a (h2.subset (List.mem_cons_self _ _))
    have hb := hchunk b (h2.subset (List.mem_cons_of_mem _ (List.mem_cons_self _ _)))
    rw [ha, hb]
  | [x], l2, e =>
    simp only [List.cons_append, List.nil_append, List.cons.injEq] at e
    obtain ⟨e1, e2⟩ := e
    rw [← e2] at h2
    rw [← e1] at h1
    have ha := hchunk a (h2.subset (List.mem_cons_of_mem _ (List.mem_cons_self _ _)))
    exact absurd (ha ▸ h1.subset (List.mem_singleton_self _)) hk
  | [x, y], l2, e =>
    simp only [List.cons_append, List.nil_append, List.cons.injEq] at e
    obtain ⟨e1, e2, e3⟩ := e
    rw [← e3] at h2
    rw [← e1, ← e2] at h1
    have ha := hchunk a (h2.subset (List.mem_singleton_self _))
    exact absurd (ha ▸ h1.subset (List.mem_cons_self _ _)) hk
  | [x, y, z], l2, e =>
    simp only [List.cons_append, List.nil_append, List.cons.injEq] at e
    obtain ⟨e1, e2, e3, _⟩ := e
    rw [← e2, ← e3] at h1
    rw [← e1] at h1
    exact hc _ _ h1
  | x :: y :: z :: w :: l, l2, e =>
    simp at e

theorem filter_partition_of_order {A : Type} (p : A → Bool) (l : List A)
    (h : ∀ x y, List.Sublist [x, y] l → p y = true → p x = true) :
    l.filter p ++ l.filter (fun x => !p x) = l := by
  induction l with
  | nil => rfl
  | cons a l ih =>
    have ih2 := ih (fun x y hxy => h x y (hxy.trans (List.sublist_cons_self _ _)))
    by_cases ha : p a = true
    · rw [List.filter_cons_of_pos ha, List.filter_cons_of_neg (by simp [ha]), List.cons_append,
        ih2]
    · have hall : ∀ y ∈ l, p y = false := by
        intro y hy
        by_contra hc
        have hy2 : p y = true := by simpa using hc
        exact ha (h a y (List.cons_sublist_cons.2 (List.singleton_sublist.2 hy)) hy2)
      have h1 : l.filter p = [] :=
        List.filter_eq_nil_iff.2 (fun y hy => by rw [hall y hy]; decide)
      have h2 : l.filter (fun x => !p x) = l :=
        List.filter_eq_self.2 (fun y hy => by rw [hall y hy]; rfl)
      rw [List.filter_cons_of_neg ha, List.filter_cons_of_pos (by simp [ha]), h1, h2,
        List.nil_append]

/-- The loop of FindRecordsForMerge on a list in which similar records stand
together and are at most four: all of it goes to `Mergeed`. -/
theorem FindRecordsForMergeLoop_stable (tag : ETags) (fuel : Nat) (R M : List TIssueRecord)
    (hf : R.length ≤ fuel) (ht : ∀ r ∈ R, r.Tag = tag)
    (hc : Contig (R.map (SimKey tag))) (hn : NoBig (R.map (SimKey tag))) :
    FindRecordsForMergeLoop fuel R [] M = ([], [], M ++ R) := by
  induction fuel generalizing R M with
  | zero =>
    have hr : R = [] := List.length_eq_zero.1 (Nat.le_zero.1 hf)
    subst hr
    simp [FindRecordsForMergeLoop]
  | succ fuel ih =>
    cases R with
    | nil => simp [FindRecordsForMergeLoop]
    | cons a rest =>
      rw [FindRecordsForMergeLoop]
      rw [IsSimilar_eq tag a (ht a (List.mem_cons_self _ _))]
      have hpart : rest.filter (fun it => decide (SimKey tag it = SimKey tag a)) ++
          rest.filter (fun it => !decide (SimKey tag it = SimKey tag a)) = rest := by
        refine filter_partition_of_order _ rest (fun x y hxy hy => ?_)
        have h3 : List.Sublist [SimKey tag a, SimKey tag x, SimKey tag y]
            ((a :: rest).map (SimKey tag)) :=
          (List.cons_sublist_cons.2 hxy).map (SimKey tag)
        have hy2 : SimKey tag y = SimKey tag a := by simpa using hy
        rw [hy2] at h3
        simpa using hc _ _ h3
      have hsmall : (a :: rest.filter
          (fun it => decide (SimKey tag it = SimKey tag a))).length ≤ MERGING_IGNORE_SIZE := by
        have h4 := hn (SimKey tag a)
        rw [List.map_cons, List.countP_cons_of_pos _ _ (by simp), List.countP_map] at h4
        rw [List.length_cons, ← List.countP_eq_length_filter]
        exact h4
      rw [if_pos hsmall]
      have hsub : List.Sublist
          (rest.filter (fun it => !decide (SimKey tag it = SimKey tag a))) (a :: rest) :=
        (List.filter_sublist _).trans (List.sublist_cons_self _ _)
      rw [ih _ _ (Nat.le_trans (List.length_filter_le _ _) (Nat.le_of_succ_le_succ hf))
        (fun r hr => ht r (hsub.subset hr))
        (Contig_sublist _ _ (hsub.map _) hc) (NoBig_sublist _ _ (hsub.map _) hn)]
      rw [List.append_assoc, List.cons_append, hpart]

theorem MergeLevelRecords_stable (tag : ETags) (c : TMergeIssuesContext)
    (R : List TIssueRecord) (ht : ∀ r ∈ R, r.Tag = tag)
    (hc : Contig (R.map (SimKey tag))) (hn : NoBig (R.map (SimKey tag))) :
    MergeLevelRecords c R = (c, R) := by
  unfold MergeLevelRecords
  dsimp only
  cases R with
  | nil => rfl
  | cons a rest =>
    rw [List.length_cons, MergeLevelRecordsLoop]
    unfold FindRecordsForMerge
    dsimp only
    rw [FindRecordsForMergeLoop_stable tag _ _ _ (Nat.le_refl _) ht hc hn]
    simp [MergeLevelRecordsLoop_nil]

/-! ### C12: what MergeLevelRecords leaves -/

theorem SameFace.refl_face (a : TIssueRecord) : SameFace a a := ⟨rfl, rfl, rfl, rfl, rfl, rfl⟩

theorem SameFace.trans_face {a b c : TIssueRecord} (h1 : SameFace a b) (h2 : SameFace b c) :
    SameFace a c :=
  ⟨h1.1.trans h2.1, h1.2.1.trans h2.2.1, h1.2.2.1.trans h2.2.2.1,
    h1.2.2.2.1.trans h2.2.2.2.1, h1.2.2.2.2.1.trans h2.2.2.2.2.1,
    h1.2.2.2.2.2.trans h2.2.2.2.2.2⟩

theorem SameFace.key {a b : TIssueRecord} (h : SameFace a b) (tag : ETags) :
    SimKey tag a = SimKey tag b := by
  unfold SimKey
  rw [h.2.2.1, h.2.2.2.1, h.2.2.2.2.1, h.2.2.2.2.2]

theorem MoveLocationIds_face (main donor : TIssueRecord) :
    SameFace (MoveLocationIds main donor) main := by
  unfold MoveLocationIds
  split <;> exact ⟨rfl, rfl, rfl, rfl, rfl, rfl⟩

theorem MoveReasons_face (donorReasons : List String) (main : TIssueRecord)
    (mainReasonIds : List String) :
    SameFace (MoveReasons main mainReasonIds donorReasons).1 main := by
  obtain ⟨reason, h⟩ := MoveReasons_fields donorReasons main mainReasonIds
  rw [h]
  exact ⟨rfl, rfl, rfl, rfl, rfl, rfl⟩

theorem foldl_MoveDataStep_face (l : List TIssueRecord) (st : TMoveState) :
    SameFace (l.foldl MoveDataStep st).main st.main := by
  induction l generalizing st with
  | nil => exact SameFace.refl_face _
  | cons a l ih =>
    rw [List.foldl_cons]
    refine (ih _).trans_face ?_
    unfold MoveDataStep
    split
    · exact SameFace.refl_face _
    · exact (MoveReasons_face _ _ _).trans_face (MoveLocationIds_face _ _)

theorem MoveDataInFirstRecord_face (c : TMergeIssuesContext) (first : TIssueRecord)
    (rest : List TIssueRecord) :
    ∃ main skipped, (MoveDataInFirstRecord c (first :: rest)).2 = main :: skipped ∧
      SameFace main first := by
  unfold MoveDataInFirstRecord
  dsimp only
  refine ⟨_, _, rfl, ?_⟩
  have h := foldl_MoveDataStep_face rest
    { main := first, ids := [first.IssueLog.id], mainReasonIds := first.IssueLog.reason,
      removeIssuesIds := c.removeIssuesIds }
  exact ⟨h.1, h.2.1, h.2.2.1, h.2.2.2.1, h.2.2.2.2.1, h.2.2.2.2.2⟩

theorem NoBig_append_new {K : Type} [DecidableEq K] (ks chunk : List K) (k : K)
    (hn : NoBig ks) (hk : k ∉ ks) (hchunk : ∀ x ∈ chunk, x = k)
    (hlen : chunk.length ≤ MERGING_IGNORE_SIZE) : NoBig (ks ++ chunk) := by
  intro a
  rw [List.countP_append]
  by_cases ha : a = k
  · have h0 : ks.countP (fun x => decide (x = a)) = 0 :=
      List.countP_eq_zero.2 (fun x hx e => by
        have e2 : x = a := of_decide_eq_true e
        rw [e2, ha] at hx
        exact hk hx)
    rw [h0, Nat.zero_add]
    exact Nat.le_trans (List.countP_le_length _) hlen
  · have h0 : chunk.countP (fun x => decide (x = a)) = 0 :=
      List.countP_eq_zero.2 (fun x hx e => by
        have e2 : x = a := of_decide_eq_true e
        rw [hchunk x hx] at e2
        exact ha e2.symm)
    rw [h0, Nat.add_zero]
    exact hn a

theorem CountInv_append_new (tag : ETags) (handled chunk : List TIssueRecord)
    (k : Status × String × Nat × Nat) (hc : CountInv tag handled)
    (hk : ∀ h ∈ handled, SimKey tag h ≠ k) (hchunk : ∀ x ∈ chunk, SimKey tag x = k)
    (hcount : ∀ x y, List.Sublist [x, y] chunk → x.IssueLog.count = 0) :
    CountInv tag (handled ++ chunk) := by
  intro x y hxy hkey
  obtain ⟨l1, l2, e, h1, h2⟩ := List.sublist_append_iff.1 hxy
  match l1, l2, e with
  | [], l2, e =>
    rw [List.nil_append] at e
    rw [← e] at h2
    exact hcount x y h2
  | [a], l2, e =>
    simp only [List.cons_append, List.nil_append, List.cons.injEq] at e
    obtain ⟨e1, e2⟩ := e
    rw [← e2] at h2
    rw [← e1] at h1
    have hy := hchunk y (h2.subset (List.mem_singleton_self _))
    exact absurd (hkey.trans hy) (hk x (h1.subset (List.mem_singleton_self _)))
  | [a, b], l2, e =>
    simp only [List.cons_append, List.nil_append, List.cons.injEq] at e
    obtain ⟨e1, e2, _⟩ := e
    rw [← e1, ← e2] at h1
    exact hc x y h1 hkey
  | a :: b :: d :: l, l2, e =>
    simp at e

/-- The loop of FindRecordsForMerge keeps the state of MergeLevelRecords; the
class it returns, if any, has one key, which is new. -/
theorem FindRecordsForMergeLoop_inv (tag : ETags) (fuel : Nat) (records M : List TIssueRecord)
    (h : MergeInv tag records M) :
    MergeInv tag (FindRecordsForMergeLoop fuel records [] M).1
      (FindRecordsForMergeLoop fuel records [] M).2.2 ∧
    ((FindRecordsForMergeLoop fuel records [] M).2.1 = [] ∨
      ∃ first rest, (FindRecordsForMergeLoop fuel records [] M).2.1 = first :: rest ∧
        first.Tag = tag ∧
        (∀ h ∈ (FindRecordsForMergeLoop fuel records [] M).2.2,
          SimKey tag h ≠ SimKey tag first) ∧
        ∀ r ∈ (FindRecordsForMergeLoop fuel records [] M).1,
          SimKey tag r ≠ SimKey tag first) := by
  induction fuel generalizing records M with
  | zero => exact ⟨h, Or.inl rfl⟩
  | succ fuel ih =>
    cases records with
    | nil => exact ⟨by simpa [FindRecordsForMergeLoop] using h, Or.inl (by
        simp [FindRecordsForMergeLoop])⟩
    | cons a rest =>
      obtain ⟨h1, h2, h3, h4, h5, h6⟩ := h
      have hta : a.Tag = tag := (h1 a (List.mem_cons_self _ _)).1
      rw [FindRecordsForMergeLoop]
      rw [IsSimilar_eq tag a hta]
      have hrec : ∀ r ∈ rest.filter (fun it => !decide (SimKey tag it = SimKey tag a)),
          r.Tag = tag ∧ r.IssueLog.count = 0 := fun r hr =>
        h1 r (List.mem_cons_of_mem _ (List.mem_filter.1 hr).1)
      have hne : ∀ r ∈ rest.filter (fun it => !decide (SimKey tag it = SimKey tag a)),
          SimKey tag r ≠ SimKey tag a := fun r hr => by
        simpa using (List.mem_filter.1 hr).2
      have hka : ∀ h ∈ M, SimKey tag h ≠ SimKey tag a := fun h hh =>
        h6 h hh a (List.mem_cons_self _ _)
      split
      · rename_i hsmall
        have hsim : ∀ x ∈ a :: rest.filter (fun it => decide (SimKey tag it = SimKey tag a)),
            SimKey tag x = SimKey tag a := by
          intro x hx
          rw [List.mem_cons] at hx
          rcases hx with hx | hx
          · rw [hx]
          · simpa using (List.mem_filter.1 hx).2
        have hsimrec : ∀ x ∈ a :: rest.filter
            (fun it => decide (SimKey tag it = SimKey tag a)), x ∈ a :: rest := by
          intro x hx
          rw [List.mem_cons] at hx ⊢
          rcases hx with hx | hx
          · exact Or.inl hx
          · exact Or.inr (List.mem_filter.1 hx).1
        refine ih _ _ ⟨hrec, ?_, ?_, ?_, ?_, ?_⟩
        · intro h hh
          rw [List.mem_append] at hh
          rcases hh with hh | hh
          · exact h2 h hh
          · exact (h1 h (hsimrec h hh)).1
        · rw [List.map_append]
          refine Contig_append _ _ (SimKey tag a) h3 ?_ ?_
          · intro hmem
            obtain ⟨h, hh, e⟩ := List.mem_map.1 hmem
            exact hka h hh e
          · intro x hx
            obtain ⟨y, hy, e⟩ := List.mem_map.1 hx
            rw [← e]
            exact hsim y hy
        · rw [List.map_append]
          refine NoBig_append_new _ _ (SimKey tag a) h4 ?_ ?_ ?_
          · intro hmem
            obtain ⟨h, hh, e⟩ := List.mem_map.1 hmem
            exact hka h hh e
          · intro x hx
            obtain ⟨y, hy, e⟩ := List.mem_map.1 hx
            rw [← e]
            exact hsim y hy
          · rw [List.length_map]
            exact hsmall
        · refine CountInv_append_new tag _ _ (SimKey tag a) h5 hka hsim ?_
          intro x y hxy
          exact (h1 x (hsimrec x (hxy.subset (List.mem_cons_self _ _)))).2
        · intro h hh r hr
          rw [List.mem_append] at hh
          rcases hh with hh | hh
          · exact h6 h hh r (List.mem_cons_of_mem _ (List.mem_filter.1 hr).1)
          · rw [hsim h hh]
            exact fun e => hne r hr e.symm
      · cases fuel with
        | zero =>
          exact ⟨⟨hrec, h2, h3, h4, h5, fun h hh r hr =>
            h6 h hh r (List.mem_cons_of_mem _ (List.mem_filter.1 hr).1)⟩,
            Or.inr ⟨a, _, rfl, hta, hka, hne⟩⟩
        | succ fuel =>
          have hstop : ∀ (records : List TIssueRecord) (s : TIssueRecord)
              (ss M : List TIssueRecord),
              FindRecordsForMergeLoop (fuel + 1) records (s :: ss) M =
                (records, s :: ss, M) := by
            intro records s ss M
            cases records <;> simp [FindRecordsForMergeLoop]
          rw [hstop]
          exact ⟨⟨hrec, h2, h3, h4, h5, fun h hh r hr =>
            h6 h hh r (List.mem_cons_of_mem _ (List.mem_filter.1 hr).1)⟩,
            Or.inr ⟨a, _, rfl, hta, hka, hne⟩⟩

/-- The loop of MergeLevelRecords keeps its state, and ends with nothing
left to handle. -/
theorem MergeLevelRecordsLoop_inv (tag : ETags) (fuel : Nat) (c : TMergeIssuesContext)
    (records handled : List TIssueRecord) (hf : records.length ≤ fuel)
    (h : MergeInv tag records handled) :
    (MergeLevelRecordsLoop fuel c records handled).2.1 = [] ∧
    MergeInv tag [] (MergeLevelRecordsLoop fuel c records handled).2.2 := by
  induction fuel generalizing c records handled with
  | zero =>
    have hr : records = [] := List.length_eq_zero.1 (Nat.le_zero.1 hf)
    subst hr
    exact ⟨rfl, h⟩
  | succ fuel ih =>
    rw [MergeLevelRecordsLoop]
    split
    · rename_i he
      have hr : records = [] := List.isEmpty_iff.1 he
      subst hr
      exact ⟨rfl, h⟩
    · rename_i hne
      have hne2 : records ≠ [] := fun e => hne (by rw [e]; rfl)
      have hl : (FindRecordsForMerge records [] handled).2.1.length ≤ fuel :=
        Nat.le_of_lt_succ (Nat.lt_of_lt_of_le
          (FindRecordsForMerge_length records handled hne2) hf)
      obtain ⟨i1, i2⟩ := FindRecordsForMergeLoop_inv tag records.length records handled h
      have e1 : (FindRecordsForMerge records [] handled).2.1 =
          (FindRecordsForMergeLoop records.length records [] handled).1 := rfl
      have e2 : (FindRecordsForMerge records [] handled).2.2.1 =
          (FindRecordsForMergeLoop records.length records [] handled).2.1 := rfl
      have e3 : (FindRecordsForMerge records [] handled).2.2.2 =
          (FindRecordsForMergeLoop records.length records [] handled).2.2 := rfl
      rw [← e1, ← e3] at i1
      rw [← e1, ← e2, ← e3] at i2
      dsimp only
      split
      · rename_i hflag
        rcases i2 with i2 | ⟨first, rest, hs, hft, hk1, hk2⟩
        · rw [FindRecordsForMerge_flag, i2] at hflag
          exact absurd hflag (by decide)
        · rw [hs]
          obtain ⟨main, skipped, hm, hface⟩ := MoveDataInFirstRecord_face c first rest
          rw [hm]
          refine ih _ _ _ hl ?_
          obtain ⟨j1, j2, j3, j4, j5, j6⟩ := i1
          have hkm : SimKey tag main = SimKey tag first := hface.key tag
          have hchunk : ∀ x ∈ (main :: skipped).take 1, SimKey tag x = SimKey tag first := by
            intro x hx
            simp only [List.take_succ_cons, List.take_zero, List.mem_singleton] at hx
            rw [hx, hkm]
          refine ⟨j1, ?_, ?_, ?_, ?_, ?_⟩
          · intro h hh
            rw [List.mem_append] at hh
            rcases hh with hh | hh
            · exact j2 h hh
            · simp only [List.take_succ_cons, List.take_zero, List.mem_singleton] at hh
              rw [hh, hface.1, hft]
          · rw [List.map_append]
            refine Contig_append _ _ (SimKey tag first) j3 ?_ ?_
            · intro hmem
              obtain ⟨h, hh, e⟩ := List.mem_map.1 hmem
              exact hk1 h hh e
            · intro x hx
              obtain ⟨y, hy, e⟩ := List.mem_map.1 hx
              rw [← e]
              exact hchunk y hy
          · rw [List.map_append]
            refine NoBig_append_new _ _ (SimKey tag first) j4 ?_ ?_ ?_
            · intro hmem
              obtain ⟨h, hh, e⟩ := List.mem_map.1 hmem
              exact hk1 h hh e
            · intro x hx
              obtain ⟨y, hy, e⟩ := List.mem_map.1 hx
              rw [← e]
              exact hchunk y hy
            · simp [MERGING_IGNORE_SIZE]
          · refine CountInv_append_new tag _ _ (SimKey tag first) j5 hk1 hchunk ?_
            intro x y hxy
            have := hxy.length_le
            simp at this
          · intro h hh r hr
            rw [List.mem_append] at hh
            rcases hh with hh | hh
            · exact j6 h hh r hr
            · rw [hchunk h hh]
              exact fun e => hk2 r hr e.symm
      · exact ih _ _ _ hl i1

/-- MergeLevelRecords on records of one tag without count leaves a list in
which similar records stand together and are at most four, and in which a
record that a similar record follows has no count. -/
theorem MergeList_stable (tag : ETags) (R : List TIssueRecord)
    (h : ∀ r ∈ R, r.Tag = tag ∧ r.IssueLog.count = 0) :
    (∀ r ∈ MergeList R, r.Tag = tag) ∧
    Contig ((MergeList R).map (SimKey tag)) ∧ NoBig ((MergeList R).map (SimKey tag)) ∧
    CountInv tag (MergeList R) := by
  have h0 : MergeInv tag R [] := by
    refine ⟨h, ?_, Contig_nil, NoBig_nil, ?_, ?_⟩
    · intro x hx
      cases hx
    · intro x y hxy
      cases hxy
    · intro x hx
      cases hx
  obtain ⟨h1, _, h3, h4, h5, h6, _⟩ := MergeLevelRecordsLoop_inv tag R.length {} R []
    (Nat.le_refl _) h0
  unfold MergeList MergeLevelRecords
  dsimp only
  rw [h1, List.nil_append]
  exact ⟨h3, h4, h5, h6⟩

/-! ### C12: what RemoveRecordsAboveLimit leaves -/

theorem ModifyLast_concat {A : Type} (f : A → A) (l : List A) (a : A) :
    ModifyLast f (l ++ [a]) = l ++ [f a] := by
  induction l with
  | nil => rfl
  | cons b l ih =>
    cases l with
    | nil => rfl
    | cons c l =>
      have ih2 : ModifyLast f (c :: (l ++ [a])) = c :: (l ++ [f a]) := ih
      show ModifyLast f (b :: c :: (l ++ [a])) = b :: c :: (l ++ [f a])
      rw [ModifyLast, ih2]
      intro e
      cases e

theorem SetIssueCount_face (record : TIssueRecord) (value : Int) :
    SameFace (SetIssueCount record value) record := by
  unfold SetIssueCount
  dsimp only
  split <;> exact ⟨rfl, rfl, rfl, rfl, rfl, rfl⟩

theorem SetIssueListed_face (record : TIssueRecord) (value : Int) :
    SameFace (SetIssueListed record value) record := by
  unfold SetIssueListed
  dsimp only
  split <;> exact ⟨rfl, rfl, rfl, rfl, rfl, rfl⟩

theorem RemoveLocationIds_face (record : TIssueRecord) (aboveLimit : Int) :
    SameFace (RemoveLocationIds record aboveLimit) record := by
  unfold RemoveLocationIds
  split <;> exact ⟨rfl, rfl, rfl, rfl, rfl, rfl⟩

theorem eq_concat_of_ne_nil {A : Type} (l : List A) (h : l ≠ []) :
    ∃ pre last, l = pre ++ [last] :=
  ⟨l.dropLast, l.getLast h, (List.dropLast_append_getLast h).symm⟩

theorem RemoveRecordsAboveLimitStep_inv (rem0 : List String) (done : List TIssueRecord)
    (st : TLimitState) (it : TIssueRecord) (h : CutInv rem0 done st) :
    CutInv rem0 (done ++ [it]) (RemoveRecordsAboveLimitStep st it) := by
  obtain ⟨hm, h⟩ := h
  have hins : ∀ x, x ∈ st.removeIssuesIds →
      x ∈ TSetInsert (it.IssueLog.reason.foldl TSetInsert st.removeIssuesIds)
        it.IssueLog.id := fun x hx =>
    (mem_TSetInsert _ _ _).2 (Or.inl ((mem_foldl_TSetInsert _ _ _).2 (Or.inl hx)))
  have hit : it.IssueLog.id ∈
      TSetInsert (it.IssueLog.reason.foldl TSetInsert st.removeIssuesIds) it.IssueLog.id ∧
      ∀ x ∈ it.IssueLog.reason,
        x ∈ TSetInsert (it.IssueLog.reason.foldl TSetInsert st.removeIssuesIds)
          it.IssueLog.id :=
    ⟨(mem_TSetInsert _ _ _).2 (Or.inr rfl), fun x hx =>
      (mem_TSetInsert _ _ _).2 (Or.inl ((mem_foldl_TSetInsert _ _ _).2 (Or.inr hx)))⟩
  unfold RemoveRecordsAboveLimitStep
  rcases h with ⟨hk, hc, hr⟩ | ⟨hc, pre, last, last2, rest, hd, hk, hf, hre, hrest⟩
  · split
    · rename_i h10
      have hne : done ≠ [] := by
        intro e
        rw [hc e] at h10
        exact absurd h10 (by decide)
      obtain ⟨pre, last, e⟩ := eq_concat_of_ne_nil done hne
      refine ⟨fun x hx => hins x (hm x hx), Or.inr ⟨h10, pre, last,
        SetIssueCount last (WrapInt32 (GetIssueCount last + GetIssueCount it)), [it], ?_, ?_,
        SetIssueCount_face _ _, (SetIssueCount_link _ _).2.2, ?_⟩⟩
      · rw [e, List.append_assoc]
        rfl
      · dsimp only
        rw [hk, e, ModifyLast_concat]
      · intro r hr2
        rw [List.mem_singleton] at hr2
        rw [hr2]
        exact hit
    · split
      · rename_i h10 hgt
        refine ⟨hm, Or.inr ⟨rfl, done, it,
          RemoveLocationIds (SetIssueListed it (WrapInt32 (GetIssueListed it -
            WrapInt32 (WrapInt32 (st.commonListed + GetIssueListed it) -
              (MERGER_ISSUE_LIMIT : Int)))))
            (WrapInt32 (WrapInt32 (st.commonListed + GetIssueListed it) -
              (MERGER_ISSUE_LIMIT : Int))), [], rfl, ?_,
          (RemoveLocationIds_face _ _).trans_face (SetIssueListed_face _ _),
          (RemoveLocationIds_link _ _).2.2.trans (SetIssueListed_link _ _).2.2, ?_⟩⟩
        · dsimp only
          rw [hk]
        · intro r hr2
          cases hr2
      · rename_i h10 hgt
        refine ⟨hm, Or.inl ⟨?_, ?_, hr⟩⟩
        · dsimp only
          rw [hk]
        · intro e
          exact absurd e (List.append_ne_nil_of_right_ne_nil _ (List.cons_ne_nil _ _))
  · rw [if_pos hc]
    refine ⟨fun x hx => hins x (hm x hx), Or.inr ⟨hc, pre, last,
      SetIssueCount last2 (WrapInt32 (GetIssueCount last2 + GetIssueCount it)), rest ++ [it],
      ?_, ?_, (SetIssueCount_face _ _).trans_face hf,
      (SetIssueCount_link _ _).2.2.trans hre, ?_⟩⟩
    · rw [hd, List.append_assoc]
      rfl
    · dsimp only
      rw [hk, ModifyLast_concat]
    · intro r hr2
      rw [List.mem_append, List.mem_singleton] at hr2
      rcases hr2 with hr2 | hr2
      · exact ⟨hins _ (hrest r hr2).1, fun x hx => hins _ ((hrest r hr2).2 x hx)⟩
      · rw [hr2]
        exact hit

theorem foldl_RemoveRecordsAboveLimitStep_inv (rem0 : List String) (l done : List TIssueRecord)
    (st : TLimitState) (h : CutInv rem0 done st) :
    CutInv rem0 (done ++ l) (l.foldl RemoveRecordsAboveLimitStep st) := by
  induction l generalizing done st with
  | nil => simpa using h
  | cons a l ih =>
    rw [List.foldl_cons]
    have e : done ++ a :: l = (done ++ [a]) ++ l := by simp
    rw [e]
    exact ih _ _ (RemoveRecordsAboveLimitStep_inv rem0 done st a h)

/-- RemoveRecordsAboveLimit leaves the list and the context as they are, or
keeps the records up to one, which it may rewrite in place, and removes the
ids and the reasons of the records after it. -/
theorem RemoveRecordsAboveLimit_shape (c : TMergeIssuesContext) (R : List TIssueRecord) :
    (∀ x ∈ c.removeIssuesIds, x ∈ (RemoveRecordsAboveLimit c R).1.removeIssuesIds) ∧
    (RemoveRecordsAboveLimit c R).1.recordsMap = c.recordsMap ∧
    (RemoveRecordsAboveLimit c R = (c, R) ∨
      ∃ pre last last2 rest, R = pre ++ last :: rest ∧
        (RemoveRecordsAboveLimit c R).2 = pre ++ [last2] ∧
        SameFace last2 last ∧ last2.IssueLog.reason = last.IssueLog.reason ∧
        ∀ r ∈ rest, r.IssueLog.id ∈ (RemoveRecordsAboveLimit c R).1.removeIssuesIds ∧
          ∀ x ∈ r.IssueLog.reason,
            x ∈ (RemoveRecordsAboveLimit c R).1.removeIssuesIds) := by
  have h0 : CutInv c.removeIssuesIds [] { removeIssuesIds := c.removeIssuesIds } :=
    ⟨fun x hx => hx, Or.inl ⟨rfl, fun _ => rfl, rfl⟩⟩
  have h := foldl_RemoveRecordsAboveLimitStep_inv c.removeIssuesIds R [] _ h0
  rw [List.nil_append] at h
  obtain ⟨hm, h⟩ := h
  refine ⟨hm, rfl, ?_⟩
  rcases h with ⟨hk, _, hr⟩ | ⟨_, pre, last, last2, rest, hd, hk, hf, hre, hrest⟩
  · refine Or.inl ?_
    unfold RemoveRecordsAboveLimit
    dsimp only
    rw [hk, hr]
  · exact Or.inr ⟨pre, last, last2, rest, hd, hk, hf, hre, hrest⟩

/-- An iteration of the loop on a record that the limit has room for: the
record is kept as it is. -/
theorem RemoveRecordsAboveLimitStep_small (st : TLimitState) (it : TIssueRecord)
    (h1 : (ListedSum st.kept : Int) = st.commonListed)
    (h2 : ListedSum st.kept + ListedValue it ≤ MERGER_ISSUE_LIMIT) :
    RemoveRecordsAboveLimitStep st it =
      { st with kept := st.kept ++ [it], commonListed := (ListedSum (st.kept ++ [it]) : Int) } := by
  have hp := ListedValue_pos it
  unfold MERGER_ISSUE_LIMIT at h2
  have hl := GetIssueListed_eq it (by omega)
  have hw : WrapInt32 (st.commonListed + GetIssueListed it) =
      st.commonListed + GetIssueListed it :=
    WrapInt32_of_range _ (by omega) (by omega)
  unfold RemoveRecordsAboveLimitStep MERGER_ISSUE_LIMIT
  simp only [Nat.cast_ofNat]
  rw [if_neg (by omega), hw, if_neg (by omega), ListedSum_append, ListedSum_singleton,
    Nat.cast_add, h1, hl]

theorem foldl_RemoveRecordsAboveLimitStep_small (l : List TIssueRecord) (st : TLimitState)
    (h1 : (ListedSum st.kept : Int) = st.commonListed)
    (h2 : ListedSum st.kept + ListedSum l ≤ MERGER_ISSUE_LIMIT) :
    (l.foldl RemoveRecordsAboveLimitStep st).kept = st.kept ++ l ∧
    (l.foldl RemoveRecordsAboveLimitStep st).removeIssuesIds = st.removeIssuesIds := by
  induction l generalizing st with
  | nil => exact ⟨(List.append_nil _).symm, rfl⟩
  | cons a l ih =>
    rw [List.foldl_cons]
    rw [ListedSum_cons] at h2
    have hstep := RemoveRecordsAboveLimitStep_small st a h1 (by omega)
    have hk : (RemoveRecordsAboveLimitStep st a).kept = st.kept ++ [a] := by rw [hstep]
    have hc : (ListedSum (RemoveRecordsAboveLimitStep st a).kept : Int) =
        (RemoveRecordsAboveLimitStep st a).commonListed := by rw [hstep]
    have hr : (RemoveRecordsAboveLimitStep st a).removeIssuesIds = st.removeIssuesIds := by
      rw [hstep]
    obtain ⟨i1, i2⟩ := ih (RemoveRecordsAboveLimitStep st a) hc (by
      rw [hk, ListedSum_append, ListedSum_singleton]
      omega)
    refine ⟨?_, by rw [i2, hr]⟩
    rw [i1, hk]
    simp

/-- RemoveRecordsAboveLimit leaves a list whose listed values sum up to at
most 10 as it is, and the context too. -/
theorem RemoveRecordsAboveLimit_stable (c : TMergeIssuesContext) (R : List TIssueRecord)
    (h : ListedSum R ≤ MERGER_ISSUE_LIMIT) : RemoveRecordsAboveLimit c R = (c, R) := by
  obtain ⟨h1, h2⟩ := foldl_RemoveRecordsAboveLimitStep_small R
    { removeIssuesIds := c.removeIssuesIds } rfl (by rw [ListedSum_nil, Nat.zero_add]; exact h)
  unfold RemoveRecordsAboveLimit
  dsimp only
  rw [h1, h2]
  rfl

/-- CutList keeps a start of the list, the last record of which it may rewrite
in place. -/
theorem CutList_shape (R : List TIssueRecord) :
    CutList R = R ∨
      ∃ pre last last2 rest, R = pre ++ last :: rest ∧ CutList R = pre ++ [last2] ∧
        SameFace last2 last ∧ last2.IssueLog.reason = last.IssueLog.reason := by
  rcases (RemoveRecordsAboveLimit_shape {} R).2.2 with h1 | h1
  · left
    unfold CutList
    rw [h1]
  · obtain ⟨pre, last, last2, rest, h2, h3, h4, h5, _⟩ := h1
    exact Or.inr ⟨pre, last, last2, rest, h2, h3, h4, h5⟩

theorem CutList_mem (R : List TIssueRecord) (k : TIssueRecord) (h : k ∈ CutList R) :
    ∃ r ∈ R, SameFace k r ∧ k.IssueLog.reason = r.IssueLog.reason := by
  rcases CutList_shape R with e | ⟨pre, last, last2, rest, e1, e2, hf, hr⟩
  · rw [e] at h
    exact ⟨k, h, SameFace.refl_face k, rfl⟩
  · rw [e2, List.mem_append, List.mem_singleton] at h
    rcases h with h | h
    · exact ⟨k, by rw [e1]; exact List.mem_append_left _ h, SameFace.refl_face k, rfl⟩
    · rw [h]
      exact ⟨last, by rw [e1]; simp, hf, hr⟩

theorem CutList_map_sublist {B : Type} (key : TIssueRecord → B)
    (hkey : ∀ a b, SameFace a b → key a = key b) (R : List TIssueRecord) :
    ((CutList R).map key).Sublist (R.map key) := by
  rcases CutList_shape R with e | ⟨pre, last, last2, rest, e1, e2, hf, _⟩
  · rw [e]
  · rw [e2]
    have e3 : R.map key = pre.map key ++ key last :: rest.map key := by
      rw [e1, List.map_append, List.map_cons]
    rw [e3, List.map_append, List.map_singleton, hkey _ _ hf]
    exact List.Sublist.append (List.Sublist.refl _)
      (List.Sublist.cons₂ _ (List.nil_sublist _))

theorem CutList_CountInv (tag : ETags) (R : List TIssueRecord) (h : CountInv tag R) :
    CountInv tag (CutList R) := by
  rcases CutList_shape R with e | ⟨pre, last, last2, rest, e1, e2, hf, _⟩
  · rw [e]
    exact h
  · rw [e2]
    intro x y hxy hkey
    obtain ⟨l1, l2, e, h1, h2⟩ := List.sublist_append_iff.1 hxy
    have hpre : pre.Sublist R := by
      rw [e1]
      exact List.sublist_append_left _ _
    match l1, l2, e with
    | [], l2, e =>
      rw [List.nil_append] at e
      rw [← e] at h2
      have := h2.length_le
      simp at this
    | [a], l2, e =>
      simp only [List.cons_append, List.nil_append, List.cons.injEq] at e
      obtain ⟨e3, e4⟩ := e
      rw [← e4] at h2
      rw [← e3] at h1
      have hy : y = last2 := by
        have := h2.subset (List.mem_singleton_self _)
        simpa using this
      have hs : List.Sublist [x, last] R := by
        rw [e1]
        exact List.Sublist.append h1 (List.Sublist.cons₂ _ (List.nil_sublist _))
      refine h x last hs ?_
      rw [hkey, hy]
      exact hf.key tag
    | [a, b], l2, e =>
      simp only [List.cons_append, List.nil_append, List.cons.injEq] at e
      obtain ⟨e3, e4, _⟩ := e
      rw [← e3, ← e4] at h1
      exact h x y (h1.trans hpre) hkey
    | a :: b :: d :: l, l2, e =>
      simp at e

/-- Every record RemoveRecordsAboveLimit is given stays, up to a rewrite in
place, or has its reasons among the removed ids. -/
theorem RemoveRecordsAboveLimit_drop (c : TMergeIssuesContext) (R : List TIssueRecord) :
    ∀ r ∈ R, (∃ k ∈ (RemoveRecordsAboveLimit c R).2, SameLink k r) ∨
      ∀ x ∈ r.IssueLog.reason, x ∈ (RemoveRecordsAboveLimit c R).1.removeIssuesIds := by
  intro r hr
  rcases (RemoveRecordsAboveLimit_shape c R).2.2 with h1 | h1
  · left
    rw [h1]
    exact ⟨r, hr, rfl, rfl, rfl⟩
  · obtain ⟨pre, last, last2, rest, h2, h3, h4, h5, h6⟩ := h1
    rw [h2, List.mem_append, List.mem_cons] at hr
    rcases hr with hr | hr | hr
    · left
      rw [h3]
      exact ⟨r, List.mem_append_left _ hr, rfl, rfl, rfl⟩
    · left
      rw [h3, hr]
      exact ⟨last2, by simp, h4.1, h4.2.1, h5⟩
    · exact Or.inr (h6 r hr).2

/-! ### C12: what RemoveUnlinkIssues leaves -/

theorem foldl_RemoveUnlinkStep_spec (necessary : List String) (l : List TIssueRecord)
    (st : TUnlinkState) :
    (∀ x ∈ st.removeIssuesIds,
      x ∈ (l.foldl (RemoveUnlinkStep necessary) st).removeIssuesIds) ∧
    (∀ r ∈ st.kept, r ∈ (l.foldl (RemoveUnlinkStep necessary) st).kept) ∧
    (∀ r ∈ l, r ∈ (l.foldl (RemoveUnlinkStep necessary) st).kept ∨
      ∀ x ∈ r.IssueLog.reason,
        x ∈ (l.foldl (RemoveUnlinkStep necessary) st).removeIssuesIds) ∧
    ((l.foldl (RemoveUnlinkStep necessary) st).isRemovingIssuesIteration = false →
      l.foldl (RemoveUnlinkStep necessary) st = { st with kept := st.kept ++ l } ∧
      ∀ r ∈ l, r.IssueLog.id ∈ necessary ∨ r.IssueLog.id ∉ st.removeIssuesIds) ∧
    ((l.foldl (RemoveUnlinkStep necessary) st).isRemovingIssuesIteration = true →
      st.isRemovingIssuesIteration = false →
      (l.foldl (RemoveUnlinkStep necessary) st).kept.length < st.kept.length + l.length) ∧
    (l.foldl (RemoveUnlinkStep necessary) st).kept.length ≤ st.kept.length + l.length ∧
    (st.isRemovingIssuesIteration = true →
      (l.foldl (RemoveUnlinkStep necessary) st).isRemovingIssuesIteration = true) := by
  induction l generalizing st with
  | nil =>
    refine ⟨fun x hx => hx, fun r hr => hr, ?_, ?_, ?_, Nat.le_refl _, fun h => h⟩
    · intro r hr
      cases hr
    · intro _
      refine ⟨by simp, ?_⟩
      intro r hr
      cases hr
    · intro h1 h2
      rw [List.foldl_nil] at h1
      rw [h1] at h2
      cases h2
  | cons a l ih =>
    rw [List.foldl_cons]
    obtain ⟨i1, i2, i3, i4, i5, i6, i7⟩ := ih (RemoveUnlinkStep necessary st a)
    by_cases hc : a.IssueLog.id ∉ necessary ∧ a.IssueLog.id ∈ st.removeIssuesIds
    · have hs : RemoveUnlinkStep necessary st a =
          { st with
            removeIssuesIds := a.IssueLog.reason.foldl TSetInsert st.removeIssuesIds
            isRemovingIssuesIteration := true } := by
        unfold RemoveUnlinkStep
        rw [if_pos hc]
      rw [hs] at i1 i2 i3 i4 i5 i6 i7 ⊢
      have htrue := i7 rfl
      refine ⟨fun x hx => i1 x ((mem_foldl_TSetInsert _ _ _).2 (Or.inl hx)), i2, ?_, ?_, ?_, ?_,
        fun _ => htrue⟩
      · intro r hr
        rw [List.mem_cons] at hr
        rcases hr with hr | hr
        · right
          intro x hx
          rw [hr] at hx
          exact i1 x ((mem_foldl_TSetInsert _ _ _).2 (Or.inr hx))
        · exact i3 r hr
      · intro hfalse
        rw [htrue] at hfalse
        cases hfalse
      · intro _ _
        have := i6
        simp only [List.length_cons] at this ⊢
        omega
      · have := i6
        simp only [List.length_cons] at this ⊢
        omega
    · have hs : RemoveUnlinkStep necessary st a = { st with kept := st.kept ++ [a] } := by
        unfold RemoveUnlinkStep
        rw [if_neg hc]
      rw [hs] at i1 i2 i3 i4 i5 i6 i7 ⊢
      refine ⟨i1, fun r hr => i2 r (List.mem_append_left _ hr), ?_, ?_, ?_, ?_, i7⟩
      · intro r hr
        rw [List.mem_cons] at hr
        rcases hr with hr | hr
        · left
          rw [hr]
          exact i2 a (by simp)
        · exact i3 r hr
      · intro hfalse
        obtain ⟨e, hall⟩ := i4 hfalse
        refine ⟨?_, ?_⟩
        · rw [e]
          simp
        · intro r hr
          rw [List.mem_cons] at hr
          rcases hr with hr | hr
          · rw [hr]
            by_cases hn : a.IssueLog.id ∈ necessary
            · exact Or.inl hn
            · exact Or.inr (fun hm => hc ⟨hn, hm⟩)
          · exact hall r hr
      · intro h1 h2
        have := i5 h1 h2
        simp only [List.length_append, List.length_cons, List.length_nil] at this ⊢
        omega
      · have := i6
        simp only [List.length_append, List.length_cons, List.length_nil] at this ⊢
        omega

/-- The loop of RemoveUnlinkIssues ends with a list that no further sweep
would change; it removes no id from the removed ids, and the reasons of
every record it erases are among them. -/
theorem RemoveUnlinkLoop_spec (fuel : Nat) (records : List TIssueRecord)
    (removeIssuesIds : List String) (hf : records.length < fuel) :
    (∀ r ∈ (RemoveUnlinkLoop fuel records removeIssuesIds).1,
      r.IssueLog.id ∈ NecessaryIssuesIds (RemoveUnlinkLoop fuel records removeIssuesIds).1 ∨
      r.IssueLog.id ∉ (RemoveUnlinkLoop fuel records removeIssuesIds).2) ∧
    (∀ x ∈ removeIssuesIds, x ∈ (RemoveUnlinkLoop fuel records removeIssuesIds).2) ∧
    ∀ r ∈ records, r ∈ (RemoveUnlinkLoop fuel records removeIssuesIds).1 ∨
      ∀ x ∈ r.IssueLog.reason, x ∈ (RemoveUnlinkLoop fuel records removeIssuesIds).2 := by
  induction fuel generalizing records removeIssuesIds with
  | zero => exact absurd hf (Nat.not_lt_zero _)
  | succ fuel ih =>
    obtain ⟨s1, s2, s3, s4, s5, s6, s7⟩ := foldl_RemoveUnlinkStep_spec
      (NecessaryIssuesIds records) records { removeIssuesIds := removeIssuesIds }
    rw [RemoveUnlinkLoop]
    split
    · rename_i hrem
      have hlen : (records.foldl (RemoveUnlinkStep (NecessaryIssuesIds records))
          { removeIssuesIds := removeIssuesIds }).kept.length < records.length := by
        have := s5 hrem rfl
        simpa using this
      obtain ⟨j1, j2, j3⟩ := ih
        (records.foldl (RemoveUnlinkStep (NecessaryIssuesIds records))
          { removeIssuesIds := removeIssuesIds }).kept
        (records.foldl (RemoveUnlinkStep (NecessaryIssuesIds records))
          { removeIssuesIds := removeIssuesIds }).removeIssuesIds (by omega)
      refine ⟨j1, fun x hx => j2 x (s1 x hx), ?_⟩
      intro r hr
      rcases s3 r hr with h | h
      · exact j3 r h
      · exact Or.inr (fun x hx => j2 x (h x hx))
    · rename_i hrem
      have hfalse : (records.foldl (RemoveUnlinkStep (NecessaryIssuesIds records))
          { removeIssuesIds := removeIssuesIds }).isRemovingIssuesIteration = false := by
        simpa using hrem
      obtain ⟨e, hall⟩ := s4 hfalse
      rw [e]
      simp only [List.nil_append]
      exact ⟨hall, fun x hx => hx, fun r hr => Or.inl hr⟩

/-- A sweep of RemoveUnlinkIssues keeps, of the records with a property that
no erased record has, those it was given. -/
theorem foldl_RemoveUnlinkStep_filter (necessary : List String) (Q : TIssueRecord → Bool)
    (l : List TIssueRecord) (st : TUnlinkState)
    (hQ : ∀ r ∈ l, r.IssueLog.id ∉ necessary →
      r.IssueLog.id ∈ (l.foldl (RemoveUnlinkStep necessary) st).removeIssuesIds → Q r = false) :
    (l.foldl (RemoveUnlinkStep necessary) st).kept.filter Q = (st.kept ++ l).filter Q := by
  induction l generalizing st with
  | nil => simp
  | cons a l ih =>
    rw [List.foldl_cons] at hQ ⊢
    have hmono := (foldl_RemoveUnlinkStep_spec necessary l (RemoveUnlinkStep necessary st a)).1
    have ih2 := ih (RemoveUnlinkStep necessary st a)
      (fun r hr => hQ r (List.mem_cons_of_mem _ hr))
    rw [ih2]
    by_cases hc : a.IssueLog.id ∉ necessary ∧ a.IssueLog.id ∈ st.removeIssuesIds
    · have hs : RemoveUnlinkStep necessary st a =
          { st with
            removeIssuesIds := a.IssueLog.reason.foldl TSetInsert st.removeIssuesIds
            isRemovingIssuesIteration := true } := by
        unfold RemoveUnlinkStep
        rw [if_pos hc]
      have hqa : Q a = false := by
        refine hQ a (List.mem_cons_self _ _) hc.1 (hmono _ ?_)
        rw [hs]
        exact (mem_foldl_TSetInsert _ _ _).2 (Or.inl hc.2)
      rw [hs]
      simp only [List.filter_append, List.filter_cons, hqa]
      simp
    · have hs : RemoveUnlinkStep necessary st a = { st with kept := st.kept ++ [a] } := by
        unfold RemoveUnlinkStep
        rw [if_neg hc]
      rw [hs]
      simp

/-- The loop of RemoveUnlinkIssues keeps the records whose id is listed by a
record it keeps or is not among the removed ids. -/
theorem RemoveUnlinkLoop_filter (fuel : Nat) (records : List TIssueRecord)
    (removeIssuesIds : List String) (hf : records.length < fuel) :
    (RemoveUnlinkLoop fuel records removeIssuesIds).1 =
      records.filter (fun r =>
        decide (r.IssueLog.id ∈
          NecessaryIssuesIds (RemoveUnlinkLoop fuel records removeIssuesIds).1) ||
        !decide (r.IssueLog.id ∈ (RemoveUnlinkLoop fuel records removeIssuesIds).2)) := by
  induction fuel generalizing records removeIssuesIds with
  | zero => exact absurd hf (Nat.not_lt_zero _)
  | succ fuel ih =>
    obtain ⟨s1, s2, s3, s4, s5, s6, s7⟩ := foldl_RemoveUnlinkStep_spec
      (NecessaryIssuesIds records) records { removeIssuesIds := removeIssuesIds }
    have hsub := RemoveUnlinkLoop_sublist (fuel + 1) records removeIssuesIds
    have hrem := (RemoveUnlinkLoop_spec fuel)
    revert hsub
    rw [RemoveUnlinkLoop]
    split
    · rename_i hrem1
      intro hsub
      have hlen : (records.foldl (RemoveUnlinkStep (NecessaryIssuesIds records))
          { removeIssuesIds := removeIssuesIds }).kept.length < records.length := by
        have := s5 hrem1 rfl
        simpa using this
      have j := ih
        (records.foldl (RemoveUnlinkStep (NecessaryIssuesIds records))
          { removeIssuesIds := removeIssuesIds }).kept
        (records.foldl (RemoveUnlinkStep (NecessaryIssuesIds records))
          { removeIssuesIds := removeIssuesIds }).removeIssuesIds (by omega)
      obtain ⟨_, j2, _⟩ := hrem
        (records.foldl (RemoveUnlinkStep (NecessaryIssuesIds records))
          { removeIssuesIds := removeIssuesIds }).kept
        (records.foldl (RemoveUnlinkStep (NecessaryIssuesIds records))
          { removeIssuesIds := removeIssuesIds }).removeIssuesIds (by omega)
      have hfl := foldl_RemoveUnlinkStep_filter (NecessaryIssuesIds records)
        (fun r =>
          decide (r.IssueLog.id ∈ NecessaryIssuesIds (RemoveUnlinkLoop fuel
            (records.foldl (RemoveUnlinkStep (NecessaryIssuesIds records))
              { removeIssuesIds := removeIssuesIds }).kept
            (records.foldl (RemoveUnlinkStep (NecessaryIssuesIds records))
              { removeIssuesIds := removeIssuesIds }).removeIssuesIds).1) ||
          !decide (r.IssueLog.id ∈ (RemoveUnlinkLoop fuel
            (records.foldl (RemoveUnlinkStep (NecessaryIssuesIds records))
              { removeIssuesIds := removeIssuesIds }).kept
            (records.foldl (RemoveUnlinkStep (NecessaryIssuesIds records))
              { removeIssuesIds := removeIssuesIds }).removeIssuesIds).2))
        records { removeIssuesIds := removeIssuesIds } ?_
      · rw [List.nil_append] at hfl
        rw [← hfl]
        exact j
      · intro r _ hn hin
        have h1 : r.IssueLog.id ∉ NecessaryIssuesIds (RemoveUnlinkLoop fuel
            (records.foldl (RemoveUnlinkStep (NecessaryIssuesIds records))
              { removeIssuesIds := removeIssuesIds }).kept
            (records.foldl (RemoveUnlinkStep (NecessaryIssuesIds records))
              { removeIssuesIds := removeIssuesIds }).removeIssuesIds).1 := by
          intro hm
          obtain ⟨f, hf1, hf2⟩ := (mem_NecessaryIssuesIds _ _).1 hm
          exact hn ((mem_NecessaryIssuesIds _ _).2 ⟨f, hsub.subset hf1, hf2⟩)
        have h2 := j2 _ hin
        simp [h1, h2]
    · rename_i hrem1
      intro _
      have hfalse : (records.foldl (RemoveUnlinkStep (NecessaryIssuesIds records))
          { removeIssuesIds := removeIssuesIds }).isRemovingIssuesIteration = false := by
        simpa using hrem1
      obtain ⟨e, hall⟩ := s4 hfalse
      rw [e]
      simp only [List.nil_append]
      symm
      rw [List.filter_eq_self]
      intro r hr
      rcases hall r hr with h | h
      · simp [h]
      · simp [h]

/-! ### C12: FillRecords tag by tag -/

theorem FillRecords_eq (X : TExternal) (c : TMergeIssuesContext) :
    c.FillRecords X [] = (Kept X c).map (Settle (Kept X c)) := by
  unfold TMergeIssuesContext.FillRecords TMergeIssuesContext.RemoveUnlinkIssues
    RenameMergingIssues FilterReasons Kept Collect
  dsimp only
  rw [List.map_map]
  apply List.map_congr_left
  intro r _
  unfold Settle
  dsimp only [Function.comp]

theorem Settle_fields (F : List TIssueRecord) (r : TIssueRecord) :
    (Settle F r).Tag = r.Tag ∧ (Settle F r).IssueLog.id = r.IssueLog.id ∧
    (Settle F r).IssueLog.count = r.IssueLog.count ∧
    (Settle F r).IssueLog.listed = r.IssueLog.listed ∧
    (Settle F r).IssueLog.status = r.IssueLog.status ∧
    (Settle F r).IssueLog.level = r.IssueLog.level ∧
    (Settle F r).IssueLog.location = r.IssueLog.location ∧
    (Settle F r).IssueLog.reason =
      r.IssueLog.reason.filter (fun x => decide (x ∈ F.map (fun it => it.IssueLog.id))) ∧
    (Settle F r).IssueLog.message =
      if r.IssueLog.count > 0 then RenameMessage r.Tag r.IssueLog.message
      else r.IssueLog.message := by
  unfold Settle
  split
  · rename_i h
    exact ⟨rfl, rfl, rfl, rfl, rfl, rfl, rfl, rfl, rfl⟩
  · rename_i h
    exact ⟨rfl, rfl, rfl, rfl, rfl, rfl, rfl, rfl, rfl⟩

theorem Collect_filter (X : TExternal) (c : TMergeIssuesContext) (h : TagInv c.recordsMap)
    (tag : ETags) :
    (Collect X c).filter (fun r => decide (r.Tag = tag)) = c.GetRecords tag :=
  FillRecords_collect X c h tag

theorem mem_Collect (X : TExternal) (c : TMergeIssuesContext) (h : TagInv c.recordsMap)
    (r : TIssueRecord) : r ∈ Collect X c ↔ r ∈ c.GetRecords r.Tag := by
  rw [← Collect_filter X c h r.Tag, List.mem_filter]
  simp

theorem mem_Collect_of_mem (X : TExternal) (c : TMergeIssuesContext)
    (h : TagInv c.recordsMap) (tag : ETags) (r : TIssueRecord) (hr : r ∈ c.GetRecords tag) :
    r ∈ Collect X c := by
  rw [← Collect_filter X c h tag] at hr
  exact (List.mem_filter.1 hr).1

theorem Kept_sublist (X : TExternal) (c : TMergeIssuesContext) :
    (Kept X c).Sublist (Collect X c) :=
  RemoveUnlinkLoop_sublist _ _ _

/-- The kept list, the removed ids and the collected list of FillRecords. -/
theorem Kept_spec (X : TExternal) (c : TMergeIssuesContext) :
    (∀ r ∈ Kept X c, (∃ f ∈ Kept X c, r.IssueLog.id ∈ f.IssueLog.reason) ∨
      r.IssueLog.id ∉ Removed X c) ∧
    (∀ x ∈ c.removeIssuesIds, x ∈ Removed X c) ∧
    ∀ r ∈ Collect X c, r ∈ Kept X c ∨ ∀ x ∈ r.IssueLog.reason, x ∈ Removed X c := by
  obtain ⟨h1, h2, h3⟩ := RemoveUnlinkLoop_spec ((Collect X c).length + 1) (Collect X c)
    c.removeIssuesIds (Nat.lt_succ_self _)
  refine ⟨?_, h2, h3⟩
  intro r hr
  rcases h1 r hr with h | h
  · exact Or.inl ((mem_NecessaryIssuesIds _ _).1 h)
  · exact Or.inr h

theorem Survives_of_mem (F : List TIssueRecord) (r : TIssueRecord) (h : r ∈ F) :
    Survives F r = true := by
  unfold Survives
  rw [List.any_eq_true]
  exact ⟨r, h, by simp⟩

/-- The kept list of FillRecords: of the collected list, the records whose id
is listed by a kept record or is not among the removed ids. -/
theorem Kept_eq_filter (X : TExternal) (c : TMergeIssuesContext) :
    Kept X c = (Collect X c).filter (fun r =>
      decide (r.IssueLog.id ∈ NecessaryIssuesIds (Kept X c)) ||
        !decide (r.IssueLog.id ∈ Removed X c)) :=
  RemoveUnlinkLoop_filter ((Collect X c).length + 1) (Collect X c) c.removeIssuesIds
    (Nat.lt_succ_self _)

/-- A record of the collected list is kept when the kept list has a record of
its tag and id. -/
theorem mem_Kept_of_Survives (X : TExternal) (c : TMergeIssuesContext)
    (r : TIssueRecord) (hr : r ∈ Collect X c) (hs : Survives (Kept X c) r = true) :
    r ∈ Kept X c := by
  unfold Survives at hs
  rw [List.any_eq_true] at hs
  obtain ⟨f, hf, h⟩ := hs
  simp only [Bool.and_eq_true, decide_eq_true_eq] at h
  have hf2 := hf
  rw [Kept_eq_filter, List.mem_filter] at hf2
  rw [Kept_eq_filter, List.mem_filter]
  refine ⟨hr, ?_⟩
  rw [← h.2]
  exact hf2.2

theorem Kept_eq_filter_Survives (X : TExternal) (c : TMergeIssuesContext) :
    Kept X c = (Collect X c).filter (Survives (Kept X c)) := by
  have e := Kept_eq_filter X c
  have hmem : ∀ r, r ∈ Kept X c ↔ r ∈ Collect X c ∧
      (decide (r.IssueLog.id ∈ NecessaryIssuesIds (Kept X c)) ||
        !decide (r.IssueLog.id ∈ Removed X c)) = true := by
    intro r
    have h0 : r ∈ (Collect X c).filter (fun r =>
        decide (r.IssueLog.id ∈ NecessaryIssuesIds (Kept X c)) ||
          !decide (r.IssueLog.id ∈ Removed X c)) ↔ r ∈ Collect X c ∧
        (decide (r.IssueLog.id ∈ NecessaryIssuesIds (Kept X c)) ||
          !decide (r.IssueLog.id ∈ Removed X c)) = true := List.mem_filter
    rw [← e] at h0
    exact h0
  refine e.trans (List.filter_congr ?_)
  intro r hr
  rw [Bool.eq_iff_iff]
  constructor
  · intro h
    exact Survives_of_mem _ r ((hmem r).2 ⟨hr, h⟩)
  · intro h
    exact ((hmem r).1 (mem_Kept_of_Survives X c r hr h)).2

theorem Kept_filter (X : TExternal) (c : TMergeIssuesContext) (h : TagInv c.recordsMap)
    (tag : ETags) :
    (Kept X c).filter (fun r => decide (r.Tag = tag)) =
      (c.GetRecords tag).filter (Survives (Kept X c)) := by
  have e : (Kept X c).filter (fun r => decide (r.Tag = tag)) =
      ((Collect X c).filter (Survives (Kept X c))).filter (fun r => decide (r.Tag = tag)) :=
    congrArg (List.filter (fun r => decide (r.Tag = tag))) (Kept_eq_filter_Survives X c)
  rw [e, List.filter_filter, ← Collect_filter X c h tag, List.filter_filter]
  exact List.filter_congr (fun r _ => Bool.and_comm _ _)

/-- FillRecords tag by tag: of the list of a tag the records stay that the
kept list has a record for, each as Settle leaves it. -/
theorem FillRecords_tag (X : TExternal) (c : TMergeIssuesContext) (h : TagInv c.recordsMap)
    (tag : ETags) :
    (c.FillRecords X []).filter (fun r => decide (r.Tag = tag)) =
      ((c.GetRecords tag).filter (Survives (Kept X c))).map (Settle (Kept X c)) := by
  rw [FillRecords_eq, filter_map_tag _ (fun r => (Settle_fields _ r).1), Kept_filter X c h tag]

/-! ### C12: lists grouped by the record that lists them -/

theorem countP_le_one_eq {A : Type} (p : A → Bool) (l : List A) (h : l.countP p ≤ 1)
    (a b : A) (ha : a ∈ l) (hb : b ∈ l) (pa : p a = true) (pb : p b = true) : a = b := by
  induction l with
  | nil => cases ha
  | cons c l ih =>
    by_cases pc : p c = true
    · rw [List.countP_cons_of_pos _ _ pc] at h
      have h0 : l.countP p = 0 := by omega
      rw [List.countP_eq_zero] at h0
      rw [List.mem_cons] at ha hb
      rcases ha with ha | ha
      · rcases hb with hb | hb
        · rw [ha, hb]
        · exact absurd pb (h0 b hb)
      · exact absurd pa (h0 a ha)
    · rw [List.countP_cons_of_neg _ _ pc] at h
      rw [List.mem_cons] at ha hb
      rcases ha with ha | ha
      · rw [ha] at pa
        exact absurd pa pc
      · rcases hb with hb | hb
        · rw [hb] at pb
          exact absurd pb pc
        · exact ih h ha hb

theorem NoOwner_eq_true (us : List TIssueRecord) (r : TIssueRecord) :
    NoOwner us r = true ↔ ∀ u ∈ us, Owns u r = false := by
  unfold NoOwner
  rw [List.all_eq_true]
  constructor
  · intro h u hu
    simpa using h u hu
  · intro h u hu
    simpa using h u hu

theorem Owns_iff (u r : TIssueRecord) :
    Owns u r = true ↔ r.IssueLog.id ∈ u.IssueLog.reason := by
  unfold Owns
  simp

theorem SingleOwner_countP (us : List TIssueRecord) (h : SingleOwner us) (r : TIssueRecord) :
    us.countP (fun u => Owns u r) ≤ 1 :=
  h r.IssueLog.id

/-- Of two records of a list with a single owner per id that list the same
id, one is the other. -/
theorem SingleOwner_eq (us : List TIssueRecord) (h : SingleOwner us) (r u w : TIssueRecord)
    (hu : u ∈ us) (hw : w ∈ us) (ou : Owns u r = true) (ow : Owns w r = true) : u = w :=
  countP_le_one_eq (fun u => Owns u r) us (SingleOwner_countP us h r) u w hu hw ou ow

theorem flatMap_filter_other (l : List TIssueRecord)
    (B : TIssueRecord → List TIssueRecord) (p : TIssueRecord → Bool)
    (h : ∀ w ∈ l, ∀ r ∈ B w, p r = false) : (l.flatMap B).filter p = [] := by
  rw [List.filter_eq_nil_iff]
  intro r hr
  rw [List.mem_flatMap] at hr
  obtain ⟨w, hw, hrw⟩ := hr
  rw [h w hw r hrw]
  exact Bool.false_ne_true

/-- The records of a grouped list that `u` lists are the group of `u`. -/
theorem flatMap_filter_Owns (us : List TIssueRecord) (B : TIssueRecord → List TIssueRecord)
    (u : TIssueRecord) (hown : ∀ r, us.countP (fun w => Owns w r) ≤ 1) (hu : u ∈ us)
    (hB : ∀ r ∈ B u, Owns u r = true)
    (hother : ∀ w ∈ us, w ≠ u → ∀ r ∈ B w, Owns u r = false) :
    (us.flatMap B).filter (Owns u) = B u := by
  induction us with
  | nil => cases hu
  | cons a l ih =>
    rw [List.flatMap_cons, List.filter_append]
    have hown2 : ∀ r, l.countP (fun w => Owns w r) ≤ 1 := fun r =>
      Nat.le_trans (List.Sublist.countP_le _ (List.sublist_cons_self a l)) (hown r)
    by_cases ha : a = u
    · rw [ha] at hown ⊢
      rw [List.filter_eq_self.2 hB, flatMap_filter_other l B (Owns u), List.append_nil]
      intro w hw r hr
      by_cases hwu : w = u
      · rw [hwu] at hw hr
        have h1 := hown r
        rw [List.countP_cons_of_pos (fun w => Owns w r) l (hB r hr)] at h1
        have : 0 < l.countP (fun w => Owns w r) :=
          List.countP_pos_iff.2 ⟨u, hw, hB r hr⟩
        omega
      · exact hother w (List.mem_cons_of_mem _ hw) hwu r hr
    · have hul : u ∈ l := by
        rw [List.mem_cons] at hu
        rcases hu with hu | hu
        · exact absurd hu.symm ha
        · exact hu
      have e : (B a).filter (Owns u) = [] := by
        rw [List.filter_eq_nil_iff]
        intro r hr
        rw [hother a (List.mem_cons_self _ _) ha r hr]
        exact Bool.false_ne_true
      rw [e, List.nil_append]
      exact ih hown2 hul (fun w hw => hother w (List.mem_cons_of_mem _ hw))

/-! ### C12: the groups of a list by the reasons of the upper records -/

theorem Owns_key (I : List String) (v r : TIssueRecord) (h : r.IssueLog.id ∈ I) :
    Owns v r = decide (r.IssueLog.id ∈ ReasonKey I v) := by
  unfold Owns ReasonKey
  rw [Bool.eq_iff_iff]
  simp only [decide_eq_true_eq, List.mem_filter]
  exact ⟨fun h1 => ⟨h1, h⟩, fun h1 => h1.1⟩

theorem ReasonKeys_nil (I : List String) : ReasonKeys I [] = [] := rfl

theorem ReasonKeys_cons (I : List String) (v : TIssueRecord) (vs : List TIssueRecord) :
    ReasonKeys I (v :: vs) =
      (if ReasonKey I v = [] then ReasonKeys I vs else ReasonKey I v :: ReasonKeys I vs) := by
  unfold ReasonKeys
  rw [List.map_cons, List.filter_cons]
  by_cases h : ReasonKey I v = []
  · rw [if_pos h, h]
    rfl
  · rw [if_neg h]
    have : (!(ReasonKey I v).isEmpty) = true := by
      cases hk : ReasonKey I v with
      | nil => exact absurd hk h
      | cons a l => rfl
    rw [if_pos this]

theorem ReasonKeys_append (I : List String) (a b : List TIssueRecord) :
    ReasonKeys I (a ++ b) = ReasonKeys I a ++ ReasonKeys I b := by
  unfold ReasonKeys
  rw [List.map_append, List.filter_append]

theorem ReasonKeys_flatMap {A : Type} (I : List String) (us : List A)
    (f : A → List TIssueRecord) :
    ReasonKeys I (us.flatMap f) = us.flatMap (fun u => ReasonKeys I (f u)) := by
  induction us with
  | nil => rfl
  | cons u us ih => rw [List.flatMap_cons, List.flatMap_cons, ReasonKeys_append, ih]

theorem ReasonKeys_eq_nil (I : List String) (l : List TIssueRecord)
    (h : ∀ v ∈ l, ReasonKey I v = []) : ReasonKeys I l = [] := by
  induction l with
  | nil => rfl
  | cons v l ih =>
    rw [ReasonKeys_cons, if_pos (h v (List.mem_cons_self _ _))]
    exact ih (fun w hw => h w (List.mem_cons_of_mem _ hw))

theorem ReasonKeys_filter (I : List String) (l : List TIssueRecord) (S : TIssueRecord → Bool)
    (h : ∀ v ∈ l, S v = false → ReasonKey I v = []) :
    ReasonKeys I (l.filter S) = ReasonKeys I l := by
  induction l with
  | nil => rfl
  | cons v l ih =>
    have ih2 := ih (fun w hw => h w (List.mem_cons_of_mem _ hw))
    by_cases hs : S v = true
    · rw [List.filter_cons_of_pos hs, ReasonKeys_cons, ReasonKeys_cons, ih2]
    · rw [List.filter_cons_of_neg hs, ReasonKeys_cons,
        if_pos (h v (List.mem_cons_self _ _) (by simpa using hs)), ih2]

theorem ReasonKeys_map (I : List String) (l : List TIssueRecord)
    (f : TIssueRecord → TIssueRecord) (h : ∀ v ∈ l, ReasonKey I (f v) = ReasonKey I v) :
    ReasonKeys I (l.map f) = ReasonKeys I l := by
  induction l with
  | nil => rfl
  | cons v l ih =>
    rw [List.map_cons, ReasonKeys_cons, ReasonKeys_cons, h v (List.mem_cons_self _ _),
      ih (fun w hw => h w (List.mem_cons_of_mem _ hw))]

theorem ReasonKey_of_reason (I : List String) (a b : TIssueRecord)
    (h : a.IssueLog.reason = b.IssueLog.reason) : ReasonKey I a = ReasonKey I b := by
  unfold ReasonKey
  rw [h]

theorem ReasonKey_Settle (F : List TIssueRecord) (v : TIssueRecord) :
    ReasonKey (F.map (fun it => it.IssueLog.id)) (Settle F v) =
      ReasonKey (F.map (fun it => it.IssueLog.id)) v := by
  unfold ReasonKey
  rw [(Settle_fields F v).2.2.2.2.2.2.2.1, List.filter_filter]
  exact List.filter_congr (fun x _ => Bool.and_self _)

theorem mem_ReasonKeys (I : List String) (vs : List TIssueRecord) (k : List String) :
    k ∈ ReasonKeys I vs ↔ k ≠ [] ∧ ∃ v ∈ vs, ReasonKey I v = k := by
  unfold ReasonKeys
  rw [List.mem_filter, List.mem_map]
  constructor
  · rintro ⟨h1, h2⟩
    refine ⟨?_, h1⟩
    intro e
    rw [e] at h2
    cases h2
  · rintro ⟨h1, h2⟩
    refine ⟨h2, ?_⟩
    cases k with
    | nil => exact absurd rfl h1
    | cons a l => rfl

/-- RemoveRecordsAboveLimit leaves the reasons of a list as they are, up to
those of the records it erases. -/
theorem ReasonKeys_CutList (I : List String) (R : List TIssueRecord)
    (h : ∀ pre last last2 rest, R = pre ++ last :: rest → CutList R = pre ++ [last2] →
      last2.IssueLog.reason = last.IssueLog.reason → ∀ r ∈ rest, ReasonKey I r = []) :
    ReasonKeys I (CutList R) = ReasonKeys I R := by
  rcases CutList_shape R with e | ⟨pre, last, last2, rest, e1, e2, _, hr⟩
  · rw [e]
  · have h0 := h pre last last2 rest e1 e2 hr
    rw [e2]
    have e3 : ReasonKeys I R = ReasonKeys I pre ++ ReasonKeys I ([last] ++ rest) := by
      rw [e1, ReasonKeys_append]
      rfl
    rw [e3, ReasonKeys_append, ReasonKeys_append, ReasonKeys_eq_nil I rest h0, List.append_nil,
      ReasonKeys_cons, ReasonKeys_cons, ReasonKey_of_reason I last2 last hr]

theorem flatMap_Owns_keys (I : List String) (P vs : List TIssueRecord)
    (hP : ∀ r ∈ P, r.IssueLog.id ∈ I) :
    vs.flatMap (fun v => P.filter (Owns v)) =
      (ReasonKeys I vs).flatMap (fun k => P.filter (fun r => decide (r.IssueLog.id ∈ k))) := by
  induction vs with
  | nil => rfl
  | cons v vs ih =>
    have e : P.filter (Owns v) = P.filter (fun r => decide (r.IssueLog.id ∈ ReasonKey I v)) :=
      List.filter_congr (fun r hr => Owns_key I v r (hP r hr))
    rw [List.flatMap_cons, ih, ReasonKeys_cons, e]
    by_cases hk : ReasonKey I v = []
    · rw [if_pos hk, hk]
      have : P.filter (fun r => decide (r.IssueLog.id ∈ ([] : List String))) = [] := by
        rw [List.filter_eq_nil_iff]
        intro r _
        simp
      rw [this, List.nil_append]
    · rw [if_neg hk, List.flatMap_cons]

theorem NoOwner_keys (I : List String) (vs : List TIssueRecord) (r : TIssueRecord)
    (h : r.IssueLog.id ∈ I) :
    NoOwner vs r = (ReasonKeys I vs).all (fun k => !decide (r.IssueLog.id ∈ k)) := by
  induction vs with
  | nil => rfl
  | cons v vs ih =>
    rw [NoOwner_cons, ih, ReasonKeys_cons, Owns_key I v r h]
    by_cases hk : ReasonKey I v = []
    · rw [if_pos hk, hk]
      simp
    · rw [if_neg hk, List.all_cons]

/-- A list is grouped in the same way along two lists of upper records whose
reasons among the ids of the list are the same. -/
theorem regroup_keys (I : List String) (P vs ws : List TIssueRecord)
    (hP : ∀ r ∈ P, r.IssueLog.id ∈ I) (hk : ReasonKeys I vs = ReasonKeys I ws) :
    P.filter (NoOwner vs) ++ vs.flatMap (fun v => P.filter (Owns v)) =
      P.filter (NoOwner ws) ++ ws.flatMap (fun v => P.filter (Owns v)) := by
  rw [flatMap_Owns_keys I P vs hP, flatMap_Owns_keys I P ws hP, hk]
  congr 1
  apply List.filter_congr
  intro r hr
  rw [NoOwner_keys I vs r (hP r hr), NoOwner_keys I ws r (hP r hr), hk]

/-- The group of a record whose reasons among the ids of the list are those
of another record is the group of that record. -/
theorem filter_Owns_keys (I : List String) (P : List TIssueRecord) (v w : TIssueRecord)
    (hP : ∀ r ∈ P, r.IssueLog.id ∈ I) (hk : ReasonKey I v = ReasonKey I w) :
    P.filter (Owns v) = P.filter (Owns w) := by
  apply List.filter_congr
  intro r hr
  rw [Owns_key I v r (hP r hr), Owns_key I w r (hP r hr), hk]

theorem filter_Owns_nil (I : List String) (P : List TIssueRecord) (v : TIssueRecord)
    (hP : ∀ r ∈ P, r.IssueLog.id ∈ I) (hk : ReasonKey I v = []) :
    P.filter (Owns v) = [] := by
  rw [List.filter_eq_nil_iff]
  intro r hr
  rw [Owns_key I v r (hP r hr), hk]
  simp

/-! ### C12: RenameMergingIssues on its own result -/

theorem split_of_isPrefixOf (m p : String) (h : p.data.isPrefixOf m.data = true) :
    ∃ x, m = p ++ x := by
  refine ⟨String.mk (m.data.drop p.data.length), ?_⟩
  apply String.ext
  rw [String.data_append]
  rw [List.isPrefixOf_iff_prefix] at h
  exact (List.prefix_iff_eq_append.1 h).symm

theorem RegexReplaceStart_same (m p : String) : RegexReplaceStart m p p = m := by
  by_cases h : p.data.isPrefixOf m.data = true
  · obtain ⟨x, e⟩ := split_of_isPrefixOf m p h
    rw [e, RegexReplaceStart_match]
  · exact RegexReplaceStart_other m p p (Bool.eq_false_iff.2 h)

theorem RegexReplaceStart_twice (p1 f1 p2 f2 : String)
    (h11 : ∀ x, p1.data.isPrefixOf (f1 ++ x).data = false)
    (h12 : ∀ x, p2.data.isPrefixOf (f1 ++ x).data = false)
    (h21 : ∀ x, p1.data.isPrefixOf (f2 ++ x).data = false)
    (h22 : ∀ x, p2.data.isPrefixOf (f2 ++ x).data = false) (m : String) :
    RegexReplaceStart (RegexReplaceStart
      (RegexReplaceStart (RegexReplaceStart m p1 f1) p2 f2) p1 f1) p2 f2 =
      RegexReplaceStart (RegexReplaceStart m p1 f1) p2 f2 := by
  by_cases c1 : p1.data.isPrefixOf m.data = true
  · obtain ⟨x, e⟩ := split_of_isPrefixOf m p1 c1
    rw [e, RegexReplaceStart_match, RegexReplaceStart_other _ p2 f2 (h12 x),
      RegexReplaceStart_other _ p1 f1 (h11 x), RegexReplaceStart_other _ p2 f2 (h12 x)]
  · rw [RegexReplaceStart_other m p1 f1 (Bool.eq_false_iff.2 c1)]
    by_cases c2 : p2.data.isPrefixOf m.data = true
    · obtain ⟨x, e⟩ := split_of_isPrefixOf m p2 c2
      rw [e, RegexReplaceStart_match, RegexReplaceStart_other _ p1 f1 (h21 x),
        RegexReplaceStart_other _ p2 f2 (h22 x)]
    · rw [RegexReplaceStart_other m p2 f2 (Bool.eq_false_iff.2 c2),
        RegexReplaceStart_other m p1 f1 (Bool.eq_false_iff.2 c1),
        RegexReplaceStart_other m p2 f2 (Bool.eq_false_iff.2 c2)]

theorem RegexReplaceStart_thrice (p1 f1 p2 f2 p3 f3 : String)
    (h11 : ∀ x, p1.data.isPrefixOf (f1 ++ x).data = false)
    (h12 : ∀ x, p2.data.isPrefixOf (f1 ++ x).data = false)
    (h13 : ∀ x, p3.data.isPrefixOf (f1 ++ x).data = false)
    (h21 : ∀ x, p1.data.isPrefixOf (f2 ++ x).data = false)
    (h22 : ∀ x, p2.data.isPrefixOf (f2 ++ x).data = false)
    (h23 : ∀ x, p3.data.isPrefixOf (f2 ++ x).data = false)
    (h31 : ∀ x, p1.data.isPrefixOf (f3 ++ x).data = false)
    (h32 : ∀ x, p2.data.isPrefixOf (f3 ++ x).data = false)
    (h33 : ∀ x, p3.data.isPrefixOf (f3 ++ x).data = false) (m : String) :
    RegexReplaceStart (RegexReplaceStart (RegexReplaceStart
      (RegexReplaceStart (RegexReplaceStart (RegexReplaceStart m p1 f1) p2 f2) p3 f3)
        p1 f1) p2 f2) p3 f3 =
      RegexReplaceStart (RegexReplaceStart (RegexReplaceStart m p1 f1) p2 f2) p3 f3 := by
  by_cases c1 : p1.data.isPrefixOf m.data = true
  · obtain ⟨x, e⟩ := split_of_isPrefixOf m p1 c1
    rw [e, RegexReplaceStart_match, RegexReplaceStart_other _ p2 f2 (h12 x),
      RegexReplaceStart_other _ p3 f3 (h13 x),
      RegexReplaceStart_other _ p1 f1 (h11 x), RegexReplaceStart_other _ p2 f2 (h12 x),
      RegexReplaceStart_other _ p3 f3 (h13 x)]
  · rw [RegexReplaceStart_other m p1 f1 (Bool.eq_false_iff.2 c1)]
    by_cases c2 : p2.data.isPrefixOf m.data = true
    · obtain ⟨x, e⟩ := split_of_isPrefixOf m p2 c2
      rw [e, RegexReplaceStart_match, RegexReplaceStart_other _ p3 f3 (h23 x),
        RegexReplaceStart_other _ p1 f1 (h21 x),
        RegexReplaceStart_other _ p2 f2 (h22 x), RegexReplaceStart_other _ p3 f3 (h23 x)]
    · rw [RegexReplaceStart_other m p2 f2 (Bool.eq_false_iff.2 c2)]
      by_cases c3 : p3.data.isPrefixOf m.data = true
      · obtain ⟨x, e⟩ := split_of_isPrefixOf m p3 c3
        rw [e, RegexReplaceStart_match, RegexReplaceStart_other _ p1 f1 (h31 x),
          RegexReplaceStart_other _ p2 f2 (h32 x), RegexReplaceStart_other _ p3 f3 (h33 x)]
      · rw [RegexReplaceStart_other m p3 f3 (Bool.eq_false_iff.2 c3),
          RegexReplaceStart_other m p1 f1 (Bool.eq_false_iff.2 c1),
          RegexReplaceStart_other m p2 f2 (Bool.eq_false_iff.2 c2),
          RegexReplaceStart_other m p3 f3 (Bool.eq_false_iff.2 c3)]

/-- RenameMergingIssues leaves a message it has rewritten as it is. -/
theorem RenameMessage_twice (tag : ETags) (m : String) :
    RenameMessage tag (RenameMessage tag m) = RenameMessage tag m := by
  cases tag
  case GroupState =>
    exact RegexReplaceStart_thrice "Group has " "Groups have " "Group is " "Groups are "
      "Group " "Groups "
      (fun x => by rw [String.data_append]; rfl) (fun x => by rw [String.data_append]; rfl)
      (fun x => by rw [String.data_append]; rfl) (fun x => by rw [String.data_append]; rfl)
      (fun x => by rw [String.data_append]; rfl) (fun x => by rw [String.data_append]; rfl)
      (fun x => by rw [String.data_append]; rfl) (fun x => by rw [String.data_append]; rfl)
      (fun x => by rw [String.data_append]; rfl) m
  case VDiskState =>
    show RegexReplaceStart (RegexReplaceStart (RegexReplaceStart
      (RegexReplaceStart (RegexReplaceStart (RegexReplaceStart m "VDisk has " "VDisk have ")
        "VDisk is " "VDisks are ") "VDisk " "VDisk ") "VDisk has " "VDisk have ")
        "VDisk is " "VDisks are ") "VDisk " "VDisk " =
      RegexReplaceStart (RegexReplaceStart (RegexReplaceStart m "VDisk has " "VDisk have ")
        "VDisk is " "VDisks are ") "VDisk " "VDisk "
    rw [RegexReplaceStart_same, RegexReplaceStart_same]
    exact RegexReplaceStart_twice "VDisk has " "VDisk have " "VDisk is " "VDisks are "
      (fun x => by rw [String.data_append]; rfl) (fun x => by rw [String.data_append]; rfl)
      (fun x => by rw [String.data_append]; rfl) (fun x => by rw [String.data_append]; rfl) m
  case PDiskState =>
    show RegexReplaceStart (RegexReplaceStart (RegexReplaceStart
      (RegexReplaceStart (RegexReplaceStart (RegexReplaceStart m "PDisk has " "PDisk have ")
        "PDisk is " "PDisks are ") "PDisk " "PDisk ") "PDisk has " "PDisk have ")
        "PDisk is " "PDisks are ") "PDisk " "PDisk " =
      RegexReplaceStart (RegexReplaceStart (RegexReplaceStart m "PDisk has " "PDisk have ")
        "PDisk is " "PDisks are ") "PDisk " "PDisk "
    rw [RegexReplaceStart_same, RegexReplaceStart_same]
    exact RegexReplaceStart_twice "PDisk has " "PDisk have " "PDisk is " "PDisks are "
      (fun x => by rw [String.data_append]; rfl) (fun x => by rw [String.data_append]; rfl)
      (fun x => by rw [String.data_append]; rfl) (fun x => by rw [String.data_append]; rfl) m
  all_goals rfl

/-! ### C12: similar records after RenameMergingIssues -/

theorem SimKey_Settle (tag : ETags) (F : List TIssueRecord) (r : TIssueRecord) :
    SimKey tag (Settle F r) =
      (r.IssueLog.status,
        (if r.IssueLog.count > 0 then RenameMessage r.Tag r.IssueLog.message
          else r.IssueLog.message),
        r.IssueLog.level,
        if tag = ETags.VDiskState then r.IssueLog.location.storage.node.id else 0) := by
  obtain ⟨_, _, _, _, h5, h6, h7, _, h9⟩ := Settle_fields F r
  unfold SimKey
  rw [h5, h6, h7, h9]

theorem SimKey_Settle_zero (tag : ETags) (F : List TIssueRecord) (r : TIssueRecord)
    (h : r.IssueLog.count = 0) : SimKey tag (Settle F r) = SimKey tag r := by
  rw [SimKey_Settle, if_neg (by omega)]
  rfl

/-- Records of one tag that are similar after RenameMergingIssues were
similar before, when no message of the list is the rewritten form of another
message of it and no two messages have the same rewritten form. -/
theorem SimKey_of_Settle (tag : ETags) (F : List TIssueRecord) (x y : TIssueRecord)
    (hx : x.Tag = tag) (hy : y.Tag = tag)
    (hmsg : ∀ a b : TIssueRecord, (a = x ∨ a = y) → (b = x ∨ b = y) →
      (RenameMessage tag a.IssueLog.message = RenameMessage tag b.IssueLog.message ∨
        RenameMessage tag a.IssueLog.message = b.IssueLog.message) →
      a.IssueLog.message = b.IssueLog.message)
    (h : SimKey tag (Settle F x) = SimKey tag (Settle F y)) : SimKey tag x = SimKey tag y := by
  rw [SimKey_Settle, SimKey_Settle, hx, hy] at h
  simp only [Prod.mk.injEq] at h
  obtain ⟨h1, h2, h3, h4⟩ := h
  have hm : x.IssueLog.message = y.IssueLog.message := by
    by_cases cx : x.IssueLog.count > 0
    · rw [if_pos cx] at h2
      by_cases cy : y.IssueLog.count > 0
      · rw [if_pos cy] at h2
        exact hmsg x y (Or.inl rfl) (Or.inr rfl) (Or.inl h2)
      · rw [if_neg cy] at h2
        exact hmsg x y (Or.inl rfl) (Or.inr rfl) (Or.inr h2)
    · rw [if_neg cx] at h2
      by_cases cy : y.IssueLog.count > 0
      · rw [if_pos cy] at h2
        exact (hmsg y x (Or.inr rfl) (Or.inl rfl) (Or.inr h2.symm)).symm
      · rw [if_neg cy] at h2
        exact h2
  unfold SimKey
  rw [h1, hm, h3, h4]

/-- A list of one tag in which similar records stand together, are at most
four and have no count unless they are the last of their class, is such a
list after RenameMergingIssues. -/
theorem Settle_keys (tag : ETags) (F : List TIssueRecord) (Y : List TIssueRecord)
    (ht : ∀ r ∈ Y, r.Tag = tag)
    (hc : Contig (Y.map (SimKey tag))) (hn : NoBig (Y.map (SimKey tag)))
    (hci : CountInv tag Y)
    (hmsg : ∀ a ∈ Y, ∀ b ∈ Y,
      (RenameMessage tag a.IssueLog.message = RenameMessage tag b.IssueLog.message ∨
        RenameMessage tag a.IssueLog.message = b.IssueLog.message) →
      a.IssueLog.message = b.IssueLog.message) :
    Contig ((Y.map (Settle F)).map (SimKey tag)) ∧
    NoBig ((Y.map (Settle F)).map (SimKey tag)) := by
  have hQ : ∀ x ∈ Y, ∀ y ∈ Y, SimKey tag (Settle F x) = SimKey tag (Settle F y) →
      SimKey tag x = SimKey tag y := by
    intro x hx y hy h
    refine SimKey_of_Settle tag F x y (ht x hx) (ht y hy) ?_ h
    intro a b ha hb
    have ha2 : a ∈ Y := by
      rcases ha with ha | ha <;> rw [ha] <;> assumption
    have hb2 : b ∈ Y := by
      rcases hb with hb | hb <;> rw [hb] <;> assumption
    exact hmsg a ha2 b hb2
  constructor
  · intro a b hab
    rw [List.map_map, List.sublist_map_iff] at hab
    obtain ⟨l, hl, e⟩ := hab
    have hlen : l.length = 3 := by
      have := congrArg List.length e
      simpa using this.symm
    obtain ⟨x, y, z, el⟩ := List.length_eq_three.1 hlen
    rw [el] at e hl
    simp only [List.map_cons, List.map_nil, Function.comp, List.cons.injEq, and_true] at e
    obtain ⟨e1, e2, e3⟩ := e
    have hx : x ∈ Y := hl.subset (by simp)
    have hy : y ∈ Y := hl.subset (by simp)
    have hz : z ∈ Y := hl.subset (by simp)
    have kxz : SimKey tag x = SimKey tag z := hQ x hx z hz (e1.symm.trans e3)
    have hsub : List.Sublist [SimKey tag x, SimKey tag y, SimKey tag x]
        (Y.map (SimKey tag)) := by
      have := hl.map (SimKey tag)
      simp only [List.map_cons, List.map_nil] at this
      rw [← kxz] at this
      exact this
    have kyx : SimKey tag y = SimKey tag x := hc _ _ hsub
    have hxy : List.Sublist [x, y] [x, y, z] :=
      List.Sublist.cons₂ x (List.Sublist.cons₂ y (List.nil_sublist _))
    have cx : x.IssueLog.count = 0 := hci x y (hxy.trans hl) kyx.symm
    have cy : y.IssueLog.count = 0 :=
      hci y z (List.Sublist.trans
        (List.Sublist.cons x (List.Sublist.refl _)) hl) (kyx.trans kxz)
    rw [e2, e1, SimKey_Settle_zero tag F x cx, SimKey_Settle_zero tag F y cy]
    exact kyx
  · intro a
    rw [List.map_map, List.countP_map]
    by_cases hex : ∃ r0 ∈ Y, SimKey tag (Settle F r0) = a
    · obtain ⟨r0, hr0, e0⟩ := hex
      refine Nat.le_trans ?_ (hn (SimKey tag r0))
      rw [List.countP_map]
      apply List.countP_mono_left
      intro r hr hra
      simp only [Function.comp, decide_eq_true_eq] at hra ⊢
      exact hQ r hr r0 hr0 (hra.trans e0.symm)
    · have h0 : Y.countP ((fun x => decide (x = a)) ∘ (SimKey tag ∘ Settle F)) = 0 := by
        rw [List.countP_eq_zero]
        intro r hr hra
        simp only [Function.comp, decide_eq_true_eq] at hra
        exact hex ⟨r, hr, hra⟩
      rw [h0]
      exact Nat.zero_le _

/-! ### C12: the stages on a settled list -/

theorem Alike.trans_alike {a b c : TMergeIssuesContext} (h1 : Alike a b) (h2 : Alike b c) :
    Alike a c :=
  ⟨fun tag => (h1.1 tag).trans (h2.1 tag), h1.2.trans h2.2⟩

theorem Alike_SetRecords (c : TMergeIssuesContext) (tag : ETags) :
    Alike (c.SetRecords tag (c.GetRecords tag)) c := by
  refine ⟨fun other => ?_, rfl⟩
  by_cases h : other = tag
  · rw [h, GetRecords_SetRecords_same]
  · rw [GetRecords_SetRecords_ne _ _ _ _ h]

theorem Alike_SetRecords_of_eq (c : TMergeIssuesContext) (tag : ETags)
    (l : List TIssueRecord) (h : l = c.GetRecords tag) : Alike (c.SetRecords tag l) c := by
  rw [h]
  exact Alike_SetRecords c tag

theorem MergeLevelRecordsTag_stable (c : TMergeIssuesContext) (tag : ETags)
    (h : MergeLevelRecords c (c.GetRecords tag) = (c, c.GetRecords tag)) :
    Alike (MergeLevelRecordsTag c tag) c := by
  unfold MergeLevelRecordsTag
  dsimp only
  rw [h]
  exact Alike_SetRecords c tag

/-- The fold of the merging stage when MergeLevelRecords leaves every group
as it is: the context stays, and the list comes out grouped. -/
theorem MergeLevelRecordsUpper_fold_stable (us pool done : List TIssueRecord)
    (c : TMergeIssuesContext)
    (hown : ∀ r ∈ pool, us.countP (fun u => Owns u r) ≤ 1)
    (hdone : ∀ r ∈ done, ∀ u ∈ us, Owns u r = false)
    (hst : ∀ u ∈ us, ∀ d : TMergeIssuesContext,
      MergeLevelRecords d (pool.filter (Owns u)) = (d, pool.filter (Owns u))) :
    us.foldl
      (fun (acc : TMergeIssuesContext × List TIssueRecord) it =>
        let found := FindChildrenRecords acc.2 it
        let merged := if found.1.length > 1 then MergeLevelRecords acc.1 found.1
          else (acc.1, found.1)
        (merged.1, found.2 ++ merged.2))
      (c, pool ++ done) =
    (c, pool.filter (NoOwner us) ++ done ++ us.flatMap (fun u => pool.filter (Owns u))) := by
  induction us generalizing pool done with
  | nil =>
    have h : pool.filter (NoOwner []) = pool := List.filter_eq_self.2 (fun _ _ => rfl)
    simp [h]
  | cons u us ih =>
    rw [List.foldl_cons]
    have hd1 : done.filter (fun it => !Owns u it) = done :=
      List.filter_eq_self.2 (fun r hr => by
        rw [hdone r hr u (List.mem_cons_self _ _)]; rfl)
    have hd2 : done.filter (Owns u) = [] :=
      List.filter_eq_nil_iff.2 (fun r hr => by
        rw [hdone r hr u (List.mem_cons_self _ _)]; decide)
    have h1 : (FindChildrenRecords (pool ++ done) u).1 = pool.filter (Owns u) := by
      show (pool ++ done).filter (Owns u) = _
      rw [List.filter_append, hd2, List.append_nil]
    have h2 : (FindChildrenRecords (pool ++ done) u).2 =
        pool.filter (fun it => !Owns u it) ++ done := by
      show (pool ++ done).filter (fun it => !Owns u it) = _
      rw [List.filter_append, hd1]
    have h3 : (if (pool.filter (Owns u)).length > 1
        then MergeLevelRecords c (pool.filter (Owns u))
        else (c, pool.filter (Owns u))) = (c, pool.filter (Owns u)) := by
      split
      · exact hst u (List.mem_cons_self _ _) c
      · rfl
    dsimp only
    rw [h1, h2, h3]
    dsimp only
    have hb : ∀ w ∈ us, (pool.filter (fun it => !Owns u it)).filter (Owns w) =
        pool.filter (Owns w) := by
      intro w hw
      rw [List.filter_filter]
      refine List.filter_congr (fun r hr => ?_)
      by_cases hwr : Owns w r = true
      · rw [hwr, Owns_head_false_of_count u us r w (hown r hr) hw hwr]
        rfl
      · have : Owns w r = false := by simpa using hwr
        rw [this]
        rfl
    rw [List.append_assoc]
    rw [ih (pool.filter (fun it => !Owns u it)) (done ++ pool.filter (Owns u))
      (fun r hr => by
        have h1 := hown r (List.mem_filter.1 hr).1
        exact Nat.le_trans (List.Sublist.countP_le _ (List.sublist_cons_self u us)) h1)
      (fun r hr w hw => by
        rw [List.mem_append] at hr
        rcases hr with hr | hr
        · exact hdone r hr w (List.mem_cons_of_mem _ hw)
        · have h0 := List.mem_filter.1 hr
          exact Owns_false_of_count u us r (hown r h0.1) h0.2 w hw)
      (fun w hw d => by
        rw [hb w hw]
        exact hst w (List.mem_cons_of_mem _ hw) d)]
    have hf : (pool.filter (fun it => !Owns u it)).filter (NoOwner us) =
        pool.filter (NoOwner (u :: us)) := by
      rw [List.filter_filter]
      congr 1
      funext r
      rw [NoOwner_cons, Bool.and_comm]
    have hb2 : us.flatMap (fun w => (pool.filter (fun it => !Owns u it)).filter (Owns w)) =
        us.flatMap (fun w => pool.filter (Owns w)) :=
      List.flatMap_congr (fun w hw => hb w hw)
    rw [hf, hb2, List.flatMap_cons]
    simp only [List.append_assoc]

/-- The fold of the cutting stage when RemoveRecordsAboveLimit leaves every
group as it is. -/
theorem RemoveRecordsAboveLimitUpper_fold_stable (us pool handled : List TIssueRecord)
    (c : TMergeIssuesContext)
    (hown : ∀ r ∈ pool, us.countP (fun u => Owns u r) ≤ 1)
    (hst : ∀ u ∈ us, ∀ d : TMergeIssuesContext,
      RemoveRecordsAboveLimit d (pool.filter (Owns u)) = (d, pool.filter (Owns u))) :
    us.foldl
      (fun (acc : TMergeIssuesContext × List TIssueRecord × List TIssueRecord) it =>
        let found := FindChildrenRecords acc.2.1 it
        let cut := RemoveRecordsAboveLimit acc.1 found.1
        (cut.1, found.2, acc.2.2 ++ cut.2))
      (c, pool, handled) =
    (c, pool.filter (NoOwner us), handled ++ us.flatMap (fun u => pool.filter (Owns u))) := by
  induction us generalizing pool handled with
  | nil =>
    have h : pool.filter (NoOwner []) = pool := List.filter_eq_self.2 (fun _ _ => rfl)
    simp [h]
  | cons u us ih =>
    rw [List.foldl_cons]
    have h1 : (FindChildrenRecords pool u).1 = pool.filter (Owns u) := rfl
    have h2 : (FindChildrenRecords pool u).2 = pool.filter (fun it => !Owns u it) := rfl
    dsimp only
    rw [h1, h2, hst u (List.mem_cons_self _ _) c]
    dsimp only
    have hb : ∀ w ∈ us, (pool.filter (fun it => !Owns u it)).filter (Owns w) =
        pool.filter (Owns w) := by
      intro w hw
      rw [List.filter_filter]
      refine List.filter_congr (fun r hr => ?_)
      by_cases hwr : Owns w r = true
      · rw [hwr, Owns_head_false_of_count u us r w (hown r hr) hw hwr]
        rfl
      · have : Owns w r = false := by simpa using hwr
        rw [this]
        rfl
    rw [ih (pool.filter (fun it => !Owns u it)) (handled ++ pool.filter (Owns u))
      (fun r hr => by
        have h1 := hown r (List.mem_filter.1 hr).1
        exact Nat.le_trans (List.Sublist.countP_le _ (List.sublist_cons_self u us)) h1)
      (fun w hw d => by
        rw [hb w hw]
        exact hst w (List.mem_cons_of_mem _ hw) d)]
    have hf : (pool.filter (fun it => !Owns u it)).filter (NoOwner us) =
        pool.filter (NoOwner (u :: us)) := by
      rw [List.filter_filter]
      congr 1
      funext r
      rw [NoOwner_cons, Bool.and_comm]
    have hb2 : us.flatMap (fun w => (pool.filter (fun it => !Owns u it)).filter (Owns w)) =
        us.flatMap (fun w => pool.filter (Owns w)) :=
      List.flatMap_congr (fun w hw => hb w hw)
    rw [hf, hb2, List.flatMap_cons]
    simp only [List.append_assoc]

theorem MergeLevelRecordsUpper_stable (c : TMergeIssuesContext) (levelTag upperTag : ETags)
    (hne : upperTag ≠ levelTag) (t : TagInv c.recordsMap)
    (h : Grouped levelTag (c.GetRecords upperTag) (c.GetRecords levelTag)) :
    Alike (MergeLevelRecordsUpper c levelTag upperTag) c := by
  obtain ⟨hown, hg, hst⟩ := h
  have hup : ((c.SetRecords levelTag (c.GetRecords levelTag)).GetRecords upperTag) =
      c.GetRecords upperTag := GetRecords_SetRecords_ne _ _ _ _ hne
  have hfold := MergeLevelRecordsUpper_fold_stable (c.GetRecords upperTag)
    (c.GetRecords levelTag) []
    ((c.SetRecords levelTag (c.GetRecords levelTag)).SetRecords upperTag
      (c.GetRecords upperTag))
    (fun r _ => SingleOwner_countP _ hown r) (fun r hr => by cases hr)
    (fun u hu d => MergeLevelRecords_stable levelTag d _
      (fun r hr => TagInv_GetRecords c levelTag t r (List.mem_filter.1 hr).1)
      (hst u hu).1 (hst u hu).2.1)
  rw [List.append_nil, List.append_nil, ← hg] at hfold
  unfold MergeLevelRecordsUpper
  dsimp only
  rw [hup, hfold]
  dsimp only
  refine Alike.trans_alike (Alike_SetRecords_of_eq _ _ _ ?_)
    ((Alike_SetRecords_of_eq _ _ _ hup.symm).trans_alike (Alike_SetRecords c levelTag))
  rw [GetRecords_SetRecords_ne _ _ _ _ (Ne.symm hne), GetRecords_SetRecords_same]

theorem RemoveRecordsAboveLimitUpper_stable (c : TMergeIssuesContext)
    (levelTag upperTag : ETags) (hne : upperTag ≠ levelTag)
    (h : Grouped levelTag (c.GetRecords upperTag) (c.GetRecords levelTag)) :
    Alike (RemoveRecordsAboveLimitUpper c levelTag upperTag) c := by
  obtain ⟨hown, hg, hst⟩ := h
  have hup : ((c.SetRecords levelTag (c.GetRecords levelTag)).GetRecords upperTag) =
      c.GetRecords upperTag := GetRecords_SetRecords_ne _ _ _ _ hne
  have hfold := RemoveRecordsAboveLimitUpper_fold_stable (c.GetRecords upperTag)
    (c.GetRecords levelTag) []
    ((c.SetRecords levelTag (c.GetRecords levelTag)).SetRecords upperTag
      (c.GetRecords upperTag))
    (fun r _ => SingleOwner_countP _ hown r)
    (fun u hu d => RemoveRecordsAboveLimit_stable d _ (hst u hu).2.2)
  rw [List.nil_append] at hfold
  unfold RemoveRecordsAboveLimitUpper
  dsimp only
  rw [hup, hfold]
  dsimp only
  rw [← hg]
  refine Alike.trans_alike (Alike_SetRecords_of_eq _ _ _ ?_)
    ((Alike_SetRecords_of_eq _ _ _ hup.symm).trans_alike (Alike_SetRecords c levelTag))
  rw [GetRecords_SetRecords_ne _ _ _ _ (Ne.symm hne), GetRecords_SetRecords_same]

theorem RemoveRecordsAboveLimitTag_stable (c : TMergeIssuesContext) (tag : ETags)
    (h : ListedSum (c.GetRecords tag) ≤ MERGER_ISSUE_LIMIT) :
    Alike (RemoveRecordsAboveLimitTag c tag) c := by
  unfold RemoveRecordsAboveLimitTag
  dsimp only
  split
  · rw [RemoveRecordsAboveLimit_stable _ _ h]
    dsimp only
    refine Alike.trans_alike (Alike_SetRecords_of_eq _ _ _ ?_) (Alike_SetRecords c tag)
    rw [GetRecords_SetRecords_same]
  · exact Alike_SetRecords c tag

/-! ### C12: MergeRecords on a settled list -/

theorem Settle_of_closed (F : List TIssueRecord) (r : TIssueRecord)
    (h1 : ∀ x ∈ r.IssueLog.reason, x ∈ F.map (fun it => it.IssueLog.id))
    (h2 : r.IssueLog.count > 0 → RenameMessage r.Tag r.IssueLog.message = r.IssueLog.message) :
    Settle F r = r := by
  have hf : r.IssueLog.reason.filter
      (fun x => decide (x ∈ F.map (fun it => it.IssueLog.id))) = r.IssueLog.reason :=
    List.filter_eq_self.2 (fun x hx => by simpa using h1 x hx)
  unfold Settle
  rw [hf]
  split
  · rename_i hc
    rw [h2 hc]
  · rfl

theorem Kept_of_no_removed (X : TExternal) (c : TMergeIssuesContext)
    (h : c.removeIssuesIds = []) : Kept X c = Collect X c := by
  unfold Kept
  rw [RemoveUnlinkLoop_keep]
  intro r _
  right
  rw [h]
  exact List.not_mem_nil _

/-- The six stages of MergeRecords leave the lists and the removed ids of a
context as they are when its lists are those of a settled list. -/
theorem stages_of_settled (M : List TIssueRecord) (h : Settled M)
    (c0 c1 c2 c3 c4 c5 c6 : TMergeIssuesContext) (t0 : TagInv c0.recordsMap)
    (g0 : ∀ tag, c0.GetRecords tag = M.filter (fun r => decide (r.Tag = tag)))
    (h1 : c1 = MergeLevelRecordsTag c0 ETags.GroupState)
    (h2 : c2 = MergeLevelRecordsUpper c1 ETags.VDiskState ETags.GroupState)
    (h3 : c3 = MergeLevelRecordsUpper c2 ETags.PDiskState ETags.VDiskState)
    (h4 : c4 = RemoveRecordsAboveLimitUpper c3 ETags.PDiskState ETags.VDiskState)
    (h5 : c5 = RemoveRecordsAboveLimitUpper c4 ETags.VDiskState ETags.GroupState)
    (h6 : c6 = RemoveRecordsAboveLimitTag c5 ETags.GroupState) : Alike c6 c0 := by
  obtain ⟨hG, hV, hP, _⟩ := h
  have a1 : Alike c1 c0 := by
    rw [h1]
    apply MergeLevelRecordsTag_stable
    refine MergeLevelRecords_stable ETags.GroupState _ _
      (TagInv_GetRecords _ _ t0) ?_ ?_
    · rw [g0]
      exact hG.1
    · rw [g0]
      exact hG.2.1
  have t1 : TagInv c1.recordsMap := by
    rw [h1]
    exact (MergeLevelRecordsTag_spec c0 ETags.GroupState t0).1
  have a2 : Alike c2 c0 := by
    rw [h2]
    refine Alike.trans_alike (MergeLevelRecordsUpper_stable _ _ _ (by decide) t1 ?_) a1
    rw [a1.1, a1.1, g0, g0]
    exact hV
  have t2 : TagInv c2.recordsMap := by
    rw [h2]
    exact (MergeLevelRecordsUpper_spec c1 ETags.VDiskState ETags.GroupState (by decide) t1).1
  have a3 : Alike c3 c0 := by
    rw [h3]
    refine Alike.trans_alike (MergeLevelRecordsUpper_stable _ _ _ (by decide) t2 ?_) a2
    rw [a2.1, a2.1, g0, g0]
    exact hP
  have a4 : Alike c4 c0 := by
    rw [h4]
    refine Alike.trans_alike (RemoveRecordsAboveLimitUpper_stable _ _ _ (by decide) ?_) a3
    rw [a3.1, a3.1, g0, g0]
    exact hP
  have a5 : Alike c5 c0 := by
    rw [h5]
    refine Alike.trans_alike (RemoveRecordsAboveLimitUpper_stable _ _ _ (by decide) ?_) a4
    rw [a4.1, a4.1, g0, g0]
    exact hV
  rw [h6]
  refine Alike.trans_alike (RemoveRecordsAboveLimitTag_stable _ _ ?_) a5
  rw [a5.1, g0]
  exact hG.2.2

theorem MergeContext_of_settled (M : List TIssueRecord) (h : Settled M) :
    Alike (MergeContext M) (TMergeIssuesContext.ctor M) :=
  stages_of_settled M h _ _ _ _ _ _ _ (ctor_TagInv M) (fun tag => ctor_GetRecords M tag)
    rfl rfl rfl rfl rfl rfl

/-- MergeRecords leaves the records of every tag of a settled list as they
are, in their order. -/
theorem MergeRecords_of_settled (X : TExternal) (M : List TIssueRecord) (h : Settled M)
    (tag : ETags) :
    (MergeRecords X M).filter (fun r => decide (r.Tag = tag)) =
      M.filter (fun r => decide (r.Tag = tag)) := by
  have ha := MergeContext_of_settled M h
  obtain ⟨_, _, _, hcl⟩ := h
  have t6 := MergeContext_TagInv M
  have g6 : ∀ tag, (MergeContext M).GetRecords tag =
      M.filter (fun r => decide (r.Tag = tag)) := fun tag => by
    rw [ha.1, ctor_GetRecords]
  have hrem : (MergeContext M).removeIssuesIds = [] := by
    rw [ha.2, ctor_removeIssuesIds]
  rw [MergeRecords_eq, FillRecords_tag X _ t6 tag,
    Kept_of_no_removed X _ hrem, g6]
  have hmem : ∀ r ∈ M, r ∈ Collect X (MergeContext M) := by
    intro r hr
    refine mem_Collect_of_mem X _ t6 r.Tag r ?_
    rw [g6]
    exact List.mem_filter.2 ⟨hr, by simp⟩
  have e1 : (M.filter (fun r => decide (r.Tag = tag))).filter
      (Survives (Collect X (MergeContext M))) = M.filter (fun r => decide (r.Tag = tag)) := by
    rw [List.filter_eq_self]
    intro r hr
    exact Survives_of_mem _ r (hmem r (List.mem_filter.1 hr).1)
  rw [e1]
  have e2 : ∀ r ∈ M.filter (fun r => decide (r.Tag = tag)),
      Settle (Collect X (MergeContext M)) r = r := by
    intro r hr
    have hrM := (List.mem_filter.1 hr).1
    refine Settle_of_closed _ r ?_ (hcl r hrM).2
    intro x hx
    obtain ⟨w, hw, e⟩ := List.mem_map.1 ((hcl r hrM).1 x hx)
    exact List.mem_map.2 ⟨w, hmem w hw, e⟩
  rw [List.map_congr_left e2]
  exact List.map_id _

/-! ### C12: ids and owners through MergeLevelRecords and RemoveRecordsAboveLimit -/

theorem IdCount_append (a b : List TIssueRecord) (x : String) :
    IdCount (a ++ b) x = IdCount a x + IdCount b x :=
  List.countP_append _ _ _

/-- The result of the loop of MergeLevelRecords: every record left has the
tag, the id and the compared fields of a record given, and no id gains a
record. -/
theorem MergeLevelRecordsLoop_face (fuel : Nat) (context : TMergeIssuesContext)
    (records handled : List TIssueRecord) :
    (∀ r ∈ (MergeLevelRecordsLoop fuel context records handled).2.1 ++
        (MergeLevelRecordsLoop fuel context records handled).2.2,
      ∃ r0 ∈ records ++ handled, SameFace r r0) ∧
    ∀ x, IdCount ((MergeLevelRecordsLoop fuel context records handled).2.1 ++
        (MergeLevelRecordsLoop fuel context records handled).2.2) x ≤
      IdCount (records ++ handled) x := by
  induction fuel generalizing context records handled with
  | zero => exact ⟨fun r hr => ⟨r, hr, SameFace.refl_face r⟩, fun x => Nat.le_refl _⟩
  | succ fuel ih =>
    unfold MergeLevelRecordsLoop
    split
    · exact ⟨fun r hr => ⟨r, hr, SameFace.refl_face r⟩, fun x => Nat.le_refl _⟩
    · dsimp only
      have hperm := FindRecordsForMerge_perm records handled
      split
      · rename_i hflag
        rw [FindRecordsForMerge_flag] at hflag
        cases hsim : (FindRecordsForMerge records [] handled).2.2.1 with
        | nil => rw [hsim] at hflag; exact absurd hflag (by decide)
        | cons first rest =>
          rw [hsim] at hperm
          obtain ⟨main, skipped, hm, hface⟩ := MoveDataInFirstRecord_face context first rest
          rw [hm]
          obtain ⟨i2, i3⟩ := ih (MoveDataInFirstRecord context (first :: rest)).1
            (FindRecordsForMerge records [] handled).2.1
            ((FindRecordsForMerge records [] handled).2.2.2 ++ (main :: skipped).take 1)
          refine ⟨fun r hr => ?_, fun x => ?_⟩
          · obtain ⟨r0, hr0, e1⟩ := i2 r hr
            simp only [List.take_succ_cons, List.take_zero, List.mem_append,
              List.mem_singleton] at hr0
            rcases hr0 with h | h | h
            · exact ⟨r0, hperm.mem_iff.1 (List.mem_append_left _ h), e1⟩
            · exact ⟨r0, hperm.mem_iff.1
                (List.mem_append_right _ (List.mem_append_right _ h)), e1⟩
            · subst h
              exact ⟨first, hperm.mem_iff.1
                (List.mem_append_right _ (List.mem_append_left _ (List.mem_cons_self _ _))),
                e1.trans_face hface⟩
          · refine Nat.le_trans (i3 x) ?_
            unfold IdCount
            rw [← hperm.countP_eq]
            simp only [List.take_succ_cons, List.take_zero, List.countP_append,
              List.countP_cons, List.countP_nil, hface.2.1]
            omega
      · rename_i hflag
        rw [FindRecordsForMerge_flag] at hflag
        cases hsim : (FindRecordsForMerge records [] handled).2.2.1 with
        | cons first rest => rw [hsim] at hflag; exact absurd rfl hflag
        | nil =>
          rw [hsim] at hperm
          obtain ⟨i2, i3⟩ := ih context
            (FindRecordsForMerge records [] handled).2.1
            (FindRecordsForMerge records [] handled).2.2.2
          refine ⟨fun r hr => ?_, fun x => ?_⟩
          · obtain ⟨r0, hr0, e1⟩ := i2 r hr
            exact ⟨r0, hperm.mem_iff.1 (by simpa using hr0), e1⟩
          · refine Nat.le_trans (i3 x) ?_
            unfold IdCount
            rw [← hperm.countP_eq]
            simp [List.countP_append]

theorem MergeList_face (R : List TIssueRecord) :
    ∀ r ∈ MergeList R, ∃ r0 ∈ R, SameFace r r0 := by
  intro r hr
  obtain ⟨r0, hr0, e⟩ := (MergeLevelRecordsLoop_face R.length {} R []).1 r hr
  rw [List.append_nil] at hr0
  exact ⟨r0, hr0, e⟩

theorem MergeList_IdCount (R : List TIssueRecord) (x : String) :
    IdCount (MergeList R) x ≤ IdCount R x := by
  have := (MergeLevelRecordsLoop_face R.length {} R []).2 x
  rw [List.append_nil] at this
  exact this

theorem MergeList_owners (R : List TIssueRecord) (x : String) :
    ReasonOwners (MergeList R) x ≤ ReasonOwners R x :=
  (MergeLevelRecords_spec {} R).2.2 x

theorem MergeList_ids (R : List TIssueRecord) (r : TIssueRecord) (h : r ∈ MergeList R) :
    ∃ r0 ∈ R, r.IssueLog.id = r0.IssueLog.id := by
  obtain ⟨r0, hr0, e⟩ := MergeList_face R r h
  exact ⟨r0, hr0, e.2.1⟩

/-- RemoveRecordsAboveLimit does not raise the number of records with a
property that depends on the id and the reasons only. -/
theorem CutList_countP (q : TIssueRecord → Bool)
    (hq : ∀ a b : TIssueRecord, a.IssueLog.id = b.IssueLog.id →
      a.IssueLog.reason = b.IssueLog.reason → q a = q b) (R : List TIssueRecord) :
    (CutList R).countP q ≤ R.countP q := by
  rcases CutList_shape R with e | ⟨pre, last, last2, rest, e1, e2, hf, hr⟩
  · rw [e]
  · rw [e2]
    have e3 : R.countP q = pre.countP q + ([last].countP q + rest.countP q) := by
      rw [e1, List.countP_append]
      have : last :: rest = [last] ++ rest := rfl
      rw [this, List.countP_append]
    rw [e3, List.countP_append, List.countP_singleton, List.countP_singleton,
      hq last2 last hf.2.1 hr]
    omega

theorem CutList_IdCount (R : List TIssueRecord) (x : String) :
    IdCount (CutList R) x ≤ IdCount R x :=
  CutList_countP _ (fun a b h _ => by rw [h]) R

theorem CutList_owners (R : List TIssueRecord) (x : String) :
    ReasonOwners (CutList R) x ≤ ReasonOwners R x :=
  CutList_countP _ (fun a b _ h => by rw [h]) R

theorem CutList_ids (R : List TIssueRecord) (r : TIssueRecord) (h : r ∈ CutList R) :
    ∃ r0 ∈ R, r.IssueLog.id = r0.IssueLog.id := by
  obtain ⟨r0, hr0, e, _⟩ := CutList_mem R r h
  exact ⟨r0, hr0, e.2.1⟩

/-! ### C12: the owners of an id through a cut -/

theorem flatMap_countP_strict {A B : Type} (q : B → Bool) (f1 f2 : A → List B) (l : List A)
    (n : Nat) (a0 : A) (h0 : a0 ∈ l) (hle : ∀ a ∈ l, (f2 a).countP q ≤ (f1 a).countP q)
    (hs : (f2 a0).countP q + n ≤ (f1 a0).countP q) :
    (l.flatMap f2).countP q + n ≤ (l.flatMap f1).countP q := by
  induction l with
  | nil => cases h0
  | cons a l ih =>
    rw [List.flatMap_cons, List.flatMap_cons, List.countP_append, List.countP_append]
    have hle2 : (l.flatMap f2).countP q ≤ (l.flatMap f1).countP q := by
      clear ih h0
      induction l with
      | nil => exact Nat.le_refl _
      | cons b l ih2 =>
        rw [List.flatMap_cons, List.flatMap_cons, List.countP_append, List.countP_append]
        have h1 := hle b (by simp)
        have h2 := ih2 (fun c hc => hle c (by
          rw [List.mem_cons] at hc ⊢
          rcases hc with hc | hc
          · exact Or.inl hc
          · exact Or.inr (List.mem_cons_of_mem _ hc)))
        omega
    rw [List.mem_cons] at h0
    rcases h0 with h0 | h0
    · rw [← h0]
      rw [h0] at hs
      rw [← h0] at hs
      omega
    · have h1 := ih h0 (fun c hc => hle c (List.mem_cons_of_mem _ hc))
      have h2 := hle a (List.mem_cons_self _ _)
      omega

/-- RemoveRecordsAboveLimit takes from the owners of an id the records it
erases. -/
theorem CutList_owners_rest (x : String) (R pre rest : List TIssueRecord)
    (last last2 : TIssueRecord) (e1 : R = pre ++ last :: rest) (e2 : CutList R = pre ++ [last2])
    (hr : last2.IssueLog.reason = last.IssueLog.reason) :
    ReasonOwners (CutList R) x + ReasonOwners rest x = ReasonOwners R x := by
  unfold ReasonOwners
  rw [e2, e1, List.countP_append, List.countP_append, List.countP_cons, List.countP_cons,
    List.countP_nil, hr]
  omega

theorem Blocks_owners_rest (x : String) (us pool : List TIssueRecord) (g : TIssueRecord)
    (hg : g ∈ us) (pre rest : List TIssueRecord) (last last2 : TIssueRecord)
    (e1 : MergeList (pool.filter (Owns g)) = pre ++ last :: rest)
    (e2 : CutList (MergeList (pool.filter (Owns g))) = pre ++ [last2])
    (hr : last2.IssueLog.reason = last.IssueLog.reason) :
    ReasonOwners (Blocks (fun R => CutList (MergeList R)) us pool) x + ReasonOwners rest x ≤
      ReasonOwners (Blocks MergeList us pool) x := by
  unfold Blocks ReasonOwners
  rw [List.countP_append, List.countP_append, Nat.add_assoc]
  apply Nat.add_le_add_left
  refine flatMap_countP_strict _ _ _ us _ g hg ?_ ?_
  · intro a _
    exact CutList_owners _ x
  · exact Nat.le_of_eq (CutList_owners_rest x _ pre rest last last2 e1 e2 hr)

/-! ### C12: the groups of a grouped list -/

/-- Of a list grouped along `us` by `T`, the records no record of `us` lists
and the group of every record of `us`. -/
theorem Blocks_filter (T : List TIssueRecord → List TIssueRecord)
    (hT : ∀ R r, r ∈ T R → ∃ r0 ∈ R, r.IssueLog.id = r0.IssueLog.id)
    (us pool : List TIssueRecord) (hown : SingleOwner us) :
    (Blocks T us pool).filter (NoOwner us) = pool.filter (NoOwner us) ∧
    ∀ u ∈ us, (Blocks T us pool).filter (Owns u) = T (pool.filter (Owns u)) := by
  have hB : ∀ w ∈ us, ∀ r ∈ T (pool.filter (Owns w)), Owns w r = true := by
    intro w _ r hr
    obtain ⟨r0, hr0, e⟩ := hT _ _ hr
    rw [Owns_congr w r r0 e]
    exact (List.mem_filter.1 hr0).2
  unfold Blocks
  constructor
  · rw [List.filter_append, List.filter_filter]
    have e1 : pool.filter (fun a => NoOwner us a && NoOwner us a) = pool.filter (NoOwner us) :=
      List.filter_congr (fun r _ => Bool.and_self _)
    rw [e1, flatMap_filter_other us _ (NoOwner us), List.append_nil]
    intro w hw r hr
    by_contra hc
    have h2 : NoOwner us r = true := by simpa using hc
    have := (NoOwner_eq_true us r).1 h2 w hw
    rw [hB w hw r hr] at this
    cases this
  · intro u hu
    rw [List.filter_append]
    have e1 : (pool.filter (NoOwner us)).filter (Owns u) = [] := by
      rw [List.filter_eq_nil_iff]
      intro r hr
      rw [(NoOwner_eq_true us r).1 (List.mem_filter.1 hr).2 u hu]
      exact Bool.false_ne_true
    rw [e1, List.nil_append]
    refine flatMap_filter_Owns us _ u (fun r => SingleOwner_countP us hown r) hu (hB u hu) ?_
    intro w hw hne r hr
    by_contra hc
    have hc2 : Owns u r = true := by simpa using hc
    exact hne (SingleOwner_eq us hown r w u hw hu (hB w hw r hr) hc2)

/-! ### C12: the lists of the stages -/

theorem foldl_merge_countP (T : List TIssueRecord → List TIssueRecord)
    (q : TIssueRecord → Bool) (hq : ∀ R, (T R).countP q ≤ R.countP q)
    (us pool : List TIssueRecord) :
    (us.foldl (fun p u => p.filter (fun it => !Owns u it) ++ T (p.filter (Owns u)))
      pool).countP q ≤ pool.countP q := by
  induction us generalizing pool with
  | nil => exact Nat.le_refl _
  | cons u us ih =>
    rw [List.foldl_cons]
    refine Nat.le_trans (ih _) ?_
    rw [List.countP_append]
    have h1 := (List.filter_append_perm (Owns u) pool).countP_eq q
    rw [List.countP_append] at h1
    have h2 := hq (pool.filter (Owns u))
    omega

theorem Blocks_eq_foldl (T : List TIssueRecord → List TIssueRecord)
    (hT : ∀ R r, r ∈ T R → ∃ r0 ∈ R, r.IssueLog.id = r0.IssueLog.id)
    (us pool : List TIssueRecord) (hown : SingleOwner us) :
    us.foldl (fun p u => p.filter (fun it => !Owns u it) ++ T (p.filter (Owns u))) pool =
      Blocks T us pool := by
  have h := foldl_regroup T hT us pool [] (fun r _ => SingleOwner_countP us hown r)
    (fun r hr => by cases hr)
  rw [List.append_nil, List.append_nil] at h
  exact h

theorem Blocks_countP (T : List TIssueRecord → List TIssueRecord)
    (hT : ∀ R r, r ∈ T R → ∃ r0 ∈ R, r.IssueLog.id = r0.IssueLog.id)
    (q : TIssueRecord → Bool) (hq : ∀ R, (T R).countP q ≤ R.countP q)
    (us pool : List TIssueRecord) (hown : SingleOwner us) :
    (Blocks T us pool).countP q ≤ pool.countP q := by
  rw [← Blocks_eq_foldl T hT us pool hown]
  exact foldl_merge_countP T q hq us pool

theorem mem_Blocks (T : List TIssueRecord → List TIssueRecord) (us pool : List TIssueRecord)
    (r : TIssueRecord) (h : r ∈ Blocks T us pool) :
    r ∈ pool ∨ ∃ u ∈ us, r ∈ T (pool.filter (Owns u)) := by
  unfold Blocks at h
  rw [List.mem_append, List.mem_flatMap] at h
  rcases h with h | h
  · exact Or.inl (List.mem_filter.1 h).1
  · exact Or.inr h

/-- The list MergeLevelRecords leaves of the records of a tag merged along
the records of the upper tag. -/
theorem MergeLevelRecordsUpper_list (c : TMergeIssuesContext) (levelTag upperTag : ETags)
    (hne : upperTag ≠ levelTag) (hown : SingleOwner (c.GetRecords upperTag)) :
    (MergeLevelRecordsUpper c levelTag upperTag).GetRecords levelTag =
      Blocks MergeList (c.GetRecords upperTag) (c.GetRecords levelTag) := by
  have hup : ((c.SetRecords levelTag (c.GetRecords levelTag)).GetRecords upperTag) =
      c.GetRecords upperTag := GetRecords_SetRecords_ne _ _ _ _ hne
  unfold MergeLevelRecordsUpper
  dsimp only
  rw [GetRecords_SetRecords_same, hup, MergeLevelRecordsUpper_fold_snd,
    Blocks_eq_foldl MergeList MergeList_ids _ _ hown]

/-- The list RemoveRecordsAboveLimit leaves of the records of a tag cut along
the records of the upper tag. -/
theorem RemoveRecordsAboveLimitUpper_list (c : TMergeIssuesContext)
    (levelTag upperTag : ETags) (hne : upperTag ≠ levelTag)
    (hown : SingleOwner (c.GetRecords upperTag)) :
    (RemoveRecordsAboveLimitUpper c levelTag upperTag).GetRecords levelTag =
      Blocks CutList (c.GetRecords upperTag) (c.GetRecords levelTag) := by
  have hup : ((c.SetRecords levelTag (c.GetRecords levelTag)).GetRecords upperTag) =
      c.GetRecords upperTag := GetRecords_SetRecords_ne _ _ _ _ hne
  unfold RemoveRecordsAboveLimitUpper
  dsimp only
  rw [GetRecords_SetRecords_same, hup, RemoveRecordsAboveLimitUpper_fold_snd,
    foldl_cut_regroup CutList _ _ _ (fun r _ => SingleOwner_countP _ hown r)]
  rfl

/-- Cutting a list that is grouped by MergeLevelRecords along the same
records. -/
theorem Blocks_CutList_Blocks (us pool : List TIssueRecord) (hown : SingleOwner us) :
    Blocks CutList us (Blocks MergeList us pool) =
      Blocks (fun R => CutList (MergeList R)) us pool := by
  obtain ⟨h1, h2⟩ := Blocks_filter MergeList MergeList_ids us pool hown
  have e : Blocks CutList us (Blocks MergeList us pool) =
      (Blocks MergeList us pool).filter (NoOwner us) ++
        us.flatMap (fun u => CutList ((Blocks MergeList us pool).filter (Owns u))) := rfl
  rw [e, h1]
  show _ = pool.filter (NoOwner us) ++
    us.flatMap (fun u => CutList (MergeList (pool.filter (Owns u))))
  congr 1
  exact List.flatMap_congr (fun u hu => by rw [h2 u hu])

/-! ### C12: the removed ids of the cutting stages -/

theorem Drops.trans_drops {a b c : TMergeIssuesContext} (h1 : Drops a b) (h2 : Drops b c) :
    Drops a c := by
  refine ⟨fun x hx => h2.1 x (h1.1 x hx), ?_⟩
  intro tag u hu
  rcases h1.2 tag u hu with ⟨k, hk, e⟩ | h
  · rcases h2.2 tag k hk with ⟨k2, hk2, e2⟩ | h
    · exact Or.inl ⟨k2, hk2, e2.trans e⟩
    · right
      rw [← e.2.2]
      exact h
  · exact Or.inr (fun x hx => h2.1 x (h x hx))

theorem Drops_of_Alike (c d : TMergeIssuesContext) (h : Alike d c) : Drops c d := by
  refine ⟨fun x hx => by rw [h.2]; exact hx, ?_⟩
  intro tag u hu
  left
  rw [h.1]
  exact ⟨u, hu, SameLink.refl u⟩

theorem RemoveRecordsAboveLimitTag_drops (c : TMergeIssuesContext) (tag : ETags) :
    Drops c (RemoveRecordsAboveLimitTag c tag) := by
  unfold RemoveRecordsAboveLimitTag
  dsimp only
  split
  · have hs := RemoveRecordsAboveLimit_shape (c.SetRecords tag (c.GetRecords tag))
      (c.GetRecords tag)
    have hd := RemoveRecordsAboveLimit_drop (c.SetRecords tag (c.GetRecords tag))
      (c.GetRecords tag)
    refine ⟨fun x hx => hs.1 x hx, ?_⟩
    intro other u hu
    by_cases ho : other = tag
    · rw [ho] at hu ⊢
      rw [GetRecords_SetRecords_same]
      exact hd u hu
    · left
      rw [GetRecords_SetRecords_ne _ _ _ _ ho,
        GetRecords_congr _ (c.SetRecords tag (c.GetRecords tag)) hs.2.1,
        GetRecords_SetRecords_ne _ _ _ _ ho]
      exact ⟨u, hu, SameLink.refl u⟩
  · exact Drops_of_Alike c _ (Alike_SetRecords c tag)

theorem RemoveRecordsAboveLimitUpper_fold_drops (us : List TIssueRecord)
    (c : TMergeIssuesContext) (pool handled : List TIssueRecord) :
    (∀ x ∈ c.removeIssuesIds, x ∈ (us.foldl
      (fun (acc : TMergeIssuesContext × List TIssueRecord × List TIssueRecord) it =>
        ((RemoveRecordsAboveLimit acc.1 (FindChildrenRecords acc.2.1 it).1).1,
          (FindChildrenRecords acc.2.1 it).2,
          acc.2.2 ++ (RemoveRecordsAboveLimit acc.1 (FindChildrenRecords acc.2.1 it).1).2))
      (c, pool, handled)).1.removeIssuesIds) ∧
    ∀ r ∈ pool ++ handled,
      (∃ k ∈ (us.foldl
        (fun (acc : TMergeIssuesContext × List TIssueRecord × List TIssueRecord) it =>
          ((RemoveRecordsAboveLimit acc.1 (FindChildrenRecords acc.2.1 it).1).1,
            (FindChildrenRecords acc.2.1 it).2,
            acc.2.2 ++ (RemoveRecordsAboveLimit acc.1 (FindChildrenRecords acc.2.1 it).1).2))
        (c, pool, handled)).2.1 ++ (us.foldl
        (fun (acc : TMergeIssuesContext × List TIssueRecord × List TIssueRecord) it =>
          ((RemoveRecordsAboveLimit acc.1 (FindChildrenRecords acc.2.1 it).1).1,
            (FindChildrenRecords acc.2.1 it).2,
            acc.2.2 ++ (RemoveRecordsAboveLimit acc.1 (FindChildrenRecords acc.2.1 it).1).2))
        (c, pool, handled)).2.2, SameLink k r) ∨
      ∀ x ∈ r.IssueLog.reason, x ∈ (us.foldl
        (fun (acc : TMergeIssuesContext × List TIssueRecord × List TIssueRecord) it =>
          ((RemoveRecordsAboveLimit acc.1 (FindChildrenRecords acc.2.1 it).1).1,
            (FindChildrenRecords acc.2.1 it).2,
            acc.2.2 ++ (RemoveRecordsAboveLimit acc.1 (FindChildrenRecords acc.2.1 it).1).2))
        (c, pool, handled)).1.removeIssuesIds := by
  induction us generalizing c pool handled with
  | nil => exact ⟨fun x hx => hx, fun r hr => Or.inl ⟨r, hr, SameLink.refl r⟩⟩
  | cons u us ih =>
    rw [List.foldl_cons]
    obtain ⟨i1, i2⟩ := ih (RemoveRecordsAboveLimit c (FindChildrenRecords pool u).1).1
      (FindChildrenRecords pool u).2
      (handled ++ (RemoveRecordsAboveLimit c (FindChildrenRecords pool u).1).2)
    have hs := RemoveRecordsAboveLimit_shape c (FindChildrenRecords pool u).1
    have hd := RemoveRecordsAboveLimit_drop c (FindChildrenRecords pool u).1
    refine ⟨fun x hx => i1 x (hs.1 x hx), ?_⟩
    intro r hr
    have hcase : r ∈ (FindChildrenRecords pool u).2 ++
        (handled ++ (RemoveRecordsAboveLimit c (FindChildrenRecords pool u).1).2) ∨
        r ∈ (FindChildrenRecords pool u).1 := by
      rw [List.mem_append] at hr
      rcases hr with hr | hr
      · by_cases ho : decide (r.IssueLog.id ∈ u.IssueLog.reason) = true
        · exact Or.inr (List.mem_filter.2 ⟨hr, ho⟩)
        · exact Or.inl (List.mem_append_left _ (List.mem_filter.2 ⟨hr, by simpa using ho⟩))
      · exact Or.inl (List.mem_append_right _ (List.mem_append_left _ hr))
    rcases hcase with h | h
    · exact i2 r h
    · rcases hd r h with ⟨k, hk, e⟩ | h2
      · rcases i2 k (List.mem_append_right _ (List.mem_append_right _ hk)) with
          ⟨k2, hk2, e2⟩ | h3
        · exact Or.inl ⟨k2, hk2, e2.trans e⟩
        · right
          rw [← e.2.2]
          exact h3
      · exact Or.inr (fun x hx => i1 x (h2 x hx))

theorem RemoveRecordsAboveLimitUpper_drops (c : TMergeIssuesContext)
    (levelTag upperTag : ETags) (hne : upperTag ≠ levelTag) (t : TagInv c.recordsMap) :
    Drops c (RemoveRecordsAboveLimitUpper c levelTag upperTag) := by
  have hf := RemoveRecordsAboveLimitUpper_fold_drops
    ((c.SetRecords levelTag (c.GetRecords levelTag)).GetRecords upperTag)
    ((c.SetRecords levelTag (c.GetRecords levelTag)).SetRecords upperTag
      ((c.SetRecords levelTag (c.GetRecords levelTag)).GetRecords upperTag))
    (c.GetRecords levelTag) []
  have hfr := (RemoveRecordsAboveLimitUpper_frame c levelTag upperTag hne t).2.1
  rw [List.append_nil] at hf
  refine ⟨?_, ?_⟩
  · intro x hx
    exact hf.1 x hx
  · intro tag u hu
    by_cases ho : tag = levelTag
    · rw [ho] at hu ⊢
      have e : (RemoveRecordsAboveLimitUpper c levelTag upperTag).GetRecords levelTag = _ :=
        GetRecords_SetRecords_same _ levelTag _
      rw [e]
      exact hf.2 u hu
    · left
      rw [hfr tag ho]
      exact ⟨u, hu, SameLink.refl u⟩

/-- The three cutting stages of MergeRecords. -/
theorem CutStages_drops (c3 c4 c5 c6 : TMergeIssuesContext) (t : TagInv c3.recordsMap)
    (h4 : c4 = RemoveRecordsAboveLimitUpper c3 ETags.PDiskState ETags.VDiskState)
    (h5 : c5 = RemoveRecordsAboveLimitUpper c4 ETags.VDiskState ETags.GroupState)
    (h6 : c6 = RemoveRecordsAboveLimitTag c5 ETags.GroupState) : Drops c3 c6 := by
  have t4 : TagInv c4.recordsMap := by
    rw [h4]
    exact (RemoveRecordsAboveLimitUpper_frame c3 _ _ (by decide) t).1
  have d4 : Drops c3 c4 := by
    rw [h4]
    exact RemoveRecordsAboveLimitUpper_drops c3 _ _ (by decide) t
  have d5 : Drops c4 c5 := by
    rw [h5]
    exact RemoveRecordsAboveLimitUpper_drops c4 _ _ (by decide) t4
  have d6 : Drops c5 c6 := by
    rw [h6]
    exact RemoveRecordsAboveLimitTag_drops c5 _
  exact (d4.trans_drops d5).trans_drops d6

/-! ### C12: ids and owners through the stages -/

theorem Shrinks.trans_shrinks {a b c : TMergeIssuesContext} (h1 : Shrinks a b) (h2 : Shrinks b c) :
    Shrinks a c := fun tag x =>
  ⟨Nat.le_trans (h2 tag x).1 (h1 tag x).1, Nat.le_trans (h2 tag x).2 (h1 tag x).2⟩

theorem Shrinks_of_level (c d : TMergeIssuesContext) (levelTag : ETags)
    (hother : ∀ other, other ≠ levelTag → d.GetRecords other = c.GetRecords other)
    (hlevel : ∀ x, IdCount (d.GetRecords levelTag) x ≤ IdCount (c.GetRecords levelTag) x ∧
      ReasonOwners (d.GetRecords levelTag) x ≤ ReasonOwners (c.GetRecords levelTag) x) :
    Shrinks c d := by
  intro tag x
  by_cases h : tag = levelTag
  · rw [h]
    exact hlevel x
  · rw [hother tag h]
    exact ⟨Nat.le_refl _, Nat.le_refl _⟩

theorem MergeLevelRecordsTag_shrinks (c : TMergeIssuesContext) (tag : ETags)
    (t : TagInv c.recordsMap) : Shrinks c (MergeLevelRecordsTag c tag) := by
  refine Shrinks_of_level c _ tag (MergeLevelRecordsTag_spec c tag t).2.1 ?_
  intro x
  rw [MergeLevelRecordsTag_list]
  exact ⟨MergeList_IdCount _ x, MergeList_owners _ x⟩

theorem MergeLevelRecordsUpper_shrinks (c : TMergeIssuesContext) (levelTag upperTag : ETags)
    (hne : upperTag ≠ levelTag) (t : TagInv c.recordsMap)
    (hown : SingleOwner (c.GetRecords upperTag)) :
    Shrinks c (MergeLevelRecordsUpper c levelTag upperTag) := by
  refine Shrinks_of_level c _ levelTag
    (MergeLevelRecordsUpper_spec c levelTag upperTag hne t).2.1 ?_
  intro x
  rw [MergeLevelRecordsUpper_list c levelTag upperTag hne hown]
  exact ⟨Blocks_countP MergeList MergeList_ids _ (fun R => MergeList_IdCount R x) _ _ hown,
    Blocks_countP MergeList MergeList_ids _ (fun R => MergeList_owners R x) _ _ hown⟩

theorem RemoveRecordsAboveLimitUpper_shrinks (c : TMergeIssuesContext)
    (levelTag upperTag : ETags) (hne : upperTag ≠ levelTag) (t : TagInv c.recordsMap)
    (hown : SingleOwner (c.GetRecords upperTag)) :
    Shrinks c (RemoveRecordsAboveLimitUpper c levelTag upperTag) := by
  refine Shrinks_of_level c _ levelTag
    (RemoveRecordsAboveLimitUpper_frame c levelTag upperTag hne t).2.1 ?_
  intro x
  rw [RemoveRecordsAboveLimitUpper_list c levelTag upperTag hne hown]
  exact ⟨Blocks_countP CutList CutList_ids _ (fun R => CutList_IdCount R x) _ _ hown,
    Blocks_countP CutList CutList_ids _ (fun R => CutList_owners R x) _ _ hown⟩

theorem RemoveRecordsAboveLimitTag_shrinks (c : TMergeIssuesContext) (tag : ETags)
    (t : TagInv c.recordsMap) : Shrinks c (RemoveRecordsAboveLimitTag c tag) := by
  refine Shrinks_of_level c _ tag (RemoveRecordsAboveLimitTag_spec c tag t).2.1 ?_
  intro x
  rw [RemoveRecordsAboveLimitTag_list]
  exact ⟨CutList_IdCount _ x, CutList_owners _ x⟩

theorem countP_filter_add_le {A : Type} (q p1 p2 : A → Bool) (l : List A)
    (h : ∀ a ∈ l, ¬(p1 a = true ∧ p2 a = true)) :
    (l.filter p1).countP q + (l.filter p2).countP q ≤ l.countP q := by
  induction l with
  | nil => exact Nat.le_refl _
  | cons a l ih =>
    have ih2 := ih (fun b hb => h b (List.mem_cons_of_mem _ hb))
    have ha := h a (List.mem_cons_self _ _)
    by_cases h1 : p1 a = true
    · have h2 : ¬ p2 a = true := fun h2 => ha ⟨h1, h2⟩
      rw [List.filter_cons_of_pos h1, List.filter_cons_of_neg h2]
      by_cases hq : q a = true
      · rw [List.countP_cons_of_pos _ _ hq, List.countP_cons_of_pos _ _ hq]
        omega
      · rw [List.countP_cons_of_neg _ _ hq, List.countP_cons_of_neg _ _ hq]
        exact ih2
    · rw [List.filter_cons_of_neg h1]
      by_cases h2 : p2 a = true
      · rw [List.filter_cons_of_pos h2]
        by_cases hq : q a = true
        · rw [List.countP_cons_of_pos _ _ hq, List.countP_cons_of_pos _ _ hq]
          omega
        · rw [List.countP_cons_of_neg _ _ hq, List.countP_cons_of_neg _ _ hq]
          exact ih2
      · rw [List.filter_cons_of_neg h2]
        refine Nat.le_trans ih2 ?_
        exact List.Sublist.countP_le _ (List.sublist_cons_self a l)

/-- Two records of a context that list the same id are one record, when the
context comes by stages that add no owner from the context of a list in
which no id has two owners. -/
theorem owner_unique (L : List TIssueRecord) (c : TMergeIssuesContext)
    (hown : SingleOwner L) (hs : Shrinks (TMergeIssuesContext.ctor L) c)
    (t1 t2 : ETags) (a b : TIssueRecord) (ha : a ∈ c.GetRecords t1)
    (hb : b ∈ c.GetRecords t2) (x : String) (hxa : x ∈ a.IssueLog.reason)
    (hxb : x ∈ b.IssueLog.reason) : a = b := by
  have h1 := (hs t1 x).2
  have h2 := (hs t2 x).2
  rw [ctor_GetRecords] at h1 h2
  have p1 : 0 < ReasonOwners (c.GetRecords t1) x := ReasonOwners_pos _ x a ha hxa
  have p2 : 0 < ReasonOwners (c.GetRecords t2) x := ReasonOwners_pos _ x b hb hxb
  by_cases e : t1 = t2
  · rw [e] at ha h1
    have hle : ReasonOwners (c.GetRecords t2) x ≤ 1 :=
      Nat.le_trans h1 (Nat.le_trans (List.Sublist.countP_le _ (List.filter_sublist _)) (hown x))
    exact countP_le_one_eq _ _ hle a b ha hb (by simpa using hxa) (by simpa using hxb)
  · have hsum := countP_filter_add_le (fun r => decide (x ∈ r.IssueLog.reason))
      (fun r => decide (r.Tag = t1)) (fun r => decide (r.Tag = t2)) L
      (fun r _ h => by
        simp only [decide_eq_true_eq] at h
        exact e (h.1.symm.trans h.2))
    have := hown x
    unfold ReasonOwners at *
    omega

/-! ### C12: the groups MergeRecords leaves -/

/-- A list of one tag without counts, merged, cut, thinned and rewritten by
FillRecords: similar records stand together and are at most four. -/
theorem settled_block (tag : ETags) (F R : List TIssueRecord) (S : TIssueRecord → Bool)
    (htag : ∀ r ∈ R, r.Tag = tag ∧ r.IssueLog.count = 0)
    (hmsg : ∀ a ∈ R, ∀ b ∈ R,
      (RenameMessage tag a.IssueLog.message = RenameMessage tag b.IssueLog.message ∨
        RenameMessage tag a.IssueLog.message = b.IssueLog.message) →
      a.IssueLog.message = b.IssueLog.message) :
    Contig ((((CutList (MergeList R)).filter S).map (Settle F)).map (SimKey tag)) ∧
    NoBig ((((CutList (MergeList R)).filter S).map (Settle F)).map (SimKey tag)) := by
  obtain ⟨m1, m2, m3, m4⟩ := MergeList_stable tag R htag
  have hkey : ∀ a b, SameFace a b → SimKey tag a = SimKey tag b := fun a b h => h.key tag
  have hsub : (((CutList (MergeList R)).filter S).map (SimKey tag)).Sublist
      ((MergeList R).map (SimKey tag)) :=
    ((List.filter_sublist _).map _).trans (CutList_map_sublist (SimKey tag) hkey _)
  have hprov : ∀ a ∈ (CutList (MergeList R)).filter S, ∃ r0 ∈ R, SameFace a r0 := by
    intro a ha
    obtain ⟨r1, hr1, e1, _⟩ := CutList_mem _ a (List.mem_filter.1 ha).1
    obtain ⟨r0, hr0, e0⟩ := MergeList_face R r1 hr1
    exact ⟨r0, hr0, e1.trans_face e0⟩
  refine Settle_keys tag F _ ?_ (Contig_sublist _ _ hsub m2) (NoBig_sublist _ _ hsub m3)
    (CountInv_sublist tag _ _ (List.filter_sublist _) (CutList_CountInv tag _ m4)) ?_
  · intro a ha
    obtain ⟨r0, hr0, e⟩ := hprov a ha
    rw [e.1]
    exact (htag r0 hr0).1
  · intro a ha b hb h
    obtain ⟨a0, ha0, ea⟩ := hprov a ha
    obtain ⟨b0, hb0, eb⟩ := hprov b hb
    rw [ea.2.2.2.1, eb.2.2.2.1] at h ⊢
    exact hmsg a0 ha0 b0 hb0 h

/-- The list of a tag as the stages of MergeRecords and FillRecords leave it
is grouped along a list of upper records whose reasons among the kept ids are
those of the upper records of the stages. -/
theorem Grouped_of_stages (tag : ETags) (us us2 X0 F : List TIssueRecord)
    (htag : ∀ r ∈ X0, r.Tag = tag ∧ r.IssueLog.count = 0)
    (hmsg : ∀ a ∈ X0, ∀ b ∈ X0,
      (RenameMessage tag a.IssueLog.message = RenameMessage tag b.IssueLog.message ∨
        RenameMessage tag a.IssueLog.message = b.IssueLog.message) →
      a.IssueLog.message = b.IssueLog.message)
    (hown : SingleOwner us)
    (hkeys : ReasonKeys (F.map (fun it => it.IssueLog.id)) us2 =
      ReasonKeys (F.map (fun it => it.IssueLog.id)) us)
    (hown2 : SingleOwner us2)
    (hcap : ∀ u2 ∈ us2,
      ListedSum ((((Blocks (fun R => CutList (MergeList R)) us X0).filter (Survives F)).map
        (Settle F)).filter (Owns u2)) ≤ MERGER_ISSUE_LIMIT) :
    Grouped tag us2
      (((Blocks (fun R => CutList (MergeList R)) us X0).filter (Survives F)).map
        (Settle F)) := by
  have hids : ∀ u, ∀ r ∈ CutList (MergeList (X0.filter (Owns u))), Owns u r = true := by
    intro u r hr
    obtain ⟨r1, hr1, e1⟩ := CutList_ids _ r hr
    obtain ⟨r0, hr0, e0⟩ := MergeList_ids _ r1 hr1
    rw [Owns_congr u r r0 (e1.trans e0)]
    exact (List.mem_filter.1 hr0).2
  have hX : ((Blocks (fun R => CutList (MergeList R)) us X0).filter (Survives F)).map
      (Settle F) =
      ((X0.filter (NoOwner us)).filter (Survives F)).map (Settle F) ++
        us.flatMap (fun u =>
          ((CutList (MergeList (X0.filter (Owns u)))).filter (Survives F)).map (Settle F)) := by
    unfold Blocks
    rw [List.filter_append, List.map_append, List.filter_flatMap, List.map_flatMap]
  have hP : ∀ r2 ∈ ((Blocks (fun R => CutList (MergeList R)) us X0).filter (Survives F)).map
      (Settle F), r2.IssueLog.id ∈ F.map (fun it => it.IssueLog.id) := by
    intro r2 hr2
    obtain ⟨r, hr, e⟩ := List.mem_map.1 hr2
    rw [← e, (Settle_fields F r).2.1]
    have hsv := (List.mem_filter.1 hr).2
    unfold Survives at hsv
    rw [List.any_eq_true] at hsv
    obtain ⟨f, hf, h⟩ := hsv
    simp only [Bool.and_eq_true, decide_eq_true_eq] at h
    exact List.mem_map.2 ⟨f, hf, h.2⟩
  have hB2 : ∀ u, ∀ r2 ∈ ((CutList (MergeList (X0.filter (Owns u)))).filter
      (Survives F)).map (Settle F), Owns u r2 = true := by
    intro u r2 hr2
    obtain ⟨r, hr, e⟩ := List.mem_map.1 hr2
    rw [← e, Owns_congr u (Settle F r) r (Settle_fields F r).2.1]
    exact hids u r (List.mem_filter.1 hr).1
  have hW2 : ∀ r2 ∈ ((X0.filter (NoOwner us)).filter (Survives F)).map (Settle F),
      ∀ u ∈ us, Owns u r2 = false := by
    intro r2 hr2 u hu
    obtain ⟨r, hr, e⟩ := List.mem_map.1 hr2
    rw [← e, Owns_congr u (Settle F r) r (Settle_fields F r).2.1]
    exact (NoOwner_eq_true us r).1 (List.mem_filter.1 (List.mem_filter.1 hr).1).2 u hu
  -- the group of a record of us in the new list
  have hblock : ∀ u ∈ us,
      (((Blocks (fun R => CutList (MergeList R)) us X0).filter (Survives F)).map
        (Settle F)).filter (Owns u) =
      ((CutList (MergeList (X0.filter (Owns u)))).filter (Survives F)).map (Settle F) := by
    intro u hu
    rw [hX, List.filter_append]
    have e1 : (((X0.filter (NoOwner us)).filter (Survives F)).map (Settle F)).filter
        (Owns u) = [] := by
      rw [List.filter_eq_nil_iff]
      intro r2 hr2
      rw [hW2 r2 hr2 u hu]
      exact Bool.false_ne_true
    rw [e1, List.nil_append]
    refine flatMap_filter_Owns us _ u (fun r => SingleOwner_countP us hown r) hu (hB2 u) ?_
    intro w hw hne r2 hr2
    by_contra hc
    have hc2 : Owns u r2 = true := by simpa using hc
    exact hne (SingleOwner_eq us hown r2 w u hw hu (hB2 w r2 hr2) hc2)
  have hfirst : (((Blocks (fun R => CutList (MergeList R)) us X0).filter (Survives F)).map
      (Settle F)).filter (NoOwner us) =
      ((X0.filter (NoOwner us)).filter (Survives F)).map (Settle F) := by
    rw [hX, List.filter_append]
    have e1 : (((X0.filter (NoOwner us)).filter (Survives F)).map (Settle F)).filter
        (NoOwner us) = ((X0.filter (NoOwner us)).filter (Survives F)).map (Settle F) := by
      rw [List.filter_eq_self]
      intro r2 hr2
      rw [NoOwner_eq_true]
      exact hW2 r2 hr2
    have e2 : (us.flatMap (fun u =>
        ((CutList (MergeList (X0.filter (Owns u)))).filter (Survives F)).map
          (Settle F))).filter (NoOwner us) = [] := by
      apply flatMap_filter_other
      intro u hu r2 hr2
      by_contra hc
      have hc2 : NoOwner us r2 = true := by simpa using hc
      rw [NoOwner_eq_true] at hc2
      have := hc2 u hu
      rw [hB2 u r2 hr2] at this
      cases this
    rw [e1, e2, List.append_nil]
  have hgroup : ((Blocks (fun R => CutList (MergeList R)) us X0).filter (Survives F)).map
      (Settle F) =
      (((Blocks (fun R => CutList (MergeList R)) us X0).filter (Survives F)).map
        (Settle F)).filter (NoOwner us) ++
      us.flatMap (fun u =>
        (((Blocks (fun R => CutList (MergeList R)) us X0).filter (Survives F)).map
          (Settle F)).filter (Owns u)) := by
    rw [hfirst, List.flatMap_congr (fun u hu => hblock u hu)]
    exact hX
  refine ⟨hown2, ?_, ?_⟩
  · rw [regroup_keys _ _ us2 us hP hkeys]
    exact hgroup
  · intro u2 hu2
    by_cases hk : ReasonKey (F.map (fun it => it.IssueLog.id)) u2 = []
    · rw [filter_Owns_nil _ _ u2 hP hk]
      exact ⟨Contig_nil, NoBig_nil, by rw [ListedSum_nil]; exact Nat.zero_le _⟩
    · have hin : ReasonKey (F.map (fun it => it.IssueLog.id)) u2 ∈
          ReasonKeys (F.map (fun it => it.IssueLog.id)) us := by
        rw [← hkeys, mem_ReasonKeys]
        exact ⟨hk, u2, hu2, rfl⟩
      obtain ⟨_, u, hu, e⟩ := (mem_ReasonKeys _ _ _).1 hin
      have hb2 := hblock u hu
      rw [← filter_Owns_keys _ _ u2 u hP e.symm] at hb2
      have hkeys2 := settled_block tag F (X0.filter (Owns u)) (Survives F)
        (fun r hr => htag r (List.mem_filter.1 hr).1)
        (fun a ha b hb => hmsg a (List.mem_filter.1 ha).1 b (List.mem_filter.1 hb).1)
      refine ⟨?_, ?_, hcap u2 hu2⟩
      · rw [hb2]
        exact hkeys2.1
      · rw [hb2]
        exact hkeys2.2

/-! ### C12: the contexts of MergeRecords on a list without shared reasons -/

theorem Links.trans_links {a b c : TMergeIssuesContext} (h1 : Links a b) (h2 : Links b c) :
    Links a c := by
  intro tag k hk
  obtain ⟨u, hu, e⟩ := h2 tag k hk
  obtain ⟨w, hw, e2⟩ := h1 tag u hu
  exact ⟨w, hw, e.trans e2⟩

theorem RemoveRecordsAboveLimitUpper_links (c : TMergeIssuesContext)
    (levelTag upperTag : ETags) (hne : upperTag ≠ levelTag) (t : TagInv c.recordsMap) :
    Links c (RemoveRecordsAboveLimitUpper c levelTag upperTag) := by
  obtain ⟨_, h1, h2⟩ := RemoveRecordsAboveLimitUpper_frame c levelTag upperTag hne t
  intro tag k hk
  by_cases h : tag = levelTag
  · rw [h] at hk ⊢
    exact h2 k hk
  · rw [h1 tag h] at hk
    exact ⟨k, hk, SameLink.refl k⟩

theorem RemoveRecordsAboveLimitTag_links (c : TMergeIssuesContext) (levelTag : ETags)
    (t : TagInv c.recordsMap) : Links c (RemoveRecordsAboveLimitTag c levelTag) := by
  obtain ⟨_, h1, _, h2⟩ := RemoveRecordsAboveLimitTag_spec c levelTag t
  intro tag k hk
  by_cases h : tag = levelTag
  · rw [h] at hk ⊢
    exact h2 k hk
  · rw [h1 tag h] at hk
    exact ⟨k, hk, SameLink.refl k⟩

theorem SingleOwner_of_Shrinks (L : List TIssueRecord) (c : TMergeIssuesContext)
    (hown : SingleOwner L) (hs : Shrinks (TMergeIssuesContext.ctor L) c) (tag : ETags) :
    SingleOwner (c.GetRecords tag) := by
  intro x
  have h1 := (hs tag x).2
  rw [ctor_GetRecords] at h1
  exact Nat.le_trans h1 (Nat.le_trans (List.Sublist.countP_le _ (List.filter_sublist _))
    (hown x))

/-- The contexts of the stages of MergeRecords on a list in which no id has
two owners. -/
theorem stages_of_fresh (L : List TIssueRecord) (hown : SingleOwner L)
    (c0 c1 c2 c3 c4 c5 c6 : TMergeIssuesContext)
    (h0 : c0 = TMergeIssuesContext.ctor L)
    (h1 : c1 = MergeLevelRecordsTag c0 ETags.GroupState)
    (h2 : c2 = MergeLevelRecordsUpper c1 ETags.VDiskState ETags.GroupState)
    (h3 : c3 = MergeLevelRecordsUpper c2 ETags.PDiskState ETags.VDiskState)
    (h4 : c4 = RemoveRecordsAboveLimitUpper c3 ETags.PDiskState ETags.VDiskState)
    (h5 : c5 = RemoveRecordsAboveLimitUpper c4 ETags.VDiskState ETags.GroupState)
    (h6 : c6 = RemoveRecordsAboveLimitTag c5 ETags.GroupState) :
    TagInv c3.recordsMap ∧ TagInv c6.recordsMap ∧
    Shrinks c0 c3 ∧ Shrinks c0 c6 ∧ Drops c3 c6 ∧ Links c3 c6 ∧
    c3.GetRecords ETags.GroupState =
      MergeList (L.filter (fun r => decide (r.Tag = ETags.GroupState))) ∧
    c3.GetRecords ETags.VDiskState =
      Blocks MergeList (MergeList (L.filter (fun r => decide (r.Tag = ETags.GroupState))))
        (L.filter (fun r => decide (r.Tag = ETags.VDiskState))) ∧
    c6.GetRecords ETags.GroupState =
      CutList (MergeList (L.filter (fun r => decide (r.Tag = ETags.GroupState)))) ∧
    c6.GetRecords ETags.VDiskState =
      Blocks (fun R => CutList (MergeList R))
        (MergeList (L.filter (fun r => decide (r.Tag = ETags.GroupState))))
        (L.filter (fun r => decide (r.Tag = ETags.VDiskState))) ∧
    c6.GetRecords ETags.PDiskState =
      Blocks (fun R => CutList (MergeList R))
        (Blocks MergeList (MergeList (L.filter (fun r => decide (r.Tag = ETags.GroupState))))
          (L.filter (fun r => decide (r.Tag = ETags.VDiskState))))
        (L.filter (fun r => decide (r.Tag = ETags.PDiskState))) := by
  have g0 : ∀ tag, c0.GetRecords tag = L.filter (fun r => decide (r.Tag = tag)) := by
    intro tag
    rw [h0, ctor_GetRecords]
  have t0 : TagInv c0.recordsMap := by
    rw [h0]
    exact ctor_TagInv L
  have hown0 : ∀ c, Shrinks c0 c → ∀ tag, SingleOwner (c.GetRecords tag) := by
    intro c hs tag
    rw [h0] at hs
    exact SingleOwner_of_Shrinks L c hown hs tag
  -- the merging stages
  have s1 : Shrinks c0 c1 := by
    rw [h1]
    exact MergeLevelRecordsTag_shrinks c0 _ t0
  have t1 : TagInv c1.recordsMap := by
    rw [h1]
    exact (MergeLevelRecordsTag_spec c0 _ t0).1
  have o1 := (MergeLevelRecordsTag_spec c0 ETags.GroupState t0).2.1
  rw [← h1] at o1
  have s2 : Shrinks c0 c2 := by
    refine s1.trans_shrinks ?_
    rw [h2]
    exact MergeLevelRecordsUpper_shrinks c1 _ _ (by decide) t1 (hown0 c1 s1 _)
  have t2 : TagInv c2.recordsMap := by
    rw [h2]
    exact (MergeLevelRecordsUpper_spec c1 _ _ (by decide) t1).1
  have o2 := (MergeLevelRecordsUpper_spec c1 ETags.VDiskState ETags.GroupState
    (by decide) t1).2.1
  rw [← h2] at o2
  have s3 : Shrinks c0 c3 := by
    refine s2.trans_shrinks ?_
    rw [h3]
    exact MergeLevelRecordsUpper_shrinks c2 _ _ (by decide) t2 (hown0 c2 s2 _)
  have t3 : TagInv c3.recordsMap := by
    rw [h3]
    exact (MergeLevelRecordsUpper_spec c2 _ _ (by decide) t2).1
  have o3 := (MergeLevelRecordsUpper_spec c2 ETags.PDiskState ETags.VDiskState
    (by decide) t2).2.1
  rw [← h3] at o3
  -- the cutting stages
  have s4 : Shrinks c0 c4 := by
    refine s3.trans_shrinks ?_
    rw [h4]
    exact RemoveRecordsAboveLimitUpper_shrinks c3 _ _ (by decide) t3 (hown0 c3 s3 _)
  have t4 : TagInv c4.recordsMap := by
    rw [h4]
    exact (RemoveRecordsAboveLimitUpper_frame c3 _ _ (by decide) t3).1
  have o4 := (RemoveRecordsAboveLimitUpper_frame c3 ETags.PDiskState ETags.VDiskState
    (by decide) t3).2.1
  rw [← h4] at o4
  have s5 : Shrinks c0 c5 := by
    refine s4.trans_shrinks ?_
    rw [h5]
    exact RemoveRecordsAboveLimitUpper_shrinks c4 _ _ (by decide) t4 (hown0 c4 s4 _)
  have t5 : TagInv c5.recordsMap := by
    rw [h5]
    exact (RemoveRecordsAboveLimitUpper_frame c4 _ _ (by decide) t4).1
  have o5 := (RemoveRecordsAboveLimitUpper_frame c4 ETags.VDiskState ETags.GroupState
    (by decide) t4).2.1
  rw [← h5] at o5
  have s6 : Shrinks c0 c6 := by
    refine s5.trans_shrinks ?_
    rw [h6]
    exact RemoveRecordsAboveLimitTag_shrinks c5 _ t5
  have t6 : TagInv c6.recordsMap := by
    rw [h6]
    exact (RemoveRecordsAboveLimitTag_spec c5 _ t5).1
  have o6 := (RemoveRecordsAboveLimitTag_spec c5 ETags.GroupState t5).2.1
  rw [← h6] at o6
  have l36 : Links c3 c6 := by
    have l4 : Links c3 c4 := by
      rw [h4]
      exact RemoveRecordsAboveLimitUpper_links c3 _ _ (by decide) t3
    have l5 : Links c4 c5 := by
      rw [h5]
      exact RemoveRecordsAboveLimitUpper_links c4 _ _ (by decide) t4
    have l6 : Links c5 c6 := by
      rw [h6]
      exact RemoveRecordsAboveLimitTag_links c5 _ t5
    exact (l4.trans_links l5).trans_links l6
  -- the lists
  have eG1 : c1.GetRecords ETags.GroupState =
      MergeList (L.filter (fun r => decide (r.Tag = ETags.GroupState))) := by
    rw [h1, MergeLevelRecordsTag_list, g0]
  have eV1 : c1.GetRecords ETags.VDiskState =
      L.filter (fun r => decide (r.Tag = ETags.VDiskState)) := by
    rw [o1 _ (by decide), g0]
  have eP1 : c1.GetRecords ETags.PDiskState =
      L.filter (fun r => decide (r.Tag = ETags.PDiskState)) := by
    rw [o1 _ (by decide), g0]
  have eG2 : c2.GetRecords ETags.GroupState = c1.GetRecords ETags.GroupState :=
    o2 _ (by decide)
  have eP2 : c2.GetRecords ETags.PDiskState = c1.GetRecords ETags.PDiskState :=
    o2 _ (by decide)
  have eV2 : c2.GetRecords ETags.VDiskState =
      Blocks MergeList (c1.GetRecords ETags.GroupState) (c1.GetRecords ETags.VDiskState) := by
    rw [h2]
    exact MergeLevelRecordsUpper_list c1 _ _ (by decide) (hown0 c1 s1 _)
  have eG3 : c3.GetRecords ETags.GroupState = c2.GetRecords ETags.GroupState :=
    o3 _ (by decide)
  have eV3 : c3.GetRecords ETags.VDiskState = c2.GetRecords ETags.VDiskState :=
    o3 _ (by decide)
  have eP3 : c3.GetRecords ETags.PDiskState =
      Blocks MergeList (c2.GetRecords ETags.VDiskState) (c2.GetRecords ETags.PDiskState) := by
    rw [h3]
    exact MergeLevelRecordsUpper_list c2 _ _ (by decide) (hown0 c2 s2 _)
  have eG4 : c4.GetRecords ETags.GroupState = c3.GetRecords ETags.GroupState :=
    o4 _ (by decide)
  have eV4 : c4.GetRecords ETags.VDiskState = c3.GetRecords ETags.VDiskState :=
    o4 _ (by decide)
  have eP4 : c4.GetRecords ETags.PDiskState =
      Blocks CutList (c3.GetRecords ETags.VDiskState) (c3.GetRecords ETags.PDiskState) := by
    rw [h4]
    exact RemoveRecordsAboveLimitUpper_list c3 _ _ (by decide) (hown0 c3 s3 _)
  have eG5 : c5.GetRecords ETags.GroupState = c4.GetRecords ETags.GroupState :=
    o5 _ (by decide)
  have eP5 : c5.GetRecords ETags.PDiskState = c4.GetRecords ETags.PDiskState :=
    o5 _ (by decide)
  have eV5 : c5.GetRecords ETags.VDiskState =
      Blocks CutList (c4.GetRecords ETags.GroupState) (c4.GetRecords ETags.VDiskState) := by
    rw [h5]
    exact RemoveRecordsAboveLimitUpper_list c4 _ _ (by decide) (hown0 c4 s4 _)
  have eV6 : c6.GetRecords ETags.VDiskState = c5.GetRecords ETags.VDiskState :=
    o6 _ (by decide)
  have eP6 : c6.GetRecords ETags.PDiskState = c5.GetRecords ETags.PDiskState :=
    o6 _ (by decide)
  have eG6 : c6.GetRecords ETags.GroupState = CutList (c5.GetRecords ETags.GroupState) := by
    rw [h6, RemoveRecordsAboveLimitTag_list]
  have ownG := hown0 c1 s1 ETags.GroupState
  have ownV := hown0 c2 s2 ETags.VDiskState
  refine ⟨t3, t6, s3, s6, CutStages_drops c3 c4 c5 c6 t3 h4 h5 h6, l36, ?_, ?_, ?_, ?_, ?_⟩
  · rw [eG3, eG2, eG1]
  · rw [eV3, eV2, eG1, eV1]
  · rw [eG6, eG5, eG4, eG3, eG2, eG1]
  · rw [eV6, eV5, eG4, eG3, eG2, eV4, eV3, eV2,
      Blocks_CutList_Blocks _ _ ownG, eG1, eV1]
  · rw [eP6, eP5, eP4, eV3, eP3, eP2, Blocks_CutList_Blocks _ _ ownV, eV2, eG1, eV1, eP1]

/-! ### C12: the list MergeRecords leaves is settled -/

theorem map_id_Settle (F l : List TIssueRecord) :
    (l.map (Settle F)).map (fun r => r.IssueLog.id) = l.map (fun r => r.IssueLog.id) := by
  rw [List.map_map]
  exact List.map_congr_left (fun r _ => (Settle_fields F r).2.1)

theorem ReasonOwners_Settle (F l : List TIssueRecord) (S : TIssueRecord → Bool) (x : String) :
    ReasonOwners ((l.filter S).map (Settle F)) x ≤ ReasonOwners l x := by
  unfold ReasonOwners
  rw [List.countP_map]
  refine Nat.le_trans (List.countP_mono_left ?_) (List.Sublist.countP_le _ (List.filter_sublist _))
  intro r _ h
  simp only [Function.comp, decide_eq_true_eq] at h ⊢
  rw [(Settle_fields F r).2.2.2.2.2.2.2.1] at h
  exact (List.mem_filter.1 h).1

theorem mem_Blocks_group (T : List TIssueRecord → List TIssueRecord)
    (us pool : List TIssueRecord) (u r : TIssueRecord) (hu : u ∈ us)
    (hr : r ∈ T (pool.filter (Owns u))) : r ∈ Blocks T us pool := by
  unfold Blocks
  exact List.mem_append_right _ (List.mem_flatMap.2 ⟨u, hu, hr⟩)

theorem filter_tag_Owns (M : List TIssueRecord) (tag : ETags) (g : TIssueRecord) :
    (M.filter (fun r => decide (r.Tag = tag))).filter (Owns g) =
      M.filter (fun it => decide (it.Tag = tag) &&
        decide (it.IssueLog.id ∈ g.IssueLog.reason)) := by
  rw [List.filter_filter]
  apply List.filter_congr
  intro r _
  unfold Owns
  rw [Bool.and_comm]

theorem Blocks_def (T : List TIssueRecord → List TIssueRecord) (us pool : List TIssueRecord) :
    Blocks T us pool =
      pool.filter (NoOwner us) ++ us.flatMap (fun u => T (pool.filter (Owns u))) := rfl

/-- The list FillRecords makes of the context of MergeRecords is settled,
when the records given have no count, no id is in the reasons of two of them,
and no message of a tag is the rewritten form of another message of the tag
or has the rewritten form of one. -/
theorem settled_of_stages (X : TExternal) (L : List TIssueRecord)
    (hB : ListedSum L ≤ 2147483647)
    (hcount : ∀ r ∈ L, r.IssueLog.count = 0)
    (hown : L.Pairwise ReasonsDisjoint)
    (hmsg : ∀ a ∈ L, ∀ b ∈ L, a.Tag = b.Tag →
      (RenameMessage a.Tag a.IssueLog.message = RenameMessage a.Tag b.IssueLog.message ∨
        RenameMessage a.Tag a.IssueLog.message = b.IssueLog.message) →
      a.IssueLog.message = b.IssueLog.message) :
    Settled (MergeRecords X L) := by
  have so : SingleOwner L := SingleOwner_of_pairwise L hown
  obtain ⟨c3, h3⟩ : ∃ c3, c3 = MergeLevelRecordsUpper
      (MergeLevelRecordsUpper (MergeLevelRecordsTag (TMergeIssuesContext.ctor L)
        ETags.GroupState) ETags.VDiskState ETags.GroupState)
      ETags.PDiskState ETags.VDiskState := ⟨_, rfl⟩
  obtain ⟨c6, h6⟩ : ∃ c6, c6 = MergeContext L := ⟨_, rfl⟩
  obtain ⟨t3, t6, s3, s6, hd, hl, e3G, e3V, e6G, e6V, e6P⟩ :=
    stages_of_fresh L so _ _ _ c3 _ _ c6 rfl rfl rfl h3 rfl rfl (by rw [h6, h3]; rfl)
  have hM0 : MergeRecords X L = c6.FillRecords X [] := by rw [h6]; rfl
  have hcapAll := MergeRecords_cap X L hB
  rw [hM0] at hcapAll ⊢
  have hM : ∀ tag, (c6.FillRecords X []).filter (fun r => decide (r.Tag = tag)) =
      ((c6.GetRecords tag).filter (Survives (Kept X c6))).map (Settle (Kept X c6)) :=
    fun tag => FillRecords_tag X c6 t6 tag
  obtain ⟨k1, k2, k3⟩ := Kept_spec X c6
  -- a record of the last context that does not stay lists no record that stays
  have horph : ∀ upper : ETags, ∀ v ∈ c6.GetRecords upper,
      Survives (Kept X c6) v = false →
      ReasonKey ((Kept X c6).map (fun it => it.IssueLog.id)) v = [] := by
    intro upper v hv hsv
    unfold ReasonKey
    rw [List.filter_eq_nil_iff]
    intro x hx hxI
    have hxI2 : x ∈ (Kept X c6).map (fun it => it.IssueLog.id) := by simpa using hxI
    obtain ⟨k, hk, e⟩ := List.mem_map.1 hxI2
    have hvK : v ∉ Kept X c6 := fun hin => by
      rw [Survives_of_mem _ v hin] at hsv
      cases hsv
    have hvC : v ∈ Collect X c6 := mem_Collect_of_mem X c6 t6 upper v hv
    rcases k1 k hk with ⟨f, hf, hkf⟩ | hnot
    · have hfC := (Kept_sublist X c6).subset hf
      have hf6 := (mem_Collect X c6 t6 f).1 hfC
      have efv := owner_unique L c6 so s6 f.Tag upper f v hf6 hv x (by rw [← e]; exact hkf) hx
      rw [efv] at hf
      exact hvK hf
    · rcases k3 v hvC with h | h
      · exact hvK h
      · exact hnot (by rw [e]; exact h x hx)
  -- a record the cutting stages erase lists no record that stays
  have hcut : ∀ upper : ETags, ∀ r ∈ c3.GetRecords upper, ∀ x ∈ r.IssueLog.reason,
      ReasonOwners (c6.GetRecords upper) x = 0 →
      x ∉ (Kept X c6).map (fun it => it.IssueLog.id) := by
    intro upper r hr x hx h0 hxI
    obtain ⟨k, hk, e⟩ := List.mem_map.1 hxI
    have hrem : x ∈ Removed X c6 := by
      rcases hd.2 upper r hr with ⟨k2, hk2, e2⟩ | h
      · have := ReasonOwners_pos (c6.GetRecords upper) x k2 hk2 (by rw [e2.2.2]; exact hx)
        omega
      · exact k2 x (h x hx)
    rcases k1 k hk with ⟨f, hf, hkf⟩ | hnot
    · have hfC := (Kept_sublist X c6).subset hf
      have hf6 := (mem_Collect X c6 t6 f).1 hfC
      obtain ⟨u0, hu0, e0⟩ := hl f.Tag f hf6
      have hxu0 : x ∈ u0.IssueLog.reason := by
        rw [← e0.2.2, ← e]
        exact hkf
      have eur := owner_unique L c3 so s3 f.Tag upper u0 r hu0 hr x hxu0 hx
      have hft : f.Tag = upper := by
        rw [e0.1, eur]
        exact TagInv_GetRecords c3 upper t3 r hr
      rw [hft] at hf6
      have := ReasonOwners_pos (c6.GetRecords upper) x f hf6 (by rw [← e]; exact hkf)
      omega
    · exact hnot (by rw [e]; exact hrem)
  have htagT : ∀ tag, ∀ r ∈ L.filter (fun r => decide (r.Tag = tag)),
      r.Tag = tag ∧ r.IssueLog.count = 0 := by
    intro tag r hr
    obtain ⟨h1, h2⟩ := List.mem_filter.1 hr
    exact ⟨by simpa using h2, hcount r h1⟩
  have hmsgT : ∀ tag, ∀ a ∈ L.filter (fun r => decide (r.Tag = tag)),
      ∀ b ∈ L.filter (fun r => decide (r.Tag = tag)),
      (RenameMessage tag a.IssueLog.message = RenameMessage tag b.IssueLog.message ∨
        RenameMessage tag a.IssueLog.message = b.IssueLog.message) →
      a.IssueLog.message = b.IssueLog.message := by
    intro tag a ha b hb h
    have ta := (htagT tag a ha).1
    have tb := (htagT tag b hb).1
    refine hmsg a (List.mem_filter.1 ha).1 b (List.mem_filter.1 hb).1 (ta.trans tb.symm) ?_
    rw [ta]
    exact h
  have hownM : ∀ tag, SingleOwner ((c6.FillRecords X []).filter
      (fun r => decide (r.Tag = tag))) := by
    intro tag x
    rw [hM tag]
    exact Nat.le_trans (ReasonOwners_Settle _ _ _ x)
      (SingleOwner_of_Shrinks L c6 so s6 tag x)
  have hownG1 : SingleOwner (c3.GetRecords ETags.GroupState) :=
    SingleOwner_of_Shrinks L c3 so s3 _
  have hownV2 : SingleOwner (c3.GetRecords ETags.VDiskState) :=
    SingleOwner_of_Shrinks L c3 so s3 _
  have hsoG : SingleOwner (L.filter (fun r => decide (r.Tag = ETags.GroupState))) :=
    fun x => Nat.le_trans (List.Sublist.countP_le _ (List.filter_sublist _)) (so x)
  have hsoV : SingleOwner (L.filter (fun r => decide (r.Tag = ETags.VDiskState))) :=
    fun x => Nat.le_trans (List.Sublist.countP_le _ (List.filter_sublist _)) (so x)
  -- the reasons of the GroupState records that stay
  have hkG : ReasonKeys ((Kept X c6).map (fun it => it.IssueLog.id))
      (((c6.GetRecords ETags.GroupState).filter (Survives (Kept X c6))).map
        (Settle (Kept X c6))) =
      ReasonKeys ((Kept X c6).map (fun it => it.IssueLog.id))
        (c3.GetRecords ETags.GroupState) := by
    rw [ReasonKeys_map _ _ _ (fun v _ => ReasonKey_Settle _ v),
      ReasonKeys_filter _ _ _ (fun v hv => horph ETags.GroupState v hv)]
    have e6 := e6G
    rw [← e3G] at e6
    rw [e6]
    apply ReasonKeys_CutList
    intro pre last last2 rest e1 e2 hr r hrest
    unfold ReasonKey
    rw [List.filter_eq_nil_iff]
    intro x hx hxI
    have hrin : r ∈ c3.GetRecords ETags.GroupState := by
      rw [e1]
      exact List.mem_append_right _ (List.mem_cons_of_mem _ hrest)
    have hcnt := CutList_owners_rest x _ pre rest last last2 e1 e2 hr
    have hle := hownG1 x
    have hpos : 0 < ReasonOwners rest x := ReasonOwners_pos rest x r hrest hx
    have h0 : ReasonOwners (c6.GetRecords ETags.GroupState) x = 0 := by
      rw [e6]
      omega
    exact hcut ETags.GroupState r hrin x hx h0 (by simpa using hxI)
  -- the reasons of the VDiskState records that stay
  have hkV : ReasonKeys ((Kept X c6).map (fun it => it.IssueLog.id))
      (((c6.GetRecords ETags.VDiskState).filter (Survives (Kept X c6))).map
        (Settle (Kept X c6))) =
      ReasonKeys ((Kept X c6).map (fun it => it.IssueLog.id))
        (c3.GetRecords ETags.VDiskState) := by
    rw [ReasonKeys_map _ _ _ (fun v _ => ReasonKey_Settle _ v),
      ReasonKeys_filter _ _ _ (fun v hv => horph ETags.VDiskState v hv)]
    have hle : ∀ x, ReasonOwners (Blocks MergeList
        (MergeList (L.filter (fun r => decide (r.Tag = ETags.GroupState))))
        (L.filter (fun r => decide (r.Tag = ETags.VDiskState)))) x ≤ 1 := by
      intro x
      rw [← e3V]
      exact hownV2 x
    have hin3 : ∀ r, r ∈ Blocks MergeList
        (MergeList (L.filter (fun r => decide (r.Tag = ETags.GroupState))))
        (L.filter (fun r => decide (r.Tag = ETags.VDiskState))) →
        r ∈ c3.GetRecords ETags.VDiskState := by
      intro r hr
      rw [e3V]
      exact hr
    have h06 : ∀ x, ReasonOwners (Blocks (fun R => CutList (MergeList R))
        (MergeList (L.filter (fun r => decide (r.Tag = ETags.GroupState))))
        (L.filter (fun r => decide (r.Tag = ETags.VDiskState)))) x = 0 →
        ReasonOwners (c6.GetRecords ETags.VDiskState) x = 0 := by
      intro x hx
      rw [e6V]
      exact hx
    rw [e6V, e3V, Blocks_def, Blocks_def]
    rw [ReasonKeys_append, ReasonKeys_append, ReasonKeys_flatMap, ReasonKeys_flatMap]
    congr 1
    apply List.flatMap_congr
    intro g hg
    apply ReasonKeys_CutList
    intro pre last last2 rest e1 e2 hr r hrest
    unfold ReasonKey
    rw [List.filter_eq_nil_iff]
    intro x hx hxI
    have hrin : r ∈ c3.GetRecords ETags.VDiskState := by
      apply hin3
      refine mem_Blocks_group MergeList _ _ g r hg ?_
      rw [e1]
      exact List.mem_append_right _ (List.mem_cons_of_mem _ hrest)
    have hcnt := Blocks_owners_rest x _ _ g hg pre rest last last2 e1 e2 hr
    have hpos : 0 < ReasonOwners rest x := ReasonOwners_pos rest x r hrest hx
    have hle1 := hle x
    exact hcut ETags.VDiskState r hrin x hx (h06 x (by omega)) (by simpa using hxI)
  refine ⟨?_, ?_, ?_, ?_⟩
  · -- the GroupState records
    have cap := hcapAll.1
    rw [hM ETags.GroupState, e6G] at cap ⊢
    have hk := settled_block ETags.GroupState (Kept X c6) _ (Survives (Kept X c6))
      (htagT ETags.GroupState) (hmsgT ETags.GroupState)
    exact ⟨hk.1, hk.2, cap⟩
  · -- the VDiskState records along the GroupState records
    have cap := hcapAll.2.1 hsoG
    have own2 := hownM ETags.GroupState
    rw [hM ETags.GroupState] at own2 ⊢
    rw [hM ETags.VDiskState, e6V]
    rw [e3G] at hownG1 hkG
    refine Grouped_of_stages ETags.VDiskState _ _ _ (Kept X c6)
      (htagT ETags.VDiskState) (hmsgT ETags.VDiskState) hownG1 hkG own2 ?_
    intro u2 hu2
    have hin : u2 ∈ (c6.FillRecords X []).filter
        (fun r => decide (r.Tag = ETags.GroupState)) := by
      rw [hM ETags.GroupState]
      exact hu2
    have hmem := (List.mem_filter.1 hin).1
    have htag2 : u2.Tag = ETags.GroupState := by
      simpa using (List.mem_filter.1 hin).2
    have := cap u2 hmem htag2
    rw [← filter_tag_Owns, hM ETags.VDiskState, e6V] at this
    exact this
  · -- the PDiskState records along the VDiskState records
    have cap := hcapAll.2.2 hsoV
    have own2 := hownM ETags.VDiskState
    rw [hM ETags.VDiskState] at own2 ⊢
    rw [hM ETags.PDiskState, e6P]
    rw [e3V] at hownV2 hkV
    refine Grouped_of_stages ETags.PDiskState _ _ _ (Kept X c6)
      (htagT ETags.PDiskState) (hmsgT ETags.PDiskState) hownV2 hkV own2 ?_
    intro u2 hu2
    have hin : u2 ∈ (c6.FillRecords X []).filter
        (fun r => decide (r.Tag = ETags.VDiskState)) := by
      rw [hM ETags.VDiskState]
      exact hu2
    have hmem := (List.mem_filter.1 hin).1
    have htag2 : u2.Tag = ETags.VDiskState := by
      simpa using (List.mem_filter.1 hin).2
    have := cap u2 hmem htag2
    rw [← filter_tag_Owns, hM ETags.PDiskState, e6P] at this
    exact this
  · -- reasons and messages
    intro r hr
    rw [FillRecords_eq] at hr ⊢
    obtain ⟨k, hk, e⟩ := List.mem_map.1 hr
    constructor
    · intro x hx
      rw [map_id_Settle]
      rw [← e, (Settle_fields _ k).2.2.2.2.2.2.2.1] at hx
      simpa using (List.mem_filter.1 hx).2
    · intro hc
      rw [← e] at hc ⊢
      rw [(Settle_fields _ k).2.2.1] at hc
      rw [(Settle_fields _ k).1, (Settle_fields _ k).2.2.2.2.2.2.2.2, if_pos hc]
      exact RenameMessage_twice _ _

/-! ### C12: MergeRecords on its own result -/

theorem perm_of_tag_filters (A B : List TIssueRecord)
    (h : ∀ tag, A.filter (fun r => decide (r.Tag = tag)) =
      B.filter (fun r => decide (r.Tag = tag))) : A.Perm B := by
  rw [List.perm_iff_count]
  intro a
  have := congrArg (List.count a) (h a.Tag)
  rw [List.count_filter (by simp), List.count_filter (by simp)] at this
  exact this

/-- C12 (amended): when the listed values of the list (0 counting as 1) add up
to 2147483647 at most, the records of the list have no count, no id is in the
reason list of two of them, and no message of a tag is the form
RenameMergingIssues gives to another message of the tag or shares that form
with one, MergeRecords on the list MergeRecords made of it gives the same
records again: the list is a permutation of the first result, and under
every tag the records come in the same order, with the same fields. -/
theorem MergeRecords_idempotent (X : TExternal) (L : List TIssueRecord)
    (hB : ListedSum L ≤ 2147483647)
    (hcount : ∀ r ∈ L, r.IssueLog.count = 0)
    (hown : L.Pairwise ReasonsDisjoint)
    (hmsg : ∀ a ∈ L, ∀ b ∈ L, a.Tag = b.Tag →
      (RenameMessage a.Tag a.IssueLog.message = RenameMessage a.Tag b.IssueLog.message ∨
        RenameMessage a.Tag a.IssueLog.message = b.IssueLog.message) →
      a.IssueLog.message = b.IssueLog.message) :
    (MergeRecords X (MergeRecords X L)).Perm (MergeRecords X L) ∧
    ∀ tag, (MergeRecords X (MergeRecords X L)).filter (fun r => decide (r.Tag = tag)) =
      (MergeRecords X L).filter (fun r => decide (r.Tag = tag)) := by
  have h := MergeRecords_of_settled X (MergeRecords X L)
    (settled_of_stages X L hB hcount hown hmsg)
  exact ⟨perm_of_tag_filters _ _ h, h⟩

set_option maxRecDepth 100000 in

/-- The theorem of C12 on the list of one VDiskState record that lists twenty
PDiskState records "PDisk state is Missing", which MergeRecords merges and
cuts; the record of the pdisk p1 is in the list twice, so the ids of the list
are not distinct. -/
theorem MergeRecords_idempotent_witness :
    ListedSum exampleRepeatedPDisk ≤ 2147483647 ∧
    ¬ (exampleRepeatedPDisk.map (fun r => r.IssueLog.id)).Nodup ∧
    (∀ r ∈ exampleRepeatedPDisk, r.IssueLog.count = 0) ∧
    exampleRepeatedPDisk.Pairwise ReasonsDisjoint ∧
    (MergeRecords exampleExternal
      (MergeRecords exampleExternal exampleRepeatedPDisk)).Perm
      (MergeRecords exampleExternal exampleRepeatedPDisk) ∧
    ∀ tag, (MergeRecords exampleExternal
        (MergeRecords exampleExternal exampleRepeatedPDisk)).filter
          (fun r => decide (r.Tag = tag)) =
      (MergeRecords exampleExternal exampleRepeatedPDisk).filter
        (fun r => decide (r.Tag = tag)) :=
  ⟨by decide, by decide, by decide, by decide,
    MergeRecords_idempotent exampleExternal exampleRepeatedPDisk (by decide)
      (by decide) (by decide) (by decide)⟩

set_option maxRecDepth 100000 in

/-- C12 (counterexample): MergeRecords on its own result gives another list:
with a PDiskState record listed by two VDiskState records, one of which
RemoveRecordsAboveLimit removes, the second run cuts the merged record q1
from listed 10 to 9; with a message that is the rewritten form of another,
the second run merges five records into one; with a count set in the input,
the second run changes the order of the GroupState records; with the
records map iterated against the insertion order, the second run changes the
order of the tags; and with a listed value of 2147483648, which
GetIssueListed returns as a negative `int`, on records with distinct ids, no
count and no id in two reason lists, the first run keeps the GroupState
record gc with listed 10 beyond the limit and the second run cuts it to 9. -/
theorem second_merge_differs :
    (((MergeRecords exampleExternal exampleOrphan).filter
        (fun r => decide (r.Tag = ETags.PDiskState))).map
          (fun it => (it.IssueLog.id, it.IssueLog.count, it.IssueLog.listed,
            it.IssueLog.location.storage.pool.group.vdisk.pdisk.length)) =
        [("p", 0, 0, 1), ("q1", 10, 10, 10)] ∧
      ((MergeRecords exampleExternal (MergeRecords exampleExternal exampleOrphan)).filter
        (fun r => decide (r.Tag = ETags.PDiskState))).map
          (fun it => (it.IssueLog.id, it.IssueLog.count, it.IssueLog.listed,
            it.IssueLog.location.storage.pool.group.vdisk.pdisk.length)) =
        [("p", 0, 0, 1), ("q1", 10, 9, 9)]) ∧
    ((MergeRecords exampleExternal exampleRenamed).map
        (fun it => (it.IssueLog.id, it.IssueLog.message, it.IssueLog.count)) =
        [("a1", "Groups failed", 0), ("a2", "Groups failed", 0), ("a3", "Groups failed", 0),
          ("a4", "Groups failed", 0), ("b1", "Groups failed", 5)] ∧
      (MergeRecords exampleExternal (MergeRecords exampleExternal exampleRenamed)).map
        (fun it => (it.IssueLog.id, it.IssueLog.message, it.IssueLog.count)) =
        [("a1", "Groups failed", 5)]) ∧
    ((MergeRecords exampleExternal examplePresetCount).map
        (fun it => (it.IssueLog.id, it.IssueLog.message, it.IssueLog.count)) =
        [("g1", "Group failed", 0), ("g2", "Groups failed", 1), ("g3", "Group failed", 0)] ∧
      (MergeRecords exampleExternal (MergeRecords exampleExternal examplePresetCount)).map
        (fun it => (it.IssueLog.id, it.IssueLog.message, it.IssueLog.count)) =
        [("g1", "Group failed", 0), ("g3", "Group failed", 0), ("g2", "Groups failed", 1)]) ∧
    ((MergeRecords exampleReverseExternal exampleTwoTags).map (fun it => it.IssueLog.id) =
        ["v1", "g1"] ∧
      (MergeRecords exampleReverseExternal
        (MergeRecords exampleReverseExternal exampleTwoTags)).map (fun it => it.IssueLog.id) =
        ["g1", "v1"]) ∧
    ((exampleListedRange.map (fun r => r.IssueLog.id)).Nodup ∧
      (∀ r ∈ exampleListedRange, r.IssueLog.count = 0) ∧
      exampleListedRange.Pairwise ReasonsDisjoint ∧
      ListedSum exampleListedRange = 2147483670 ∧
      (MergeRecords exampleExternal exampleListedRange).map
          (fun it => (it.IssueLog.id, it.IssueLog.message, it.IssueLog.listed)) =
        [("ga", "Group a", 0), ("gc", "Group c", 10), ("v", "VDisks are not available", 10)] ∧
      (MergeRecords exampleExternal (MergeRecords exampleExternal exampleListedRange)).map
          (fun it => (it.IssueLog.id, it.IssueLog.message, it.IssueLog.listed)) =
        [("ga", "Group a", 0), ("gc", "Groups c", 9),
          ("v", "VDisks are not available", 10)]) := by
  decide

/-! ### C21: the synchronization period of a hive -/

theorem two_pow_64 : (2 : Nat) ^ 64 = 18446744073709551616 := by norm_num

theorem two_pow_32 : (2 : Nat) ^ 32 = 4294967296 := by norm_num

theorem IsHiveSynchronizationPeriod_iff (s r : Nat) (hs : s ≤ r) (hr : r < 2 ^ 64)
    (Tablets : List TTabletInfo) :
    IsHiveSynchronizationPeriod
        { StartTimeTimestamp := s, ResponseTimestamp := r, Tablets := Tablets } = true ↔
      0 < r - s ∧ r - s < 2 ^ 64 - 10000 := by
  unfold IsHiveSynchronizationPeriod HIVE_SYNCHRONIZATION_PERIOD_MS
  simp only [decide_eq_true_eq, two_pow_64] at *
  omega

/-- C21 (the code at the failing inputs): for a hive that started at `s` and
answered at `r`, `s ≤ r`, both unsigned 64-bit numbers of milliseconds,
IsHiveSynchronizationPeriod returns true exactly when the uptime `r - s` is
above 0 and below 2^64 - 10000: it subtracts the response time from the
start time and tests whether the difference, taken modulo 2^64, is above
10000. So a hive with uptime 0 is not in its synchronization period, and a
hive that has run for an hour is: AggregateHiveInfo counts the dead tablet
of the hour-old hive as Good and the one of the hive just started as
Dead. -/
theorem IsHiveSynchronizationPeriod_reversed :
    (∀ s r : Nat, s ≤ r → r < 2 ^ 64 →
      (IsHiveSynchronizationPeriod { StartTimeTimestamp := s, ResponseTimestamp := r } = true ↔
        0 < r - s ∧ r - s < 2 ^ 64 - 10000)) ∧
    IsHiveSynchronizationPeriod
      { StartTimeTimestamp := 5000, ResponseTimestamp := 5000 } = false ∧
    IsHiveSynchronizationPeriod
      { StartTimeTimestamp := 0, ResponseTimestamp := 3600000 } = true ∧
    BucketStates ((exampleHiveActor 0 3600000).AggregateHiveInfo 1000000000) "/Root" =
      [(ETabletState.Good, 1)] ∧
    BucketStates ((exampleHiveActor 5000 5000).AggregateHiveInfo 1000000000) "/Root" =
      [(ETabletState.Dead, 1)] := by
  refine ⟨fun s r hs hr => IsHiveSynchronizationPeriod_iff s r hs hr [], by decide, by decide,
    by decide, by decide⟩

/-! ### C22: the system tablets of a database -/

theorem FillSystemTablet_view (X : TExternal) (databaseId : String) (c : TSelfCheckResult)
    (entry : Nat × TTabletState) :
    (FillSystemTablet X databaseId c entry).IssueRecords.map TabletIssueView =
        ((SystemTabletReports databaseId [entry]).map
          (fun p => (ETags.SystemTabletState, p.2.1, p.2.2, [toString p.1]))) ++
        c.IssueRecords.map TabletIssueView ∧
    (FillSystemTablet X databaseId c entry).OverallStatus =
      ((SystemTabletReports databaseId [entry]).map (fun p => p.2.1)).foldl MaxStatus
        c.OverallStatus := by
  obtain ⟨tabletId, tablet⟩ := entry
  unfold FillSystemTablet SystemTabletReports SystemTabletRule
  by_cases hd : tablet.Database = databaseId
  · by_cases hu : tablet.IsUnresponsive = true
    · by_cases ht : tablet.Type_ = "Unknown" <;>
        simp [hd, hu, ht, ReportStatus_IssueRecords, ReportStatus_OverallStatus,
          NewIssueRecord, TabletIssueView]
    · by_cases h5 : 5000 * 1000 ≤ tablet.MaxResponseTime
      · have h1 : 1000 * 1000 ≤ tablet.MaxResponseTime := by omega
        by_cases ht : tablet.Type_ = "Unknown" <;>
          simp [hd, hu, ht, h5, h1, ReportStatus_IssueRecords, ReportStatus_OverallStatus,
            NewIssueRecord, TabletIssueView]
      · by_cases h1 : 1000 * 1000 ≤ tablet.MaxResponseTime
        · by_cases ht : tablet.Type_ = "Unknown" <;>
            simp [hd, hu, ht, h5, h1, ReportStatus_IssueRecords, ReportStatus_OverallStatus,
              NewIssueRecord, TabletIssueView]
        · simp [hd, hu, h5, h1]
  · simp [hd]

theorem SystemTabletReports_cons (databaseId : String) (entry : Nat × TTabletState)
    (tablets : List (Nat × TTabletState)) :
    SystemTabletReports databaseId (entry :: tablets) =
      SystemTabletReports databaseId [entry] ++ SystemTabletReports databaseId tablets := by
  unfold SystemTabletReports
  by_cases h : entry.2.Database = databaseId
  · simp [h, List.filterMap_cons]
    cases SystemTabletRule entry.2 <;> simp
  · simp [h]

theorem foldl_FillSystemTablet_view (X : TExternal) (databaseId : String)
    (tablets : List (Nat × TTabletState)) (c : TSelfCheckResult) :
    (tablets.foldl (FillSystemTablet X databaseId) c).IssueRecords.map TabletIssueView =
        ((SystemTabletReports databaseId tablets).map
          (fun p => (ETags.SystemTabletState, p.2.1, p.2.2, [toString p.1]))).reverse ++
        c.IssueRecords.map TabletIssueView ∧
    (tablets.foldl (FillSystemTablet X databaseId) c).OverallStatus =
      ((SystemTabletReports databaseId tablets).map (fun p => p.2.1)).foldl MaxStatus
        c.OverallStatus := by
  induction tablets generalizing c with
  | nil => simp [SystemTabletReports]
  | cons entry tablets ih =>
    rw [List.foldl_cons, SystemTabletReports_cons]
    obtain ⟨i1, i2⟩ := ih (FillSystemTablet X databaseId c entry)
    obtain ⟨s1, s2⟩ := FillSystemTablet_view X databaseId c entry
    refine ⟨?_, ?_⟩
    · rw [i1, s1]
      have hlen : (SystemTabletReports databaseId [entry]).length ≤ 1 := by
        unfold SystemTabletReports
        exact le_trans (List.length_filterMap_le _ _)
          (le_trans (List.length_filter_le _ _) (by simp))
      rw [List.map_append, List.reverse_append, List.append_assoc]
      congr 1
      congr 1
      match hm : SystemTabletReports databaseId [entry], hlen with
      | [], _ => rfl
      | [_], _ => rfl
    · rw [i2, s2, List.map_append, List.foldl_append]

/-- C22: FillSystemTablets called with a context of the database `d` reports
one SystemTabletState issue for every tracked tablet of `d` to which the rule
of the specification gives one (RED "System tablet is unresponsive" for an
unresponsive tablet whatever its response time, else ORANGE from 5000 ms,
else YELLOW from 1000 ms), with the tablet id as the tablet of its location,
the later tablet first, in front of the records the context had; tablets of
other databases add nothing. The status it returns is the maximum of the
status the context had and of the reported statuses; for a fresh context, as
its callers build it, it is the maximum of the reported statuses, GREY when
nothing is reported. -/
theorem FillSystemTablets_rule (X : TExternal) (S : TSelfCheckRequest)
    (context upper : TSelfCheckResult) (type : String) :
    (FillSystemTablets X S context).IssueRecords.map TabletIssueView =
        ((SystemTabletReports context.Location.database.name
            S.TabletRequests.TabletStates).map
          (fun p => (ETags.SystemTabletState, p.2.1, p.2.2, [toString p.1]))).reverse ++
        context.IssueRecords.map TabletIssueView ∧
    (FillSystemTablets X S context).OverallStatus =
      ((SystemTabletReports context.Location.database.name
          S.TabletRequests.TabletStates).map (fun p => p.2.1)).foldl MaxStatus
        context.OverallStatus ∧
    (FillSystemTablets X S (TSelfCheckContext upper type)).OverallStatus =
      MaxStatusOf ((SystemTabletReports upper.Location.database.name
        S.TabletRequests.TabletStates).map (fun p => p.2.1)) := by
  refine ⟨(foldl_FillSystemTablet_view X _ _ context).1,
    (foldl_FillSystemTablet_view X _ _ context).2, ?_⟩
  exact (foldl_FillSystemTablet_view X _ _ (TSelfCheckContext upper type)).2

/-! ### Hash maps as lists -/

theorem hfind_set_same {K V : Type} [DecidableEq K] (m : List (K × V)) (k : K) (v : V) :
    THashMap.find (THashMap.set m k v) k = some v := by
  induction m with
  | nil => simp [THashMap.set, THashMap.find]
  | cons p m ih =>
    obtain ⟨k2, v2⟩ := p
    unfold THashMap.set
    by_cases h : k2 = k
    · simp [h, THashMap.find]
    · simp [h, THashMap.find, ih]

theorem hfind_set_ne {K V : Type} [DecidableEq K] (m : List (K × V)) (k other : K) (v : V)
    (h : other ≠ k) : THashMap.find (THashMap.set m k v) other = THashMap.find m other := by
  induction m with
  | nil =>
    have h2 : ¬ k = other := fun e => h e.symm
    simp [THashMap.set, THashMap.find, h2]
  | cons p m ih =>
    obtain ⟨k2, v2⟩ := p
    unfold THashMap.set
    by_cases h2 : k2 = k
    · have h3 : ¬ k = other := fun e => h e.symm
      subst h2
      simp [THashMap.find, h3]
    · by_cases h3 : k2 = other
      · subst h3
        simp [h2, THashMap.find]
      · simp [h2, h3, THashMap.find, ih]

theorem hkeys_set {K V : Type} [DecidableEq K] (m : List (K × V)) (k : K) (v : V) :
    (THashMap.set m k v).map Prod.fst =
      if k ∈ m.map Prod.fst then m.map Prod.fst else m.map Prod.fst ++ [k] := by
  induction m with
  | nil => simp [THashMap.set]
  | cons p m ih =>
    obtain ⟨k2, v2⟩ := p
    unfold THashMap.set
    by_cases h : k2 = k
    · simp [h]
    · have h2 : ¬ k = k2 := fun e => h e.symm
      simp only [h, if_false, List.map_cons, ih, List.mem_cons, h2, false_or]
      split <;> simp

theorem hmem_keys_set {K V : Type} [DecidableEq K] (m : List (K × V)) (k x : K) (v : V) :
    x ∈ (THashMap.set m k v).map Prod.fst ↔ x = k ∨ x ∈ m.map Prod.fst := by
  rw [hkeys_set]
  split
  · constructor
    · exact Or.inr
    · rintro (h | h)
      · subst h; assumption
      · exact h
  · rw [List.mem_append, List.mem_singleton]
    exact or_comm

theorem hfind_none_iff {K V : Type} [DecidableEq K] (m : List (K × V)) (k : K) :
    THashMap.find m k = none ↔ k ∉ m.map Prod.fst := by
  induction m with
  | nil => simp [THashMap.find]
  | cons p m ih =>
    obtain ⟨k2, v2⟩ := p
    unfold THashMap.find
    by_cases h : k2 = k
    · simp [h]
    · have h2 : ¬ k = k2 := fun e => h e.symm
      simp [h, h2, ih]

theorem hfind_isNone_iff {K V : Type} [DecidableEq K] (m : List (K × V)) (k : K) :
    (THashMap.find m k).isNone = true ↔ k ∉ m.map Prod.fst := by
  rw [Option.isNone_iff_eq_none, hfind_none_iff]

theorem hfind_mem {K V : Type} [DecidableEq K] (m : List (K × V)) (k : K) (v : V)
    (h : THashMap.find m k = some v) : (k, v) ∈ m := by
  induction m with
  | nil => simp [THashMap.find] at h
  | cons p m ih =>
    obtain ⟨k2, v2⟩ := p
    unfold THashMap.find at h
    by_cases h2 : k2 = k
    · simp only [h2, if_true, Option.some.injEq] at h
      rw [h2, h]
      exact List.mem_cons_self _ _
    · simp only [h2, if_false] at h
      exact List.mem_cons_of_mem _ (ih h)

theorem hfind_filter {K V : Type} [DecidableEq K] (m : List (K × V)) (p : K → Bool) (k : K) :
    THashMap.find (m.filter (fun e => p e.1)) k =
      if p k then THashMap.find m k else none := by
  induction m with
  | nil => simp [THashMap.find]
  | cons q m ih =>
    obtain ⟨k2, v2⟩ := q
    by_cases h : p k2 = true
    · rw [List.filter_cons_of_pos (by simpa using h)]
      unfold THashMap.find
      by_cases h2 : k2 = k
      · subst h2; simp [h]
      · simp [h2, ih]
    · rw [List.filter_cons_of_neg (by simpa using h)]
      rw [ih]
      by_cases h2 : k2 = k
      · subst h2; simp [h]
      · rw [THashMap.find, if_neg h2]

theorem hkeys_emplace {K V : Type} [DecidableEq K] (m : List (K × V)) (k x : K) (v : V) :
    x ∈ (THashMap.emplace m k v).map Prod.fst ↔ x = k ∨ x ∈ m.map Prod.fst := by
  unfold THashMap.emplace
  split
  · constructor
    · exact Or.inr
    · rintro (h | h)
      · subst h; assumption
      · exact h
  · rw [List.map_append, List.mem_append]
    simp only [List.map_cons, List.map_nil, List.mem_singleton]
    exact or_comm

theorem hfind_emplace_ne {K V : Type} [DecidableEq K] (m : List (K × V)) (k other : K) (v : V)
    (h : other ≠ k) : THashMap.find (THashMap.emplace m k v) other = THashMap.find m other := by
  unfold THashMap.emplace
  split
  · rfl
  · induction m with
    | nil =>
      have h2 : ¬ k = other := fun e => h e.symm
      simp [THashMap.find, h2]
    | cons p m ih =>
      obtain ⟨k2, v2⟩ := p
      rename_i hk
      have hk2 : k ∉ m.map Prod.fst := fun e => hk (List.mem_cons_of_mem _ e)
      simp only [List.cons_append, THashMap.find]
      split
      · rfl
      · exact ih hk2

theorem hfind_emplace_new {K V : Type} [DecidableEq K] (m : List (K × V)) (k : K) (v : V)
    (h : k ∉ m.map Prod.fst) : THashMap.find (THashMap.emplace m k v) k = some v := by
  unfold THashMap.emplace
  rw [if_neg h]
  induction m with
  | nil => simp [THashMap.find]
  | cons p m ih =>
    obtain ⟨k2, v2⟩ := p
    have hk2 : k ∉ m.map Prod.fst := fun e => h (List.mem_cons_of_mem _ e)
    have hne : ¬ k2 = k := fun e => h (by rw [← e]; exact List.mem_cons_self _ _)
    simp only [List.cons_append, THashMap.find, hne, if_false]
    exact ih hk2

/-! ### What the aggregation leaves -/

theorem AggregateHiveTablet_Ledger (settings : TTabletStateSettings)
    (S : TSelfCheckRequestActor) (hiveTablet : TTabletInfo) :
    (S.AggregateHiveTablet settings hiveTablet).Ledger = S.Ledger := by
  unfold TSelfCheckRequestActor.AggregateHiveTablet
  split
  · rfl
  · split <;> rfl

theorem AggregateHiveInfo_Ledger (now : Nat) (S : TSelfCheckRequestActor) :
    (S.AggregateHiveInfo now).Ledger = S.Ledger := by
  unfold TSelfCheckRequestActor.AggregateHiveInfo
  refine foldl_preserves
    (fun acc : TTabletStateSettings × TSelfCheckRequestActor => acc.2.Ledger = S.Ledger)
    _ ?_ _ _ rfl
  intro acc entry hacc
  dsimp only
  split
  · exact hacc
  · exact foldl_preserves (fun S2 : TSelfCheckRequestActor => S2.Ledger = S.Ledger) _
      (fun S2 a h2 => (AggregateHiveTablet_Ledger _ S2 a).trans h2) _ _ hacc

theorem AggregateHiveNodeStat_Ledger (S : TSelfCheckRequestActor) (hiveStat : THiveNodeStats) :
    (S.AggregateHiveNodeStat hiveStat).Ledger = S.Ledger := by
  unfold TSelfCheckRequestActor.AggregateHiveNodeStat
  split
  · rfl
  · split <;> rfl

theorem AggregateHiveNodeStats_Ledger (S : TSelfCheckRequestActor) :
    S.AggregateHiveNodeStats.Ledger = S.Ledger := by
  unfold TSelfCheckRequestActor.AggregateHiveNodeStats
  refine foldl_preserves (fun S2 : TSelfCheckRequestActor => S2.Ledger = S.Ledger) _ ?_ _ _ rfl
  intro S2 entry h2
  dsimp only
  split
  · exact h2
  · exact foldl_preserves (fun S3 : TSelfCheckRequestActor => S3.Ledger = S.Ledger) _
      (fun S3 a h3 => (AggregateHiveNodeStat_Ledger S3 a).trans h3) _ _ h2

theorem AggregatePDisk_Ledger (S : TSelfCheckRequestActor) (pDisk : TBaseConfig.TPDisk) :
    (S.AggregatePDisk pDisk).Ledger = S.Ledger := by
  unfold TSelfCheckRequestActor.AggregatePDisk
  dsimp only
  split <;> rfl

theorem AggregateVSlot_Ledger
    (acc : List (TVSlotId × TBaseConfig.TVSlot) × TSelfCheckRequestActor)
    (vDisk : TBaseConfig.TVSlot) :
    (TSelfCheckRequestActor.AggregateVSlot acc vDisk).2.Ledger = acc.2.Ledger := by
  unfold TSelfCheckRequestActor.AggregateVSlot
  dsimp only
  split <;> rfl

theorem AggregateGroup_Ledger (Y : TActorExternal)
    (slotsIndex : List (TVSlotId × TBaseConfig.TVSlot)) (S : TSelfCheckRequestActor)
    (group : TBaseConfig.TGroup) :
    (S.AggregateGroup Y slotsIndex group).Ledger = S.Ledger := by
  unfold TSelfCheckRequestActor.AggregateGroup
  dsimp only
  split <;> rfl

theorem AggregateBSControllerState_Ledger (Y : TActorExternal) (S : TSelfCheckRequestActor) :
    (S.AggregateBSControllerState Y).Ledger = S.Ledger := by
  unfold TSelfCheckRequestActor.AggregateBSControllerState
  dsimp only
  show TSelfCheckRequestActor.Ledger (S.AggregateBaseConfig Y) = S.Ledger
  unfold TSelfCheckRequestActor.AggregateBaseConfig
  show TSelfCheckRequestActor.Ledger
    (match S.BaseConfig with
      | none => S
      | some pbConfig =>
        pbConfig.Group.foldl (TSelfCheckRequestActor.AggregateGroup Y
          (pbConfig.VSlot.foldl TSelfCheckRequestActor.AggregateVSlot
            ([], pbConfig.PDisk.foldl TSelfCheckRequestActor.AggregatePDisk S)).1)
          (pbConfig.VSlot.foldl TSelfCheckRequestActor.AggregateVSlot
            ([], pbConfig.PDisk.foldl TSelfCheckRequestActor.AggregatePDisk S)).2) = S.Ledger
  split
  · rfl
  · rename_i pbConfig _
    have h1 : (pbConfig.PDisk.foldl TSelfCheckRequestActor.AggregatePDisk S).Ledger = S.Ledger :=
      foldl_preserves (fun S2 : TSelfCheckRequestActor => S2.Ledger = S.Ledger) _
        (fun S2 a h2 => (AggregatePDisk_Ledger S2 a).trans h2) _ _ rfl
    have h2 : (pbConfig.VSlot.foldl TSelfCheckRequestActor.AggregateVSlot
        ([], pbConfig.PDisk.foldl TSelfCheckRequestActor.AggregatePDisk S)).2.Ledger =
        S.Ledger :=
      foldl_preserves
        (fun acc : List (TVSlotId × TBaseConfig.TVSlot) × TSelfCheckRequestActor =>
          acc.2.Ledger = S.Ledger) _
        (fun acc a h => (AggregateVSlot_Ledger acc a).trans h) _ _ h1
    exact foldl_preserves (fun S2 : TSelfCheckRequestActor => S2.Ledger = S.Ledger) _
      (fun S2 a h => (AggregateGroup_Ledger Y _ S2 a).trans h) _ _ h2

theorem Aggregate_Ledger (Y : TActorExternal) (now : Nat) (S : TSelfCheckRequestActor) :
    (S.Aggregate Y now).Ledger = S.Ledger := by
  unfold TSelfCheckRequestActor.Aggregate
  rw [AggregateBSControllerState_Ledger, AggregateHiveNodeStats_Ledger, AggregateHiveInfo_Ledger]

/-! ### ReplyAndPassAway and RequestDone on the members of the handlers -/

theorem ReplyAndPassAway_eq_Trim (X : TExternal) (S : TSelfCheckRequest) :
    ReplyAndPassAway X S = Trim S.Request
      (FillResult X { S with TabletRequests := MarkUnresponsive S.TabletRequests } {}).2.Result :=
  rfl

theorem ReplyAndPassAway_Own (Y : TActorExternal) (now : Nat) (S : TSelfCheckRequestActor) :
    (S.ReplyAndPassAway Y now).Ledger.Own = S.Ledger.Own := by
  have h := congrArg TLedger.Own (Aggregate_Ledger Y now S)
  exact h

theorem ReplyAndPassAway_PassedAway (Y : TActorExternal) (now : Nat)
    (S : TSelfCheckRequestActor) : (S.ReplyAndPassAway Y now).PassedAway = true := rfl

theorem ReplyAndPassAway_Responses (Y : TActorExternal) (now : Nat)
    (S : TSelfCheckRequestActor) :
    (S.ReplyAndPassAway Y now).Responses =
      S.Responses ++ [ReplyAndPassAway Y.toTExternal (S.Aggregate Y now).toTSelfCheckRequest] := by
  have h := congrArg TLedger.Responses (Aggregate_Ledger Y now S)
  have h2 : (S.Aggregate Y now).Responses = S.Responses := h
  show (S.Aggregate Y now).Responses ++ _ = _
  rw [h2]
  rfl

theorem RequestDone_Own (Y : TActorExternal) (now : TNow) (S : TSelfCheckRequestActor) :
    (S.RequestDone Y now).Ledger.Own = { S.Ledger.Own with Requests := S.Requests - 1 } := by
  unfold TSelfCheckRequestActor.RequestDone
  dsimp only
  split
  · rw [ReplyAndPassAway_Own]
    rfl
  · rfl

theorem RequestDone_Requests (Y : TActorExternal) (now : TNow) (S : TSelfCheckRequestActor) :
    (S.RequestDone Y now).Requests = S.Requests - 1 :=
  congrArg TOwn.Requests (RequestDone_Own Y now S)

theorem RequestDone_of_ne (Y : TActorExternal) (now : TNow) (S : TSelfCheckRequestActor)
    (h : S.Requests ≠ 1) : S.RequestDone Y now = { S with Requests := S.Requests - 1 } := by
  unfold TSelfCheckRequestActor.RequestDone
  dsimp only
  rw [if_neg]
  omega

/-! ### C23: the tablets with a request in flight -/

theorem foldl_MarkUnresponsive_find (L : List (Nat × TRequestState)) (t : TTabletRequestsState)
    (id : Nat) :
    THashMap.find (L.foldl
      (fun (t : TTabletRequestsState) entry =>
        { t with TabletStates :=
            (THashMap.set t.TabletStates entry.2.TabletId
              { (THashMap.find t.TabletStates entry.2.TabletId).getD {} with
                IsUnresponsive := true }) }) t).TabletStates id =
      if id ∈ L.map (fun entry => entry.2.TabletId) then
        some { (THashMap.find t.TabletStates id).getD {} with IsUnresponsive := true }
      else THashMap.find t.TabletStates id := by
  induction L generalizing t with
  | nil => simp
  | cons e L ih =>
    rw [List.foldl_cons, ih]
    dsimp only
    by_cases h1 : id = e.2.TabletId
    · subst h1
      simp [hfind_set_same]
    · rw [hfind_set_ne _ _ _ _ h1, List.map_cons]
      by_cases hm : id ∈ L.map (fun entry => entry.2.TabletId)
      · rw [if_pos hm, if_pos (List.mem_cons_of_mem _ hm)]
      · rw [if_neg hm, if_neg (by simp [h1, hm])]

theorem MarkUnresponsive_find (t : TTabletRequestsState) (id : Nat) :
    THashMap.find (MarkUnresponsive t).TabletStates id =
      if id ∈ t.InFlight then
        some { (THashMap.find t.TabletStates id).getD {} with IsUnresponsive := true }
      else THashMap.find t.TabletStates id :=
  foldl_MarkUnresponsive_find t.RequestsInFlight t id

theorem FillSystemTablets_unresponsive (X : TExternal) (S : TSelfCheckRequest)
    (context : TSelfCheckResult) (id : Nat) (st : TTabletState)
    (hm : (id, st) ∈ S.TabletRequests.TabletStates)
    (hd : st.Database = context.Location.database.name) (hu : st.IsUnresponsive = true) :
    ∃ r ∈ (FillSystemTablets X S context).IssueRecords,
      TabletIssueView r =
        (ETags.SystemTabletState, Status.RED, "System tablet is unresponsive", [toString id]) := by
  have h := (foldl_FillSystemTablet_view X context.Location.database.name
    S.TabletRequests.TabletStates context).1
  change (FillSystemTablets X S context).IssueRecords.map TabletIssueView = _ at h
  have hr : (id, Status.RED, "System tablet is unresponsive") ∈
      SystemTabletReports context.Location.database.name S.TabletRequests.TabletStates := by
    unfold SystemTabletReports
    rw [List.mem_filterMap]
    refine ⟨(id, st), List.mem_filter.2 ⟨hm, by simpa using hd⟩, ?_⟩
    simp [SystemTabletRule, hu]
  have hv : (ETags.SystemTabletState, Status.RED, "System tablet is unresponsive", [toString id]) ∈
      (FillSystemTablets X S context).IssueRecords.map TabletIssueView := by
    rw [h]
    refine List.mem_append_left _ (List.mem_reverse.2 ?_)
    exact List.mem_map.2 ⟨_, hr, rfl⟩
  obtain ⟨r, hr1, hr2⟩ := List.mem_map.1 hv
  exact ⟨r, hr1, hr2⟩

/-- C23: when the reply is assembled, by the deadline or by the last
answer, the response is the one evaluated on the request state in which
MarkUnresponsive has marked the tablets. In that state every tablet with a
request in flight has the state it had (a new one when it had none) with
IsUnresponsive = true, and every other tablet has the state it had; and
FillSystemTablets, called for the database of a marked tablet, reports the RED
issue "System tablet is unresponsive" with the id of that tablet. -/
theorem MarkUnresponsive_marks (X : TExternal) (S : TSelfCheckRequest) :
    (∀ id ∈ S.TabletRequests.InFlight,
      ∃ st, THashMap.find (MarkUnresponsive S.TabletRequests).TabletStates id = some st ∧
        st = { (THashMap.find S.TabletRequests.TabletStates id).getD {} with
          IsUnresponsive := true } ∧
        ∀ context : TSelfCheckResult, st.Database = context.Location.database.name →
          ∃ r ∈ (FillSystemTablets X
              { S with TabletRequests := MarkUnresponsive S.TabletRequests } context).IssueRecords,
            TabletIssueView r =
              (ETags.SystemTabletState, Status.RED, "System tablet is unresponsive",
                [toString id])) ∧
    (∀ id, id ∉ S.TabletRequests.InFlight →
      THashMap.find (MarkUnresponsive S.TabletRequests).TabletStates id =
        THashMap.find S.TabletRequests.TabletStates id) ∧
    ReplyAndPassAway X S = Trim S.Request
      (FillResult X { S with TabletRequests := MarkUnresponsive S.TabletRequests } {}).2.Result ∧
    (∀ (Y : TActorExternal) (now : TNow) (A : TSelfCheckRequestActor),
      (A.Aggregate Y now.Instant).TabletRequests = A.TabletRequests ∧
      (A.HandleTimeout Y now).Responses = A.Responses ++
        [ReplyAndPassAway Y.toTExternal (A.Aggregate Y now.Instant).toTSelfCheckRequest] ∧
      (A.Requests = 1 → (A.RequestDone Y now).Responses = A.Responses ++
        [ReplyAndPassAway Y.toTExternal
          (({ A with Requests := 0 } : TSelfCheckRequestActor).Aggregate Y
            now.Instant).toTSelfCheckRequest])) := by
  refine ⟨fun id hid => ?_, fun id hid => ?_, rfl, fun Y now A => ⟨?_, ?_, fun h1 => ?_⟩⟩
  · have hf := MarkUnresponsive_find S.TabletRequests id
    rw [if_pos hid] at hf
    refine ⟨_, hf, rfl, fun context hd => ?_⟩
    exact FillSystemTablets_unresponsive X
      { S with TabletRequests := MarkUnresponsive S.TabletRequests } context id _
      (hfind_mem _ _ _ hf) hd rfl
  · have hf := MarkUnresponsive_find S.TabletRequests id
    rw [if_neg hid] at hf
    exact hf
  · exact congrArg TLedger.TabletRequests (Aggregate_Ledger Y now.Instant A)
  · exact ReplyAndPassAway_Responses Y now.Instant A
  · unfold TSelfCheckRequestActor.RequestDone
    dsimp only
    rw [if_pos (by omega)]
    have e : ({ A with Requests := A.Requests - 1 } : TSelfCheckRequestActor) =
        { A with Requests := 0 } := by rw [h1]; rfl
    rw [e]
    exact ReplyAndPassAway_Responses Y now.Instant _

/-- C23 (an instance): with a request in flight to the scheme shard 73 of
"/Root" and none to the hive 72, the marking makes 73 unresponsive and leaves
72, and the system tablets of "/Root" get one RED issue, for tablet 73. -/
theorem MarkUnresponsive_marks_witness :
    73 ∈ exampleInFlight.TabletRequests.InFlight ∧
    72 ∉ exampleInFlight.TabletRequests.InFlight ∧
    (MarkUnresponsive exampleInFlight.TabletRequests).TabletStates =
      [(72, { Type_ := "Hive", Database := "/Root" }),
        (73, { Type_ := "SchemeShard", Database := "/Root", IsUnresponsive := true })] ∧
    (FillSystemTablets exampleExternal
      { exampleInFlight with TabletRequests := MarkUnresponsive exampleInFlight.TabletRequests }
      { Location := { database := { name := "/Root" } } }).IssueRecords.map TabletIssueView =
      [(ETags.SystemTabletState, Status.RED, "System tablet is unresponsive", ["73"])] ∧
    ∃ st, THashMap.find (MarkUnresponsive exampleInFlight.TabletRequests).TabletStates 73 =
      some st ∧ st.IsUnresponsive = true :=
  ⟨by decide, by decide, by decide, by decide,
    by
      obtain ⟨st, h1, h2, _⟩ :=
        (MarkUnresponsive_marks exampleExternal exampleInFlight).1 73 (by decide)
      exact ⟨st, h1, by rw [h2]⟩⟩

/-! ### The evaluation leaves the node sets -/

theorem FillStoragePool_NodeSets (X : TExternal) (st : TStorageLoopState) (poolName : String) :
    (FillStoragePool X st poolName).S.NodeSets = st.S.NodeSets := by
  unfold FillStoragePool
  split <;> rfl

theorem FillStorage_NodeSets (X : TExternal) (S : TSelfCheckRequest) (names : List String)
    (q u : Nat) (ss : StorageStatus) (c : TSelfCheckResult) :
    (FillStorage X S names q u ss c).1.NodeSets = S.NodeSets := by
  unfold FillStorage
  dsimp only
  split
  · rfl
  · exact foldl_preserves (fun st : TStorageLoopState => st.S.NodeSets = S.NodeSets)
      _ (fun st a hst => (FillStoragePool_NodeSets X st a).trans hst) _ _ rfl

theorem FillCompute_NodeSets (X : TExternal) (S : TSelfCheckRequest) (path : String)
    (cs : ComputeStatus) (c : TSelfCheckResult) :
    (FillCompute X S path cs c).1.NodeSets = S.NodeSets := by
  unfold FillCompute
  dsimp only
  split <;> rfl

theorem FillDatabaseContext_NodeSets (X : TExternal) (S : TSelfCheckRequest) (path : String) :
    (FillDatabaseContext X S path).1.NodeSets = S.NodeSets := by
  unfold FillDatabaseContext
  dsimp only
  rw [FillStorage_NodeSets, FillCompute_NodeSets]

theorem FillDatabaseResult_NodeSets (X : TExternal)
    (acc : TSelfCheckRequest × TOverallStateContext) (path : String) :
    (FillDatabaseResult X acc path).1.NodeSets = acc.1.NodeSets := by
  unfold FillDatabaseResult
  exact FillDatabaseContext_NodeSets X acc.1 path

theorem FillClockSkewResult_NodeSets (X : TExternal) (S : TSelfCheckRequest) (nodeId : Nat)
    (c : TSelfCheckResult) : (FillClockSkewResult X S nodeId c).1.NodeSets = S.NodeSets := by
  unfold FillClockSkewResult
  dsimp only
  split
  · split
    · split_ifs <;> (split <;> rfl)
    · rfl
  · rfl

theorem FillNodesSyncContext_NodeSets (X : TExternal) (S : TSelfCheckRequest) :
    (FillNodesSyncContext X S).1.NodeSets = S.NodeSets := by
  unfold FillNodesSyncContext
  dsimp only
  refine foldl_preserves
    (fun acc : TSelfCheckRequest × TSelfCheckResult => acc.1.NodeSets = S.NodeSets)
    _ ?_ _ _ rfl
  intro acc a h
  exact (FillClockSkewResult_NodeSets X acc.1 a _).trans h

theorem FillNodesSyncResult_NodeSets (X : TExternal)
    (acc : TSelfCheckRequest × TOverallStateContext) :
    (FillNodesSyncResult X acc).1.NodeSets = acc.1.NodeSets := by
  unfold FillNodesSyncResult
  exact FillNodesSyncContext_NodeSets X acc.1

theorem FillResultNoDatabase_NodeSets (X : TExternal)
    (acc : TSelfCheckRequest × TOverallStateContext) :
    (FillResultNoDatabase X acc).1.NodeSets = acc.1.NodeSets := by
  unfold FillResultNoDatabase
  split <;> rfl

theorem FillResultUnknownDatabase_NodeSets (X : TExternal)
    (acc : TSelfCheckRequest × TOverallStateContext) :
    (FillResultUnknownDatabase X acc).1.NodeSets = acc.1.NodeSets := by
  unfold FillResultUnknownDatabase
  split
  · dsimp only
    split
    · unfold FillUnknownStorageContext
      exact FillStorage_NodeSets X acc.1 _ X.UnknownQuota X.UnknownUsage {} _
    · rfl
  · rfl

theorem FillResult_NodeSets (X : TExternal) (S : TSelfCheckRequest)
    (context : TOverallStateContext) : (FillResult X S context).1.NodeSets = S.NodeSets := by
  unfold FillResult
  dsimp only
  rw [FillResultUnknownDatabase_NodeSets, FillResultNoDatabase_NodeSets,
    FillNodesSyncResult_NodeSets]
  split
  · rw [FillDatabaseResult_NodeSets]
    rfl
  · exact foldl_preserves
      (fun acc : TSelfCheckRequest × TOverallStateContext => acc.1.NodeSets = S.NodeSets)
      _ (fun acc a h => (FillDatabaseResult_NodeSets X acc a).trans h) _ _ rfl

theorem ReplyAndPassAway_NodeSets (Y : TActorExternal) (now : Nat)
    (S : TSelfCheckRequestActor) :
    (S.ReplyAndPassAway Y now).NodeSets = S.NodeSets := by
  have h1 : (S.ReplyAndPassAway Y now).NodeSets =
      (FillResult Y.toTExternal (S.Evaluated Y now).toTSelfCheckRequest {}).1.NodeSets := rfl
  rw [h1, FillResult_NodeSets]
  have h2 := Aggregate_Ledger Y now S
  have h3 : (S.Evaluated Y now).NodeSets = (S.Aggregate Y now).NodeSets := rfl
  rw [h3]
  exact Prod.ext (congrArg TLedger.NodeIds h2) (congrArg TLedger.UnavailableStorageNodes h2)

theorem RequestDone_NodeSets (Y : TActorExternal) (now : TNow) (S : TSelfCheckRequestActor) :
    (S.RequestDone Y now).NodeSets = S.NodeSets := by
  unfold TSelfCheckRequestActor.RequestDone
  dsimp only
  split
  · rw [ReplyAndPassAway_NodeSets]
  · rfl

/-! ### C24: the deadline and the nodes that have not answered -/

/-- C24 (what holds instead): the deadline adds no node to the unavailable
sets. HandleTimeout evaluates the report on the request state in which the
unavailable storage nodes and the unavailable compute nodes are the ones
the actor had when the deadline fired, and they are the same afterwards; so
a node with a pending whiteboard request is in one of the sets when the
report is evaluated only if it was there before. -/
theorem HandleTimeout_unavailable (Y : TActorExternal) (now : TNow)
    (A : TSelfCheckRequestActor) :
    (A.Evaluated Y now.Instant).UnavailableStorageNodes = A.UnavailableStorageNodes ∧
    (A.Evaluated Y now.Instant).UnavailableComputeNodes = A.UnavailableComputeNodes ∧
    (A.HandleTimeout Y now).Responses = A.Responses ++
      [Trim A.Request
        (FillResult Y.toTExternal (A.Evaluated Y now.Instant).toTSelfCheckRequest {}).2.Result] ∧
    (A.HandleTimeout Y now).UnavailableStorageNodes = A.UnavailableStorageNodes ∧
    (A.HandleTimeout Y now).UnavailableComputeNodes = A.UnavailableComputeNodes := by
  have h := Aggregate_Ledger Y now.Instant A
  refine ⟨congrArg TLedger.UnavailableStorageNodes h,
    congrArg TLedger.UnavailableComputeNodes h, ?_, ?_, ?_⟩
  · have h2 : (A.Aggregate Y now.Instant).Responses = A.Responses :=
      congrArg TLedger.Responses h
    have h3 : (A.Aggregate Y now.Instant).Request = A.Request := congrArg TLedger.Request h
    show (A.Aggregate Y now.Instant).Responses ++
      [Trim (A.Aggregate Y now.Instant).Request _] = _
    rw [h2, h3]
  · exact congrArg Prod.snd (ReplyAndPassAway_NodeSets Y now.Instant A)
  · exact congrArg TOwn.UnavailableComputeNodes (ReplyAndPassAway_Own Y now.Instant A)

/-- C24 (counterexample): node 1 was asked as a storage node, none of its
four whiteboard requests has an answer or has been retried, and the deadline
fires: the report is evaluated with both unavailable sets empty, and the
actor is gone with one response sent. -/
theorem pending_node_not_unavailable :
    1 ∈ examplePendingNode.NodeIds ∧ 1 ∈ examplePendingNode.StorageNodeIds ∧
    examplePendingNode.Sent =
      [(1, EEv.EvSystemStateRequest), (1, EEv.EvVDiskStateRequest),
        (1, EEv.EvPDiskStateRequest), (1, EEv.EvBSGroupStateRequest)] ∧
    examplePendingNode.NodeSystemState = [] ∧ examplePendingNode.NodeVDiskState = [] ∧
    examplePendingNode.NodePDiskState = [] ∧ examplePendingNode.NodeBSGroupState = [] ∧
    examplePendingNode.NodeRetries = [] ∧
    (examplePendingNode.Evaluated exampleActorExternal 0).UnavailableComputeNodes = [] ∧
    (examplePendingNode.Evaluated exampleActorExternal 0).UnavailableStorageNodes = [] ∧
    (examplePendingNode.HandleTimeout exampleActorExternal {}).PassedAway = true ∧
    (examplePendingNode.HandleTimeout exampleActorExternal {}).Responses.length = 1 := by
  refine ⟨by decide, by decide, by decide, by decide, by decide, by decide, by decide,
    by decide, by decide, by decide, rfl, ?_⟩
  have h := ReplyAndPassAway_Responses exampleActorExternal 0 examplePendingNode
  have e : (examplePendingNode.HandleTimeout exampleActorExternal {}).Responses =
      (examplePendingNode.ReplyAndPassAway exampleActorExternal 0).Responses := rfl
  rw [e, h]
  rfl

/-! ### C28: asking a node twice -/

theorem RequestGenericNode_Own (S : TSelfCheckRequestActor) (n : Nat) :
    (S.RequestGenericNode n).StorageNodeIds = S.StorageNodeIds ∧
    (S.RequestGenericNode n).ComputeNodeIds = S.ComputeNodeIds := by
  unfold TSelfCheckRequestActor.RequestGenericNode
  split <;> exact ⟨rfl, rfl⟩

theorem RequestGenericNode_mem (S : TSelfCheckRequestActor) (n : Nat) :
    n ∈ (S.RequestGenericNode n).NodeIds := by
  unfold TSelfCheckRequestActor.RequestGenericNode
  split
  · exact List.mem_append_right _ (List.mem_singleton.2 rfl)
  · rename_i h
    exact Classical.not_not.1 h

theorem RequestStorageNode_mem (S : TSelfCheckRequestActor) (n : Nat) :
    n ∈ (S.RequestStorageNode n).StorageNodeIds := by
  unfold TSelfCheckRequestActor.RequestStorageNode
  split
  · show n ∈ (TSelfCheckRequestActor.RequestGenericNode _ n).StorageNodeIds
    rw [(RequestGenericNode_Own _ n).1]
    exact List.mem_append_right _ (List.mem_singleton.2 rfl)
  · rename_i h
    exact Classical.not_not.1 h

theorem RequestComputeNode_mem (S : TSelfCheckRequestActor) (n : Nat) :
    n ∈ (S.RequestComputeNode n).ComputeNodeIds := by
  unfold TSelfCheckRequestActor.RequestComputeNode
  split
  · show n ∈ (TSelfCheckRequestActor.RequestGenericNode _ n).ComputeNodeIds
    rw [(RequestGenericNode_Own _ n).2]
    exact List.mem_append_right _ (List.mem_singleton.2 rfl)
  · rename_i h
    exact Classical.not_not.1 h

theorem RequestStorageNode_of_mem (S : TSelfCheckRequestActor) (n : Nat)
    (h : n ∈ S.StorageNodeIds) : S.RequestStorageNode n = S := by
  unfold TSelfCheckRequestActor.RequestStorageNode
  rw [if_neg (fun h2 => h2 h)]

theorem RequestComputeNode_of_mem (S : TSelfCheckRequestActor) (n : Nat)
    (h : n ∈ S.ComputeNodeIds) : S.RequestComputeNode n = S := by
  unfold TSelfCheckRequestActor.RequestComputeNode
  rw [if_neg (fun h2 => h2 h)]

/-- What the calls of RequestComputeNode and RequestStorageNode keep: a node
has one system state request among the requests sent when it is in NodeIds,
and none otherwise. -/
theorem RequestGenericNode_count (S : TSelfCheckRequestActor) (n m : Nat)
    (h : S.Sent.count (m, EEv.EvSystemStateRequest) = if m ∈ S.NodeIds then 1 else 0) :
    (S.RequestGenericNode n).Sent.count (m, EEv.EvSystemStateRequest) =
      if m ∈ (S.RequestGenericNode n).NodeIds then 1 else 0 := by
  unfold TSelfCheckRequestActor.RequestGenericNode
  split
  · rename_i hn
    show List.count (m, EEv.EvSystemStateRequest) (S.Sent ++ [(n, EEv.EvSystemStateRequest)]) =
      if m ∈ S.NodeIds ++ [n] then 1 else 0
    rw [List.count_append, h]
    by_cases hm : m = n
    · subst hm
      simp [hn]
    · have hm2 : ¬ n = m := fun e => hm e.symm
      have hc : List.count (m, EEv.EvSystemStateRequest) [(n, EEv.EvSystemStateRequest)] = 0 := by
        rw [List.count_eq_zero]
        simp [hm]
      rw [hc]
      by_cases hmem : m ∈ S.NodeIds <;> simp [hmem, hm]
  · exact h

theorem RequestComputeNode_count (S : TSelfCheckRequestActor) (n m : Nat)
    (h : S.Sent.count (m, EEv.EvSystemStateRequest) = if m ∈ S.NodeIds then 1 else 0) :
    (S.RequestComputeNode n).Sent.count (m, EEv.EvSystemStateRequest) =
      if m ∈ (S.RequestComputeNode n).NodeIds then 1 else 0 := by
  unfold TSelfCheckRequestActor.RequestComputeNode
  split
  · exact RequestGenericNode_count _ n m h
  · exact h

theorem RequestStorageNode_count (S : TSelfCheckRequestActor) (n m : Nat)
    (h : S.Sent.count (m, EEv.EvSystemStateRequest) = if m ∈ S.NodeIds then 1 else 0) :
    (S.RequestStorageNode n).Sent.count (m, EEv.EvSystemStateRequest) =
      if m ∈ (S.RequestStorageNode n).NodeIds then 1 else 0 := by
  unfold TSelfCheckRequestActor.RequestStorageNode
  split
  · have h2 := RequestGenericNode_count
      ({ S with StorageNodeIds := S.StorageNodeIds ++ [n] } : TSelfCheckRequestActor) n m h
    show List.count (m, EEv.EvSystemStateRequest)
      ((TSelfCheckRequestActor.RequestGenericNode _ n).Sent ++ [(n, EEv.EvVDiskStateRequest)] ++
        [(n, EEv.EvPDiskStateRequest)] ++ [(n, EEv.EvBSGroupStateRequest)]) =
      if m ∈ (TSelfCheckRequestActor.RequestGenericNode _ n).NodeIds then 1 else 0
    rw [List.count_append, List.count_append, List.count_append, h2]
    have c1 : List.count (m, EEv.EvSystemStateRequest) [(n, EEv.EvVDiskStateRequest)] = 0 := by
      rw [List.count_eq_zero]; simp
    have c2 : List.count (m, EEv.EvSystemStateRequest) [(n, EEv.EvPDiskStateRequest)] = 0 := by
      rw [List.count_eq_zero]; simp
    have c3 : List.count (m, EEv.EvSystemStateRequest) [(n, EEv.EvBSGroupStateRequest)] = 0 := by
      rw [List.count_eq_zero]; simp
    rw [c1, c2, c3]
    rfl
  · exact h

theorem RequestNodes_count (calls : List (Bool × Nat)) (S : TSelfCheckRequestActor) (m : Nat)
    (h : S.Sent.count (m, EEv.EvSystemStateRequest) = if m ∈ S.NodeIds then 1 else 0) :
    (RequestNodes S calls).Sent.count (m, EEv.EvSystemStateRequest) =
      if m ∈ (RequestNodes S calls).NodeIds then 1 else 0 := by
  unfold RequestNodes
  refine foldl_preserves
    (fun A : TSelfCheckRequestActor =>
      A.Sent.count (m, EEv.EvSystemStateRequest) = if m ∈ A.NodeIds then 1 else 0) _ ?_ _ _ h
  intro A c hA
  dsimp only
  split
  · exact RequestStorageNode_count A c.2 m hA
  · exact RequestComputeNode_count A c.2 m hA

/-- C28: RequestStorageNode and RequestComputeNode are idempotent per node:
a second call with the same node id leaves the whole actor as the first call
left it. For a node in none of the node sets, RequestComputeNode raises the
outstanding counter by 1 and sends the system state request, and
RequestStorageNode raises it by 4 and sends the system, vdisk, pdisk and
bsgroup state requests; for a node that is in NodeIds already (asked as a
compute node) and not a storage node yet, RequestStorageNode raises the
counter by 3 and sends the three storage requests only. After any sequence
of the two calls on an actor that has sent nothing, every node has at most one
system state request among the requests sent. -/
theorem RequestNode_idempotent (S : TSelfCheckRequestActor) (n : Nat) :
    (S.RequestStorageNode n).RequestStorageNode n = S.RequestStorageNode n ∧
    (S.RequestComputeNode n).RequestComputeNode n = S.RequestComputeNode n ∧
    (n ∉ S.NodeIds → n ∉ S.ComputeNodeIds →
      (S.RequestComputeNode n).Requests = S.Requests + 1 ∧
      (S.RequestComputeNode n).Sent = S.Sent ++ [(n, EEv.EvSystemStateRequest)]) ∧
    (n ∉ S.NodeIds → n ∉ S.StorageNodeIds →
      (S.RequestStorageNode n).Requests = S.Requests + 4 ∧
      (S.RequestStorageNode n).Sent = S.Sent ++
        [(n, EEv.EvSystemStateRequest), (n, EEv.EvVDiskStateRequest),
          (n, EEv.EvPDiskStateRequest), (n, EEv.EvBSGroupStateRequest)]) ∧
    (n ∈ S.NodeIds → n ∉ S.StorageNodeIds →
      (S.RequestStorageNode n).Requests = S.Requests + 3 ∧
      (S.RequestStorageNode n).Sent = S.Sent ++
        [(n, EEv.EvVDiskStateRequest), (n, EEv.EvPDiskStateRequest),
          (n, EEv.EvBSGroupStateRequest)]) ∧
    (n ∉ S.NodeIds → n ∉ S.ComputeNodeIds → n ∉ S.StorageNodeIds →
      ((S.RequestComputeNode n).RequestStorageNode n).Requests =
        (S.RequestComputeNode n).Requests + 3) ∧
    (S.Sent = [] → S.NodeIds = [] → ∀ calls : List (Bool × Nat),
      (RequestNodes S calls).Sent.count (n, EEv.EvSystemStateRequest) ≤ 1) := by
  refine ⟨?_, ?_, fun h1 h2 => ?_, fun h1 h2 => ?_, fun h1 h2 => ?_, fun h1 h2 h3 => ?_,
    fun h1 h2 calls => ?_⟩
  · exact RequestStorageNode_of_mem _ n (RequestStorageNode_mem S n)
  · exact RequestComputeNode_of_mem _ n (RequestComputeNode_mem S n)
  · unfold TSelfCheckRequestActor.RequestComputeNode
    rw [if_pos h2]
    unfold TSelfCheckRequestActor.RequestGenericNode
    rw [if_pos h1]
    exact ⟨rfl, rfl⟩
  · unfold TSelfCheckRequestActor.RequestStorageNode
    rw [if_pos h2]
    unfold TSelfCheckRequestActor.RequestGenericNode
    dsimp only
    rw [if_pos h1]
    refine ⟨?_, ?_⟩
    · show S.Requests + 1 + 1 + 1 + 1 = S.Requests + 4
      omega
    · show S.Sent ++ [(n, EEv.EvSystemStateRequest)] ++ [(n, EEv.EvVDiskStateRequest)] ++
        [(n, EEv.EvPDiskStateRequest)] ++ [(n, EEv.EvBSGroupStateRequest)] = _
      simp
  · unfold TSelfCheckRequestActor.RequestStorageNode
    rw [if_pos h2]
    unfold TSelfCheckRequestActor.RequestGenericNode
    dsimp only
    rw [if_neg (fun h => h h1)]
    refine ⟨?_, ?_⟩
    · show S.Requests + 1 + 1 + 1 = S.Requests + 3
      omega
    · show S.Sent ++ [(n, EEv.EvVDiskStateRequest)] ++
        [(n, EEv.EvPDiskStateRequest)] ++ [(n, EEv.EvBSGroupStateRequest)] = _
      simp
  · have hs : n ∉ (S.RequestComputeNode n).StorageNodeIds := by
      unfold TSelfCheckRequestActor.RequestComputeNode
      rw [if_pos h2]
      rw [(RequestGenericNode_Own _ n).1]
      exact h3
    have hn : n ∈ (S.RequestComputeNode n).NodeIds := by
      unfold TSelfCheckRequestActor.RequestComputeNode
      rw [if_pos h2]
      exact RequestGenericNode_mem _ n
    unfold TSelfCheckRequestActor.RequestStorageNode
    rw [if_pos hs]
    unfold TSelfCheckRequestActor.RequestGenericNode
    dsimp only
    rw [if_neg (fun h => h hn)]
    show (S.RequestComputeNode n).Requests + 1 + 1 + 1 = _
    omega
  · have h := RequestNodes_count calls S n (by rw [h1, h2]; rfl)
    rw [h]
    split <;> omega

/-- C28 (an instance): node 5 on the actor that waits for seven answers and
has asked only node 1, and a sequence of five calls on an actor that has
asked no node. -/
theorem RequestNode_idempotent_witness :
    (5 ∉ exampleRetriesUsed.ComputeNodeIds ∧ 5 ∉ exampleRetriesUsed.NodeIds ∧
      5 ∉ exampleRetriesUsed.StorageNodeIds) ∧
    (exampleRetriesUsed.RequestComputeNode 5).Requests = exampleRetriesUsed.Requests + 1 ∧
    (exampleRetriesUsed.RequestStorageNode 5).Requests = exampleRetriesUsed.Requests + 4 ∧
    ((exampleRetriesUsed.RequestComputeNode 5).RequestStorageNode 5).Requests =
      exampleRetriesUsed.Requests + 4 ∧
    (RequestNodes {} [(false, 5), (true, 5), (true, 5), (false, 5), (true, 6)]).Requests = 8 ∧
    (RequestNodes {} [(false, 5), (true, 5), (true, 5), (false, 5), (true, 6)]).Sent.count
      (5, EEv.EvSystemStateRequest) ≤ 1 :=
  ⟨by decide,
    ((RequestNode_idempotent exampleRetriesUsed 5).2.2.1 (by decide) (by decide)).1,
    ((RequestNode_idempotent exampleRetriesUsed 5).2.2.2.1 (by decide) (by decide)).1,
    by decide, by decide,
    (RequestNode_idempotent {} 5).2.2.2.2.2.2 rfl rfl _⟩

/-! ### RetryRequestNodeWhiteboard -/

theorem Retry_false (S : TSelfCheckRequestActor) (ev : EEv) (n : Nat)
    (h : 3 ≤ S.Retries ev n) :
    S.RetryRequestNodeWhiteboard ev n =
      (false, { S with
        NodeRetries := THashMap.set S.NodeRetries (n, ev) ((S.Retries ev n + 1) % 2 ^ 32) }) := by
  unfold TSelfCheckRequestActor.RetryRequestNodeWhiteboard MaxRetries
  unfold TSelfCheckRequestActor.Retries at h
  dsimp only
  rw [if_neg (by omega)]
  rfl

theorem Retry_true (S : TSelfCheckRequestActor) (ev : EEv) (n : Nat)
    (h : S.Retries ev n < 3) :
    S.RetryRequestNodeWhiteboard ev n =
      (true, { S with
        NodeRetries := THashMap.set S.NodeRetries (n, ev) ((S.Retries ev n + 1) % 2 ^ 32)
        Scheduled := S.Scheduled ++ [(n, ev)] }) := by
  unfold TSelfCheckRequestActor.RetryRequestNodeWhiteboard MaxRetries
  unfold TSelfCheckRequestActor.Retries at h
  dsimp only
  rw [if_pos h]
  rfl

/-! ### C27: answers that are not awaited -/

theorem StoreSystemState_Own (S : TSelfCheckRequestActor) (n : Nat)
    (info : List TSystemStateInfo) :
    (S.StoreSystemState n info).Ledger.Own =
      { S.Ledger.Own with
        NodeSystemState := THashMap.set S.NodeSystemState n
          (some (info.map (fun state => { state with nodeid := n }))) } := by
  unfold TSelfCheckRequestActor.StoreSystemState
  dsimp only
  refine foldl_preserves (fun B : TSelfCheckRequestActor => B.Ledger.Own = _) _ ?_ _ _ rfl
  intro B a hB
  exact hB

theorem StoreVDiskState_Own (S : TSelfCheckRequestActor) (n : Nat)
    (info : List TVDiskStateInfo) :
    (S.StoreVDiskState n info).Ledger.Own =
      { S.Ledger.Own with
        NodeVDiskState := THashMap.set S.NodeVDiskState n
          (some (info.map (fun state => { state with nodeid := n }))) } := by
  unfold TSelfCheckRequestActor.StoreVDiskState
  dsimp only
  refine foldl_preserves (fun B : TSelfCheckRequestActor => B.Ledger.Own = _) _ ?_ _ _ rfl
  intro B a hB
  exact hB

theorem StorePDiskState_Own (S : TSelfCheckRequestActor) (n : Nat)
    (info : List TPDiskStateInfo) :
    (S.StorePDiskState n info).Ledger.Own =
      { S.Ledger.Own with
        NodePDiskState := THashMap.set S.NodePDiskState n
          (some (info.map (fun state => { state with nodeid := n }))) } := by
  unfold TSelfCheckRequestActor.StorePDiskState
  dsimp only
  refine foldl_preserves (fun B : TSelfCheckRequestActor => B.Ledger.Own = _) _ ?_ _ _ rfl
  intro B a hB
  exact hB

theorem MergeBSGroupState_Own (Y : TActorExternal) (S : TSelfCheckRequestActor)
    (state : TBSGroupStateInfo) : (S.MergeBSGroupState Y state).Ledger.Own = S.Ledger.Own := by
  unfold TSelfCheckRequestActor.MergeBSGroupState
  dsimp only
  split <;> (split <;> (try split) <;> rfl)

theorem StoreBSGroupState_Own (Y : TActorExternal) (S : TSelfCheckRequestActor) (n : Nat)
    (info : List TBSGroupStateInfo) :
    (S.StoreBSGroupState Y n info).Ledger.Own =
      { S.Ledger.Own with
        NodeBSGroupState := THashMap.set S.NodeBSGroupState n
          (some (info.map (fun state => { state with nodeid := n }))) } := by
  unfold TSelfCheckRequestActor.StoreBSGroupState
  dsimp only
  refine foldl_preserves (fun B : TSelfCheckRequestActor => B.Ledger.Own = _) _ ?_ _ _ rfl
  intro B a hB
  exact (MergeBSGroupState_Own Y B a).trans hB

/-- C27 (what holds instead): a whiteboard response whose cookie is a node
id that has a record of that type already (an earlier response, or the end
of the retries) is ignored: the handler leaves the whole actor as it is. A
response whose cookie is a node id without a record of that type is taken,
whether the node was asked or not: the outstanding counter goes down by one
and the node gets its record. -/
theorem duplicate_response_ignored (Y : TActorExternal) (now : TNow)
    (S : TSelfCheckRequestActor) (Cookie : Nat) :
    (Cookie % 2 ^ 32 ∈ S.NodeSystemState.map Prod.fst →
      ∀ info, S.HandleSystemStateResponse Y now Cookie info = S) ∧
    (Cookie % 2 ^ 32 ∈ S.NodeVDiskState.map Prod.fst →
      ∀ info, S.HandleVDiskStateResponse Y now Cookie info = S) ∧
    (Cookie % 2 ^ 32 ∈ S.NodePDiskState.map Prod.fst →
      ∀ info, S.HandlePDiskStateResponse Y now Cookie info = S) ∧
    (Cookie % 2 ^ 32 ∈ S.NodeBSGroupState.map Prod.fst →
      ∀ info, S.HandleBSGroupStateResponse Y now Cookie info = S) ∧
    (Cookie % 2 ^ 32 ∉ S.NodeSystemState.map Prod.fst → ∀ info,
      (S.HandleSystemStateResponse Y now Cookie info).Requests = S.Requests - 1 ∧
      Cookie % 2 ^ 32 ∈ (S.HandleSystemStateResponse Y now Cookie info).NodeSystemState.map
        Prod.fst) ∧
    (Cookie % 2 ^ 32 ∉ S.NodeVDiskState.map Prod.fst → ∀ info,
      (S.HandleVDiskStateResponse Y now Cookie info).Requests = S.Requests - 1 ∧
      Cookie % 2 ^ 32 ∈ (S.HandleVDiskStateResponse Y now Cookie info).NodeVDiskState.map
        Prod.fst) ∧
    (Cookie % 2 ^ 32 ∉ S.NodePDiskState.map Prod.fst → ∀ info,
      (S.HandlePDiskStateResponse Y now Cookie info).Requests = S.Requests - 1 ∧
      Cookie % 2 ^ 32 ∈ (S.HandlePDiskStateResponse Y now Cookie info).NodePDiskState.map
        Prod.fst) ∧
    (Cookie % 2 ^ 32 ∉ S.NodeBSGroupState.map Prod.fst → ∀ info,
      (S.HandleBSGroupStateResponse Y now Cookie info).Requests = S.Requests - 1 ∧
      Cookie % 2 ^ 32 ∈ (S.HandleBSGroupStateResponse Y now Cookie info).NodeBSGroupState.map
        Prod.fst) := by
  refine ⟨fun h info => ?_, fun h info => ?_, fun h info => ?_, fun h info => ?_,
    fun h info => ?_, fun h info => ?_, fun h info => ?_, fun h info => ?_⟩
  · unfold TSelfCheckRequestActor.HandleSystemStateResponse
    dsimp only
    rw [if_neg (fun h2 => h2 h)]
  · unfold TSelfCheckRequestActor.HandleVDiskStateResponse
    dsimp only
    rw [if_neg (fun h2 => h2 h)]
  · unfold TSelfCheckRequestActor.HandlePDiskStateResponse
    dsimp only
    rw [if_neg (fun h2 => h2 h)]
  · unfold TSelfCheckRequestActor.HandleBSGroupStateResponse
    dsimp only
    rw [if_neg (fun h2 => h2 h)]
  · unfold TSelfCheckRequestActor.HandleSystemStateResponse
    dsimp only
    rw [if_pos h]
    have h1 := RequestDone_Own Y now (S.StoreSystemState (Cookie % 2 ^ 32) info)
    have h2 := StoreSystemState_Own S (Cookie % 2 ^ 32) info
    refine ⟨?_, ?_⟩
    · rw [RequestDone_Requests]
      exact congrArg (fun x : Int => x - 1) (congrArg TOwn.Requests h2)
    have e3 : ((S.StoreSystemState (Cookie % 2 ^ 32) info).RequestDone Y now).NodeSystemState =
        (S.StoreSystemState (Cookie % 2 ^ 32) info).NodeSystemState := congrArg TOwn.NodeSystemState h1
    have e4 : (S.StoreSystemState (Cookie % 2 ^ 32) info).NodeSystemState = THashMap.set S.NodeSystemState (Cookie % 2 ^ 32) _ :=
      congrArg TOwn.NodeSystemState h2
    rw [e3, e4]
    exact (hmem_keys_set _ _ _ _).2 (Or.inl rfl)
  · unfold TSelfCheckRequestActor.HandleVDiskStateResponse
    dsimp only
    rw [if_pos h]
    have h1 := RequestDone_Own Y now (S.StoreVDiskState (Cookie % 2 ^ 32) info)
    have h2 := StoreVDiskState_Own S (Cookie % 2 ^ 32) info
    refine ⟨?_, ?_⟩
    · rw [RequestDone_Requests]
      exact congrArg (fun x : Int => x - 1) (congrArg TOwn.Requests h2)
    have e3 : ((S.StoreVDiskState (Cookie % 2 ^ 32) info).RequestDone Y now).NodeVDiskState =
        (S.StoreVDiskState (Cookie % 2 ^ 32) info).NodeVDiskState := congrArg TOwn.NodeVDiskState h1
    have e4 : (S.StoreVDiskState (Cookie % 2 ^ 32) info).NodeVDiskState = THashMap.set S.NodeVDiskState (Cookie % 2 ^ 32) _ :=
      congrArg TOwn.NodeVDiskState h2
    rw [e3, e4]
    exact (hmem_keys_set _ _ _ _).2 (Or.inl rfl)
  · unfold TSelfCheckRequestActor.HandlePDiskStateResponse
    dsimp only
    rw [if_pos h]
    have h1 := RequestDone_Own Y now (S.StorePDiskState (Cookie % 2 ^ 32) info)
    have h2 := StorePDiskState_Own S (Cookie % 2 ^ 32) info
    refine ⟨?_, ?_⟩
    · rw [RequestDone_Requests]
      exact congrArg (fun x : Int => x - 1) (congrArg TOwn.Requests h2)
    have e3 : ((S.StorePDiskState (Cookie % 2 ^ 32) info).RequestDone Y now).NodePDiskState =
        (S.StorePDiskState (Cookie % 2 ^ 32) info).NodePDiskState := congrArg TOwn.NodePDiskState h1
    have e4 : (S.StorePDiskState (Cookie % 2 ^ 32) info).NodePDiskState = THashMap.set S.NodePDiskState (Cookie % 2 ^ 32) _ :=
      congrArg TOwn.NodePDiskState h2
    rw [e3, e4]
    exact (hmem_keys_set _ _ _ _).2 (Or.inl rfl)
  · unfold TSelfCheckRequestActor.HandleBSGroupStateResponse
    dsimp only
    rw [if_pos h]
    have h1 := RequestDone_Own Y now (S.StoreBSGroupState Y (Cookie % 2 ^ 32) info)
    have h2 := StoreBSGroupState_Own Y S (Cookie % 2 ^ 32) info
    refine ⟨?_, ?_⟩
    · rw [RequestDone_Requests]
      exact congrArg (fun x : Int => x - 1) (congrArg TOwn.Requests h2)
    have e3 : ((S.StoreBSGroupState Y (Cookie % 2 ^ 32) info).RequestDone Y now).NodeBSGroupState =
        (S.StoreBSGroupState Y (Cookie % 2 ^ 32) info).NodeBSGroupState := congrArg TOwn.NodeBSGroupState h1
    have e4 : (S.StoreBSGroupState Y (Cookie % 2 ^ 32) info).NodeBSGroupState = THashMap.set S.NodeBSGroupState (Cookie % 2 ^ 32) _ :=
      congrArg TOwn.NodeBSGroupState h2
    rw [e3, e4]
    exact (hmem_keys_set _ _ _ _).2 (Or.inl rfl)

/-- C27 (an instance): node 1 of the actor that has used the retries of the
bsgroup request has no record, its response is taken; a second response with
the same cookie changes nothing. -/
theorem duplicate_response_ignored_witness :
    1 % 2 ^ 32 ∉ exampleRetriesUsed.NodeBSGroupState.map Prod.fst ∧
    (exampleRetriesUsed.HandleBSGroupStateResponse exampleActorExternal {} 1
      [{ groupid := 9 }]).Requests = exampleRetriesUsed.Requests - 1 ∧
    (exampleRetriesUsed.HandleBSGroupStateResponse exampleActorExternal {} 1
        [{ groupid := 9 }]).HandleBSGroupStateResponse exampleActorExternal {} 1
        [{ groupid := 9, groupgeneration := 2 }] =
      exampleRetriesUsed.HandleBSGroupStateResponse exampleActorExternal {} 1
        [{ groupid := 9 }] :=
  ⟨by decide,
    ((duplicate_response_ignored exampleActorExternal {} exampleRetriesUsed 1).2.2.2.2.2.2.2
      (by decide) _).1,
    (duplicate_response_ignored exampleActorExternal {} _ 1).2.2.2.1
      (((duplicate_response_ignored exampleActorExternal {} exampleRetriesUsed 1).2.2.2.2.2.2.2
        (by decide) _).2) _⟩

/-- C27 (counterexample): the actor waits for two answers and has asked no
node. A system state response with the cookie 7 is taken: the outstanding
counter goes down to 1, and node 7 is in the merged system states; likewise
a pdisk state response with the cookie 7 puts the pdisk "7-1" into the merged
pdisk states. -/
theorem unrequested_response_taken :
    exampleNoNode.NodeIds = [] ∧ exampleNoNode.StorageNodeIds = [] ∧
    exampleNoNode.Sent = [] ∧ exampleNoNode.Requests = 2 ∧
    (exampleNoNode.HandleSystemStateResponse exampleActorExternal {} 7 [{}]).Requests = 1 ∧
    (exampleNoNode.HandleSystemStateResponse exampleActorExternal {} 7
      [{}]).MergedNodeSystemState.map Prod.fst = [7] ∧
    (exampleNoNode.HandlePDiskStateResponse exampleActorExternal {} 7
      [{ pdiskid := 1 }]).Requests = 1 ∧
    (exampleNoNode.HandlePDiskStateResponse exampleActorExternal {} 7
      [{ pdiskid := 1 }]).MergedPDiskState.map (fun e => e.2.nodeid) = [7] := by
  refine ⟨rfl, rfl, rfl, rfl, by decide, by decide, by decide, by decide⟩

/-! ### C26: the end of the retries -/

theorem HandleUndelivered_eq (Y : TActorExternal) (now : TNow) (S : TSelfCheckRequestActor)
    (Cookie : Nat) :
    S.HandleUndelivered Y now Cookie EEv.EvSystemStateRequest =
      S.FailedSystemState Y now (Cookie % 2 ^ 32) ∧
    S.HandleUndelivered Y now Cookie EEv.EvVDiskStateRequest =
      S.FailedVDiskState Y now (Cookie % 2 ^ 32) ∧
    S.HandleUndelivered Y now Cookie EEv.EvPDiskStateRequest =
      S.FailedPDiskState Y now (Cookie % 2 ^ 32) ∧
    S.HandleUndelivered Y now Cookie EEv.EvBSGroupStateRequest =
      S.FailedBSGroupState Y now (Cookie % 2 ^ 32) ∧
    S.HandleUndelivered Y now Cookie EEv.EvOther = S :=
  ⟨rfl, rfl, rfl, rfl, rfl⟩

theorem FailedSystemState_used (Y : TActorExternal) (now : TNow) (S : TSelfCheckRequestActor)
    (n : Nat) (h1 : n ∈ S.NodeIds) (h2 : n ∉ S.NodeSystemState.map Prod.fst)
    (h3 : 3 ≤ S.Retries EEv.EvSystemStateRequest n) :
    S.FailedSystemState Y now n =
      { (TSelfCheckRequestActor.RequestDone Y now
          { S with
            NodeRetries := THashMap.set S.NodeRetries (n, EEv.EvSystemStateRequest)
              ((S.Retries EEv.EvSystemStateRequest n + 1) % 2 ^ 32)
            NodeSystemState := THashMap.emplace S.NodeSystemState n none }) with
        UnavailableComputeNodes := TNodeSetInsert
          (TSelfCheckRequestActor.RequestDone Y now
            { S with
              NodeRetries := THashMap.set S.NodeRetries (n, EEv.EvSystemStateRequest)
                ((S.Retries EEv.EvSystemStateRequest n + 1) % 2 ^ 32)
              NodeSystemState := THashMap.emplace S.NodeSystemState n none }).UnavailableComputeNodes
          n } := by
  unfold TSelfCheckRequestActor.FailedSystemState
  rw [if_pos ⟨h1, h2⟩, Retry_false S _ n h3]
  rfl

theorem FailedVDiskState_used (Y : TActorExternal) (now : TNow) (S : TSelfCheckRequestActor)
    (n : Nat) (h1 : n ∈ S.StorageNodeIds) (h2 : n ∉ S.NodeVDiskState.map Prod.fst)
    (h3 : 3 ≤ S.Retries EEv.EvVDiskStateRequest n) :
    S.FailedVDiskState Y now n =
      { (TSelfCheckRequestActor.RequestDone Y now
          { S with
            NodeRetries := THashMap.set S.NodeRetries (n, EEv.EvVDiskStateRequest)
              ((S.Retries EEv.EvVDiskStateRequest n + 1) % 2 ^ 32)
            NodeVDiskState := THashMap.emplace S.NodeVDiskState n none }) with
        UnavailableStorageNodes := TNodeSetInsert
          (TSelfCheckRequestActor.RequestDone Y now
            { S with
              NodeRetries := THashMap.set S.NodeRetries (n, EEv.EvVDiskStateRequest)
                ((S.Retries EEv.EvVDiskStateRequest n + 1) % 2 ^ 32)
              NodeVDiskState := THashMap.emplace S.NodeVDiskState n none }).UnavailableStorageNodes
          n } := by
  unfold TSelfCheckRequestActor.FailedVDiskState
  rw [if_pos ⟨h1, h2⟩, Retry_false S _ n h3]
  rfl

theorem FailedPDiskState_used (Y : TActorExternal) (now : TNow) (S : TSelfCheckRequestActor)
    (n : Nat) (h1 : n ∈ S.StorageNodeIds) (h2 : n ∉ S.NodePDiskState.map Prod.fst)
    (h3 : 3 ≤ S.Retries EEv.EvPDiskStateRequest n) :
    S.FailedPDiskState Y now n =
      { (TSelfCheckRequestActor.RequestDone Y now
          { S with
            NodeRetries := THashMap.set S.NodeRetries (n, EEv.EvPDiskStateRequest)
              ((S.Retries EEv.EvPDiskStateRequest n + 1) % 2 ^ 32)
            NodePDiskState := THashMap.emplace S.NodePDiskState n none }) with
        UnavailableStorageNodes := TNodeSetInsert
          (TSelfCheckRequestActor.RequestDone Y now
            { S with
              NodeRetries := THashMap.set S.NodeRetries (n, EEv.EvPDiskStateRequest)
                ((S.Retries EEv.EvPDiskStateRequest n + 1) % 2 ^ 32)
              NodePDiskState := THashMap.emplace S.NodePDiskState n none }).UnavailableStorageNodes
          n } := by
  unfold TSelfCheckRequestActor.FailedPDiskState
  rw [if_pos ⟨h1, h2⟩, Retry_false S _ n h3]
  rfl

theorem FailedBSGroupState_used (Y : TActorExternal) (now : TNow) (S : TSelfCheckRequestActor)
    (n : Nat) (h1 : n ∈ S.StorageNodeIds) (h2 : n ∉ S.NodeBSGroupState.map Prod.fst)
    (h3 : 3 ≤ S.Retries EEv.EvBSGroupStateRequest n) :
    S.FailedBSGroupState Y now n =
      TSelfCheckRequestActor.RequestDone Y now
        { S with
          NodeRetries := THashMap.set S.NodeRetries (n, EEv.EvBSGroupStateRequest)
            ((S.Retries EEv.EvBSGroupStateRequest n + 1) % 2 ^ 32)
          NodeBSGroupState := THashMap.emplace S.NodeBSGroupState n none } := by
  unfold TSelfCheckRequestActor.FailedBSGroupState
  rw [if_pos ⟨h1, h2⟩, Retry_false S _ n h3]
  rfl

theorem mem_TNodeSetInsert (set : List Nat) (x : Nat) : x ∈ TNodeSetInsert set x := by
  unfold TNodeSetInsert
  split
  · assumption
  · exact List.mem_append_right _ (List.mem_singleton.2 rfl)

theorem FailedSystemState_of_recorded (Y : TActorExternal) (now : TNow)
    (S : TSelfCheckRequestActor) (n : Nat) (h : n ∈ S.NodeSystemState.map Prod.fst) :
    S.FailedSystemState Y now n = S := by
  unfold TSelfCheckRequestActor.FailedSystemState
  rw [if_neg (fun h2 => h2.2 h)]

theorem FailedVDiskState_of_recorded (Y : TActorExternal) (now : TNow)
    (S : TSelfCheckRequestActor) (n : Nat) (h : n ∈ S.NodeVDiskState.map Prod.fst) :
    S.FailedVDiskState Y now n = S := by
  unfold TSelfCheckRequestActor.FailedVDiskState
  rw [if_neg (fun h2 => h2.2 h)]

theorem FailedPDiskState_of_recorded (Y : TActorExternal) (now : TNow)
    (S : TSelfCheckRequestActor) (n : Nat) (h : n ∈ S.NodePDiskState.map Prod.fst) :
    S.FailedPDiskState Y now n = S := by
  unfold TSelfCheckRequestActor.FailedPDiskState
  rw [if_neg (fun h2 => h2.2 h)]

theorem FailedBSGroupState_of_recorded (Y : TActorExternal) (now : TNow)
    (S : TSelfCheckRequestActor) (n : Nat) (h : n ∈ S.NodeBSGroupState.map Prod.fst) :
    S.FailedBSGroupState Y now n = S := by
  unfold TSelfCheckRequestActor.FailedBSGroupState
  rw [if_neg (fun h2 => h2.2 h)]

/-- C26 (what holds instead): an undelivered event runs the block of its
request type and a node-disconnected event runs the four blocks in turn.
When the block of a request type runs for a node that was asked, has no
record of that type and has used its 3 retries, the outstanding counter goes
down by exactly one, no retry is scheduled and the node gets an empty
record; for the system state request the node is then in the unavailable
compute nodes, for the vdisk and the pdisk state request in the unavailable
storage nodes, and for the bsgroup state request both sets stay as they
were. Afterwards the block of that type, and an undelivered event of that
type for the node, leave the whole actor as it is. -/
theorem retries_used (Y : TActorExternal) (now : TNow) (S : TSelfCheckRequestActor)
    (n : Nat) :
    (∀ Cookie, S.HandleUndelivered Y now Cookie EEv.EvSystemStateRequest =
        S.FailedSystemState Y now (Cookie % 2 ^ 32) ∧
      S.HandleUndelivered Y now Cookie EEv.EvVDiskStateRequest =
        S.FailedVDiskState Y now (Cookie % 2 ^ 32) ∧
      S.HandleUndelivered Y now Cookie EEv.EvPDiskStateRequest =
        S.FailedPDiskState Y now (Cookie % 2 ^ 32) ∧
      S.HandleUndelivered Y now Cookie EEv.EvBSGroupStateRequest =
        S.FailedBSGroupState Y now (Cookie % 2 ^ 32)) ∧
    S.Disconnected Y now n =
      (((S.FailedSystemState Y now n).FailedVDiskState Y now n).FailedPDiskState Y now
        n).FailedBSGroupState Y now n ∧
    (n ∈ S.NodeIds → n ∉ S.NodeSystemState.map Prod.fst →
      3 ≤ S.Retries EEv.EvSystemStateRequest n →
      (S.FailedSystemState Y now n).Requests = S.Requests - 1 ∧
      (S.FailedSystemState Y now n).Scheduled = S.Scheduled ∧
      n ∈ (S.FailedSystemState Y now n).NodeSystemState.map Prod.fst ∧
      n ∈ (S.FailedSystemState Y now n).UnavailableComputeNodes ∧
      ∀ now2, (S.FailedSystemState Y now n).FailedSystemState Y now2 n =
        S.FailedSystemState Y now n) ∧
    (n ∈ S.StorageNodeIds → n ∉ S.NodeVDiskState.map Prod.fst →
      3 ≤ S.Retries EEv.EvVDiskStateRequest n →
      (S.FailedVDiskState Y now n).Requests = S.Requests - 1 ∧
      (S.FailedVDiskState Y now n).Scheduled = S.Scheduled ∧
      n ∈ (S.FailedVDiskState Y now n).NodeVDiskState.map Prod.fst ∧
      n ∈ (S.FailedVDiskState Y now n).UnavailableStorageNodes ∧
      ∀ now2, (S.FailedVDiskState Y now n).FailedVDiskState Y now2 n =
        S.FailedVDiskState Y now n) ∧
    (n ∈ S.StorageNodeIds → n ∉ S.NodePDiskState.map Prod.fst →
      3 ≤ S.Retries EEv.EvPDiskStateRequest n →
      (S.FailedPDiskState Y now n).Requests = S.Requests - 1 ∧
      (S.FailedPDiskState Y now n).Scheduled = S.Scheduled ∧
      n ∈ (S.FailedPDiskState Y now n).NodePDiskState.map Prod.fst ∧
      n ∈ (S.FailedPDiskState Y now n).UnavailableStorageNodes ∧
      ∀ now2, (S.FailedPDiskState Y now n).FailedPDiskState Y now2 n =
        S.FailedPDiskState Y now n) ∧
    (n ∈ S.StorageNodeIds → n ∉ S.NodeBSGroupState.map Prod.fst →
      3 ≤ S.Retries EEv.EvBSGroupStateRequest n →
      (S.FailedBSGroupState Y now n).Requests = S.Requests - 1 ∧
      (S.FailedBSGroupState Y now n).Scheduled = S.Scheduled ∧
      n ∈ (S.FailedBSGroupState Y now n).NodeBSGroupState.map Prod.fst ∧
      (S.FailedBSGroupState Y now n).UnavailableStorageNodes = S.UnavailableStorageNodes ∧
      (S.FailedBSGroupState Y now n).UnavailableComputeNodes = S.UnavailableComputeNodes ∧
      ∀ now2, (S.FailedBSGroupState Y now n).FailedBSGroupState Y now2 n =
        S.FailedBSGroupState Y now n) := by
  refine ⟨fun Cookie => ⟨rfl, rfl, rfl, rfl⟩, rfl, fun h1 h2 h3 => ?_, fun h1 h2 h3 => ?_,
    fun h1 h2 h3 => ?_, fun h1 h2 h3 => ?_⟩
  · have e := FailedSystemState_used Y now S n h1 h2 h3
    have o := RequestDone_Own Y now
      { S with
        NodeRetries := THashMap.set S.NodeRetries (n, EEv.EvSystemStateRequest)
          ((S.Retries EEv.EvSystemStateRequest n + 1) % 2 ^ 32)
        NodeSystemState := THashMap.emplace S.NodeSystemState n none }
    have k : n ∈ (S.FailedSystemState Y now n).NodeSystemState.map Prod.fst := by
      rw [e]
      have o2 := congrArg TOwn.NodeSystemState o
      change (TSelfCheckRequestActor.RequestDone Y now _).NodeSystemState =
        THashMap.emplace S.NodeSystemState n none at o2
      show n ∈ (TSelfCheckRequestActor.RequestDone Y now _).NodeSystemState.map Prod.fst
      rw [o2]
      exact (hkeys_emplace _ _ _ _).2 (Or.inl rfl)
    refine ⟨?_, ?_, k, ?_, fun now2 => FailedSystemState_of_recorded Y now2 _ n k⟩
    · rw [e]
      exact congrArg TOwn.Requests o
    · rw [e]
      exact congrArg TOwn.Scheduled o
    · rw [e]
      exact mem_TNodeSetInsert _ n
  · have e := FailedVDiskState_used Y now S n h1 h2 h3
    have o := RequestDone_Own Y now
      { S with
        NodeRetries := THashMap.set S.NodeRetries (n, EEv.EvVDiskStateRequest)
          ((S.Retries EEv.EvVDiskStateRequest n + 1) % 2 ^ 32)
        NodeVDiskState := THashMap.emplace S.NodeVDiskState n none }
    have k : n ∈ (S.FailedVDiskState Y now n).NodeVDiskState.map Prod.fst := by
      rw [e]
      have o2 := congrArg TOwn.NodeVDiskState o
      change (TSelfCheckRequestActor.RequestDone Y now _).NodeVDiskState =
        THashMap.emplace S.NodeVDiskState n none at o2
      show n ∈ (TSelfCheckRequestActor.RequestDone Y now _).NodeVDiskState.map Prod.fst
      rw [o2]
      exact (hkeys_emplace _ _ _ _).2 (Or.inl rfl)
    refine ⟨?_, ?_, k, ?_, fun now2 => FailedVDiskState_of_recorded Y now2 _ n k⟩
    · rw [e]
      exact congrArg TOwn.Requests o
    · rw [e]
      exact congrArg TOwn.Scheduled o
    · rw [e]
      exact mem_TNodeSetInsert _ n
  · have e := FailedPDiskState_used Y now S n h1 h2 h3
    have o := RequestDone_Own Y now
      { S with
        NodeRetries := THashMap.set S.NodeRetries (n, EEv.EvPDiskStateRequest)
          ((S.Retries EEv.EvPDiskStateRequest n + 1) % 2 ^ 32)
        NodePDiskState := THashMap.emplace S.NodePDiskState n none }
    have k : n ∈ (S.FailedPDiskState Y now n).NodePDiskState.map Prod.fst := by
      rw [e]
      have o2 := congrArg TOwn.NodePDiskState o
      change (TSelfCheckRequestActor.RequestDone Y now _).NodePDiskState =
        THashMap.emplace S.NodePDiskState n none at o2
      show n ∈ (TSelfCheckRequestActor.RequestDone Y now _).NodePDiskState.map Prod.fst
      rw [o2]
      exact (hkeys_emplace _ _ _ _).2 (Or.inl rfl)
    refine ⟨?_, ?_, k, ?_, fun now2 => FailedPDiskState_of_recorded Y now2 _ n k⟩
    · rw [e]
      exact congrArg TOwn.Requests o
    · rw [e]
      exact congrArg TOwn.Scheduled o
    · rw [e]
      exact mem_TNodeSetInsert _ n
  · have e := FailedBSGroupState_used Y now S n h1 h2 h3
    have o := RequestDone_Own Y now
      { S with
        NodeRetries := THashMap.set S.NodeRetries (n, EEv.EvBSGroupStateRequest)
          ((S.Retries EEv.EvBSGroupStateRequest n + 1) % 2 ^ 32)
        NodeBSGroupState := THashMap.emplace S.NodeBSGroupState n none }
    have k : n ∈ (S.FailedBSGroupState Y now n).NodeBSGroupState.map Prod.fst := by
      rw [e]
      have o2 := congrArg TOwn.NodeBSGroupState o
      change (TSelfCheckRequestActor.RequestDone Y now _).NodeBSGroupState =
        THashMap.emplace S.NodeBSGroupState n none at o2
      rw [o2]
      exact (hkeys_emplace _ _ _ _).2 (Or.inl rfl)
    refine ⟨?_, ?_, k, ?_, ?_, fun now2 => FailedBSGroupState_of_recorded Y now2 _ n k⟩
    · rw [e]
      exact congrArg TOwn.Requests o
    · rw [e]
      exact congrArg TOwn.Scheduled o
    · rw [e]
      exact congrArg Prod.snd (RequestDone_NodeSets Y now _)
    · rw [e]
      exact congrArg TOwn.UnavailableComputeNodes o

/-- C26 (an instance): node 1 of the actor that has used the three retries
of the bsgroup state request. -/
theorem retries_used_witness :
    (1 ∈ exampleRetriesUsed.StorageNodeIds ∧
      1 ∉ exampleRetriesUsed.NodeBSGroupState.map Prod.fst ∧
      3 ≤ exampleRetriesUsed.Retries EEv.EvBSGroupStateRequest 1) ∧
    (exampleRetriesUsed.FailedBSGroupState exampleActorExternal {} 1).Requests =
      exampleRetriesUsed.Requests - 1 :=
  ⟨by decide,
    ((retries_used exampleActorExternal {} exampleRetriesUsed 1).2.2.2.2.2
      (by decide) (by decide) (by decide)).1⟩

/-- C26 (counterexample): node 1 was asked as a storage node and the three
retries of its bsgroup state request are used. The undelivered event of the
bsgroup state request takes the outstanding counter from 7 to 6, schedules
nothing and gives node 1 an empty bsgroup record, and node 1 is in neither
unavailable set. -/
theorem bsgroup_failure_marks_no_node :
    exampleRetriesUsed.StorageNodeIds = [1] ∧
    exampleRetriesUsed.Retries EEv.EvBSGroupStateRequest 1 = 3 ∧
    (exampleRetriesUsed.HandleUndelivered exampleActorExternal {} 1
      EEv.EvBSGroupStateRequest).Requests = 6 ∧
    (exampleRetriesUsed.HandleUndelivered exampleActorExternal {} 1
      EEv.EvBSGroupStateRequest).Scheduled = exampleRetriesUsed.Scheduled ∧
    (exampleRetriesUsed.HandleUndelivered exampleActorExternal {} 1
      EEv.EvBSGroupStateRequest).NodeBSGroupState = [(1, none)] ∧
    (exampleRetriesUsed.HandleUndelivered exampleActorExternal {} 1
      EEv.EvBSGroupStateRequest).UnavailableStorageNodes = [] ∧
    (exampleRetriesUsed.HandleUndelivered exampleActorExternal {} 1
      EEv.EvBSGroupStateRequest).UnavailableComputeNodes = [] := by
  refine ⟨rfl, by decide, by decide, by decide, by decide, by decide, by decide⟩

/-! ### Steps that keep the retries and the valid sets -/

theorem Hush.rfl_hush (S : TSelfCheckRequestActor) : Hush S S := ⟨rfl, rfl⟩

theorem Hush.trans_hush {S S2 S3 : TSelfCheckRequestActor} (h1 : Hush S S2) (h2 : Hush S2 S3) :
    Hush S S3 := ⟨h2.1.trans h1.1, h2.2.trans h1.2⟩

theorem Hush_foldl {A : Type} (f : TSelfCheckRequestActor → A → TSelfCheckRequestActor)
    (hf : ∀ B a, Hush B (f B a)) (l : List A) (S : TSelfCheckRequestActor) :
    Hush S (l.foldl f S) :=
  foldl_preserves (fun B => Hush S B) f (fun B a hB => hB.trans_hush (hf B a)) l S
    (Hush.rfl_hush S)

theorem Quietly.of_hush (Y : TActorExternal) {S S2 : TSelfCheckRequestActor} (h : Hush S S2) :
    Quietly Y S S2 := Quietly.step (Quietly.refl S) h

theorem Quietly.trans_quietly (Y : TActorExternal) {S S2 S3 : TSelfCheckRequestActor}
    (h1 : Quietly Y S S2) (h2 : Quietly Y S2 S3) : Quietly Y S S3 := by
  induction h2 with
  | refl => exact h1
  | step _ h ih => exact Quietly.step ih h
  | done now _ ih => exact Quietly.done now ih

theorem Quietly_foldl (Y : TActorExternal) {A : Type}
    (f : TSelfCheckRequestActor → A → TSelfCheckRequestActor)
    (hf : ∀ B a, Quietly Y B (f B a)) (l : List A) (S : TSelfCheckRequestActor) :
    Quietly Y S (l.foldl f S) :=
  foldl_preserves (fun B => Quietly Y S B) f (fun B a hB => hB.trans_quietly Y (hf B a)) l S
    (Quietly.refl S)

theorem Quietly.retry (Y : TActorExternal) {S S2 : TSelfCheckRequestActor}
    (h : Quietly Y S S2) : S2.Ledger.Own.Retry = S.Ledger.Own.Retry := by
  induction h with
  | refl => rfl
  | step _ h ih => exact h.1.trans ih
  | done now _ ih =>
    rw [RequestDone_Own]
    exact ih

theorem Calm.rfl_calm (S : TSelfCheckRequestActor) : Calm S S :=
  ⟨fun h => h, fun _ => ⟨rfl, rfl, rfl⟩⟩

theorem Calm.trans_calm {S S2 S3 : TSelfCheckRequestActor} (h1 : Calm S S2) (h2 : Calm S2 S3) :
    Calm S S3 := by
  refine ⟨fun h => h2.1 (h1.1 h), fun h => ?_⟩
  obtain ⟨a, b, c⟩ := h2.2 h
  have h4 : S2.PassedAway = false := by
    cases hp : S2.PassedAway
    · rfl
    · rw [h2.1 hp] at h
      cases h
  obtain ⟨a2, b2, c2⟩ := h1.2 h4
  exact ⟨a.trans a2, b.trans b2, c.trans c2⟩

theorem Calm.of_seal {S S2 : TSelfCheckRequestActor} (h : S2.Seal = S.Seal) : Calm S S2 := by
  have h1 : S2.PassedAway = S.PassedAway := congrArg TSeal.PassedAway h
  refine ⟨fun hp => by rw [h1]; exact hp, fun _ => ?_⟩
  exact ⟨congrArg TSeal.ValidPDisks h, congrArg TSeal.ValidVDisks h,
    congrArg TSeal.ValidGroups h⟩

theorem RequestDone_Calm (Y : TActorExternal) (now : TNow) (S : TSelfCheckRequestActor) :
    Calm S (S.RequestDone Y now) := by
  unfold TSelfCheckRequestActor.RequestDone
  dsimp only
  split
  · exact ⟨fun _ => rfl, fun h => by cases h⟩
  · exact Calm.of_seal rfl

theorem Quietly.calm (Y : TActorExternal) {S S2 : TSelfCheckRequestActor}
    (h : Quietly Y S S2) : Calm S S2 := by
  induction h with
  | refl => exact Calm.rfl_calm _
  | step _ h ih => exact ih.trans_calm (Calm.of_seal h.2)
  | done now _ ih => exact ih.trans_calm (RequestDone_Calm Y now _)

theorem Calm_foldl {A : Type} (f : TSelfCheckRequestActor → A → TSelfCheckRequestActor)
    (hf : ∀ B a, Calm B (f B a)) (l : List A) (S : TSelfCheckRequestActor) :
    Calm S (l.foldl f S) :=
  foldl_preserves (fun B => Calm S B) f (fun B a hB => hB.trans_calm (hf B a)) l S
    (Calm.rfl_calm S)

/-! ### The requests the handlers make -/

theorem RequestTabletPipe_Hush (now : TNow) (S : TSelfCheckRequestActor) (tabletId : Nat)
    (key : String) : Hush S (S.RequestTabletPipe now tabletId key) := ⟨rfl, rfl⟩

theorem RequestSchemeCacheNavigate_Hush (S : TSelfCheckRequestActor) :
    Hush S S.RequestSchemeCacheNavigate := ⟨rfl, rfl⟩

theorem RequestNodeWhiteboard_Hush (S : TSelfCheckRequestActor) (ev : EEv) (n : Nat) :
    Hush S (S.RequestNodeWhiteboard ev n) := ⟨rfl, rfl⟩

theorem RequestGenericNode_Hush (S : TSelfCheckRequestActor) (n : Nat) :
    Hush S (S.RequestGenericNode n) := by
  unfold TSelfCheckRequestActor.RequestGenericNode
  split <;> exact ⟨rfl, rfl⟩

theorem RequestComputeNode_Hush (S : TSelfCheckRequestActor) (n : Nat) :
    Hush S (S.RequestComputeNode n) := by
  unfold TSelfCheckRequestActor.RequestComputeNode
  split
  · exact Hush.trans_hush ⟨rfl, rfl⟩ (RequestGenericNode_Hush _ n)
  · exact ⟨rfl, rfl⟩

theorem RequestStorageNode_Hush (S : TSelfCheckRequestActor) (n : Nat) :
    Hush S (S.RequestStorageNode n) := by
  unfold TSelfCheckRequestActor.RequestStorageNode
  split
  · have h := RequestGenericNode_Hush
      ({ S with StorageNodeIds := S.StorageNodeIds ++ [n] } : TSelfCheckRequestActor) n
    exact ⟨h.1, h.2⟩
  · exact ⟨rfl, rfl⟩

theorem CompleteRequest_Hush (now : TNow) (S : TSelfCheckRequestActor) (Cookie : Nat) :
    Hush S (S.CompleteRequest now Cookie).2 := ⟨rfl, rfl⟩

theorem SetTabletState_Hush (S : TSelfCheckRequestActor) (tabletId : Nat)
    (Database Type_ : String) : Hush S (S.SetTabletState tabletId Database Type_) := ⟨rfl, rfl⟩

/-! ### The handlers that keep the retries -/

theorem HandleRetryNodeWhiteboard_Quietly (Y : TActorExternal) (now : TNow)
    (S : TSelfCheckRequestActor) (n : Nat) (ev : EEv) :
    Quietly Y S (S.HandleRetryNodeWhiteboard Y now n ev) := by
  unfold TSelfCheckRequestActor.HandleRetryNodeWhiteboard
  cases ev
  · exact Quietly.of_hush Y (RequestNodeWhiteboard_Hush S _ n)
  · exact Quietly.of_hush Y (RequestNodeWhiteboard_Hush S _ n)
  · exact Quietly.of_hush Y (RequestNodeWhiteboard_Hush S _ n)
  · exact Quietly.of_hush Y (RequestNodeWhiteboard_Hush S _ n)
  · exact Quietly.done now (Quietly.refl S)

theorem HandleClientConnected_Quietly (Y : TActorExternal) (now : TNow)
    (S : TSelfCheckRequestActor) (ok : Bool) (TabletId : Nat) :
    Quietly Y S (S.HandleClientConnected Y now ok TabletId) := by
  unfold TSelfCheckRequestActor.HandleClientConnected
  split
  · refine Quietly_foldl Y _ ?_ _ S
    intro B a
    dsimp only
    split
    · exact Quietly.done now (Quietly.refl B)
    · exact Quietly.refl B
  · exact Quietly.refl S

theorem HandleTimeout_Calm (Y : TActorExternal) (now : TNow) (S : TSelfCheckRequestActor) :
    Calm S (S.HandleTimeout Y now) :=
  ⟨fun _ => rfl, fun h => by cases h⟩

theorem HandleNodesInfo_Quietly (Y : TActorExternal) (now : TNow)
    (S : TSelfCheckRequestActor) (Nodes : List TNodeInfo) :
    Quietly Y S (S.HandleNodesInfo Y now Nodes) := by
  unfold TSelfCheckRequestActor.HandleNodesInfo
  dsimp only
  refine Quietly.done now (Quietly.of_hush Y (Hush_foldl _ ?_ _ S))
  intro B ni
  dsimp only
  split
  · exact Hush.trans_hush ⟨rfl, rfl⟩ (RequestComputeNode_Hush _ ni.NodeId)
  · exact ⟨rfl, rfl⟩

theorem HandleControllerConfigResponse_Quietly (Y : TActorExternal) (now : TNow)
    (S : TSelfCheckRequestActor) (Cookie : Nat) (BaseConfig : Option TBaseConfig) :
    Quietly Y S (S.HandleControllerConfigResponse Y now Cookie BaseConfig) := by
  unfold TSelfCheckRequestActor.HandleControllerConfigResponse
  dsimp only
  refine Quietly.done now (Quietly.of_hush Y ?_)
  refine (CompleteRequest_Hush now S Cookie).trans_hush ?_
  split
  · rename_i pbConfig
    have h := Hush_foldl
      (fun (S : TSelfCheckRequestActor) (pDisk : TBaseConfig.TPDisk) =>
        S.RequestStorageNode pDisk.nodeid)
      (fun B a => RequestStorageNode_Hush B a.nodeid) pbConfig.PDisk
      (S.CompleteRequest now Cookie).2
    exact ⟨h.1, h.2⟩
  · exact Hush.rfl_hush _

theorem HandleControllerSelectGroupsResult_Quietly (Y : TActorExternal) (now : TNow)
    (S : TSelfCheckRequestActor) (Cookie : Nat) (matchinggroups : List (List (String × Nat))) :
    Quietly Y S (S.HandleControllerSelectGroupsResult Y now Cookie matchinggroups) := by
  unfold TSelfCheckRequestActor.HandleControllerSelectGroupsResult
  dsimp only
  refine Quietly.done now (Quietly.of_hush Y ?_)
  refine (CompleteRequest_Hush now S Cookie).trans_hush ?_
  refine Hush_foldl _ ?_ _ _
  intro B groups
  refine Hush_foldl _ ?_ _ _
  intro C group
  exact ⟨rfl, rfl⟩

theorem RequestSelectGroups_Hush (now : TNow) (S : TSelfCheckRequestActor) (name : String) :
    Hush S (S.RequestSelectGroups now name) := ⟨rfl, rfl⟩

theorem HandleDescribeSchemeResult_Quietly (Y : TActorExternal) (now : TNow)
    (S : TSelfCheckRequestActor) (Cookie : Nat) (Record : TEvDescribeSchemeResult) :
    Quietly Y S (S.HandleDescribeSchemeResult Y now Cookie Record) := by
  unfold TSelfCheckRequestActor.HandleDescribeSchemeResult
  dsimp only
  refine Quietly.done now (Quietly.of_hush Y ?_)
  refine (CompleteRequest_Hush now S Cookie).trans_hush ?_
  split
  · have h1 : ∀ B : TSelfCheckRequestActor, Hush B
        (Record.storagepools.foldl
          (fun (S : TSelfCheckRequestActor) (storagePool : String × String) =>
            TSelfCheckRequestActor.RequestSelectGroups now
              { S with
                DatabaseState := THashMap.set S.DatabaseState Record.path
                  { S.DatabaseStateAt Record.path with
                    StoragePoolNames :=
                      (S.DatabaseStateAt Record.path).StoragePoolNames ++ [storagePool.1] }
                StoragePoolState := THashMap.set S.StoragePoolState storagePool.1
                  { TSelfCheckRequestActor.StoragePoolStateAt
                      { S with
                        DatabaseState := THashMap.set S.DatabaseState Record.path
                          { S.DatabaseStateAt Record.path with
                            StoragePoolNames :=
                              (S.DatabaseStateAt Record.path).StoragePoolNames ++
                                [storagePool.1] } }
                      storagePool.1 with Kind := storagePool.2 } }
              storagePool.1) B) := by
      intro B
      refine Hush_foldl _ ?_ _ _
      intro C a
      exact ⟨rfl, rfl⟩
    have h2 := h1 { (S.CompleteRequest now Cookie).2 with
      DatabaseState := THashMap.set (S.CompleteRequest now Cookie).2.DatabaseState Record.path
        ((S.CompleteRequest now Cookie).2.DatabaseStateAt Record.path) }
    split
    · exact ⟨h2.1, h2.2⟩
    · exact ⟨h2.1, h2.2⟩
  · exact Hush.rfl_hush _

theorem FilterDomainKey_Hush (S : TSelfCheckRequestActor) (k : Nat × Nat) (v : String) :
    Hush S { S with FilterDomainKey := THashMap.set S.FilterDomainKey k v } := ⟨rfl, rfl⟩

theorem DatabaseState_Hush (S : TSelfCheckRequestActor) (m : List (String × TDatabaseState)) :
    Hush S { S with DatabaseState := m } := ⟨rfl, rfl⟩

theorem HandleNavigateKeySetResult_Quietly (Y : TActorExternal) (now : TNow)
    (S : TSelfCheckRequestActor) (entry : Option TNavigateEntry) :
    Quietly Y S (S.HandleNavigateKeySetResult Y now entry) := by
  unfold TSelfCheckRequestActor.HandleNavigateKeySetResult
  dsimp only
  refine Quietly.done now (Quietly.of_hush Y ?_)
  cases entry with
  | none => exact Hush.rfl_hush S
  | some domainInfo =>
    dsimp only
    refine Hush.trans_hush ?_ (RequestTabletPipe_Hush now _ _ _)
    have h1 : ∀ B : TSelfCheckRequestActor, Hush S B → Hush S
        (if domainInfo.SchemeShard = 0 then (B.RootSchemeShardId, B)
          else (domainInfo.SchemeShard,
            B.SetTabletState domainInfo.SchemeShard domainInfo.Path "SchemeShard")).2 := by
      intro B hB
      split
      · exact hB
      · exact hB.trans_hush (SetTabletState_Hush _ _ _ _)
    refine h1 _ ?_
    refine Hush.trans_hush ?_ (FilterDomainKey_Hush _ _ _)
    have h2 : ∀ B : TSelfCheckRequestActor, Hush S B → Hush S
        (if domainInfo.Hive ≠ 0 then
          TSelfCheckRequestActor.RequestHiveInfo now
            (TSelfCheckRequestActor.RequestHiveNodeStats now
              (TSelfCheckRequestActor.SetTabletState
                { B with DatabaseState := (THashMap.set B.DatabaseState domainInfo.Path
                    (B.DatabaseStateAt domainInfo.Path)) }
                domainInfo.Hive domainInfo.Path "Hive")
              domainInfo.Hive)
            domainInfo.Hive
          else B) := by
      intro B hB
      split
      · exact hB.trans_hush ⟨rfl, rfl⟩
      · exact hB
    refine h2 _ ?_
    split
    · refine Hush.trans_hush ?_ (DatabaseState_Hush _ _)
      split
      · exact ⟨rfl, rfl⟩
      · exact Hush.rfl_hush S
    · exact Hush.rfl_hush S

theorem HandleResponseHiveDomainStats_Quietly (Y : TActorExternal) (now : TNow)
    (S : TSelfCheckRequestActor) (Cookie : Nat) (DomainStats : List (List Nat)) :
    Quietly Y S (S.HandleResponseHiveDomainStats Y now Cookie DomainStats) := by
  unfold TSelfCheckRequestActor.HandleResponseHiveDomainStats
  dsimp only
  refine Quietly.done now (Quietly.of_hush Y ?_)
  refine (CompleteRequest_Hush now S Cookie).trans_hush ?_
  refine Hush_foldl _ ?_ _ _
  intro B l
  refine Hush_foldl _ ?_ _ _
  intro C n
  exact RequestComputeNode_Hush C n

theorem HandleResponseHiveNodeStats_Quietly (Y : TActorExternal) (now : TNow)
    (S : TSelfCheckRequestActor) (Cookie : Nat) (NodeStats : List THiveNodeStats) :
    Quietly Y S (S.HandleResponseHiveNodeStats Y now Cookie NodeStats) := by
  unfold TSelfCheckRequestActor.HandleResponseHiveNodeStats
  dsimp only
  refine Quietly.done now (Quietly.of_hush Y ?_)
  refine (CompleteRequest_Hush now S Cookie).trans_hush ?_
  have h := Hush_foldl
    (fun (S : TSelfCheckRequestActor) (hiveStat : THiveNodeStats) =>
      S.RequestComputeNode hiveStat.NodeId)
    (fun B a => RequestComputeNode_Hush B a.NodeId) NodeStats (S.CompleteRequest now Cookie).2
  exact ⟨h.1, h.2⟩

theorem HandleResponseHiveInfo_Quietly (Y : TActorExternal) (now : TNow)
    (S : TSelfCheckRequestActor) (Cookie : Nat) (Record : TEvResponseHiveInfo) :
    Quietly Y S (S.HandleResponseHiveInfo Y now Cookie Record) := by
  unfold TSelfCheckRequestActor.HandleResponseHiveInfo
  exact Quietly.done now (Quietly.of_hush Y ⟨rfl, rfl⟩)

theorem HandleGetTenantStatusResponse_Quietly (Y : TActorExternal) (now : TNow)
    (S : TSelfCheckRequestActor) (Cookie : Nat) (result : Option (String × Bool)) :
    Quietly Y S (S.HandleGetTenantStatusResponse Y now Cookie result) := by
  unfold TSelfCheckRequestActor.HandleGetTenantStatusResponse
  dsimp only
  refine Quietly.done now (Quietly.of_hush Y ?_)
  cases result with
  | none => exact ⟨rfl, rfl⟩
  | some r =>
    dsimp only
    constructor <;> (split_ifs <;> rfl)

theorem HandleListTenantsResponse_Quietly (Y : TActorExternal) (now : TNow)
    (S : TSelfCheckRequestActor) (Cookie : Nat) (paths : List String) :
    Quietly Y S (S.HandleListTenantsResponse Y now Cookie paths) := by
  unfold TSelfCheckRequestActor.HandleListTenantsResponse
  dsimp only
  refine Quietly.done now (Quietly.of_hush Y ?_)
  refine (CompleteRequest_Hush now S Cookie).trans_hush ?_
  refine Hush_foldl _ ?_ _ _
  intro B p
  exact ⟨rfl, rfl⟩

/-! ### The retries over the handlers -/

theorem RequestDone_Retry (Y : TActorExternal) (now : TNow) (S : TSelfCheckRequestActor) :
    (S.RequestDone Y now).Ledger.Own.Retry = S.Ledger.Own.Retry := by
  rw [RequestDone_Own]
  rfl

theorem Inv_nil (R : TRetry) (h1 : R.NodeRetries = []) (h2 : R.Scheduled = []) : R.Inv := by
  intro ev n
  have h3 : R.Retries ev n = 0 := by
    unfold TRetry.Retries
    rw [h1]
    rfl
  rw [h3, h2]
  refine ⟨by omega, rfl, fun h => by omega⟩

theorem Inv_grow (R R2 : TRetry) (hI : R.Inv) (hR : R2.NodeRetries = R.NodeRetries)
    (hS : R2.Scheduled = R.Scheduled)
    (hrec : ∀ ev n, n ∈ R.Recorded ev → n ∈ R2.Recorded ev) : R2.Inv := by
  intro ev n
  have h3 : R2.Retries ev n = R.Retries ev n := by
    unfold TRetry.Retries
    rw [hR]
  rw [h3, hS]
  obtain ⟨a, b, c⟩ := hI ev n
  exact ⟨a, b, fun h => hrec ev n (c h)⟩

theorem Inv_step (R R2 : TRetry) (ev0 : EEv) (n0 : Nat) (hI : R.Inv)
    (hn : n0 ∉ R.Recorded ev0)
    (hR : R2.NodeRetries =
      THashMap.set R.NodeRetries (n0, ev0) ((R.Retries ev0 n0 + 1) % 2 ^ 32))
    (hS : R2.Scheduled =
      if R.Retries ev0 n0 < 3 then R.Scheduled ++ [(n0, ev0)] else R.Scheduled)
    (hrec : ∀ ev n, n ∈ R.Recorded ev → n ∈ R2.Recorded ev)
    (hnew : 3 ≤ R.Retries ev0 n0 → n0 ∈ R2.Recorded ev0) : R2.Inv := by
  intro ev n
  obtain ⟨a0, b0, c0⟩ := hI ev0 n0
  have hle : R.Retries ev0 n0 ≤ 3 := by
    by_contra hh
    exact hn (c0 (by omega))
  obtain ⟨a, b, c⟩ := hI ev n
  by_cases hp : (n, ev) = (n0, ev0)
  · obtain ⟨e1, e2⟩ := Prod.mk.inj hp
    subst e1
    subst e2
    have h3 : R2.Retries ev n = R.Retries ev n + 1 := by
      unfold TRetry.Retries
      rw [hR, hfind_set_same]
      show (R.Retries ev n + 1) % 2 ^ 32 = _
      exact Nat.mod_eq_of_lt (by
        have : (2 : Nat) ^ 32 = 4294967296 := by norm_num
        omega)
    rw [h3, hS]
    refine ⟨by omega, ?_, fun h => hnew (by omega)⟩
    by_cases hlt : R.Retries ev n < 3
    · rw [if_pos hlt, List.count_append, b0, List.count_singleton_self]
      omega
    · rw [if_neg hlt, b0]
      omega
  · have h3 : R2.Retries ev n = R.Retries ev n := by
      unfold TRetry.Retries
      rw [hR, hfind_set_ne _ _ _ _ hp]
    rw [h3, hS]
    refine ⟨a, ?_, fun h => hrec ev n (c h)⟩
    by_cases hlt : R.Retries ev0 n0 < 3
    · rw [if_pos hlt, List.count_append, b]
      have : List.count (n, ev) [(n0, ev0)] = 0 := by
        rw [List.count_singleton]
        rw [if_neg]
        intro hh
        have h5 : (n0, ev0) = (n, ev) := by simpa using hh
        exact hp h5.symm
      omega
    · rw [if_neg hlt, b]

theorem Retries_eq (S : TSelfCheckRequestActor) (ev : EEv) (n : Nat) :
    S.Ledger.Own.Retry.Retries ev n = S.Retries ev n := rfl

theorem Inv_of_eq (R R2 : TRetry) (h : R2 = R) (hI : R.Inv) : R2.Inv := by
  rw [h]
  exact hI

theorem Retry_Seal (S : TSelfCheckRequestActor) (ev : EEv) (n : Nat) :
    (S.RetryRequestNodeWhiteboard ev n).2.Seal = S.Seal := by
  unfold TSelfCheckRequestActor.RetryRequestNodeWhiteboard
  dsimp only
  split <;> rfl

theorem FailedSystemState_Calm (Y : TActorExternal) (now : TNow) (S : TSelfCheckRequestActor)
    (n : Nat) : Calm S (S.FailedSystemState Y now n) := by
  unfold TSelfCheckRequestActor.FailedSystemState
  split
  · dsimp only
    split
    · refine Calm.trans_calm ?_
        (Calm.trans_calm (RequestDone_Calm Y now _) (Calm.of_seal rfl))
      exact Calm.of_seal (Retry_Seal S _ n)
    · exact Calm.of_seal (Retry_Seal S _ n)
  · exact Calm.rfl_calm S

theorem FailedSystemState_Inv (Y : TActorExternal) (now : TNow) (S : TSelfCheckRequestActor)
    (n : Nat) (hI : S.Ledger.Own.Retry.Inv) :
    (S.FailedSystemState Y now n).Ledger.Own.Retry.Inv := by
  by_cases hg : n ∈ S.NodeIds ∧ n ∉ S.NodeSystemState.map Prod.fst
  · by_cases h3 : S.Retries EEv.EvSystemStateRequest n < 3
    · unfold TSelfCheckRequestActor.FailedSystemState
      rw [if_pos hg, Retry_true S _ n h3]
      refine Inv_step S.Ledger.Own.Retry _ EEv.EvSystemStateRequest n hI hg.2 rfl
        (if_pos h3).symm ?_ (fun h => absurd h (by rw [Retries_eq]; omega))
      intro ev m h
      cases ev <;> exact h
    · rw [FailedSystemState_used Y now S n hg.1 hg.2 (by omega)]
      refine Inv_of_eq _ _ (RequestDone_Retry Y now _) ?_
      refine Inv_step S.Ledger.Own.Retry _ EEv.EvSystemStateRequest n hI hg.2 rfl
        (if_neg h3).symm ?_ (fun _ => (hkeys_emplace _ _ _ _).2 (Or.inl rfl))
      intro ev m h
      cases ev
      · exact (hkeys_emplace _ _ _ _).2 (Or.inr h)
      · exact h
      · exact h
      · exact h
      · exact h
  · unfold TSelfCheckRequestActor.FailedSystemState
    rw [if_neg hg]
    exact hI

theorem FailedVDiskState_Calm (Y : TActorExternal) (now : TNow) (S : TSelfCheckRequestActor)
    (n : Nat) : Calm S (S.FailedVDiskState Y now n) := by
  unfold TSelfCheckRequestActor.FailedVDiskState
  split
  · dsimp only
    split
    · refine Calm.trans_calm ?_
        (Calm.trans_calm (RequestDone_Calm Y now _) (Calm.of_seal rfl))
      exact Calm.of_seal (Retry_Seal S _ n)
    · exact Calm.of_seal (Retry_Seal S _ n)
  · exact Calm.rfl_calm S

theorem FailedVDiskState_Inv (Y : TActorExternal) (now : TNow) (S : TSelfCheckRequestActor)
    (n : Nat) (hI : S.Ledger.Own.Retry.Inv) :
    (S.FailedVDiskState Y now n).Ledger.Own.Retry.Inv := by
  by_cases hg : n ∈ S.StorageNodeIds ∧ n ∉ S.NodeVDiskState.map Prod.fst
  · by_cases h3 : S.Retries EEv.EvVDiskStateRequest n < 3
    · unfold TSelfCheckRequestActor.FailedVDiskState
      rw [if_pos hg, Retry_true S _ n h3]
      refine Inv_step S.Ledger.Own.Retry _ EEv.EvVDiskStateRequest n hI hg.2 rfl
        (if_pos h3).symm ?_ (fun h => absurd h (by rw [Retries_eq]; omega))
      intro ev m h
      cases ev <;> exact h
    · rw [FailedVDiskState_used Y now S n hg.1 hg.2 (by omega)]
      refine Inv_of_eq _ _ (RequestDone_Retry Y now _) ?_
      refine Inv_step S.Ledger.Own.Retry _ EEv.EvVDiskStateRequest n hI hg.2 rfl
        (if_neg h3).symm ?_ (fun _ => (hkeys_emplace _ _ _ _).2 (Or.inl rfl))
      intro ev m h
      cases ev
      · exact h
      · exact (hkeys_emplace _ _ _ _).2 (Or.inr h)
      · exact h
      · exact h
      · exact h
  · unfold TSelfCheckRequestActor.FailedVDiskState
    rw [if_neg hg]
    exact hI

theorem FailedPDiskState_Calm (Y : TActorExternal) (now : TNow) (S : TSelfCheckRequestActor)
    (n : Nat) : Calm S (S.FailedPDiskState Y now n) := by
  unfold TSelfCheckRequestActor.FailedPDiskState
  split
  · dsimp only
    split
    · refine Calm.trans_calm ?_
        (Calm.trans_calm (RequestDone_Calm Y now _) (Calm.of_seal rfl))
      exact Calm.of_seal (Retry_Seal S _ n)
    · exact Calm.of_seal (Retry_Seal S _ n)
  · exact Calm.rfl_calm S

theorem FailedPDiskState_Inv (Y : TActorExternal) (now : TNow) (S : TSelfCheckRequestActor)
    (n : Nat) (hI : S.Ledger.Own.Retry.Inv) :
    (S.FailedPDiskState Y now n).Ledger.Own.Retry.Inv := by
  by_cases hg : n ∈ S.StorageNodeIds ∧ n ∉ S.NodePDiskState.map Prod.fst
  · by_cases h3 : S.Retries EEv.EvPDiskStateRequest n < 3
    · unfold TSelfCheckRequestActor.FailedPDiskState
      rw [if_pos hg, Retry_true S _ n h3]
      refine Inv_step S.Ledger.Own.Retry _ EEv.EvPDiskStateRequest n hI hg.2 rfl
        (if_pos h3).symm ?_ (fun h => absurd h (by rw [Retries_eq]; omega))
      intro ev m h
      cases ev <;> exact h
    · rw [FailedPDiskState_used Y now S n hg.1 hg.2 (by omega)]
      refine Inv_of_eq _ _ (RequestDone_Retry Y now _) ?_
      refine Inv_step S.Ledger.Own.Retry _ EEv.EvPDiskStateRequest n hI hg.2 rfl
        (if_neg h3).symm ?_ (fun _ => (hkeys_emplace _ _ _ _).2 (Or.inl rfl))
      intro ev m h
      cases ev
      · exact h
      · exact h
      · exact (hkeys_emplace _ _ _ _).2 (Or.inr h)
      · exact h
      · exact h
  · unfold TSelfCheckRequestActor.FailedPDiskState
    rw [if_neg hg]
    exact hI

theorem FailedBSGroupState_Calm (Y : TActorExternal) (now : TNow) (S : TSelfCheckRequestActor)
    (n : Nat) : Calm S (S.FailedBSGroupState Y now n) := by
  unfold TSelfCheckRequestActor.FailedBSGroupState
  split
  · dsimp only
    split
    · refine Calm.trans_calm ?_ (RequestDone_Calm Y now _)
      exact Calm.of_seal (Retry_Seal S _ n)
    · exact Calm.of_seal (Retry_Seal S _ n)
  · exact Calm.rfl_calm S

theorem FailedBSGroupState_Inv (Y : TActorExternal) (now : TNow) (S : TSelfCheckRequestActor)
    (n : Nat) (hI : S.Ledger.Own.Retry.Inv) :
    (S.FailedBSGroupState Y now n).Ledger.Own.Retry.Inv := by
  by_cases hg : n ∈ S.StorageNodeIds ∧ n ∉ S.NodeBSGroupState.map Prod.fst
  · by_cases h3 : S.Retries EEv.EvBSGroupStateRequest n < 3
    · unfold TSelfCheckRequestActor.FailedBSGroupState
      rw [if_pos hg, Retry_true S _ n h3]
      refine Inv_step S.Ledger.Own.Retry _ EEv.EvBSGroupStateRequest n hI hg.2 rfl
        (if_pos h3).symm ?_ (fun h => absurd h (by rw [Retries_eq]; omega))
      intro ev m h
      cases ev <;> exact h
    · rw [FailedBSGroupState_used Y now S n hg.1 hg.2 (by omega)]
      refine Inv_of_eq _ _ (RequestDone_Retry Y now _) ?_
      refine Inv_step S.Ledger.Own.Retry _ EEv.EvBSGroupStateRequest n hI hg.2 rfl
        (if_neg h3).symm ?_ (fun _ => (hkeys_emplace _ _ _ _).2 (Or.inl rfl))
      intro ev m h
      cases ev
      · exact h
      · exact h
      · exact h
      · exact (hkeys_emplace _ _ _ _).2 (Or.inr h)
      · exact h
  · unfold TSelfCheckRequestActor.FailedBSGroupState
    rw [if_neg hg]
    exact hI

theorem HandleUndelivered_Calm (Y : TActorExternal) (now : TNow) (S : TSelfCheckRequestActor)
    (Cookie : Nat) (ev : EEv) : Calm S (S.HandleUndelivered Y now Cookie ev) := by
  cases ev
  · exact FailedSystemState_Calm Y now S _
  · exact FailedVDiskState_Calm Y now S _
  · exact FailedPDiskState_Calm Y now S _
  · exact FailedBSGroupState_Calm Y now S _
  · exact Calm.rfl_calm S

theorem HandleUndelivered_Inv (Y : TActorExternal) (now : TNow) (S : TSelfCheckRequestActor)
    (Cookie : Nat) (ev : EEv) (hI : S.Ledger.Own.Retry.Inv) :
    (S.HandleUndelivered Y now Cookie ev).Ledger.Own.Retry.Inv := by
  cases ev
  · exact FailedSystemState_Inv Y now S _ hI
  · exact FailedVDiskState_Inv Y now S _ hI
  · exact FailedPDiskState_Inv Y now S _ hI
  · exact FailedBSGroupState_Inv Y now S _ hI
  · exact hI

theorem Disconnected_Calm (Y : TActorExternal) (now : TNow) (S : TSelfCheckRequestActor)
    (n : Nat) : Calm S (S.Disconnected Y now n) := by
  unfold TSelfCheckRequestActor.Disconnected
  exact (((FailedSystemState_Calm Y now S n).trans_calm
    (FailedVDiskState_Calm Y now _ n)).trans_calm
    (FailedPDiskState_Calm Y now _ n)).trans_calm (FailedBSGroupState_Calm Y now _ n)

theorem Disconnected_Inv (Y : TActorExternal) (now : TNow) (S : TSelfCheckRequestActor)
    (n : Nat) (hI : S.Ledger.Own.Retry.Inv) :
    (S.Disconnected Y now n).Ledger.Own.Retry.Inv := by
  unfold TSelfCheckRequestActor.Disconnected
  exact FailedBSGroupState_Inv Y now _ n (FailedPDiskState_Inv Y now _ n
    (FailedVDiskState_Inv Y now _ n (FailedSystemState_Inv Y now S n hI)))

theorem StoreSystemState_Seal (S : TSelfCheckRequestActor) (n : Nat)
    (info : List TSystemStateInfo) : (S.StoreSystemState n info).Seal = S.Seal := by
  unfold TSelfCheckRequestActor.StoreSystemState
  dsimp only
  refine foldl_preserves (fun B : TSelfCheckRequestActor => B.Seal = S.Seal) _ ?_ _ _ rfl
  intro B a hB
  exact hB

theorem HandleSystemStateResponse_Calm (Y : TActorExternal) (now : TNow)
    (S : TSelfCheckRequestActor) (Cookie : Nat) (info : List TSystemStateInfo) :
    Calm S (S.HandleSystemStateResponse Y now Cookie info) := by
  unfold TSelfCheckRequestActor.HandleSystemStateResponse
  dsimp only
  split
  · exact (Calm.of_seal (StoreSystemState_Seal S _ info)).trans_calm
      (RequestDone_Calm Y now _)
  · exact Calm.rfl_calm S

theorem HandleSystemStateResponse_Inv (Y : TActorExternal) (now : TNow)
    (S : TSelfCheckRequestActor) (Cookie : Nat) (info : List TSystemStateInfo)
    (hI : S.Ledger.Own.Retry.Inv) :
    (S.HandleSystemStateResponse Y now Cookie info).Ledger.Own.Retry.Inv := by
  unfold TSelfCheckRequestActor.HandleSystemStateResponse
  dsimp only
  split
  · refine Inv_of_eq _ _ (RequestDone_Retry Y now _) ?_
    rw [StoreSystemState_Own]
    refine Inv_grow S.Ledger.Own.Retry _ hI rfl rfl ?_
    intro ev m h
    cases ev
    · exact (hmem_keys_set _ _ _ _).2 (Or.inr h)
    · exact h
    · exact h
    · exact h
    · exact h
  · exact hI

theorem StoreVDiskState_Seal (S : TSelfCheckRequestActor) (n : Nat)
    (info : List TVDiskStateInfo) : (S.StoreVDiskState n info).Seal = S.Seal := by
  unfold TSelfCheckRequestActor.StoreVDiskState
  dsimp only
  refine foldl_preserves (fun B : TSelfCheckRequestActor => B.Seal = S.Seal) _ ?_ _ _ rfl
  intro B a hB
  exact hB

theorem HandleVDiskStateResponse_Calm (Y : TActorExternal) (now : TNow)
    (S : TSelfCheckRequestActor) (Cookie : Nat) (info : List TVDiskStateInfo) :
    Calm S (S.HandleVDiskStateResponse Y now Cookie info) := by
  unfold TSelfCheckRequestActor.HandleVDiskStateResponse
  dsimp only
  split
  · exact (Calm.of_seal (StoreVDiskState_Seal S _ info)).trans_calm
      (RequestDone_Calm Y now _)
  · exact Calm.rfl_calm S

theorem HandleVDiskStateResponse_Inv (Y : TActorExternal) (now : TNow)
    (S : TSelfCheckRequestActor) (Cookie : Nat) (info : List TVDiskStateInfo)
    (hI : S.Ledger.Own.Retry.Inv) :
    (S.HandleVDiskStateResponse Y now Cookie info).Ledger.Own.Retry.Inv := by
  unfold TSelfCheckRequestActor.HandleVDiskStateResponse
  dsimp only
  split
  · refine Inv_of_eq _ _ (RequestDone_Retry Y now _) ?_
    rw [StoreVDiskState_Own]
    refine Inv_grow S.Ledger.Own.Retry _ hI rfl rfl ?_
    intro ev m h
    cases ev
    · exact h
    · exact (hmem_keys_set _ _ _ _).2 (Or.inr h)
    · exact h
    · exact h
    · exact h
  · exact hI

theorem StorePDiskState_Seal (S : TSelfCheckRequestActor) (n : Nat)
    (info : List TPDiskStateInfo) : (S.StorePDiskState n info).Seal = S.Seal := by
  unfold TSelfCheckRequestActor.StorePDiskState
  dsimp only
  refine foldl_preserves (fun B : TSelfCheckRequestActor => B.Seal = S.Seal) _ ?_ _ _ rfl
  intro B a hB
  exact hB

theorem HandlePDiskStateResponse_Calm (Y : TActorExternal) (now : TNow)
    (S : TSelfCheckRequestActor) (Cookie : Nat) (info : List TPDiskStateInfo) :
    Calm S (S.HandlePDiskStateResponse Y now Cookie info) := by
  unfold TSelfCheckRequestActor.HandlePDiskStateResponse
  dsimp only
  split
  · exact (Calm.of_seal (StorePDiskState_Seal S _ info)).trans_calm
      (RequestDone_Calm Y now _)
  · exact Calm.rfl_calm S

theorem HandlePDiskStateResponse_Inv (Y : TActorExternal) (now : TNow)
    (S : TSelfCheckRequestActor) (Cookie : Nat) (info : List TPDiskStateInfo)
    (hI : S.Ledger.Own.Retry.Inv) :
    (S.HandlePDiskStateResponse Y now Cookie info).Ledger.Own.Retry.Inv := by
  unfold TSelfCheckRequestActor.HandlePDiskStateResponse
  dsimp only
  split
  · refine Inv_of_eq _ _ (RequestDone_Retry Y now _) ?_
    rw [StorePDiskState_Own]
    refine Inv_grow S.Ledger.Own.Retry _ hI rfl rfl ?_
    intro ev m h
    cases ev
    · exact h
    · exact h
    · exact (hmem_keys_set _ _ _ _).2 (Or.inr h)
    · exact h
    · exact h
  · exact hI

theorem MergeBSGroupState_Seal (Y : TActorExternal) (S : TSelfCheckRequestActor)
    (state : TBSGroupStateInfo) : (S.MergeBSGroupState Y state).Seal = S.Seal := by
  unfold TSelfCheckRequestActor.MergeBSGroupState
  dsimp only
  split <;> (split <;> (try split) <;> rfl)

theorem StoreBSGroupState_Seal (Y : TActorExternal) (S : TSelfCheckRequestActor) (n : Nat)
    (info : List TBSGroupStateInfo) : (S.StoreBSGroupState Y n info).Seal = S.Seal := by
  unfold TSelfCheckRequestActor.StoreBSGroupState
  dsimp only
  refine foldl_preserves (fun B : TSelfCheckRequestActor => B.Seal = S.Seal) _ ?_ _ _ rfl
  intro B a hB
  exact (MergeBSGroupState_Seal Y B a).trans hB

theorem HandleBSGroupStateResponse_Calm (Y : TActorExternal) (now : TNow)
    (S : TSelfCheckRequestActor) (Cookie : Nat) (info : List TBSGroupStateInfo) :
    Calm S (S.HandleBSGroupStateResponse Y now Cookie info) := by
  unfold TSelfCheckRequestActor.HandleBSGroupStateResponse
  dsimp only
  split
  · exact (Calm.of_seal (StoreBSGroupState_Seal Y S _ info)).trans_calm
      (RequestDone_Calm Y now _)
  · exact Calm.rfl_calm S

theorem HandleBSGroupStateResponse_Inv (Y : TActorExternal) (now : TNow)
    (S : TSelfCheckRequestActor) (Cookie : Nat) (info : List TBSGroupStateInfo)
    (hI : S.Ledger.Own.Retry.Inv) :
    (S.HandleBSGroupStateResponse Y now Cookie info).Ledger.Own.Retry.Inv := by
  unfold TSelfCheckRequestActor.HandleBSGroupStateResponse
  dsimp only
  split
  · refine Inv_of_eq _ _ (RequestDone_Retry Y now _) ?_
    rw [StoreBSGroupState_Own]
    refine Inv_grow S.Ledger.Own.Retry _ hI rfl rfl ?_
    intro ev m h
    cases ev
    · exact h
    · exact h
    · exact h
    · exact (hmem_keys_set _ _ _ _).2 (Or.inr h)
    · exact h
  · exact hI

/-! ### Every handler -/

theorem HandleTimeout_Inv (Y : TActorExternal) (now : TNow) (S : TSelfCheckRequestActor)
    (hI : S.Ledger.Own.Retry.Inv) : (S.HandleTimeout Y now).Ledger.Own.Retry.Inv := by
  unfold TSelfCheckRequestActor.HandleTimeout
  rw [ReplyAndPassAway_Own]
  exact hI

theorem StateWait_Calm (Y : TActorExternal) (now : TNow) (S : TSelfCheckRequestActor)
    (e : TEvent) : Calm S (S.StateWait Y now e) := by
  cases e with
  | Undelivered Cookie SourceType => exact HandleUndelivered_Calm Y now S Cookie SourceType
  | NodesInfo Nodes => exact (HandleNodesInfo_Quietly Y now S Nodes).calm
  | ListTenantsResponse Cookie paths =>
    exact (HandleListTenantsResponse_Quietly Y now S Cookie paths).calm
  | GetTenantStatusResponse Cookie result =>
    exact (HandleGetTenantStatusResponse_Quietly Y now S Cookie result).calm
  | ResponseHiveDomainStats Cookie DomainStats =>
    exact (HandleResponseHiveDomainStats_Quietly Y now S Cookie DomainStats).calm
  | ResponseHiveNodeStats Cookie NodeStats =>
    exact (HandleResponseHiveNodeStats_Quietly Y now S Cookie NodeStats).calm
  | ResponseHiveInfo Cookie Record =>
    exact (HandleResponseHiveInfo_Quietly Y now S Cookie Record).calm
  | DescribeSchemeResult Cookie Record =>
    exact (HandleDescribeSchemeResult_Quietly Y now S Cookie Record).calm
  | NavigateKeySetResult entry => exact (HandleNavigateKeySetResult_Quietly Y now S entry).calm
  | ControllerSelectGroupsResult Cookie matchinggroups =>
    exact (HandleControllerSelectGroupsResult_Quietly Y now S Cookie matchinggroups).calm
  | ControllerConfigResponse Cookie BaseConfig =>
    exact (HandleControllerConfigResponse_Quietly Y now S Cookie BaseConfig).calm
  | SystemStateResponse Cookie info => exact HandleSystemStateResponse_Calm Y now S Cookie info
  | VDiskStateResponse Cookie info => exact HandleVDiskStateResponse_Calm Y now S Cookie info
  | PDiskStateResponse Cookie info => exact HandlePDiskStateResponse_Calm Y now S Cookie info
  | BSGroupStateResponse Cookie info => exact HandleBSGroupStateResponse_Calm Y now S Cookie info
  | NodeDisconnected NodeId => exact Disconnected_Calm Y now S NodeId
  | ClientDestroyed => exact Calm.rfl_calm S
  | ClientConnected ok TabletId => exact (HandleClientConnected_Quietly Y now S ok TabletId).calm
  | RetryNodeWhiteboard NodeId EventId =>
    exact (HandleRetryNodeWhiteboard_Quietly Y now S NodeId EventId).calm
  | Wakeup => exact HandleTimeout_Calm Y now S

theorem StateWait_Inv (Y : TActorExternal) (now : TNow) (S : TSelfCheckRequestActor)
    (e : TEvent) (hI : S.Ledger.Own.Retry.Inv) : (S.StateWait Y now e).Ledger.Own.Retry.Inv := by
  cases e with
  | Undelivered Cookie SourceType => exact HandleUndelivered_Inv Y now S Cookie SourceType hI
  | NodesInfo Nodes => exact Inv_of_eq _ _ (HandleNodesInfo_Quietly Y now S Nodes).retry hI
  | ListTenantsResponse Cookie paths =>
    exact Inv_of_eq _ _ (HandleListTenantsResponse_Quietly Y now S Cookie paths).retry hI
  | GetTenantStatusResponse Cookie result =>
    exact Inv_of_eq _ _ (HandleGetTenantStatusResponse_Quietly Y now S Cookie result).retry hI
  | ResponseHiveDomainStats Cookie DomainStats =>
    exact Inv_of_eq _ _
      (HandleResponseHiveDomainStats_Quietly Y now S Cookie DomainStats).retry hI
  | ResponseHiveNodeStats Cookie NodeStats =>
    exact Inv_of_eq _ _ (HandleResponseHiveNodeStats_Quietly Y now S Cookie NodeStats).retry hI
  | ResponseHiveInfo Cookie Record =>
    exact Inv_of_eq _ _ (HandleResponseHiveInfo_Quietly Y now S Cookie Record).retry hI
  | DescribeSchemeResult Cookie Record =>
    exact Inv_of_eq _ _ (HandleDescribeSchemeResult_Quietly Y now S Cookie Record).retry hI
  | NavigateKeySetResult entry =>
    exact Inv_of_eq _ _ (HandleNavigateKeySetResult_Quietly Y now S entry).retry hI
  | ControllerSelectGroupsResult Cookie matchinggroups =>
    exact Inv_of_eq _ _
      (HandleControllerSelectGroupsResult_Quietly Y now S Cookie matchinggroups).retry hI
  | ControllerConfigResponse Cookie BaseConfig =>
    exact Inv_of_eq _ _
      (HandleControllerConfigResponse_Quietly Y now S Cookie BaseConfig).retry hI
  | SystemStateResponse Cookie info => exact HandleSystemStateResponse_Inv Y now S Cookie info hI
  | VDiskStateResponse Cookie info => exact HandleVDiskStateResponse_Inv Y now S Cookie info hI
  | PDiskStateResponse Cookie info => exact HandlePDiskStateResponse_Inv Y now S Cookie info hI
  | BSGroupStateResponse Cookie info =>
    exact HandleBSGroupStateResponse_Inv Y now S Cookie info hI
  | NodeDisconnected NodeId => exact Disconnected_Inv Y now S NodeId hI
  | ClientDestroyed => exact hI
  | ClientConnected ok TabletId =>
    exact Inv_of_eq _ _ (HandleClientConnected_Quietly Y now S ok TabletId).retry hI
  | RetryNodeWhiteboard NodeId EventId =>
    exact Inv_of_eq _ _ (HandleRetryNodeWhiteboard_Quietly Y now S NodeId EventId).retry hI
  | Wakeup => exact HandleTimeout_Inv Y now S hI

theorem Receive_Calm (Y : TActorExternal) (S : TSelfCheckRequestActor) (e : TNow × TEvent) :
    Calm S (S.Receive Y e) := by
  unfold TSelfCheckRequestActor.Receive
  split
  · exact Calm.rfl_calm S
  · exact StateWait_Calm Y e.1 S e.2

theorem Receive_Inv (Y : TActorExternal) (S : TSelfCheckRequestActor) (e : TNow × TEvent)
    (hI : S.Ledger.Own.Retry.Inv) : (S.Receive Y e).Ledger.Own.Retry.Inv := by
  unfold TSelfCheckRequestActor.Receive
  split
  · exact hI
  · exact StateWait_Inv Y e.1 S e.2 hI

theorem Run_Calm (Y : TActorExternal) (S : TSelfCheckRequestActor)
    (events : List (TNow × TEvent)) : Calm S (S.Run Y events) :=
  Calm_foldl _ (fun B a => Receive_Calm Y B a) events S

theorem Run_Inv (Y : TActorExternal) (S : TSelfCheckRequestActor)
    (events : List (TNow × TEvent)) (hI : S.Ledger.Own.Retry.Inv) :
    (S.Run Y events).Ledger.Own.Retry.Inv :=
  foldl_preserves (fun B : TSelfCheckRequestActor => B.Ledger.Own.Retry.Inv) _
    (fun B a hB => Receive_Inv Y B a hB) events S hI

/-! ### Bootstrap -/

theorem BootstrapConsole_Hush (now : TNow) (S : TSelfCheckRequestActor) :
    Hush S (S.BootstrapConsole now) := by
  unfold TSelfCheckRequestActor.BootstrapConsole
  split
  · dsimp only
    split
    · exact ⟨rfl, rfl⟩
    · split <;> exact ⟨rfl, rfl⟩
  · exact Hush.rfl_hush S

theorem BootstrapHive_Hush (now : TNow) (S : TSelfCheckRequestActor) :
    Hush S (S.BootstrapHive now) := by
  unfold TSelfCheckRequestActor.BootstrapHive
  split
  · exact ⟨rfl, rfl⟩
  · exact Hush.rfl_hush S

theorem BootstrapSchemeShard_Hush (now : TNow) (S : TSelfCheckRequestActor) :
    Hush S (S.BootstrapSchemeShard now) := by
  unfold TSelfCheckRequestActor.BootstrapSchemeShard
  split
  · exact ⟨rfl, rfl⟩
  · exact Hush.rfl_hush S

theorem BootstrapBSController_Hush (now : TNow) (S : TSelfCheckRequestActor) :
    Hush S (S.BootstrapBSController now) := by
  unfold TSelfCheckRequestActor.BootstrapBSController
  split
  · exact ⟨rfl, rfl⟩
  · exact Hush.rfl_hush S

theorem BootstrapPDisk_Retry (S : TSelfCheckRequestActor) (p : TNodeWardenServiceSet.TPDisk) :
    (S.BootstrapPDisk p).Ledger.Own.Retry = S.Ledger.Own.Retry := by
  unfold TSelfCheckRequestActor.BootstrapPDisk
  dsimp only
  split
  · exact (RequestStorageNode_Hush _ _).1
  · rfl

theorem BootstrapVDisk_Retry (S : TSelfCheckRequestActor) (p : TNodeWardenServiceSet.TVDisk) :
    (S.BootstrapVDisk p).Ledger.Own.Retry = S.Ledger.Own.Retry := by
  unfold TSelfCheckRequestActor.BootstrapVDisk
  dsimp only
  split <;> rfl

theorem BootstrapGroup_Retry (S : TSelfCheckRequestActor) (p : TGroupInfo) :
    (S.BootstrapGroup p).Ledger.Own.Retry = S.Ledger.Own.Retry := by
  unfold TSelfCheckRequestActor.BootstrapGroup
  dsimp only
  split_ifs <;> rfl

theorem BootstrapStatic_Retry (S : TSelfCheckRequestActor) (c : TNodeWardenServiceSet) :
    (S.BootstrapStatic c).Ledger.Own.Retry = S.Ledger.Own.Retry := by
  unfold TSelfCheckRequestActor.BootstrapStatic
  dsimp only
  have h1 : ∀ B : TSelfCheckRequestActor,
      (c.pdisks.foldl TSelfCheckRequestActor.BootstrapPDisk B).Ledger.Own.Retry =
        B.Ledger.Own.Retry := fun B =>
    foldl_preserves (fun A : TSelfCheckRequestActor => A.Ledger.Own.Retry = B.Ledger.Own.Retry)
      _ (fun A a hA => (BootstrapPDisk_Retry A a).trans hA) _ _ rfl
  have h2 : ∀ B : TSelfCheckRequestActor,
      (c.vdisks.foldl TSelfCheckRequestActor.BootstrapVDisk B).Ledger.Own.Retry =
        B.Ledger.Own.Retry := fun B =>
    foldl_preserves (fun A : TSelfCheckRequestActor => A.Ledger.Own.Retry = B.Ledger.Own.Retry)
      _ (fun A a hA => (BootstrapVDisk_Retry A a).trans hA) _ _ rfl
  have h3 : ∀ B : TSelfCheckRequestActor,
      (c.groups.foldl TSelfCheckRequestActor.BootstrapGroup B).Ledger.Own.Retry =
        B.Ledger.Own.Retry := fun B =>
    foldl_preserves (fun A : TSelfCheckRequestActor => A.Ledger.Own.Retry = B.Ledger.Own.Retry)
      _ (fun A a hA => (BootstrapGroup_Retry A a).trans hA) _ _ rfl
  rw [h3, h2, h1]

theorem Bootstrap_Retry (app : TAppData) (Request : TEvSelfCheckRequest) (Database : String)
    (now : TNow) :
    (Bootstrap app Request Database now).Ledger.Own.Retry =
      (TSelfCheckRequestActor.ctor app Request Database).Ledger.Own.Retry := by
  unfold Bootstrap
  dsimp only
  have h5 := BootstrapStatic_Retry
    ((((TSelfCheckRequestActor.ctor app Request Database).BootstrapConsole now).BootstrapHive
      now).BootstrapSchemeShard now |>.BootstrapBSController now) app.StaticBlobStorageConfig
  refine Eq.trans (b := _) h5 ?_
  rw [(BootstrapBSController_Hush now _).1, (BootstrapSchemeShard_Hush now _).1,
    (BootstrapHive_Hush now _).1, (BootstrapConsole_Hush now _).1]

/-! ### C25: the bound of the retries -/

/-- C25: within one request, started with no retry counted and none
scheduled, and whatever events arrive in whatever order, for every node and
whiteboard request type RetryRequestNodeWhiteboard has been called at most 4
times, and the number of retries scheduled for the pair is the number of
calls capped at 3: at most 3 retries per pair. A call of
RetryRequestNodeWhiteboard on any actor schedules a retry exactly when the
pair has fewer than 3 calls counted, counts one call more for the pair, and
leaves the count of every other pair as it was. Bootstrap leaves no retry
counted and none scheduled. -/
theorem retries_bounded (Y : TActorExternal) (S : TSelfCheckRequestActor)
    (events : List (TNow × TEvent)) (h1 : S.NodeRetries = []) (h2 : S.Scheduled = []) :
    (∀ (ev : EEv) (n : Nat),
      (S.Run Y events).Retries ev n ≤ 4 ∧
      (S.Run Y events).Scheduled.count (n, ev) = min ((S.Run Y events).Retries ev n) 3 ∧
      (S.Run Y events).Scheduled.count (n, ev) ≤ 3) ∧
    (∀ (A : TSelfCheckRequestActor) (ev : EEv) (n : Nat),
      (A.RetryRequestNodeWhiteboard ev n).1 = decide (A.Retries ev n < 3) ∧
      (A.RetryRequestNodeWhiteboard ev n).2.Retries ev n = (A.Retries ev n + 1) % 2 ^ 32 ∧
      (A.RetryRequestNodeWhiteboard ev n).2.Scheduled =
        (if A.Retries ev n < 3 then A.Scheduled ++ [(n, ev)] else A.Scheduled) ∧
      (∀ (ev2 : EEv) (n2 : Nat), (n2, ev2) ≠ (n, ev) →
        (A.RetryRequestNodeWhiteboard ev n).2.Retries ev2 n2 = A.Retries ev2 n2)) ∧
    (∀ (app : TAppData) (Request : TEvSelfCheckRequest) (Database : String) (now : TNow),
      (Bootstrap app Request Database now).NodeRetries = [] ∧
      (Bootstrap app Request Database now).Scheduled = []) := by
  refine ⟨?_, ?_, ?_⟩
  · intro ev n
    have hI := Run_Inv Y S events (Inv_nil _ h1 h2)
    obtain ⟨a, b, _⟩ := hI ev n
    refine ⟨a, b, ?_⟩
    have b2 : (S.Run Y events).Scheduled.count (n, ev) = min ((S.Run Y events).Retries ev n) 3 := b
    rw [b2]
    exact Nat.min_le_right _ _
  · intro A ev n
    by_cases h : A.Retries ev n < 3
    · rw [Retry_true A ev n h]
      refine ⟨by simp [h], ?_, by rw [if_pos h], ?_⟩
      · unfold TSelfCheckRequestActor.Retries
        dsimp only
        rw [hfind_set_same]
        rfl
      · intro ev2 n2 hne
        unfold TSelfCheckRequestActor.Retries
        dsimp only
        rw [hfind_set_ne _ _ _ _ hne]
    · rw [Retry_false A ev n (by omega)]
      refine ⟨by simp [h], ?_, by rw [if_neg h], ?_⟩
      · unfold TSelfCheckRequestActor.Retries
        dsimp only
        rw [hfind_set_same]
        rfl
      · intro ev2 n2 hne
        unfold TSelfCheckRequestActor.Retries
        dsimp only
        rw [hfind_set_ne _ _ _ _ hne]
  · intro app Request Database now
    have h := Bootstrap_Retry app Request Database now
    exact ⟨congrArg TRetry.NodeRetries h, congrArg TRetry.Scheduled h⟩

/-- C25 on an example: node 1 was asked as a storage node and five bsgroup
state requests to it are undelivered. Three retries are scheduled and four
calls are counted. -/
theorem retries_bounded_witness :
    exampleAskedNode.NodeRetries = [] ∧ exampleAskedNode.Scheduled = [] ∧
    (exampleAskedNode.Run exampleActorExternal exampleFailures).Scheduled =
      [(1, EEv.EvBSGroupStateRequest), (1, EEv.EvBSGroupStateRequest),
        (1, EEv.EvBSGroupStateRequest)] ∧
    (exampleAskedNode.Run exampleActorExternal exampleFailures).Retries
      EEv.EvBSGroupStateRequest 1 = 4 ∧
    (∀ (ev : EEv) (n : Nat),
      (exampleAskedNode.Run exampleActorExternal exampleFailures).Scheduled.count (n, ev) ≤ 3) :=
  ⟨rfl, rfl, by decide, by decide,
    fun ev n => ((retries_bounded exampleActorExternal exampleAskedNode exampleFailures
      rfl rfl).1 ev n).2.2⟩

/-! ### C29: the merged views and the valid sets -/

theorem mem_TSetInsert_iff (set : List String) (a x : String) :
    x ∈ TSetInsert set a ↔ x ∈ set ∨ x = a := by
  unfold TSetInsert
  split
  · constructor
    · exact Or.inl
    · rintro (h | h)
      · exact h
      · subst h; assumption
  · rw [List.mem_append, List.mem_singleton]

theorem mem_TNodeSetInsert_iff (set : List Nat) (a x : Nat) :
    x ∈ TNodeSetInsert set a ↔ x ∈ set ∨ x = a := by
  unfold TNodeSetInsert
  split
  · constructor
    · exact Or.inl
    · rintro (h | h)
      · exact h
      · subst h; assumption
  · rw [List.mem_append, List.mem_singleton]

theorem Seeded.nil_seeded {K T : Type} [DecidableEq K] (valid0 : List K)
    (merged0 : List (K × T)) : Seeded valid0 [] merged0 valid0 merged0 :=
  ⟨fun id => by simp, fun id => by simp, fun _ _ => rfl⟩

theorem Seeded.cons_seeded {K T : Type} [DecidableEq K] (valid0 ids : List K)
    (merged0 : List (K × T)) (k : K) (v : T) (valid1 : List K) (valid : List K)
    (merged : List (K × T))
    (hv : ∀ id, id ∈ valid1 ↔ id ∈ valid0 ∨ id = k)
    (h : Seeded valid1 ids
      (if (THashMap.find merged0 k).isNone then THashMap.emplace merged0 k v else merged0)
      valid merged) :
    Seeded valid0 (k :: ids) merged0 valid merged := by
  obtain ⟨h1, h2, h3⟩ := h
  have hk : ∀ id, id ∈ (if (THashMap.find merged0 k).isNone then THashMap.emplace merged0 k v
      else merged0).map Prod.fst ↔ id ∈ merged0.map Prod.fst ∨ id = k := by
    intro id
    split
    · rw [hkeys_emplace]
      exact or_comm
    · rename_i hn
      have hkm : k ∈ merged0.map Prod.fst := by
        by_contra hc
        exact hn ((hfind_isNone_iff _ _).2 hc)
      constructor
      · exact Or.inl
      · rintro (h | h)
        · exact h
        · subst h; exact hkm
  have hf : ∀ id, id ∈ merged0.map Prod.fst →
      THashMap.find (if (THashMap.find merged0 k).isNone then THashMap.emplace merged0 k v
        else merged0) id = THashMap.find merged0 id := by
    intro id hid
    split
    · rename_i hn
      have hkm : k ∉ merged0.map Prod.fst := (hfind_isNone_iff _ _).1 hn
      exact hfind_emplace_ne _ _ _ _ (fun e => hkm (e ▸ hid))
    · rfl
  refine ⟨fun id => ?_, fun id => ?_, fun id hid => ?_⟩
  · rw [h1, hv, List.mem_cons, or_assoc]
  · rw [h2, hk, List.mem_cons, or_assoc]
  · rw [h3 id ((hk id).2 (Or.inl hid)), hf id hid]

theorem foldl_AggregatePDisk (l : List TBaseConfig.TPDisk) (S : TSelfCheckRequestActor) :
    Seeded S.ValidPDisks (l.map TBaseConfig.TPDisk.GetPDiskId) S.MergedPDiskState
      (l.foldl TSelfCheckRequestActor.AggregatePDisk S).ValidPDisks
      (l.foldl TSelfCheckRequestActor.AggregatePDisk S).MergedPDiskState ∧
    (l.foldl TSelfCheckRequestActor.AggregatePDisk S).ValidVDisks = S.ValidVDisks ∧
    (l.foldl TSelfCheckRequestActor.AggregatePDisk S).ValidGroups = S.ValidGroups ∧
    (l.foldl TSelfCheckRequestActor.AggregatePDisk S).MergedVDiskState = S.MergedVDiskState ∧
    (l.foldl TSelfCheckRequestActor.AggregatePDisk S).MergedBSGroupState =
      S.MergedBSGroupState := by
  induction l generalizing S with
  | nil => exact ⟨Seeded.nil_seeded _ _, rfl, rfl, rfl, rfl⟩
  | cons p l ih =>
    obtain ⟨a, b, c, d, e⟩ := ih (S.AggregatePDisk p)
    have hV : (S.AggregatePDisk p).ValidPDisks = TSetInsert S.ValidPDisks p.GetPDiskId := by
      unfold TSelfCheckRequestActor.AggregatePDisk
      dsimp only
      split <;> rfl
    have hM : (S.AggregatePDisk p).MergedPDiskState =
        (if (THashMap.find S.MergedPDiskState p.GetPDiskId).isNone then
          THashMap.emplace S.MergedPDiskState p.GetPDiskId
            { nodeid := p.nodeid, pdiskid := p.pdiskid, path := p.path,
              TotalSize := p.totalsize, AvailableSize := p.availablesize }
        else S.MergedPDiskState) := by
      unfold TSelfCheckRequestActor.AggregatePDisk
      dsimp only
      split <;> rfl
    have hO : (S.AggregatePDisk p).ValidVDisks = S.ValidVDisks ∧
        (S.AggregatePDisk p).ValidGroups = S.ValidGroups ∧
        (S.AggregatePDisk p).MergedVDiskState = S.MergedVDiskState ∧
        (S.AggregatePDisk p).MergedBSGroupState = S.MergedBSGroupState := by
      unfold TSelfCheckRequestActor.AggregatePDisk
      dsimp only
      split <;> exact ⟨rfl, rfl, rfl, rfl⟩
    rw [hM] at a
    refine ⟨?_, b.trans hO.1, c.trans hO.2.1, d.trans hO.2.2.1, e.trans hO.2.2.2⟩
    refine Seeded.cons_seeded _ _ _ _ _ _ _ _ (fun id => ?_) a
    rw [hV]
    exact mem_TSetInsert_iff _ _ _

theorem foldl_AggregateVSlot (l : List TBaseConfig.TVSlot)
    (acc : List (TVSlotId × TBaseConfig.TVSlot) × TSelfCheckRequestActor) :
    Seeded acc.2.ValidVDisks (l.map TBaseConfig.TVSlot.GetVDiskId) acc.2.MergedVDiskState
      (l.foldl TSelfCheckRequestActor.AggregateVSlot acc).2.ValidVDisks
      (l.foldl TSelfCheckRequestActor.AggregateVSlot acc).2.MergedVDiskState ∧
    (l.foldl TSelfCheckRequestActor.AggregateVSlot acc).2.ValidPDisks = acc.2.ValidPDisks ∧
    (l.foldl TSelfCheckRequestActor.AggregateVSlot acc).2.ValidGroups = acc.2.ValidGroups ∧
    (l.foldl TSelfCheckRequestActor.AggregateVSlot acc).2.MergedPDiskState =
      acc.2.MergedPDiskState ∧
    (l.foldl TSelfCheckRequestActor.AggregateVSlot acc).2.MergedBSGroupState =
      acc.2.MergedBSGroupState := by
  induction l generalizing acc with
  | nil => exact ⟨Seeded.nil_seeded _ _, rfl, rfl, rfl, rfl⟩
  | cons p l ih =>
    obtain ⟨a, b, c, d, e⟩ := ih (TSelfCheckRequestActor.AggregateVSlot acc p)
    have hV : (TSelfCheckRequestActor.AggregateVSlot acc p).2.ValidVDisks =
        TSetInsert acc.2.ValidVDisks p.GetVDiskId := by
      unfold TSelfCheckRequestActor.AggregateVSlot
      dsimp only
      split <;> rfl
    have hM : (TSelfCheckRequestActor.AggregateVSlot acc p).2.MergedVDiskState =
        (if (THashMap.find acc.2.MergedVDiskState p.GetVDiskId).isNone then
          THashMap.emplace acc.2.MergedVDiskState p.GetVDiskId
            { vdiskid :=
                { groupid := p.groupid, groupgeneration := p.groupgeneration,
                  ring := p.failrealmidx, domain := p.faildomainidx,
                  vdisk := p.vslotid.vslotid }
              nodeid := p.vslotid.nodeid
              pdiskid := p.vslotid.pdiskid }
        else acc.2.MergedVDiskState) := by
      unfold TSelfCheckRequestActor.AggregateVSlot
      dsimp only
      split <;> rfl
    have hO : (TSelfCheckRequestActor.AggregateVSlot acc p).2.ValidPDisks = acc.2.ValidPDisks ∧
        (TSelfCheckRequestActor.AggregateVSlot acc p).2.ValidGroups = acc.2.ValidGroups ∧
        (TSelfCheckRequestActor.AggregateVSlot acc p).2.MergedPDiskState =
          acc.2.MergedPDiskState ∧
        (TSelfCheckRequestActor.AggregateVSlot acc p).2.MergedBSGroupState =
          acc.2.MergedBSGroupState := by
      unfold TSelfCheckRequestActor.AggregateVSlot
      dsimp only
      split <;> exact ⟨rfl, rfl, rfl, rfl⟩
    rw [hM] at a
    refine ⟨?_, b.trans hO.1, c.trans hO.2.1, d.trans hO.2.2.1, e.trans hO.2.2.2⟩
    refine Seeded.cons_seeded _ _ _ _ _ _ _ _ (fun id => ?_) a
    rw [hV]
    exact mem_TSetInsert_iff _ _ _

theorem foldl_AggregateGroup (Y : TActorExternal)
    (slotsIndex : List (TVSlotId × TBaseConfig.TVSlot)) (l : List TBaseConfig.TGroup)
    (S : TSelfCheckRequestActor) :
    Seeded S.ValidGroups (l.map (fun group => group.groupid)) S.MergedBSGroupState
      (l.foldl (TSelfCheckRequestActor.AggregateGroup Y slotsIndex) S).ValidGroups
      (l.foldl (TSelfCheckRequestActor.AggregateGroup Y slotsIndex) S).MergedBSGroupState ∧
    (l.foldl (TSelfCheckRequestActor.AggregateGroup Y slotsIndex) S).ValidPDisks =
      S.ValidPDisks ∧
    (l.foldl (TSelfCheckRequestActor.AggregateGroup Y slotsIndex) S).ValidVDisks =
      S.ValidVDisks ∧
    (l.foldl (TSelfCheckRequestActor.AggregateGroup Y slotsIndex) S).MergedPDiskState =
      S.MergedPDiskState ∧
    (l.foldl (TSelfCheckRequestActor.AggregateGroup Y slotsIndex) S).MergedVDiskState =
      S.MergedVDiskState := by
  induction l generalizing S with
  | nil => exact ⟨Seeded.nil_seeded _ _, rfl, rfl, rfl, rfl⟩
  | cons p l ih =>
    obtain ⟨a, b, c, d, e⟩ := ih (S.AggregateGroup Y slotsIndex p)
    have hV : (S.AggregateGroup Y slotsIndex p).ValidGroups =
        TNodeSetInsert S.ValidGroups p.groupid := by
      unfold TSelfCheckRequestActor.AggregateGroup
      dsimp only
      split <;> rfl
    have hM : (S.AggregateGroup Y slotsIndex p).MergedBSGroupState =
        (if (THashMap.find S.MergedBSGroupState p.groupid).isNone then
          THashMap.emplace S.MergedBSGroupState p.groupid
            { groupid := p.groupid, groupgeneration := p.groupgeneration,
              erasurespecies := p.erasurespecies,
              vdiskids := GroupVDiskIds Y slotsIndex p }
        else S.MergedBSGroupState) := by
      unfold TSelfCheckRequestActor.AggregateGroup
      dsimp only
      split <;> rfl
    have hO : (S.AggregateGroup Y slotsIndex p).ValidPDisks = S.ValidPDisks ∧
        (S.AggregateGroup Y slotsIndex p).ValidVDisks = S.ValidVDisks ∧
        (S.AggregateGroup Y slotsIndex p).MergedPDiskState = S.MergedPDiskState ∧
        (S.AggregateGroup Y slotsIndex p).MergedVDiskState = S.MergedVDiskState := by
      unfold TSelfCheckRequestActor.AggregateGroup
      dsimp only
      split <;> exact ⟨rfl, rfl, rfl, rfl⟩
    rw [hM] at a
    refine ⟨?_, b.trans hO.1, c.trans hO.2.1, d.trans hO.2.2.1, e.trans hO.2.2.2⟩
    refine Seeded.cons_seeded _ _ _ _ _ _ _ _ (fun id => ?_) a
    rw [hV]
    exact mem_TNodeSetInsert_iff _ _ _

theorem AggregateBaseConfig_Seeded (Y : TActorExternal) (S : TSelfCheckRequestActor) :
    Seeded S.ValidPDisks S.BasePDiskIds S.MergedPDiskState
      (S.AggregateBaseConfig Y).ValidPDisks (S.AggregateBaseConfig Y).MergedPDiskState ∧
    Seeded S.ValidVDisks S.BaseVDiskIds S.MergedVDiskState
      (S.AggregateBaseConfig Y).ValidVDisks (S.AggregateBaseConfig Y).MergedVDiskState ∧
    Seeded S.ValidGroups S.BaseGroupIds S.MergedBSGroupState
      (S.AggregateBaseConfig Y).ValidGroups (S.AggregateBaseConfig Y).MergedBSGroupState := by
  unfold TSelfCheckRequestActor.AggregateBaseConfig TSelfCheckRequestActor.BasePDiskIds
    TSelfCheckRequestActor.BaseVDiskIds TSelfCheckRequestActor.BaseGroupIds
  cases S.BaseConfig with
  | none => exact ⟨Seeded.nil_seeded _ _, Seeded.nil_seeded _ _, Seeded.nil_seeded _ _⟩
  | some c =>
    dsimp only
    obtain ⟨a1, b1, c1, d1, e1⟩ := foldl_AggregatePDisk c.PDisk S
    obtain ⟨a2, b2, c2, d2, e2⟩ := foldl_AggregateVSlot c.VSlot
      ([], c.PDisk.foldl TSelfCheckRequestActor.AggregatePDisk S)
    obtain ⟨a3, b3, c3, d3, e3⟩ := foldl_AggregateGroup Y
      (c.VSlot.foldl TSelfCheckRequestActor.AggregateVSlot
        ([], c.PDisk.foldl TSelfCheckRequestActor.AggregatePDisk S)).1 c.Group
      (c.VSlot.foldl TSelfCheckRequestActor.AggregateVSlot
        ([], c.PDisk.foldl TSelfCheckRequestActor.AggregatePDisk S)).2
    dsimp only at a2 b2 c2 d2 e2
    refine ⟨?_, ?_, ?_⟩
    · rw [b3, d3, b2, d2]
      exact a1
    · rw [c3, e3]
      rw [b1, d1] at a2
      exact a2
    · rw [c2, e2, c1, e1] at a3
      exact a3

theorem hkeys_filter {K V : Type} [DecidableEq K] (m : List (K × V)) (p : K → Bool) (k : K) :
    k ∈ (m.filter (fun e => p e.1)).map Prod.fst ↔ k ∈ m.map Prod.fst ∧ p k = true := by
  simp only [List.mem_map, List.mem_filter]
  constructor
  · rintro ⟨e, ⟨h1, h2⟩, h3⟩
    subst h3
    exact ⟨⟨e, h1, rfl⟩, h2⟩
  · rintro ⟨⟨e, h1, h3⟩, h2⟩
    subst h3
    exact ⟨e, ⟨h1, h2⟩, rfl⟩

theorem ValidView_of_Seeded {K T : Type} [DecidableEq K] (valid0 base : List K)
    (merged0 : List (K × T)) (valid : List K) (merged : List (K × T))
    (h : Seeded valid0 base merged0 valid merged) :
    ValidView valid0 base merged0 valid (merged.filter (fun e => decide (e.1 ∈ valid))) := by
  obtain ⟨h1, h2, h3⟩ := h
  refine ⟨h1, fun id hid => ?_, fun id hid => ?_, fun id hid => ?_, fun id hv hid => ?_⟩
  · have := ((hkeys_filter merged (fun k => decide (k ∈ valid)) id).1 hid).2
    simpa using this
  · refine (hkeys_filter merged (fun k => decide (k ∈ valid)) id).2 ⟨(h2 id).2 (Or.inr hid), ?_⟩
    simpa using (h1 id).2 (Or.inr hid)
  · rw [hfind_filter merged (fun k => decide (k ∈ valid)) id]
    simp [hid]
  · rw [hfind_filter merged (fun k => decide (k ∈ valid)) id]
    simp [hv, h3 id hid]

theorem BootstrapPDisk_Seal (S : TSelfCheckRequestActor) (p : TNodeWardenServiceSet.TPDisk) :
    (S.BootstrapPDisk p).Seal =
      { S.Seal with ValidPDisks := TSetInsert S.ValidPDisks p.GetPDiskId } := by
  unfold TSelfCheckRequestActor.BootstrapPDisk
  dsimp only
  split
  · exact (RequestStorageNode_Hush _ _).2
  · rfl

theorem BootstrapVDisk_Seal (S : TSelfCheckRequestActor) (p : TNodeWardenServiceSet.TVDisk) :
    (S.BootstrapVDisk p).Seal =
      { S.Seal with ValidVDisks := TSetInsert S.ValidVDisks (GetVDiskId p.vdiskid) } := by
  unfold TSelfCheckRequestActor.BootstrapVDisk
  dsimp only
  split <;> rfl

theorem BootstrapGroup_Seal (S : TSelfCheckRequestActor) (p : TGroupInfo) :
    (S.BootstrapGroup p).Seal =
      { S.Seal with ValidGroups := TNodeSetInsert S.ValidGroups p.groupid } := by
  unfold TSelfCheckRequestActor.BootstrapGroup
  dsimp only
  split_ifs <;> rfl

theorem foldl_BootstrapPDisk (l : List TNodeWardenServiceSet.TPDisk)
    (S : TSelfCheckRequestActor) :
    (∀ id, id ∈ (l.foldl TSelfCheckRequestActor.BootstrapPDisk S).ValidPDisks ↔
      id ∈ S.ValidPDisks ∨ id ∈ l.map TNodeWardenServiceSet.TPDisk.GetPDiskId) ∧
    (l.foldl TSelfCheckRequestActor.BootstrapPDisk S).ValidVDisks = S.ValidVDisks ∧
    (l.foldl TSelfCheckRequestActor.BootstrapPDisk S).ValidGroups = S.ValidGroups ∧
    (l.foldl TSelfCheckRequestActor.BootstrapPDisk S).PassedAway = S.PassedAway := by
  induction l generalizing S with
  | nil => exact ⟨fun id => by simp, rfl, rfl, rfl⟩
  | cons p l ih =>
    obtain ⟨a, b, c, d⟩ := ih (S.BootstrapPDisk p)
    have h := BootstrapPDisk_Seal S p
    have h1 : (S.BootstrapPDisk p).ValidPDisks = TSetInsert S.ValidPDisks p.GetPDiskId :=
      congrArg TSeal.ValidPDisks h
    have h2 : (S.BootstrapPDisk p).ValidVDisks = S.ValidVDisks := congrArg TSeal.ValidVDisks h
    have h3 : (S.BootstrapPDisk p).ValidGroups = S.ValidGroups := congrArg TSeal.ValidGroups h
    have h4 : (S.BootstrapPDisk p).PassedAway = S.PassedAway := congrArg TSeal.PassedAway h
    refine ⟨fun id => ?_, b.trans h2, c.trans h3, d.trans h4⟩
    rw [List.foldl_cons, a, h1, mem_TSetInsert_iff, List.map_cons, List.mem_cons, or_assoc]

theorem foldl_BootstrapVDisk (l : List TNodeWardenServiceSet.TVDisk)
    (S : TSelfCheckRequestActor) :
    (∀ id, id ∈ (l.foldl TSelfCheckRequestActor.BootstrapVDisk S).ValidVDisks ↔
      id ∈ S.ValidVDisks ∨ id ∈ l.map (fun vDisk => GetVDiskId vDisk.vdiskid)) ∧
    (l.foldl TSelfCheckRequestActor.BootstrapVDisk S).ValidPDisks = S.ValidPDisks ∧
    (l.foldl TSelfCheckRequestActor.BootstrapVDisk S).ValidGroups = S.ValidGroups ∧
    (l.foldl TSelfCheckRequestActor.BootstrapVDisk S).PassedAway = S.PassedAway := by
  induction l generalizing S with
  | nil => exact ⟨fun id => by simp, rfl, rfl, rfl⟩
  | cons p l ih =>
    obtain ⟨a, b, c, d⟩ := ih (S.BootstrapVDisk p)
    have h := BootstrapVDisk_Seal S p
    have h1 : (S.BootstrapVDisk p).ValidVDisks =
        TSetInsert S.ValidVDisks (GetVDiskId p.vdiskid) := congrArg TSeal.ValidVDisks h
    have h2 : (S.BootstrapVDisk p).ValidPDisks = S.ValidPDisks := congrArg TSeal.ValidPDisks h
    have h3 : (S.BootstrapVDisk p).ValidGroups = S.ValidGroups := congrArg TSeal.ValidGroups h
    have h4 : (S.BootstrapVDisk p).PassedAway = S.PassedAway := congrArg TSeal.PassedAway h
    refine ⟨fun id => ?_, b.trans h2, c.trans h3, d.trans h4⟩
    rw [List.foldl_cons, a, h1, mem_TSetInsert_iff, List.map_cons, List.mem_cons, or_assoc]

theorem foldl_BootstrapGroup (l : List TGroupInfo) (S : TSelfCheckRequestActor) :
    (∀ id, id ∈ (l.foldl TSelfCheckRequestActor.BootstrapGroup S).ValidGroups ↔
      id ∈ S.ValidGroups ∨ id ∈ l.map (fun group => group.groupid)) ∧
    (l.foldl TSelfCheckRequestActor.BootstrapGroup S).ValidPDisks = S.ValidPDisks ∧
    (l.foldl TSelfCheckRequestActor.BootstrapGroup S).ValidVDisks = S.ValidVDisks ∧
    (l.foldl TSelfCheckRequestActor.BootstrapGroup S).PassedAway = S.PassedAway := by
  induction l generalizing S with
  | nil => exact ⟨fun id => by simp, rfl, rfl, rfl⟩
  | cons p l ih =>
    obtain ⟨a, b, c, d⟩ := ih (S.BootstrapGroup p)
    have h := BootstrapGroup_Seal S p
    have h1 : (S.BootstrapGroup p).ValidGroups = TNodeSetInsert S.ValidGroups p.groupid :=
      congrArg TSeal.ValidGroups h
    have h2 : (S.BootstrapGroup p).ValidPDisks = S.ValidPDisks := congrArg TSeal.ValidPDisks h
    have h3 : (S.BootstrapGroup p).ValidVDisks = S.ValidVDisks := congrArg TSeal.ValidVDisks h
    have h4 : (S.BootstrapGroup p).PassedAway = S.PassedAway := congrArg TSeal.PassedAway h
    refine ⟨fun id => ?_, b.trans h2, c.trans h3, d.trans h4⟩
    rw [List.foldl_cons, a, h1, mem_TNodeSetInsert_iff, List.map_cons, List.mem_cons, or_assoc]

theorem BootstrapStatic_Valid (S : TSelfCheckRequestActor) (c : TNodeWardenServiceSet) :
    (∀ id, id ∈ (S.BootstrapStatic c).ValidPDisks ↔
      id ∈ S.ValidPDisks ∨ id ∈ c.pdisks.map TNodeWardenServiceSet.TPDisk.GetPDiskId) ∧
    (∀ id, id ∈ (S.BootstrapStatic c).ValidVDisks ↔
      id ∈ S.ValidVDisks ∨ id ∈ c.vdisks.map (fun vDisk => GetVDiskId vDisk.vdiskid)) ∧
    (∀ id, id ∈ (S.BootstrapStatic c).ValidGroups ↔
      id ∈ S.ValidGroups ∨ id ∈ c.groups.map (fun group => group.groupid)) ∧
    (S.BootstrapStatic c).PassedAway = S.PassedAway := by
  unfold TSelfCheckRequestActor.BootstrapStatic
  dsimp only
  obtain ⟨a1, b1, c1, d1⟩ := foldl_BootstrapPDisk c.pdisks S
  obtain ⟨a2, b2, c2, d2⟩ := foldl_BootstrapVDisk c.vdisks
    (c.pdisks.foldl TSelfCheckRequestActor.BootstrapPDisk S)
  obtain ⟨a3, b3, c3, d3⟩ := foldl_BootstrapGroup c.groups
    (c.vdisks.foldl TSelfCheckRequestActor.BootstrapVDisk
      (c.pdisks.foldl TSelfCheckRequestActor.BootstrapPDisk S))
  refine ⟨fun id => ?_, fun id => ?_, fun id => ?_, ?_⟩
  · rw [b3, b2]
    exact a1 id
  · rw [c3, a2, b1]
  · rw [a3, c2, c1]
  · rw [d3, d2, d1]

theorem Bootstrap_Valid (app : TAppData) (Request : TEvSelfCheckRequest) (Database : String)
    (now : TNow) :
    (∀ id, id ∈ (Bootstrap app Request Database now).ValidPDisks ↔
      id ∈ app.StaticBlobStorageConfig.pdisks.map TNodeWardenServiceSet.TPDisk.GetPDiskId) ∧
    (∀ id, id ∈ (Bootstrap app Request Database now).ValidVDisks ↔
      id ∈ app.StaticBlobStorageConfig.vdisks.map (fun vDisk => GetVDiskId vDisk.vdiskid)) ∧
    (∀ id, id ∈ (Bootstrap app Request Database now).ValidGroups ↔
      id ∈ app.StaticBlobStorageConfig.groups.map (fun group => group.groupid)) ∧
    (Bootstrap app Request Database now).PassedAway = false := by
  have h0 : ((((TSelfCheckRequestActor.ctor app Request Database).BootstrapConsole
      now).BootstrapHive now).BootstrapSchemeShard now |>.BootstrapBSController now).Seal =
      (TSelfCheckRequestActor.ctor app Request Database).Seal := by
    rw [(BootstrapBSController_Hush now _).2, (BootstrapSchemeShard_Hush now _).2,
      (BootstrapHive_Hush now _).2, (BootstrapConsole_Hush now _).2]
  obtain ⟨a, b, c, d⟩ := BootstrapStatic_Valid
    ((((TSelfCheckRequestActor.ctor app Request Database).BootstrapConsole
      now).BootstrapHive now).BootstrapSchemeShard now |>.BootstrapBSController now)
    app.StaticBlobStorageConfig
  have e1 := congrArg TSeal.ValidPDisks h0
  have e2 := congrArg TSeal.ValidVDisks h0
  have e3 := congrArg TSeal.ValidGroups h0
  have e4 := congrArg TSeal.PassedAway h0
  dsimp only [TSelfCheckRequestActor.Seal] at e1 e2 e3 e4
  rw [e1] at a
  rw [e2] at b
  rw [e3] at c
  rw [e4] at d
  refine ⟨fun id => ?_, fun id => ?_, fun id => ?_, d⟩
  · exact (a id).trans (by simp [TSelfCheckRequestActor.ctor])
  · exact (b id).trans (by simp [TSelfCheckRequestActor.ctor])
  · exact (c id).trans (by simp [TSelfCheckRequestActor.ctor])

/-- C29: after AggregateBSControllerState, whatever the valid sets, the base
config and the merged views were before, the valid pdisk set is the one
before and the pdisk ids of the base config; every key of the merged pdisk
view is a valid pdisk id; every pdisk id of the base config is a key of the
view; the view has no entry for any other id; and an entry the view had for
a valid id is kept as it was. The same holds for the merged vdisk view with
the valid vdisk set and for the merged group view with the valid group set.
Until the actor replies, the valid sets are the ids of the static
configuration, whatever events it has received since Bootstrap. -/
theorem merged_views_valid (Y : TActorExternal) (S : TSelfCheckRequestActor) :
    ValidView S.ValidPDisks S.BasePDiskIds S.MergedPDiskState
      (S.AggregateBSControllerState Y).ValidPDisks
      (S.AggregateBSControllerState Y).MergedPDiskState ∧
    ValidView S.ValidVDisks S.BaseVDiskIds S.MergedVDiskState
      (S.AggregateBSControllerState Y).ValidVDisks
      (S.AggregateBSControllerState Y).MergedVDiskState ∧
    ValidView S.ValidGroups S.BaseGroupIds S.MergedBSGroupState
      (S.AggregateBSControllerState Y).ValidGroups
      (S.AggregateBSControllerState Y).MergedBSGroupState ∧
    (∀ (app : TAppData) (Request : TEvSelfCheckRequest) (Database : String) (now : TNow)
      (events : List (TNow × TEvent)),
      ((Bootstrap app Request Database now).Run Y events).PassedAway = false →
      (∀ id, id ∈ ((Bootstrap app Request Database now).Run Y events).ValidPDisks ↔
        id ∈ app.StaticBlobStorageConfig.pdisks.map TNodeWardenServiceSet.TPDisk.GetPDiskId) ∧
      (∀ id, id ∈ ((Bootstrap app Request Database now).Run Y events).ValidVDisks ↔
        id ∈ app.StaticBlobStorageConfig.vdisks.map (fun vDisk => GetVDiskId vDisk.vdiskid)) ∧
      (∀ id, id ∈ ((Bootstrap app Request Database now).Run Y events).ValidGroups ↔
        id ∈ app.StaticBlobStorageConfig.groups.map (fun group => group.groupid))) ∧
    (exampleStalePDisk.AggregateBSControllerState exampleActorExternal).MergedPDiskState.map
      Prod.fst = ["1-1", "2-1"] := by
  obtain ⟨a, b, c⟩ := AggregateBaseConfig_Seeded Y S
  refine ⟨ValidView_of_Seeded _ _ _ _ _ a, ValidView_of_Seeded _ _ _ _ _ b,
    ValidView_of_Seeded _ _ _ _ _ c, ?_, by decide⟩
  intro app Request Database now events hp
  obtain ⟨h1, h2, h3⟩ := (Run_Calm Y (Bootstrap app Request Database now) events).2 hp
  obtain ⟨a, b, c, _⟩ := Bootstrap_Valid app Request Database now
  rw [h1, h2, h3]
  exact ⟨a, b, c⟩

/-! ### C30: the latest generation of a group -/

theorem Reported.nil_reported (Y : TActorExternal) (m0 : List (Nat × TBSGroupStateInfo))
    (p0 : List (String × TStoragePoolState)) : Reported Y m0 m0 p0 p0 [] := by
  refine ⟨fun g e h => Or.inl h, fun g e0 h => ⟨e0, h, le_refl _⟩, fun st h => ?_,
    fun name x => ?_⟩
  · cases h
  · simp

theorem Reported.trans_reported (Y : TActorExternal) {m0 m1 m : List (Nat × TBSGroupStateInfo)}
    {p0 p1 p : List (String × TStoragePoolState)} {s1 s2 : List TBSGroupStateInfo}
    (h1 : Reported Y m0 m1 p0 p1 s1) (h2 : Reported Y m1 m p1 p s2) :
    Reported Y m0 m p0 p (s1 ++ s2) := by
  obtain ⟨k1, a1, b1, c1⟩ := h1
  obtain ⟨k2, a2, b2, c2⟩ := h2
  refine ⟨fun g e h => ?_, fun g e0 h => ?_, fun st h => ?_, fun name x => ?_⟩
  · rcases k2 g e h with h3 | ⟨st, hst, hg, he⟩
    · rcases k1 g e h3 with h4 | ⟨st, hst, hg, he⟩
      · exact Or.inl h4
      · exact Or.inr ⟨st, List.mem_append_left _ hst, hg, he⟩
    · exact Or.inr ⟨st, List.mem_append_right _ hst, hg, he⟩
  · obtain ⟨e1, h3, h4⟩ := a1 g e0 h
    obtain ⟨e, h5, h6⟩ := a2 g e1 h3
    exact ⟨e, h5, le_trans h4 h6⟩
  · rcases List.mem_append.1 h with h3 | h3
    · obtain ⟨e1, h4, h5⟩ := b1 st h3
      obtain ⟨e, h6, h7⟩ := a2 _ e1 h4
      exact ⟨e, h6, le_trans h5 h7⟩
    · exact b2 st h3
  · rw [c2, c1]
    constructor
    · rintro ((h | ⟨st, hst, h⟩) | ⟨st, hst, h⟩)
      · exact Or.inl h
      · exact Or.inr ⟨st, List.mem_append_left _ hst, h⟩
      · exact Or.inr ⟨st, List.mem_append_right _ hst, h⟩
    · rintro (h | ⟨st, hst, h⟩)
      · exact Or.inl (Or.inl h)
      · rcases List.mem_append.1 hst with h3 | h3
        · exact Or.inl (Or.inr ⟨st, h3, h⟩)
        · exact Or.inr ⟨st, h3, h⟩

theorem MergeBSGroupState_Merged (Y : TActorExternal) (S : TSelfCheckRequestActor)
    (st : TBSGroupStateInfo) :
    (S.MergeBSGroupState Y st).MergedBSGroupState =
      (match THashMap.find S.MergedBSGroupState st.groupid with
        | none => THashMap.set S.MergedBSGroupState st.groupid st
        | some current =>
          if current.groupgeneration < st.groupgeneration then
            THashMap.set S.MergedBSGroupState st.groupid st
          else S.MergedBSGroupState) := by
  unfold TSelfCheckRequestActor.MergeBSGroupState
  cases h : THashMap.find S.MergedBSGroupState st.groupid with
  | none =>
    dsimp only
    split <;> rfl
  | some current =>
    dsimp only
    by_cases h2 : current.groupgeneration < st.groupgeneration
    · simp only [h2, if_true]
      split <;> rfl
    · simp only [h2, if_false]
      split <;> rfl

theorem MergeBSGroupState_Pools (Y : TActorExternal) (S : TSelfCheckRequestActor)
    (st : TBSGroupStateInfo) :
    (S.MergeBSGroupState Y st).StoragePoolState =
      (if st.storagepoolname = "" ∧ Y.Static st.groupid = false then S.StoragePoolState
        else THashMap.set S.StoragePoolState st.storagepoolname
          { (THashMap.find S.StoragePoolState st.storagepoolname).getD {} with
            Groups := TNodeSetInsert
              ((THashMap.find S.StoragePoolState st.storagepoolname).getD {}).Groups
              st.groupid }) := by
  unfold TSelfCheckRequestActor.MergeBSGroupState
  cases h : THashMap.find S.MergedBSGroupState st.groupid with
  | none =>
    dsimp only
    by_cases h3 : st.storagepoolname = "" ∧ Y.Static st.groupid = false
    · rw [if_pos h3, if_pos (by simpa using h3)]
    · rw [if_neg h3, if_neg (by simpa using h3)]
      rfl
  | some current =>
    dsimp only
    by_cases h3 : st.storagepoolname = "" ∧ Y.Static st.groupid = false
    · rw [if_pos h3, if_pos (by simpa using h3)]
      split <;> rfl
    · rw [if_neg h3, if_neg (by simpa using h3)]
      split <;> rfl

theorem Reported_step (Y : TActorExternal) (S : TSelfCheckRequestActor)
    (st : TBSGroupStateInfo) :
    Reported Y S.MergedBSGroupState (S.MergeBSGroupState Y st).MergedBSGroupState
      S.StoragePoolState (S.MergeBSGroupState Y st).StoragePoolState [st] := by
  rw [MergeBSGroupState_Merged, MergeBSGroupState_Pools]
  refine ⟨fun g e h => ?_, fun g e0 h => ?_, fun st2 h => ?_, fun name x => ?_⟩
  · by_cases hg : g = st.groupid
    · subst hg
      cases hf : THashMap.find S.MergedBSGroupState st.groupid with
      | none =>
        rw [hf] at h
        dsimp only at h
        rw [hfind_set_same] at h
        exact Or.inr ⟨st, List.mem_singleton.2 rfl, rfl, (Option.some.inj h).symm⟩
      | some current =>
        rw [hf] at h
        dsimp only at h
        by_cases h2 : current.groupgeneration < st.groupgeneration
        · rw [if_pos h2, hfind_set_same] at h
          exact Or.inr ⟨st, List.mem_singleton.2 rfl, rfl, (Option.some.inj h).symm⟩
        · rw [if_neg h2] at h
          exact Or.inl (hf.symm.trans h)
    · left
      cases hf : THashMap.find S.MergedBSGroupState st.groupid with
      | none =>
        rw [hf] at h
        dsimp only at h
        rw [hfind_set_ne _ _ _ _ hg] at h
        exact h
      | some current =>
        rw [hf] at h
        dsimp only at h
        by_cases h2 : current.groupgeneration < st.groupgeneration
        · rw [if_pos h2, hfind_set_ne _ _ _ _ hg] at h
          exact h
        · rw [if_neg h2] at h
          exact h
  · by_cases hg : g = st.groupid
    · subst hg
      rw [h]
      dsimp only
      by_cases h2 : e0.groupgeneration < st.groupgeneration
      · rw [if_pos h2, hfind_set_same]
        exact ⟨st, rfl, le_of_lt h2⟩
      · rw [if_neg h2]
        exact ⟨e0, h, le_refl _⟩
    · refine ⟨e0, ?_, le_refl _⟩
      cases hf : THashMap.find S.MergedBSGroupState st.groupid with
      | none =>
        dsimp only
        rw [hfind_set_ne _ _ _ _ hg]
        exact h
      | some current =>
        dsimp only
        by_cases h2 : current.groupgeneration < st.groupgeneration
        · rw [if_pos h2, hfind_set_ne _ _ _ _ hg]
          exact h
        · rw [if_neg h2]
          exact h
  · rw [List.mem_singleton.1 h]
    cases hf : THashMap.find S.MergedBSGroupState st.groupid with
    | none =>
      dsimp only
      rw [hfind_set_same]
      exact ⟨st, rfl, le_refl _⟩
    | some current =>
      dsimp only
      by_cases h2 : current.groupgeneration < st.groupgeneration
      · rw [if_pos h2, hfind_set_same]
        exact ⟨st, rfl, le_refl _⟩
      · rw [if_neg h2]
        exact ⟨current, hf, not_lt.1 h2⟩
  · by_cases h3 : st.storagepoolname = "" ∧ Y.Static st.groupid = false
    · rw [if_pos h3]
      constructor
      · exact Or.inl
      · rintro (h | ⟨st2, hst, _, _, h6⟩)
        · exact h
        · rw [List.mem_singleton.1 hst] at h6
          exact absurd h3 h6
    · rw [if_neg h3]
      by_cases hn : name = st.storagepoolname
      · subst hn
        rw [hfind_set_same]
        show x ∈ TNodeSetInsert _ _ ↔ _
        rw [mem_TNodeSetInsert_iff]
        constructor
        · rintro (h | h)
          · exact Or.inl h
          · exact Or.inr ⟨st, List.mem_singleton.2 rfl, rfl, h.symm, h3⟩
        · rintro (h | ⟨st2, hst, _, h5, _⟩)
          · exact Or.inl h
          · rw [List.mem_singleton.1 hst] at h5
            exact Or.inr h5.symm
      · rw [hfind_set_ne _ _ _ _ hn]
        constructor
        · exact Or.inl
        · rintro (h | ⟨st2, hst, h4, _, _⟩)
          · exact h
          · rw [List.mem_singleton.1 hst] at h4
            exact absurd h4.symm hn

theorem Reported_foldl (Y : TActorExternal) (sts : List TBSGroupStateInfo)
    (S : TSelfCheckRequestActor) :
    Reported Y S.MergedBSGroupState
      (sts.foldl (TSelfCheckRequestActor.MergeBSGroupState Y) S).MergedBSGroupState
      S.StoragePoolState
      (sts.foldl (TSelfCheckRequestActor.MergeBSGroupState Y) S).StoragePoolState sts := by
  induction sts generalizing S with
  | nil => exact Reported.nil_reported Y _ _
  | cons st sts ih =>
    exact (Reported_step Y S st).trans_reported Y (ih (S.MergeBSGroupState Y st))

theorem StoreBSGroupState_Reported (Y : TActorExternal) (S : TSelfCheckRequestActor) (n : Nat)
    (info : List TBSGroupStateInfo) :
    Reported Y S.MergedBSGroupState (S.StoreBSGroupState Y n info).MergedBSGroupState
      S.StoragePoolState (S.StoreBSGroupState Y n info).StoragePoolState
      (info.map (fun state => { state with nodeid := n })) := by
  unfold TSelfCheckRequestActor.StoreBSGroupState
  exact Reported_foldl Y _ _

theorem HandleBSGroupStateResponse_taken (Y : TActorExternal) (now : TNow)
    (S : TSelfCheckRequestActor) (Cookie : Nat) (info : List TBSGroupStateInfo)
    (hrec : Cookie % 2 ^ 32 ∉ S.NodeBSGroupState.map Prod.fst) (hreq : S.Requests ≠ 1) :
    S.HandleBSGroupStateResponse Y now Cookie info =
      { S.StoreBSGroupState Y (Cookie % 2 ^ 32) info with Requests := S.Requests - 1 } := by
  have h1 : (S.StoreBSGroupState Y (Cookie % 2 ^ 32) info).Requests = S.Requests :=
    congrArg TOwn.Requests (StoreBSGroupState_Own Y S (Cookie % 2 ^ 32) info)
  unfold TSelfCheckRequestActor.HandleBSGroupStateResponse
  dsimp only
  rw [if_pos hrec, RequestDone_of_ne _ _ _ (by rw [h1]; exact hreq), h1]

theorem Run_cons (Y : TActorExternal) (S : TSelfCheckRequestActor) (e : TNow × TEvent)
    (events : List (TNow × TEvent)) (h : S.PassedAway = false) :
    S.Run Y (e :: events) = (S.StateWait Y e.1 e.2).Run Y events := by
  unfold TSelfCheckRequestActor.Run
  rw [List.foldl_cons]
  unfold TSelfCheckRequestActor.Receive
  rw [h]
  rfl

theorem Run_BSGroupResponses (Y : TActorExternal)
    (L : List (TNow × Nat × List TBSGroupStateInfo)) (S : TSelfCheckRequestActor)
    (hp : S.PassedAway = false) (hlen : L.length < S.Requests)
    (hd : (L.map (fun r => r.2.1 % 2 ^ 32)).Nodup)
    (hn : ∀ r ∈ L, r.2.1 % 2 ^ 32 ∉ S.NodeBSGroupState.map Prod.fst) :
    Reported Y S.MergedBSGroupState (S.Run Y (BSGroupResponses L)).MergedBSGroupState
      S.StoragePoolState (S.Run Y (BSGroupResponses L)).StoragePoolState (GroupStates L) := by
  induction L generalizing S with
  | nil => exact Reported.nil_reported Y _ _
  | cons r L ih =>
    have hrec := hn r (List.mem_cons_self _ _)
    have hlen2 : L.length + 1 < S.Requests := hlen
    have hstep : S.StateWait Y r.1 (TEvent.BSGroupStateResponse r.2.1 r.2.2) =
        { S.StoreBSGroupState Y (r.2.1 % 2 ^ 32) r.2.2 with Requests := S.Requests - 1 } :=
      HandleBSGroupStateResponse_taken Y r.1 S r.2.1 r.2.2 hrec (by omega)
    have hrun : S.Run Y (BSGroupResponses (r :: L)) =
        TSelfCheckRequestActor.Run Y
          { S.StoreBSGroupState Y (r.2.1 % 2 ^ 32) r.2.2 with Requests := S.Requests - 1 }
          (BSGroupResponses L) := by
      show S.Run Y ((r.1, TEvent.BSGroupStateResponse r.2.1 r.2.2) :: BSGroupResponses L) = _
      rw [Run_cons Y S _ _ hp, hstep]
    rw [hrun]
    have hseal := StoreBSGroupState_Seal Y S (r.2.1 % 2 ^ 32) r.2.2
    have hown := StoreBSGroupState_Own Y S (r.2.1 % 2 ^ 32) r.2.2
    have hkeys : (S.StoreBSGroupState Y (r.2.1 % 2 ^ 32) r.2.2).NodeBSGroupState =
        THashMap.set S.NodeBSGroupState (r.2.1 % 2 ^ 32)
          (some (r.2.2.map (fun state => { state with nodeid := r.2.1 % 2 ^ 32 }))) :=
      congrArg TOwn.NodeBSGroupState hown
    have hd2 := List.nodup_cons.1 hd
    have h2 := ih
      { S.StoreBSGroupState Y (r.2.1 % 2 ^ 32) r.2.2 with Requests := S.Requests - 1 }
      ((congrArg TSeal.PassedAway hseal).trans hp)
      (by show L.length < S.Requests - 1; omega) hd2.2
      (by
        intro r2 hr2
        show _ ∉ (S.StoreBSGroupState Y (r.2.1 % 2 ^ 32) r.2.2).NodeBSGroupState.map Prod.fst
        rw [hkeys, hmem_keys_set]
        rintro (h | h)
        · have h5 : r2.2.1 % 2 ^ 32 ∈ L.map (fun r => r.2.1 % 2 ^ 32) :=
            List.mem_map_of_mem (fun r => r.2.1 % 2 ^ 32) hr2
          rw [h] at h5
          exact hd2.1 h5
        · exact hn r2 (List.mem_cons_of_mem _ hr2) h)
    exact (StoreBSGroupState_Reported Y S (r.2.1 % 2 ^ 32) r.2.2).trans_reported Y h2

theorem Reported_le (Y : TActorExternal) {m0 m m2 : List (Nat × TBSGroupStateInfo)}
    {p0 p p2 : List (String × TStoragePoolState)} {sts sts2 : List TBSGroupStateInfo}
    (h : Reported Y m0 m p0 p sts) (h2 : Reported Y m0 m2 p0 p2 sts2)
    (hmem : ∀ st, st ∈ sts → st ∈ sts2) (g : Nat) (e : TBSGroupStateInfo)
    (he : THashMap.find m g = some e) :
    ∃ e2, THashMap.find m2 g = some e2 ∧ e.groupgeneration ≤ e2.groupgeneration := by
  rcases h.1 g e he with h3 | ⟨st, hst, hg, hst2⟩
  · exact h2.2.1 g e h3
  · subst hg
    subst hst2
    exact h2.2.2.1 e (hmem e hst)

theorem Reported_generation (Y : TActorExternal) {m0 m m2 : List (Nat × TBSGroupStateInfo)}
    {p0 p p2 : List (String × TStoragePoolState)} {sts sts2 : List TBSGroupStateInfo}
    (h : Reported Y m0 m p0 p sts) (h2 : Reported Y m0 m2 p0 p2 sts2)
    (hmem : ∀ st, st ∈ sts2 ↔ st ∈ sts) (g : Nat) :
    (THashMap.find m g).map (fun e => e.groupgeneration) =
      (THashMap.find m2 g).map (fun e => e.groupgeneration) := by
  cases h3 : THashMap.find m g with
  | none =>
    cases h4 : THashMap.find m2 g with
    | none => rfl
    | some e2 =>
      obtain ⟨e, h5, _⟩ := Reported_le Y h2 h (fun st hs => (hmem st).1 hs) g e2 h4
      rw [h3] at h5
      cases h5
  | some e =>
    obtain ⟨e2, h4, h5⟩ := Reported_le Y h h2 (fun st hs => (hmem st).2 hs) g e h3
    obtain ⟨e3, h6, h7⟩ := Reported_le Y h2 h (fun st hs => (hmem st).1 hs) g e2 h4
    rw [h3] at h6
    have h8 : e = e3 := Option.some.inj h6
    subst h8
    rw [h4]
    show some e.groupgeneration = some e2.groupgeneration
    rw [le_antisymm h5 h7]

theorem GroupStates_perm (L L2 : List (TNow × Nat × List TBSGroupStateInfo))
    (h : L2.Perm L) (st : TBSGroupStateInfo) : st ∈ GroupStates L2 ↔ st ∈ GroupStates L := by
  unfold GroupStates
  simp only [List.mem_flatMap]
  constructor
  · rintro ⟨r, hr, h2⟩
    exact ⟨r, h.mem_iff.1 hr, h2⟩
  · rintro ⟨r, hr, h2⟩
    exact ⟨r, h.mem_iff.2 hr, h2⟩

/-- C30: an actor that has not passed away handles bsgroup state responses
of distinct nodes, none of which has a bsgroup record yet, and waits for
more answers than these. After all of them were handled, the entry the
merged group state keeps for the group of a reported state has at least the
generation of that state; an entry it keeps is the entry it had before or
one of the reported states, with the node id of its response; the entry of a
group that had one before has at least that generation. So the entry of a
group has the maximum generation reported for it, and for every other order
of the same responses the merged group state has the same groups with the
same generations, and every storage pool has the same set of groups: those
it had and the groups of the states that name the pool (a state without a
pool name counts only when its group is static). -/
theorem latest_generation_wins (Y : TActorExternal) (S : TSelfCheckRequestActor)
    (L L2 : List (TNow × Nat × List TBSGroupStateInfo))
    (hp : S.PassedAway = false) (hlen : L.length < S.Requests)
    (hd : (L.map (fun r => r.2.1 % 2 ^ 32)).Nodup)
    (hn : ∀ r ∈ L, r.2.1 % 2 ^ 32 ∉ S.NodeBSGroupState.map Prod.fst)
    (hperm : L2.Perm L) :
    (∀ st ∈ GroupStates L, ∃ e,
      THashMap.find (S.Run Y (BSGroupResponses L)).MergedBSGroupState st.groupid = some e ∧
        st.groupgeneration ≤ e.groupgeneration) ∧
    (∀ g e, THashMap.find (S.Run Y (BSGroupResponses L)).MergedBSGroupState g = some e →
      THashMap.find S.MergedBSGroupState g = some e ∨
        ∃ st ∈ GroupStates L, st.groupid = g ∧ e = st) ∧
    (∀ g e0, THashMap.find S.MergedBSGroupState g = some e0 → ∃ e,
      THashMap.find (S.Run Y (BSGroupResponses L)).MergedBSGroupState g = some e ∧
        e0.groupgeneration ≤ e.groupgeneration) ∧
    (∀ g,
      (THashMap.find (S.Run Y (BSGroupResponses L)).MergedBSGroupState g).map
          (fun e => e.groupgeneration) =
        (THashMap.find (S.Run Y (BSGroupResponses L2)).MergedBSGroupState g).map
          (fun e => e.groupgeneration)) ∧
    (∀ name x,
      x ∈ ((S.Run Y (BSGroupResponses L)).StoragePoolStateAt name).Groups ↔
        x ∈ ((S.Run Y (BSGroupResponses L2)).StoragePoolStateAt name).Groups) ∧
    (∀ name x,
      x ∈ ((S.Run Y (BSGroupResponses L)).StoragePoolStateAt name).Groups ↔
        x ∈ (S.StoragePoolStateAt name).Groups ∨
          ∃ st ∈ GroupStates L, st.storagepoolname = name ∧ st.groupid = x ∧
            ¬ (st.storagepoolname = "" ∧ Y.Static st.groupid = false)) := by
  have h1 := Run_BSGroupResponses Y L S hp hlen hd hn
  have h2 := Run_BSGroupResponses Y L2 S hp (by rw [hperm.length_eq]; exact hlen)
    ((hperm.map _).nodup_iff.2 hd) (fun r hr => hn r (hperm.mem_iff.1 hr))
  have hmem := GroupStates_perm L L2 hperm
  refine ⟨h1.2.2.1, h1.1, h1.2.1, Reported_generation Y h1 h2 hmem, fun name x => ?_, h1.2.2.2⟩
  have a := h1.2.2.2 name x
  have b := h2.2.2.2 name x
  refine a.trans (Iff.trans ?_ b.symm)
  constructor
  · rintro (h | ⟨st, hst, h⟩)
    · exact Or.inl h
    · exact Or.inr ⟨st, (hmem st).2 hst, h⟩
  · rintro (h | ⟨st, hst, h⟩)
    · exact Or.inl h
    · exact Or.inr ⟨st, (hmem st).1 hst, h⟩

/-- C30 on an example: node 1 reports group 5 at generation 3 and node 2
reports it at generation 7. In both orders the merged group state keeps
generation 7 for group 5, and the pool "hdd" has the group 5. -/
theorem latest_generation_wins_witness :
    (THashMap.find
      (exampleWaiting.Run exampleActorExternal
        (BSGroupResponses exampleGroupResponses)).MergedBSGroupState 5).map
        (fun e => e.groupgeneration) = some 7 ∧
    (THashMap.find
      (exampleWaiting.Run exampleActorExternal
        (BSGroupResponses exampleGroupResponses.reverse)).MergedBSGroupState 5).map
        (fun e => e.groupgeneration) = some 7 ∧
    ((exampleWaiting.Run exampleActorExternal
      (BSGroupResponses exampleGroupResponses)).StoragePoolStateAt "hdd").Groups = [5] ∧
    (∀ name x,
      x ∈ ((exampleWaiting.Run exampleActorExternal
          (BSGroupResponses exampleGroupResponses)).StoragePoolStateAt name).Groups ↔
        x ∈ ((exampleWaiting.Run exampleActorExternal
          (BSGroupResponses exampleGroupResponses.reverse)).StoragePoolStateAt name).Groups) :=
  ⟨by decide, by decide, by decide,
    (latest_generation_wins exampleActorExternal exampleWaiting exampleGroupResponses
      exampleGroupResponses.reverse rfl (by decide) (by decide) (by decide)
      (List.reverse_perm _)).2.2.2.2.1⟩

/-! ### C31: the response filters -/

theorem not_decide_lt (a b : Nat) : (!decide (a < b)) = decide (b ≤ a) := by
  by_cases h : a < b
  · have h2 : ¬ b ≤ a := by omega
    simp [h, h2]
  · have h2 : b ≤ a := by omega
    simp [h, h2]

theorem FilterIssueLog_eq_filter (request : TEvSelfCheckRequest) (issue_log : List IssueLog) :
    FilterIssueLog request issue_log = issue_log.filter (PassesFilters request) := by
  unfold FilterIssueLog
  dsimp only
  by_cases h1 : request.minimum_status = Status.UNSPECIFIED
  · by_cases h2 : request.maximum_level = 0
    · rw [if_neg (fun h => h h2), if_neg (fun h => h h1)]
      have h3 : PassesFilters request = fun _ => true := by
        funext it
        simp [PassesFilters, h1, h2]
      rw [h3, List.filter_true]
    · rw [if_pos h2, if_neg (fun h => h h1)]
      congr 1
      funext it
      have h4 := not_decide_lt request.maximum_level it.level
      simp only [PassesFilters, h1, h2, decide_True, decide_False, Bool.true_or, Bool.false_or,
        Bool.true_and, gt_iff_lt]
      exact h4
  · by_cases h2 : request.maximum_level = 0
    · rw [if_neg (fun h => h h2), if_pos h1]
      congr 1
      funext it
      have h4 := not_decide_lt it.status.toNat request.minimum_status.toNat
      simp only [PassesFilters, h1, h2, decide_True, decide_False, Bool.true_or, Bool.false_or,
        Bool.and_true]
      exact h4
    · rw [if_pos h2, if_pos h1, List.filter_filter]
      congr 1
      funext it
      have h4 := not_decide_lt it.status.toNat request.minimum_status.toNat
      have h5 := not_decide_lt request.maximum_level it.level
      simp only [PassesFilters, h1, h2, decide_False, Bool.false_or, gt_iff_lt]
      rw [h4, h5, Bool.and_comm]

/-- C31: the issue log of the response ReplyAndPassAway sends is the issue
log of the evaluation filtered, in its order, to the issues whose status is
at least minimum_status (every issue when minimum_status is UNSPECIFIED) and
whose level is at most maximum_level (every issue when maximum_level is 0):
it is a subsequence of the evaluated log, every issue of it is an issue of
the evaluated log as it was, an evaluated issue is in it exactly when it
passes both filters, and the verdict is the verdict of the evaluation. The
same holds of the response the actor sends. -/
theorem ReplyAndPassAway_filters (X : TExternal) (S : TSelfCheckRequest) :
    (ReplyAndPassAway X S).issue_log =
      (FillResult X { S with TabletRequests := MarkUnresponsive S.TabletRequests }
        {}).2.Result.issue_log.filter (PassesFilters S.Request) ∧
    (ReplyAndPassAway X S).issue_log.Sublist
      (FillResult X { S with TabletRequests := MarkUnresponsive S.TabletRequests }
        {}).2.Result.issue_log ∧
    (∀ it, it ∈ (ReplyAndPassAway X S).issue_log ↔
      it ∈ (FillResult X { S with TabletRequests := MarkUnresponsive S.TabletRequests }
        {}).2.Result.issue_log ∧
      (S.Request.minimum_status = Status.UNSPECIFIED ∨
        S.Request.minimum_status.toNat ≤ it.status.toNat) ∧
      (S.Request.maximum_level = 0 ∨ it.level ≤ S.Request.maximum_level)) ∧
    (ReplyAndPassAway X S).self_check_result =
      (FillResult X { S with TabletRequests := MarkUnresponsive S.TabletRequests }
        {}).2.Result.self_check_result ∧
    (∀ (Y : TActorExternal) (now : Nat) (A : TSelfCheckRequestActor),
      (A.ReplyAndPassAway Y now).Responses = A.Responses ++
        [ReplyAndPassAway Y.toTExternal (A.Aggregate Y now).toTSelfCheckRequest]) := by
  have h : (ReplyAndPassAway X S).issue_log =
      (FillResult X { S with TabletRequests := MarkUnresponsive S.TabletRequests }
        {}).2.Result.issue_log.filter (PassesFilters S.Request) := by
    unfold ReplyAndPassAway
    dsimp only
    rw [← FilterIssueLog_eq_filter]
    split <;> rfl
  refine ⟨h, ?_, fun it => ?_, ?_, fun Y now A => ReplyAndPassAway_Responses Y now A⟩
  · rw [h]
    exact List.filter_sublist _
  · rw [h, List.mem_filter]
    simp [PassesFilters]
  · unfold ReplyAndPassAway
    dsimp only
    split <;> rfl

/-! ### C40: the overall status of a group -/

theorem MaxStatus_of_le (a b : Status) (h : b.toNat ≤ a.toNat) : MaxStatus a b = a := by
  unfold MaxStatus
  rw [if_neg (by omega)]

theorem MinStatus_YELLOW_ge (m : Status) (h : 1 ≤ m.toNat) :
    1 ≤ (MinStatus m Status.YELLOW).toNat ∧
    (MinStatus m Status.YELLOW).toNat ≤ Status.YELLOW.toNat := by
  unfold MinStatus
  split
  · exact ⟨by decide, le_refl _⟩
  · rename_i h2
    exact ⟨h, by omega⟩

theorem MaxStatus_GREY (x : Status) (h : 1 ≤ x.toNat) : MaxStatus Status.GREY x = x := by
  cases x <;> first | rfl | exact absurd h (by decide)

theorem MaxStatusOf_one (x : Status) : MaxStatusOf [x] = MaxStatus Status.GREY x := rfl

theorem MaxStatusOf_two (x y : Status) :
    MaxStatusOf [x, y] = MaxStatus (MaxStatus Status.GREY x) y := rfl

/-- C40: for every group evaluated in a fresh context, with m the maximum
of the overall statuses of its vdisks (GREY when it has none) and r the
status of the group issue the erasure rule reports (UNSPECIFIED, the lowest
status, when it reports none), the overall status FillGroupStatus sets, in
the status message and in the context, is max(min(m, YELLOW), r), and the
group issues of the context are the one issue of the rule, if any. For an
erasure species other than none, block-4-2 and mirror-3-dc the rule reports
nothing and the overall status is min(m, YELLOW), so never above YELLOW: the
group of species mirror-3 whose only vdisk is RED gets YELLOW and no group
issue. -/
theorem FillGroupStatus_overall_formula (X : TExternal) (S : TSelfCheckRequest)
    (groupId : Nat) (groupInfo : TBSGroupStateInfo) (upper : TSelfCheckResult)
    (type : String) :
    (FillGroupStatus X S groupId groupInfo {} (TSelfCheckContext upper type)).1.overall =
      MaxStatus
        (MinStatus
          (MaxStatusOf
            (FillGroupStatus X S groupId groupInfo {} (TSelfCheckContext upper type)).1.statuses)
          Status.YELLOW)
        (((GroupRule groupInfo.erasurespecies
          (RingStatuses groupInfo
            (FillGroupStatus X S groupId groupInfo {}
              (TSelfCheckContext upper type)).1)).map Prod.fst).getD Status.UNSPECIFIED) ∧
    (FillGroupStatus X S groupId groupInfo {} (TSelfCheckContext upper type)).2.OverallStatus =
      (FillGroupStatus X S groupId groupInfo {} (TSelfCheckContext upper type)).1.overall ∧
    GroupIssues
        (FillGroupStatus X S groupId groupInfo {} (TSelfCheckContext upper type)).2.IssueRecords =
      (GroupRule groupInfo.erasurespecies
        (RingStatuses groupInfo
          (FillGroupStatus X S groupId groupInfo {} (TSelfCheckContext upper type)).1)).toList ∧
    (groupInfo.erasurespecies ≠ NONE → groupInfo.erasurespecies ≠ BLOCK_4_2 →
      groupInfo.erasurespecies ≠ MIRROR_3_DC →
      GroupIssues
        (FillGroupStatus X S groupId groupInfo {}
          (TSelfCheckContext upper type)).2.IssueRecords = [] ∧
      (FillGroupStatus X S groupId groupInfo {} (TSelfCheckContext upper type)).1.overall =
        MinStatus
          (MaxStatusOf
            (FillGroupStatus X S groupId groupInfo {}
              (TSelfCheckContext upper type)).1.statuses)
          Status.YELLOW ∧
      (FillGroupStatus X S groupId groupInfo {}
        (TSelfCheckContext upper type)).1.overall.toNat ≤ Status.YELLOW.toNat) ∧
    (∀ X2 : TExternal,
      (FillGroupStatus X2 {} 1 exampleGroupOtherSpecies {}
        (TSelfCheckContext {} "STORAGE_GROUP")).1.statuses = [Status.RED] ∧
      GroupIssues (FillGroupStatus X2 {} 1 exampleGroupOtherSpecies {}
        (TSelfCheckContext {} "STORAGE_GROUP")).2.IssueRecords = [] ∧
      (FillGroupStatus X2 {} 1 exampleGroupOtherSpecies {}
        (TSelfCheckContext {} "STORAGE_GROUP")).1.overall = Status.YELLOW) := by
  obtain ⟨h1, h2, h3, _, h5⟩ := FillGroupStatus_fresh X S groupId groupInfo upper type
  have hinv := FillGroupStatusVDisks_inv X S groupId groupInfo upper type
  have hrule := GroupRuleChoice_eq_GroupRule groupInfo.erasurespecies _ _ hinv
  have hR : GroupRule groupInfo.erasurespecies
      (RingStatuses groupInfo
        (FillGroupStatus X S groupId groupInfo {} (TSelfCheckContext upper type)).1) =
      GroupRuleChoice groupInfo.erasurespecies
        (FillGroupStatusVDisks X S groupId groupInfo {} (TSelfCheckContext upper type)) := by
    rw [hrule]
    unfold RingStatuses
    rw [h1]
  have hm := MinStatus_YELLOW_ge _ (MaxStatusOf_ge
    (FillGroupStatus X S groupId groupInfo {} (TSelfCheckContext upper type)).1.statuses)
  have hov : (FillGroupStatus X S groupId groupInfo {}
      (TSelfCheckContext upper type)).1.overall =
      MaxStatus
        (MinStatus
          (MaxStatusOf
            (FillGroupStatus X S groupId groupInfo {} (TSelfCheckContext upper type)).1.statuses)
          Status.YELLOW)
        (((GroupRule groupInfo.erasurespecies
          (RingStatuses groupInfo
            (FillGroupStatus X S groupId groupInfo {}
              (TSelfCheckContext upper type)).1)).map Prod.fst).getD Status.UNSPECIFIED) := by
    rw [h2, h5, hR, ← h1]
    cases hch : GroupRuleChoice groupInfo.erasurespecies
        (FillGroupStatusVDisks X S groupId groupInfo {} (TSelfCheckContext upper type)) with
    | none =>
      show MaxStatusOf [MinStatus _ Status.YELLOW] =
        MaxStatus (MinStatus _ Status.YELLOW) Status.UNSPECIFIED
      rw [MaxStatus_of_le _ Status.UNSPECIFIED (Nat.zero_le _), MaxStatusOf_one,
        MaxStatus_GREY _ hm.1]
    | some p =>
      show MaxStatusOf [MinStatus _ Status.YELLOW, p.1] =
        MaxStatus (MinStatus _ Status.YELLOW) p.1
      rw [MaxStatusOf_two, MaxStatus_GREY _ hm.1]
  refine ⟨hov, h2.symm, by rw [h3, hR], fun n1 n2 n3 => ?_, fun X2 => ⟨rfl, rfl, rfl⟩⟩
  have hnone : GroupRuleChoice groupInfo.erasurespecies
      (FillGroupStatusVDisks X S groupId groupInfo {} (TSelfCheckContext upper type)) = none := by
    unfold GroupRuleChoice
    rw [if_neg n1, if_neg n2, if_neg n3]
  have hov2 : (FillGroupStatus X S groupId groupInfo {}
      (TSelfCheckContext upper type)).1.overall =
      MinStatus
        (MaxStatusOf
          (FillGroupStatus X S groupId groupInfo {} (TSelfCheckContext upper type)).1.statuses)
        Status.YELLOW := by
    rw [hov, hR, hnone]
    exact MaxStatus_of_le _ Status.UNSPECIFIED (Nat.zero_le _)
  refine ⟨by rw [h3, hnone]; rfl, hov2, ?_⟩
  rw [hov2]
  exact hm.2

/-! ### C36: the truncation of one sibling list -/

theorem RemoveRecordsAboveLimit_cases (c : TMergeIssuesContext) (R : List TIssueRecord) :
    RemoveRecordsAboveLimit c R = (c, R) ∨
    (∃ pre last last2 rest, R = pre ++ last :: rest ∧
        (RemoveRecordsAboveLimit c R).2 = pre ++ [last2] ∧
        (RemoveRecordsAboveLimit c R).2.length = pre.length + 1 ∧
        R.take (RemoveRecordsAboveLimit c R).2.length = pre ++ [last] ∧
        R.drop (RemoveRecordsAboveLimit c R).2.length = rest ∧
        SameFace last2 last ∧ last2.IssueLog.reason = last.IssueLog.reason ∧
        ∀ r ∈ rest, r.IssueLog.id ∈ (RemoveRecordsAboveLimit c R).1.removeIssuesIds ∧
          ∀ x ∈ r.IssueLog.reason,
            x ∈ (RemoveRecordsAboveLimit c R).1.removeIssuesIds) := by
  rcases (RemoveRecordsAboveLimit_shape c R).2.2 with h | h
  · exact Or.inl h
  · obtain ⟨pre, last, last2, rest, e1, e2, hf, hr, hrest⟩ := h
    have hlen : (RemoveRecordsAboveLimit c R).2.length = pre.length + 1 := by
      rw [e2, List.length_append, List.length_singleton]
    have e3 : R = (pre ++ [last]) ++ rest := by
      rw [e1, List.append_assoc]
      rfl
    have hl2 : (pre ++ [last]).length = pre.length + 1 := by
      rw [List.length_append, List.length_singleton]
    refine Or.inr ⟨pre, last, last2, rest, e1, e2, hlen, ?_, ?_, hf, hr, hrest⟩
    · rw [hlen, ← hl2]
      conv_lhs => rw [e3]
      exact List.take_left _ _
    · rw [hlen, ← hl2]
      conv_lhs => rw [e3]
      exact List.drop_left _ _

theorem RemoveRecordsAboveLimit_dropLast (c : TMergeIssuesContext) (R : List TIssueRecord) :
    (RemoveRecordsAboveLimit c R).2.dropLast =
      R.take ((RemoveRecordsAboveLimit c R).2.length - 1) := by
  rcases RemoveRecordsAboveLimit_cases c R with h | ⟨pre, last, last2, rest, e1, e2, hlen,
    _, _, _, _, _⟩
  · rw [h]
    exact List.dropLast_eq_take R
  · rw [hlen, e2, List.dropLast_concat, Nat.add_sub_cancel, e1]
    exact (List.take_left _ _).symm

theorem InInt32_iff (i : Int) : InInt32 i = true ↔ -2147483648 ≤ i ∧ i < 2147483648 := by
  unfold InInt32
  simp

theorem ListedValue_lt (r : TIssueRecord) (h : r.IssueLog.listed < 2147483648) :
    ListedValue r < 2147483648 := by
  unfold ListedValue
  split <;> omega

/-- In an iteration that stays within defined behaviour and starts below the
limit, the sum of `commonListed` and the listed value is in the range of
`int`. -/
theorem RemoveRecordsAboveLimitStepDefined_sum (st : TLimitState) (it : TIssueRecord)
    (hd : RemoveRecordsAboveLimitStepDefined st it = true)
    (hne : st.commonListed ≠ (MERGER_ISSUE_LIMIT : Int)) :
    -2147483648 ≤ st.commonListed + GetIssueListed it ∧
      st.commonListed + GetIssueListed it < 2147483648 := by
  unfold RemoveRecordsAboveLimitStepDefined at hd
  rw [if_neg hne] at hd
  by_cases h : InInt32 (st.commonListed + GetIssueListed it) = true
  · exact (InInt32_iff _).1 h
  · rw [if_pos (by simpa using h)] at hd
    cases hd

theorem foldl_RemoveRecordsAboveLimitStep_defined (l : List TIssueRecord) (st : TLimitState)
    (h1 : (ListedSum st.kept : Int) = st.commonListed)
    (h2 : st.commonListed ≤ (MERGER_ISSUE_LIMIT : Int))
    (hd : RemoveRecordsAboveLimitDefinedLoop st l = true)
    (h3 : ∀ r ∈ l, r.IssueLog.listed < 2147483648) :
    ListedSum (l.foldl RemoveRecordsAboveLimitStep st).kept ≤ MERGER_ISSUE_LIMIT := by
  induction l generalizing st with
  | nil =>
    rw [List.foldl_nil]
    have : (ListedSum st.kept : Int) ≤ (MERGER_ISSUE_LIMIT : Int) := by rw [h1]; exact h2
    exact Int.ofNat_le.1 this
  | cons a l ih =>
    rw [List.foldl_cons]
    unfold RemoveRecordsAboveLimitDefinedLoop at hd
    rw [Bool.and_eq_true] at hd
    obtain ⟨s1, s2, _⟩ := RemoveRecordsAboveLimitStep_spec st a h1 h2 (fun hne => by
      have hs := (RemoveRecordsAboveLimitStepDefined_sum st a hd.1 hne).2
      rw [GetIssueListed_eq a (ListedValue_lt a (h3 a (List.mem_cons_self _ _))), ← h1] at hs
      omega)
    exact ih _ s1 s2 hd.2 (fun r hr => h3 r (List.mem_cons_of_mem _ hr))

/-- C36 (counterexample): a GroupState record with listed = 2147483648, which
GetIssueListed returns as the `int` -2147483648, and a second record with
listed = 11 after it. RemoveRecordsAboveLimit runs within defined behaviour,
takes the sums to be -2147483648 and -2147483637, and keeps both records as
they are: the listed values of the list it leaves sum up to 2147483659. -/
theorem negative_listed_kept_above_limit :
    exampleNegativeListed.map (fun r => r.IssueLog.listed) = [2147483648, 11] ∧
    exampleNegativeListed.map GetIssueListed = [-2147483648, 11] ∧
    RemoveRecordsAboveLimitDefined {} exampleNegativeListed = true ∧
    (RemoveRecordsAboveLimit {} exampleNegativeListed).2 = exampleNegativeListed ∧
    ListedSum (RemoveRecordsAboveLimit {} exampleNegativeListed).2 = 2147483659 := by
  decide

/-- C36 (amended): for every list of records and every context, after
RemoveRecordsAboveLimit the listed values of the list (0 counting as 1) sum up
to at most MERGER_ISSUE_LIMIT = 10, when the loop stays within defined
behaviour and every listed value is below 2^31, so that GetIssueListed
returns it as it is; and for every list, the surviving records are the first
records of the input in the same order: all of them but the last are
unchanged, and each has the tag, id, status, message, level, node and reason
list of the input record at its place (the last one may have count, listed
and location ids rewritten); the id of every removed record and every id of
its reason list is in the removed-ids set, which keeps what it held; and
when the listed values of the input sum up to at most 10, nothing changes. -/
theorem RemoveRecordsAboveLimit_truncates (c : TMergeIssuesContext) (R : List TIssueRecord) :
    MERGER_ISSUE_LIMIT = 10 ∧
    (RemoveRecordsAboveLimitDefined c R = true →
      (∀ r ∈ R, r.IssueLog.listed < 2147483648) →
      ListedSum (RemoveRecordsAboveLimit c R).2 ≤ MERGER_ISSUE_LIMIT) ∧
    (RemoveRecordsAboveLimit c R).2.length ≤ R.length ∧
    (RemoveRecordsAboveLimit c R).2.dropLast =
      R.take ((RemoveRecordsAboveLimit c R).2.length - 1) ∧
    List.Forall₂ (fun b a => SameFace b a ∧ b.IssueLog.reason = a.IssueLog.reason)
      (RemoveRecordsAboveLimit c R).2 (R.take (RemoveRecordsAboveLimit c R).2.length) ∧
    (∀ r ∈ R.drop (RemoveRecordsAboveLimit c R).2.length,
      r.IssueLog.id ∈ (RemoveRecordsAboveLimit c R).1.removeIssuesIds ∧
      ∀ x ∈ r.IssueLog.reason, x ∈ (RemoveRecordsAboveLimit c R).1.removeIssuesIds) ∧
    (∀ x ∈ c.removeIssuesIds, x ∈ (RemoveRecordsAboveLimit c R).1.removeIssuesIds) ∧
    (ListedSum R ≤ MERGER_ISSUE_LIMIT → RemoveRecordsAboveLimit c R = (c, R)) := by
  have hkeep := (RemoveRecordsAboveLimit_shape c R).1
  have hrefl : ∀ l : List TIssueRecord,
      List.Forall₂ (fun b a => SameFace b a ∧ b.IssueLog.reason = a.IssueLog.reason) l l := by
    intro l
    induction l with
    | nil => exact List.Forall₂.nil
    | cons a l ih => exact List.Forall₂.cons ⟨SameFace.refl_face a, rfl⟩ ih
  refine ⟨rfl, fun hd h3 => foldl_RemoveRecordsAboveLimitStep_defined R
    { removeIssuesIds := c.removeIssuesIds } rfl (Int.ofNat_nonneg _) hd h3, ?_⟩
  rcases RemoveRecordsAboveLimit_cases c R with h | ⟨pre, last, last2, rest, e1, e2, hlen,
    htake, hdrop, hf, hr, hrest⟩
  · rw [h]
    dsimp only
    refine ⟨Nat.le_refl _, List.dropLast_eq_take R, ?_, ?_, fun x hx => hx, fun _ => rfl⟩
    · rw [List.take_length]
      exact hrefl R
    · rw [List.drop_length]
      intro r hr
      cases hr
  · refine ⟨?_, ?_, ?_, ?_, hkeep, RemoveRecordsAboveLimit_stable c R⟩
    · rw [hlen, e1, List.length_append, List.length_cons]
      omega
    · rw [hlen, e2, List.dropLast_concat, Nat.add_sub_cancel, e1]
      exact (List.take_left _ _).symm
    · rw [htake, e2]
      exact List.rel_append (hrefl pre) (List.Forall₂.cons ⟨hf, hr⟩ List.Forall₂.nil)
    · rw [hdrop]
      exact hrest

/-- C36 (witness): on ten YELLOW group records followed by a RED one the loop
stays within defined behaviour, and the listed values of the ten records it
leaves sum up to 10. -/
theorem RemoveRecordsAboveLimit_truncates_witness :
    RemoveRecordsAboveLimitDefined {} exampleYellowThenRed = true ∧
    (∀ r ∈ exampleYellowThenRed, r.IssueLog.listed < 2147483648) ∧
    ListedSum exampleYellowThenRed = 11 ∧
    ListedSum (RemoveRecordsAboveLimit {} exampleYellowThenRed).2 ≤ MERGER_ISSUE_LIMIT :=
  ⟨by decide, by decide, by decide,
    (RemoveRecordsAboveLimit_truncates {} exampleYellowThenRed).2.1 (by decide) (by decide)⟩

/-! ### C37: the order in which the truncation takes the records -/

/-- C37 (counterexample): of ten YELLOW group records followed by a RED one,
RemoveRecordsAboveLimit keeps the ten YELLOW records and removes the RED one:
the records are taken in list order, not in descending status order. -/
theorem red_record_removed_yellow_kept :
    exampleYellowThenRed.map (fun r => r.IssueLog.status) =
      List.replicate 10 Status.YELLOW ++ [Status.RED] ∧
    ListedSum exampleYellowThenRed = 11 ∧
    (RemoveRecordsAboveLimit {} exampleYellowThenRed).2.map (fun r => r.IssueLog.id) =
      ["y0", "y1", "y2", "y3", "y4", "y5", "y6", "y7", "y8", "y9"] ∧
    (RemoveRecordsAboveLimit {} exampleYellowThenRed).2.map (fun r => r.IssueLog.status) =
      List.replicate 10 Status.YELLOW ∧
    "r0" ∈ (RemoveRecordsAboveLimit {} exampleYellowThenRed).1.removeIssuesIds ∧
    ¬ ∀ k ∈ (RemoveRecordsAboveLimit {} exampleYellowThenRed).2,
      ∀ r ∈ exampleYellowThenRed.drop
          (RemoveRecordsAboveLimit {} exampleYellowThenRed).2.length,
        r.IssueLog.status.toNat ≤ k.IssueLog.status.toNat := by
  decide

/-- C37 (amended): RemoveRecordsAboveLimit takes the records in list order
and does not sort them. When the list it is given is in descending status
order, no removed record has a status strictly higher than the status of a
record that was kept. -/
theorem RemoveRecordsAboveLimit_keeps_most_severe (c : TMergeIssuesContext)
    (R : List TIssueRecord)
    (h : R.Pairwise (fun a b => b.IssueLog.status.toNat ≤ a.IssueLog.status.toNat)) :
    ∀ k ∈ (RemoveRecordsAboveLimit c R).2,
      ∀ r ∈ R.drop (RemoveRecordsAboveLimit c R).2.length,
        r.IssueLog.status.toNat ≤ k.IssueLog.status.toNat := by
  rcases RemoveRecordsAboveLimit_cases c R with e | ⟨pre, last, last2, rest, e1, e2, _,
    _, hdrop, hf, _, _⟩
  · rw [e]
    dsimp only
    rw [List.drop_length]
    intro k _ r hr
    cases hr
  · rw [hdrop, e2]
    rw [e1, List.pairwise_append, List.pairwise_cons] at h
    obtain ⟨_, ⟨hlast, _⟩, hpre⟩ := h
    intro k hk r hr
    rw [List.mem_append, List.mem_singleton] at hk
    rcases hk with hk | hk
    · exact hpre k hk r (List.mem_cons_of_mem _ hr)
    · rw [hk, hf.2.2.1]
      exact hlast r hr

/-- C37 (witness): a RED group record followed by ten YELLOW ones is in descending
status order; RemoveRecordsAboveLimit removes the last YELLOW record. -/
theorem RemoveRecordsAboveLimit_keeps_most_severe_witness :
    exampleRedThenYellow.Pairwise
      (fun a b => b.IssueLog.status.toNat ≤ a.IssueLog.status.toNat) ∧
    (RemoveRecordsAboveLimit {} exampleRedThenYellow).2.length = 10 ∧
    ∀ k ∈ (RemoveRecordsAboveLimit {} exampleRedThenYellow).2,
      ∀ r ∈ exampleRedThenYellow.drop
          (RemoveRecordsAboveLimit {} exampleRedThenYellow).2.length,
        r.IssueLog.status.toNat ≤ k.IssueLog.status.toNat :=
  ⟨by decide, by decide, RemoveRecordsAboveLimit_keeps_most_severe {} exampleRedThenYellow
    (by decide)⟩

/-! ### C39: what the truncation keeps of the counts -/

theorem CountSum_nil : CountSum [] = 0 := rfl

theorem CountSum_append (a b : List TIssueRecord) :
    CountSum (a ++ b) = CountSum a + CountSum b := by
  unfold CountSum
  rw [List.map_append, List.sum_append]

theorem CountSum_singleton (a : TIssueRecord) : CountSum [a] = CountValue a := by
  unfold CountSum
  simp

theorem CountSum_cons (a : TIssueRecord) (l : List TIssueRecord) :
    CountSum (a :: l) = CountValue a + CountSum l := by
  unfold CountSum
  simp

theorem CountValue_pos (r : TIssueRecord) : 0 < CountValue r := by
  unfold CountValue
  split <;> omega

theorem CountValue_lt (r : TIssueRecord) (h : r.IssueLog.count < 2147483648) :
    CountValue r < 2147483648 := by
  unfold CountValue
  split <;> omega

theorem CountValue_of_count (r : TIssueRecord) (n : Nat) (h : r.IssueLog.count = n)
    (hn : n ≠ 0) : CountValue r = n := by
  unfold CountValue
  rw [h, if_neg hn]

theorem GetIssueCount_eq (r : TIssueRecord) (h : CountValue r < 2147483648) :
    GetIssueCount r = (CountValue r : Int) :=
  ToInt32_of_lt _ h

theorem count_SetIssueCount (record : TIssueRecord) (value : Int) :
    (SetIssueCount record value).IssueLog.count = ToUInt32 value := by
  unfold SetIssueCount
  dsimp only

theorem CountValue_SetIssueListed (record : TIssueRecord) (value : Int) :
    CountValue (SetIssueListed record value) = CountValue record := by
  unfold SetIssueListed CountValue
  dsimp only
  by_cases h : record.IssueLog.count = 0
  · simp [h]
  · simp [h]

theorem count_SetIssueListed (record : TIssueRecord) (value : Int) :
    (SetIssueListed record value).IssueLog.count = CountValue record := by
  unfold SetIssueListed CountValue
  dsimp only
  by_cases h : record.IssueLog.count = 0
  · simp [h]
  · simp [h]

theorem CountValue_RemoveLocationIds (record : TIssueRecord) (aboveLimit : Int) :
    CountValue (RemoveLocationIds record aboveLimit) = CountValue record := by
  unfold RemoveLocationIds
  split <;> rfl

theorem count_RemoveLocationIds (record : TIssueRecord) (aboveLimit : Int) :
    (RemoveLocationIds record aboveLimit).IssueLog.count = record.IssueLog.count := by
  unfold RemoveLocationIds
  split <;> rfl

theorem listed_SetIssueCount (record : TIssueRecord) (value : Int) :
    1 ≤ (SetIssueCount record value).IssueLog.listed := by
  unfold SetIssueCount
  dsimp only
  split
  · exact Nat.le_refl _
  · rename_i h
    exact Nat.pos_of_ne_zero h

theorem listed_SetIssueListed (record : TIssueRecord) (value : Int) :
    (SetIssueListed record value).IssueLog.listed = ToUInt32 value := rfl

theorem listed_RemoveLocationIds (record : TIssueRecord) (aboveLimit : Int) :
    (RemoveLocationIds record aboveLimit).IssueLog.listed = record.IssueLog.listed := by
  unfold RemoveLocationIds
  split <;> rfl

theorem LocationIdCount_congr (a b : TIssueRecord) (ht : a.Tag = b.Tag)
    (hl : a.IssueLog.location = b.IssueLog.location) :
    LocationIdCount a = LocationIdCount b := by
  unfold LocationIdCount
  rw [ht, hl]

theorem LocationIdCount_SetIssueCount (record : TIssueRecord) (value : Int) :
    LocationIdCount (SetIssueCount record value) = LocationIdCount record := by
  apply LocationIdCount_congr
  · unfold SetIssueCount
    dsimp only
    split <;> rfl
  · unfold SetIssueCount
    dsimp only
    split <;> rfl

theorem LocationIdCount_SetIssueListed (record : TIssueRecord) (value : Int) :
    LocationIdCount (SetIssueListed record value) = LocationIdCount record := by
  apply LocationIdCount_congr
  · unfold SetIssueListed
    dsimp only
    split <;> rfl
  · unfold SetIssueListed
    dsimp only
    split <;> rfl

theorem length_RemoveLastN {A : Type} (l : List A) (n : Nat) :
    (RemoveLastN l n).length = l.length - n := by
  unfold RemoveLastN
  rw [List.length_take]
  omega

theorem LocationIdCount_RemoveLocationIds (record : TIssueRecord) (aboveLimit : Int) :
    LocationIdCount (RemoveLocationIds record aboveLimit) =
      LocationIdCount record - aboveLimit.toNat := by
  unfold RemoveLocationIds LocationIdCount
  cases h : record.Tag <;> simp only [h, length_RemoveLastN, Nat.zero_sub]

theorem ToUInt32_spec (i : Int) : ∃ k : Int, (ToUInt32 i : Int) = i + 4294967296 * k := by
  refine ⟨-(i / 4294967296), ?_⟩
  unfold ToUInt32
  omega

theorem WrapInt32_spec (i : Int) : ∃ k : Int, WrapInt32 i = i + 4294967296 * k := by
  obtain ⟨k, hk⟩ := ToUInt32_spec i
  have hlt := ToUInt32_lt i
  unfold WrapInt32 ToInt32
  split
  · refine ⟨k, ?_⟩
    omega
  · refine ⟨k - 1, ?_⟩
    omega

theorem ToInt32_le (n : Nat) : ToInt32 n ≤ (n : Int) := by
  unfold ToInt32
  split <;> omega

/-- The listed field RemoveRecordsAboveLimit gives to the record that crosses
the limit is at least 1, whatever the `int` values are. -/
theorem listed_cut_pos (c l : Int) (hc1 : -2147483648 ≤ c) (hc2 : c ≤ 10) (hne : c ≠ 10)
    (hl1 : -2147483648 ≤ l) (hl2 : l < 2147483648) (hgt : WrapInt32 (c + l) > 10) :
    1 ≤ ToUInt32 (WrapInt32 (l - WrapInt32 (WrapInt32 (c + l) - 10))) := by
  obtain ⟨k1, h1⟩ := WrapInt32_spec (c + l)
  obtain ⟨r1a, r1b⟩ := WrapInt32_range (c + l)
  obtain ⟨k2, h2⟩ := WrapInt32_spec (WrapInt32 (c + l) - 10)
  obtain ⟨r2a, r2b⟩ := WrapInt32_range (WrapInt32 (c + l) - 10)
  obtain ⟨k3, h3⟩ := WrapInt32_spec (l - WrapInt32 (WrapInt32 (c + l) - 10))
  obtain ⟨k4, h4⟩ := ToUInt32_spec (WrapInt32 (l - WrapInt32 (WrapInt32 (c + l) - 10)))
  have h5 := ToUInt32_lt (WrapInt32 (l - WrapInt32 (WrapInt32 (c + l) - 10)))
  omega

theorem RemoveRecordsAboveLimitStep_keep (done : List TIssueRecord) (st : TLimitState)
    (it : TIssueRecord) (h : CutKeepInv done st) :
    CutKeepInv (done ++ [it]) (RemoveRecordsAboveLimitStep st it) := by
  obtain ⟨hne, ⟨hc1, hc2⟩, hl⟩ := h
  have hup : ∀ s ∈ st.kept, s ∈ done ++ [it] ∨ 1 ≤ s.IssueLog.listed := fun s hs =>
    (hl s hs).imp (fun h1 => List.mem_append_left _ h1) id
  obtain ⟨hr1, hr2⟩ := GetIssueListed_range it
  unfold MERGER_ISSUE_LIMIT at hc2
  simp only [Nat.cast_ofNat] at hc2
  unfold CutKeepInv RemoveRecordsAboveLimitStep MERGER_ISSUE_LIMIT
  simp only [Nat.cast_ofNat]
  split
  · rename_i h10
    have kne : st.kept ≠ [] := by
      intro e
      rw [hne e] at h10
      exact absurd h10 (by decide)
    obtain ⟨pre, last, e⟩ := eq_concat_of_ne_nil st.kept kne
    have hpre : ∀ s ∈ pre, s ∈ st.kept := fun s hs => by
      rw [e]
      exact List.mem_append_left _ hs
    dsimp only
    rw [e, ModifyLast_concat]
    refine ⟨fun e2 => absurd e2 (by simp), ⟨hc1, hc2⟩, ?_⟩
    intro s hs
    rw [List.mem_append, List.mem_singleton] at hs
    rcases hs with hs | hs
    · exact hup s (hpre s hs)
    · rw [hs]
      exact Or.inr (listed_SetIssueCount _ _)
  · rename_i h10
    split
    · rename_i hgt
      dsimp only
      refine ⟨fun e2 => absurd e2 (by simp), ⟨by omega, Int.le_refl _⟩, ?_⟩
      intro s hs
      rw [List.mem_append, List.mem_singleton] at hs
      rcases hs with hs | hs
      · exact hup s hs
      · rw [hs, listed_RemoveLocationIds, listed_SetIssueListed]
        exact Or.inr (listed_cut_pos _ _ hc1 hc2 h10 hr1 hr2 hgt)
    · rename_i hgt
      dsimp only
      obtain ⟨w1, _⟩ := WrapInt32_range (st.commonListed + GetIssueListed it)
      refine ⟨fun e2 => absurd e2 (by simp), ⟨w1, by omega⟩, ?_⟩
      intro s hs
      rw [List.mem_append, List.mem_singleton] at hs
      rcases hs with hs | hs
      · exact hup s hs
      · rw [hs]
        exact Or.inl (List.mem_append_right _ (List.mem_singleton_self _))

theorem foldl_RemoveRecordsAboveLimitStep_keep (l done : List TIssueRecord)
    (st : TLimitState) (h : CutKeepInv done st) :
    CutKeepInv (done ++ l) (l.foldl RemoveRecordsAboveLimitStep st) := by
  induction l generalizing done st with
  | nil => simpa using h
  | cons a l ih =>
    rw [List.foldl_cons]
    have e : done ++ a :: l = (done ++ [a]) ++ l := by simp
    rw [e]
    exact ih _ _ (RemoveRecordsAboveLimitStep_keep done st a h)

theorem RemoveRecordsAboveLimit_keep (c : TMergeIssuesContext) (R : List TIssueRecord) :
    CutKeepInv R
      { kept := (RemoveRecordsAboveLimit c R).2,
        commonListed :=
          (R.foldl RemoveRecordsAboveLimitStep { removeIssuesIds := c.removeIssuesIds }).commonListed,
        removeIssuesIds := (RemoveRecordsAboveLimit c R).1.removeIssuesIds } := by
  have h0 : CutKeepInv [] { removeIssuesIds := c.removeIssuesIds } :=
    ⟨fun _ => rfl, ⟨(by decide : (-2147483648 : Int) ≤ 0), Int.ofNat_nonneg _⟩,
      fun s hs => absurd hs (List.not_mem_nil _)⟩
  have h := foldl_RemoveRecordsAboveLimitStep_keep R [] _ h0
  rw [List.nil_append] at h
  exact h

/-- An iteration of the loop that stays within defined behaviour, on records
whose counts are below 2^31: the counts of the records kept sum up to those
kept before and the count of the record, and stay below 2^31. -/
theorem RemoveRecordsAboveLimitStep_count (st : TLimitState) (it : TIssueRecord)
    (hd : RemoveRecordsAboveLimitStepDefined st it = true)
    (hk : ∀ s ∈ st.kept, s.IssueLog.count < 2147483648)
    (hi : it.IssueLog.count < 2147483648) :
    CountSum (RemoveRecordsAboveLimitStep st it).kept = CountSum st.kept + CountValue it ∧
    ∀ s ∈ (RemoveRecordsAboveLimitStep st it).kept, s.IssueLog.count < 2147483648 := by
  have hiv := CountValue_lt it hi
  have hip := CountValue_pos it
  unfold RemoveRecordsAboveLimitStepDefined at hd
  unfold RemoveRecordsAboveLimitStep
  split
  · rename_i h10
    rw [if_pos h10] at hd
    rcases List.eq_nil_or_concat st.kept with e | ⟨pre, last, e⟩
    · rw [e] at hd
      cases hd
    · have e2 : st.kept = pre ++ [last] := by rw [e, List.concat_eq_append]
      rw [e2, List.getLast?_concat] at hd
      dsimp only at hd
      have hlast : last.IssueLog.count < 2147483648 :=
        hk last (by rw [e2]; exact List.mem_append_right _ (List.mem_singleton_self _))
      have hlv := CountValue_lt last hlast
      have hlp := CountValue_pos last
      rw [InInt32_iff, GetIssueCount_eq last hlv, GetIssueCount_eq it hiv] at hd
      dsimp only
      rw [e2, ModifyLast_concat, GetIssueCount_eq last hlv, GetIssueCount_eq it hiv,
        WrapInt32_of_range _ hd.1 hd.2]
      have hc : (SetIssueCount last ((CountValue last : Int) + (CountValue it : Int))).IssueLog.count =
          CountValue last + CountValue it := by
        rw [count_SetIssueCount, ToUInt32_of_range _ (by omega) (by omega)]
        omega
      refine ⟨?_, ?_⟩
      · rw [CountSum_append, CountSum_singleton, CountSum_append, CountSum_singleton]
        have := CountValue_of_count _ _ hc (by omega)
        omega
      · intro s hs
        rw [List.mem_append, List.mem_singleton] at hs
        rcases hs with hs | hs
        · exact hk s (by rw [e2]; exact List.mem_append_left _ hs)
        · rw [hs, hc]
          omega
  · split
    · dsimp only
      refine ⟨?_, ?_⟩
      · rw [CountSum_append, CountSum_singleton, CountValue_RemoveLocationIds,
          CountValue_SetIssueListed]
      · intro s hs
        rw [List.mem_append, List.mem_singleton] at hs
        rcases hs with hs | hs
        · exact hk s hs
        · rw [hs, count_RemoveLocationIds, count_SetIssueListed]
          exact hiv
    · dsimp only
      refine ⟨?_, ?_⟩
      · rw [CountSum_append, CountSum_singleton]
      · intro s hs
        rw [List.mem_append, List.mem_singleton] at hs
        rcases hs with hs | hs
        · exact hk s hs
        · rw [hs]
          exact hi

theorem foldl_RemoveRecordsAboveLimitStep_count (l : List TIssueRecord) (st : TLimitState)
    (hd : RemoveRecordsAboveLimitDefinedLoop st l = true)
    (hk : ∀ s ∈ st.kept, s.IssueLog.count < 2147483648)
    (hl : ∀ r ∈ l, r.IssueLog.count < 2147483648) :
    CountSum (l.foldl RemoveRecordsAboveLimitStep st).kept = CountSum st.kept + CountSum l := by
  induction l generalizing st with
  | nil => rfl
  | cons a l ih =>
    rw [List.foldl_cons]
    unfold RemoveRecordsAboveLimitDefinedLoop at hd
    rw [Bool.and_eq_true] at hd
    obtain ⟨s1, s2⟩ := RemoveRecordsAboveLimitStep_count st a hd.1 hk
      (hl a (List.mem_cons_self _ _))
    rw [ih _ hd.2 s2 (fun r hr => hl r (List.mem_cons_of_mem _ hr)), s1, CountSum_cons]
    omega

/-- An iteration of the loop that stays within defined behaviour, on records
that have at least as many location ids as their listed value: so have the
records it keeps. -/
theorem RemoveRecordsAboveLimitStep_loc (st : TLimitState) (it : TIssueRecord)
    (hd : RemoveRecordsAboveLimitStepDefined st it = true)
    (hc1 : -2147483648 ≤ st.commonListed) (hc2 : st.commonListed ≤ (MERGER_ISSUE_LIMIT : Int))
    (hk : ∀ s ∈ st.kept, ListedValue s ≤ LocationIdCount s)
    (hi : ListedValue it ≤ LocationIdCount it) :
    ∀ s ∈ (RemoveRecordsAboveLimitStep st it).kept, ListedValue s ≤ LocationIdCount s := by
  unfold RemoveRecordsAboveLimitStep
  split
  · dsimp only
    intro s hs
    obtain ⟨a, ha, e⟩ := mem_ModifyLast _ _ _ hs
    rcases e with e | e
    · rw [e]
      exact hk a ha
    · rw [e, ListedValue_SetIssueCount, LocationIdCount_SetIssueCount]
      exact hk a ha
  · rename_i hne
    obtain ⟨d1, d2⟩ := RemoveRecordsAboveLimitStepDefined_sum st it hd hne
    have hw := WrapInt32_of_range _ d1 d2
    rw [hw]
    unfold MERGER_ISSUE_LIMIT at hc2 hne ⊢
    simp only [Nat.cast_ofNat] at hc2 hne ⊢
    split
    · rename_i hgt
      dsimp only
      have hle : GetIssueListed it ≤ (ListedValue it : Int) := ToInt32_le _
      obtain ⟨hr1, hr2⟩ := GetIssueListed_range it
      have hw2 : WrapInt32 (st.commonListed + GetIssueListed it - 10) =
          st.commonListed + GetIssueListed it - 10 :=
        WrapInt32_of_range _ (by omega) (by omega)
      have hw3 : WrapInt32 (GetIssueListed it - (st.commonListed + GetIssueListed it - 10)) =
          10 - st.commonListed := by
        rw [WrapInt32_of_range
          (GetIssueListed it - (st.commonListed + GetIssueListed it - 10)) (by omega) (by omega)]
        omega
      rw [hw2, hw3]
      intro s hs
      rw [List.mem_append, List.mem_singleton] at hs
      rcases hs with hs | hs
      · exact hk s hs
      · rw [hs, ListedValue_RemoveLocationIds, ListedValue_SetIssueListed,
          LocationIdCount_RemoveLocationIds, LocationIdCount_SetIssueListed,
          ToUInt32_of_range _ (by omega) (by omega)]
        split <;> omega
    · dsimp only
      intro s hs
      rw [List.mem_append, List.mem_singleton] at hs
      rcases hs with hs | hs
      · exact hk s hs
      · rw [hs]
        exact hi

theorem foldl_RemoveRecordsAboveLimitStep_loc (l done : List TIssueRecord) (st : TLimitState)
    (hd : RemoveRecordsAboveLimitDefinedLoop st l = true) (hinv : CutKeepInv done st)
    (hk : ∀ s ∈ st.kept, ListedValue s ≤ LocationIdCount s)
    (hl : ∀ r ∈ l, ListedValue r ≤ LocationIdCount r) :
    ∀ s ∈ (l.foldl RemoveRecordsAboveLimitStep st).kept, ListedValue s ≤ LocationIdCount s := by
  induction l generalizing done st with
  | nil => exact hk
  | cons a l ih =>
    rw [List.foldl_cons]
    unfold RemoveRecordsAboveLimitDefinedLoop at hd
    rw [Bool.and_eq_true] at hd
    exact ih (done ++ [a]) _ hd.2 (RemoveRecordsAboveLimitStep_keep done st a hinv)
      (RemoveRecordsAboveLimitStep_loc st a hd.1 hinv.2.1.1 hinv.2.1.2 hk
        (hl a (List.mem_cons_self _ _)))
      (fun r hr => hl r (List.mem_cons_of_mem _ hr))

/-- C39 (counterexample): a single GroupState record with listed = 20 and ten
group ids survives RemoveRecordsAboveLimit with listed = 10 and no entry in
its array of group ids. And of a record with listed = 10 and count = 2 and a
record with count = 4294967295, which GetIssueCount returns as the `int` -1,
the first is left with count = 1: the counts sum up to 4294967297 before and
to 1 after. Both runs stay within defined behaviour. -/
theorem cut_record_loses_all_location_ids :
    (exampleWideRecord.Tag = ETags.GroupState ∧
      exampleWideRecord.IssueLog.listed = 20 ∧
      exampleWideRecord.IssueLog.location.storage.pool.group.id.length = 10 ∧
      RemoveRecordsAboveLimitDefined {} [exampleWideRecord] = true ∧
      (RemoveRecordsAboveLimit {} [exampleWideRecord]).2.map (fun r => r.IssueLog.id) = ["g"] ∧
      (RemoveRecordsAboveLimit {} [exampleWideRecord]).2.map (fun r => r.IssueLog.listed) =
        [10] ∧
      (RemoveRecordsAboveLimit {} [exampleWideRecord]).2.map
        (fun r => r.IssueLog.location.storage.pool.group.id) = [[]] ∧
      (RemoveRecordsAboveLimit {} [exampleWideRecord]).2.map LocationIdCount = [0]) ∧
    (exampleNegativeCount.map (fun r => (r.IssueLog.listed, r.IssueLog.count)) =
        [(10, 2), (0, 4294967295)] ∧
      exampleNegativeCount.map GetIssueCount = [2, -1] ∧
      RemoveRecordsAboveLimitDefined {} exampleNegativeCount = true ∧
      (RemoveRecordsAboveLimit {} exampleNegativeCount).2.map
        (fun r => (r.IssueLog.listed, r.IssueLog.count)) = [(10, 1)] ∧
      CountSum exampleNegativeCount = 4294967297 ∧
      CountSum (RemoveRecordsAboveLimit {} exampleNegativeCount).2 = 1) := by
  decide

/-- C39 (amended): for every list of records and every context: when the loop
stays within defined behaviour and every count is below 2^31, so that
GetIssueCount returns it as it is, the sum of count over the list (a count of
0 counting as 1) is the same before and after RemoveRecordsAboveLimit: the
last surviving record gets its own count plus the counts of the removed
records, the other survivors keep theirs. Every surviving record has a listed
value (0 counting as 1) of at least 1, and is an unchanged record of the
input or has a listed field of at least 1. When the loop stays within defined
behaviour and every record of the input has at least as many entries in its
location id array as its listed value (0 counting as 1), so has every
surviving record, which then has at least one entry. -/
theorem RemoveRecordsAboveLimit_keeps_count (c : TMergeIssuesContext)
    (R : List TIssueRecord) :
    (RemoveRecordsAboveLimitDefined c R = true →
      (∀ r ∈ R, r.IssueLog.count < 2147483648) →
      CountSum (RemoveRecordsAboveLimit c R).2 = CountSum R ∧
      CountSum ((RemoveRecordsAboveLimit c R).2.drop
        ((RemoveRecordsAboveLimit c R).2.length - 1)) =
          CountSum (R.drop ((RemoveRecordsAboveLimit c R).2.length - 1))) ∧
    (RemoveRecordsAboveLimit c R).2.dropLast =
      R.take ((RemoveRecordsAboveLimit c R).2.length - 1) ∧
    (∀ s ∈ (RemoveRecordsAboveLimit c R).2,
      1 ≤ ListedValue s ∧ (s ∈ R ∨ 1 ≤ s.IssueLog.listed)) ∧
    (RemoveRecordsAboveLimitDefined c R = true →
      (∀ r ∈ R, ListedValue r ≤ LocationIdCount r) →
      ∀ s ∈ (RemoveRecordsAboveLimit c R).2,
        ListedValue s ≤ LocationIdCount s ∧ 1 ≤ LocationIdCount s) := by
  obtain ⟨_, _, hl⟩ := RemoveRecordsAboveLimit_keep c R
  dsimp only at hl
  have hdl := RemoveRecordsAboveLimit_dropLast c R
  have h0 : CutKeepInv [] { removeIssuesIds := c.removeIssuesIds } :=
    ⟨fun _ => rfl, ⟨(by decide : (-2147483648 : Int) ≤ 0), Int.ofNat_nonneg _⟩,
      fun s hs => absurd hs (List.not_mem_nil _)⟩
  refine ⟨fun hd hcount => ?_, hdl, fun s hs => ⟨ListedValue_pos s, hl s hs⟩,
    fun hd hP s hs => ?_⟩
  · have hc : CountSum (RemoveRecordsAboveLimit c R).2 = CountSum R := by
      have := foldl_RemoveRecordsAboveLimitStep_count R
        { removeIssuesIds := c.removeIssuesIds } hd
        (fun s hs => absurd hs (List.not_mem_nil _)) hcount
      rw [CountSum_nil, Nat.zero_add] at this
      exact this
    refine ⟨hc, ?_⟩
    have h1 := List.take_append_drop ((RemoveRecordsAboveLimit c R).2.length - 1)
      (RemoveRecordsAboveLimit c R).2
    have h2 := List.take_append_drop ((RemoveRecordsAboveLimit c R).2.length - 1) R
    have h3 : CountSum (RemoveRecordsAboveLimit c R).2 =
        CountSum (List.take ((RemoveRecordsAboveLimit c R).2.length - 1) R) +
        CountSum ((RemoveRecordsAboveLimit c R).2.drop
          ((RemoveRecordsAboveLimit c R).2.length - 1)) := by
      conv_lhs => rw [← h1]
      rw [CountSum_append, ← List.dropLast_eq_take, hdl]
    have h4 : CountSum R =
        CountSum (List.take ((RemoveRecordsAboveLimit c R).2.length - 1) R) +
        CountSum (R.drop ((RemoveRecordsAboveLimit c R).2.length - 1)) := by
      conv_lhs => rw [← h2]
      rw [CountSum_append]
    omega
  · have hloc := foldl_RemoveRecordsAboveLimitStep_loc R []
      { removeIssuesIds := c.removeIssuesIds } hd h0
      (fun s hs => absurd hs (List.not_mem_nil _)) hP s hs
    exact ⟨hloc, Nat.le_trans (ListedValue_pos s) hloc⟩

/-- C39 (witness): a GroupState record with listed = 20 and twenty group ids
survives with listed = 10 and ten group ids. -/
theorem RemoveRecordsAboveLimit_keeps_count_witness :
    RemoveRecordsAboveLimitDefined {} [exampleFullRecord] = true ∧
    (∀ r ∈ [exampleFullRecord], r.IssueLog.count < 2147483648) ∧
    (∀ r ∈ [exampleFullRecord], ListedValue r ≤ LocationIdCount r) ∧
    (RemoveRecordsAboveLimit {} [exampleFullRecord]).2.map LocationIdCount = [10] ∧
    CountSum (RemoveRecordsAboveLimit {} [exampleFullRecord]).2 = CountSum [exampleFullRecord] ∧
    ∀ s ∈ (RemoveRecordsAboveLimit {} [exampleFullRecord]).2,
      ListedValue s ≤ LocationIdCount s ∧ 1 ≤ LocationIdCount s :=
  ⟨by decide, by decide, by decide, by decide,
    ((RemoveRecordsAboveLimit_keeps_count {} [exampleFullRecord]).1 (by decide) (by decide)).1,
    (RemoveRecordsAboveLimit_keeps_count {} [exampleFullRecord]).2.2.2 (by decide) (by decide)⟩

/-! ### C38: the referential cleanup -/

theorem RemoveUnlinkStep_deleted (necessary : List String) (st : TUnlinkState)
    (a : TIssueRecord) :
    a ∈ (RemoveUnlinkStep necessary st a).kept ∨
      a.IssueLog.id ∈ (RemoveUnlinkStep necessary st a).removeIssuesIds := by
  unfold RemoveUnlinkStep
  split
  · rename_i h
    exact Or.inr ((mem_foldl_TSetInsert _ _ _).2 (Or.inl h.2))
  · exact Or.inl (List.mem_append_right _ (List.mem_singleton_self _))

theorem foldl_RemoveUnlinkStep_deleted (necessary : List String) (l : List TIssueRecord)
    (st : TUnlinkState) :
    ∀ r ∈ l, r ∈ (l.foldl (RemoveUnlinkStep necessary) st).kept ∨
      r.IssueLog.id ∈ (l.foldl (RemoveUnlinkStep necessary) st).removeIssuesIds := by
  induction l generalizing st with
  | nil =>
    intro r hr
    cases hr
  | cons a l ih =>
    intro r hr
    rw [List.foldl_cons]
    rw [List.mem_cons] at hr
    rcases hr with hr | hr
    · obtain ⟨s1, s2, _⟩ := foldl_RemoveUnlinkStep_spec necessary l
        (RemoveUnlinkStep necessary st a)
      rw [hr]
      exact (RemoveUnlinkStep_deleted necessary st a).imp (s2 a) (s1 _)
    · exact ih _ r hr

theorem RemoveUnlinkLoop_mono (fuel : Nat) (records : List TIssueRecord)
    (removeIssuesIds : List String) :
    ∀ x ∈ removeIssuesIds, x ∈ (RemoveUnlinkLoop fuel records removeIssuesIds).2 := by
  induction fuel generalizing records removeIssuesIds with
  | zero => exact fun x hx => hx
  | succ fuel ih =>
    obtain ⟨s1, _⟩ := foldl_RemoveUnlinkStep_spec
      (NecessaryIssuesIds records) records { removeIssuesIds := removeIssuesIds }
    rw [RemoveUnlinkLoop]
    split
    · exact fun x hx => ih _ _ x (s1 x hx)
    · exact fun x hx => s1 x hx

theorem RemoveUnlinkLoop_deleted (fuel : Nat) (records : List TIssueRecord)
    (removeIssuesIds : List String) :
    ∀ r ∈ records, r ∈ (RemoveUnlinkLoop fuel records removeIssuesIds).1 ∨
      r.IssueLog.id ∈ (RemoveUnlinkLoop fuel records removeIssuesIds).2 := by
  induction fuel generalizing records removeIssuesIds with
  | zero => exact fun r hr => Or.inl hr
  | succ fuel ih =>
    have hd := foldl_RemoveUnlinkStep_deleted
      (NecessaryIssuesIds records) records { removeIssuesIds := removeIssuesIds }
    rw [RemoveUnlinkLoop]
    split
    · intro r hr
      rcases hd r hr with h | h
      · exact ih _ _ r h
      · exact Or.inr (RemoveUnlinkLoop_mono fuel _ _ _ h)
    · exact hd

theorem RemoveUnlinkLoop_enough (records : List TIssueRecord) (removeIssuesIds : List String)
    (n : Nat) :
    RemoveUnlinkLoop (records.length + 1 + n) records removeIssuesIds =
      RemoveUnlinkLoop (records.length + 1) records removeIssuesIds := by
  induction n with
  | zero => rfl
  | succ n ih =>
    rw [← ih]
    exact RemoveUnlinkLoop_fuel (records.length + 1 + n) records removeIssuesIds (by omega)

theorem mem_FilterReasons (records : List TIssueRecord) (k : TIssueRecord)
    (h : k ∈ FilterReasons records) :
    ∃ r ∈ records, k.Tag = r.Tag ∧ k.IssueLog.id = r.IssueLog.id ∧
      k.IssueLog.reason = r.IssueLog.reason.filter
        (fun x => decide (x ∈ records.map (fun it => it.IssueLog.id))) := by
  unfold FilterReasons at h
  rw [List.mem_map] at h
  obtain ⟨r, hr, e⟩ := h
  exact ⟨r, hr, by rw [← e], by rw [← e], by rw [← e]⟩

theorem FilterReasons_mem (records : List TIssueRecord) (r : TIssueRecord)
    (h : r ∈ records) :
    ∃ k ∈ FilterReasons records, k.Tag = r.Tag ∧ k.IssueLog.id = r.IssueLog.id ∧
      k.IssueLog.reason = r.IssueLog.reason.filter
        (fun x => decide (x ∈ records.map (fun it => it.IssueLog.id))) := by
  refine ⟨_, List.mem_map_of_mem _ h, rfl, rfl, rfl⟩

/-- C38: for every record list and every context, the loop of
RemoveUnlinkIssues ends by its own condition: after records.length + 1
sweeps more fuel changes nothing, and one more sweep over the list it leaves
erases nothing. When RemoveUnlinkIssues returns, every surviving record whose
id is in the removed-ids set is listed in the reason list of a surviving
record; the survivors are records of the input, in their order, with the
reason lists cut down to the ids of survivors; every record of the input
that did not survive has its id and every id of its reason list in the
removed-ids set, which keeps what it held. -/
theorem RemoveUnlinkIssues_fixed_point (c : TMergeIssuesContext)
    (records : List TIssueRecord) :
    (∀ n, RemoveUnlinkLoop (records.length + 1 + n) records c.removeIssuesIds =
      RemoveUnlinkLoop (records.length + 1) records c.removeIssuesIds) ∧
    ((RemoveUnlinkLoop (records.length + 1) records c.removeIssuesIds).1.foldl
        (RemoveUnlinkStep
          (NecessaryIssuesIds (RemoveUnlinkLoop (records.length + 1) records c.removeIssuesIds).1))
        { removeIssuesIds := (c.RemoveUnlinkIssues records).1.removeIssuesIds }) =
      { kept := (RemoveUnlinkLoop (records.length + 1) records c.removeIssuesIds).1,
        removeIssuesIds := (c.RemoveUnlinkIssues records).1.removeIssuesIds,
        isRemovingIssuesIteration := false } ∧
    (c.RemoveUnlinkIssues records).2 =
      FilterReasons (RemoveUnlinkLoop (records.length + 1) records c.removeIssuesIds).1 ∧
    (RemoveUnlinkLoop (records.length + 1) records c.removeIssuesIds).1.Sublist records ∧
    (∀ r ∈ (c.RemoveUnlinkIssues records).2,
      r.IssueLog.id ∈ (c.RemoveUnlinkIssues records).1.removeIssuesIds →
      ∃ s ∈ (c.RemoveUnlinkIssues records).2, r.IssueLog.id ∈ s.IssueLog.reason) ∧
    (∀ r ∈ records,
      r ∈ (RemoveUnlinkLoop (records.length + 1) records c.removeIssuesIds).1 ∨
      (r.IssueLog.id ∈ (c.RemoveUnlinkIssues records).1.removeIssuesIds ∧
        ∀ x ∈ r.IssueLog.reason, x ∈ (c.RemoveUnlinkIssues records).1.removeIssuesIds)) ∧
    (∀ x ∈ c.removeIssuesIds, x ∈ (c.RemoveUnlinkIssues records).1.removeIssuesIds) := by
  obtain ⟨h1, h2, h3⟩ := RemoveUnlinkLoop_spec (records.length + 1) records c.removeIssuesIds
    (Nat.lt_succ_self _)
  have hd := RemoveUnlinkLoop_deleted (records.length + 1) records c.removeIssuesIds
  have hkeep := foldl_RemoveUnlinkStep_keep
    (NecessaryIssuesIds (RemoveUnlinkLoop (records.length + 1) records c.removeIssuesIds).1)
    (RemoveUnlinkLoop (records.length + 1) records c.removeIssuesIds).1
    { removeIssuesIds := (RemoveUnlinkLoop (records.length + 1) records c.removeIssuesIds).2 } h1
  refine ⟨RemoveUnlinkLoop_enough records c.removeIssuesIds, ?_, rfl,
    RemoveUnlinkLoop_sublist _ _ _, ?_, ?_, h2⟩
  · rw [show (c.RemoveUnlinkIssues records).1.removeIssuesIds =
      (RemoveUnlinkLoop (records.length + 1) records c.removeIssuesIds).2 from rfl, hkeep]
    simp
  · intro r hr hrem
    obtain ⟨r0, hr0, _, hid, _⟩ := mem_FilterReasons _ r hr
    rcases h1 r0 hr0 with hn | hn
    · obtain ⟨s0, hs0, hin⟩ := (mem_NecessaryIssuesIds _ _).1 hn
      refine ⟨_, List.mem_map_of_mem _ hs0, ?_⟩
      dsimp only
      rw [hid, List.mem_filter]
      exact ⟨hin, decide_eq_true (List.mem_map_of_mem _ hr0)⟩
    · rw [hid] at hrem
      exact absurd hrem hn
  · intro r hr
    rcases hd r hr with h | h
    · exact Or.inl h
    · rcases h3 r hr with h4 | h4
      · exact Or.inl h4
      · exact Or.inr ⟨h, h4⟩

/-! ### C35: what the merge of a class leaves in the first record -/

theorem FirstNew_append {A : Type} (key : A → String) (l1 l2 : List A) (seen : List String) :
    FirstNew key seen (l1 ++ l2) =
      FirstNew key seen l1 ++ FirstNew key (seen ++ (FirstNew key seen l1).map key) l2 := by
  induction l1 generalizing seen with
  | nil => simp [FirstNew]
  | cons a l ih =>
    rw [List.cons_append, FirstNew, FirstNew]
    split
    · exact ih seen
    · rw [ih, List.cons_append, List.map_cons, List.append_assoc]
      rfl

theorem FirstNew_spec {A : Type} (key : A → String) (l : List A) (seen : List String) :
    ((FirstNew key seen l).map key).Nodup ∧
    (∀ x ∈ (FirstNew key seen l).map key, x ∉ seen) ∧
    (∀ x, x ∈ seen ++ (FirstNew key seen l).map key ↔ x ∈ seen ∨ x ∈ l.map key) ∧
    (FirstNew key seen l).Sublist l := by
  induction l generalizing seen with
  | nil => simp [FirstNew]
  | cons a l ih =>
    rw [FirstNew]
    split
    · rename_i h
      obtain ⟨i1, i2, i3, i4⟩ := ih seen
      refine ⟨i1, i2, fun x => ?_, i4.trans (List.sublist_cons_self _ _)⟩
      rw [i3, List.map_cons, List.mem_cons]
      constructor
      · rintro (h1 | h1)
        · exact Or.inl h1
        · exact Or.inr (Or.inr h1)
      · rintro (h1 | h1 | h1)
        · exact Or.inl h1
        · exact Or.inl (h1 ▸ h)
        · exact Or.inr h1
    · rename_i h
      obtain ⟨i1, i2, i3, i4⟩ := ih (seen ++ [key a])
      refine ⟨?_, ?_, fun x => ?_, i4.cons₂ _⟩
      · rw [List.map_cons, List.nodup_cons]
        refine ⟨fun hin => i2 _ hin ?_, i1⟩
        exact List.mem_append_right _ (List.mem_singleton_self _)
      · intro x hx
        rw [List.map_cons, List.mem_cons] at hx
        rcases hx with hx | hx
        · rw [hx]
          exact h
        · exact fun hs => i2 x hx (List.mem_append_left _ hs)
      · have h3 := i3 x
        rw [List.append_assoc] at h3
        rw [List.map_cons, List.map_cons, List.mem_cons]
        rw [show seen ++ key a :: (FirstNew key (seen ++ [key a]) l).map key =
          seen ++ ([key a] ++ (FirstNew key (seen ++ [key a]) l).map key) from rfl, h3,
          List.mem_append, List.mem_singleton]
        tauto

theorem MoveReasons_eq (donorReasons : List String) (main : TIssueRecord)
    (mainReasonIds : List String) :
    MoveReasons main mainReasonIds donorReasons =
      ({ main with IssueLog.reason :=
          main.IssueLog.reason ++ FirstNew (fun x => x) mainReasonIds donorReasons },
        mainReasonIds ++ FirstNew (fun x => x) mainReasonIds donorReasons) := by
  unfold MoveReasons
  induction donorReasons generalizing main mainReasonIds with
  | nil =>
    rw [List.foldl_nil, FirstNew, List.append_nil, List.append_nil]
  | cons r l ih =>
    rw [List.foldl_cons, FirstNew]
    dsimp only
    split
    · exact ih main mainReasonIds
    · rw [ih]
      dsimp only
      rw [List.append_assoc, List.append_assoc]
      rfl

theorem MoveLocationIds_fields (main donor : TIssueRecord) :
    (MoveLocationIds main donor).Tag = main.Tag ∧
    (MoveLocationIds main donor).IssueLog.reason = main.IssueLog.reason ∧
    (MoveLocationIds main donor).IssueLog.location.storage.pool.group.id =
      main.IssueLog.location.storage.pool.group.id ++
        (if main.Tag = ETags.GroupState then donor.IssueLog.location.storage.pool.group.id
          else []) ∧
    (MoveLocationIds main donor).IssueLog.location.storage.pool.group.vdisk.id =
      main.IssueLog.location.storage.pool.group.vdisk.id ++
        (if main.Tag = ETags.VDiskState then
          donor.IssueLog.location.storage.pool.group.vdisk.id else []) ∧
    (MoveLocationIds main donor).IssueLog.location.storage.pool.group.vdisk.pdisk =
      main.IssueLog.location.storage.pool.group.vdisk.pdisk ++
        (if main.Tag = ETags.PDiskState then
          donor.IssueLog.location.storage.pool.group.vdisk.pdisk else []) := by
  unfold MoveLocationIds
  split
  · rename_i h
    simp [h]
  · rename_i h
    simp [h]
  · rename_i h
    simp [h]
  · rename_i h1 h2 h3
    rw [if_neg (fun e => h1 e), if_neg (fun e => h2 e), if_neg (fun e => h3 e)]
    simp

theorem map_self {A : Type} (l : List A) : l.map (fun x => x) = l := by
  induction l with
  | nil => rfl
  | cons a l ih => rw [List.map_cons, ih]

theorem foldl_TSetInsert_ids (D : List TIssueRecord) (set : List String) (x : String) :
    x ∈ D.foldl (fun s d => TSetInsert s d.IssueLog.id) set ↔
      x ∈ set ∨ x ∈ D.map (fun d => d.IssueLog.id) := by
  induction D generalizing set with
  | nil => simp
  | cons a l ih =>
    rw [List.foldl_cons, ih, mem_TSetInsert, List.map_cons, List.mem_cons]
    tauto

/-- The loop of MoveDataInFirstRecord: the ids, the reasons, the location ids
and the removed ids it leaves, in terms of the records with a new id. -/
theorem foldl_MoveDataStep_content (l : List TIssueRecord) (st : TMoveState) :
    (l.foldl MoveDataStep st).ids =
      st.ids ++ (FirstNew (fun r => r.IssueLog.id) st.ids l).map (fun r => r.IssueLog.id) ∧
    (l.foldl MoveDataStep st).mainReasonIds =
      st.mainReasonIds ++ FirstNew (fun x => x) st.mainReasonIds
        ((FirstNew (fun r => r.IssueLog.id) st.ids l).flatMap (fun d => d.IssueLog.reason)) ∧
    (l.foldl MoveDataStep st).main.IssueLog.reason =
      st.main.IssueLog.reason ++ FirstNew (fun x => x) st.mainReasonIds
        ((FirstNew (fun r => r.IssueLog.id) st.ids l).flatMap (fun d => d.IssueLog.reason)) ∧
    (l.foldl MoveDataStep st).main.IssueLog.location.storage.pool.group.id =
      st.main.IssueLog.location.storage.pool.group.id ++
        (if st.main.Tag = ETags.GroupState then
          (FirstNew (fun r => r.IssueLog.id) st.ids l).flatMap
            (fun d => d.IssueLog.location.storage.pool.group.id) else []) ∧
    (l.foldl MoveDataStep st).main.IssueLog.location.storage.pool.group.vdisk.id =
      st.main.IssueLog.location.storage.pool.group.vdisk.id ++
        (if st.main.Tag = ETags.VDiskState then
          (FirstNew (fun r => r.IssueLog.id) st.ids l).flatMap
            (fun d => d.IssueLog.location.storage.pool.group.vdisk.id) else []) ∧
    (l.foldl MoveDataStep st).main.IssueLog.location.storage.pool.group.vdisk.pdisk =
      st.main.IssueLog.location.storage.pool.group.vdisk.pdisk ++
        (if st.main.Tag = ETags.PDiskState then
          (FirstNew (fun r => r.IssueLog.id) st.ids l).flatMap
            (fun d => d.IssueLog.location.storage.pool.group.vdisk.pdisk) else []) ∧
    (l.foldl MoveDataStep st).removeIssuesIds =
      (FirstNew (fun r => r.IssueLog.id) st.ids l).foldl
        (fun s d => TSetInsert s d.IssueLog.id) st.removeIssuesIds := by
  induction l generalizing st with
  | nil => simp [FirstNew]
  | cons a l ih =>
    rw [List.foldl_cons, FirstNew]
    by_cases ha : a.IssueLog.id ∈ st.ids
    · have hstep : MoveDataStep st a = { st with skipped := st.skipped ++ [a] } := by
        unfold MoveDataStep
        rw [if_pos ha]
      rw [if_pos ha, hstep]
      exact ih _
    · obtain ⟨m1, m2, m3, m4, m5⟩ := MoveLocationIds_fields st.main a
      have hstep : MoveDataStep st a =
          { st with
            main := { MoveLocationIds st.main a with IssueLog.reason :=
              ((MoveLocationIds st.main a).IssueLog.reason ++
                FirstNew (fun x => x) st.mainReasonIds a.IssueLog.reason) },
            ids := st.ids ++ [a.IssueLog.id],
            mainReasonIds :=
              (st.mainReasonIds ++ FirstNew (fun x => x) st.mainReasonIds a.IssueLog.reason),
            removeIssuesIds := TSetInsert st.removeIssuesIds a.IssueLog.id } := by
        unfold MoveDataStep
        rw [if_neg ha]
        dsimp only
        rw [MoveReasons_eq]
      rw [if_neg ha]
      obtain ⟨i1, i2, i3, i4, i5, i6, i7⟩ := ih (MoveDataStep st a)
      rw [hstep] at i1 i2 i3 i4 i5 i6 i7
      dsimp only at i1 i2 i3 i4 i5 i6 i7
      rw [← hstep] at i1 i2 i3 i4 i5 i6 i7
      refine ⟨?_, ?_, ?_, ?_, ?_, ?_, ?_⟩
      · rw [i1, List.map_cons, List.append_assoc]
        rfl
      · rw [i2, List.flatMap_cons, FirstNew_append, map_self, List.append_assoc]
      · rw [i3, m2, List.flatMap_cons, FirstNew_append, map_self, List.append_assoc]
      · rw [i4, m3, m1, List.flatMap_cons, List.append_assoc]
        split <;> simp
      · rw [i5, m4, m1, List.flatMap_cons, List.append_assoc]
        split <;> simp
      · rw [i6, m5, m1, List.flatMap_cons, List.append_assoc]
        split <;> simp
      · rw [i7, List.foldl_cons]

/-! ### C35: the first record after the merge of a class -/

/-- MoveDataInFirstRecord on a class: the first record with count and listed
set, the reasons, the location ids and the removed ids. -/
theorem MoveDataInFirstRecord_content (c : TMergeIssuesContext) (first : TIssueRecord)
    (rest : List TIssueRecord) :
    ∃ main skipped, (MoveDataInFirstRecord c (first :: rest)).2 = main :: skipped ∧
      SameFace main first ∧
      main.IssueLog.count = 1 + (Donors first rest).length ∧
      main.IssueLog.listed = 1 + (Donors first rest).length ∧
      main.IssueLog.reason = first.IssueLog.reason ++ NewReasons first rest ∧
      main.IssueLog.location.storage.pool.group.id =
        first.IssueLog.location.storage.pool.group.id ++
          (if first.Tag = ETags.GroupState then
            (Donors first rest).flatMap (fun d => d.IssueLog.location.storage.pool.group.id)
            else []) ∧
      main.IssueLog.location.storage.pool.group.vdisk.id =
        first.IssueLog.location.storage.pool.group.vdisk.id ++
          (if first.Tag = ETags.VDiskState then
            (Donors first rest).flatMap
              (fun d => d.IssueLog.location.storage.pool.group.vdisk.id) else []) ∧
      main.IssueLog.location.storage.pool.group.vdisk.pdisk =
        first.IssueLog.location.storage.pool.group.vdisk.pdisk ++
          (if first.Tag = ETags.PDiskState then
            (Donors first rest).flatMap
              (fun d => d.IssueLog.location.storage.pool.group.vdisk.pdisk) else []) ∧
      (MoveDataInFirstRecord c (first :: rest)).1.removeIssuesIds =
        (Donors first rest).foldl (fun s d => TSetInsert s d.IssueLog.id) c.removeIssuesIds := by
  obtain ⟨i1, _, i3, i4, i5, i6, i7⟩ := foldl_MoveDataStep_content rest
    { main := first, ids := [first.IssueLog.id], mainReasonIds := first.IssueLog.reason,
      removeIssuesIds := c.removeIssuesIds }
  have hf := foldl_MoveDataStep_face rest
    { main := first, ids := [first.IssueLog.id], mainReasonIds := first.IssueLog.reason,
      removeIssuesIds := c.removeIssuesIds }
  dsimp only at i1 i3 i4 i5 i6 i7 hf
  have hlen : (rest.foldl MoveDataStep
      { main := first, ids := [first.IssueLog.id], mainReasonIds := first.IssueLog.reason,
        removeIssuesIds := c.removeIssuesIds }).ids.length = 1 + (Donors first rest).length := by
    rw [i1, List.length_append, List.length_map]
    rfl
  unfold MoveDataInFirstRecord
  dsimp only
  refine ⟨_, _, rfl, ?_, ?_, ?_, i3, i4, i5, i6, i7⟩
  · exact ⟨hf.1, hf.2.1, hf.2.2.1, hf.2.2.2.1, hf.2.2.2.2.1, hf.2.2.2.2.2⟩
  · exact hlen
  · exact hlen

theorem Donors_spec (first : TIssueRecord) (rest : List TIssueRecord) :
    (first.IssueLog.id :: (Donors first rest).map (fun r => r.IssueLog.id)).Nodup ∧
    (∀ x, x ∈ first.IssueLog.id :: (Donors first rest).map (fun r => r.IssueLog.id) ↔
      x ∈ (first :: rest).map (fun r => r.IssueLog.id)) ∧
    (Donors first rest).Sublist rest := by
  obtain ⟨h1, h2, h3, h4⟩ := FirstNew_spec (fun r : TIssueRecord => r.IssueLog.id) rest
    [first.IssueLog.id]
  refine ⟨?_, ?_, h4⟩
  · rw [List.nodup_cons]
    exact ⟨fun hin => h2 _ hin (List.mem_singleton_self _), h1⟩
  · intro x
    have h5 := h3 x
    rw [List.singleton_append, List.mem_singleton] at h5
    simp only [List.map_cons, List.mem_cons] at h5 ⊢
    exact h5

theorem Donors_count (first : TIssueRecord) (rest : List TIssueRecord) :
    1 + (Donors first rest).length =
      ((first :: rest).map (fun r => r.IssueLog.id)).dedup.length := by
  obtain ⟨h1, h2, _⟩ := Donors_spec first rest
  have hp : (first.IssueLog.id :: (Donors first rest).map (fun r => r.IssueLog.id)).Perm
      ((first :: rest).map (fun r => r.IssueLog.id)).dedup :=
    (List.perm_ext_iff_of_nodup h1 (List.nodup_dedup _)).2
      (fun x => by rw [h2 x, List.mem_dedup])
  rw [← hp.length_eq, List.length_cons, List.length_map]
  omega

/-- C35 (counterexample): of five similar GroupState records the first of
which lists the reason v1 twice, MoveDataInFirstRecord leaves a first record
whose reason list holds v1 twice: it is not duplicate-free. -/
theorem merged_reason_list_repeats_id :
    exampleRepeatedReason.length = 5 ∧
    (∀ r ∈ exampleRepeatedReason,
      IsSimilar (exampleGroupRecord "g1" ["v1", "v1"]) r = true) ∧
    ((MoveDataInFirstRecord {} exampleRepeatedReason).2.take 1).map
      (fun r => r.IssueLog.reason) = [["v1", "v1", "v2", "v3", "v4"]] ∧
    ¬ ∀ r ∈ (MoveDataInFirstRecord {} exampleRepeatedReason).2.take 1,
      r.IssueLog.reason.Nodup := by
  decide

/-- C35 (amended): for every similarity class first :: rest (so for those of
more than 4 records) MoveDataInFirstRecord keeps the first record, with its
tag, id, status, message, level and node, and sets its count and its listed to
the number of distinct issue ids of the class. With the donors the records of
rest that have a new id (not the id of first nor of an earlier record), the
location id array of the tag of first becomes the array of first followed by
the arrays of the donors, in order. The reason list becomes the reason list of
first followed by the reasons of the donors that are not yet in it, each once:
it holds exactly the reasons of first and of the donors, and it is
duplicate-free exactly when the reason list of first is. The ids of the donors
are inserted into the removed-ids set, and nothing else is: every record of
rest has the id of first or an id in the removed-ids set. -/
theorem MoveDataInFirstRecord_merges (c : TMergeIssuesContext) (first : TIssueRecord)
    (rest : List TIssueRecord) :
    ∃ main skipped, (MoveDataInFirstRecord c (first :: rest)).2 = main :: skipped ∧
      SameFace main first ∧
      main.IssueLog.count = ((first :: rest).map (fun r => r.IssueLog.id)).dedup.length ∧
      main.IssueLog.listed = ((first :: rest).map (fun r => r.IssueLog.id)).dedup.length ∧
      (Donors first rest).Sublist rest ∧
      (first.IssueLog.id :: (Donors first rest).map (fun r => r.IssueLog.id)).Nodup ∧
      (∀ r ∈ rest, r.IssueLog.id = first.IssueLog.id ∨
        r.IssueLog.id ∈ (Donors first rest).map (fun r => r.IssueLog.id)) ∧
      main.IssueLog.location.storage.pool.group.id =
        first.IssueLog.location.storage.pool.group.id ++
          (if first.Tag = ETags.GroupState then
            (Donors first rest).flatMap (fun d => d.IssueLog.location.storage.pool.group.id)
            else []) ∧
      main.IssueLog.location.storage.pool.group.vdisk.id =
        first.IssueLog.location.storage.pool.group.vdisk.id ++
          (if first.Tag = ETags.VDiskState then
            (Donors first rest).flatMap
              (fun d => d.IssueLog.location.storage.pool.group.vdisk.id) else []) ∧
      main.IssueLog.location.storage.pool.group.vdisk.pdisk =
        first.IssueLog.location.storage.pool.group.vdisk.pdisk ++
          (if first.Tag = ETags.PDiskState then
            (Donors first rest).flatMap
              (fun d => d.IssueLog.location.storage.pool.group.vdisk.pdisk) else []) ∧
      main.IssueLog.reason = first.IssueLog.reason ++ NewReasons first rest ∧
      (NewReasons first rest).Nodup ∧
      (∀ x ∈ NewReasons first rest, x ∉ first.IssueLog.reason) ∧
      (∀ x, x ∈ main.IssueLog.reason ↔
        x ∈ first.IssueLog.reason ∨ ∃ d ∈ Donors first rest, x ∈ d.IssueLog.reason) ∧
      (main.IssueLog.reason.Nodup ↔ first.IssueLog.reason.Nodup) ∧
      (∀ x, x ∈ (MoveDataInFirstRecord c (first :: rest)).1.removeIssuesIds ↔
        x ∈ c.removeIssuesIds ∨ x ∈ (Donors first rest).map (fun r => r.IssueLog.id)) ∧
      (∀ r ∈ rest, r.IssueLog.id = first.IssueLog.id ∨
        r.IssueLog.id ∈ (MoveDataInFirstRecord c (first :: rest)).1.removeIssuesIds) := by
  obtain ⟨main, skipped, e, hf, hc, hl, hr, g1, g2, g3, hrem⟩ :=
    MoveDataInFirstRecord_content c first rest
  obtain ⟨d1, d2, d3⟩ := Donors_spec first rest
  obtain ⟨n1, n2, n3, _⟩ := FirstNew_spec (fun x : String => x)
    ((Donors first rest).flatMap (fun d => d.IssueLog.reason)) first.IssueLog.reason
  rw [map_self] at n1 n2 n3
  have hdon : ∀ r ∈ rest, r.IssueLog.id = first.IssueLog.id ∨
      r.IssueLog.id ∈ (Donors first rest).map (fun r => r.IssueLog.id) := by
    intro r hr2
    have h1 : r.IssueLog.id ∈ (first :: rest).map (fun r => r.IssueLog.id) :=
      List.mem_map_of_mem _ (List.mem_cons_of_mem _ hr2)
    rw [← d2, List.mem_cons] at h1
    exact h1
  have hmem : ∀ x, x ∈ (MoveDataInFirstRecord c (first :: rest)).1.removeIssuesIds ↔
      x ∈ c.removeIssuesIds ∨ x ∈ (Donors first rest).map (fun r => r.IssueLog.id) := by
    intro x
    rw [hrem]
    exact foldl_TSetInsert_ids _ _ _
  refine ⟨main, skipped, e, hf, by rw [hc, Donors_count], by rw [hl, Donors_count], d3, d1,
    hdon, g1, g2, g3, hr, n1, n2, ?_, ?_, hmem, ?_⟩
  · intro x
    rw [hr]
    unfold NewReasons
    rw [n3 x, map_self, List.mem_flatMap]
  · rw [hr]
    unfold NewReasons
    rw [List.nodup_append]
    constructor
    · exact fun h => h.1
    · exact fun h => ⟨h, n1, fun x h1 h2 => n2 x h2 h1⟩
  · intro r hr2
    exact (hdon r hr2).imp id (fun h => (hmem _).2 (Or.inr h))

/-! ### C34: the similarity classes and the merge threshold -/

theorem MergeClasses_nil (fuel : Nat) : MergeClasses fuel [] = [] := by
  cases fuel <;> rfl

theorem FindRecordsForMergeLoop_enough (records similar Mergeed : List TIssueRecord) (n : Nat) :
    FindRecordsForMergeLoop (records.length + n) records similar Mergeed =
      FindRecordsForMergeLoop records.length records similar Mergeed := by
  induction n with
  | zero => rfl
  | succ n ih =>
    rw [← ih]
    exact FindRecordsForMergeLoop_fuel (records.length + n) records similar Mergeed (by omega)

theorem FindRecordsForMergeLoop_some (fuel : Nat) (records : List TIssueRecord)
    (s : TIssueRecord) (ss Mergeed : List TIssueRecord) :
    FindRecordsForMergeLoop fuel records (s :: ss) Mergeed = (records, s :: ss, Mergeed) := by
  cases fuel with
  | zero => rfl
  | succ fuel =>
    unfold FindRecordsForMergeLoop
    cases records <;> rfl

theorem FindRecordsForMerge_small (first : TIssueRecord) (rest handled : List TIssueRecord)
    (h : (first :: rest.filter (IsSimilar first)).length ≤ MERGING_IGNORE_SIZE) :
    FindRecordsForMerge (first :: rest) [] handled =
      FindRecordsForMerge (rest.filter (fun it => !IsSimilar first it)) []
        (handled ++ (first :: rest.filter (IsSimilar first))) := by
  unfold FindRecordsForMerge
  dsimp only
  rw [List.length_cons, FindRecordsForMergeLoop]
  rw [if_pos h]
  have hl : (rest.filter (fun it => !IsSimilar first it)).length ≤ rest.length :=
    List.length_filter_le _ _
  obtain ⟨k, hk⟩ := Nat.exists_eq_add_of_le hl
  rw [hk, FindRecordsForMergeLoop_enough]

theorem FindRecordsForMerge_big (first : TIssueRecord) (rest handled : List TIssueRecord)
    (h : ¬ (first :: rest.filter (IsSimilar first)).length ≤ MERGING_IGNORE_SIZE) :
    FindRecordsForMerge (first :: rest) [] handled =
      (true, rest.filter (fun it => !IsSimilar first it),
        first :: rest.filter (IsSimilar first), handled) := by
  unfold FindRecordsForMerge
  dsimp only
  rw [List.length_cons, FindRecordsForMergeLoop]
  rw [if_neg h, FindRecordsForMergeLoop_some]
  rfl

theorem FindRecordsForMerge_nil (handled : List TIssueRecord) :
    FindRecordsForMerge [] [] handled = (false, [], [], handled) := rfl

/-- The loop of MergeLevelRecords leaves no record to handle, and in `handled`
the similarity classes of the list, each after MergeClass. -/
theorem MergeLevelRecordsLoop_classes (fuel : Nat) (records : List TIssueRecord)
    (hf : records.length ≤ fuel) (c : TMergeIssuesContext) (handled : List TIssueRecord) :
    (MergeLevelRecordsLoop fuel c records handled).2 =
      ([], handled ++ MergeClasses fuel records) := by
  induction fuel generalizing records c handled with
  | zero =>
    have hr : records = [] := List.length_eq_zero.1 (Nat.le_zero.1 hf)
    subst hr
    simp [MergeLevelRecordsLoop, MergeClasses]
  | succ fuel ih =>
    cases records with
    | nil => simp [MergeLevelRecordsLoop, MergeClasses]
    | cons first rest =>
      have hl : (rest.filter (fun it => !IsSimilar first it)).length ≤ fuel :=
        Nat.le_trans (List.length_filter_le _ _) (Nat.le_of_succ_le_succ hf)
      rw [MergeLevelRecordsLoop, MergeClasses]
      simp only [List.isEmpty_cons, Bool.false_eq_true, if_false]
      by_cases hs : (first :: rest.filter (IsSimilar first)).length ≤ MERGING_IGNORE_SIZE
      · rw [FindRecordsForMerge_small first rest handled hs]
        have hcls : MergeClass (first :: rest.filter (IsSimilar first)) =
            first :: rest.filter (IsSimilar first) := by
          unfold MergeClass
          rw [if_pos hs]
        rw [hcls]
        cases ho : rest.filter (fun it => !IsSimilar first it) with
        | nil =>
          rw [FindRecordsForMerge_nil]
          simp only [Bool.false_eq_true, if_false, MergeLevelRecordsLoop_nil, MergeClasses_nil,
            List.append_nil]
        | cons o os =>
          have h1 := ih (o :: os) (by rw [← ho]; exact hl) c
            (handled ++ (first :: rest.filter (IsSimilar first)))
          have h2 := MergeLevelRecordsLoop_fuel fuel c (o :: os)
            (handled ++ (first :: rest.filter (IsSimilar first))) (by rw [← ho]; exact hl)
          rw [← h2, MergeLevelRecordsLoop] at h1
          simp only [List.isEmpty_cons, Bool.false_eq_true, if_false] at h1
          rw [h1, List.append_assoc]
      · rw [FindRecordsForMerge_big first rest handled hs]
        have hcls : MergeClass (first :: rest.filter (IsSimilar first)) =
            (MoveDataInFirstRecord {} (first :: rest.filter (IsSimilar first))).2.take 1 := by
          unfold MergeClass
          rw [if_neg hs]
        simp only [if_true]
        rw [ih _ hl, hcls, MoveDataInFirstRecord_snd c {}, List.append_assoc]

theorem MergeLevelRecords_eq_classes (c : TMergeIssuesContext) (records : List TIssueRecord) :
    (MergeLevelRecords c records).2 = MergeClasses records.length records := by
  unfold MergeLevelRecords
  dsimp only
  rw [MergeLevelRecordsLoop_classes records.length records (Nat.le_refl _) c []]
  rfl

/-! ### C34: the classes in the list MergeLevelRecords leaves -/

theorem MergeClass_nil : MergeClass [] = [] := rfl

theorem MergeClass_face (first : TIssueRecord) (rest : List TIssueRecord) :
    ∀ m ∈ MergeClass (first :: rest), ∃ r ∈ first :: rest, SameFace m r := by
  intro m hm
  unfold MergeClass at hm
  split at hm
  · exact ⟨m, hm, SameFace.refl_face m⟩
  · obtain ⟨main, skipped, e, hf⟩ := MoveDataInFirstRecord_face {} first rest
    rw [e, List.take_succ_cons, List.take_zero, List.mem_singleton] at hm
    rw [hm]
    exact ⟨first, List.mem_cons_self _ _, hf⟩

theorem MergeClass_big (first : TIssueRecord) (rest : List TIssueRecord)
    (h : MERGING_IGNORE_SIZE < (first :: rest).length) :
    MergeClass (first :: rest) = (MoveDataInFirstRecord {} (first :: rest)).2.take 1 ∧
    ∃ m, MergeClass (first :: rest) = [m] ∧ SameFace m first := by
  unfold MergeClass
  rw [if_neg (Nat.not_le.2 h)]
  obtain ⟨main, skipped, e, hf⟩ := MoveDataInFirstRecord_face {} first rest
  refine ⟨rfl, main, ?_, hf⟩
  rw [e, List.take_succ_cons, List.take_zero]

theorem filter_key_ne (tag : ETags) (k k1 : Status × String × Nat × Nat) (hk : k ≠ k1)
    (l : List TIssueRecord) :
    (l.filter (fun it => !decide (SimKey tag it = k1))).filter
      (fun it => decide (SimKey tag it = k)) =
    l.filter (fun it => decide (SimKey tag it = k)) := by
  rw [List.filter_filter]
  congr 1
  funext it
  by_cases h : SimKey tag it = k
  · have h2 : SimKey tag it ≠ k1 := fun e => hk (h.symm.trans e)
    simp [h, h2, hk]
  · simp [h]

theorem filter_key_eq (tag : ETags) (k1 : Status × String × Nat × Nat)
    (l : List TIssueRecord) :
    (l.filter (fun it => !decide (SimKey tag it = k1))).filter
      (fun it => decide (SimKey tag it = k1)) = [] := by
  rw [List.filter_filter, List.filter_eq_nil_iff]
  intro it _
  by_cases h : SimKey tag it = k1 <;> simp [h]

/-- The records of one key in the similarity classes of a list of one tag are
the class of that key after MergeClass. -/
theorem MergeClasses_filter (tag : ETags) (fuel : Nat) (R : List TIssueRecord)
    (hf : R.length ≤ fuel) (ht : ∀ r ∈ R, r.Tag = tag) (k : Status × String × Nat × Nat) :
    (MergeClasses fuel R).filter (fun it => decide (SimKey tag it = k)) =
      MergeClass (R.filter (fun it => decide (SimKey tag it = k))) := by
  induction fuel generalizing R with
  | zero =>
    have hr : R = [] := List.length_eq_zero.1 (Nat.le_zero.1 hf)
    subst hr
    rfl
  | succ fuel ih =>
    cases R with
    | nil => rfl
    | cons first rest =>
      have hl : (rest.filter (fun it => !decide (SimKey tag it = SimKey tag first))).length ≤
          fuel :=
        Nat.le_trans (List.length_filter_le _ _) (Nat.le_of_succ_le_succ hf)
      have hto : ∀ r ∈ rest.filter (fun it => !decide (SimKey tag it = SimKey tag first)),
          r.Tag = tag := fun r hr =>
        ht r (List.mem_cons_of_mem _ (List.mem_filter.1 hr).1)
      have hkey : ∀ m ∈ MergeClass (first ::
          rest.filter (fun it => decide (SimKey tag it = SimKey tag first))),
          SimKey tag m = SimKey tag first := by
        intro m hm
        obtain ⟨r, hr, hface⟩ := MergeClass_face _ _ m hm
        rw [hface.key tag]
        rw [List.mem_cons] at hr
        rcases hr with hr | hr
        · rw [hr]
        · simpa using (List.mem_filter.1 hr).2
      rw [MergeClasses, IsSimilar_eq tag first (ht first (List.mem_cons_self _ _)),
        List.filter_append, ih _ hl hto]
      by_cases hk : k = SimKey tag first
      · subst hk
        rw [filter_key_eq, MergeClass_nil, List.append_nil,
          List.filter_cons_of_pos (by simp)]
        exact List.filter_eq_self.2 (fun m hm => by simp [hkey m hm])
      · rw [filter_key_ne tag k _ hk, List.filter_cons_of_neg (by simpa using Ne.symm hk)]
        have h0 : (MergeClass (first ::
            rest.filter (fun it => decide (SimKey tag it = SimKey tag first)))).filter
            (fun it => decide (SimKey tag it = k)) = [] := by
          rw [List.filter_eq_nil_iff]
          intro m hm
          rw [decide_eq_true_eq, hkey m hm]
          exact Ne.symm hk
        rw [h0, List.nil_append]

/-- C34: in a list of records of one tag, two records are similar
(the test of FindRecordsForMerge) iff their status, message and level are
equal and, for the tag VDiskState, their storage node id too. For every such
list and every record a of it, with the class of a the records of the list
similar to a, in their order: when the class has at most
MERGING_IGNORE_SIZE = 4 records, the records similar to a that
MergeLevelRecords leaves are the class itself, unchanged; when it has more,
MergeLevelRecords leaves exactly one record similar to a, the first record of
the class as MoveDataInFirstRecord fills it (same tag, id, status, message,
level and node). Every record MergeLevelRecords leaves is, in that sense, a
record of the list. -/
theorem MergeLevelRecords_classes (c : TMergeIssuesContext) (tag : ETags)
    (records : List TIssueRecord) (ht : ∀ r ∈ records, r.Tag = tag) :
    MERGING_IGNORE_SIZE = 4 ∧
    (∀ a ∈ records, ∀ b : TIssueRecord, (IsSimilar a b = true ↔
      b.IssueLog.status = a.IssueLog.status ∧ b.IssueLog.message = a.IssueLog.message ∧
      b.IssueLog.level = a.IssueLog.level ∧
      (tag = ETags.VDiskState →
        b.IssueLog.location.storage.node.id = a.IssueLog.location.storage.node.id))) ∧
    (∀ a ∈ records,
      ((records.filter (IsSimilar a)).length ≤ MERGING_IGNORE_SIZE ∧
        (MergeLevelRecords c records).2.filter (IsSimilar a) = records.filter (IsSimilar a)) ∨
      (MERGING_IGNORE_SIZE < (records.filter (IsSimilar a)).length ∧
        (MergeLevelRecords c records).2.filter (IsSimilar a) =
          (MoveDataInFirstRecord {} (records.filter (IsSimilar a))).2.take 1 ∧
        ∃ first others m, records.filter (IsSimilar a) = first :: others ∧
          (MergeLevelRecords c records).2.filter (IsSimilar a) = [m] ∧ SameFace m first)) ∧
    (∀ m ∈ (MergeLevelRecords c records).2, ∃ a ∈ records, SameFace m a ∧
      IsSimilar a m = true) := by
  refine ⟨rfl, fun a ha b => ?_, fun a ha => ?_, fun m hm => ?_⟩
  · rw [IsSimilar_iff, ht a ha]
    unfold SimKey
    by_cases hv : tag = ETags.VDiskState
    · simp [hv]
    · simp [hv]
  · rw [MergeLevelRecords_eq_classes, IsSimilar_eq tag a (ht a ha),
      MergeClasses_filter tag _ _ (Nat.le_refl _) ht]
    cases hcls : records.filter (fun it => decide (SimKey tag it = SimKey tag a)) with
    | nil =>
      have hin : a ∈ records.filter (fun it => decide (SimKey tag it = SimKey tag a)) :=
        List.mem_filter.2 ⟨ha, by simp⟩
      rw [hcls] at hin
      cases hin
    | cons first others =>
      by_cases hs : (first :: others).length ≤ MERGING_IGNORE_SIZE
      · refine Or.inl ⟨hs, ?_⟩
        unfold MergeClass
        rw [if_pos hs]
      · obtain ⟨h1, m, h2, h3⟩ := MergeClass_big first others (Nat.not_le.1 hs)
        exact Or.inr ⟨Nat.not_le.1 hs, h1, first, others, m, rfl, h2, h3⟩
  · rw [MergeLevelRecords_snd] at hm
    obtain ⟨a, ha, hface⟩ := MergeList_face records m hm
    refine ⟨a, ha, hface, ?_⟩
    rw [IsSimilar_iff]
    exact hface.key _

/-- C34 (witness): seven GroupState records, five "Group failed" and two "Group
degraded": the two stay, the five leave the first of them. -/
theorem MergeLevelRecords_classes_witness :
    (∀ r ∈ exampleSevenGroups, r.Tag = ETags.GroupState) ∧
    (MergeLevelRecords {} exampleSevenGroups).2.map (fun r => r.IssueLog.id) =
      ["f1", "d1", "d2"] ∧
    (MergeLevelRecords {} exampleSevenGroups).2.map (fun r => r.IssueLog.count) = [5, 0, 0] ∧
    ∀ a ∈ exampleSevenGroups,
      ((exampleSevenGroups.filter (IsSimilar a)).length ≤ MERGING_IGNORE_SIZE ∧
        (MergeLevelRecords {} exampleSevenGroups).2.filter (IsSimilar a) =
          exampleSevenGroups.filter (IsSimilar a)) ∨
      (MERGING_IGNORE_SIZE < (exampleSevenGroups.filter (IsSimilar a)).length ∧
        (MergeLevelRecords {} exampleSevenGroups).2.filter (IsSimilar a) =
          (MoveDataInFirstRecord {} (exampleSevenGroups.filter (IsSimilar a))).2.take 1 ∧
        ∃ first others m, exampleSevenGroups.filter (IsSimilar a) = first :: others ∧
          (MergeLevelRecords {} exampleSevenGroups).2.filter (IsSimilar a) = [m] ∧
          SameFace m first) :=
  ⟨by decide, by decide, by decide,
    (MergeLevelRecords_classes {} ETags.GroupState exampleSevenGroups (by decide)).2.2.1⟩

/-! ### C32: the clock skew of a pair of peers -/

theorem FillNodesSyncContext_eq (X : TExternal) (S : TSelfCheckRequest) :
    FillNodesSyncContext X S =
      ((S.NodeIds.foldl (FillNodesSyncStep X) (S, { Type_ := "NODES_SYNC" })).1,
        (S.NodeIds.foldl (FillNodesSyncStep X)
          (S, { Type_ := "NODES_SYNC" })).2.ReportWithMaxChildStatus X
          "Time difference exceeded" ETags.SyncState [ETags.NodeState]) := rfl

theorem FillNodeInfo_id (S : TSelfCheckRequest) (nodeId : Nat) (node : LocationNode) :
    (FillNodeInfo S nodeId node).id = nodeId := by
  unfold FillNodeInfo
  dsimp only
  split <;> rfl

/-- A node without a state, or one IsRequiredClockSkewIssue turns down, gets
no record and changes nothing in the request. -/
theorem FillClockSkewResult_skip (X : TExternal) (S : TSelfCheckRequest) (n : Nat)
    (c : TSelfCheckResult)
    (h : ∀ st, THashMap.find S.MergedNodeSystemState n = some st →
      IsRequiredClockSkewIssue S st = false) :
    (FillClockSkewResult X S n c).1 = S ∧
    (FillClockSkewResult X S n c).2.IssueRecords = c.IssueRecords := by
  unfold FillClockSkewResult
  dsimp only
  cases hf : THashMap.find S.MergedNodeSystemState n with
  | none => exact ⟨rfl, rfl⟩
  | some st =>
    dsimp only
    rw [h st hf]
    exact ⟨rfl, rfl⟩

/-- What FillClockSkewResult does to the request: the merged states stay, and
the used nodes grow by the node and its peer, or stay. -/
theorem FillClockSkewResult_request (X : TExternal) (S : TSelfCheckRequest) (n : Nat)
    (c : TSelfCheckResult) :
    (FillClockSkewResult X S n c).1 = S ∨
    ∃ st, THashMap.find S.MergedNodeSystemState n = some st ∧
      IsRequiredClockSkewIssue S st = true ∧
      (FillClockSkewResult X S n c).1 =
        { S with UsedClockSkewNodes :=
          (match st.clockskewpeerid with
            | some p => TNodeSetInsert (TNodeSetInsert S.UsedClockSkewNodes n) p
            | none => TNodeSetInsert S.UsedClockSkewNodes n) } := by
  unfold FillClockSkewResult
  dsimp only
  cases hf : THashMap.find S.MergedNodeSystemState n with
  | none => exact Or.inl rfl
  | some st =>
    dsimp only
    by_cases hreq : IsRequiredClockSkewIssue S st = true
    · rw [if_pos hreq]
      refine Or.inr ⟨st, rfl, hreq, ?_⟩
      cases hp : st.clockskewpeerid <;> (dsimp only; split_ifs <;> rfl)
    · rw [if_neg hreq]
      exact Or.inl rfl

/-- Every record FillClockSkewResult adds has the tag NodeState and is located
at the node. -/
theorem FillClockSkewResult_records (X : TExternal) (S : TSelfCheckRequest) (n : Nat)
    (c : TSelfCheckResult) :
    ∀ r ∈ (FillClockSkewResult X S n c).2.IssueRecords,
      r ∈ c.IssueRecords ∨ (r.Tag = ETags.NodeState ∧ r.IssueLog.location.node.id = n) := by
  intro r hr
  unfold FillClockSkewResult at hr
  dsimp only at hr
  cases hf : THashMap.find S.MergedNodeSystemState n with
  | none =>
    rw [hf] at hr
    exact Or.inl hr
  | some st =>
    rw [hf] at hr
    dsimp only at hr
    by_cases hreq : IsRequiredClockSkewIssue S st = true
    · rw [if_pos hreq] at hr
      cases hp : st.clockskewpeerid with
      | none =>
        rw [hp] at hr
        dsimp only at hr
        split_ifs at hr
        all_goals
          rw [ReportStatus_IssueRecords] at hr
          first
            | (rw [if_neg (by decide)] at hr
               rw [List.mem_cons] at hr
               rcases hr with hr | hr
               · right
                 rw [hr]
                 exact ⟨rfl, FillNodeInfo_id S n _⟩
               · exact Or.inl hr)
            | (rw [if_pos rfl] at hr
               exact Or.inl hr)
      | some p =>
        rw [hp] at hr
        dsimp only at hr
        split_ifs at hr
        all_goals
          rw [ReportStatus_IssueRecords] at hr
          first
            | (rw [if_neg (by decide)] at hr
               rw [List.mem_cons] at hr
               rcases hr with hr | hr
               · right
                 rw [hr]
                 exact ⟨rfl, FillNodeInfo_id S n _⟩
               · exact Or.inl hr)
            | (rw [if_pos rfl] at hr
               exact Or.inl hr)
    · rw [if_neg hreq] at hr
      exact Or.inl hr

/-! ### C32: the steps of the loop for a pair of peers -/

theorem NodeIssues_InheritFrom (c lower : TSelfCheckResult) (m : Nat) :
    NodeIssues (c.InheritFrom lower) m = NodeIssues c m ++ NodeIssues lower m := by
  unfold NodeIssues
  rw [InheritFrom_IssueRecords, List.filter_append, List.map_append]

theorem NodeIssues_fresh (upper : TSelfCheckResult) (type : String) (m : Nat) :
    NodeIssues (TSelfCheckContext upper type) m = [] := rfl

theorem NodeIssues_other (X : TExternal) (S : TSelfCheckRequest) (n m : Nat)
    (c : TSelfCheckResult) (hc : c.IssueRecords = []) (hm : m ≠ n) :
    NodeIssues (FillClockSkewResult X S n c).2 m = [] := by
  unfold NodeIssues
  rw [List.map_eq_nil_iff, List.filter_eq_nil_iff]
  intro r hr
  rcases FillClockSkewResult_records X S n c r hr with h | h
  · rw [hc] at h
    cases h
  · rw [h.2]
    simp [Ne.symm hm]

theorem NodeIssues_skip (X : TExternal) (S : TSelfCheckRequest) (n m : Nat)
    (c : TSelfCheckResult) (hc : c.IssueRecords = [])
    (h : ∀ st, THashMap.find S.MergedNodeSystemState n = some st →
      IsRequiredClockSkewIssue S st = false) :
    NodeIssues (FillClockSkewResult X S n c).2 m = [] := by
  unfold NodeIssues
  rw [(FillClockSkewResult_skip X S n c h).2, hc]
  rfl

theorem IsRequiredClockSkewIssue_first (S : TSelfCheckRequest) (a b : Nat)
    (sa sb : TSystemStateInfo) (hp : PeerPair S.MergedNodeSystemState a b sa sb)
    (hb : b ∉ S.UsedClockSkewNodes) : IsRequiredClockSkewIssue S sa = true := by
  obtain ⟨_, ha, hfb, hpa, hpb, hcons⟩ := hp
  unfold IsRequiredClockSkewIssue
  rw [hpa]
  dsimp only
  rw [hfb]
  dsimp only
  rw [if_neg hb, hpb]
  dsimp only
  rw [if_neg]
  intro h
  exact h.1 (hcons _ (THashMap.find_mem _ _ _ ha)).symm

theorem IsRequiredClockSkewIssue_second (S : TSelfCheckRequest) (a b : Nat)
    (sa sb : TSystemStateInfo) (hp : PeerPair S.MergedNodeSystemState a b sa sb)
    (ha : a ∈ S.UsedClockSkewNodes) : IsRequiredClockSkewIssue S sb = false := by
  obtain ⟨_, hfa, _, _, hpb, _⟩ := hp
  unfold IsRequiredClockSkewIssue
  rw [hpb]
  dsimp only
  rw [hfa]
  dsimp only
  rw [if_pos ha]

/-- A third node is not evaluated against a node of the pair while none of the
pair is used. -/
theorem IsRequiredClockSkewIssue_third (S : TSelfCheckRequest) (a b : Nat)
    (sa sb : TSystemStateInfo) (hp : PeerPair S.MergedNodeSystemState a b sa sb)
    (ha : a ∉ S.UsedClockSkewNodes) (hb : b ∉ S.UsedClockSkewNodes)
    (n : Nat) (st : TSystemStateInfo) (hn : THashMap.find S.MergedNodeSystemState n = some st)
    (hna : n ≠ a) (hnb : n ≠ b) (hreq : IsRequiredClockSkewIssue S st = true) :
    st.clockskewpeerid ≠ some a ∧ st.clockskewpeerid ≠ some b := by
  obtain ⟨_, hfa, hfb, hpa, hpb, hcons⟩ := hp
  have hid : st.nodeid = n := hcons _ (THashMap.find_mem _ _ _ hn)
  constructor
  · intro e
    unfold IsRequiredClockSkewIssue at hreq
    rw [e] at hreq
    dsimp only at hreq
    rw [hfa] at hreq
    dsimp only at hreq
    rw [if_neg ha, hpa] at hreq
    dsimp only at hreq
    rw [if_pos ⟨fun h => hnb (hid ▸ h).symm, hb⟩] at hreq
    exact Bool.noConfusion hreq
  · intro e
    unfold IsRequiredClockSkewIssue at hreq
    rw [e] at hreq
    dsimp only at hreq
    rw [hfb] at hreq
    dsimp only at hreq
    rw [if_neg hb, hpb] at hreq
    dsimp only at hreq
    rw [if_pos ⟨fun h => hna (hid ▸ h).symm, ha⟩] at hreq
    exact Bool.noConfusion hreq

/-- The first node of the pair: it is evaluated, both nodes become used, and
the record is the one of the rule for its skew. -/
theorem FillClockSkewResult_first (X : TExternal) (S : TSelfCheckRequest) (a b : Nat)
    (sa sb : TSystemStateInfo) (hp : PeerPair S.MergedNodeSystemState a b sa sb)
    (hb : b ∉ S.UsedClockSkewNodes) (c : TSelfCheckResult) (hc : c.IssueRecords = []) :
    (FillClockSkewResult X S a c).1 =
      { S with UsedClockSkewNodes :=
        TNodeSetInsert (TNodeSetInsert S.UsedClockSkewNodes a) b } ∧
    NodeIssues (FillClockSkewResult X S a c).2 a = ClockSkewIssue sa.clockskewmicrosec b := by
  have hreq := IsRequiredClockSkewIssue_first S a b sa sb hp hb
  obtain ⟨_, ha, _, hpa, _, _⟩ := hp
  unfold FillClockSkewResult ClockSkewIssue NodeIssues
  dsimp only
  rw [ha]
  dsimp only
  rw [if_pos hreq, hpa]
  dsimp only
  split_ifs
  · refine ⟨rfl, ?_⟩
    rw [ReportStatus_IssueRecords, if_neg (by decide), hc]
    simp [NewIssueRecord, FillNodeInfo_id]
  · refine ⟨rfl, ?_⟩
    rw [ReportStatus_IssueRecords, if_neg (by decide), hc]
    simp [NewIssueRecord, FillNodeInfo_id]
  · refine ⟨rfl, ?_⟩
    rw [ReportStatus_IssueRecords, if_pos rfl, hc]
    rfl

/-! ### C32: the loop for a pair of peers -/

theorem FillClockSkewResult_states (X : TExternal) (S : TSelfCheckRequest) (n : Nat)
    (c : TSelfCheckResult) :
    (FillClockSkewResult X S n c).1.MergedNodeSystemState = S.MergedNodeSystemState ∧
    ∀ x ∈ S.UsedClockSkewNodes, x ∈ (FillClockSkewResult X S n c).1.UsedClockSkewNodes := by
  rcases FillClockSkewResult_request X S n c with h | ⟨st, _, _, h⟩
  · rw [h]
    exact ⟨rfl, fun x hx => hx⟩
  · rw [h]
    refine ⟨rfl, fun x hx => ?_⟩
    dsimp only
    split
    · exact (mem_TNodeSetInsert_iff _ _ _).2 (Or.inl ((mem_TNodeSetInsert_iff _ _ _).2 (Or.inl hx)))
    · exact (mem_TNodeSetInsert_iff _ _ _).2 (Or.inl hx)

/-- The nodes visited before the pair: none of the pair becomes used, and
none gets a record. -/
theorem foldl_FillNodesSyncStep_before (X : TExternal) (M : List (Nat × TSystemStateInfo))
    (a b : Nat) (sa sb : TSystemStateInfo) (hp : PeerPair M a b sa sb) (l : List Nat)
    (hla : a ∉ l) (hlb : b ∉ l) (acc : TSelfCheckRequest × TSelfCheckResult)
    (hM : acc.1.MergedNodeSystemState = M)
    (ha : a ∉ acc.1.UsedClockSkewNodes) (hb : b ∉ acc.1.UsedClockSkewNodes)
    (h1 : NodeIssues acc.2 a = []) (h2 : NodeIssues acc.2 b = []) :
    (l.foldl (FillNodesSyncStep X) acc).1.MergedNodeSystemState = M ∧
    a ∉ (l.foldl (FillNodesSyncStep X) acc).1.UsedClockSkewNodes ∧
    b ∉ (l.foldl (FillNodesSyncStep X) acc).1.UsedClockSkewNodes ∧
    NodeIssues (l.foldl (FillNodesSyncStep X) acc).2 a = [] ∧
    NodeIssues (l.foldl (FillNodesSyncStep X) acc).2 b = [] := by
  induction l generalizing acc with
  | nil => exact ⟨hM, ha, hb, h1, h2⟩
  | cons n l ih =>
    rw [List.foldl_cons]
    have hna : a ≠ n := fun e => hla (e ▸ List.mem_cons_self _ _)
    have hnb : b ≠ n := fun e => hlb (e ▸ List.mem_cons_self _ _)
    have hp2 : PeerPair acc.1.MergedNodeSystemState a b sa sb := hM ▸ hp
    refine ih (fun h => hla (List.mem_cons_of_mem _ h)) (fun h => hlb (List.mem_cons_of_mem _ h))
      _ ?_ ?_ ?_ ?_ ?_
    · exact (FillClockSkewResult_states X acc.1 n _).1.trans hM
    · show a ∉ (FillClockSkewResult X acc.1 n (TSelfCheckContext acc.2 "TIME")).1.UsedClockSkewNodes
      rcases FillClockSkewResult_request X acc.1 n (TSelfCheckContext acc.2 "TIME") with
        h | ⟨st, hf, hreq, h⟩
      · rw [h]
        exact ha
      · have h3 := IsRequiredClockSkewIssue_third acc.1 a b sa sb hp2 ha hb n st hf
          (Ne.symm hna) (Ne.symm hnb) hreq
        rw [h]
        dsimp only
        cases hpeer : st.clockskewpeerid with
        | none =>
          dsimp only
          rw [mem_TNodeSetInsert_iff]
          exact fun h4 => h4.elim ha hna
        | some p =>
          dsimp only
          rw [mem_TNodeSetInsert_iff, mem_TNodeSetInsert_iff]
          rintro ((h4 | h4) | h4)
          · exact ha h4
          · exact hna h4
          · exact h3.1 (by rw [hpeer, h4])
    · show b ∉ (FillClockSkewResult X acc.1 n (TSelfCheckContext acc.2 "TIME")).1.UsedClockSkewNodes
      rcases FillClockSkewResult_request X acc.1 n (TSelfCheckContext acc.2 "TIME") with
        h | ⟨st, hf, hreq, h⟩
      · rw [h]
        exact hb
      · have h3 := IsRequiredClockSkewIssue_third acc.1 a b sa sb hp2 ha hb n st hf
          (Ne.symm hna) (Ne.symm hnb) hreq
        rw [h]
        dsimp only
        cases hpeer : st.clockskewpeerid with
        | none =>
          dsimp only
          rw [mem_TNodeSetInsert_iff]
          exact fun h4 => h4.elim hb hnb
        | some p =>
          dsimp only
          rw [mem_TNodeSetInsert_iff, mem_TNodeSetInsert_iff]
          rintro ((h4 | h4) | h4)
          · exact hb h4
          · exact hnb h4
          · exact h3.2 (by rw [hpeer, h4])
    · show NodeIssues (acc.2.InheritFrom _) a = []
      rw [NodeIssues_InheritFrom, h1, NodeIssues_other X acc.1 n a _ rfl hna]
      rfl
    · show NodeIssues (acc.2.InheritFrom _) b = []
      rw [NodeIssues_InheritFrom, h2, NodeIssues_other X acc.1 n b _ rfl hnb]
      rfl

/-- The nodes visited after the first node of the pair: the pair stays used,
the records of the first node stay, and the second node gets none. -/
theorem foldl_FillNodesSyncStep_after (X : TExternal) (M : List (Nat × TSystemStateInfo))
    (a b : Nat) (sa sb : TSystemStateInfo) (hp : PeerPair M a b sa sb) (l : List Nat)
    (hla : a ∉ l) (acc : TSelfCheckRequest × TSelfCheckResult)
    (hM : acc.1.MergedNodeSystemState = M)
    (ha : a ∈ acc.1.UsedClockSkewNodes) (hb : b ∈ acc.1.UsedClockSkewNodes)
    (E : List (Status × String × Nat))
    (h1 : NodeIssues acc.2 a = E) (h2 : NodeIssues acc.2 b = []) :
    (l.foldl (FillNodesSyncStep X) acc).1.MergedNodeSystemState = M ∧
    a ∈ (l.foldl (FillNodesSyncStep X) acc).1.UsedClockSkewNodes ∧
    b ∈ (l.foldl (FillNodesSyncStep X) acc).1.UsedClockSkewNodes ∧
    NodeIssues (l.foldl (FillNodesSyncStep X) acc).2 a = E ∧
    NodeIssues (l.foldl (FillNodesSyncStep X) acc).2 b = [] := by
  induction l generalizing acc with
  | nil => exact ⟨hM, ha, hb, h1, h2⟩
  | cons n l ih =>
    rw [List.foldl_cons]
    have hna : a ≠ n := fun e => hla (e ▸ List.mem_cons_self _ _)
    have hp2 : PeerPair acc.1.MergedNodeSystemState a b sa sb := hM ▸ hp
    obtain ⟨s1, s2⟩ := FillClockSkewResult_states X acc.1 n (TSelfCheckContext acc.2 "TIME")
    refine ih (fun h => hla (List.mem_cons_of_mem _ h)) _ (s1.trans hM) (s2 a ha) (s2 b hb) ?_ ?_
    · show NodeIssues (acc.2.InheritFrom _) a = E
      rw [NodeIssues_InheritFrom, h1, NodeIssues_other X acc.1 n a _ rfl hna, List.append_nil]
    · show NodeIssues (acc.2.InheritFrom _) b = []
      rw [NodeIssues_InheritFrom, h2, List.nil_append]
      by_cases hnb : b = n
      · subst hnb
        refine NodeIssues_skip X acc.1 b b _ rfl (fun st hst => ?_)
        have e : st = sb := by
          have h3 := hp2.2.2.1
          rw [hst] at h3
          exact Option.some.inj h3
        rw [e]
        exact IsRequiredClockSkewIssue_second acc.1 a b sa sb hp2 ha
      · exact NodeIssues_other X acc.1 n b _ rfl hnb

theorem NodeIssues_ReportWithMaxChildStatus (X : TExternal) (c : TSelfCheckResult)
    (message : String) (includeTags : List ETags) (m : Nat) :
    NodeIssues (c.ReportWithMaxChildStatus X message ETags.SyncState includeTags) m =
      NodeIssues c m := by
  unfold TSelfCheckResult.ReportWithMaxChildStatus NodeIssues
  split
  · rw [ReportStatus_IssueRecords]
    split
    · rfl
    · rw [List.filter_cons_of_neg]
      simp [NewIssueRecord]
  · rfl

/-- The sync context for a pair of peers, the first of which comes before the
second in the node ids. -/
theorem FillNodesSyncContext_pair (X : TExternal) (S : TSelfCheckRequest) (a b : Nat)
    (sa sb : TSystemStateInfo) (pre post : List Nat)
    (hp : PeerPair S.MergedNodeSystemState a b sa sb)
    (hnd : S.NodeIds.Nodup) (hord : S.NodeIds = pre ++ a :: post) (hb : b ∈ post)
    (hua : a ∉ S.UsedClockSkewNodes) (hub : b ∉ S.UsedClockSkewNodes) :
    NodeIssues (FillNodesSyncContext X S).2 a = ClockSkewIssue sa.clockskewmicrosec b ∧
    NodeIssues (FillNodesSyncContext X S).2 b = [] ∧
    a ∈ (FillNodesSyncContext X S).1.UsedClockSkewNodes ∧
    b ∈ (FillNodesSyncContext X S).1.UsedClockSkewNodes := by
  rw [hord] at hnd
  have hnd2 := List.nodup_append.1 hnd
  have hapre : a ∉ pre := fun h => hnd2.2.2 h (List.mem_cons_self _ _)
  have hbpre : b ∉ pre := fun h => hnd2.2.2 h (List.mem_cons_of_mem _ hb)
  have hapost : a ∉ post := (List.nodup_cons.1 hnd2.2.1).1
  obtain ⟨p1, p2, p3, p4, p5⟩ := foldl_FillNodesSyncStep_before X S.MergedNodeSystemState a b
    sa sb hp pre hapre hbpre (S, { Type_ := "NODES_SYNC" }) rfl hua hub rfl rfl
  have hp2 : PeerPair (pre.foldl (FillNodesSyncStep X)
      (S, { Type_ := "NODES_SYNC" })).1.MergedNodeSystemState a b sa sb := p1.symm ▸ hp
  obtain ⟨f1, f2⟩ := FillClockSkewResult_first X
    (pre.foldl (FillNodesSyncStep X) (S, { Type_ := "NODES_SYNC" })).1 a b sa sb hp2 p3
    (TSelfCheckContext (pre.foldl (FillNodesSyncStep X) (S, { Type_ := "NODES_SYNC" })).2 "TIME")
    rfl
  obtain ⟨q1, q2, q3, q4, q5⟩ := foldl_FillNodesSyncStep_after X S.MergedNodeSystemState a b
    sa sb hp post hapost
    (FillNodesSyncStep X (pre.foldl (FillNodesSyncStep X) (S, { Type_ := "NODES_SYNC" })) a)
    (by
      show (FillClockSkewResult X _ a _).1.MergedNodeSystemState = _
      rw [f1]
      exact p1)
    (by
      show a ∈ (FillClockSkewResult X _ a _).1.UsedClockSkewNodes
      rw [f1]
      exact (mem_TNodeSetInsert_iff _ _ _).2 (Or.inl (mem_TNodeSetInsert _ _)))
    (by
      show b ∈ (FillClockSkewResult X _ a _).1.UsedClockSkewNodes
      rw [f1]
      exact mem_TNodeSetInsert _ _)
    (ClockSkewIssue sa.clockskewmicrosec b)
    (by
      show NodeIssues (TSelfCheckResult.InheritFrom _ _) a = _
      rw [NodeIssues_InheritFrom, p4, f2, List.nil_append])
    (by
      show NodeIssues (TSelfCheckResult.InheritFrom _ _) b = _
      rw [NodeIssues_InheritFrom, p5, NodeIssues_other X _ a b _ rfl hp.1.symm]
      rfl)
  rw [FillNodesSyncContext_eq, hord, List.foldl_append, List.foldl_cons]
  dsimp only
  rw [NodeIssues_ReportWithMaxChildStatus, NodeIssues_ReportWithMaxChildStatus]
  exact ⟨q4, q5, q2, q3⟩

/-! ### C32: the clock skew of a pair of peers, the claim -/

/-- C32: let two different nodes a and b have a system state each (with the
node id the handler writes into it) and declare each other as clock skew peer,
let the node ids hold no node twice and a before b, and let none of the two be
a used clock skew node at the start (the set starts empty). Then the context
FillNodesSyncResult evaluates holds, for the pair, only the node-level issue
of a, the first visited: one RED record "Time difference is more than 25 ms"
when the skew of a is above 25 000 microseconds, one YELLOW record "Time
difference is more than 5 ms" when it is above 5 000, and no record otherwise;
b gets no record, whatever its skew, so at most one node-level issue is
emitted for the pair; both nodes end as used clock skew nodes. The roles of a
and b are those of the first and the second visited, so the statement covers
both iteration orders. -/
theorem clock_skew_pair_evaluated_once (X : TExternal) (S : TSelfCheckRequest) (a b : Nat)
    (sa sb : TSystemStateInfo) (pre post : List Nat)
    (hp : PeerPair S.MergedNodeSystemState a b sa sb)
    (hnd : S.NodeIds.Nodup) (hord : S.NodeIds = pre ++ a :: post) (hb : b ∈ post)
    (hua : a ∉ S.UsedClockSkewNodes) (hub : b ∉ S.UsedClockSkewNodes) :
    NodeIssues (FillNodesSyncContext X S).2 a = ClockSkewIssue sa.clockskewmicrosec b ∧
    NodeIssues (FillNodesSyncContext X S).2 b = [] ∧
    (NodeIssues (FillNodesSyncContext X S).2 a ++
      NodeIssues (FillNodesSyncContext X S).2 b).length ≤ 1 ∧
    (sa.clockskewmicrosec > 25000 →
      NodeIssues (FillNodesSyncContext X S).2 a =
        [(Status.RED, "Time difference is more than 25 ms", b)]) ∧
    (sa.clockskewmicrosec ≤ 25000 → sa.clockskewmicrosec > 5000 →
      NodeIssues (FillNodesSyncContext X S).2 a =
        [(Status.YELLOW, "Time difference is more than 5 ms", b)]) ∧
    (sa.clockskewmicrosec ≤ 5000 → NodeIssues (FillNodesSyncContext X S).2 a = []) ∧
    a ∈ (FillNodesSyncContext X S).1.UsedClockSkewNodes ∧
    b ∈ (FillNodesSyncContext X S).1.UsedClockSkewNodes ∧
    ∀ context : TOverallStateContext,
      FillNodesSyncResult X (S, context) =
        ((FillNodesSyncContext X S).1,
          (context.UpdateMaxStatus (FillNodesSyncContext X S).2.OverallStatus).AddIssues
            (FillNodesSyncContext X S).2.IssueRecords) := by
  obtain ⟨h1, h2, h3, h4⟩ := FillNodesSyncContext_pair X S a b sa sb pre post hp hnd hord hb
    hua hub
  refine ⟨h1, h2, ?_, ?_, ?_, ?_, h3, h4, fun _ => rfl⟩
  · rw [h1, h2, List.append_nil]
    unfold ClockSkewIssue
    split_ifs <;> simp
  · intro h
    rw [h1]
    unfold ClockSkewIssue
    rw [if_pos h]
  · intro h5 h6
    rw [h1]
    unfold ClockSkewIssue
    rw [if_neg (not_lt.2 h5), if_pos h6]
  · intro h5
    rw [h1]
    unfold ClockSkewIssue
    rw [if_neg (fun h => absurd h5 (not_le.2 (lt_trans (by decide) h))), if_neg (not_lt.2 h5)]

/-- C32 (witness): nodes 1 and 2 declare each other as peer, with skews of 7000
and 30000 microseconds. Visited in the order 1, 2, node 1 gets the YELLOW record
and node 2 none; visited in the order 2, 1, node 2 gets the RED record and node
1 none. -/
theorem clock_skew_pair_evaluated_once_witness :
    (PeerPair examplePeers.MergedNodeSystemState 1 2 examplePeerOne examplePeerTwo ∧
      examplePeers.NodeIds = [] ++ 1 :: [2] ∧
      NodeIssues (FillNodesSyncContext exampleExternal examplePeers).2 1 =
        [(Status.YELLOW, "Time difference is more than 5 ms", 2)] ∧
      NodeIssues (FillNodesSyncContext exampleExternal examplePeers).2 2 = []) ∧
    (PeerPair examplePeersReversed.MergedNodeSystemState 2 1 examplePeerTwo examplePeerOne ∧
      examplePeersReversed.NodeIds = [] ++ 2 :: [1] ∧
      NodeIssues (FillNodesSyncContext exampleExternal examplePeersReversed).2 2 =
        [(Status.RED, "Time difference is more than 25 ms", 1)] ∧
      NodeIssues (FillNodesSyncContext exampleExternal examplePeersReversed).2 1 = []) :=
  ⟨⟨by decide, rfl,
      (clock_skew_pair_evaluated_once exampleExternal examplePeers 1 2 examplePeerOne
        examplePeerTwo [] [2] (by decide) (by decide) rfl (by decide) (by decide)
        (by decide)).2.2.2.2.1 (by decide) (by decide),
      (clock_skew_pair_evaluated_once exampleExternal examplePeers 1 2 examplePeerOne
        examplePeerTwo [] [2] (by decide) (by decide) rfl (by decide) (by decide)
        (by decide)).2.1⟩,
    ⟨by decide, rfl,
      (clock_skew_pair_evaluated_once exampleExternal examplePeersReversed 2 1 examplePeerTwo
        examplePeerOne [] [1] (by decide) (by decide) rfl (by decide) (by decide)
        (by decide)).2.2.2.1 (by decide),
      (clock_skew_pair_evaluated_once exampleExternal examplePeersReversed 2 1 examplePeerTwo
        examplePeerOne [] [1] (by decide) (by decide) rfl (by decide) (by decide)
        (by decide)).2.1⟩⟩

/-! ### C33: the verdict when the databases are GREEN -/

theorem SkewStatus_MaxStatus (a b : Status) (ha : SkewStatus a) (hb : SkewStatus b) :
    SkewStatus (MaxStatus a b) := by
  unfold SkewStatus at *
  rcases ha with h | h | h | h <;> rcases hb with h2 | h2 | h2 | h2 <;> subst h <;> subst h2 <;>
    decide

theorem AddIssue_frame (c : TOverallStateContext) (it : TIssueRecord) :
    (c.AddIssue it).Status = c.Status ∧ (c.AddIssue it).HasDegraded = c.HasDegraded ∧
    (c.AddIssue it).Result.database_status = c.Result.database_status ∧
    (c.AddIssue it).Result.self_check_result = c.Result.self_check_result := by
  unfold TOverallStateContext.AddIssue
  dsimp only
  split <;> exact ⟨rfl, rfl, rfl, rfl⟩

theorem AddIssues_frame (L : List TIssueRecord) (c : TOverallStateContext) :
    (c.AddIssues L).Status = c.Status ∧ (c.AddIssues L).HasDegraded = c.HasDegraded ∧
    (c.AddIssues L).Result.database_status = c.Result.database_status ∧
    (c.AddIssues L).Result.self_check_result = c.Result.self_check_result := by
  unfold TOverallStateContext.AddIssues
  induction L generalizing c with
  | nil => exact ⟨rfl, rfl, rfl, rfl⟩
  | cons a L ih =>
    rw [List.foldl_cons]
    obtain ⟨i1, i2, i3, i4⟩ := ih (c.AddIssue a)
    obtain ⟨s1, s2, s3, s4⟩ := AddIssue_frame c a
    exact ⟨i1.trans s1, i2.trans s2, i3.trans s3, i4.trans s4⟩

/-- What FillDatabaseResult does to the overall state. -/
theorem FillDatabaseResult_state (X : TExternal)
    (acc : TSelfCheckRequest × TOverallStateContext) (path : String) :
    ∃ e : DatabaseStatus,
      (FillDatabaseResult X acc path).2.Result.database_status =
        acc.2.Result.database_status ++ [e] ∧
      (FillDatabaseResult X acc path).2.Status = MaxStatus acc.2.Status e.overall ∧
      ((FillDatabaseResult X acc path).2.Status = Status.GREEN →
        (FillDatabaseResult X acc path).2.HasDegraded = acc.2.HasDegraded) := by
  refine ⟨(FillDatabaseContext X acc.1 path).2.1, ?_, ?_, ?_⟩
  · unfold FillDatabaseResult
    dsimp only
    split <;> exact (AddIssues_frame _ _).2.2.1
  · unfold FillDatabaseResult
    dsimp only
    split <;> exact (AddIssues_frame _ _).1
  · unfold FillDatabaseResult
    dsimp only
    split
    · rename_i h
      intro hg
      dsimp only at hg
      exact absurd hg h.2.1
    · intro _
      exact (AddIssues_frame _ _).2.1

/-! ### C33: the status of the clock skew evaluation -/

theorem foldl_tags_skew (r : TIssueRecord) (hr : SkewStatus r.IssueLog.status)
    (tags : List ETags) (s0 : Status) (h0 : SkewStatus s0) :
    SkewStatus (tags.foldl (fun status tag =>
      if r.Tag = tag then MaxStatus status r.IssueLog.status else status) s0) := by
  induction tags generalizing s0 with
  | nil => exact h0
  | cons t tags ih =>
    rw [List.foldl_cons]
    refine ih _ ?_
    split
    · exact SkewStatus_MaxStatus _ _ h0 hr
    · exact h0

theorem foldl_records_skew (tags : List ETags) (L : List TIssueRecord)
    (h : ∀ r ∈ L, SkewStatus r.IssueLog.status) (s0 : Status) (h0 : SkewStatus s0) :
    SkewStatus (L.foldl (fun status record =>
      tags.foldl (fun status tag =>
        if record.Tag = tag then MaxStatus status record.IssueLog.status else status) status)
      s0) := by
  induction L generalizing s0 with
  | nil => exact h0
  | cons r L ih =>
    rw [List.foldl_cons]
    exact ih (fun x hx => h x (List.mem_cons_of_mem _ hx)) _
      (foldl_tags_skew r (h r (List.mem_cons_self _ _)) tags s0 h0)

theorem FindMaxStatus_skew (c : TSelfCheckResult) (tags : List ETags)
    (h : ∀ r ∈ c.IssueRecords, SkewStatus r.IssueLog.status) :
    SkewStatus (c.FindMaxStatus tags) :=
  foldl_records_skew tags c.IssueRecords h Status.GREY (Or.inl rfl)

/-- The statuses of a context: its overall status and those of its records
are statuses the clock skew evaluation can give. -/
theorem ReportStatus_skew (X : TExternal) (c : TSelfCheckResult) (status : Status)
    (message : String) (setTag : ETags) (includeTags : List ETags)
    (hs : SkewStatus status)
    (h : SkewStatus c.OverallStatus ∧ ∀ r ∈ c.IssueRecords, SkewStatus r.IssueLog.status) :
    SkewStatus (c.ReportStatus X status message setTag includeTags).OverallStatus ∧
    ∀ r ∈ (c.ReportStatus X status message setTag includeTags).IssueRecords,
      SkewStatus r.IssueLog.status := by
  rw [ReportStatus_OverallStatus, ReportStatus_IssueRecords]
  refine ⟨SkewStatus_MaxStatus _ _ h.1 hs, ?_⟩
  split
  · exact h.2
  · intro r hr
    rw [List.mem_cons] at hr
    rcases hr with hr | hr
    · rw [hr]
      exact hs
    · exact h.2 r hr

theorem FillClockSkewResult_skew (X : TExternal) (S : TSelfCheckRequest) (n : Nat)
    (c : TSelfCheckResult)
    (h : SkewStatus c.OverallStatus ∧ ∀ r ∈ c.IssueRecords, SkewStatus r.IssueLog.status) :
    SkewStatus (FillClockSkewResult X S n c).2.OverallStatus ∧
    ∀ r ∈ (FillClockSkewResult X S n c).2.IssueRecords, SkewStatus r.IssueLog.status := by
  unfold FillClockSkewResult
  dsimp only
  split
  · split
    · split_ifs
      · refine ReportStatus_skew X _ _ _ _ _ (Or.inr (Or.inr (Or.inr rfl))) ?_
        split <;> exact h
      · refine ReportStatus_skew X _ _ _ _ _ (Or.inr (Or.inr (Or.inl rfl))) ?_
        split <;> exact h
      · refine ReportStatus_skew X _ _ _ _ _ (Or.inr (Or.inl rfl)) ?_
        split <;> exact h
    · exact h
  · exact h

theorem FillNodesSyncContext_skew (X : TExternal) (S : TSelfCheckRequest) :
    SkewStatus (FillNodesSyncContext X S).2.OverallStatus := by
  rw [FillNodesSyncContext_eq]
  dsimp only
  have hfold : SkewStatus
      (S.NodeIds.foldl (FillNodesSyncStep X) (S, { Type_ := "NODES_SYNC" })).2.OverallStatus ∧
      ∀ r ∈ (S.NodeIds.foldl (FillNodesSyncStep X)
        (S, { Type_ := "NODES_SYNC" })).2.IssueRecords, SkewStatus r.IssueLog.status := by
    refine foldl_preserves
      (fun acc : TSelfCheckRequest × TSelfCheckResult =>
        SkewStatus acc.2.OverallStatus ∧ ∀ r ∈ acc.2.IssueRecords, SkewStatus r.IssueLog.status)
      _ ?_ _ _ ⟨Or.inl rfl, fun r hr => absurd hr (List.not_mem_nil _)⟩
    intro acc n hacc
    obtain ⟨t1, t2⟩ := FillClockSkewResult_skew X acc.1 n (TSelfCheckContext acc.2 "TIME")
      ⟨Or.inl rfl, fun r hr => absurd hr (List.not_mem_nil _)⟩
    unfold FillNodesSyncStep
    dsimp only
    rw [InheritFrom_OverallStatus, InheritFrom_IssueRecords]
    refine ⟨SkewStatus_MaxStatus _ _ hacc.1 t1, fun r hr => ?_⟩
    rw [List.mem_append] at hr
    exact hr.elim (hacc.2 r) (t2 r)
  unfold TSelfCheckResult.ReportWithMaxChildStatus
  split
  · exact (ReportStatus_skew X _ _ _ _ _ (FindMaxStatus_skew _ _ hfold.2) hfold).1
  · exact hfold.1

/-! ### C33: the stages of FillResult when the databases are GREEN -/

theorem FillDatabaseResult_quiet (X : TExternal)
    (acc : TSelfCheckRequest × TOverallStateContext) (path : String)
    (h : QuietDatabases acc.2) : QuietDatabases (FillDatabaseResult X acc path).2 := by
  obtain ⟨e, h1, h2, h3⟩ := FillDatabaseResult_state X acc path
  intro hg
  have he : e.overall = Status.GREEN := hg e (by rw [h1]; simp)
  have hg0 : DatabasesGreen acc.2 := fun d hd => hg d (by rw [h1]; exact List.mem_append_left _ hd)
  obtain ⟨i1, i2, _⟩ := h hg0
  have hs : (FillDatabaseResult X acc path).2.Status = Status.GREEN := by
    rw [h2, he]
    rcases i2 with i2 | i2 <;> rw [i2] <;> rfl
  exact ⟨(h3 hs).trans i1, Or.inr hs, fun _ => hs⟩

theorem foldl_FillDatabaseResult_quiet (X : TExternal) (l : List String)
    (acc : TSelfCheckRequest × TOverallStateContext) (h : QuietDatabases acc.2) :
    QuietDatabases (l.foldl (FillDatabaseResult X) acc).2 :=
  foldl_preserves (fun a : TSelfCheckRequest × TOverallStateContext => QuietDatabases a.2)
    _ (fun a p ha => FillDatabaseResult_quiet X a p ha) l acc h

theorem FillNodesSyncResult_quiet (X : TExternal)
    (acc : TSelfCheckRequest × TOverallStateContext) (h : QuietDatabases acc.2) :
    QuietOverall (FillNodesSyncResult X acc).2 := by
  have hskew := FillNodesSyncContext_skew X acc.1
  obtain ⟨f1, f2, f3, _⟩ := AddIssues_frame (FillNodesSyncContext X acc.1).2.IssueRecords
    (acc.2.UpdateMaxStatus (FillNodesSyncContext X acc.1).2.OverallStatus)
  have e1 : (FillNodesSyncResult X acc).2.Status =
      MaxStatus acc.2.Status (FillNodesSyncContext X acc.1).2.OverallStatus := f1
  have e2 : (FillNodesSyncResult X acc).2.HasDegraded = acc.2.HasDegraded := f2
  have e3 : (FillNodesSyncResult X acc).2.Result.database_status =
      acc.2.Result.database_status := f3
  intro hg
  have hg0 : DatabasesGreen acc.2 := fun d hd => hg d (by rw [e3]; exact hd)
  obtain ⟨i1, i2, i3⟩ := h hg0
  refine ⟨e2.trans i1, ?_, fun hne => ?_⟩
  · rw [e1]
    exact SkewStatus_MaxStatus _ _ (i2.elim Or.inl (fun h4 => Or.inr (Or.inl h4))) hskew
  · rw [e1, i3 (by rw [← e3]; exact hne)]
    rcases hskew with h4 | h4 | h4 | h4 <;> rw [h4] <;> decide

theorem FillResultNoDatabase_quiet (X : TExternal)
    (acc : TSelfCheckRequest × TOverallStateContext) (h : QuietOverall acc.2) :
    QuietOverall (FillResultNoDatabase X acc).2 := by
  unfold FillResultNoDatabase
  split
  · intro hg
    exfalso
    have h1 := hg { name := acc.1.DomainPath } (by
      show _ ∈ acc.2.Result.database_status ++ [_]
      simp)
    exact Status.noConfusion h1
  · exact h

theorem FillResultUnknownDatabase_quiet (X : TExternal)
    (acc : TSelfCheckRequest × TOverallStateContext) (h : QuietOverall acc.2) :
    QuietOverall (FillResultUnknownDatabase X acc).2 := by
  unfold FillResultUnknownDatabase
  split
  · dsimp only
    split
    · obtain ⟨f1, f2, f3, _⟩ := AddIssues_frame
        (FillUnknownStorageContext X acc.1 ((acc.1.StoragePoolState.map Prod.fst).filter
          (fun name => decide (name ∉ acc.1.StoragePoolSeen)))).2.2.IssueRecords
        (TOverallStateContext.UpdateMaxStatus
          { acc.2 with Result.database_status := acc.2.Result.database_status ++
              [({ storage := (FillUnknownStorageContext X acc.1
                    ((acc.1.StoragePoolState.map Prod.fst).filter
                      (fun name => decide (name ∉ acc.1.StoragePoolSeen)))).2.1,
                  overall := (FillUnknownStorageContext X acc.1
                    ((acc.1.StoragePoolState.map Prod.fst).filter
                      (fun name => decide (name ∉ acc.1.StoragePoolSeen)))).2.2.OverallStatus } :
                DatabaseStatus)] }
          (FillUnknownStorageContext X acc.1 ((acc.1.StoragePoolState.map Prod.fst).filter
            (fun name => decide (name ∉ acc.1.StoragePoolSeen)))).2.2.OverallStatus)
      intro hg
      unfold DatabasesGreen at hg
      rw [f3] at hg
      have hg0 : DatabasesGreen acc.2 := fun d hd => hg d (List.mem_append_left _ hd)
      have he := hg _ (List.mem_append_right _ (List.mem_singleton_self _))
      dsimp only at he
      obtain ⟨i1, i2, _⟩ := h hg0
      refine ⟨f2.trans i1, ?_, fun _ => ?_⟩
      · rw [f1]
        exact SkewStatus_MaxStatus _ _ i2 (he ▸ Or.inr (Or.inl rfl))
      · rw [f1]
        show MaxStatus acc.2.Status _ ≠ Status.GREY
        rw [he]
        rcases i2 with h4 | h4 | h4 | h4 <;> rw [h4] <;> decide
    · exact h
  · exact h

theorem FillSelfCheckResult_frame (c : TOverallStateContext) :
    c.FillSelfCheckResult.Status = c.Status ∧
    c.FillSelfCheckResult.HasDegraded = c.HasDegraded ∧
    c.FillSelfCheckResult.Result.database_status = c.Result.database_status := by
  unfold TOverallStateContext.FillSelfCheckResult
  split <;> (try split) <;> exact ⟨rfl, rfl, rfl⟩

/-- When every database status of the response is GREEN, and there is one,
the overall state ends without the degradation flag, with a status GREEN,
YELLOW or RED, and the verdict is EMERGENCY for RED and GOOD otherwise. -/
theorem FillResult_quiet (X : TExternal) (S : TSelfCheckRequest)
    (hg : DatabasesGreen (FillResult X S {}).2)
    (hne : (FillResult X S {}).2.Result.database_status ≠ []) :
    (FillResult X S {}).2.HasDegraded = false ∧
    ((FillResult X S {}).2.Status = Status.GREEN ∨
      (FillResult X S {}).2.Status = Status.YELLOW ∨
      (FillResult X S {}).2.Status = Status.RED) ∧
    (FillResult X S {}).2.Result.self_check_result =
      (if (FillResult X S {}).2.Status = Status.RED then SelfCheck.EMERGENCY
        else SelfCheck.GOOD) := by
  have h0 : QuietDatabases ({} : TOverallStateContext) :=
    fun _ => ⟨rfl, Or.inl rfl, fun h => absurd rfl h⟩
  have hq : ∀ acc : TSelfCheckRequest × TOverallStateContext, QuietDatabases acc.2 →
      QuietOverall (FillResultUnknownDatabase X
        (FillResultNoDatabase X (FillNodesSyncResult X acc))).2 := fun acc h =>
    FillResultUnknownDatabase_quiet X _
      (FillResultNoDatabase_quiet X _ (FillNodesSyncResult_quiet X acc h))
  have hfin : ∀ c : TOverallStateContext, QuietOverall c →
      DatabasesGreen c.FillSelfCheckResult →
      c.FillSelfCheckResult.Result.database_status ≠ [] →
      c.FillSelfCheckResult.HasDegraded = false ∧
      (c.FillSelfCheckResult.Status = Status.GREEN ∨
        c.FillSelfCheckResult.Status = Status.YELLOW ∨
        c.FillSelfCheckResult.Status = Status.RED) ∧
      c.FillSelfCheckResult.Result.self_check_result =
        (if c.FillSelfCheckResult.Status = Status.RED then SelfCheck.EMERGENCY
          else SelfCheck.GOOD) := by
    intro c hc hg2 hne2
    obtain ⟨f1, f2, f3⟩ := FillSelfCheckResult_frame c
    have hg3 : DatabasesGreen c := fun d hd => hg2 d (by rw [f3]; exact hd)
    obtain ⟨i1, i2, i3⟩ := hc hg3
    have i4 := i3 (by rw [← f3]; exact hne2)
    rw [f1, f2]
    refine ⟨i1, ?_, ?_⟩
    · rcases i2 with h4 | h4 | h4 | h4
      · exact absurd h4 i4
      · exact Or.inl h4
      · exact Or.inr (Or.inl h4)
      · exact Or.inr (Or.inr h4)
    · unfold TOverallStateContext.FillSelfCheckResult
      rcases i2 with h4 | h4 | h4 | h4
      · exact absurd h4 i4
      · rw [h4]
        rfl
      · rw [h4, i1]
        rfl
      · rw [h4]
        rfl
  unfold FillResult at hg hne ⊢
  dsimp only at hg hne ⊢
  split at hg
  · rename_i hf
    rw [if_pos hf] at hne ⊢
    exact hfin _ (hq _ (FillDatabaseResult_quiet X _ _ h0)) hg hne
  · rename_i hf
    rw [if_neg hf] at hne ⊢
    exact hfin _ (hq _ (foldl_FillDatabaseResult_quiet X _ _ h0)) hg hne

/-! ### C33: the clock skew scenario -/

/-- C33 (counterexample): a cluster with one database, GREEN in compute and
storage, whose two nodes declare each other as clock skew peer with a skew of
7000 microseconds. The response holds the YELLOW issue "Time difference
exceeded" and the YELLOW node issue "Time difference is more than 5 ms" of the
node visited first, and its verdict is GOOD, not DEGRADED. -/
theorem clock_skew_scenario_verdict_good :
    (ReplyAndPassAway exampleNamingExternal exampleClockSkewCluster).database_status.map
        (fun d => (d.name, d.overall, d.compute.overall, d.storage.overall)) =
      [("/Root/db", Status.GREEN, Status.GREEN, Status.GREEN)] ∧
    (ReplyAndPassAway exampleNamingExternal exampleClockSkewCluster).issue_log.map
        (fun it => (it.status, it.message, it.location.node.id, it.location.peer.id)) =
      [(Status.YELLOW, "Time difference exceeded", 0, 0),
        (Status.YELLOW, "Time difference is more than 5 ms", 1, 2)] ∧
    (ReplyAndPassAway exampleNamingExternal exampleClockSkewCluster).self_check_result =
      SelfCheck.GOOD ∧
    (ReplyAndPassAway exampleNamingExternal exampleClockSkewCluster).self_check_result ≠
      SelfCheck.DEGRADED ∧
    (FillResult exampleNamingExternal exampleClockSkewCluster {}).2.Status = Status.YELLOW ∧
    (FillResult exampleNamingExternal exampleClockSkewCluster {}).2.HasDegraded = false := by
  set_option maxRecDepth 100000 in decide

/-- C33 (amended): for every request state whose response has a database
status and only GREEN ones, the degradation flag stays unset (only a database
with a storage issue sets it; FillNodesSyncResult does not), the overall status
ends GREEN, YELLOW or RED, and the verdict ReplyAndPassAway sends is EMERGENCY
for RED and GOOD otherwise: a YELLOW status that comes from the clock skew
gives the verdict GOOD, and the verdict is never DEGRADED. -/
theorem verdict_good_when_databases_green (X : TExternal) (S : TSelfCheckRequest)
    (hg : DatabasesGreen
      (FillResult X { S with TabletRequests := MarkUnresponsive S.TabletRequests } {}).2)
    (hne : (FillResult X { S with TabletRequests := MarkUnresponsive S.TabletRequests }
      {}).2.Result.database_status ≠ []) :
    (FillResult X { S with TabletRequests := MarkUnresponsive S.TabletRequests }
      {}).2.HasDegraded = false ∧
    ((FillResult X { S with TabletRequests := MarkUnresponsive S.TabletRequests }
        {}).2.Status = Status.GREEN ∨
      (FillResult X { S with TabletRequests := MarkUnresponsive S.TabletRequests }
        {}).2.Status = Status.YELLOW ∨
      (FillResult X { S with TabletRequests := MarkUnresponsive S.TabletRequests }
        {}).2.Status = Status.RED) ∧
    (ReplyAndPassAway X S).self_check_result =
      (if (FillResult X { S with TabletRequests := MarkUnresponsive S.TabletRequests }
          {}).2.Status = Status.RED then SelfCheck.EMERGENCY else SelfCheck.GOOD) ∧
    ((FillResult X { S with TabletRequests := MarkUnresponsive S.TabletRequests }
        {}).2.Status = Status.YELLOW →
      (ReplyAndPassAway X S).self_check_result = SelfCheck.GOOD) ∧
    (ReplyAndPassAway X S).self_check_result ≠ SelfCheck.DEGRADED := by
  obtain ⟨h1, h2, h3⟩ := FillResult_quiet X _ hg hne
  have hv : (ReplyAndPassAway X S).self_check_result =
      (FillResult X { S with TabletRequests := MarkUnresponsive S.TabletRequests }
        {}).2.Result.self_check_result := by
    unfold ReplyAndPassAway
    dsimp only
    split <;> rfl
  refine ⟨h1, h2, hv.trans h3, fun hy => ?_, ?_⟩
  · rw [hv, h3, hy]
    rfl
  · rw [hv, h3]
    split <;> decide

/-- C33 (witness): the cluster of the scenario has one database status, GREEN;
its overall status is YELLOW and its verdict GOOD. -/
theorem verdict_good_when_databases_green_witness :
    DatabasesGreen (FillResult exampleNamingExternal
      { exampleClockSkewCluster with
        TabletRequests := MarkUnresponsive exampleClockSkewCluster.TabletRequests } {}).2 ∧
    (FillResult exampleNamingExternal
      { exampleClockSkewCluster with
        TabletRequests := MarkUnresponsive exampleClockSkewCluster.TabletRequests }
      {}).2.Status = Status.YELLOW ∧
    (ReplyAndPassAway exampleNamingExternal exampleClockSkewCluster).self_check_result =
      SelfCheck.GOOD :=
  ⟨by set_option maxRecDepth 100000 in decide,
    by set_option maxRecDepth 100000 in decide,
    (verdict_good_when_databases_green exampleNamingExternal exampleClockSkewCluster
      (by set_option maxRecDepth 100000 in decide)
      (by set_option maxRecDepth 100000 in decide)).2.2.2.1
      (by set_option maxRecDepth 100000 in decide)⟩

end NHealthCheck
